import Mathlib

/-!
# Object-striping allocator of the LOD layer (`lustre/lod/lod_qos.c`)

A shallow embedding of the allocator: the target health check, the round-robin
table, the avoidance guide, the four allocation policies, the layout parser
and the create orchestrator, followed by theorems about them.

Conventions of the embedding.

* C integers are `Nat`/`Int`; where a fixed width matters the reduction
  modulo `2 ^ 32` or `2 ^ 64` is written out.
* Every function that can hit an assertion (`LASSERT`), read or write outside
  an array, divide by zero or spin forever returns `Option`: `none` stands for
  such a fault, `some r` for a normal return with result `r`.
* External collaborators (statfs RPC, object declaration, random numbers,
  memory allocation, fault injection, the QoS weight helpers, time) are fields
  of `lod_backend`.  Each is indexed by a call counter (`lod_sys.clock`), so a
  backend can answer differently at every call.
-/

namespace Lod

/-! ## Constants -/

def EAGAIN : Int := 11
def ENOMEM : Int := 12
def EEXIST : Int := 17
def ENODEV : Int := 19
def EINVAL : Int := 22
def EFBIG : Int := 27
def ENOSPC : Int := 28
def EROFS : Int := 30
def ERANGE : Int := 34
def ENOBUFS : Int := 105
def ENOTCONN : Int := 107
def EINPROGRESS : Int := 115

/-- Modelled from the spec: the state flags of a statfs reply (`DEGRADED`,
`READONLY`, `NOPRECREATE`, `ENOSPC`, `ENOINO`); the header that numbers the
`OS_STATE_*` bits is absent, the numbering is the one of the wire protocol. -/
def OS_STATE_DEGRADED : Nat := 0x1
def OS_STATE_READONLY : Nat := 0x2
def OS_STATE_NOPRECREATE : Nat := 0x4
def OS_STATE_ENOSPC : Nat := 0x20
def OS_STATE_ENOINO : Nat := 0x40

/-- Modelled from the spec: the pattern bits `RAID0`, `MDT`, `OVERSTRIPING`
and `F_RELEASED` of a layout component; the header that numbers them is
absent, the numbering is the one of the user API. -/
def LOV_PATTERN_RAID0 : Nat := 0x001
def LOV_PATTERN_MDT : Nat := 0x100
def LOV_PATTERN_OVERSTRIPING : Nat := 0x200
def LOV_PATTERN_F_MASK : Nat := 0xffff0000
def LOV_PATTERN_F_RELEASED : Nat := 0x80000000

/-- Modelled from the spec: `lov_pattern` strips the flag half of a pattern
word (the macro is declared in an absent header). -/
def lov_pattern (pattern : Nat) : Nat := pattern &&& (0xffffffff ^^^ LOV_PATTERN_F_MASK)

def LOV_USES_ASSIGNED_STRIPE : Nat := 0
def LOV_USES_DEFAULT_STRIPE : Nat := 1

/-- Stripe offset meaning "no offset requested": `(__u16)-1`. -/
def LOV_OFFSET_DEFAULT : Nat := 0xffff

def LOV_QOS_EMPTY : Nat := 2 ^ 32 - 1

def LOV_CREATE_RESEED_MULT : Nat := 30
def LOV_CREATE_RESEED_MIN : Nat := 2000

def LCME_ID_INVAL : Nat := 0
def LCME_FL_INIT : Nat := 0x10
def LCME_FL_NOSYNC : Nat := 0x20
def LCME_FL_EXTENSION : Nat := 0x40
def LCM_FL_NONE : Nat := 0
def LCM_FL_RDONLY : Nat := 1
def LCM_FL_FLR_MASK : Nat := 0x3

/-! ## Data model -/

structure obd_statfs where
  os_bavail : Nat
  os_bsize : Nat
  os_fprecreated : Nat
  os_state : Nat
deriving DecidableEq

/-- Modelled from the spec: a bitmap indexed by target index (`struct
cfs_bitmap` of libcfs, absent).  `size` is the number of bits allocated. -/
structure cfs_bitmap where
  size : Nat
  data : Nat → Bool

/-- Bit test.  An index beyond `size` is reported as not set. -/
def cfs_bitmap_check (b : cfs_bitmap) (i : Nat) : Bool :=
  decide (i < b.size) && b.data i

/-- Bit set.  An index beyond `size` is a write outside the bitmap. -/
def cfs_bitmap_set (b : cfs_bitmap) (i : Nat) : Option cfs_bitmap :=
  if i < b.size then some { b with data := fun j => if j = i then true else b.data j }
  else none

def CFS_ALLOCATE_BITMAP (n : Nat) : cfs_bitmap := { size := n, data := fun _ => false }

def CFS_RESET_BITMAP (b : cfs_bitmap) : cfs_bitmap := { b with data := fun _ => false }

/-- A storage server (OSS): id and number of targets it holds. -/
structure lu_svr_qos where
  lsq_id : Nat
  lsq_tgt_count : Nat
deriving DecidableEq

/-- A target (OST).  `ltq_svr` is the pointer to the owning server: the
position of that server in `lq_svr_list`. -/
structure lod_tgt_desc where
  ltd_index : Nat
  ltd_active : Bool
  ltd_connecting : Bool
  ltd_statfs : obd_statfs
  ltq_svr : Nat
  ltq_usable : Bool
  ltq_weight : Nat

/-- An array of target indices: `op_array[0 .. op_count)` and its capacity. -/
structure ost_pool where
  op_array : List Nat
  op_size : Nat
deriving DecidableEq

def ost_pool.op_count (p : ost_pool) : Nat := p.op_array.length

structure lu_qos_rr where
  lqr_start_idx : Nat
  lqr_offset_idx : Nat
  lqr_start_count : Int
  lqr_pool : ost_pool
  lqr_dirty : Bool

structure lu_qos where
  lq_svr_list : List lu_svr_qos
  lq_dirty : Bool
  lq_same_space : Bool
  lq_rr : lu_qos_rr

/-- A named pool: its targets and its own round-robin state. -/
structure pool_desc where
  pool_obds : ost_pool
  pool_rr : lu_qos_rr

structure lov_desc where
  ld_tgt_count : Nat
  ld_active_tgt_count : Nat
  ld_default_stripe_count : Nat
  ld_default_stripe_size : Nat
  ld_qos_maxage : Int

/-- The LOD device.  `lod_ostnr` is `lod_ost_descs.ltd_tgtnr`, `lod_ost_bitmap`
the bitmap of existing targets, `lod_ost_descs` the table behind `OST_TGT`. -/
structure lod_device where
  lod_ost_bitmap : cfs_bitmap
  lod_ost_descs : Nat → lod_tgt_desc
  lod_ostnr : Nat
  lod_desc : lov_desc
  lod_qos : lu_qos
  lod_pool_info : ost_pool
  /-- The pool hash: pools looked up by name. -/
  lod_pools : String → Option pool_desc
  lod_osd_max_easize : Nat
  obd_osfs_age : Int

/-- A placeholder object declared on target `ost`; `serial` is the value of
the call counter when it was declared. -/
structure dt_object where
  ost : Nat
  serial : Nat
deriving DecidableEq

structure lu_extent where
  e_start : Nat
  e_end : Nat
deriving DecidableEq

structure lod_layout_component where
  llc_extent : lu_extent
  llc_id : Nat
  llc_flags : Nat
  llc_stripe_size : Nat
  llc_pattern : Nat
  llc_layout_gen : Nat
  llc_stripe_offset : Nat
  llc_stripe_count : Nat
  llc_stripes_allocated : Nat
  llc_timestamp : Nat
  llc_pool : Option String
  llc_ostlist : ost_pool
  llc_stripe : Option (List (Option dt_object))
  llc_ost_indices : Option (List Nat)
deriving DecidableEq

structure lod_mirror_entry where
  lme_start : Nat
  lme_end : Nat
deriving DecidableEq

/-- The object being striped.  `ldo_comp_cnt` is the length of
`ldo_comp_entries` (the empty list is the `NULL` array). -/
structure lod_object where
  ldo_comp_entries : List lod_layout_component
  ldo_mirror_count : Nat
  ldo_mirrors : List lod_mirror_entry
  ldo_is_composite : Bool
  ldo_flr_state : Nat
  ldo_is_foreign : Bool
  ldo_foreign_lov : Option (List Nat)
  ldo_layout_gen : Nat

def lod_object.ldo_comp_cnt (lo : lod_object) : Nat := lo.ldo_comp_entries.length

structure lod_avoid_guide where
  lag_oss_avoid_array : Option (List Nat)
  lag_oaa_count : Nat
  lag_oaa_size : Nat
  lag_ost_avoid_bitmap : Option cfs_bitmap
  lag_ost_avail : Nat

/-- Per-thread scratch: the OST-in-use array (`lti_ea_store` read as `int[]`,
stored as 32-bit patterns), the statfs buffer and the avoidance guide. -/
structure lod_thread_info where
  lti_ea_store : List Nat
  lti_osfs : obd_statfs
  lti_avoid : lod_avoid_guide

/-- A striping hint viewed as `struct lov_user_md_v1` / `_v3`, with the
explicit target list (`lmm_objects[].l_ost_idx`) of the SPECIFIC form.  The
empty pool name is the name whose first byte is NUL. -/
structure lov_user_md where
  lmm_magic : Nat
  lmm_pattern : Nat
  lmm_stripe_size : Nat
  lmm_stripe_count : Nat
  lmm_stripe_offset : Nat
  lmm_layout_gen : Nat
  lmm_pool_name : String
  lmm_objects : List Nat
deriving DecidableEq

/-- One entry of a composite hint, with the sub-blob found at `lcme_offset`. -/
structure lov_comp_md_entry_v1 where
  lcme_id : Nat
  lcme_flags : Nat
  lcme_extent : lu_extent
  lcme_timestamp : Nat
  lcme_blob : lov_user_md
deriving DecidableEq

structure lov_comp_md_v1 where
  lcm_magic : Nat
  lcm_mirror_count : Nat
  lcm_entry_count : Nat
  lcm_flags : Nat
  lcm_layout_gen : Nat
  lcm_entries : List lov_comp_md_entry_v1
deriving DecidableEq

structure lov_foreign_md where
  lfm_magic : Nat
  lfm_length : Nat
  lfm_type : Nat
  lfm_flags : Nat
  lfm_value : List Nat
deriving DecidableEq

/-- The caller's buffer.  The same bytes are read through three C types; each
view is a field.  The first word of every view is the magic, `v1.lmm_magic`. -/
structure lu_buf where
  lb_len : Nat
  v1 : lov_user_md
  comp_v1 : lov_comp_md_v1
  lfm : lov_foreign_md
deriving DecidableEq

/-- External collaborators.  The first argument of every clocked field is the
call counter at the time of the call. -/
structure lod_backend where
  /-- Result of `lod_verify_striping` on a hint (0 = valid). -/
  lod_verify_striping : lu_buf → Int
  /-- Result of `lod_initialize_objects` on the objects of a defined layout. -/
  lod_initialize_objects : Nat → Int
  /-- Reply of `dt_statfs` for a target: errno (0 = success) and buffer. -/
  dt_statfs : Nat → Nat → Nat × obd_statfs
  /-- Result of declaring an object on a target: 0 = success, else errno. -/
  declare_create : Nat → Nat → Nat
  /-- Raw pseudo-random word. -/
  prandom : Nat → Nat
  /-- Fault injection `OBD_FAIL_CHECK(OBD_FAIL_MDS_OSC_PRECREATE)`. -/
  obd_fail_check : Nat → Bool
  /-- Whether a memory allocation fails. -/
  alloc_fails : Nat → Bool
  /-- Wall clock `ktime_get_seconds`. -/
  ktime_get_seconds : Nat → Int
  /-- The QoS "usable" predicate. -/
  lqos_is_usable : lu_qos → Nat → Bool
  /-- Penalty recomputation: result code and the dirty/same-space flags. -/
  lqos_calc_penalties : Nat → Int × Bool × Bool
  /-- Weight of a target as computed by `lqos_calc_weight`. -/
  lqos_weight : Nat → Nat → Nat
  /-- Size of a V3 layout blob with the given number of stripes
  (`lov_mds_md_size(stripes, LOV_MAGIC_V3)`). -/
  lov_mds_md_size : Nat → Nat
  /-- Number of stripes of a V3 layout that fit in a buffer of the given size
  (`lov_mds_md_max_stripe_count(size, LOV_MAGIC_V3)`). -/
  lov_mds_md_max_stripe_count : Nat → Nat
  /-- Size of `struct lov_comp_md_v1`. -/
  sizeof_lov_comp_md_v1 : Nat
  /-- Size of `struct lov_comp_md_entry_v1`. -/
  sizeof_lov_comp_md_entry_v1 : Nat

/-- Whole state seen by one allocating thread. -/
structure lod_sys where
  clock : Nat
  lod : lod_device
  lti : lod_thread_info
  lo : lod_object
  /-- Placeholder objects declared so far. -/
  declared : List dt_object
  /-- Placeholder objects put back (`dt_object_put`). -/
  released : List dt_object

def lod_sys.tick (s : lod_sys) : lod_sys := { s with clock := s.clock + 1 }

def OST_TGT (d : lod_device) (i : Nat) : lod_tgt_desc := d.lod_ost_descs i

def lod_device.set_tgt (d : lod_device) (i : Nat) (t : lod_tgt_desc) : lod_device :=
  { d with lod_ost_descs := fun j => if j = i then t else d.lod_ost_descs j }

/-! ## Loops -/

/-- A counted loop `for (i = i0; i < i0 + fuel; i++)`.  The body returns the
new state and whether it executed `break`; `none` is a fault. -/
def for_loop {σ : Type} (body : Nat → σ → Option (σ × Bool)) : Nat → Nat → σ → Option σ
  | 0, _, s => some s
  | fuel + 1, i, s =>
    match body i s with
    | none => none
    | some (s1, true) => some s1
    | some (s1, false) => for_loop body fuel (i + 1) s1

/-- Array write; a write outside the array is a fault. -/
def array_set {α : Type} (l : List α) (i : Nat) (v : α) : Option (List α) :=
  if i < l.length then some (l.set i v) else none

/-! ## Target health check -/

/-- `lod_statfs_and_check`: returns the result code and the statfs buffer. -/
def lod_statfs_and_check (w : lod_backend) (s : lod_sys) (index : Nat) :
    Option (Int × lod_sys × obd_statfs) :=
  let d := s.lod
  let ost := OST_TGT d index
  let reply := w.dt_statfs s.clock index
  let s := s.tick
  let sfs := reply.2
  let rc : Int := -(reply.1 : Int)
  if rc = 0 ∧ (sfs.os_state &&& OS_STATE_ENOSPC ≠ 0 ∨
      (sfs.os_state &&& OS_STATE_ENOINO ≠ 0 ∧ sfs.os_fprecreated = 0)) then
    some (-ENOSPC, s, sfs)
  else
    let rc := if sfs.os_state &&& OS_STATE_READONLY ≠ 0 then -EROFS else rc
    let rc := if sfs.os_state &&& OS_STATE_NOPRECREATE ≠ 0 then -ENOBUFS else rc
    if rc ≠ 0 ∧ ost.ltd_active = true then
      if 0 < d.lod_desc.ld_active_tgt_count then
        let ost1 := { ost with ltd_active := false,
                               ltd_connecting := if rc = -ENOTCONN then true
                                                 else ost.ltd_connecting }
        let d1 := d.set_tgt index ost1
        let d2 := { d1 with
          lod_desc := { d1.lod_desc with
            ld_active_tgt_count := d1.lod_desc.ld_active_tgt_count - 1 },
          lod_qos := { d1.lod_qos with
            lq_dirty := true,
            lq_rr := { d1.lod_qos.lq_rr with lqr_dirty := true } } }
        some (rc, { s with lod := d2 }, sfs)
      else none
    else if rc = 0 ∧ ost.ltd_active = false then
      if d.lod_desc.ld_active_tgt_count < d.lod_ostnr then
        let ost1 := { ost with ltd_active := true, ltd_connecting := false }
        let d1 := d.set_tgt index ost1
        let d2 := { d1 with
          lod_desc := { d1.lod_desc with
            ld_active_tgt_count := d1.lod_desc.ld_active_tgt_count + 1 },
          lod_qos := { d1.lod_qos with
            lq_dirty := true,
            lq_rr := { d1.lod_qos.lq_rr with lqr_dirty := true } } }
        some (rc, { s with lod := d2 }, sfs)
      else none
    else some (rc, s, sfs)

/-- One step of the sweep of `lod_qos_statfs_update`. -/
def lod_qos_statfs_update_body (w : lod_backend) (osts : ost_pool) (_i : Nat) (s : lod_sys) :
    Option (lod_sys × Bool) :=
  match osts.op_array[_i]? with
  | none => none
  | some idx =>
    let avail := (OST_TGT s.lod idx).ltd_statfs.os_bavail
    match lod_statfs_and_check w s idx with
    | none => none
    | some (rc, s1, sfs) =>
      let s2 := { s1 with lod := s1.lod.set_tgt idx { OST_TGT s1.lod idx with ltd_statfs := sfs } }
      if rc ≠ 0 then some (s2, false)
      else if (OST_TGT s2.lod idx).ltd_statfs.os_bavail ≠ avail then
        some ({ s2 with lod := { s2.lod with lod_qos := { s2.lod.lod_qos with lq_dirty := true } } },
              false)
      else some (s2, false)

/-- `lod_qos_statfs_update`: refresh the statfs data of all targets when the
cached data is older than twice the maximum age. -/
def lod_qos_statfs_update (w : lod_backend) (s : lod_sys) : Option lod_sys :=
  let osts := s.lod.lod_pool_info
  let max_age := w.ktime_get_seconds s.clock - 2 * s.lod.lod_desc.ld_qos_maxage
  let s := s.tick
  if s.lod.obd_osfs_age > max_age then some s
  else
    match for_loop (lod_qos_statfs_update_body w osts) osts.op_count 0 s with
    | none => none
    | some s1 =>
      some { s1.tick with lod := { s1.lod with obd_osfs_age := w.ktime_get_seconds s1.clock } }

/-! ## Pools and the round-robin table -/

/-- Modelled from the spec: pools are looked up by name (`lod_find_pool`, whose
source is absent); a missing pool yields `none`. -/
def lod_find_pool (d : lod_device) (name : String) : Option pool_desc :=
  d.lod_pools name

/-- The pool an allocation works on: the device-wide one (`lod_pool_info`,
`lod_qos.lq_rr`) or a named pool found by `lod_find_pool`. -/
inductive pool_ref where
  | dev
  | named (name : String)
deriving DecidableEq

/-- `pool = lod_find_pool(m, lod_comp->llc_pool)` when `llc_pool != NULL`. -/
def lod_comp_pool_ref (d : lod_device) (llc_pool : Option String) : pool_ref :=
  match llc_pool with
  | none => pool_ref.dev
  | some name =>
    match lod_find_pool d name with
    | none => pool_ref.dev
    | some _ => pool_ref.named name

/-- The array `osts` of the pool. -/
def pool_osts (d : lod_device) : pool_ref → ost_pool
  | pool_ref.dev => d.lod_pool_info
  | pool_ref.named name =>
    match lod_find_pool d name with
    | none => d.lod_pool_info
    | some p => p.pool_obds

/-- The round-robin state `lqr` of the pool. -/
def pool_lqr (d : lod_device) : pool_ref → lu_qos_rr
  | pool_ref.dev => d.lod_qos.lq_rr
  | pool_ref.named name =>
    match lod_find_pool d name with
    | none => d.lod_qos.lq_rr
    | some p => p.pool_rr

/-- Store through the pointer `lqr`. -/
def set_pool_lqr (d : lod_device) (r : pool_ref) (v : lu_qos_rr) : lod_device :=
  match r with
  | pool_ref.dev => { d with lod_qos := { d.lod_qos with lq_rr := v } }
  | pool_ref.named name =>
    match lod_find_pool d name with
    | none => { d with lod_qos := { d.lod_qos with lq_rr := v } }
    | some p =>
      { d with lod_pools := fun n => if n = name then some { p with pool_rr := v }
                                     else d.lod_pools n }

/-- Modelled from the spec: "resize the output sequence to pool_count"
(`lod_ost_pool_extend`, whose source is absent); the allocation can fail. -/
def lod_ost_pool_extend (w : lod_backend) (clk : Nat) (op : ost_pool) (min_count : Nat) :
    Int × ost_pool :=
  if min_count ≤ op.op_size then (0, op)
  else if w.alloc_fails clk then (-ENOMEM, op)
  else (0, { op with op_size := min_count })

/-- The probe `while (op_array[next] != LOV_QOS_EMPTY) next = (next + 1) % op_count;`.
The fuel is the number of slots: once every slot has been seen non-empty the
C loop never ends. -/
def rr_probe (arr : List Nat) : Nat → Nat → Option Nat
  | 0, _ => none
  | fuel + 1, next =>
    match arr[next]? with
    | none => none
    | some v =>
      if v ≠ LOV_QOS_EMPTY then rr_probe arr fuel ((next + 1) % arr.length)
      else some next

structure calc_rr_state where
  op_array : List Nat
  placed : Nat
  j : Nat

/-- Body of the inner loop of `lod_qos_calc_rr` (over the pool slots `i`) for
the server `oss` found at position `oss_ptr` of the server list. -/
def lod_qos_calc_rr_place (d : lod_device) (src_pool : ost_pool) (oss_ptr : Nat)
    (oss : lu_svr_qos) (i : Nat) (st : calc_rr_state) : Option (calc_rr_state × Bool) :=
  match src_pool.op_array[i]? with
  | none => none
  | some t =>
    if cfs_bitmap_check d.lod_ost_bitmap t = false then some (st, false)
    else if (OST_TGT d t).ltq_svr ≠ oss_ptr then some (st, false)
    else if oss.lsq_tgt_count = 0 then none
    else
      let next := (st.j * st.op_array.length) % 2 ^ 32 / oss.lsq_tgt_count
      match rr_probe st.op_array st.op_array.length next with
      | none => none
      | some p =>
        some ({ op_array := st.op_array.set p t, placed := st.placed + 1, j := st.j + 1 }, false)

/-- Body of the outer loop of `lod_qos_calc_rr` (over the server list). -/
def lod_qos_calc_rr_svr (d : lod_device) (src_pool : ost_pool) (k : Nat)
    (st : calc_rr_state) : Option (calc_rr_state × Bool) :=
  match d.lod_qos.lq_svr_list[k]? with
  | none => none
  | some oss =>
    match for_loop (lod_qos_calc_rr_place d src_pool k oss) src_pool.op_count 0
        { st with j := 0 } with
    | none => none
    | some st1 => some (st1, false)

/-- The table and the number of placed targets computed by the placement
loops of `lod_qos_calc_rr`. -/
def lod_qos_calc_rr_table (d : lod_device) (src_pool : ost_pool) : Option calc_rr_state :=
  for_loop (lod_qos_calc_rr_svr d src_pool) d.lod_qos.lq_svr_list.length 0
    { op_array := List.replicate src_pool.op_count LOV_QOS_EMPTY, placed := 0, j := 0 }

/-- `lod_qos_calc_rr(lod, src_pool, lqr)` for the pool `r`. -/
def lod_qos_calc_rr (w : lod_backend) (s : lod_sys) (r : pool_ref) : Option (Int × lod_sys) :=
  let src_pool := pool_osts s.lod r
  let lqr := pool_lqr s.lod r
  if lqr.lqr_dirty = false then
    if lqr.lqr_pool.op_size ≠ 0 then some (0, s) else none
  else
    let real_count := src_pool.op_count
    let ext := lod_ost_pool_extend w s.clock lqr.lqr_pool real_count
    let s := s.tick
    if ext.1 ≠ 0 then some (ext.1, s)
    else
      match lod_qos_calc_rr_table s.lod src_pool with
      | none => none
      | some st =>
        let lqr1 := { lqr with lqr_pool := { ext.2 with op_array := st.op_array } }
        if st.placed ≠ real_count then
          some (-EAGAIN, { s with lod := set_pool_lqr s.lod r { lqr1 with lqr_dirty := true } })
        else
          some (0, { s with lod := set_pool_lqr s.lod r { lqr1 with lqr_dirty := false } })

/-! ## Reservation helpers -/

/-- `lod_qos_declare_object_on`: declare a placeholder object on a target. -/
def lod_qos_declare_object_on (w : lod_backend) (s : lod_sys) (ost_idx : Nat) :
    Option (lod_sys × Except Int dt_object) :=
  if ost_idx < s.lod.lod_ost_bitmap.size then
    let e := w.declare_create s.clock ost_idx
    let o : dt_object := { ost := ost_idx, serial := s.clock }
    let s := s.tick
    if e = 0 then some ({ s with declared := o :: s.declared }, Except.ok o)
    else some (s, Except.error (-(e : Int)))
  else none

/-- `dt_object_put` of a placeholder. -/
def dt_object_put (s : lod_sys) (o : dt_object) : lod_sys :=
  { s with released := o :: s.released }

def min_stripe_count (stripe_count : Nat) (flags : Nat) : Nat :=
  if flags &&& LOV_USES_DEFAULT_STRIPE ≠ 0 then stripe_count - stripe_count / 4
  else stripe_count

/-- `lod_qos_ost_in_use_clear`: make room for `stripes` entries and set them
to `-1`. -/
def lod_qos_ost_in_use_clear (w : lod_backend) (s : lod_sys) (stripes : Nat) : Int × lod_sys :=
  let store := s.lti.lti_ea_store
  let resized : List Nat :=
    if store.length < stripes then
      (if w.alloc_fails s.clock then store else List.replicate stripes 0)
    else store
  let s := if store.length < stripes then s.tick else s
  if resized.length < stripes then (-ENOMEM, s)
  else
    (0, { s with lti := { s.lti with
            lti_ea_store := List.replicate stripes (2 ^ 32 - 1) ++ resized.drop stripes } })

/-- `lod_qos_ost_in_use`: `osts[idx] = ost`. -/
def lod_qos_ost_in_use (s : lod_sys) (idx : Nat) (ost : Nat) : Option lod_sys :=
  match array_set s.lti.lti_ea_store idx ost with
  | none => none
  | some store => some { s with lti := { s.lti with lti_ea_store := store } }

/-- Linear search of `v` in `arr[0 .. n)`, stopping at the first hit; reading
past the end of the array is a fault. -/
def array_scan (arr : List Nat) (n : Nat) (v : Nat) : Option Bool :=
  if (arr.take n).contains v then some true
  else if n ≤ arr.length then some false
  else none

/-- `lod_qos_is_ost_used(env, ost, stripes)`. -/
def lod_qos_is_ost_used (s : lod_sys) (ost : Nat) (stripes : Nat) : Option Bool :=
  array_scan s.lti.lti_ea_store stripes ost

def lod_obj_is_ost_use_skip_cb (comp : lod_layout_component) : Bool :=
  comp.llc_ost_indices.isNone

/-- `lod_obj_is_ost_use_cb`: whether the component holds the target. -/
def lod_obj_is_ost_use_cb (comp : lod_layout_component) (ost : Nat) : Option Bool :=
  match comp.llc_ost_indices with
  | none => none
  | some inds => array_scan inds comp.llc_stripe_count ost

/-- Modelled from the spec: "already used by another component of the same
layout".  The iterator `lod_obj_for_each_stripe` is absent; it is taken to
visit every component in order, to skip those the skip callback rejects and to
stop at the first component whose callback reports a hit. -/
def lod_obj_for_each_stripe_is_used : List lod_layout_component → Nat → Option Bool
  | [], _ => some false
  | comp :: rest, ost =>
    if lod_obj_is_ost_use_skip_cb comp then lod_obj_for_each_stripe_is_used rest ost
    else
      match lod_obj_is_ost_use_cb comp ost with
      | none => none
      | some true => some true
      | some false => lod_obj_for_each_stripe_is_used rest ost

/-- `lod_comp_is_ost_used(env, lo, ost)`. -/
def lod_comp_is_ost_used (lo : lod_object) (ost : Nat) : Option Bool :=
  match lod_obj_for_each_stripe_is_used lo.ldo_comp_entries ost with
  | none => none
  | some hit => some (hit || decide (ost = 2 ^ 32 - 1))

/-- Modelled from the spec: an object is mirrored (FLR) when it is composite
and its mirror state is not "none" (`lod_is_flr`, declared in an absent
header). -/
def lod_is_flr (lo : lod_object) : Bool :=
  lo.ldo_is_composite && decide (lo.ldo_flr_state &&& LCM_FL_FLR_MASK ≠ LCM_FL_NONE)

/-- `lod_avoid_update`: one target fewer is available (32-bit decrement). -/
def lod_avoid_update (lo : lod_object) (lag : lod_avoid_guide) : lod_avoid_guide :=
  if lod_is_flr lo = false then lag
  else { lag with lag_ost_avail := (lag.lag_ost_avail + (2 ^ 32 - 1)) % 2 ^ 32 }

/-- `lod_should_avoid_ost(lo, lag, index)`. -/
def lod_should_avoid_ost (d : lod_device) (lag : lod_avoid_guide) (index : Nat) : Option Bool :=
  let ost := OST_TGT d index
  if cfs_bitmap_check d.lod_ost_bitmap index = false then some true
  else if lag.lag_ost_avail = 0 then some false
  else
    let used : Option Bool :=
      if lag.lag_oaa_count = 0 then some false
      else
        match d.lod_qos.lq_svr_list[ost.ltq_svr]?, lag.lag_oss_avoid_array with
        | some lsq, some arr => array_scan arr lag.lag_oaa_count lsq.lsq_id
        | _, _ => none
    match used with
    | none => none
    | some false => some false
    | some true =>
      match lag.lag_ost_avoid_bitmap with
      | none => none
      | some bitmap => some (cfs_bitmap_check bitmap index)

/-- Buffers and counters of one allocation: the caller's `stripe` and
`ost_indices` arrays, the number of stripes placed so far and the
`overstriped` flag. -/
structure alloc_state where
  sys : lod_sys
  stripe : List (Option dt_object)
  ost_indices : List Nat
  stripe_idx : Nat
  overstriped : Bool

/-- The four statements every policy runs once an object `o` is declared on
`ost_idx`: `lod_qos_ost_in_use(env, stripe_idx, ost_idx); stripe[stripe_idx] = o;
ost_indices[stripe_idx] = ost_idx; stripe_idx++`. -/
def alloc_state.commit (a : alloc_state) (ost_idx : Nat) (o : dt_object) : Option alloc_state :=
  match lod_qos_ost_in_use a.sys a.stripe_idx ost_idx with
  | none => none
  | some s1 =>
    match array_set a.stripe a.stripe_idx (some o),
          array_set a.ost_indices a.stripe_idx ost_idx with
    | some stripe, some ost_indices =>
      some { a with sys := s1, stripe := stripe, ost_indices := ost_indices,
                    stripe_idx := a.stripe_idx + 1 }
    | _, _ => none

/-- `lod_check_and_reserve_ost`. -/
def lod_check_and_reserve_ost (w : lod_backend) (a : alloc_state) (comp_idx : Nat)
    (ost_idx : Nat) (speed : Nat) : Option (Int × alloc_state) :=
  match a.sys.lo.ldo_comp_entries[comp_idx]? with
  | none => none
  | some lod_comp =>
  match lod_statfs_and_check w a.sys ost_idx with
  | none => none
  | some (rc, s0, sfs) =>
    let s1 := { s0 with lti := { s0.lti with lti_osfs := sfs } }
    let skip : Option (Int × alloc_state) := some (rc, { a with sys := s1 })
    if rc ≠ 0 then skip
    else if sfs.os_fprecreated = 0 ∧ speed = 0 then skip
    else if sfs.os_state &&& OS_STATE_DEGRADED ≠ 0 ∧ speed < 2 then skip
    else
      match (if speed = 0 then lod_comp_is_ost_used s1.lo ost_idx else some false) with
      | none => none
      | some true => skip
      | some false =>
      match (if speed < 2 then lod_should_avoid_ost s1.lod s1.lti.lti_avoid ost_idx
             else some false) with
      | none => none
      | some true => skip
      | some false =>
      match lod_qos_is_ost_used s1 ost_idx a.stripe_idx with
      | none => none
      | some used =>
        if used = true ∧ lod_comp.llc_pattern &&& LOV_PATTERN_OVERSTRIPING = 0 then skip
        else
          match lod_qos_declare_object_on w s1 ost_idx with
          | none => none
          | some (s2, Except.error e) => some (e, { a with sys := s2, overstriped := a.overstriped || used })
          | some (s2, Except.ok o) =>
            let s3 := { s2 with lti := { s2.lti with
                          lti_avoid := lod_avoid_update s2.lo s2.lti.lti_avoid } }
            match alloc_state.commit { a with sys := s3, overstriped := a.overstriped || used }
                ost_idx o with
            | none => none
            | some a1 => some (rc, a1)

/-! ## Round-robin policy -/

/-- Modelled from the spec: `prandom_u32_max(n)` draws from `U[0, n)` (the
kernel helper scales a raw 32-bit word; it yields 0 for `n = 0`). -/
def prandom_u32_max (w : lod_backend) (clk : Nat) (n : Nat) : Nat :=
  (w.prandom clk % 2 ^ 32) * n / 2 ^ 32

/-- Value of an unsigned 32-bit word stored into an `int`. -/
def to_int32 (v : Nat) : Int :=
  if v % 2 ^ 32 < 2 ^ 31 then ((v % 2 ^ 32 : Nat) : Int) else ((v % 2 ^ 32 : Nat) : Int) - 2 ^ 32

def lod_sys.set_lqr (s : lod_sys) (r : pool_ref) (v : lu_qos_rr) : lod_sys :=
  { s with lod := set_pool_lqr s.lod r v }

/-- Store into `lo->ldo_comp_entries[comp_idx]`. -/
def lod_sys.set_comp (s : lod_sys) (comp_idx : Nat) (c : lod_layout_component) : lod_sys :=
  { s with lo := { s.lo with ldo_comp_entries := s.lo.ldo_comp_entries.set comp_idx c } }

/-- `llc_pattern &= ~LOV_PATTERN_OVERSTRIPING` on a 32-bit pattern word. -/
def clear_overstriping (pattern : Nat) : Nat :=
  pattern &&& (0xffffffff ^^^ LOV_PATTERN_OVERSTRIPING)

/-- `stripes_per_ost`: 1, or `(llc_stripe_count - 1) / op_count + 1` when the
pattern has `OVERSTRIPING`; the division is a fault for an empty pool. -/
def stripes_per_ost (lod_comp : lod_layout_component) (op_count : Nat) : Option Nat :=
  if lod_comp.llc_pattern &&& LOV_PATTERN_OVERSTRIPING ≠ 0 then
    if op_count = 0 then none
    else some ((((lod_comp.llc_stripe_count + (2 ^ 32 - 1)) % 2 ^ 32) / op_count + 1) % 2 ^ 32)
  else some 1

/-- The cursor update at the head of `lod_alloc_rr`: reseed, or wrap and
precess. -/
def lod_alloc_rr_reseed (w : lod_backend) (s : lod_sys) (r : pool_ref)
    (stripe_count stripe_count_min : Nat) : Option lod_sys :=
  let osts := pool_osts s.lod r
  let lqr := pool_lqr s.lod r
  let start_count := lqr.lqr_start_count - 1
  if start_count ≤ 0 then
    let start_idx := prandom_u32_max w s.clock osts.op_count
    let s := s.tick
    some (s.set_lqr r { lqr with
      lqr_start_idx := start_idx,
      lqr_start_count :=
        to_int32 ((LOV_CREATE_RESEED_MIN / max osts.op_count 1 + LOV_CREATE_RESEED_MULT) *
                  max osts.op_count 1) })
  else if stripe_count_min ≥ osts.op_count ∨ lqr.lqr_start_idx > osts.op_count then
    if osts.op_count = 0 then none
    else
      let offset_idx :=
        if stripe_count > 1 ∧ osts.op_count % stripe_count ≠ 1 then
          (lqr.lqr_offset_idx + 1) % 2 ^ 32
        else lqr.lqr_offset_idx
      some (s.set_lqr r { lqr with
        lqr_start_count := start_count,
        lqr_start_idx := lqr.lqr_start_idx % osts.op_count,
        lqr_offset_idx := offset_idx })
  else some (s.set_lqr r { lqr with lqr_start_count := start_count })

structure rr_state where
  a : alloc_state
  ost_connecting : Bool

/-- Body of the candidate loop of `lod_alloc_rr`. -/
def lod_alloc_rr_body (w : lod_backend) (r : pool_ref) (comp_idx stripe_count speed : Nat)
    (_i : Nat) (st : rr_state) : Option (rr_state × Bool) :=
  if ¬ (st.a.stripe_idx < stripe_count) then some (st, true)
  else
    let osts := pool_osts st.a.sys.lod r
    let lqr := pool_lqr st.a.sys.lod r
    if osts.op_count = 0 then none
    else
      let array_idx := (lqr.lqr_start_idx + lqr.lqr_offset_idx) % 2 ^ 32 % osts.op_count
      let s1 := st.a.sys.set_lqr r { lqr with lqr_start_idx := (lqr.lqr_start_idx + 1) % 2 ^ 32 }
      match lqr.lqr_pool.op_array[array_idx]? with
      | none => none
      | some ost_idx =>
        if ost_idx = LOV_QOS_EMPTY ∨ cfs_bitmap_check s1.lod.lod_ost_bitmap ost_idx = false then
          some ({ st with a := { st.a with sys := s1 } }, false)
        else
          let fail := w.obd_fail_check s1.clock
          let s2 := s1.tick
          if fail = true ∧ ost_idx = 0 then some ({ st with a := { st.a with sys := s2 } }, false)
          else
            match lod_check_and_reserve_ost w { st.a with sys := s2 } comp_idx ost_idx speed with
            | none => none
            | some (rc, a1) =>
              some ({ a := a1,
                      ost_connecting := st.ost_connecting ||
                        (decide (rc ≠ 0) && (OST_TGT a1.sys.lod ost_idx).ltd_connecting) }, false)

/-- One pass of `repeat_find` in `lod_alloc_rr` at the given `speed`; the pass
"breaks" when no further pass follows. -/
def lod_alloc_rr_pass (w : lod_backend) (r : pool_ref) (comp_idx stripe_count : Nat)
    (stripe_count_min ost_start_idx_temp : Nat) (speed : Nat) (st : rr_state) :
    Option (rr_state × Bool) :=
  match st.a.sys.lo.ldo_comp_entries[comp_idx]? with
  | none => none
  | some lod_comp =>
    let osts := pool_osts st.a.sys.lod r
    match stripes_per_ost lod_comp osts.op_count with
    | none => none
    | some per_ost =>
      match for_loop (lod_alloc_rr_body w r comp_idx stripe_count speed)
          ((osts.op_count * per_ost) % 2 ^ 32) 0 st with
      | none => none
      | some st1 =>
        if speed < 2 ∧ st1.a.stripe_idx < stripe_count_min then
          let lqr := pool_lqr st1.a.sys.lod r
          some ({ a := { st1.a with
                    sys := st1.a.sys.set_lqr r { lqr with lqr_start_idx := ost_start_idx_temp } },
                  ost_connecting := false }, false)
        else some (st1, true)

/-- `lod_alloc_rr`.  The result carries the buffers and the number of stripes
placed (`stripe_idx`). -/
def lod_alloc_rr (w : lod_backend) (s : lod_sys) (stripe : List (Option dt_object))
    (ost_indices : List Nat) (flags : Nat) (comp_idx : Nat) : Option (Int × alloc_state) :=
  match s.lo.ldo_comp_entries[comp_idx]? with
  | none => none
  | some lod_comp =>
    let stripe_count := lod_comp.llc_stripe_count
    let stripe_count_min := min_stripe_count stripe_count flags
    let r := lod_comp_pool_ref s.lod lod_comp.llc_pool
    let a0 : alloc_state :=
      { sys := s, stripe := stripe, ost_indices := ost_indices, stripe_idx := 0,
        overstriped := false }
    match lod_qos_calc_rr w s r with
    | none => none
    | some (rc, s1) =>
      if rc ≠ 0 then some (rc, { a0 with sys := s1 })
      else
        let clr := lod_qos_ost_in_use_clear w s1 stripe_count
        if clr.1 ≠ 0 then some (clr.1, { a0 with sys := clr.2 })
        else
          match lod_alloc_rr_reseed w clr.2 r stripe_count stripe_count_min with
          | none => none
          | some s3 =>
            let ost_start_idx_temp := (pool_lqr s3.lod r).lqr_start_idx
            match for_loop
                (lod_alloc_rr_pass w r comp_idx stripe_count stripe_count_min ost_start_idx_temp)
                3 0 { a := { a0 with sys := s3 }, ost_connecting := false } with
            | none => none
            | some st =>
              match st.a.sys.lo.ldo_comp_entries[comp_idx]? with
              | none => none
              | some comp1 =>
                let comp2 :=
                  if st.a.overstriped = false then
                    { comp1 with llc_pattern := clear_overstriping comp1.llc_pattern }
                  else comp1
                if st.a.stripe_idx ≠ 0 then
                  some (0, { st.a with
                    sys := st.a.sys.set_comp comp_idx
                      { comp2 with llc_stripe_count := st.a.stripe_idx } })
                else
                  some (if st.ost_connecting then -EINPROGRESS else -ENOSPC,
                        { st.a with sys := st.a.sys.set_comp comp_idx comp2 })

/-! ## Explicit-list policy -/

/-- First position `i < fuel + i0` (from `i0` on) with `arr[i] = v`:
`some (some i)` when found, `some none` when the scan ends without a hit,
`none` when it reads past the end of the array. -/
def array_find (arr : List Nat) (v : Nat) : Nat → Nat → Option (Option Nat)
  | 0, _ => some none
  | fuel + 1, i =>
    match arr[i]? with
    | none => none
    | some x => if x = v then some (some i) else array_find arr v fuel (i + 1)

structure ost_list_state where
  a : alloc_state
  array_idx : Nat
  rc : Int

/-- Body of the allocation loop of `lod_alloc_ost_list`. -/
def lod_alloc_ost_list_body (w : lod_backend) (lod_comp : lod_layout_component)
    (_i : Nat) (st : ost_list_state) : Option (ost_list_state × Bool) :=
  let next_idx := (st.array_idx + 1) % lod_comp.llc_stripe_count
  match lod_comp.llc_ostlist.op_array[st.array_idx]? with
  | none => none
  | some ost_idx =>
    if cfs_bitmap_check st.a.sys.lod.lod_ost_bitmap ost_idx = false then
      some ({ st with rc := -ENODEV }, true)
    else
      match lod_qos_is_ost_used st.a.sys ost_idx st.a.stripe_idx with
      | none => none
      | some used =>
        if used = true ∧ lod_comp.llc_pattern &&& LOV_PATTERN_OVERSTRIPING = 0 then
          some ({ st with rc := -EINVAL }, true)
        else
          match lod_statfs_and_check w st.a.sys ost_idx with
          | none => none
          | some (rc, s0, sfs) =>
            let s1 := { s0 with lti := { s0.lti with lti_osfs := sfs } }
            if rc < 0 then some ({ st with a := { st.a with sys := s1 }, rc := rc }, true)
            else
              match lod_qos_declare_object_on w s1 ost_idx with
              | none => none
              | some (s2, Except.error e) =>
                some ({ st with a := { st.a with sys := s2 }, rc := e }, true)
              | some (s2, Except.ok o) =>
                match alloc_state.commit { st.a with sys := s2 } ost_idx o with
                | none => none
                | some a1 => some ({ a := a1, array_idx := next_idx, rc := rc }, false)

/-- `lod_alloc_ost_list`. -/
def lod_alloc_ost_list (w : lod_backend) (s : lod_sys) (stripe : List (Option dt_object))
    (ost_indices : List Nat) (comp_idx : Nat) : Option (Int × alloc_state) :=
  match s.lo.ldo_comp_entries[comp_idx]? with
  | none => none
  | some lod_comp0 =>
    let a0 : alloc_state :=
      { sys := s, stripe := stripe, ost_indices := ost_indices, stripe_idx := 0,
        overstriped := false }
    if lod_comp0.llc_ostlist.op_array = [] then none
    else
      let clr := lod_qos_ost_in_use_clear w s lod_comp0.llc_stripe_count
      if clr.1 < 0 then some (clr.1, { a0 with sys := clr.2 })
      else
        let lod_comp :=
          if lod_comp0.llc_stripe_offset = LOV_OFFSET_DEFAULT then
            { lod_comp0 with llc_stripe_offset := lod_comp0.llc_ostlist.op_array.headD 0 }
          else lod_comp0
        let s1 := clr.2.set_comp comp_idx lod_comp
        match array_find lod_comp.llc_ostlist.op_array lod_comp.llc_stripe_offset
            lod_comp.llc_stripe_count 0 with
        | none => none
        | some none => some (-EINVAL, { a0 with sys := s1 })
        | some (some array_idx) =>
          match for_loop (lod_alloc_ost_list_body w lod_comp) lod_comp.llc_stripe_count 0
              { a := { a0 with sys := s1 }, array_idx := array_idx, rc := clr.1 } with
          | none => none
          | some st => some (st.rc, st.a)

/-! ## Offset-anchored policy -/

structure specific_state where
  a : alloc_state
  array_idx : Nat
  /-- Set when the loop left through `GOTO(out, rc = 0)`. -/
  done : Bool

/-- Body of the candidate loop of `lod_alloc_specific`. -/
def lod_alloc_specific_body (w : lod_backend) (osts : ost_pool)
    (lod_comp : lod_layout_component) (speed : Nat) (i : Nat) (st : specific_state) :
    Option (specific_state × Bool) :=
  let next_idx := (st.array_idx + 1) % osts.op_count
  match osts.op_array[st.array_idx]? with
  | none => none
  | some ost_idx =>
    if cfs_bitmap_check st.a.sys.lod.lod_ost_bitmap ost_idx = false then
      some ({ st with array_idx := next_idx }, false)
    else
      let fail := w.obd_fail_check st.a.sys.clock
      let s1 := st.a.sys.tick
      if fail = true ∧ ost_idx = 0 then
        some ({ st with a := { st.a with sys := s1 }, array_idx := next_idx }, false)
      else
        match lod_qos_is_ost_used s1 ost_idx st.a.stripe_idx with
        | none => none
        | some used =>
          if used = true ∧ lod_comp.llc_pattern &&& LOV_PATTERN_OVERSTRIPING = 0 then
            some ({ st with a := { st.a with sys := s1 }, array_idx := next_idx }, false)
          else
            let a1 : alloc_state :=
              { st.a with sys := s1, overstriped := st.a.overstriped || used }
            match (if speed = 0 ∧ i ≠ 0 then lod_comp_is_ost_used s1.lo ost_idx
                   else some false) with
            | none => none
            | some true => some ({ st with a := a1, array_idx := next_idx }, false)
            | some false =>
              match lod_statfs_and_check w s1 ost_idx with
              | none => none
              | some (rc, s2, sfs) =>
                let s3 := { s2 with lti := { s2.lti with lti_osfs := sfs } }
                if rc ≠ 0 then
                  some ({ st with a := { a1 with sys := s3 }, array_idx := next_idx }, false)
                else if i ≠ 0 ∧ sfs.os_fprecreated = 0 ∧ speed = 0 then
                  some ({ st with a := { a1 with sys := s3 }, array_idx := next_idx }, false)
                else
                  match lod_qos_declare_object_on w s3 ost_idx with
                  | none => none
                  | some (s4, Except.error _) =>
                    some ({ st with a := { a1 with sys := s4 }, array_idx := next_idx }, false)
                  | some (s4, Except.ok o) =>
                    match alloc_state.commit { a1 with sys := s4 } ost_idx o with
                    | none => none
                    | some a2 =>
                      if a2.stripe_idx = lod_comp.llc_stripe_count then
                        some ({ a := a2, array_idx := st.array_idx, done := true }, true)
                      else some ({ st with a := a2, array_idx := next_idx }, false)

structure specific_pass_state where
  a : alloc_state
  /-- Result code once the function has reached `out`. -/
  out : Option Int

/-- One pass of `repeat_find` in `lod_alloc_specific` at the given `speed`. -/
def lod_alloc_specific_pass (w : lod_backend) (r : pool_ref) (comp_idx : Nat)
    (speed : Nat) (st : specific_pass_state) : Option (specific_pass_state × Bool) :=
  match st.a.sys.lo.ldo_comp_entries[comp_idx]? with
  | none => none
  | some lod_comp =>
    let osts := pool_osts st.a.sys.lod r
    match array_find osts.op_array lod_comp.llc_stripe_offset osts.op_count 0 with
    | none => none
    | some none => some ({ st with out := some (-EINVAL) }, true)
    | some (some array_idx) =>
      match stripes_per_ost lod_comp osts.op_count with
      | none => none
      | some per_ost =>
        match for_loop (lod_alloc_specific_body w osts lod_comp speed)
            ((osts.op_count * per_ost) % 2 ^ 32) 0
            { a := st.a, array_idx := array_idx, done := false } with
        | none => none
        | some st1 =>
          if st1.done then some ({ a := st1.a, out := some 0 }, true)
          else if speed < 2 then some ({ a := st1.a, out := none }, false)
          else some ({ a := st1.a, out := none }, true)

/-- `lod_alloc_specific`. -/
def lod_alloc_specific (w : lod_backend) (s : lod_sys) (stripe : List (Option dt_object))
    (ost_indices : List Nat) (_flags : Nat) (comp_idx : Nat) : Option (Int × alloc_state) :=
  match s.lo.ldo_comp_entries[comp_idx]? with
  | none => none
  | some lod_comp =>
    let a0 : alloc_state :=
      { sys := s, stripe := stripe, ost_indices := ost_indices, stripe_idx := 0,
        overstriped := false }
    let clr := lod_qos_ost_in_use_clear w s lod_comp.llc_stripe_count
    if clr.1 ≠ 0 then some (clr.1, { a0 with sys := clr.2 })
    else
      let r := lod_comp_pool_ref clr.2.lod lod_comp.llc_pool
      match for_loop (lod_alloc_specific_pass w r comp_idx) 3 0
          { a := { a0 with sys := clr.2 }, out := none } with
      | none => none
      | some st =>
        match st.out with
        | some rc => some (rc, st.a)
        | none =>
          let rc : Int := if st.a.stripe_idx = 0 then -ENOSPC else -EFBIG
          match st.a.sys.lo.ldo_comp_entries[comp_idx]? with
          | none => none
          | some comp1 =>
            if rc = 0 ∧ st.a.overstriped = false then
              let comp2 := { comp1 with llc_pattern := clear_overstriping comp1.llc_pattern }
              some (rc, { st.a with sys := st.a.sys.set_comp comp_idx comp2 })
            else some (rc, st.a)

/-! ## QoS-weighted policy -/

/-- Modelled from the spec: `lu_prandom_u64_max(max)` draws from `U[0, max)`
and yields 0 for `max = 0` (the helper is absent). -/
def lu_prandom_u64_max (w : lod_backend) (clk : Nat) (ep_ro : Nat) : Nat :=
  if ep_ro = 0 then 0 else (w.prandom clk % 2 ^ 64) % ep_ro

/-- Sum of the weights of the usable live targets. -/
def qos_total_weight (d : lod_device) : Nat :=
  ((List.range d.lod_ost_bitmap.size).map (fun i =>
      if cfs_bitmap_check d.lod_ost_bitmap i && (OST_TGT d i).ltq_usable
      then (OST_TGT d i).ltq_weight else 0)).sum % 2 ^ 64

/-- Modelled from the spec: after a pick `lqos_recalc_weight` marks the picked
target non-usable (one-shot), recomputes the weights and recomputes
`total_weight` as the sum over the usable targets (the helper is absent). -/
def lqos_recalc_weight (w : lod_backend) (s : lod_sys) (idx : Nat) : lod_sys × Nat :=
  let d := s.lod
  let d1 := d.set_tgt idx { OST_TGT d idx with ltq_usable := false }
  let d2 : lod_device :=
    { d1 with lod_ost_descs := fun i =>
        if cfs_bitmap_check d1.lod_ost_bitmap i
        then { d1.lod_ost_descs i with ltq_weight := w.lqos_weight s.clock i }
        else d1.lod_ost_descs i }
  ({ s.tick with lod := d2 }, qos_total_weight d2)

structure qos_scan_state where
  sys : lod_sys
  total_weight : Nat
  good_osts : Nat

/-- Body of the loop of `lod_alloc_qos` that finds the valid candidates. -/
def lod_alloc_qos_scan_body (w : lod_backend) (osts : ost_pool) (i : Nat)
    (st : qos_scan_state) : Option (qos_scan_state × Bool) :=
  match osts.op_array[i]? with
  | none => none
  | some idx =>
    if cfs_bitmap_check st.sys.lod.lod_ost_bitmap idx = false then some (st, false)
    else
      let s0 := { st.sys with
        lod := st.sys.lod.set_tgt idx { OST_TGT st.sys.lod idx with ltq_usable := false } }
      match lod_statfs_and_check w s0 idx with
      | none => none
      | some (rc, s1, sfs) =>
        let s2 := { s1 with lti := { s1.lti with lti_osfs := sfs } }
        if rc ≠ 0 then some ({ st with sys := s2 }, false)
        else if sfs.os_state &&& OS_STATE_DEGRADED ≠ 0 then some ({ st with sys := s2 }, false)
        else
          let fail := w.obd_fail_check s2.clock
          let s3 := s2.tick
          if fail = true ∧ idx = 0 then some ({ st with sys := s3 }, false)
          else
            let weight := w.lqos_weight s3.clock idx
            let s4 := { s3.tick with
              lod := s3.lod.set_tgt idx
                { OST_TGT s3.lod idx with ltq_usable := true, ltq_weight := weight } }
            some ({ sys := s4, total_weight := (st.total_weight + weight) % 2 ^ 64,
                    good_osts := st.good_osts + 1 }, false)

structure qos_pick_state where
  a : alloc_state
  total_weight : Nat
  cur_weight : Nat
  rc : Int

/-- Body of the linear scan of one weighted draw of `lod_alloc_qos`. -/
def lod_alloc_qos_pick_body (w : lod_backend) (osts : ost_pool) (comp_idx : Nat)
    (rand : Nat) (i : Nat) (st : qos_pick_state) : Option (qos_pick_state × Bool) :=
  match osts.op_array[i]?, st.a.sys.lo.ldo_comp_entries[comp_idx]? with
  | some idx, some lod_comp =>
    match lod_should_avoid_ost st.a.sys.lod st.a.sys.lti.lti_avoid idx with
    | none => none
    | some true => some (st, false)
    | some false =>
      let ost := OST_TGT st.a.sys.lod idx
      if ost.ltq_usable = false then some (st, false)
      else
        let cur_weight := (st.cur_weight + ost.ltq_weight) % 2 ^ 64
        let st1 := { st with cur_weight := cur_weight }
        if cur_weight < rand then some (st1, false)
        else
          match lod_comp_is_ost_used st.a.sys.lo idx with
          | none => none
          | some comp_used =>
            if comp_used = true ∧ lod_comp.llc_pattern &&& LOV_PATTERN_OVERSTRIPING = 0 then
              some (st1, false)
            else
              match lod_qos_is_ost_used st.a.sys idx st.a.stripe_idx with
              | none => none
              | some used =>
                if used = true ∧ lod_comp.llc_pattern &&& LOV_PATTERN_OVERSTRIPING = 0 then
                  some (st1, false)
                else
                  let a1 : alloc_state := { st.a with overstriped := st.a.overstriped || used }
                  match lod_qos_declare_object_on w st.a.sys idx with
                  | none => none
                  | some (s2, Except.error _) =>
                    some ({ st1 with a := { a1 with sys := s2 } }, false)
                  | some (s2, Except.ok o) =>
                    let s3 := { s2 with lti := { s2.lti with
                                  lti_avoid := lod_avoid_update s2.lo s2.lti.lti_avoid } }
                    match alloc_state.commit { a1 with sys := s3 } idx o with
                    | none => none
                    | some a2 =>
                      let rw := lqos_recalc_weight w a2.sys idx
                      some ({ a := { a2 with sys := rw.1 },
                              total_weight := rw.2, cur_weight := cur_weight, rc := 0 }, true)
  | _, _ => none

/-- One round of the `while (nfound < stripe_count)` loop of `lod_alloc_qos`:
one random draw and one scan. -/
def lod_alloc_qos_round (w : lod_backend) (osts : ost_pool) (comp_idx stripe_count : Nat)
    (_n : Nat) (st : qos_pick_state) : Option (qos_pick_state × Bool) :=
  if ¬ (st.a.stripe_idx < stripe_count) then some (st, true)
  else
    let rand := lu_prandom_u64_max w st.a.sys.clock st.total_weight
    let st0 : qos_pick_state :=
      { st with a := { st.a with sys := st.a.sys.tick }, cur_weight := 0, rc := -ENOSPC }
    match for_loop (lod_alloc_qos_pick_body w osts comp_idx rand) osts.op_count 0 st0 with
    | none => none
    | some st1 => if st1.rc ≠ 0 then some (st1, true) else some (st1, false)

/-- Body of the loop that releases the placeholders after a shortfall. -/
def lod_alloc_qos_release_body (i : Nat) (a : alloc_state) : Option (alloc_state × Bool) :=
  match a.stripe[i]? with
  | some (some o) =>
    some ({ a with sys := dt_object_put a.sys o, stripe := a.stripe.set i none }, false)
  | _ => none

/-- `lod_alloc_qos`. -/
def lod_alloc_qos (w : lod_backend) (s : lod_sys) (stripe : List (Option dt_object))
    (ost_indices : List Nat) (flags : Nat) (comp_idx : Nat) : Option (Int × alloc_state) :=
  match s.lo.ldo_comp_entries[comp_idx]? with
  | none => none
  | some lod_comp =>
    let a0 : alloc_state :=
      { sys := s, stripe := stripe, ost_indices := ost_indices, stripe_idx := 0,
        overstriped := false }
    let stripe_count := lod_comp.llc_stripe_count
    let stripe_count_min := min_stripe_count stripe_count flags
    if stripe_count_min < 1 then some (-EINVAL, a0)
    else
      let r := lod_comp_pool_ref s.lod lod_comp.llc_pool
      let osts := pool_osts s.lod r
      if w.lqos_is_usable s.lod.lod_qos s.lod.lod_desc.ld_active_tgt_count = false then
        some (-EAGAIN, a0)
      else
        match stripes_per_ost lod_comp osts.op_count with
        | none => none
        | some per_ost =>
          let pen := w.lqos_calc_penalties s.clock
          let s1 := { s.tick with
            lod := { s.lod with lod_qos := { s.lod.lod_qos with
                       lq_dirty := pen.2.1, lq_same_space := pen.2.2 } } }
          if pen.1 ≠ 0 then some (pen.1, { a0 with sys := s1 })
          else
            let clr := lod_qos_ost_in_use_clear w s1 lod_comp.llc_stripe_count
            if clr.1 ≠ 0 then some (clr.1, { a0 with sys := clr.2 })
            else
              match for_loop (lod_alloc_qos_scan_body w osts) osts.op_count 0
                  { sys := clr.2, total_weight := 0, good_osts := 0 } with
              | none => none
              | some sc =>
                if sc.good_osts < stripe_count_min then some (-EAGAIN, { a0 with sys := sc.sys })
                else if per_ost = 0 then none
                else
                  let stripe_count :=
                    if stripe_count / per_ost > sc.good_osts
                    then (sc.good_osts * per_ost) % 2 ^ 32 else stripe_count
                  match for_loop (lod_alloc_qos_round w osts comp_idx stripe_count)
                      stripe_count 0
                      { a := { a0 with sys := sc.sys }, total_weight := sc.total_weight,
                        cur_weight := 0, rc := clr.1 } with
                  | none => none
                  | some st =>
                    if st.a.stripe_idx ≠ stripe_count then
                      match for_loop lod_alloc_qos_release_body st.a.stripe_idx 0 st.a with
                      | none => none
                      | some a1 =>
                        let d := a1.sys.lod
                        some (-EAGAIN, { a1 with sys := { a1.sys with
                          lod := { d with lod_qos := { d.lod_qos with
                                     lq_dirty := true, lq_same_space := false } } } })
                    else
                      match st.a.sys.lo.ldo_comp_entries[comp_idx]? with
                      | none => none
                      | some comp1 =>
                        if st.rc = 0 ∧ st.a.overstriped = false then
                          let comp2 :=
                            { comp1 with llc_pattern := clear_overstriping comp1.llc_pattern }
                          some (st.rc, { st.a with sys := st.a.sys.set_comp comp_idx comp2 })
                        else some (st.rc, st.a)

/-! ## Stripe count -/

/-- `lod_get_stripe_count(lod, lo, stripe_count, overstriping)`; the count is
a 16-bit parameter, the sizes are `unsigned int`. -/
def lod_get_stripe_count (w : lod_backend) (lod : lod_device) (lo : lod_object)
    (stripe_count : Nat) (overstriping : Bool) : Nat :=
  let easize := lod.lod_osd_max_easize
  let stripe_count :=
    if stripe_count = 0 then lod.lod_desc.ld_default_stripe_count % 2 ^ 16 else stripe_count
  let stripe_count := if stripe_count = 0 then 1 else stripe_count
  let stripe_count :=
    if stripe_count > lod.lod_desc.ld_active_tgt_count ∧ overstriping = false
    then lod.lod_desc.ld_active_tgt_count % 2 ^ 16 else stripe_count
  let easize :=
    if lo.ldo_is_composite then
      let header_sz : Nat :=
        (w.sizeof_lov_comp_md_v1 + w.sizeof_lov_comp_md_entry_v1 * lo.ldo_comp_cnt) % 2 ^ 32
      let total_comp_sz : Nat :=
        (lo.ldo_comp_entries.map (fun c => w.lov_mds_md_size c.llc_stripe_count)).sum % 2 ^ 32
      let init_comp_sz : Nat :=
        (lo.ldo_comp_entries.map (fun c =>
          if c.llc_flags &&& LCME_FL_INIT ≠ 0 then w.lov_mds_md_size c.llc_stripe_count
          else 0)).sum % 2 ^ 32
      let total_comp_sz : Nat := if init_comp_sz > 0 then init_comp_sz else total_comp_sz
      let header_sz : Nat := (header_sz + total_comp_sz) % 2 ^ 32
      if easize > header_sz then easize - header_sz else 0
    else easize
  let max_stripes := w.lov_mds_md_max_stripe_count easize
  if stripe_count < max_stripes then stripe_count else max_stripes

/-! ## Avoidance guide -/

/-- `lod_prepare_avoidance`: result code and the guide. -/
def lod_prepare_avoidance (w : lod_backend) (s : lod_sys) : Int × lod_sys :=
  let tgtnr := s.lod.lod_ostnr
  let lag0 := s.lti.lti_avoid
  let lag1 : lod_avoid_guide := { lag0 with lag_ost_avail := tgtnr, lag_oaa_count := 0 }
  let lag2 : lod_avoid_guide :=
    if lag1.lag_oss_avoid_array.isSome ∧ lag1.lag_oaa_size < tgtnr then
      { lag1 with lag_oss_avoid_array := none, lag_oaa_size := 0 }
    else lag1
  let lag3 : lod_avoid_guide :=
    match lag2.lag_ost_avoid_bitmap with
    | none => lag2
    | some b =>
      if tgtnr ≤ b.size then { lag2 with lag_ost_avoid_bitmap := some (CFS_RESET_BITMAP b) }
      else { lag2 with lag_ost_avoid_bitmap := none }
  let need_bitmap := lag3.lag_ost_avoid_bitmap.isNone
  let need_oss := lag3.lag_oss_avoid_array.isNone
  let bitmap_fails := need_bitmap && w.alloc_fails s.clock
  let s1 := if need_bitmap then s.tick else s
  if bitmap_fails then (-ENOMEM, { s1 with lti := { s1.lti with lti_avoid := lag3 } })
  else
    let oss_fails := need_oss && w.alloc_fails s1.clock
    let s2 := if need_oss then s1.tick else s1
    if oss_fails then (-ENOMEM, { s2 with lti := { s2.lti with lti_avoid := lag3 } })
    else
      let lag4 : lod_avoid_guide :=
        if need_oss then
          { lag3 with lag_oss_avoid_array := some (List.replicate tgtnr 0), lag_oaa_size := tgtnr }
        else lag3
      let lag5 : lod_avoid_guide :=
        if need_bitmap then { lag4 with lag_ost_avoid_bitmap := some (CFS_ALLOCATE_BITMAP tgtnr) }
        else lag4
      (0, { s2 with lti := { s2.lti with lti_avoid := lag5 } })

/-- Modelled from the spec: "a component's id encodes its mirror"
(`mirror_id_of`, declared in an absent header: bits 16..30 of the id). -/
def mirror_id_of (id : Nat) : Nat := (id &&& 0x7FFF0000) >>> 16

/-- Modelled from the spec: two extents overlap (`lu_extent_is_overlapped`,
declared in an absent header). -/
def lu_extent_is_overlapped (e1 e2 : lu_extent) : Bool :=
  decide (e1.e_start < e2.e_end) && decide (e2.e_start < e1.e_end)

/-- Body of the loop over the stripes `j` of a conflicting component. -/
def lod_collect_avoidance_stripe (d : lod_device) (comp : lod_layout_component) (j : Nat)
    (lag : lod_avoid_guide) : Option (lod_avoid_guide × Bool) :=
  match comp.llc_ost_indices, lag.lag_ost_avoid_bitmap with
  | some inds, some bitmap =>
    match inds[j]? with
    | none => none
    | some idx =>
      let ost := OST_TGT d idx
      if cfs_bitmap_check bitmap ost.ltd_index then some (lag, false)
      else
        match cfs_bitmap_set bitmap ost.ltd_index, d.lod_qos.lq_svr_list[ost.ltq_svr]?,
              lag.lag_oss_avoid_array with
        | some bitmap1, some lsq, some arr =>
          let lag1 : lod_avoid_guide :=
            { lag with lag_ost_avoid_bitmap := some bitmap1,
                       lag_ost_avail := (lag.lag_ost_avail + (2 ^ 32 - 1)) % 2 ^ 32 }
          match array_scan arr lag.lag_oaa_count lsq.lsq_id with
          | none => none
          | some true => some (lag1, false)
          | some false =>
            match array_set arr lag.lag_oaa_count lsq.lsq_id with
            | none => none
            | some arr1 =>
              some ({ lag1 with lag_oss_avoid_array := some arr1,
                                lag_oaa_count := lag.lag_oaa_count + 1 }, false)
        | _, _, _ => none
  | _, _ => none

/-- Body of the loop over the components `c` of one mirror
(`lod_foreach_mirror_comp`, taken to visit the components `lme_start ..
lme_end` of the mirror). -/
def lod_collect_avoidance_comp (d : lod_device) (lo : lod_object)
    (lod_comp : lod_layout_component) (c : Nat) (lag : lod_avoid_guide) :
    Option (lod_avoid_guide × Bool) :=
  match lo.ldo_comp_entries[c]? with
  | none => none
  | some comp =>
    if lu_extent_is_overlapped comp.llc_extent lod_comp.llc_extent = false ∨
        comp.llc_stripe.isNone then some (lag, false)
    else
      match for_loop (lod_collect_avoidance_stripe d comp) comp.llc_stripe_count 0 lag with
      | none => none
      | some lag1 => some (lag1, false)

/-- Body of the loop over the mirrors `i`. -/
def lod_collect_avoidance_mirror (d : lod_device) (lo : lod_object)
    (lod_comp : lod_layout_component) (i : Nat) (lag : lod_avoid_guide) :
    Option (lod_avoid_guide × Bool) :=
  match lo.ldo_mirrors[i]? with
  | none => none
  | some lme =>
    match lo.ldo_comp_entries[lme.lme_start]? with
    | none => none
    | some comp =>
      if comp.llc_id ≠ LCME_ID_INVAL ∧ mirror_id_of comp.llc_id = mirror_id_of lod_comp.llc_id
      then some (lag, false)
      else
        match for_loop (lod_collect_avoidance_comp d lo lod_comp)
            (lme.lme_end + 1 - lme.lme_start) lme.lme_start lag with
        | none => none
        | some lag1 => some (lag1, false)

/-- `lod_collect_avoidance(lo, lag, comp_idx)`. -/
def lod_collect_avoidance (d : lod_device) (lo : lod_object) (lag : lod_avoid_guide)
    (comp_idx : Nat) : Option lod_avoid_guide :=
  match lo.ldo_comp_entries[comp_idx]? with
  | none => none
  | some lod_comp =>
    for_loop (lod_collect_avoidance_mirror d lo lod_comp) lo.ldo_mirror_count 0 lag

/-! ## Create orchestrator -/

/-- Body of the rollback loop of `lod_qos_prep_create`: put back every
placeholder left in `stripe`. -/
def lod_qos_prep_create_put (stripe : List (Option dt_object)) (i : Nat) (s : lod_sys) :
    Option (lod_sys × Bool) :=
  match stripe[i]? with
  | none => none
  | some none => some (s, false)
  | some (some o) => some (dt_object_put s o, false)

structure declare_state where
  sys : lod_sys
  rc : Int

/-- Body of the loop of `lod_qos_prep_create` that declares the objects of a
predefined striping. -/
def lod_qos_prep_create_declare (w : lod_backend) (llc_stripe : List (Option dt_object))
    (i : Nat) (st : declare_state) : Option (declare_state × Bool) :=
  match llc_stripe[i]? with
  | some (some o) =>
    let rc : Int := -((w.declare_create st.sys.clock o.ost : Nat) : Int)
    let s1 := st.sys.tick
    if rc < 0 then some ({ sys := s1, rc := rc }, true)
    else some ({ sys := s1, rc := rc }, false)
  | _ => none

/-- The policy selection of `lod_qos_prep_create`. -/
def lod_qos_prep_create_alloc (w : lod_backend) (s : lod_sys)
    (lod_comp : lod_layout_component) (stripe : List (Option dt_object))
    (ost_indices : List Nat) (flag : Nat) (comp_idx : Nat) : Option (Int × alloc_state) :=
  if lod_comp.llc_ostlist.op_array ≠ [] then
    lod_alloc_ost_list w s stripe ost_indices comp_idx
  else if lod_comp.llc_stripe_offset = LOV_OFFSET_DEFAULT then
    let prep := lod_prepare_avoidance w s
    if prep.1 ≠ 0 then
      some (prep.1, { sys := prep.2, stripe := stripe, ost_indices := ost_indices,
                      stripe_idx := 0, overstriped := false })
    else
      match lod_collect_avoidance prep.2.lod prep.2.lo prep.2.lti.lti_avoid comp_idx with
      | none => none
      | some lag =>
        let s1 := { prep.2 with lti := { prep.2.lti with lti_avoid := lag } }
        match lod_alloc_qos w s1 stripe ost_indices flag comp_idx with
        | none => none
        | some (rc, a) =>
          if rc = -EAGAIN then lod_alloc_rr w a.sys a.stripe a.ost_indices flag comp_idx
          else some (rc, a)
  else lod_alloc_specific w s stripe ost_indices flag comp_idx

/-- `lod_qos_prep_create(env, lo, attr, th, comp_idx)`. -/
def lod_qos_prep_create (w : lod_backend) (s : lod_sys) (comp_idx : Nat) :
    Option (Int × lod_sys) :=
  let flag := LOV_USES_ASSIGNED_STRIPE
  match s.lo.ldo_comp_entries[comp_idx]? with
  | none => none
  | some lod_comp =>
    if lod_comp.llc_flags &&& LCME_FL_EXTENSION ≠ 0 then none
    else if lod_comp.llc_pattern &&& LOV_PATTERN_F_RELEASED ≠ 0 then some (0, s)
    else if lov_pattern lod_comp.llc_pattern = LOV_PATTERN_MDT then some (0, s)
    else
      match lod_comp.llc_stripe with
      | none =>
        if lod_comp.llc_stripe_count = 0 then none
        else
          match lod_qos_statfs_update w s with
          | none => none
          | some s1 =>
            let stripe_len := lod_get_stripe_count w s1.lod s1.lo lod_comp.llc_stripe_count
                (decide (lod_comp.llc_pattern &&& LOV_PATTERN_OVERSTRIPING ≠ 0))
            if stripe_len = 0 then some (-ERANGE, s1)
            else
              let comp1 := { lod_comp with llc_stripe_count := stripe_len }
              let s2 := s1.set_comp comp_idx comp1
              if w.alloc_fails s2.clock then some (-ENOMEM, s2.tick)
              else if w.alloc_fails (s2.clock + 1) then some (-ENOMEM, s2.tick.tick)
              else
                let s3 := s2.tick.tick
                let stripe : List (Option dt_object) := List.replicate stripe_len none
                let ost_indices : List Nat := List.replicate stripe_len 0
                match lod_qos_prep_create_alloc w s3 comp1 stripe ost_indices flag comp_idx with
                | none => none
                | some (rc, a) =>
                  match a.sys.lo.ldo_comp_entries[comp_idx]? with
                  | none => none
                  | some comp2 =>
                    if rc < 0 then
                      match for_loop (lod_qos_prep_create_put a.stripe) stripe_len 0 a.sys with
                      | none => none
                      | some s4 =>
                        some (rc, s4.set_comp comp_idx { comp2 with llc_stripe_count := 0 })
                    else
                      some (rc, a.sys.set_comp comp_idx
                        { comp2 with llc_stripe := some a.stripe,
                                     llc_ost_indices := some a.ost_indices,
                                     llc_stripes_allocated := stripe_len })
      | some llc_stripe =>
        match for_loop (lod_qos_prep_create_declare w llc_stripe) lod_comp.llc_stripe_count 0
            { sys := s, rc := 0 } with
        | none => none
        | some st =>
          match st.sys.lo.ldo_comp_entries[comp_idx]? with
          | none => none
          | some comp1 =>
            some (st.rc, st.sys.set_comp comp_idx
              { comp1 with llc_flags := comp1.llc_flags &&& (0xffffffff ^^^ LCME_FL_INIT) })

/-! ## Layout parser -/

/-- Modelled from the spec: the magic words of the hint encodings V1, V3,
SPECIFIC, COMP_V1 and FOREIGN and the "defined" bit `LOV_MAGIC_DEFINED`; the
header that numbers them is absent, the numbering is the one of the user
API. -/
def LOV_USER_MAGIC_V1 : Nat := 0x0BD10BD0
def LOV_USER_MAGIC_V3 : Nat := 0x0BD30BD0
def LOV_USER_MAGIC_SPECIFIC : Nat := 0x0BD50BD0
def LOV_USER_MAGIC_COMP_V1 : Nat := 0x0BD60BD0
def LOV_USER_MAGIC_FOREIGN : Nat := 0x0BD70BD0
def LOV_MAGIC_DEFINED : Nat := 0x10000000
/-- Modelled from the spec: the component flags a hint may carry (declared in
an absent header). -/
def LCME_CL_COMP_FLAGS : Nat := 0x6 ||| 0x20 ||| 0x40

def swab16 (x : Nat) : Nat := ((x &&& 0xff) <<< 8) ||| ((x >>> 8) &&& 0xff)

def swab32 (x : Nat) : Nat :=
  ((x &&& 0xff) <<< 24) ||| ((x &&& 0xff00) <<< 8) ||| ((x >>> 8) &&& 0xff00) |||
    ((x >>> 24) &&& 0xff)

def swab64 (x : Nat) : Nat := (swab32 (x &&& 0xffffffff) <<< 32) ||| swab32 ((x >>> 32) &&& 0xffffffff)

/-- Modelled from the spec: "swab the structure accordingly"
(`lustre_swab_lov_user_md_v1` / `_v3`, absent): every multi-byte field is
byte-swapped at its width. -/
def lustre_swab_lov_user_md (v : lov_user_md) : lov_user_md :=
  { v with lmm_magic := swab32 v.lmm_magic, lmm_pattern := swab32 v.lmm_pattern,
           lmm_stripe_size := swab32 v.lmm_stripe_size,
           lmm_stripe_count := swab16 v.lmm_stripe_count,
           lmm_stripe_offset := swab16 v.lmm_stripe_offset,
           lmm_layout_gen := swab16 v.lmm_layout_gen }

/-- Modelled from the spec: `lustre_swab_lov_user_md_objects` (absent) swabs
the target index of each of the first `stripe_count` objects. -/
def lustre_swab_lov_user_md_objects (objs : List Nat) (stripe_count : Nat) : List Nat :=
  (objs.take stripe_count).map swab32 ++ objs.drop stripe_count

/-- Swab of one sub-blob of a composite hint, by its (swabbed) magic. -/
def lustre_swab_lov_user_md_blob (v : lov_user_md) : lov_user_md :=
  let v1 := lustre_swab_lov_user_md v
  if v1.lmm_magic = LOV_USER_MAGIC_SPECIFIC then
    { v1 with lmm_objects := lustre_swab_lov_user_md_objects v1.lmm_objects v1.lmm_stripe_count }
  else v1

/-- Modelled from the spec: `lustre_swab_lov_comp_md_v1` (absent) swabs the
header, every entry and every sub-blob. -/
def lustre_swab_lov_comp_md_v1 (c : lov_comp_md_v1) : lov_comp_md_v1 :=
  { lcm_magic := swab32 c.lcm_magic, lcm_mirror_count := swab16 c.lcm_mirror_count,
    lcm_entry_count := swab16 c.lcm_entry_count, lcm_flags := swab16 c.lcm_flags,
    lcm_layout_gen := swab32 c.lcm_layout_gen,
    lcm_entries := c.lcm_entries.map (fun e =>
      { lcme_id := swab32 e.lcme_id, lcme_flags := swab32 e.lcme_flags,
        lcme_extent := { e_start := swab64 e.lcme_extent.e_start,
                         e_end := swab64 e.lcme_extent.e_end },
        lcme_timestamp := swab64 e.lcme_timestamp,
        lcme_blob := lustre_swab_lov_user_md_blob e.lcme_blob }) }

/-- Modelled from the spec: the pool inherited from the previous components
(`lod_layout_get_pool`, absent): the pool of the first component that names
one, the empty name otherwise. -/
def lod_layout_get_pool (entries : List lod_layout_component) : String :=
  match entries.find? (fun c => c.llc_pool.isSome) with
  | some c => c.llc_pool.getD ""
  | none => ""

/-- Modelled from the spec: "free any existing components"
(`lod_free_comp_entries`, absent). -/
def lod_free_comp_entries (lo : lod_object) : lod_object :=
  { lo with ldo_comp_entries := [], ldo_mirrors := [], ldo_mirror_count := 0,
            ldo_is_composite := false }

def lod_free_foreign_lov (lo : lod_object) : lod_object :=
  { lo with ldo_foreign_lov := none, ldo_is_foreign := false }

def lod_layout_component_zero : lod_layout_component :=
  { llc_extent := { e_start := 0, e_end := 0 }, llc_id := 0, llc_flags := 0,
    llc_stripe_size := 0, llc_pattern := 0, llc_layout_gen := 0, llc_stripe_offset := 0,
    llc_stripe_count := 0, llc_stripes_allocated := 0, llc_timestamp := 0, llc_pool := none,
    llc_ostlist := { op_array := [], op_size := 0 }, llc_stripe := none,
    llc_ost_indices := none }

/-- Modelled from the spec: `lod_alloc_comp_entries` (absent) allocates zeroed
component entries and a zeroed mirror table; it can run out of memory. -/
def lod_alloc_comp_entries (w : lod_backend) (s : lod_sys) (mirror_cnt comp_cnt : Nat) :
    Int × lod_sys :=
  if w.alloc_fails s.clock then (-ENOMEM, s.tick)
  else
    (0, { s.tick with lo := { s.lo with
       ldo_mirrors := List.replicate mirror_cnt { lme_start := 0, lme_end := 0 },
       ldo_mirror_count := mirror_cnt,
       ldo_comp_entries := List.replicate comp_cnt lod_layout_component_zero } })

/-- Modelled from the spec: "verify offset is a member" of the pool
(`lod_check_index_in_pool`, absent). -/
def lod_check_index_in_pool (idx : Nat) (pool : pool_desc) : Int :=
  if pool.pool_obds.op_array.contains idx then 0 else -2

def pool_tgt_count (pool : pool_desc) : Nat := pool.pool_obds.op_count

/-- Modelled from the spec: the explicit target list of a SPECIFIC hint is
copied into the component (`lod_comp_copy_ost_lists`, absent); the copy can
run out of memory. -/
def lod_comp_copy_ost_lists (w : lod_backend) (clk : Nat) (lod_comp : lod_layout_component)
    (v3 : lov_user_md) : Int × lod_layout_component :=
  if w.alloc_fails clk then (-ENOMEM, lod_comp)
  else
    (0, { lod_comp with llc_ostlist :=
            { op_array := v3.lmm_objects.take v3.lmm_stripe_count,
              op_size := v3.lmm_stripe_count } })

/-- One iteration of the per-component loop of `lod_qos_parse_config`, for the
component `lod_comp0 = &lo->ldo_comp_entries[i]` and its sub-blob `v1` (with
the entry of the composite header when the hint is composite). -/
def lod_qos_parse_config_comp (w : lod_backend) (def_pool : String) (i : Nat) (s : lod_sys)
    (lod_comp0 : lod_layout_component) (v1 : lov_user_md)
    (entry : Option lov_comp_md_entry_v1) : Option (declare_state × Bool) :=
  let lod_comp1 :=
    match entry with
    | some e => { lod_comp0 with llc_extent := e.lcme_extent,
                                 llc_flags := e.lcme_flags &&& LCME_CL_COMP_FLAGS }
    | none => lod_comp0
  let is_v3 := decide (v1.lmm_magic = LOV_USER_MAGIC_V3 ∨ v1.lmm_magic = LOV_USER_MAGIC_SPECIFIC)
  let pool_name0 : Option String :=
    if is_v3 = true ∧ v1.lmm_pool_name ≠ "" then some v1.lmm_pool_name else none
  let copy : Int × lod_layout_component :=
    if is_v3 = true ∧ v1.lmm_magic = LOV_USER_MAGIC_SPECIFIC
    then lod_comp_copy_ost_lists w s.clock lod_comp1 v1 else (0, lod_comp1)
  let s1 := if is_v3 = true ∧ v1.lmm_magic = LOV_USER_MAGIC_SPECIFIC then s.tick else s
  if copy.1 ≠ 0 then
    some ({ sys := { s1 with lo := lod_free_comp_entries (s1.set_comp i copy.2).lo },
            rc := copy.1 }, true)
  else
    let lod_comp2 := copy.2
    let pool_name : Option String :=
      if pool_name0.isNone ∧ def_pool ≠ "" then some def_pool else pool_name0
    let pattern := if v1.lmm_pattern = 0 then LOV_PATTERN_RAID0 else v1.lmm_pattern
    if lov_pattern pattern ≠ LOV_PATTERN_RAID0 ∧ lov_pattern pattern ≠ LOV_PATTERN_MDT ∧
        lov_pattern pattern ≠ (LOV_PATTERN_RAID0 ||| LOV_PATTERN_OVERSTRIPING) then
      some ({ sys := { s1 with lo := lod_free_comp_entries (s1.set_comp i lod_comp2).lo },
              rc := -EINVAL }, true)
    else
      let lod_comp3 : lod_layout_component :=
        { lod_comp2 with
          llc_pattern := pattern,
          llc_stripe_size :=
            if v1.lmm_stripe_size ≠ 0 then v1.lmm_stripe_size
            else s1.lod.lod_desc.ld_default_stripe_size,
          llc_stripe_count :=
            if v1.lmm_stripe_count ≠ 0 ∨ lov_pattern pattern = LOV_PATTERN_MDT
            then v1.lmm_stripe_count else s1.lod.lod_desc.ld_default_stripe_count,
          llc_stripe_offset := v1.lmm_stripe_offset,
          llc_pool := pool_name }
      if lov_pattern lod_comp3.llc_pattern = LOV_PATTERN_MDT ∧ lod_comp3.llc_stripe_count ≠ 0
      then none
      else
        let s2 := s1.set_comp i lod_comp3
        match pool_name with
        | none => some ({ sys := s2, rc := 0 }, false)
        | some name =>
          match lod_find_pool s2.lod name with
          | none => some ({ sys := s2, rc := 0 }, false)
          | some pool =>
            if lod_comp3.llc_stripe_offset ≠ LOV_OFFSET_DEFAULT ∧
                lod_check_index_in_pool lod_comp3.llc_stripe_offset pool < 0 then
              some ({ sys := { s2 with lo := lod_free_comp_entries s2.lo }, rc := -EINVAL },
                    true)
            else if lod_comp3.llc_stripe_count > pool_tgt_count pool ∧
                lod_comp3.llc_pattern &&& LOV_PATTERN_OVERSTRIPING = 0 then
              some ({ sys := s2.set_comp i
                        { lod_comp3 with llc_stripe_count := pool_tgt_count pool },
                      rc := 0 }, false)
            else some ({ sys := s2, rc := 0 }, false)

/-- Body of the per-component loop of `lod_qos_parse_config`.  The state is
the system and the result code once `free_comp` has been reached. -/
def lod_qos_parse_config_body (w : lod_backend) (buf : lu_buf) (def_pool : String) (i : Nat)
    (st : declare_state) : Option (declare_state × Bool) :=
  let s := st.sys
  let lo := s.lo
  match lo.ldo_comp_entries[i]?,
        (if lo.ldo_is_composite then (buf.comp_v1.lcm_entries[i]?).map (fun e => (e.lcme_blob, some e))
         else some (buf.v1, none)) with
  | some lod_comp0, some (v1, entry) =>
    lod_qos_parse_config_comp w def_pool i s lod_comp0 v1 entry
  | _, _ => none

/-- Modelled from the spec: a foreign layout is kept verbatim
(`lod_alloc_foreign_lov` and the copy, absent); the allocation can fail. -/
def lod_alloc_foreign_lov (w : lod_backend) (s : lod_sys) (lfm : lov_foreign_md) :
    Int × lod_sys :=
  if w.alloc_fails s.clock then (-ENOMEM, s.tick)
  else
    (0, { s.tick with lo := { s.lo with
            ldo_foreign_lov := some (lfm.lfm_magic :: lfm.lfm_length :: lfm.lfm_type ::
                                     lfm.lfm_flags :: lfm.lfm_value),
            ldo_is_foreign := true } })

/-- Modelled from the spec: `lod_striping_free_nolock` (absent) drops the
components and the foreign blob of the object. -/
def lod_striping_free_nolock (lo : lod_object) : lod_object :=
  lod_free_comp_entries (lod_free_foreign_lov lo)

def lod_comp_inited (c : lod_layout_component) : Bool := decide (c.llc_flags &&& LCME_FL_INIT ≠ 0)

/-- Runs of consecutive components with the same mirror id. -/
def lod_fill_mirrors_runs : List lod_layout_component → Nat → Option Nat →
    List lod_mirror_entry → List lod_mirror_entry
  | [], _, _, acc => acc.reverse
  | c :: rest, idx, cur, acc =>
    match cur, acc with
    | some id, m :: acc1 =>
      if mirror_id_of c.llc_id = id then
        lod_fill_mirrors_runs rest (idx + 1) cur ({ m with lme_end := idx } :: acc1)
      else
        lod_fill_mirrors_runs rest (idx + 1) (some (mirror_id_of c.llc_id))
          ({ lme_start := idx, lme_end := idx } :: m :: acc1)
    | _, _ =>
      lod_fill_mirrors_runs rest (idx + 1) (some (mirror_id_of c.llc_id))
        ({ lme_start := idx, lme_end := idx } :: acc)

/-- Modelled from the spec: the mirror table maps each mirror to its run of
components (`lod_fill_mirrors`, absent).  Consecutive components with the same
mirror id form one mirror; the number of runs must be `ldo_mirror_count`. -/
def lod_fill_mirrors (lo : lod_object) : Int × lod_object :=
  if lod_is_flr lo = false then (0, lo)
  else
    let runs := lod_fill_mirrors_runs lo.ldo_comp_entries 0 none []
    if runs.length ≠ lo.ldo_mirror_count then (-EINVAL, lo)
    else (0, { lo with ldo_mirrors := runs })

/-- Body of the per-component loop of `lod_use_defined_striping`. -/
def lod_use_defined_striping_body (w : lod_backend) (buf : lu_buf) (i : Nat)
    (st : declare_state) : Option (declare_state × Bool) :=
  let s := st.sys
  let mo := s.lo
  match mo.ldo_comp_entries[i]?,
        (if mo.ldo_is_composite then (buf.comp_v1.lcm_entries[i]?).map (fun e => (e.lcme_blob, some e))
         else some ({ buf.v1 with lmm_magic :=
                        buf.v1.lmm_magic &&& (0xffffffff ^^^ LOV_MAGIC_DEFINED) }, none)) with
  | some lod_comp0, some (v1, entry) =>
    let lod_comp1 :=
      match entry with
      | some e =>
        { lod_comp0 with
          llc_extent := e.lcme_extent, llc_flags := e.lcme_flags,
          llc_timestamp := if e.lcme_flags &&& LCME_FL_NOSYNC ≠ 0 then e.lcme_timestamp
                           else lod_comp0.llc_timestamp,
          llc_id := e.lcme_id }
      | none => lod_comp0
    if mo.ldo_is_composite = true ∧ lod_comp1.llc_id = LCME_ID_INVAL then
      some ({ sys := s.set_comp i lod_comp1, rc := -EINVAL }, true)
    else if v1.lmm_magic ≠ LOV_USER_MAGIC_V1 ∧ v1.lmm_magic ≠ LOV_USER_MAGIC_V3 then
      some ({ sys := s.set_comp i lod_comp1, rc := -EINVAL }, true)
    else
      let pool_name : Option String :=
        if v1.lmm_magic = LOV_USER_MAGIC_V3 ∧ v1.lmm_pool_name ≠ "" then some v1.lmm_pool_name
        else none
      let lod_comp2 : lod_layout_component :=
        { lod_comp1 with
          llc_pattern := v1.lmm_pattern, llc_stripe_size := v1.lmm_stripe_size,
          llc_stripe_count := v1.lmm_stripe_count, llc_layout_gen := v1.lmm_layout_gen }
      let lod_comp3 : lod_layout_component :=
        { lod_comp2 with
          llc_stripe_offset :=
            if mo.ldo_is_composite = true ∧ lod_comp_inited lod_comp2 = false
            then lod_comp2.llc_layout_gen else lod_comp2.llc_stripe_offset,
          llc_pool := pool_name }
      if (mo.ldo_is_composite = false ∨ lod_comp_inited lod_comp3 = true) ∧
          lod_comp3.llc_pattern &&& LOV_PATTERN_F_RELEASED = 0 ∧
          lod_comp3.llc_pattern &&& LOV_PATTERN_MDT = 0 then
        let rc := w.lod_initialize_objects s.clock
        let objs := v1.lmm_objects.take lod_comp3.llc_stripe_count
        let lod_comp4 : lod_layout_component :=
          if rc = 0 then
            { lod_comp3 with
              llc_stripe := some (objs.map (fun t => some { ost := t, serial := s.clock })),
              llc_ost_indices := some objs,
              llc_stripes_allocated := lod_comp3.llc_stripe_count }
          else lod_comp3
        some ({ sys := s.tick.set_comp i lod_comp4, rc := rc }, decide (rc ≠ 0))
      else some ({ sys := s.set_comp i lod_comp3, rc := 0 }, false)
  | _, _ => none

/-- `lod_use_defined_striping(env, mo, buf)`. -/
def lod_use_defined_striping (w : lod_backend) (s : lod_sys) (buf : lu_buf) :
    Option (Int × lod_sys) :=
  let s0 := { s with lo := lod_striping_free_nolock s.lo }
  let magic := buf.v1.lmm_magic &&& (0xffffffff ^^^ LOV_MAGIC_DEFINED)
  if magic ≠ LOV_USER_MAGIC_V1 ∧ magic ≠ LOV_USER_MAGIC_V3 ∧ magic ≠ LOV_USER_MAGIC_COMP_V1 ∧
      magic ≠ LOV_USER_MAGIC_FOREIGN then some (-EINVAL, s0)
  else if magic = LOV_USER_MAGIC_COMP_V1 ∧ buf.comp_v1.lcm_entry_count = 0 then
    some (-EINVAL, s0)
  else if magic = LOV_USER_MAGIC_FOREIGN then
    if buf.lb_len < 16 ∨ buf.lb_len < 16 + buf.lfm.lfm_length then
      some (-EINVAL, { s0 with lo := lod_striping_free_nolock s0.lo })
    else
      let r := lod_alloc_foreign_lov w s0 buf.lfm
      if r.1 ≠ 0 then some (r.1, { r.2 with lo := lod_striping_free_nolock r.2.lo })
      else some (0, r.2)
  else
    let composite := decide (magic = LOV_USER_MAGIC_COMP_V1)
    let comp_cnt := if composite then buf.comp_v1.lcm_entry_count else 1
    let mirror_cnt := if composite then (buf.comp_v1.lcm_mirror_count + 1) % 2 ^ 16 else 0
    let s1 := { s0 with lo := { s0.lo with
      ldo_flr_state := if composite then buf.comp_v1.lcm_flags &&& LCM_FL_FLR_MASK
                       else s0.lo.ldo_flr_state,
      ldo_is_composite := composite,
      ldo_layout_gen := buf.v1.lmm_layout_gen } }
    let al := lod_alloc_comp_entries w s1 mirror_cnt comp_cnt
    if al.1 ≠ 0 then some (al.1, al.2)
    else
      match for_loop (lod_use_defined_striping_body w buf) comp_cnt 0 { sys := al.2, rc := 0 } with
      | none => none
      | some st =>
        if st.rc ≠ 0 then some (st.rc, { st.sys with lo := lod_striping_free_nolock st.sys.lo })
        else
          let fm := lod_fill_mirrors st.sys.lo
          if fm.1 ≠ 0 then some (fm.1, { st.sys with lo := lod_striping_free_nolock fm.2 })
          else some (0, { st.sys with lo := fm.2 })

/-- The part of `lod_qos_parse_config` after the magic has been recognised
(and the buffer swabbed): allocate the components and fill them in. -/
def lod_qos_parse_config_comps (w : lod_backend) (s : lod_sys) (buf : lu_buf) (magic : Nat)
    (def_pool : String) : Option (Int × lod_sys) :=
  if magic = LOV_USER_MAGIC_COMP_V1 ∧ buf.comp_v1.lcm_entry_count = 0 then some (-EINVAL, s)
  else
    let composite := decide (magic = LOV_USER_MAGIC_COMP_V1)
    let comp_cnt := if composite then buf.comp_v1.lcm_entry_count else 1
    let mirror_cnt := if composite then (buf.comp_v1.lcm_mirror_count + 1) % 2 ^ 16 else 0
    let s1 := { s with lo := { s.lo with
      ldo_flr_state := if composite = true ∧ mirror_cnt > 1 then LCM_FL_RDONLY
                       else s.lo.ldo_flr_state,
      ldo_is_composite := composite } }
    let al := lod_alloc_comp_entries w s1 mirror_cnt comp_cnt
    if al.1 ≠ 0 then some (al.1, al.2)
    else
      match for_loop (lod_qos_parse_config_body w buf def_pool) comp_cnt 0
          { sys := al.2, rc := 0 } with
      | none => none
      | some st => some (st.rc, st.sys)

/-- `lod_qos_parse_config(env, lo, buf)`; `none` as buffer is the `NULL`
buffer. -/
def lod_qos_parse_config (w : lod_backend) (s : lod_sys) (buf : Option lu_buf) :
    Option (Int × lod_sys) :=
  match buf with
  | none => some (0, s)
  | some b =>
    if b.lb_len = 0 then some (0, s)
    else
      let def_pool := lod_layout_get_pool s.lo.ldo_comp_entries
      let s1 := { s with lo := if s.lo.ldo_is_foreign then lod_free_foreign_lov s.lo
                               else lod_free_comp_entries s.lo }
      if w.lod_verify_striping b ≠ 0 then some (-EINVAL, s1)
      else
        let magic := b.v1.lmm_magic
        if magic &&& LOV_MAGIC_DEFINED ≠ 0 then lod_use_defined_striping w s1 b
        else if magic = swab32 LOV_USER_MAGIC_V1 ∨ magic = swab32 LOV_USER_MAGIC_V3 then
          let b1 := { b with v1 := lustre_swab_lov_user_md b.v1 }
          lod_qos_parse_config_comps w s1 b1 b1.v1.lmm_magic def_pool
        else if magic = LOV_USER_MAGIC_V1 ∨ magic = LOV_USER_MAGIC_V3 ∨
            magic = LOV_USER_MAGIC_SPECIFIC ∨ magic = LOV_USER_MAGIC_COMP_V1 then
          lod_qos_parse_config_comps w s1 b magic def_pool
        else if magic = swab32 LOV_USER_MAGIC_SPECIFIC then
          let v3 := lustre_swab_lov_user_md b.v1
          let b1 := { b with v1 := { v3 with lmm_objects :=
                        lustre_swab_lov_user_md_objects v3.lmm_objects v3.lmm_stripe_count } }
          lod_qos_parse_config_comps w s1 b1 b1.v1.lmm_magic def_pool
        else if magic = swab32 LOV_USER_MAGIC_COMP_V1 then
          let b1 := { b with comp_v1 := lustre_swab_lov_comp_md_v1 b.comp_v1 }
          lod_qos_parse_config_comps w s1 b1 b1.comp_v1.lcm_magic def_pool
        else if magic = swab32 LOV_USER_MAGIC_FOREIGN ∨ magic = LOV_USER_MAGIC_FOREIGN then
          let lfm :=
            if magic = swab32 LOV_USER_MAGIC_FOREIGN then
              { b.lfm with lfm_magic := swab32 b.lfm.lfm_magic,
                           lfm_length := swab32 b.lfm.lfm_length,
                           lfm_type := swab32 b.lfm.lfm_type,
                           lfm_flags := swab32 b.lfm.lfm_flags }
            else b.lfm
          let r := lod_alloc_foreign_lov w s1 lfm
          some (r.1, r.2)
        else some (-EINVAL, s1)

/-! ## Predicates used by the proofs -/

/-- What a step of an allocation leaves alone: the in-use array, the object
and the bitmap of existing targets. -/
structure sys_frame (s s1 : lod_sys) : Prop where
  store : s1.lti.lti_ea_store = s.lti.lti_ea_store
  lo : s1.lo = s.lo
  bitmap : s1.lod.lod_ost_bitmap = s.lod.lod_ost_bitmap

/-- The invariant of the reservation buffers during an allocation for a
component with pattern `pattern`, on a device whose bitmap of existing targets
is `bm`: the `stripe_idx` entries written so far agree with the in-use array,
are existing targets and, unless `pattern` has `OVERSTRIPING`, are pairwise
distinct. -/
structure alloc_inv (bm : cfs_bitmap) (lo : lod_object) (pattern : Nat) (a : alloc_state) :
    Prop where
  bitmap : a.sys.lod.lod_ost_bitmap = bm
  lo_eq : a.sys.lo = lo
  le_len : a.stripe_idx ≤ a.ost_indices.length
  le_store : a.stripe_idx ≤ a.sys.lti.lti_ea_store.length
  store_eq : a.ost_indices.take a.stripe_idx = a.sys.lti.lti_ea_store.take a.stripe_idx
  live : ∀ x ∈ a.ost_indices.take a.stripe_idx, cfs_bitmap_check bm x = true
  nodup : pattern &&& LOV_PATTERN_OVERSTRIPING = 0 → (a.ost_indices.take a.stripe_idx).Nodup

/-- The shape of every candidate step of the four policies: either nothing is
reserved and only the framed part of the system moves, or a target that exists
and, for a component without `OVERSTRIPING`, is not in the in-use array gets
committed. -/
def alloc_step (bm : cfs_bitmap) (pattern : Nat) (a a1 : alloc_state) : Prop :=
  (∃ s1 ov, sys_frame a.sys s1 ∧ a1 = { a with sys := s1, overstriped := ov }) ∨
  (∃ s1 ov ost_idx o, sys_frame a.sys s1 ∧ cfs_bitmap_check bm ost_idx = true ∧
    (pattern &&& LOV_PATTERN_OVERSTRIPING = 0 →
      ost_idx ∉ a.sys.lti.lti_ea_store.take a.stripe_idx) ∧
    alloc_state.commit { a with sys := s1, overstriped := ov } ost_idx o = some a1)

/-- Bitmap and object are left alone (a weaker frame than `sys_frame`: the
in-use array may be reset). -/
structure sys_frame0 (s s1 : lod_sys) : Prop where
  lo : s1.lo = s.lo
  bitmap : s1.lod.lod_ost_bitmap = s.lod.lod_ost_bitmap

/-- What the claims about the reservation buffer state: the first `stripe_idx`
entries of `ost_indices` exist in the bitmap the allocation started with, which
the allocation does not change; they are pairwise distinct unless the pattern
has `OVERSTRIPING`. -/
structure alloc_result_ok (s : lod_sys) (pattern : Nat) (a : alloc_state) : Prop where
  bitmap : a.sys.lod.lod_ost_bitmap = s.lod.lod_ost_bitmap
  le_len : a.stripe_idx ≤ a.ost_indices.length
  live : ∀ x ∈ a.ost_indices.take a.stripe_idx, cfs_bitmap_check s.lod.lod_ost_bitmap x = true
  nodup : pattern &&& LOV_PATTERN_OVERSTRIPING = 0 → (a.ost_indices.take a.stripe_idx).Nodup

/-! ## Concrete scenarios

Small devices, objects and backends on which the theorems are instantiated. -/

/-- A statfs reply of a healthy target: space, precreated objects, no flag. -/
def healthy_statfs : obd_statfs :=
  { os_bavail := 100, os_bsize := 4096, os_fprecreated := 10, os_state := 0 }

/-- A backend in which every target is healthy, every declaration succeeds,
no fault is injected and no allocation fails; `usable` is the answer of the
QoS "usable" predicate. -/
def healthy_backend (usable : Bool) : lod_backend where
  lod_verify_striping := fun _ => 0
  lod_initialize_objects := fun _ => 0
  dt_statfs := fun _ _ => (0, healthy_statfs)
  declare_create := fun _ _ => 0
  prandom := fun _ => 0
  obd_fail_check := fun _ => false
  alloc_fails := fun _ => false
  ktime_get_seconds := fun _ => 0
  lqos_is_usable := fun _ _ => usable
  lqos_calc_penalties := fun _ => (0, false, false)
  lqos_weight := fun _ _ => 5
  lov_mds_md_size := fun n => 48 + 24 * n
  lov_mds_md_max_stripe_count := fun n => (n - 48) / 24
  sizeof_lov_comp_md_v1 := 32
  sizeof_lov_comp_md_entry_v1 := 48

/-- An active target `i` owned by the server at position `svr`. -/
def demo_tgt (i svr : Nat) : lod_tgt_desc :=
  { ltd_index := i, ltd_active := true, ltd_connecting := false, ltd_statfs := healthy_statfs,
    ltq_svr := svr, ltq_usable := false, ltq_weight := 0 }

/-- A round-robin state that has never been computed, with the given cursor. -/
def demo_lqr (start_idx offset_idx : Nat) (start_count : Int) : lu_qos_rr :=
  { lqr_start_idx := start_idx, lqr_offset_idx := offset_idx, lqr_start_count := start_count,
    lqr_pool := { op_array := [], op_size := 0 }, lqr_dirty := true }

/-- A device with `2 * k` targets `0 .. 2k-1`, the first `k` on server 0 and
the others on server 1, no named pool, and the given round-robin cursor. -/
def demo_device (k : Nat) (lqr : lu_qos_rr) : lod_device :=
  { lod_ost_bitmap := { size := 2 * k, data := fun i => decide (i < 2 * k) },
    lod_ost_descs := fun i => demo_tgt i (if i < k then 0 else 1),
    lod_ostnr := 2 * k,
    lod_desc := { ld_tgt_count := 2 * k, ld_active_tgt_count := 2 * k,
                  ld_default_stripe_count := 1, ld_default_stripe_size := 1048576,
                  ld_qos_maxage := 5 },
    lod_qos := { lq_svr_list := [⟨10, k⟩, ⟨11, k⟩], lq_dirty := true, lq_same_space := false,
                 lq_rr := lqr },
    lod_pool_info := { op_array := List.range (2 * k), op_size := 2 * k },
    lod_pools := fun _ => none,
    lod_osd_max_easize := 4096,
    obd_osfs_age := 0 }

/-- A plain RAID0 component asking for `count` stripes at the default offset. -/
def demo_comp (count : Nat) : lod_layout_component :=
  { lod_layout_component_zero with
    llc_pattern := LOV_PATTERN_RAID0
    llc_stripe_count := count
    llc_stripe_offset := LOV_OFFSET_DEFAULT
    llc_extent := ⟨0, 100⟩ }

def demo_lag : lod_avoid_guide :=
  { lag_oss_avoid_array := none, lag_oaa_count := 0, lag_oaa_size := 0,
    lag_ost_avoid_bitmap := none, lag_ost_avail := 0 }

/-- A plain (non-composite) object with the given components. -/
def demo_object (comps : List lod_layout_component) : lod_object :=
  { ldo_comp_entries := comps, ldo_mirror_count := 0, ldo_mirrors := [],
    ldo_is_composite := false, ldo_flr_state := 0, ldo_is_foreign := false,
    ldo_foreign_lov := none, ldo_layout_gen := 0 }

/-- A fresh thread on device `d` working on object `lo`. -/
def demo_sys (d : lod_device) (lo : lod_object) : lod_sys :=
  { clock := 0, lod := d,
    lti := { lti_ea_store := [], lti_osfs := healthy_statfs, lti_avoid := demo_lag },
    lo := lo, declared := [], released := [] }

/-- Scenario S1: 8 targets on 2 servers (4/4), one component of 4 stripes. -/
def s1_sys : lod_sys := demo_sys (demo_device 4 (demo_lqr 0 0 0)) (demo_object [demo_comp 4])

/-- What holds of the table while `lod_qos_calc_rr` places the targets of the
server at position `k`, having gone through the pool slots before `i`: the
filled slots hold pairwise distinct pool targets, `placed` of them, each owned
by an earlier server or by server `k` and met before slot `i`. -/
structure calc_rr_inv (d : lod_device) (pool : List Nat) (k i : Nat) (st : calc_rr_state) :
    Prop where
  len : st.op_array.length = pool.length
  nodup : (st.op_array.filter (fun x => decide (x ≠ LOV_QOS_EMPTY))).Nodup
  count : (st.op_array.filter (fun x => decide (x ≠ LOV_QOS_EMPTY))).length = st.placed
  mem : ∀ t ∈ st.op_array.filter (fun x => decide (x ≠ LOV_QOS_EMPTY)),
    t ∈ pool ∧ ((OST_TGT d t).ltq_svr < k ∨
      ((OST_TGT d t).ltq_svr = k ∧ ∃ j, j < i ∧ pool[j]? = some t))

/-- Bit `x` of the avoid bitmap of a guide (unset when there is no bitmap). -/
def lag_ost_avoid_bit (lag : lod_avoid_guide) (x : Nat) : Bool :=
  match lag.lag_ost_avoid_bitmap with
  | some b => cfs_bitmap_check b x
  | none => false

/-- The mirror `lme` of the mirror table contains the component at index `c`. -/
def mirror_contains (lme : lod_mirror_entry) (c : Nat) : Prop :=
  lme.lme_start ≤ c ∧ c ≤ lme.lme_end

/-- The test by which `lod_collect_avoidance` skips a mirror whose first
component is `fc` when it collects for the component `lod_comp`. -/
def collect_skips_mirror (fc lod_comp : lod_layout_component) : Prop :=
  fc.llc_id ≠ LCME_ID_INVAL ∧ mirror_id_of fc.llc_id = mirror_id_of lod_comp.llc_id

/-- Following the spec's words: `x` is a target index used by a component that
belongs to a mirror other than the one of `comp_idx`, whose extent overlaps the
extent of `comp_idx` and whose stripes are bound. -/
def conflicting_target (lo : lod_object) (comp_idx : Nat) (x : Nat) : Prop :=
  ∃ lod_comp i lme c comp inds j,
    lo.ldo_comp_entries[comp_idx]? = some lod_comp ∧
    i < lo.ldo_mirror_count ∧ lo.ldo_mirrors[i]? = some lme ∧
    ¬ mirror_contains lme comp_idx ∧ mirror_contains lme c ∧
    lo.ldo_comp_entries[c]? = some comp ∧
    lu_extent_is_overlapped comp.llc_extent lod_comp.llc_extent = true ∧
    comp.llc_stripe.isSome = true ∧
    comp.llc_ost_indices = some inds ∧ j < comp.llc_stripe_count ∧ inds[j]? = some x

/-- The data-model invariants of a composite layout that `lod_collect_avoidance`
relies on, seen from the component `comp_idx`: the id of the first component of
every other mirror does not name the mirror of `comp_idx`; and the mirror of
`comp_idx` is either recognised by its id or (ids not assigned yet) holds no
bound component overlapping `comp_idx`. -/
def mirror_ids_wf (lo : lod_object) (comp_idx : Nat) : Prop :=
  ∀ lod_comp i lme fc,
    lo.ldo_comp_entries[comp_idx]? = some lod_comp →
    i < lo.ldo_mirror_count → lo.ldo_mirrors[i]? = some lme →
    lo.ldo_comp_entries[lme.lme_start]? = some fc →
    (¬ mirror_contains lme comp_idx → ¬ collect_skips_mirror fc lod_comp) ∧
    (mirror_contains lme comp_idx → collect_skips_mirror fc lod_comp ∨
      ∀ c comp, mirror_contains lme c → lo.ldo_comp_entries[c]? = some comp →
        ¬ (lu_extent_is_overlapped comp.llc_extent lod_comp.llc_extent = true ∧
           comp.llc_stripe.isSome = true))

/-- Scenario S5: 4 targets, 0 and 1 on one server, 2 and 3 on the other. -/
def s5_device : lod_device := demo_device 2 (demo_lqr 0 0 0)

/-- The component of mirror 1 of scenario S5 (component id 0x10001), bound to
the targets 0 and 2. -/
def s5_comp0 : lod_layout_component :=
  { demo_comp 2 with
    llc_id := 0x10001
    llc_stripes_allocated := 2
    llc_stripe := some [some ⟨0, 0⟩, some ⟨2, 1⟩]
    llc_ost_indices := some [0, 2] }

/-- The component of mirror 2 of scenario S5 (component id 0x20002), not yet
bound, asking for 2 stripes at the default offset. -/
def s5_comp1 : lod_layout_component :=
  { demo_comp 2 with llc_id := 0x20002 }

/-- The mirrored object of scenario S5: two mirrors of one component each,
both covering the same extent. -/
def s5_object : lod_object :=
  { ldo_comp_entries := [s5_comp0, s5_comp1], ldo_mirror_count := 2,
    ldo_mirrors := [⟨0, 0⟩, ⟨1, 1⟩],
    ldo_is_composite := true, ldo_flr_state := 0, ldo_is_foreign := false,
    ldo_foreign_lov := none, ldo_layout_gen := 0 }

def s5_sys : lod_sys := demo_sys s5_device s5_object

/-- Following the spec's words: the position of the list at which the
explicit-list policy starts, the first position of the stripe offset in the
list, and 0 when the offset is the default. -/
def ost_list_start (lod_comp : lod_layout_component) : Nat :=
  if lod_comp.llc_stripe_offset = LOV_OFFSET_DEFAULT then 0
  else lod_comp.llc_ostlist.op_array.indexOf lod_comp.llc_stripe_offset

/-- What holds at the head of iteration `i` of the allocation loop of
`lod_alloc_ost_list` started at position `p` of the list `L`. -/
structure ost_list_inv (L : List Nat) (count p i : Nat) (st : ost_list_state) : Prop where
  idx : st.a.stripe_idx = i
  arr : st.array_idx = (p + i) % count
  picks : ∀ k, k < i → ∃ t, L[(p + k) % count]? = some t ∧ st.a.ost_indices[k]? = some t

/-- Scenario S3: two targets, one component with the explicit list
`[0, 1, 0, 1]`, 4 stripes, `OVERSTRIPING` set, default offset. -/
def s3_comp : lod_layout_component :=
  { demo_comp 4 with
    llc_pattern := LOV_PATTERN_RAID0 ||| LOV_PATTERN_OVERSTRIPING
    llc_ostlist := { op_array := [0, 1, 0, 1], op_size := 4 } }

def s3_sys : lod_sys := demo_sys (demo_device 1 (demo_lqr 0 0 0)) (demo_object [s3_comp])

/-- The component at index `comp_idx` of the object exists and has the stored
pattern `pattern`. -/
def comp_pattern_is (lo : lod_object) (comp_idx pattern : Nat) : Prop :=
  ∃ c, lo.ldo_comp_entries[comp_idx]? = some c ∧ c.llc_pattern = pattern

/-- Scenario S4: four healthy targets, one component with the explicit list
`[0, 1, 2, 3]`, 4 stripes, `OVERSTRIPING` set. -/
def s4_comp : lod_layout_component :=
  { demo_comp 4 with
    llc_pattern := LOV_PATTERN_RAID0 ||| LOV_PATTERN_OVERSTRIPING
    llc_ostlist := { op_array := [0, 1, 2, 3], op_size := 4 } }

def s4_sys : lod_sys := demo_sys (demo_device 2 (demo_lqr 0 0 0)) (demo_object [s4_comp])

/-- The sub-blob of component `i` of a hint in host byte order: entry `i` of a
composite hint, the hint itself (component 0) otherwise. -/
def hint_blob (b : lu_buf) (i : Nat) : Option lov_user_md :=
  if b.v1.lmm_magic = LOV_USER_MAGIC_COMP_V1 then (b.comp_v1.lcm_entries[i]?).map (·.lcme_blob)
  else if i = 0 then some b.v1 else none

/-- Number of components of a hint in host byte order. -/
def hint_comp_cnt (b : lu_buf) : Nat :=
  if b.v1.lmm_magic = LOV_USER_MAGIC_COMP_V1 then b.comp_v1.lcm_entry_count else 1

/-- The sub-blob passes the `LASSERT` of the parser: a Data-on-MDT pattern
comes with stripe count 0. -/
def blob_assert_ok (v : lov_user_md) : Prop :=
  ¬ (lov_pattern (if v.lmm_pattern = 0 then LOV_PATTERN_RAID0 else v.lmm_pattern) =
      LOV_PATTERN_MDT ∧ v.lmm_stripe_count ≠ 0)

/-- Following the spec's words: the component names an existing pool and
carries a stripe offset that is not the default and is not a member of that
pool. -/
def offset_not_in_pool (d : lod_device) (v : lov_user_md) : Prop :=
  (v.lmm_magic = LOV_USER_MAGIC_V3 ∨ v.lmm_magic = LOV_USER_MAGIC_SPECIFIC) ∧
  v.lmm_pool_name ≠ "" ∧
  ∃ pool, lod_find_pool d v.lmm_pool_name = some pool ∧
    v.lmm_stripe_offset ≠ LOV_OFFSET_DEFAULT ∧
    v.lmm_stripe_offset ∉ pool.pool_obds.op_array

/-- What holds of the parser's state while it fills in the components. -/
structure parse_inv (d : lod_device) (composite : Bool) (cnt : Nat) (st : declare_state) :
    Prop where
  lod : st.sys.lod = d
  comp : st.sys.lo.ldo_is_composite = composite
  len : st.sys.lo.ldo_comp_entries.length = cnt

/-- The parser has left through `free_comp` with `-EINVAL`. -/
def parse_invalid (st : declare_state) : Prop :=
  st.rc = -EINVAL ∧ st.sys.lo.ldo_comp_entries = []

/-- Scenario S6: 8 targets and a pool `named` holding the targets 5, 6 and 7. -/
def s6_device : lod_device :=
  { demo_device 4 (demo_lqr 0 0 0) with
    lod_pools := fun name =>
      if name = "named" then
        some { pool_obds := { op_array := [5, 6, 7], op_size := 3 }, pool_rr := demo_lqr 0 0 0 }
      else none }

def s6_sys : lod_sys := demo_sys s6_device (demo_object [])

/-- The hint of scenario S6: a V3 hint naming the pool `named`, one stripe at
the offset 4. -/
def s6_hint : lov_user_md :=
  { lmm_magic := LOV_USER_MAGIC_V3, lmm_pattern := LOV_PATTERN_RAID0, lmm_stripe_size := 0,
    lmm_stripe_count := 1, lmm_stripe_offset := 4, lmm_layout_gen := 0,
    lmm_pool_name := "named", lmm_objects := [] }

def s6_buf : lu_buf :=
  { lb_len := 48, v1 := s6_hint,
    comp_v1 := { lcm_magic := LOV_USER_MAGIC_V3, lcm_mirror_count := 0, lcm_entry_count := 0,
                 lcm_flags := 0, lcm_layout_gen := 0, lcm_entries := [] },
    lfm := { lfm_magic := LOV_USER_MAGIC_V3, lfm_length := 0, lfm_type := 0, lfm_flags := 0,
             lfm_value := [] } }

/-- Following the spec's words: the bound `⌈count / pool_count⌉` on the number
of stripes of one component on one target. -/
def overstripe_bound (count pool_count : Nat) : Nat := (count + pool_count - 1) / pool_count

/-- A backend in which the target 1 does not answer (`-ENOTCONN`); every other
target is healthy. -/
def c2_backend : lod_backend :=
  { healthy_backend false with
    dt_statfs := fun _ i => if i = 1 then (107, healthy_statfs) else (0, healthy_statfs) }

/-- A component asking for 4 stripes with `OVERSTRIPING`, default pool. -/
def c2_comp : lod_layout_component :=
  { demo_comp 4 with llc_pattern := LOV_PATTERN_RAID0 ||| LOV_PATTERN_OVERSTRIPING }

/-- Two targets 0 and 1, one component of 4 stripes with `OVERSTRIPING`. -/
def c2_sys : lod_sys := demo_sys (demo_device 1 (demo_lqr 0 0 0)) (demo_object [c2_comp])

/-- What holds of the table while `lod_qos_calc_rr` places the targets of two
servers with `k` targets each: the first `a` even slots hold targets of server
0, the first `b` odd slots hold targets of server 1, the other slots are
empty. -/
structure place_inv (d : lod_device) (k : Nat) (T : List Nat) (a b : Nat) : Prop where
  len : T.length = 2 * k
  even_filled : ∀ m, m < a → ∃ t, T[2 * m]? = some t ∧ t ≠ LOV_QOS_EMPTY ∧
    (OST_TGT d t).ltq_svr = 0
  even_empty : ∀ m, a ≤ m → m < k → T[2 * m]? = some LOV_QOS_EMPTY
  odd_filled : ∀ m, m < b → ∃ t, T[2 * m + 1]? = some t ∧ t ≠ LOV_QOS_EMPTY ∧
    (OST_TGT d t).ltq_svr = 1
  odd_empty : ∀ m, b ≤ m → m < k → T[2 * m + 1]? = some LOV_QOS_EMPTY

/-- Number of targets of server `ph` among the first `i` entries of the pool. -/
def svr_count (d : lod_device) (P : List Nat) (ph i : Nat) : Nat :=
  ((P.take i).filter (fun t => decide ((OST_TGT d t).ltq_svr = ph))).length

/-- The invariant of the inner loop of `lod_qos_calc_rr` for the server at
position `ph` (0 or 1) of a two-server list, at pool slot `i`. -/
structure place_loop_inv (d : lod_device) (k : Nat) (P : List Nat) (ph i : Nat)
    (st : calc_rr_state) : Prop where
  tab : place_inv d k st.op_array (if ph = 0 then svr_count d P 0 i else k)
    (if ph = 0 then 0 else svr_count d P 1 i)
  j : st.j = svr_count d P ph i
  placed : st.placed = ph * k + svr_count d P ph i

/-- A backend in which every target answers the probe with a healthy reply (no
state flag, precreated objects available), every declaration succeeds, no
fault is injected and no memory allocation fails.  The random draws are left
free. -/
structure healthy (w : lod_backend) : Prop where
  statfs_rc : ∀ clk t, (w.dt_statfs clk t).1 = 0
  statfs_state : ∀ clk t, (w.dt_statfs clk t).2.os_state = 0
  statfs_pre : ∀ clk t, (w.dt_statfs clk t).2.os_fprecreated ≠ 0
  declare : ∀ clk t, w.declare_create clk t = 0
  no_fail : ∀ clk, w.obd_fail_check clk = false
  alloc : ∀ clk, w.alloc_fails clk = false

/-- What the round-robin allocation on the device-wide pool leaves alone,
relative to the state `s` it started in, once the table `T` is computed: the
object, the avoidance guide, the targets and the pool; the in-use array has
room for `n` entries. -/
structure rr_sys_inv (s : lod_sys) (T : List Nat) (n : Nat) (x : lod_sys) : Prop where
  lo : x.lo = s.lo
  avoid : x.lti.lti_avoid = s.lti.lti_avoid
  bitmap : x.lod.lod_ost_bitmap = s.lod.lod_ost_bitmap
  descs : x.lod.lod_ost_descs = s.lod.lod_ost_descs
  pool : x.lod.lod_pool_info = s.lod.lod_pool_info
  table : x.lod.lod_qos.lq_rr.lqr_pool.op_array = T
  store : n ≤ x.lti.lti_ea_store.length

/-- The invariant of the candidate loop of `lod_alloc_rr` on the happy path, at
iteration `i`: `i` stripes are placed, on the targets found in the slots
`(b + j) mod m` of the table, `j < i`; the cursor has advanced by `i`. -/
structure rr_loop_inv (s : lod_sys) (T : List Nat) (n m b s0 off : Nat) (i : Nat)
    (st : rr_state) : Prop where
  sys : rr_sys_inv s T n st.a.sys
  idx : st.a.stripe_idx = i
  start : st.a.sys.lod.lod_qos.lq_rr.lqr_start_idx = (s0 + i) % 2 ^ 32
  offset : st.a.sys.lod.lod_qos.lq_rr.lqr_offset_idx = off
  len_s : n ≤ st.a.stripe.length
  len_o : n ≤ st.a.ost_indices.length
  picks : ∀ j, j < i → ∃ t, T[(b + j) % m]? = some t ∧ st.a.ost_indices[j]? = some t ∧
    st.a.sys.lti.lti_ea_store[j]? = some t

/-- A target the happy path can reserve: it exists, is active, is used by no
component and is not the empty-slot marker. -/
structure good_target (s : lod_sys) (t : Nat) : Prop where
  live : cfs_bitmap_check s.lod.lod_ost_bitmap t = true
  active : (OST_TGT s.lod t).ltd_active = true
  unused : lod_comp_is_ost_used s.lo t = some false

/-- Scenario of the counterexample to C5: 6 targets on 2 servers (3/3), one
component of 6 stripes, the round-robin cursor at `lqr_start_idx = 0`,
`lqr_offset_idx = 2^32 - 3`, no reseed due. -/
def c5_sys : lod_sys :=
  demo_sys (demo_device 3 (demo_lqr 0 (2 ^ 32 - 3) 100)) (demo_object [demo_comp 6])

/-- A backend whose every statfs reply is fetched successfully and carries the
state flags `state`. -/
def c17_backend (state : Nat) : lod_backend :=
  { healthy_backend false with
    dt_statfs := fun _ _ => (0, { healthy_statfs with os_state := state }) }

/-- A plain V1 hint: two RAID0 stripes of 64 KiB at the default offset. -/
def c15_hint : lov_user_md :=
  { lmm_magic := LOV_USER_MAGIC_V1, lmm_pattern := LOV_PATTERN_RAID0, lmm_stripe_size := 65536,
    lmm_stripe_count := 2, lmm_stripe_offset := LOV_OFFSET_DEFAULT, lmm_layout_gen := 0,
    lmm_pool_name := "", lmm_objects := [] }

/-- The buffer that holds the single hint `v`. -/
def hint_buf (v : lov_user_md) : lu_buf := { s6_buf with v1 := v }

/-- Following the spec's words: the number of targets whose active flag is
set, `|{t : t.active}|`, counted over the existing targets. -/
def active_tgt_count (d : lod_device) : Nat :=
  (List.range d.lod_ost_bitmap.size).countP
    (fun i => cfs_bitmap_check d.lod_ost_bitmap i && (OST_TGT d i).ltd_active)

/-- Following the spec's words: `active_target_count == |{t : t.active}|`. -/
def active_count_ok (d : lod_device) : Prop :=
  d.lod_desc.ld_active_tgt_count = active_tgt_count d

/-- Number of existing targets. -/
def live_tgt_count (d : lod_device) : Nat :=
  (List.range d.lod_ost_bitmap.size).countP (fun i => cfs_bitmap_check d.lod_ost_bitmap i)

/-- A backend in which the target 1 does not answer and the cached statfs data
is always too old. -/
def c13_backend : lod_backend :=
  { c2_backend with ktime_get_seconds := fun _ => 100 }

/-- The invariant of the sweep of `lod_qos_statfs_update` started in a state
with bitmap `bm` and `n` targets. -/
structure sweep_inv (bm : cfs_bitmap) (n : Nat) (x : lod_sys) : Prop where
  count : active_count_ok x.lod
  bitmap : x.lod.lod_ost_bitmap = bm
  ostnr : x.lod.lod_ostnr = n

/-- What holds at the head of an iteration of the candidate loop of
`lod_alloc_specific` for a component asking for `count` stripes: pools and
object are those of the state `s` the allocation started in, and fewer than
`count` stripes are placed. -/
structure specific_inv (s : lod_sys) (count : Nat) (a : alloc_state) : Prop where
  pool : a.sys.lod.lod_pool_info = s.lod.lod_pool_info
  pools : a.sys.lod.lod_pools = s.lod.lod_pools
  lo : a.sys.lo = s.lo
  idx : a.stripe_idx < count

/-- What holds when the candidate loop of `lod_alloc_specific` has left through
`GOTO(out, rc = 0)`: exactly `count` stripes are placed. -/
structure specific_done (s : lod_sys) (count : Nat) (a : alloc_state) : Prop where
  pool : a.sys.lod.lod_pool_info = s.lod.lod_pool_info
  pools : a.sys.lod.lod_pools = s.lod.lod_pools
  lo : a.sys.lo = s.lo
  idx : a.stripe_idx = count

/-- A step that leaves the pools and the object alone. -/
structure pool_frame (x y : lod_sys) : Prop where
  pool : y.lod.lod_pool_info = x.lod.lod_pool_info
  pools : y.lod.lod_pools = x.lod.lod_pools
  lo : y.lo = x.lo

/-- Scenario of the witness of C11: 8 targets `0 .. 7`, one component asking
for 2 stripes from the offset 9, which is no target of the pool. -/
def c11_sys : lod_sys :=
  demo_sys (demo_device 4 (demo_lqr 0 0 0))
    (demo_object [{ demo_comp 2 with llc_stripe_offset := 9 }])

/-- The iterations a counted loop runs: index and state at the head of each,
in order (the last one is the iteration that breaks, faults or exhausts the
count). -/
def for_loop_heads {σ : Type} (body : Nat → σ → Option (σ × Bool)) :
    Nat → Nat → σ → List (Nat × σ)
  | 0, _, _ => []
  | fuel + 1, i, s =>
    (i, s) :: match body i s with
      | some (s1, false) => for_loop_heads body fuel (i + 1) s1
      | _ => []

/-- Number of iterations a counted loop runs to their end, the one that breaks
or faults not counted. -/
def for_loop_count {σ : Type} (body : Nat → σ → Option (σ × Bool)) : Nat → Nat → σ → Nat
  | 0, _, _ => 0
  | fuel + 1, i, s =>
    match body i s with
    | some (s1, false) => for_loop_count body fuel (i + 1) s1 + 1
    | _ => 0

/-- Following the spec's words: the number of candidates examined by the pass
of `lod_alloc_rr` at `speed` started in state `st`: the iterations of the
candidate loop that are run (the loop stops once `stripe_count` stripes are
placed). -/
def rr_pass_examined (w : lod_backend) (r : pool_ref) (comp_idx stripe_count speed : Nat)
    (st : rr_state) : Nat :=
  match st.a.sys.lo.ldo_comp_entries[comp_idx]? with
  | none => 0
  | some lod_comp =>
    match stripes_per_ost lod_comp (pool_osts st.a.sys.lod r).op_count with
    | none => 0
    | some per_ost =>
      for_loop_count (lod_alloc_rr_body w r comp_idx stripe_count speed)
        (((pool_osts st.a.sys.lod r).op_count * per_ost) % 2 ^ 32) 0 st

/-- The state in which the first pass of `lod_alloc_rr` starts, once the
cursor has been reseeded or adjusted (state `s3`). -/
def rr_init (s3 : lod_sys) (stripe : List (Option dt_object)) (ost_indices : List Nat) :
    rr_state :=
  { a := { sys := s3, stripe := stripe, ost_indices := ost_indices, stripe_idx := 0,
           overstriped := false },
    ost_connecting := false }

/-- The head of `lod_alloc_rr` up to `ost_start_idx_temp = lqr->lqr_start_idx`:
the table is recomputed, the in-use array set up and the cursor reseeded or
adjusted; `none` when one of the first two fails (the function then returns
without iterating) or on a fault. -/
def rr_setup (w : lod_backend) (s : lod_sys) (flags comp_idx : Nat) : Option lod_sys :=
  match s.lo.ldo_comp_entries[comp_idx]? with
  | none => none
  | some lod_comp =>
    let r := lod_comp_pool_ref s.lod lod_comp.llc_pool
    match lod_qos_calc_rr w s r with
    | none => none
    | some (rc, s1) =>
      if rc ≠ 0 then none
      else
        let clr := lod_qos_ost_in_use_clear w s1 lod_comp.llc_stripe_count
        if clr.1 ≠ 0 then none
        else
          lod_alloc_rr_reseed w clr.2 r lod_comp.llc_stripe_count
            (min_stripe_count lod_comp.llc_stripe_count flags)

/-- The passes of `lod_alloc_rr` for the component `c`, from the state `s3` the
setup ends in: speed and state at the start of each pass run. -/
def rr_passes (w : lod_backend) (r : pool_ref) (s3 : lod_sys)
    (stripe : List (Option dt_object)) (ost_indices : List Nat) (flags comp_idx : Nat)
    (c : lod_layout_component) : List (Nat × rr_state) :=
  for_loop_heads (lod_alloc_rr_pass w r comp_idx c.llc_stripe_count
    (min_stripe_count c.llc_stripe_count flags) (pool_lqr s3.lod r).lqr_start_idx) 3 0
    (rr_init s3 stripe ost_indices)

/-- The test `rc != 0 && OST_TGT(m, ost_idx)->ltd_connecting` made by the
iteration of the candidate loop of `lod_alloc_rr` that is run from `st`:
whether the candidate was refused by `lod_check_and_reserve_ost` (non-zero
result) with its target in connecting state afterwards; `false` for an
iteration that does not reach the test. -/
def rr_candidate_connecting (w : lod_backend) (r : pool_ref)
    (comp_idx stripe_count speed : Nat) (_i : Nat) (st : rr_state) : Bool :=
  if ¬ (st.a.stripe_idx < stripe_count) then false
  else
    let osts := pool_osts st.a.sys.lod r
    let lqr := pool_lqr st.a.sys.lod r
    if osts.op_count = 0 then false
    else
      let array_idx := (lqr.lqr_start_idx + lqr.lqr_offset_idx) % 2 ^ 32 % osts.op_count
      let s1 := st.a.sys.set_lqr r { lqr with lqr_start_idx := (lqr.lqr_start_idx + 1) % 2 ^ 32 }
      match lqr.lqr_pool.op_array[array_idx]? with
      | none => false
      | some ost_idx =>
        if ost_idx = LOV_QOS_EMPTY ∨ cfs_bitmap_check s1.lod.lod_ost_bitmap ost_idx = false then
          false
        else
          let fail := w.obd_fail_check s1.clock
          let s2 := s1.tick
          if fail = true ∧ ost_idx = 0 then false
          else
            match lod_check_and_reserve_ost w { st.a with sys := s2 } comp_idx ost_idx speed with
            | none => false
            | some (rc, a1) => decide (rc ≠ 0) && (OST_TGT a1.sys.lod ost_idx).ltd_connecting

/-- Whether the pass of `lod_alloc_rr` at `speed` started in state `st` meets a
candidate that is refused with its target in connecting state. -/
def rr_pass_connecting (w : lod_backend) (r : pool_ref) (comp_idx stripe_count speed : Nat)
    (st : rr_state) : Bool :=
  match st.a.sys.lo.ldo_comp_entries[comp_idx]? with
  | none => false
  | some lod_comp =>
    match stripes_per_ost lod_comp (pool_osts st.a.sys.lod r).op_count with
    | none => false
    | some per_ost =>
      (for_loop_heads (lod_alloc_rr_body w r comp_idx stripe_count speed)
        (((pool_osts st.a.sys.lod r).op_count * per_ost) % 2 ^ 32) 0 st).any
        (fun p => rr_candidate_connecting w r comp_idx stripe_count speed p.1 p.2)

/-- A backend on which no target answers (`-ENOTCONN`) before clock 7 and every
target answers afterwards, and on which no object can be declared. -/
def c19_backend : lod_backend :=
  { healthy_backend false with
    dt_statfs := fun clk _ => if clk < 7 then (107, healthy_statfs) else (0, healthy_statfs)
    declare_create := fun _ _ => 28 }

/-- A backend on which no target answers (`-ENOTCONN`). -/
def c19_down_backend : lod_backend :=
  { healthy_backend false with dt_statfs := fun _ _ => (107, healthy_statfs) }

/-- Two targets 0 and 1, one component of 1 stripe, default pool. -/
def c19_sys : lod_sys := demo_sys (demo_device 1 (demo_lqr 0 0 0)) (demo_object [demo_comp 1])

/-- The target selected by one weighted draw of `lod_alloc_qos`: the scan of
the pool run with the random value `rand` from state `st0`, read from
`ost_indices[nfound]`; `none` when the scan faults or selects nothing (`rc`
left non-zero). -/
def qos_draw_target (w : lod_backend) (osts : ost_pool) (comp_idx rand : Nat)
    (st0 : qos_pick_state) : Option Nat :=
  match for_loop (lod_alloc_qos_pick_body w osts comp_idx rand) osts.op_count 0 st0 with
  | none => none
  | some st1 => if st1.rc = 0 then st1.a.ost_indices[st0.a.stripe_idx]? else none

/-- Following the spec's words: the accumulated weight `cur` once the first `k`
targets of the pool have been added (`cur += t.weight`). -/
def cum_weight (d : lod_device) (pool : List Nat) (k : Nat) : Nat :=
  ((pool.take k).map (fun t => (OST_TGT d t).ltq_weight)).sum

/-- What the draw of C16 starts from: a pool without repeated targets, none of
them avoided, every one usable and not used yet (neither by another component
nor by this allocation), on which a declaration succeeds; `cur_weight = 0` and
`rc = -ENOSPC` as at the head of the scan; room for the stripe in the buffers;
and a sum of weights that fits the 64-bit accumulator. -/
structure qos_draw_ready (w : lod_backend) (osts : ost_pool) (comp_idx : Nat)
    (st0 : qos_pick_state) : Prop where
  nodup : osts.op_array.Nodup
  comp : (st0.a.sys.lo.ldo_comp_entries[comp_idx]?).isSome = true
  cur : st0.cur_weight = 0
  rc : st0.rc = -ENOSPC
  no_wrap : cum_weight st0.a.sys.lod osts.op_array osts.op_array.length < 2 ^ 64
  not_avoided : ∀ idx ∈ osts.op_array,
    lod_should_avoid_ost st0.a.sys.lod st0.a.sys.lti.lti_avoid idx = some false
  usable : ∀ idx ∈ osts.op_array, (OST_TGT st0.a.sys.lod idx).ltq_usable = true
  not_used_comp : ∀ idx ∈ osts.op_array, lod_comp_is_ost_used st0.a.sys.lo idx = some false
  not_used : ∀ idx ∈ osts.op_array,
    lod_qos_is_ost_used st0.a.sys idx st0.a.stripe_idx = some false
  declare_ok : ∀ idx ∈ osts.op_array, w.declare_create st0.a.sys.clock idx = 0
  store : st0.a.stripe_idx < st0.a.sys.lti.lti_ea_store.length
  stripe : st0.a.stripe_idx < st0.a.stripe.length
  ind : st0.a.stripe_idx < st0.a.ost_indices.length

/-- Two live targets 0 and 1, both usable with weight 5, and one component of
1 stripe; the in-use array holds one cleared entry. -/
def c16_sys : lod_sys :=
  { demo_sys
      { demo_device 1 (demo_lqr 0 0 0) with
        lod_ost_descs := fun i =>
          { demo_tgt i i with ltq_usable := true, ltq_weight := 5 } }
      (demo_object [demo_comp 1]) with
    lti := { lti_ea_store := [2 ^ 32 - 1], lti_osfs := healthy_statfs, lti_avoid := demo_lag } }

/-- The pool `[0, 1]`. -/
def c16_pool : ost_pool := { op_array := [0, 1], op_size := 2 }

/-- The state at the head of the first draw on `c16_sys`: nothing placed,
`total_weight = 10`, `cur_weight = 0`, `rc = -ENOSPC`. -/
def c16_st : qos_pick_state :=
  { a := { sys := c16_sys, stripe := [none], ost_indices := [0], stripe_idx := 0,
           overstriped := false },
    total_weight := 10, cur_weight := 0, rc := -ENOSPC }

/-- A step that declares and releases nothing. -/
structure ledger_frame (x y : lod_sys) : Prop where
  declared : y.declared = x.declared
  released : y.released = x.released

/-- The ledger of placeholders during an allocation that started with the
objects `D` declared and `R` released, on a buffer of `L` entries: every object
declared since is released or sits in the `stripe` buffer, nothing released
before is forgotten, and the buffer is empty from `stripe_idx` on. -/
structure ledger_inv (D R : List dt_object) (L : Nat) (a : alloc_state) : Prop where
  len : a.stripe.length = L
  decl : ∃ new, a.sys.declared = new ++ D ∧
    ∀ o ∈ new, o ∈ a.sys.released ∨ some o ∈ a.stripe
  rel : ∀ o ∈ R, o ∈ a.sys.released
  tail : ∀ i o, a.stripe_idx ≤ i → a.stripe[i]? ≠ some (some o)

/-- The ledger before an allocation policy starts, relative to the objects `D`
declared and `R` released at some earlier point: every object declared since
is released, nothing released before is forgotten. -/
structure ledger_base (D R : List dt_object) (s : lod_sys) : Prop where
  decl : ∃ new, s.declared = new ++ D ∧ ∀ o ∈ new, o ∈ s.released
  rel : ∀ o ∈ R, o ∈ s.released

/-- The ledger while the `n` placeholders of a QoS shortfall are put back: the
entries before `k` are empty again. -/
structure release_inv (D R : List dt_object) (L n : Nat) (k : Nat) (a : alloc_state) :
    Prop where
  len : a.stripe.length = L
  idx : a.stripe_idx = n
  decl : ∃ new, a.sys.declared = new ++ D ∧
    ∀ o ∈ new, o ∈ a.sys.released ∨ some o ∈ a.stripe
  rel : ∀ o ∈ R, o ∈ a.sys.released
  empty : ∀ i o, i < k ∨ n ≤ i → a.stripe[i]? ≠ some (some o)

/-- A backend on which every memory allocation fails. -/
def c12_nomem_backend : lod_backend :=
  { healthy_backend false with alloc_fails := fun _ => true }

/-- A backend on which no stripe fits the layout buffer. -/
def c12_norange_backend : lod_backend :=
  { healthy_backend false with lov_mds_md_max_stripe_count := fun _ => 0 }

/-- A backend on which no object can be declared. -/
def c12_nodecl_backend : lod_backend :=
  { healthy_backend false with declare_create := fun _ _ => 28 }

/-- Two targets, one component of 1 stripe at the default offset. -/
def c12_sys : lod_sys := demo_sys (demo_device 1 (demo_lqr 0 0 0)) (demo_object [demo_comp 1])

/-- Two targets, one component of 1 stripe whose striping is predefined. -/
def c12_defined_sys : lod_sys :=
  demo_sys (demo_device 1 (demo_lqr 0 0 0))
    (demo_object [{ demo_comp 1 with llc_stripe := some [some ⟨0, 0⟩] }])

/-- Two targets, one component of 2 stripes from the offset 0. -/
def c12_specific_sys : lod_sys :=
  demo_sys (demo_device 1 (demo_lqr 0 0 0))
    (demo_object [{ demo_comp 2 with llc_stripe_offset := 0 }])

/-- Result code, stored stripe counts and the numbers of declared and released
placeholders of a `lod_qos_prep_create` result. -/
def prep_create_summary (r : Option (Int × lod_sys)) : Option (Int × List Nat × Nat × Nat) :=
  r.map (fun x => (x.1, x.2.lo.ldo_comp_entries.map (fun c => c.llc_stripe_count),
    x.2.declared.length, x.2.released.length))

/-- One round of `lod_alloc_qos` once the random value `rand` is drawn: the
scan of the pool and the test of its result. -/
def lod_alloc_qos_round_with (w : lod_backend) (osts : ost_pool) (comp_idx rand : Nat)
    (st : qos_pick_state) : Option (qos_pick_state × Bool) :=
  let st0 : qos_pick_state :=
    { st with a := { st.a with sys := st.a.sys.tick }, cur_weight := 0, rc := -ENOSPC }
  match for_loop (lod_alloc_qos_pick_body w osts comp_idx rand) osts.op_count 0 st0 with
  | none => none
  | some st1 => if st1.rc ≠ 0 then some (st1, true) else some (st1, false)

/-- The state in which `lod_alloc_qos` clears the in-use array: the clock
ticked and the two flags of the penalty computation stored. -/
def qos_penalised (s : lod_sys) (dirty same_space : Bool) : lod_sys :=
  { s.tick with
    lod := { s.lod with lod_qos := { s.lod.lod_qos with
               lq_dirty := dirty, lq_same_space := same_space } } }

/-- The state in which the draws of `lod_alloc_qos` start. -/
def qos_start (sc : qos_scan_state) (stripe : List (Option dt_object)) (ost_indices : List Nat) :
    qos_pick_state :=
  { a := { sys := sc.sys, stripe := stripe, ost_indices := ost_indices, stripe_idx := 0,
           overstriped := false },
    total_weight := sc.total_weight, cur_weight := 0, rc := 0 }

/-- The end of `lod_alloc_qos`, from the result of the draws: a shortfall
releases the placeholders, marks the QoS data dirty and returns `-EAGAIN`; a
full set is stored. -/
def lod_alloc_qos_finish (comp_idx stripe_count : Nat) (rd : Option qos_pick_state) :
    Option (Int × alloc_state) :=
  match rd with
  | none => none
  | some st =>
    if st.a.stripe_idx ≠ stripe_count then
      match for_loop lod_alloc_qos_release_body st.a.stripe_idx 0 st.a with
      | none => none
      | some a1 =>
        let d := a1.sys.lod
        some (-EAGAIN, { a1 with sys := { a1.sys with
          lod := { d with lod_qos := { d.lod_qos with
                     lq_dirty := true, lq_same_space := false } } } })
    else
      match st.a.sys.lo.ldo_comp_entries[comp_idx]? with
      | none => none
      | some comp1 =>
        if st.rc = 0 ∧ st.a.overstriped = false then
          let comp2 :=
            { comp1 with llc_pattern := clear_overstriping comp1.llc_pattern }
          some (st.rc, { st.a with sys := st.a.sys.set_comp comp_idx comp2 })
        else some (st.rc, st.a)

/-- The state `lod_alloc_rr` continues from once the cursor is reseeded at
`start_idx`. -/
def rr_reseeded (s : lod_sys) (r : pool_ref) (start_idx : Nat) : lod_sys :=
  s.tick.set_lqr r { pool_lqr s.lod r with
    lqr_start_idx := start_idx,
    lqr_start_count :=
      to_int32 ((LOV_CREATE_RESEED_MIN / max (pool_osts s.lod r).op_count 1 +
                  LOV_CREATE_RESEED_MULT) * max (pool_osts s.lod r).op_count 1) }

/-- The state in which the passes of `lod_alloc_rr` start. -/
def rr_start (s3 : lod_sys) (stripe : List (Option dt_object)) (ost_indices : List Nat) :
    rr_state :=
  { a := { sys := s3, stripe := stripe, ost_indices := ost_indices, stripe_idx := 0,
           overstriped := false },
    ost_connecting := false }

/-- The end of `lod_alloc_rr`, from the result of the passes. -/
def lod_alloc_rr_finish (comp_idx : Nat) (ps : Option rr_state) : Option (Int × alloc_state) :=
  match ps with
  | none => none
  | some st =>
    match st.a.sys.lo.ldo_comp_entries[comp_idx]? with
    | none => none
    | some comp1 =>
      let comp2 :=
        if st.a.overstriped = false then
          { comp1 with llc_pattern := clear_overstriping comp1.llc_pattern }
        else comp1
      if st.a.stripe_idx ≠ 0 then
        some (0, { st.a with
          sys := st.a.sys.set_comp comp_idx
            { comp2 with llc_stripe_count := st.a.stripe_idx } })
      else
        some (if st.ost_connecting then -EINPROGRESS else -ENOSPC,
              { st.a with sys := st.a.sys.set_comp comp_idx comp2 })

/-- The backend of scenario S5: every target healthy, QoS usable, and the
random words read from the tape `p`. -/
def s5_backend (p : Nat → Nat) : lod_backend := { healthy_backend true with prandom := p }

/-- The object of scenario S5, as a plain object (`flr = false`) or as a
read-only FLR file (`flr = true`). -/
def s5_mirror_sys (flr : Bool) : lod_sys :=
  demo_sys s5_device { s5_object with ldo_flr_state := if flr then LCM_FL_RDONLY else LCM_FL_NONE }

/-- What scenario S5 expects of the result: success, two stripes stored for
component 1, on the targets 1 and 3 in either order. -/
def s5_good (r : Option (Int × lod_sys)) : Bool :=
  match r with
  | none => false
  | some (rc, s1) =>
    decide (rc = 0) &&
    match s1.lo.ldo_comp_entries[1]? with
    | none => false
    | some c =>
      decide (c.llc_stripe_count = 2) &&
        (decide (c.llc_ost_indices = some [1, 3]) || decide (c.llc_ost_indices = some [3, 1]))

/-- Scenario S5 after the refresh of the statfs data. -/
def s5_x1 (flr : Bool) : lod_sys :=
  (lod_qos_statfs_update (healthy_backend true) (s5_mirror_sys flr)).getD s5_sys

/-- The component to allocate, with its final stripe count. -/
def s5_comp1a : lod_layout_component := { s5_comp1 with llc_stripe_count := 2 }

/-- Scenario S5 when the policy is selected. -/
def s5_x3 (flr : Bool) : lod_sys := ((s5_x1 flr).set_comp 1 s5_comp1a).tick.tick

/-- Scenario S5 after `lod_prepare_avoidance`. -/
def s5_x4 (flr : Bool) : lod_sys := (lod_prepare_avoidance (healthy_backend true) (s5_x3 flr)).2

/-- The avoidance guide collected for component 1. -/
def s5_lag (flr : Bool) : lod_avoid_guide :=
  (lod_collect_avoidance (s5_x4 flr).lod (s5_x4 flr).lo (s5_x4 flr).lti.lti_avoid 1).getD
    (s5_x4 flr).lti.lti_avoid

/-- The state in which `lod_alloc_qos` is called. -/
def s5_in (flr : Bool) : lod_sys :=
  { s5_x4 flr with lti := { (s5_x4 flr).lti with lti_avoid := s5_lag flr } }

/-- The pool of scenario S5. -/
def s5_pool : ost_pool := { op_array := [0, 1, 2, 3], op_size := 4 }

/-- Scenario S5 after the in-use array is cleared. -/
def s5_q2 (flr : Bool) : lod_sys :=
  (lod_qos_ost_in_use_clear (healthy_backend true) (qos_penalised (s5_in flr) false false) 2).2

/-- Scenario S5 after the scan for usable targets. -/
def s5_sc (flr : Bool) : qos_scan_state :=
  (for_loop (lod_alloc_qos_scan_body (healthy_backend true) s5_pool) 4 0
    { sys := s5_q2 flr, total_weight := 0, good_osts := 0 }).getD
    { sys := s5_sys, total_weight := 0, good_osts := 0 }

/-- Scenario S5 at the first draw. -/
def s5_st0 (flr : Bool) : qos_pick_state := qos_start (s5_sc flr) [none, none] [0, 0]

/-- The state after one round of `lod_alloc_qos` in scenario S5 with the
random value `r`. -/
def s5_round (r : Nat) (st : qos_pick_state) : qos_pick_state :=
  ((lod_alloc_qos_round_with (healthy_backend true) s5_pool 1 r st).getD (st, true)).1

/-- What `lod_alloc_qos` leaves in scenario S5 when the draws end in `st`. -/
def s5_qos_a (st : qos_pick_state) : alloc_state :=
  ((lod_alloc_qos_finish 1 2 (some st)).getD (0, st.a)).2

/-- Scenario S5 in the fallback, after the round-robin table is checked. -/
def s5_rr1 (a : alloc_state) : lod_sys :=
  ((lod_qos_calc_rr (healthy_backend true) a.sys pool_ref.dev).getD (0, a.sys)).2

/-- Scenario S5 in the fallback, after the in-use array is cleared. -/
def s5_rr2 (a : alloc_state) : lod_sys :=
  (lod_qos_ost_in_use_clear (healthy_backend true) (s5_rr1 a) 2).2

/-- Scenario S5 in the fallback, after the passes started at cursor `k`. -/
def s5_rr_st (a : alloc_state) (k : Nat) : rr_state :=
  (for_loop (lod_alloc_rr_pass (healthy_backend true) pool_ref.dev 1 2 2 k) 3 0
    (rr_start (rr_reseeded (s5_rr2 a) pool_ref.dev k) a.stripe a.ost_indices)).getD
    (rr_start a.sys a.stripe a.ost_indices)

/-- What the fallback leaves in scenario S5. -/
def s5_rr_a (a : alloc_state) (k : Nat) : alloc_state :=
  ((lod_alloc_rr_finish 1 (some (s5_rr_st a k))).getD (0, a)).2

/-- What `lod_qos_prep_create` stores in scenario S5 when the policy leaves `a`. -/
def s5_stored (a : alloc_state) : lod_sys :=
  a.sys.set_comp 1
    { (a.sys.lo.ldo_comp_entries[1]?).getD s5_comp1a with
      llc_stripe := some a.stripe,
      llc_ost_indices := some a.ost_indices,
      llc_stripes_allocated := 2 }

/-- The ends of the two draws of scenario S5 that place both stripes: target 1
then target 3, or target 3 then target 1. -/
def s5_full (flr : Bool) (st : qos_pick_state) : Prop :=
  st = s5_round 0 (s5_round 0 (s5_st0 flr)) ∨ st = s5_round 0 (s5_round 6 (s5_st0 flr))

/-- The ends of the two draws of scenario S5 that miss: at the second draw
after target 1 or after target 3, or at the first draw. -/
def s5_short (flr : Bool) (st : qos_pick_state) : Prop :=
  st = s5_round 6 (s5_round 0 (s5_st0 flr)) ∨ st = s5_round 6 (s5_round 6 (s5_st0 flr)) ∨
    st = s5_round 11 (s5_st0 flr)

/-- What the policies can leave in scenario S5: the result of the weighted
policy after two hits, or of the fallback after a miss, started at a cursor
`k < 4`. -/
def s5_outcome (flr : Bool) (a : alloc_state) : Prop :=
  (∃ st, s5_full flr st ∧ a = s5_qos_a st) ∨
    ∃ st k, s5_short flr st ∧ k < 4 ∧ a = s5_rr_a (s5_qos_a st) k

/-- Following the spec's words: a target is avoided when it is not in the live
bitmap; otherwise not when `ost_avail` is 0; otherwise exactly when its server
is in the avoid-array and the target is in the avoid-bitmap. -/
def should_avoid_spec (live : Bool) (ost_avail : Nat) (svr_in_array in_bitmap : Bool) : Bool :=
  if live = false then true
  else if ost_avail = 0 then false
  else svr_in_array && in_bitmap

/-- A guide on the device of scenario S5 that holds server 10 and target 0,
with 3 targets still available. -/
def c21_lag : lod_avoid_guide :=
  { lag_oss_avoid_array := some [10, 0, 0, 0], lag_oaa_count := 1, lag_oaa_size := 4,
    lag_ost_avoid_bitmap := some { size := 4, data := fun i => decide (i = 0) },
    lag_ost_avail := 3 }

/-- The EA space left for stripes as `lod_get_stripe_count` computes it: the
max EA size of the backing store, less the composite header and the component
sizes (those of the initialised components when there are any) for a composite
layout, in `unsigned int` arithmetic. -/
def lod_stripe_easize (w : lod_backend) (lod : lod_device) (lo : lod_object) : Nat :=
  let easize := lod.lod_osd_max_easize
  if lo.ldo_is_composite then
    let header_sz : Nat :=
      (w.sizeof_lov_comp_md_v1 + w.sizeof_lov_comp_md_entry_v1 * lo.ldo_comp_cnt) % 2 ^ 32
    let total_comp_sz : Nat :=
      (lo.ldo_comp_entries.map (fun c => w.lov_mds_md_size c.llc_stripe_count)).sum % 2 ^ 32
    let init_comp_sz : Nat :=
      (lo.ldo_comp_entries.map (fun c =>
        if c.llc_flags &&& LCME_FL_INIT ≠ 0 then w.lov_mds_md_size c.llc_stripe_count
        else 0)).sum % 2 ^ 32
    let total_comp_sz : Nat := if init_comp_sz > 0 then init_comp_sz else total_comp_sz
    let header_sz : Nat := (header_sz + total_comp_sz) % 2 ^ 32
    if easize > header_sz then easize - header_sz else 0
  else easize

/-- Following the spec's words: the requested count if non-zero, else the
device default if non-zero, else 1, then clamped to the active target count
unless overstriping. -/
def stripe_count_wanted (requested dflt active : Nat) (overstriping : Bool) : Nat :=
  let c := if requested ≠ 0 then requested else if dflt ≠ 0 then dflt else 1
  if overstriping then c else min c active

/-- Following the spec's words: `min(c, max_fit)`. -/
def stripe_count_spec (w : lod_backend) (lod : lod_device) (lo : lod_object)
    (requested dflt : Nat) (overstriping : Bool) : Nat :=
  min (stripe_count_wanted requested dflt lod.lod_desc.ld_active_tgt_count overstriping)
    (w.lov_mds_md_max_stripe_count (lod_stripe_easize w lod lo))

/-- The device of scenario S5 (4 active targets) with a default stripe count
of 65536. -/
def c22_device : lod_device :=
  { s5_device with
    lod_desc := { s5_device.lod_desc with ld_default_stripe_count := 65536 } }

/-- A plain (non-composite) object without components. -/
def c22_object : lod_object :=
  { ldo_comp_entries := [], ldo_mirror_count := 0, ldo_mirrors := [],
    ldo_is_composite := false, ldo_flr_state := 0, ldo_is_foreign := false,
    ldo_foreign_lov := none, ldo_layout_gen := 0 }

/-- The system errnos named in the translation tables of lustre/ptlrpc/errno.c:
`EPERM` stands for the host constant `EPERM` and for the network constant
`LUSTRE_EPERM`, and so on. -/
inductive errno_sym where
  | EPERM | ENOENT | ESRCH | EINTR | EIO | ENXIO | E2BIG | ENOEXEC | EBADF | ECHILD | EAGAIN
  | ENOMEM | EACCES | EFAULT | ENOTBLK | EBUSY | EEXIST | EXDEV | ENODEV | ENOTDIR | EISDIR
  | EINVAL | ENFILE | EMFILE | ENOTTY | ETXTBSY | EFBIG | ENOSPC | ESPIPE | EROFS | EMLINK
  | EPIPE | EDOM | ERANGE | EDEADLK | ENAMETOOLONG | ENOLCK | ENOSYS | ENOTEMPTY | ELOOP | ENOMSG
  | EIDRM | ECHRNG | EL2NSYNC | EL3HLT | EL3RST | ELNRNG | EUNATCH | ENOCSI | EL2HLT | EBADE
  | EBADR | EXFULL | ENOANO | EBADRQC | EBADSLT | EBFONT | ENOSTR | ENODATA | ETIME | ENOSR
  | ENONET | ENOPKG | EREMOTE | ENOLINK | EADV | ESRMNT | ECOMM | EPROTO | EMULTIHOP | EDOTDOT
  | EBADMSG | EOVERFLOW | ENOTUNIQ | EBADFD | EREMCHG | ELIBACC | ELIBBAD | ELIBSCN | ELIBMAX
  | ELIBEXEC | EILSEQ | ERESTART | ESTRPIPE | EUSERS | ENOTSOCK | EDESTADDRREQ | EMSGSIZE
  | EPROTOTYPE | ENOPROTOOPT | EPROTONOSUPPORT | ESOCKTNOSUPPORT | EOPNOTSUPP | EPFNOSUPPORT
  | EAFNOSUPPORT | EADDRINUSE | EADDRNOTAVAIL | ENETDOWN | ENETUNREACH | ENETRESET | ECONNABORTED
  | ECONNRESET | ENOBUFS | EISCONN | ENOTCONN | ESHUTDOWN | ETOOMANYREFS | ETIMEDOUT
  | ECONNREFUSED | EHOSTDOWN | EHOSTUNREACH | EALREADY | EINPROGRESS | ESTALE | EUCLEAN | ENOTNAM
  | ENAVAIL | EISNAM | EREMOTEIO | EDQUOT | ENOMEDIUM | EMEDIUMTYPE | ECANCELED | ENOKEY
  | EKEYEXPIRED | EKEYREVOKED | EKEYREJECTED | EOWNERDEAD | ENOTRECOVERABLE | ERESTARTSYS
  | ERESTARTNOINTR | ERESTARTNOHAND | ENOIOCTLCMD | ERESTART_RESTARTBLOCK | EBADHANDLE | ENOTSYNC
  | EBADCOOKIE | ENOTSUPP | ETOOSMALL | ESERVERFAULT | EBADTYPE | EJUKEBOX | EIOCBQUEUED
deriving DecidableEq

/-- The lock manager errors named in the translation tables. -/
inductive eldlm_sym where
  | ELDLM_LOCK_CHANGED | ELDLM_LOCK_ABORTED | ELDLM_LOCK_REPLACED | ELDLM_NO_LOCK_DATA
  | ELDLM_LOCK_WOULDBLOCK | ELDLM_NAMESPACE_EXISTS | ELDLM_BAD_NAMESPACE
deriving DecidableEq

/-- The constants the tables are built from, declared in headers that are not
part of the sources: `host e` is the host's `E...`, `net e` is `LUSTRE_E...`
of lustre_errno.h, `eldlm e` is `ELDLM_...` of lustre_dlm.h. -/
structure errno_values where
  host : errno_sym → Nat
  net : errno_sym → Nat
  eldlm : eldlm_sym → Nat

/-- The system errnos of `lustre_errno_hton_mapping`, in the order of the
initialiser: the entry of `e` is `[e] = LUSTRE_e`. -/
def lustre_errno_hton_syms : List errno_sym :=
  [ errno_sym.EPERM, errno_sym.ENOENT, errno_sym.ESRCH, errno_sym.EINTR, errno_sym.EIO,
  errno_sym.ENXIO, errno_sym.E2BIG, errno_sym.ENOEXEC, errno_sym.EBADF, errno_sym.ECHILD,
  errno_sym.EAGAIN, errno_sym.ENOMEM, errno_sym.EACCES, errno_sym.EFAULT, errno_sym.ENOTBLK,
  errno_sym.EBUSY, errno_sym.EEXIST, errno_sym.EXDEV, errno_sym.ENODEV, errno_sym.ENOTDIR,
  errno_sym.EISDIR, errno_sym.EINVAL, errno_sym.ENFILE, errno_sym.EMFILE, errno_sym.ENOTTY,
  errno_sym.ETXTBSY, errno_sym.EFBIG, errno_sym.ENOSPC, errno_sym.ESPIPE, errno_sym.EROFS,
  errno_sym.EMLINK, errno_sym.EPIPE, errno_sym.EDOM, errno_sym.ERANGE, errno_sym.EDEADLK,
  errno_sym.ENAMETOOLONG, errno_sym.ENOLCK, errno_sym.ENOSYS, errno_sym.ENOTEMPTY,
  errno_sym.ELOOP, errno_sym.ENOMSG, errno_sym.EIDRM, errno_sym.ECHRNG, errno_sym.EL2NSYNC,
  errno_sym.EL3HLT, errno_sym.EL3RST, errno_sym.ELNRNG, errno_sym.EUNATCH, errno_sym.ENOCSI,
  errno_sym.EL2HLT, errno_sym.EBADE, errno_sym.EBADR, errno_sym.EXFULL, errno_sym.ENOANO,
  errno_sym.EBADRQC, errno_sym.EBADSLT, errno_sym.EBFONT, errno_sym.ENOSTR, errno_sym.ENODATA,
  errno_sym.ETIME, errno_sym.ENOSR, errno_sym.ENONET, errno_sym.ENOPKG, errno_sym.EREMOTE,
  errno_sym.ENOLINK, errno_sym.EADV, errno_sym.ESRMNT, errno_sym.ECOMM, errno_sym.EPROTO,
  errno_sym.EMULTIHOP, errno_sym.EDOTDOT, errno_sym.EBADMSG, errno_sym.EOVERFLOW,
  errno_sym.ENOTUNIQ, errno_sym.EBADFD, errno_sym.EREMCHG, errno_sym.ELIBACC, errno_sym.ELIBBAD,
  errno_sym.ELIBSCN, errno_sym.ELIBMAX, errno_sym.ELIBEXEC, errno_sym.EILSEQ, errno_sym.ERESTART,
  errno_sym.ESTRPIPE, errno_sym.EUSERS, errno_sym.ENOTSOCK, errno_sym.EDESTADDRREQ,
  errno_sym.EMSGSIZE, errno_sym.EPROTOTYPE, errno_sym.ENOPROTOOPT, errno_sym.EPROTONOSUPPORT,
  errno_sym.ESOCKTNOSUPPORT, errno_sym.EOPNOTSUPP, errno_sym.EPFNOSUPPORT, errno_sym.EAFNOSUPPORT,
  errno_sym.EADDRINUSE, errno_sym.EADDRNOTAVAIL, errno_sym.ENETDOWN, errno_sym.ENETUNREACH,
  errno_sym.ENETRESET, errno_sym.ECONNABORTED, errno_sym.ECONNRESET, errno_sym.ENOBUFS,
  errno_sym.EISCONN, errno_sym.ENOTCONN, errno_sym.ESHUTDOWN, errno_sym.ETOOMANYREFS,
  errno_sym.ETIMEDOUT, errno_sym.ECONNREFUSED, errno_sym.EHOSTDOWN, errno_sym.EHOSTUNREACH,
  errno_sym.EALREADY, errno_sym.EINPROGRESS, errno_sym.ESTALE, errno_sym.EUCLEAN,
  errno_sym.ENOTNAM, errno_sym.ENAVAIL, errno_sym.EISNAM, errno_sym.EREMOTEIO, errno_sym.EDQUOT,
  errno_sym.ENOMEDIUM, errno_sym.EMEDIUMTYPE, errno_sym.ECANCELED, errno_sym.ENOKEY,
  errno_sym.EKEYEXPIRED, errno_sym.EKEYREVOKED, errno_sym.EKEYREJECTED, errno_sym.EOWNERDEAD,
  errno_sym.ENOTRECOVERABLE, errno_sym.ERESTARTSYS, errno_sym.ERESTARTNOINTR,
  errno_sym.ERESTARTNOHAND, errno_sym.ENOIOCTLCMD, errno_sym.ERESTART_RESTARTBLOCK,
  errno_sym.EBADHANDLE, errno_sym.ENOTSYNC, errno_sym.EBADCOOKIE, errno_sym.ENOTSUPP,
  errno_sym.ETOOSMALL, errno_sym.ESERVERFAULT, errno_sym.EBADTYPE, errno_sym.EJUKEBOX,
  errno_sym.EIOCBQUEUED]

/-- The system errnos of `lustre_errno_ntoh_mapping`, in the order of the
initialiser: the entry of `e` is `[LUSTRE_e] = e`. -/
def lustre_errno_ntoh_syms : List errno_sym :=
  [ errno_sym.EPERM, errno_sym.ENOENT, errno_sym.ESRCH, errno_sym.EINTR, errno_sym.EIO,
  errno_sym.ENXIO, errno_sym.E2BIG, errno_sym.ENOEXEC, errno_sym.EBADF, errno_sym.ECHILD,
  errno_sym.EAGAIN, errno_sym.ENOMEM, errno_sym.EACCES, errno_sym.EFAULT, errno_sym.ENOTBLK,
  errno_sym.EBUSY, errno_sym.EEXIST, errno_sym.EXDEV, errno_sym.ENODEV, errno_sym.ENOTDIR,
  errno_sym.EISDIR, errno_sym.EINVAL, errno_sym.ENFILE, errno_sym.EMFILE, errno_sym.ENOTTY,
  errno_sym.ETXTBSY, errno_sym.EFBIG, errno_sym.ENOSPC, errno_sym.ESPIPE, errno_sym.EROFS,
  errno_sym.EMLINK, errno_sym.EPIPE, errno_sym.EDOM, errno_sym.ERANGE, errno_sym.EDEADLK,
  errno_sym.ENAMETOOLONG, errno_sym.ENOLCK, errno_sym.ENOSYS, errno_sym.ENOTEMPTY,
  errno_sym.ELOOP, errno_sym.ENOMSG, errno_sym.EIDRM, errno_sym.ECHRNG, errno_sym.EL2NSYNC,
  errno_sym.EL3HLT, errno_sym.EL3RST, errno_sym.ELNRNG, errno_sym.EUNATCH, errno_sym.ENOCSI,
  errno_sym.EL2HLT, errno_sym.EBADE, errno_sym.EBADR, errno_sym.EXFULL, errno_sym.ENOANO,
  errno_sym.EBADRQC, errno_sym.EBADSLT, errno_sym.EBFONT, errno_sym.ENOSTR, errno_sym.ENODATA,
  errno_sym.ETIME, errno_sym.ENOSR, errno_sym.ENONET, errno_sym.ENOPKG, errno_sym.EREMOTE,
  errno_sym.ENOLINK, errno_sym.EADV, errno_sym.ESRMNT, errno_sym.ECOMM, errno_sym.EPROTO,
  errno_sym.EMULTIHOP, errno_sym.EDOTDOT, errno_sym.EBADMSG, errno_sym.EOVERFLOW,
  errno_sym.ENOTUNIQ, errno_sym.EBADFD, errno_sym.EREMCHG, errno_sym.ELIBACC, errno_sym.ELIBBAD,
  errno_sym.ELIBSCN, errno_sym.ELIBMAX, errno_sym.ELIBEXEC, errno_sym.EILSEQ, errno_sym.ERESTART,
  errno_sym.ESTRPIPE, errno_sym.EUSERS, errno_sym.ENOTSOCK, errno_sym.EDESTADDRREQ,
  errno_sym.EMSGSIZE, errno_sym.EPROTOTYPE, errno_sym.ENOPROTOOPT, errno_sym.EPROTONOSUPPORT,
  errno_sym.ESOCKTNOSUPPORT, errno_sym.EOPNOTSUPP, errno_sym.EPFNOSUPPORT, errno_sym.EAFNOSUPPORT,
  errno_sym.EADDRINUSE, errno_sym.EADDRNOTAVAIL, errno_sym.ENETDOWN, errno_sym.ENETUNREACH,
  errno_sym.ENETRESET, errno_sym.ECONNABORTED, errno_sym.ECONNRESET, errno_sym.ENOBUFS,
  errno_sym.EISCONN, errno_sym.ENOTCONN, errno_sym.ESHUTDOWN, errno_sym.ETOOMANYREFS,
  errno_sym.ETIMEDOUT, errno_sym.ECONNREFUSED, errno_sym.EHOSTDOWN, errno_sym.EHOSTUNREACH,
  errno_sym.EALREADY, errno_sym.EINPROGRESS, errno_sym.ESTALE, errno_sym.EUCLEAN,
  errno_sym.ENOTNAM, errno_sym.ENAVAIL, errno_sym.EISNAM, errno_sym.EREMOTEIO, errno_sym.EDQUOT,
  errno_sym.ENOMEDIUM, errno_sym.EMEDIUMTYPE, errno_sym.ECANCELED, errno_sym.ENOKEY,
  errno_sym.EKEYEXPIRED, errno_sym.EKEYREVOKED, errno_sym.EKEYREJECTED, errno_sym.EOWNERDEAD,
  errno_sym.ENOTRECOVERABLE, errno_sym.ERESTARTSYS, errno_sym.ERESTARTNOINTR,
  errno_sym.ERESTARTNOHAND, errno_sym.ENOIOCTLCMD, errno_sym.ERESTART_RESTARTBLOCK,
  errno_sym.EBADHANDLE, errno_sym.ENOTSYNC, errno_sym.EBADCOOKIE, errno_sym.ENOTSUPP,
  errno_sym.ETOOSMALL, errno_sym.ESERVERFAULT, errno_sym.EBADTYPE, errno_sym.EJUKEBOX,
  errno_sym.EIOCBQUEUED]

/-- The lock manager errors that end the initialiser of
`lustre_errno_hton_mapping`: `[ELDLM_x] = ELDLM_x`. -/
def lustre_errno_hton_eldlm : List eldlm_sym :=
  [ eldlm_sym.ELDLM_LOCK_CHANGED, eldlm_sym.ELDLM_LOCK_ABORTED, eldlm_sym.ELDLM_LOCK_REPLACED,
  eldlm_sym.ELDLM_NO_LOCK_DATA, eldlm_sym.ELDLM_LOCK_WOULDBLOCK, eldlm_sym.ELDLM_NAMESPACE_EXISTS,
  eldlm_sym.ELDLM_BAD_NAMESPACE]

/-- The lock manager errors that end the initialiser of
`lustre_errno_ntoh_mapping`: `[ELDLM_x] = ELDLM_x`. -/
def lustre_errno_ntoh_eldlm : List eldlm_sym :=
  [ eldlm_sym.ELDLM_LOCK_CHANGED, eldlm_sym.ELDLM_LOCK_ABORTED, eldlm_sym.ELDLM_LOCK_REPLACED,
  eldlm_sym.ELDLM_NO_LOCK_DATA, eldlm_sym.ELDLM_LOCK_WOULDBLOCK, eldlm_sym.ELDLM_NAMESPACE_EXISTS,
  eldlm_sym.ELDLM_BAD_NAMESPACE]

/-- The initialiser of `lustre_errno_hton_mapping[]`: the designators and their
values, in source order. -/
def lustre_errno_hton_mapping (v : errno_values) : List (Nat × Nat) :=
  lustre_errno_hton_syms.map (fun e => (v.host e, v.net e)) ++
    lustre_errno_hton_eldlm.map (fun e => (v.eldlm e, v.eldlm e))

/-- The initialiser of `lustre_errno_ntoh_mapping[]`: the designators and their
values, in source order. -/
def lustre_errno_ntoh_mapping (v : errno_values) : List (Nat × Nat) :=
  lustre_errno_ntoh_syms.map (fun e => (v.net e, v.host e)) ++
    lustre_errno_ntoh_eldlm.map (fun e => (v.eldlm e, v.eldlm e))

/-- `ARRAY_SIZE` of an array defined by designated initialisers: one more than
the largest designator. -/
def designated_size (t : List (Nat × Nat)) : Nat :=
  (t.map (fun e => e.1 + 1)).foldr max 0

/-- Element `i` of an array defined by designated initialisers: the value of
the last initialiser that designates `i`, and 0 when there is none. -/
def designated_get (t : List (Nat × Nat)) (i : Nat) : Nat :=
  match t.reverse.find? (fun e => e.1 == i) with
  | some e => e.2
  | none => 0

/-- `lustre_errno_hton(h)`. -/
def lustre_errno_hton (v : errno_values) (h : Nat) : Nat :=
  if h = 0 then 0
  else if h < designated_size (lustre_errno_hton_mapping v) then
    let n := designated_get (lustre_errno_hton_mapping v) h
    if n = 0 then v.net errno_sym.EIO else n
  else v.net errno_sym.EIO

/-- `lustre_errno_ntoh(n)`. -/
def lustre_errno_ntoh (v : errno_values) (n : Nat) : Nat :=
  if n = 0 then 0
  else if n < designated_size (lustre_errno_ntoh_mapping v) then
    let h := designated_get (lustre_errno_ntoh_mapping v) n
    if h = 0 then v.host errno_sym.EIO else h
  else v.host errno_sym.EIO

/-- The errno numbers of Linux on x86, which are also the numbers of
lustre_errno.h. -/
def linux_errno : errno_sym → Nat
  | errno_sym.EPERM => 1
  | errno_sym.ENOENT => 2
  | errno_sym.ESRCH => 3
  | errno_sym.EINTR => 4
  | errno_sym.EIO => 5
  | errno_sym.ENXIO => 6
  | errno_sym.E2BIG => 7
  | errno_sym.ENOEXEC => 8
  | errno_sym.EBADF => 9
  | errno_sym.ECHILD => 10
  | errno_sym.EAGAIN => 11
  | errno_sym.ENOMEM => 12
  | errno_sym.EACCES => 13
  | errno_sym.EFAULT => 14
  | errno_sym.ENOTBLK => 15
  | errno_sym.EBUSY => 16
  | errno_sym.EEXIST => 17
  | errno_sym.EXDEV => 18
  | errno_sym.ENODEV => 19
  | errno_sym.ENOTDIR => 20
  | errno_sym.EISDIR => 21
  | errno_sym.EINVAL => 22
  | errno_sym.ENFILE => 23
  | errno_sym.EMFILE => 24
  | errno_sym.ENOTTY => 25
  | errno_sym.ETXTBSY => 26
  | errno_sym.EFBIG => 27
  | errno_sym.ENOSPC => 28
  | errno_sym.ESPIPE => 29
  | errno_sym.EROFS => 30
  | errno_sym.EMLINK => 31
  | errno_sym.EPIPE => 32
  | errno_sym.EDOM => 33
  | errno_sym.ERANGE => 34
  | errno_sym.EDEADLK => 35
  | errno_sym.ENAMETOOLONG => 36
  | errno_sym.ENOLCK => 37
  | errno_sym.ENOSYS => 38
  | errno_sym.ENOTEMPTY => 39
  | errno_sym.ELOOP => 40
  | errno_sym.ENOMSG => 42
  | errno_sym.EIDRM => 43
  | errno_sym.ECHRNG => 44
  | errno_sym.EL2NSYNC => 45
  | errno_sym.EL3HLT => 46
  | errno_sym.EL3RST => 47
  | errno_sym.ELNRNG => 48
  | errno_sym.EUNATCH => 49
  | errno_sym.ENOCSI => 50
  | errno_sym.EL2HLT => 51
  | errno_sym.EBADE => 52
  | errno_sym.EBADR => 53
  | errno_sym.EXFULL => 54
  | errno_sym.ENOANO => 55
  | errno_sym.EBADRQC => 56
  | errno_sym.EBADSLT => 57
  | errno_sym.EBFONT => 59
  | errno_sym.ENOSTR => 60
  | errno_sym.ENODATA => 61
  | errno_sym.ETIME => 62
  | errno_sym.ENOSR => 63
  | errno_sym.ENONET => 64
  | errno_sym.ENOPKG => 65
  | errno_sym.EREMOTE => 66
  | errno_sym.ENOLINK => 67
  | errno_sym.EADV => 68
  | errno_sym.ESRMNT => 69
  | errno_sym.ECOMM => 70
  | errno_sym.EPROTO => 71
  | errno_sym.EMULTIHOP => 72
  | errno_sym.EDOTDOT => 73
  | errno_sym.EBADMSG => 74
  | errno_sym.EOVERFLOW => 75
  | errno_sym.ENOTUNIQ => 76
  | errno_sym.EBADFD => 77
  | errno_sym.EREMCHG => 78
  | errno_sym.ELIBACC => 79
  | errno_sym.ELIBBAD => 80
  | errno_sym.ELIBSCN => 81
  | errno_sym.ELIBMAX => 82
  | errno_sym.ELIBEXEC => 83
  | errno_sym.EILSEQ => 84
  | errno_sym.ERESTART => 85
  | errno_sym.ESTRPIPE => 86
  | errno_sym.EUSERS => 87
  | errno_sym.ENOTSOCK => 88
  | errno_sym.EDESTADDRREQ => 89
  | errno_sym.EMSGSIZE => 90
  | errno_sym.EPROTOTYPE => 91
  | errno_sym.ENOPROTOOPT => 92
  | errno_sym.EPROTONOSUPPORT => 93
  | errno_sym.ESOCKTNOSUPPORT => 94
  | errno_sym.EOPNOTSUPP => 95
  | errno_sym.EPFNOSUPPORT => 96
  | errno_sym.EAFNOSUPPORT => 97
  | errno_sym.EADDRINUSE => 98
  | errno_sym.EADDRNOTAVAIL => 99
  | errno_sym.ENETDOWN => 100
  | errno_sym.ENETUNREACH => 101
  | errno_sym.ENETRESET => 102
  | errno_sym.ECONNABORTED => 103
  | errno_sym.ECONNRESET => 104
  | errno_sym.ENOBUFS => 105
  | errno_sym.EISCONN => 106
  | errno_sym.ENOTCONN => 107
  | errno_sym.ESHUTDOWN => 108
  | errno_sym.ETOOMANYREFS => 109
  | errno_sym.ETIMEDOUT => 110
  | errno_sym.ECONNREFUSED => 111
  | errno_sym.EHOSTDOWN => 112
  | errno_sym.EHOSTUNREACH => 113
  | errno_sym.EALREADY => 114
  | errno_sym.EINPROGRESS => 115
  | errno_sym.ESTALE => 116
  | errno_sym.EUCLEAN => 117
  | errno_sym.ENOTNAM => 118
  | errno_sym.ENAVAIL => 119
  | errno_sym.EISNAM => 120
  | errno_sym.EREMOTEIO => 121
  | errno_sym.EDQUOT => 122
  | errno_sym.ENOMEDIUM => 123
  | errno_sym.EMEDIUMTYPE => 124
  | errno_sym.ECANCELED => 125
  | errno_sym.ENOKEY => 126
  | errno_sym.EKEYEXPIRED => 127
  | errno_sym.EKEYREVOKED => 128
  | errno_sym.EKEYREJECTED => 129
  | errno_sym.EOWNERDEAD => 130
  | errno_sym.ENOTRECOVERABLE => 131
  | errno_sym.ERESTARTSYS => 512
  | errno_sym.ERESTARTNOINTR => 513
  | errno_sym.ERESTARTNOHAND => 514
  | errno_sym.ENOIOCTLCMD => 515
  | errno_sym.ERESTART_RESTARTBLOCK => 516
  | errno_sym.EBADHANDLE => 521
  | errno_sym.ENOTSYNC => 522
  | errno_sym.EBADCOOKIE => 523
  | errno_sym.ENOTSUPP => 524
  | errno_sym.ETOOSMALL => 525
  | errno_sym.ESERVERFAULT => 526
  | errno_sym.EBADTYPE => 527
  | errno_sym.EJUKEBOX => 528
  | errno_sym.EIOCBQUEUED => 529

/-- The numbers of the lock manager errors. -/
def linux_eldlm : eldlm_sym → Nat
  | eldlm_sym.ELDLM_LOCK_CHANGED => 300
  | eldlm_sym.ELDLM_LOCK_ABORTED => 301
  | eldlm_sym.ELDLM_LOCK_REPLACED => 302
  | eldlm_sym.ELDLM_NO_LOCK_DATA => 303
  | eldlm_sym.ELDLM_LOCK_WOULDBLOCK => 304
  | eldlm_sym.ELDLM_NAMESPACE_EXISTS => 400
  | eldlm_sym.ELDLM_BAD_NAMESPACE => 401

/-- A host with the errno numbers of Linux on x86. -/
def linux_errno_values : errno_values :=
  { host := linux_errno, net := linux_errno, eldlm := linux_eldlm }

/-- Following the spec's words: the number of picks until the next reseed,
`max(LOV_CREATE_RESEED_MIN / pool_count, 1) · LOV_CREATE_RESEED_MULT ·
pool_count`. -/
def reseed_count_spec (pool_count : Nat) : Nat :=
  max (LOV_CREATE_RESEED_MIN / pool_count) 1 * LOV_CREATE_RESEED_MULT * pool_count

/-- The number of picks until the next reseed as the code computes it. -/
def reseed_count (pool_count : Nat) : Nat :=
  (LOV_CREATE_RESEED_MIN / max pool_count 1 + LOV_CREATE_RESEED_MULT) * max pool_count 1

/-- A device whose pool holds the 5 targets `0 .. 4`, with the given cursor. -/
def c28_device (lqr : lu_qos_rr) : lod_device :=
  { demo_device 3 lqr with lod_pool_info := { op_array := List.range 5, op_size := 6 } }

/-- The system of scenario S5 with one of its 4 targets inactive: 4 targets in
the table (`ltd_tgtnr`), an active target count of 3. -/
def c29_sys : lod_sys :=
  { s5_sys with
    lod := { s5_device with lod_desc := { s5_device.lod_desc with ld_active_tgt_count := 3 } } }

/-- The OFD device of lustre/ofd: the limit of soft sync RPCs
(`ofd_soft_sync_limit`, an `unsigned int`). -/
structure ofd_device where
  ofd_soft_sync_limit : Nat

/-- `soft_sync_limit_store(kobj, attr, buffer, count)` of lustre/ofd/lproc_ofd.c.
`kstrtouint buffer` stands for the kernel's `kstrtouint(buffer, 0, &val)`: its
return code and the value it leaves in `val`.  The result is the value returned
and the device. -/
def soft_sync_limit_store (kstrtouint : String → Int × Nat) (ofd : ofd_device)
    (buffer : String) (count : Nat) : Int × ofd_device :=
  let rc := (kstrtouint buffer).1
  let val := (kstrtouint buffer).2 % 2 ^ 32
  if rc < 0 then (rc, ofd)
  else (0, { ofd with ofd_soft_sync_limit := val })

/-- A parser that knows the decimal numbers 16 and 0 and rejects everything
else with -EINVAL. -/
def c25_kstrtouint (buffer : String) : Int × Nat :=
  if buffer = "16" then (0, 16) else if buffer = "0" then (0, 0) else (-22, 0)

/-- The clamp of `lod_qos_parse_config`: a component without `OVERSTRIPING`
whose pool name names an existing pool has at most as many stripes as the pool
has targets. -/
def parse_pool_clamped (d : lod_device) (c : lod_layout_component) : Prop :=
  ∀ name pool, c.llc_pool = some name → lod_find_pool d name = some pool →
    c.llc_pattern &&& LOV_PATTERN_OVERSTRIPING = 0 → c.llc_stripe_count ≤ pool_tgt_count pool

/-- What holds of the state of the component loop of `lod_qos_parse_config`
before iteration `i`: the device is `d`, there are `n` components, no error
was met and the components before `i` are clamped to their pools. -/
structure parse_clamp_inv (d : lod_device) (n i : Nat) (st : declare_state) : Prop where
  lod_eq : st.sys.lod = d
  len : st.sys.lo.ldo_comp_entries.length = n
  rc0 : st.rc = 0
  clamped : ∀ j c, j < i → st.sys.lo.ldo_comp_entries[j]? = some c → parse_pool_clamped d c

/-- A plain V1 hint asking for 8 RAID0 stripes, no pool. -/
def c24_hint : lov_user_md := { c15_hint with lmm_stripe_count := 8 }

/-- A V3 hint asking for 8 RAID0 stripes in the pool `named`. -/
def c24_pool_hint : lov_user_md :=
  { s6_hint with lmm_stripe_count := 8, lmm_stripe_offset := LOV_OFFSET_DEFAULT }

/-- What holds of the result of the loop of `lod_alloc_ost_list` started at
position `p`: stripe `k` is on the `k`-th target visited, the reservation
invariant holds, and if the loop stopped before the end at a target placed
earlier, for a pattern without `OVERSTRIPING`, the result is `-EINVAL`. -/
structure ost_list_post (bm : cfs_bitmap) (lo : lod_object) (lod_comp : lod_layout_component)
    (p : Nat) (st : ost_list_state) : Prop where
  alloc : alloc_inv bm lo lod_comp.llc_pattern st.a
  picks : ∀ k, k < st.a.stripe_idx →
    ∃ t, lod_comp.llc_ostlist.op_array[(p + k) % lod_comp.llc_stripe_count]? = some t ∧
      st.a.ost_indices[k]? = some t
  stop : st.a.stripe_idx = lod_comp.llc_stripe_count ∨
    (lod_comp.llc_pattern &&& LOV_PATTERN_OVERSTRIPING = 0 →
      ∀ t, lod_comp.llc_ostlist.op_array[(p + st.a.stripe_idx) % lod_comp.llc_stripe_count]? =
          some t →
        t ∈ st.a.ost_indices.take st.a.stripe_idx → st.rc = -EINVAL)

/-- What holds at the head of iteration `i` of the loop of `lod_alloc_ost_list`
on a healthy system: `i` stripes are placed, the device is `d`, the buffers
have room for `count` entries and no error was met. -/
structure ost_list_run (d : lod_device) (count p i : Nat) (st : ost_list_state) : Prop where
  lod_eq : st.a.sys.lod = d
  idx : st.a.stripe_idx = i
  arr : st.array_idx = (p + i) % count
  store : count ≤ st.a.sys.lti.lti_ea_store.length
  stripe : count ≤ st.a.stripe.length
  inds : count ≤ st.a.ost_indices.length
  rc0 : st.rc = 0

/-- The setting in which `lod_alloc_ost_list` is sure to run to its end: a
healthy backend, a positive stripe count, a list of at least that many targets,
all of them existing and active, a stripe offset that is the default or one of
them, and output buffers with room for every stripe. -/
structure ost_list_ready (w : lod_backend) (s : lod_sys) (stripe : List (Option dt_object))
    (ost_indices : List Nat) (lod_comp : lod_layout_component) : Prop where
  backend : healthy w
  count_pos : 0 < lod_comp.llc_stripe_count
  list_len : lod_comp.llc_stripe_count ≤ lod_comp.llc_ostlist.op_array.length
  good : ∀ t ∈ lod_comp.llc_ostlist.op_array.take lod_comp.llc_stripe_count,
    cfs_bitmap_check s.lod.lod_ost_bitmap t = true ∧ (OST_TGT s.lod t).ltd_active = true
  offset : lod_comp.llc_stripe_offset = LOV_OFFSET_DEFAULT ∨
    lod_comp.llc_stripe_offset ∈ lod_comp.llc_ostlist.op_array.take lod_comp.llc_stripe_count
  stripe_len : lod_comp.llc_stripe_count ≤ stripe.length
  inds_len : lod_comp.llc_stripe_count ≤ ost_indices.length

/-- Scenario S3 without `OVERSTRIPING`: two targets, the explicit list
`[0, 1, 0, 1]`, 4 stripes, pattern RAID0. -/
def c23_comp : lod_layout_component :=
  { s3_comp with llc_pattern := LOV_PATTERN_RAID0 }

def c23_sys : lod_sys := demo_sys (demo_device 1 (demo_lqr 0 0 0)) (demo_object [c23_comp])

/-- The weighted sampling of `lod_alloc_qos`: the (adjusted) stripe count and
the state in which the `while (nfound < stripe_count)` loop ends, for a call
that gets as far as that loop and whose loop returns. -/
def lod_alloc_qos_draws (w : lod_backend) (s : lod_sys) (stripe : List (Option dt_object))
    (ost_indices : List Nat) (flags : Nat) (comp_idx : Nat) : Option (Nat × qos_pick_state) :=
  match s.lo.ldo_comp_entries[comp_idx]? with
  | none => none
  | some lod_comp =>
    let a0 : alloc_state :=
      { sys := s, stripe := stripe, ost_indices := ost_indices, stripe_idx := 0,
        overstriped := false }
    let stripe_count := lod_comp.llc_stripe_count
    let stripe_count_min := min_stripe_count stripe_count flags
    if stripe_count_min < 1 then none
    else
      let r := lod_comp_pool_ref s.lod lod_comp.llc_pool
      let osts := pool_osts s.lod r
      if w.lqos_is_usable s.lod.lod_qos s.lod.lod_desc.ld_active_tgt_count = false then none
      else
        match stripes_per_ost lod_comp osts.op_count with
        | none => none
        | some per_ost =>
          let pen := w.lqos_calc_penalties s.clock
          let s1 := { s.tick with
            lod := { s.lod with lod_qos := { s.lod.lod_qos with
                       lq_dirty := pen.2.1, lq_same_space := pen.2.2 } } }
          if pen.1 ≠ 0 then none
          else
            let clr := lod_qos_ost_in_use_clear w s1 lod_comp.llc_stripe_count
            if clr.1 ≠ 0 then none
            else
              match for_loop (lod_alloc_qos_scan_body w osts) osts.op_count 0
                  { sys := clr.2, total_weight := 0, good_osts := 0 } with
              | none => none
              | some sc =>
                if sc.good_osts < stripe_count_min then none
                else if per_ost = 0 then none
                else
                  let stripe_count :=
                    if stripe_count / per_ost > sc.good_osts
                    then (sc.good_osts * per_ost) % 2 ^ 32 else stripe_count
                  match for_loop (lod_alloc_qos_round w osts comp_idx stripe_count)
                      stripe_count 0
                      { a := { a0 with sys := sc.sys }, total_weight := sc.total_weight,
                        cur_weight := 0, rc := clr.1 } with
                  | none => none
                  | some st => some (stripe_count, st)

/-- The first `stripe_idx` slots of the stripe buffer hold placeholders. -/
def stripes_filled (a : alloc_state) : Prop :=
  ∀ i : Nat, i < a.stripe_idx → ∃ o, a.stripe[i]? = some (some o)

/-- The release loop of `lod_alloc_qos` after `k` steps, started in `a0`: the
placeholders `picked` of the first `k` slots are released, last one first,
those slots are empty and the other slots are as they were. -/
structure qos_release_inv (a0 : alloc_state) (k : Nat) (a : alloc_state) : Prop where
  lod_eq : a.sys.lod = a0.sys.lod
  idx : a.stripe_idx = a0.stripe_idx
  inds : a.ost_indices = a0.ost_indices
  picked : ∃ picked : List dt_object, picked.length = k ∧
    (∀ (i : Nat) (o : dt_object), picked[i]? = some o → a0.stripe[i]? = some (some o)) ∧
    a.sys.released = picked.reverse ++ a0.sys.released
  empty : ∀ i : Nat, i < k → a.stripe[i]? = some none
  rest : ∀ i : Nat, k ≤ i → a.stripe[i]? = a0.stripe[i]?

/-- The state `lod_alloc_qos` returns after a shortfall, from the state the
release loop leaves. -/
def qos_mark_dirty (a : alloc_state) : alloc_state :=
  { a with sys := { a.sys with
      lod := { a.sys.lod with lod_qos := { a.sys.lod.lod_qos with
                 lq_dirty := true, lq_same_space := false } } } }

/-- Iteration `i` of the sweep, run in state `x`, probes a target whose probe
succeeds with a `os_bavail` different from the cached one. -/
def sweep_bavail_changed (w : lod_backend) (osts : ost_pool) (i : Nat) (x : lod_sys) : Bool :=
  match osts.op_array[i]? with
  | none => false
  | some idx =>
    match lod_statfs_and_check w x idx with
    | none => false
    | some (rc, _, sfs) =>
      decide (rc = 0) && decide (sfs.os_bavail ≠ (OST_TGT x.lod idx).ltd_statfs.os_bavail)

/-- Iteration `i` of the sweep, run in state `x`, changes the active flag of
the target it probes. -/
def sweep_active_flipped (w : lod_backend) (osts : ost_pool) (i : Nat) (x : lod_sys) : Bool :=
  match osts.op_array[i]? with
  | none => false
  | some idx =>
    match lod_statfs_and_check w x idx with
    | none => false
    | some (_, x1, _) =>
      decide ((OST_TGT x1.lod idx).ltd_active ≠ (OST_TGT x.lod idx).ltd_active)

/-- A backend whose targets all answer with 50 available blocks and whose
clock makes every cached statfs stale. -/
def c34_backend : lod_backend :=
  { healthy_backend true with
    dt_statfs := fun _ _ => (0, { healthy_statfs with os_bavail := 50 })
    ktime_get_seconds := fun _ => 100 }

/-- Two active targets caching 100 available blocks, both dirty flags clear. -/
def c34_sys : lod_sys :=
  demo_sys
    { demo_device 1 { demo_lqr 0 0 0 with lqr_dirty := false } with
      lod_qos := { lq_svr_list := [⟨10, 1⟩, ⟨11, 1⟩], lq_dirty := false, lq_same_space := false,
                   lq_rr := { demo_lqr 0 0 0 with lqr_dirty := false } } }
    (demo_object [demo_comp 1])

/-- A read-only FLR file on the two targets of `demo_device 1`: mirror 1 is
bound to both targets, mirror 2 asks for two stripes. -/
def c39_object : lod_object :=
  { ldo_comp_entries :=
      [{ s5_comp0 with llc_stripe := some [some ⟨0, 0⟩, some ⟨1, 1⟩],
                       llc_ost_indices := some [0, 1] }, s5_comp1],
    ldo_mirror_count := 2, ldo_mirrors := [⟨0, 0⟩, ⟨1, 1⟩],
    ldo_is_composite := true, ldo_flr_state := LCM_FL_RDONLY, ldo_is_foreign := false,
    ldo_foreign_lov := none, ldo_layout_gen := 0 }

def c39_sys : lod_sys := demo_sys (demo_device 1 (demo_lqr 0 0 0)) c39_object

/-- The guide collected for component 1 of `c39_object`: both targets are
marked, none is left available. -/
def c39_lag : lod_avoid_guide :=
  { lag_oss_avoid_array := some [10, 11], lag_oaa_count := 2, lag_oaa_size := 2,
    lag_ost_avoid_bitmap := some { size := 2, data := fun i => decide (i = 0) || decide (i = 1) },
    lag_ost_avail := 0 }

/-- The allocation state in which the first candidate of component 1 is
examined, with the guide `c39_lag`. -/
def c39_alloc : alloc_state :=
  { sys := { c39_sys with lti := { lti_ea_store := [2 ^ 32 - 1, 2 ^ 32 - 1],
                                    lti_osfs := healthy_statfs, lti_avoid := c39_lag } },
    stripe := [none, none], ost_indices := [0, 0], stripe_idx := 0, overstriped := false }

/-- Four healthy targets, one component asking for 2 stripes from the offset 1
with `OVERSTRIPING` set and no explicit list. -/
def c32_comp : lod_layout_component :=
  { demo_comp 2 with
    llc_pattern := LOV_PATTERN_RAID0 ||| LOV_PATTERN_OVERSTRIPING
    llc_stripe_offset := 1 }

def c32_sys : lod_sys := demo_sys (demo_device 2 (demo_lqr 0 0 0)) (demo_object [c32_comp])

/-- A component asking for one stripe from the pool `empty`. -/
def c40_comp : lod_layout_component := { demo_comp 1 with llc_pool := some "empty" }

/-- Two healthy targets and a pool `empty` without targets whose round-robin
counter `lqr_start_count` is `start_count`. -/
def c40_sys (start_count : Int) : lod_sys :=
  demo_sys
    { demo_device 1 (demo_lqr 0 0 0) with
      lod_pools := fun name =>
        if name = "empty" then
          some { pool_obds := { op_array := [], op_size := 0 },
                 pool_rr := demo_lqr 0 0 start_count }
        else none }
    (demo_object [c40_comp])

/-- A backend whose target 1 answers the probe with 0 but is `DEGRADED` and has
no precreated object; the other targets are healthy. -/
def c33_backend : lod_backend :=
  { healthy_backend false with
    dt_statfs := fun _ i =>
      if i = 1 then (0, { healthy_statfs with os_fprecreated := 0, os_state := OS_STATE_DEGRADED })
      else (0, healthy_statfs) }

/-- Four targets; component 0 asks for 2 stripes from the offset 1, component 1
is already bound to target 1. -/
def c33_sys : lod_sys :=
  demo_sys (demo_device 2 (demo_lqr 0 0 0))
    (demo_object [{ demo_comp 2 with llc_stripe_offset := 1 },
      { demo_comp 1 with llc_stripes_allocated := 1, llc_stripe := some [some ⟨1, 0⟩],
                         llc_ost_indices := some [1] }])

/-- The stripe 0 of an allocation is placed on target `t`. -/
def first_stripe_on (t : Nat) (a : alloc_state) : Prop :=
  1 ≤ a.stripe_idx ∧ a.ost_indices[0]? = some t ∧
    ∃ o : dt_object, a.stripe[0]? = some (some o) ∧ o.ost = t

/-- A healthy backend in which the fault-injection hook fires on every check. -/
def c33_fault_backend : lod_backend :=
  { healthy_backend false with obd_fail_check := fun _ => true }

/-- Four healthy targets, one component asking for 2 stripes from the offset 0. -/
def c33_fault_sys : lod_sys :=
  demo_sys (demo_device 2 (demo_lqr 0 0 0))
    (demo_object [{ demo_comp 2 with llc_stripe_offset := 0 }])

/-- A backend with QoS usable in which target 1 does not answer. -/
def c31_backend : lod_backend :=
  { healthy_backend true with
    dt_statfs := fun _ i => if i = 1 then (107, healthy_statfs) else (0, healthy_statfs) }

/-- Four targets, one component asking for 4 stripes, no overstriping. -/
def c31_sys : lod_sys := demo_sys (demo_device 2 (demo_lqr 0 0 0)) (demo_object [demo_comp 4])

/-- The three ways `lod_qos_prep_create` allocates the stripes of a component. -/
inductive alloc_policy where
  | explicit_list
  | qos_then_rr
  | offset_anchored
deriving DecidableEq

/-- Following the spec's words: the policy selected for a component with no
stripes yet: the explicit-list policy when the component has a non-empty
explicit target list; else, when the stripe offset is the default, the QoS
policy with its round-robin fallback; otherwise the offset-anchored policy. -/
def select_policy_spec (c : lod_layout_component) : alloc_policy :=
  if c.llc_ostlist.op_array ≠ [] then alloc_policy.explicit_list
  else if c.llc_stripe_offset = LOV_OFFSET_DEFAULT then alloc_policy.qos_then_rr
  else alloc_policy.offset_anchored

/-- Following the spec's words: what runs for each selection.  For the
explicit list only `lod_alloc_ost_list`; for the default offset the avoidance
prepare and collect, then `lod_alloc_qos`, and `lod_alloc_rr` if and only if
the QoS policy returned `-EAGAIN`; otherwise only `lod_alloc_specific`. -/
def run_policy_spec (w : lod_backend) (s : lod_sys) (stripe : List (Option dt_object))
    (ost_indices : List Nat) (flag comp_idx : Nat) : alloc_policy → Option (Int × alloc_state)
  | alloc_policy.explicit_list => lod_alloc_ost_list w s stripe ost_indices comp_idx
  | alloc_policy.offset_anchored => lod_alloc_specific w s stripe ost_indices flag comp_idx
  | alloc_policy.qos_then_rr =>
    let prep := lod_prepare_avoidance w s
    match lod_collect_avoidance prep.2.lod prep.2.lo prep.2.lti.lti_avoid comp_idx with
    | none => none
    | some lag =>
      match lod_alloc_qos w { prep.2 with lti := { prep.2.lti with lti_avoid := lag } }
          stripe ost_indices flag comp_idx with
      | none => none
      | some (rc, a) =>
        if rc = -EAGAIN then lod_alloc_rr w a.sys a.stripe a.ost_indices flag comp_idx
        else some (rc, a)

/-- A backend whose first memory allocation fails. -/
def c35_backend : lod_backend :=
  { healthy_backend false with alloc_fails := fun clk => decide (clk = 0) }

/-- A backend whose fourth memory allocation fails: in `lod_qos_prep_create`
on a fresh thread, the one of `lod_prepare_avoidance`. -/
def c35_late_backend : lod_backend :=
  { healthy_backend false with alloc_fails := fun clk => decide (clk = 3) }

/-- The invariant of the avoidance guide while `lod_collect_avoidance` runs on
device `d`: array and bitmap are allocated, the first `lag_oaa_count` entries
of the array are pairwise distinct, and the server of every target marked in
the bitmap has its id among them. -/
def avoid_inv (d : lod_device) (lag : lod_avoid_guide) : Prop :=
  ∃ (arr : List Nat) (bm : cfs_bitmap),
    lag.lag_oss_avoid_array = some arr ∧ lag.lag_ost_avoid_bitmap = some bm ∧
    lag.lag_oaa_count ≤ arr.length ∧ (arr.take lag.lag_oaa_count).Nodup ∧
    ∀ x, cfs_bitmap_check bm x = true →
      ∃ lsq, d.lod_qos.lq_svr_list[(OST_TGT d x).ltq_svr]? = some lsq ∧
        lsq.lsq_id ∈ arr.take lag.lag_oaa_count

/-- Target `t` exists and is owned by the server at position `k` of the server
list: the pool entries the inner loop of `lod_qos_calc_rr` places for it. -/
def live_on (d : lod_device) (k : Nat) (t : Nat) : Bool :=
  cfs_bitmap_check d.lod_ost_bitmap t && decide ((OST_TGT d t).ltq_svr = k)

/-- Number of entries placed for server `k` among the first `i` pool entries. -/
def live_count (d : lod_device) (P : List Nat) (k i : Nat) : Nat :=
  (P.take i).countP (live_on d k)

/-- Number of pool entries placed for the servers before position `k`. -/
def live_before (d : lod_device) (P : List Nat) (k : Nat) : Nat :=
  P.countP (fun t => cfs_bitmap_check d.lod_ost_bitmap t && decide ((OST_TGT d t).ltq_svr < k))

/-- Number of slots of the table that are not empty. -/
def filled_slots (T : List Nat) : Nat := T.countP (fun x => decide (x ≠ LOV_QOS_EMPTY))

/-- The invariant of the placement loops of `lod_qos_calc_rr` at server `k` and
pool slot `i`: the table has the length of the pool, `j` counts the entries
placed for server `k`, and no more slots are filled than entries were placed. -/
structure probe_inv (d : lod_device) (P : List Nat) (k i : Nat) (st : calc_rr_state) : Prop where
  len : st.op_array.length = P.length
  j : st.j = live_count d P k i
  filled : filled_slots st.op_array ≤ live_before d P k + live_count d P k i

/-- What the claim states of a placement for server `oss` in state `st`: the
divisor is not 0, the initial slot `j * op_count / lsq_tgt_count` is inside
the table, and the probe, allowed to inspect `op_count` slots, ends on an
empty slot. -/
def place_safe (oss : lu_svr_qos) (st : calc_rr_state) : Prop :=
  oss.lsq_tgt_count ≠ 0 ∧
  (st.j * st.op_array.length) % 2 ^ 32 / oss.lsq_tgt_count < st.op_array.length ∧
  ∃ p, rr_probe st.op_array st.op_array.length
      ((st.j * st.op_array.length) % 2 ^ 32 / oss.lsq_tgt_count) = some p ∧
    p < st.op_array.length ∧ st.op_array[p]? = some LOV_QOS_EMPTY

/-- A pool holding three of the eight targets of scenario S1, two of server 0
and one of server 1. -/
def c36_pool : ost_pool := { op_array := [0, 4, 1], op_size := 3 }

/-- The table while the `j`-th entry of server `s` is awaited, for `S` servers
of `K` pool entries each: slot `S * m + r` holds an entry of server `r` when
`r < s`, or `r = s` and `m < j`; the other slots are empty. -/
structure interleave_inv (d : lod_device) (S K : Nat) (P : List Nat) (s j : Nat)
    (T : List Nat) : Prop where
  len : T.length = S * K
  taken : ∀ m r, m < K → r < S → (r < s ∨ (r = s ∧ m < j)) →
    ∃ t, T[S * m + r]? = some t ∧ t ≠ LOV_QOS_EMPTY ∧ t ∈ P ∧ (OST_TGT d t).ltq_svr = r
  free : ∀ m r, m < K → r < S → (s < r ∨ (r = s ∧ j ≤ m)) →
    T[S * m + r]? = some LOV_QOS_EMPTY

/-- The invariant of the inner loop of `lod_qos_calc_rr` for server `s` at
pool slot `i`. -/
structure interleave_loop_inv (d : lod_device) (S K : Nat) (P : List Nat) (s i : Nat)
    (st : calc_rr_state) : Prop where
  tab : interleave_inv d S K P s (svr_count d P s i) st.op_array
  j : st.j = svr_count d P s i
  placed : st.placed = s * K + svr_count d P s i

/-- A pool holding two of the four targets of each server of scenario S1. -/
def c37_pool : ost_pool := { op_array := [0, 1, 4, 5], op_size := 4 }

/-- A V3 hint naming the pool `empty`: 2 stripes with `OVERSTRIPING`, default
offset. -/
def c40_hint : lov_user_md :=
  { s6_hint with
    lmm_pattern := LOV_PATTERN_RAID0 ||| LOV_PATTERN_OVERSTRIPING
    lmm_stripe_count := 2
    lmm_stripe_offset := LOV_OFFSET_DEFAULT
    lmm_pool_name := "empty" }

def c40_buf : lu_buf := { s6_buf with v1 := c40_hint }

/-- The component `lod_qos_parse_config` makes of the hint `c40_hint`. -/
def c40_parsed_comp : lod_layout_component :=
  { lod_layout_component_zero with
    llc_pattern := LOV_PATTERN_RAID0 ||| LOV_PATTERN_OVERSTRIPING
    llc_stripe_size := 1048576
    llc_stripe_count := 2
    llc_stripe_offset := LOV_OFFSET_DEFAULT
    llc_pool := some "empty" }

/-- Two healthy targets, a pool `empty` without targets, and an object that has
no component yet. -/
def c40_new_sys : lod_sys := demo_sys (c40_sys 0).lod (demo_object [])

/-- The state in which `lod_alloc_qos` scans the pool for valid candidates:
the penalties are computed and the in-use array is cleared. -/
def qos_scan_start (w : lod_backend) (s : lod_sys) (c : lod_layout_component) : lod_sys :=
  (lod_qos_ost_in_use_clear w
    (qos_penalised s (w.lqos_calc_penalties s.clock).2.1 (w.lqos_calc_penalties s.clock).2.2)
    c.llc_stripe_count).2

/-- The round-robin table of the device-wide pool is current: it is due for
recomputation (`lqr_dirty`), or it is allocated and holds what the placement
of `lod_qos_calc_rr` computes for the pool. -/
def rr_table_current (d : lod_device) : Prop :=
  d.lod_qos.lq_rr.lqr_dirty = true ∨
  (d.lod_qos.lq_rr.lqr_pool.op_size ≠ 0 ∧
    (lod_qos_calc_rr_table d d.lod_pool_info).map (fun st => st.op_array) =
      some d.lod_qos.lq_rr.lqr_pool.op_array)

/-- Scenario S1 with a clean round-robin table: the table is the one
`lod_qos_calc_rr` computes for the 8 targets, and is not marked dirty. -/
def s1_clean_sys : lod_sys :=
  demo_sys
    (demo_device 4
      { lqr_start_idx := 0, lqr_offset_idx := 0, lqr_start_count := 0,
        lqr_pool := { op_array := [0, 4, 1, 5, 2, 6, 3, 7], op_size := 8 },
        lqr_dirty := false })
    (demo_object [demo_comp 4])

/-- The targets of the stripes placed so far: the first `stripe_idx` entries
of `ost_indices`. -/
def alloc_state.placed (a : alloc_state) : List Nat := a.ost_indices.take a.stripe_idx

/-- Number of the iterations `j < i` of a walk over the table `T`, visiting the
slot `slot j` at iteration `j`, that meet the target `t`. -/
def slot_visits (T : List Nat) (slot : Nat → Nat) (t : Nat) (i : Nat) : Nat :=
  (List.range i).countP (fun j => decide (T[slot j]? = some t))

/-- A candidate step: nothing is placed, or a stripe is placed on `x`. -/
def placed_step (x : Nat) (a a1 : alloc_state) : Prop :=
  a1.placed = a.placed ∨ a1.placed = a.placed ++ [x]

/-- What a candidate step of the round-robin policy leaves alone, for the pool
`r`: the pool, the table, the offset of the cursor, and the object. -/
structure rr_frame (r : pool_ref) (x y : lod_sys) : Prop where
  osts : pool_osts y.lod r = pool_osts x.lod r
  table : (pool_lqr y.lod r).lqr_pool = (pool_lqr x.lod r).lqr_pool
  offset : (pool_lqr y.lod r).lqr_offset_idx = (pool_lqr x.lod r).lqr_offset_idx
  lo : y.lo = x.lo

/-- The passes of `lod_alloc_specific` for the component `c`: speed and state at
the start of each pass run. -/
def specific_passes (w : lod_backend) (s : lod_sys) (stripe : List (Option dt_object))
    (ost_indices : List Nat) (comp_idx : Nat) (c : lod_layout_component) :
    List (Nat × specific_pass_state) :=
  for_loop_heads
    (lod_alloc_specific_pass w
      (lod_comp_pool_ref (lod_qos_ost_in_use_clear w s c.llc_stripe_count).2.lod c.llc_pool)
      comp_idx) 3 0
    { a := { sys := (lod_qos_ost_in_use_clear w s c.llc_stripe_count).2, stripe := stripe,
             ost_indices := ost_indices, stripe_idx := 0, overstriped := false },
      out := none }

/-- The invariant of the draws of `lod_alloc_qos`: the targets picked so far
are pairwise distinct and no longer usable. -/
def qos_used_inv (a : alloc_state) : Prop :=
  a.placed.Nodup ∧ ∀ x ∈ a.placed, (OST_TGT a.sys.lod x).ltq_usable = false

/-- Six healthy targets on two servers, one component asking for 12 stripes
with `OVERSTRIPING` from the default pool; the round-robin cursor is at
`lqr_start_idx = 0`, `lqr_offset_idx = 2^32 - 3`. -/
def c2_wrap_comp : lod_layout_component :=
  { demo_comp 12 with llc_pattern := LOV_PATTERN_RAID0 ||| LOV_PATTERN_OVERSTRIPING }

def c2_wrap_sys : lod_sys :=
  demo_sys (demo_device 3 (demo_lqr 0 (2 ^ 32 - 3) 100)) (demo_object [c2_wrap_comp])

/-- Two healthy targets, one component asking for 4 stripes with `OVERSTRIPING`
and the explicit list `[0, 0, 0, 0]`. -/
def c2_list_comp : lod_layout_component :=
  { c2_comp with llc_ostlist := { op_array := [0, 0, 0, 0], op_size := 4 } }

def c2_list_sys : lod_sys :=
  demo_sys (demo_device 1 (demo_lqr 0 0 0)) (demo_object [c2_list_comp])

/-- Two targets 0 and 1, one component asking for 4 stripes with `OVERSTRIPING`
from the offset 0. -/
def c2_offset_comp : lod_layout_component := { c2_comp with llc_stripe_offset := 0 }

def c2_offset_sys : lod_sys :=
  demo_sys (demo_device 1 (demo_lqr 0 0 0)) (demo_object [c2_offset_comp])

/-! # Theorems -/

/-! ## Loop invariants -/

theorem for_loop_inv {σ : Type} (P : σ → Prop) (body : Nat → σ → Option (σ × Bool))
    (hbody : ∀ i s s1 b, P s → body i s = some (s1, b) → P s1) :
    ∀ fuel i s s1, P s → for_loop body fuel i s = some s1 → P s1 := by
  intro fuel
  induction fuel with
  | zero =>
    intro i s s1 hs h
    simp only [for_loop, Option.some.injEq] at h
    exact h ▸ hs
  | succ n ih =>
    intro i s s1 hs h
    simp only [for_loop] at h
    split at h
    · exact absurd h (by simp)
    · rename_i s2 hb
      simp only [Option.some.injEq] at h
      exact h ▸ hbody i s s2 true hs hb
    · rename_i s2 hb
      exact ih (i + 1) s2 s1 (hbody i s s2 false hs hb) h

theorem sys_frame.refl (s : lod_sys) : sys_frame s s := ⟨rfl, rfl, rfl⟩

theorem sys_frame.trans {s s1 s2 : lod_sys} (h1 : sys_frame s s1) (h2 : sys_frame s1 s2) :
    sys_frame s s2 :=
  ⟨h2.store.trans h1.store, h2.lo.trans h1.lo, h2.bitmap.trans h1.bitmap⟩

theorem lod_statfs_and_check_frame {w : lod_backend} {s s1 : lod_sys} {index : Nat}
    {rc : Int} {sfs : obd_statfs}
    (h : lod_statfs_and_check w s index = some (rc, s1, sfs)) : sys_frame s s1 := by
  unfold lod_statfs_and_check at h
  simp only at h
  split_ifs at h <;> simp only [Option.some.injEq, Prod.mk.injEq] at h <;>
    obtain ⟨-, rfl, -⟩ := h <;> exact ⟨rfl, rfl, rfl⟩

theorem lod_qos_declare_object_on_frame {w : lod_backend} {s s1 : lod_sys} {ost_idx : Nat}
    {r : Except Int dt_object}
    (h : lod_qos_declare_object_on w s ost_idx = some (s1, r)) : sys_frame s s1 := by
  unfold lod_qos_declare_object_on at h
  simp only at h
  split_ifs at h <;> simp only [Option.some.injEq, Prod.mk.injEq] at h <;>
    obtain ⟨rfl, -⟩ := h <;> exact ⟨rfl, rfl, rfl⟩

theorem set_pool_lqr_bitmap (d : lod_device) (r : pool_ref) (v : lu_qos_rr) :
    (set_pool_lqr d r v).lod_ost_bitmap = d.lod_ost_bitmap := by
  unfold set_pool_lqr
  cases r with
  | dev => rfl
  | named name => simp only; split <;> rfl

theorem set_lqr_frame (s : lod_sys) (r : pool_ref) (v : lu_qos_rr) :
    sys_frame s (s.set_lqr r v) :=
  ⟨rfl, rfl, set_pool_lqr_bitmap s.lod r v⟩

theorem alloc_inv.frame {bm : cfs_bitmap} {lo : lod_object} {pattern : Nat} {a : alloc_state}
    (h : alloc_inv bm lo pattern a) {s1 : lod_sys} (hf : sys_frame a.sys s1) (ov : Bool) :
    alloc_inv bm lo pattern { a with sys := s1, overstriped := ov } :=
  { bitmap := hf.bitmap.trans h.bitmap
    lo_eq := hf.lo.trans h.lo_eq
    le_len := h.le_len
    le_store := by simpa only [hf.store] using h.le_store
    store_eq := by simpa only [hf.store] using h.store_eq
    live := h.live
    nodup := h.nodup }

theorem take_succ_set {α : Type} (l : List α) (n : Nat) (v : α) (h : n < l.length) :
    (l.set n v).take (n + 1) = l.take n ++ [v] := by
  induction l generalizing n with
  | nil => simp at h
  | cons x xs ih =>
    cases n with
    | zero => simp
    | succ m =>
      simp only [List.set_cons_succ, List.take_succ_cons, List.cons_append, List.cons.injEq,
        true_and]
      exact ih m (by simpa using h)

theorem array_scan_false {arr : List Nat} {n v : Nat} (h : array_scan arr n v = some false) :
    v ∉ arr.take n := by
  unfold array_scan at h
  split_ifs at h with h1 h2
  · simp at h
  · simpa using h1

/-- Committing a pick keeps the invariant when the picked target exists and,
for a component without `OVERSTRIPING`, is not in the in-use array. -/
theorem alloc_state.commit_inv {bm : cfs_bitmap} {lo : lod_object} {pattern : Nat}
    {a a1 : alloc_state} {ost_idx : Nat} {o : dt_object}
    (h : alloc_inv bm lo pattern a) (hlive : cfs_bitmap_check bm ost_idx = true)
    (hnew : pattern &&& LOV_PATTERN_OVERSTRIPING = 0 →
      ost_idx ∉ a.sys.lti.lti_ea_store.take a.stripe_idx)
    (hc : a.commit ost_idx o = some a1) : alloc_inv bm lo pattern a1 := by
  unfold alloc_state.commit lod_qos_ost_in_use array_set at hc
  split at hc
  · simp at hc
  · rename_i s1 hs1
    split at hs1
    · simp at hs1
    · rename_i store hstore
      split_ifs at hstore with hlt
      simp only [Option.some.injEq] at hstore hs1
      subst hstore hs1
      split at hc
      · rename_i stripe ost_indices h1 h2
        split_ifs at h1 h2 with h3 h4
        simp only [Option.some.injEq] at h1 h2 hc
        subst h1 h2 hc
        have e1 := take_succ_set a.ost_indices a.stripe_idx ost_idx h4
        have e2 := take_succ_set a.sys.lti.lti_ea_store a.stripe_idx ost_idx hlt
        refine ⟨h.bitmap, h.lo_eq, ?_, ?_, ?_, ?_, ?_⟩
        · simpa using h4
        · simpa using hlt
        · simp only [e1, e2, h.store_eq]
        · intro x hx
          simp only [e1, List.mem_append, List.mem_singleton] at hx
          rcases hx with hx | rfl
          · exact h.live x hx
          · exact hlive
        · intro hp
          simp only [e1]
          refine List.Nodup.append (h.nodup hp) (List.nodup_singleton _) ?_
          intro x hx hx2
          simp only [List.mem_singleton] at hx2
          subst hx2
          exact hnew hp (h.store_eq ▸ hx)
      · simp at hc

theorem alloc_step.skip {bm : cfs_bitmap} {pattern : Nat} (a : alloc_state) (s1 : lod_sys)
    (ov : Bool) (hf : sys_frame a.sys s1) :
    alloc_step bm pattern a { a with sys := s1, overstriped := ov } :=
  Or.inl ⟨s1, ov, hf, rfl⟩

theorem alloc_step.inv {bm : cfs_bitmap} {lo : lod_object} {pattern : Nat} {a a1 : alloc_state}
    (hs : alloc_step bm pattern a a1) (h : alloc_inv bm lo pattern a) :
    alloc_inv bm lo pattern a1 := by
  rcases hs with ⟨s1, ov, hf, rfl⟩ | ⟨s1, ov, ost_idx, o, hf, hlive, hnew, hc⟩
  · exact h.frame hf ov
  · refine alloc_state.commit_inv (h.frame hf ov) hlive ?_ hc
    intro hp
    simpa only [hf.store] using hnew hp

theorem not_used_of {used : Bool} {p : Prop} (h : ¬ (used = true ∧ p)) (hp : p) :
    used = false := by
  cases used with
  | false => rfl
  | true => exact absurd ⟨rfl, hp⟩ h

theorem alloc_step.of_declare_error {bm : cfs_bitmap} {pattern : Nat} {w : lod_backend}
    (a : alloc_state) {s1 s2 : lod_sys} (ov : Bool) {ost_idx : Nat} {e : Int}
    (hf : sys_frame a.sys s1)
    (hd : lod_qos_declare_object_on w s1 ost_idx = some (s2, Except.error e)) :
    alloc_step bm pattern a { a with sys := s2, overstriped := ov } :=
  alloc_step.skip a s2 ov (hf.trans (lod_qos_declare_object_on_frame hd))

theorem alloc_step.of_commit {bm : cfs_bitmap} {pattern : Nat} {w : lod_backend}
    {a a1 : alloc_state} {s1 s2 s3 : lod_sys} {ov used : Bool} {ost_idx : Nat} {o : dt_object}
    (hf : sys_frame a.sys s1) (hlive : cfs_bitmap_check bm ost_idx = true)
    (hneg : ¬ (used = true ∧ pattern &&& LOV_PATTERN_OVERSTRIPING = 0))
    (hused : lod_qos_is_ost_used s1 ost_idx a.stripe_idx = some used)
    (hd : lod_qos_declare_object_on w s1 ost_idx = some (s2, Except.ok o))
    (hc : alloc_state.commit { a with sys := s3, overstriped := ov } ost_idx o = some a1)
    (hf3 : sys_frame s2 s3) :
    alloc_step bm pattern a a1 := by
  refine Or.inr ⟨s3, ov, ost_idx, o,
    (hf.trans (lod_qos_declare_object_on_frame hd)).trans hf3, hlive, ?_, hc⟩
  intro hp
  have hu := not_used_of hneg hp
  subst hu
  have hs := array_scan_false hused
  simpa only [hf.store] using hs

theorem lod_check_and_reserve_ost_step {w : lod_backend} {a a1 : alloc_state}
    {comp_idx ost_idx speed : Nat} {rc : Int} {c : lod_layout_component}
    (hcomp : a.sys.lo.ldo_comp_entries[comp_idx]? = some c)
    (hlive : cfs_bitmap_check a.sys.lod.lod_ost_bitmap ost_idx = true)
    (hr : lod_check_and_reserve_ost w a comp_idx ost_idx speed = some (rc, a1)) :
    alloc_step a.sys.lod.lod_ost_bitmap c.llc_pattern a a1 := by
  unfold lod_check_and_reserve_ost at hr
  rw [hcomp] at hr
  simp only at hr
  split at hr
  · simp at hr
  · rename_i rc0 s0 sfs hst
    have f0 := lod_statfs_and_check_frame hst
    have f1 : sys_frame a.sys { s0 with lti := { s0.lti with lti_osfs := sfs } } :=
      ⟨f0.store, f0.lo, f0.bitmap⟩
    repeat' first
      | contradiction
      | (simp only [Option.some.injEq, Prod.mk.injEq] at hr
         obtain ⟨-, rfl⟩ := hr
         first
          | exact alloc_step.skip a _ a.overstriped f1
          | (apply alloc_step.of_declare_error a _ f1
             assumption)
          | (apply alloc_step.of_commit f1 hlive
             all_goals first | assumption | exact ⟨rfl, rfl, rfl⟩))
      | split at hr

theorem lod_check_and_reserve_ost_inv {w : lod_backend} {bm : cfs_bitmap} {lo : lod_object}
    {a a1 : alloc_state} {comp_idx ost_idx speed : Nat} {rc : Int}
    {c : lod_layout_component} (hcomp : lo.ldo_comp_entries[comp_idx]? = some c)
    (h : alloc_inv bm lo c.llc_pattern a)
    (hr : lod_check_and_reserve_ost w a comp_idx ost_idx speed = some (rc, a1))
    (hlive : cfs_bitmap_check bm ost_idx = true) :
    alloc_inv bm lo c.llc_pattern a1 := by
  have hs := lod_check_and_reserve_ost_step (h.lo_eq ▸ hcomp) (h.bitmap ▸ hlive) hr
  rw [h.bitmap] at hs
  exact hs.inv h

theorem tick_frame (s : lod_sys) : sys_frame s s.tick := ⟨rfl, rfl, rfl⟩

theorem live_of_not {x e : Nat} {b : cfs_bitmap}
    (h : ¬ (x = e ∨ cfs_bitmap_check b x = false)) : cfs_bitmap_check b x = true := by
  cases hb : cfs_bitmap_check b x with
  | true => rfl
  | false => exact absurd (Or.inr hb) h

theorem lod_alloc_rr_body_inv {w : lod_backend} {bm : cfs_bitmap} {lo : lod_object}
    {r : pool_ref} {comp_idx stripe_count speed i : Nat} {st st1 : rr_state} {b : Bool}
    {c : lod_layout_component} (hcomp : lo.ldo_comp_entries[comp_idx]? = some c)
    (h : alloc_inv bm lo c.llc_pattern st.a)
    (hr : lod_alloc_rr_body w r comp_idx stripe_count speed i st = some (st1, b)) :
    alloc_inv bm lo c.llc_pattern st1.a := by
  unfold lod_alloc_rr_body at hr
  simp only [lod_sys.set_lqr, set_pool_lqr_bitmap, h.bitmap] at hr
  have f1 := fun v => set_lqr_frame st.a.sys r v
  have f2 := fun v => (f1 v).trans (tick_frame _)
  simp only [lod_sys.set_lqr] at f1 f2
  repeat' first
    | contradiction
    | (simp only [Option.some.injEq, Prod.mk.injEq] at hr
       obtain ⟨rfl, -⟩ := hr
       first
        | exact h
        | exact h.frame (f1 _) st.a.overstriped
        | exact h.frame (f2 _) st.a.overstriped
        | (apply lod_check_and_reserve_ost_inv hcomp (h.frame (f2 _) st.a.overstriped)
           · assumption
           · apply live_of_not
             assumption))
    | split at hr

theorem lod_alloc_rr_pass_inv {w : lod_backend} {bm : cfs_bitmap} {lo : lod_object}
    {r : pool_ref} {comp_idx stripe_count stripe_count_min tmp speed : Nat}
    {st st1 : rr_state} {b : Bool}
    {c : lod_layout_component} (hcomp : lo.ldo_comp_entries[comp_idx]? = some c)
    (h : alloc_inv bm lo c.llc_pattern st.a)
    (hr : lod_alloc_rr_pass w r comp_idx stripe_count stripe_count_min tmp speed st =
      some (st1, b)) :
    alloc_inv bm lo c.llc_pattern st1.a := by
  unfold lod_alloc_rr_pass at hr
  simp only [h.lo_eq, hcomp] at hr
  split at hr
  · contradiction
  · split at hr
    · contradiction
    · rename_i st2 hloop
      have h2 : alloc_inv bm lo c.llc_pattern st2.a :=
        for_loop_inv (fun x => alloc_inv bm lo c.llc_pattern x.a) _
          (fun _ _ _ _ hx hb => lod_alloc_rr_body_inv hcomp hx hb) _ _ _ _ h hloop
      split at hr <;> simp only [Option.some.injEq, Prod.mk.injEq] at hr <;>
        obtain ⟨rfl, -⟩ := hr
      · exact h2.frame (set_lqr_frame _ _ _) _
      · exact h2

theorem sys_frame.frame0 {s s1 : lod_sys} (h : sys_frame s s1) : sys_frame0 s s1 :=
  ⟨h.lo, h.bitmap⟩

theorem sys_frame0.trans0 {s s1 s2 : lod_sys} (h1 : sys_frame0 s s1) (h2 : sys_frame0 s1 s2) :
    sys_frame0 s s2 :=
  ⟨h2.lo.trans h1.lo, h2.bitmap.trans h1.bitmap⟩

theorem lod_qos_calc_rr_frame {w : lod_backend} {s s1 : lod_sys} {r : pool_ref} {rc : Int}
    (h : lod_qos_calc_rr w s r = some (rc, s1)) : sys_frame s s1 := by
  unfold lod_qos_calc_rr at h
  simp only at h
  repeat' first
    | contradiction
    | (simp only [Option.some.injEq, Prod.mk.injEq] at h
       obtain ⟨-, rfl⟩ := h
       first
        | exact ⟨rfl, rfl, rfl⟩
        | exact ⟨rfl, rfl, set_pool_lqr_bitmap _ _ _⟩)
    | split at h

theorem lod_qos_ost_in_use_clear_frame0 (w : lod_backend) (s : lod_sys) (n : Nat) :
    sys_frame0 s (lod_qos_ost_in_use_clear w s n).2 := by
  unfold lod_qos_ost_in_use_clear
  simp only
  split_ifs <;> exact ⟨rfl, rfl⟩

theorem lod_alloc_rr_reseed_frame {w : lod_backend} {s s1 : lod_sys} {r : pool_ref}
    {sc scm : Nat} (h : lod_alloc_rr_reseed w s r sc scm = some s1) : sys_frame s s1 := by
  unfold lod_alloc_rr_reseed at h
  simp only at h
  repeat' first
    | contradiction
    | (simp only [Option.some.injEq] at h
       subst h
       first
        | exact set_lqr_frame _ _ _
        | exact (tick_frame _).trans (set_lqr_frame _ _ _))
    | split at h

theorem alloc_result_ok.zero {s s1 : lod_sys} (pattern : Nat)
    (hb : s1.lod.lod_ost_bitmap = s.lod.lod_ost_bitmap)
    (stripe : List (Option dt_object)) (ost_indices : List Nat) (ov : Bool) :
    alloc_result_ok s pattern
      { sys := s1, stripe := stripe, ost_indices := ost_indices, stripe_idx := 0,
        overstriped := ov } :=
  ⟨hb, Nat.zero_le _, by simp, by simp⟩

theorem alloc_inv.init {s1 : lod_sys} (pattern : Nat)
    (stripe : List (Option dt_object)) (ost_indices : List Nat) (ov : Bool) :
    alloc_inv s1.lod.lod_ost_bitmap s1.lo pattern
      { sys := s1, stripe := stripe, ost_indices := ost_indices, stripe_idx := 0,
        overstriped := ov } :=
  ⟨rfl, rfl, Nat.zero_le _, Nat.zero_le _, by simp, by simp, by simp⟩

theorem alloc_inv.result {s : lod_sys} {bm : cfs_bitmap} {lo : lod_object} {pattern : Nat}
    {a : alloc_state} (h : alloc_inv bm lo pattern a) (hb : bm = s.lod.lod_ost_bitmap)
    (s2 : lod_sys) (hs2 : s2.lod.lod_ost_bitmap = a.sys.lod.lod_ost_bitmap) :
    alloc_result_ok s pattern { a with sys := s2 } :=
  ⟨by rw [← hb, ← h.bitmap]; exact hs2, h.le_len, hb ▸ h.live, h.nodup⟩

theorem lod_alloc_rr_result_ok {w : lod_backend} {s : lod_sys}
    {stripe : List (Option dt_object)} {ost_indices : List Nat} {flags comp_idx : Nat}
    {rc : Int} {a : alloc_state} {c : lod_layout_component}
    (hcomp : s.lo.ldo_comp_entries[comp_idx]? = some c)
    (hr : lod_alloc_rr w s stripe ost_indices flags comp_idx = some (rc, a)) :
    alloc_result_ok s c.llc_pattern a := by
  unfold lod_alloc_rr at hr
  simp only [hcomp] at hr
  split at hr
  · contradiction
  · rename_i rc1 s1 hcalc
    have f1 := (lod_qos_calc_rr_frame hcalc).frame0
    split at hr
    · simp only [Option.some.injEq, Prod.mk.injEq] at hr
      obtain ⟨-, rfl⟩ := hr
      exact alloc_result_ok.zero _ f1.bitmap _ _ _
    · have f2 := f1.trans0 (lod_qos_ost_in_use_clear_frame0 w s1 c.llc_stripe_count)
      split at hr
      · simp only [Option.some.injEq, Prod.mk.injEq] at hr
        obtain ⟨-, rfl⟩ := hr
        exact alloc_result_ok.zero _ f2.bitmap _ _ _
      · split at hr
        · contradiction
        · rename_i s3 hseed
          have f3 := f2.trans0 (lod_alloc_rr_reseed_frame hseed).frame0
          split at hr
          · contradiction
          · rename_i st hloop
            have hcomp3 : s3.lo.ldo_comp_entries[comp_idx]? = some c := by
              rw [f3.lo]; exact hcomp
            have h2 : alloc_inv s3.lod.lod_ost_bitmap s3.lo c.llc_pattern st.a :=
              for_loop_inv (fun x => alloc_inv s3.lod.lod_ost_bitmap s3.lo c.llc_pattern x.a) _
                (fun _ _ _ _ hx hb => lod_alloc_rr_pass_inv hcomp3 hx hb) _ _ _ _
                (alloc_inv.init _ _ _ _) hloop
            split at hr
            · contradiction
            · split at hr <;> simp only [Option.some.injEq, Prod.mk.injEq] at hr <;>
                obtain ⟨-, rfl⟩ := hr <;> exact h2.result f3.bitmap _ rfl

/-- A pick made after a statfs call and an object declaration keeps the
invariant; `s1`, `s3` are the states the declaration and the commit start
from. -/
theorem alloc_inv.pick {w : lod_backend} {bm : cfs_bitmap} {lo : lod_object} {pattern : Nat}
    {a a1 : alloc_state} {s1 s2 s3 sa : lod_sys} {used ov : Bool} {ost_idx : Nat}
    {o : dt_object}
    (h : alloc_inv bm lo pattern a)
    (hused : lod_qos_is_ost_used sa ost_idx a.stripe_idx = some used)
    (hneg : ¬ (used = true ∧ pattern &&& LOV_PATTERN_OVERSTRIPING = 0))
    (hd : lod_qos_declare_object_on w s1 ost_idx = some (s2, Except.ok o))
    (hc : alloc_state.commit { a with sys := s3, overstriped := ov } ost_idx o = some a1)
    (hlive : cfs_bitmap_check bm ost_idx = true)
    (hfa : sys_frame a.sys sa) (hf1 : sys_frame a.sys s1) (hf3 : sys_frame s2 s3) :
    alloc_inv bm lo pattern a1 := by
  have f3 := (hf1.trans (lod_qos_declare_object_on_frame hd)).trans hf3
  refine alloc_state.commit_inv (h.frame f3 ov) hlive ?_ hc
  intro hp
  have hu := not_used_of hneg hp
  subst hu
  have hs := array_scan_false hused
  simpa only [f3.store, hfa.store] using hs

theorem alloc_inv.declare_error {w : lod_backend} {bm : cfs_bitmap} {lo : lod_object}
    {pattern : Nat} {a : alloc_state} {s1 s2 : lod_sys} {ost_idx : Nat} {e : Int}
    (h : alloc_inv bm lo pattern a) (ov : Bool)
    (hd : lod_qos_declare_object_on w s1 ost_idx = some (s2, Except.error e))
    (hf1 : sys_frame a.sys s1) :
    alloc_inv bm lo pattern { a with sys := s2, overstriped := ov } :=
  h.frame (hf1.trans (lod_qos_declare_object_on_frame hd)) ov

theorem lod_statfs_and_check_frame_osfs {w : lod_backend} {s s1 : lod_sys} {index : Nat}
    {rc : Int} {sfs : obd_statfs}
    (h : lod_statfs_and_check w s index = some (rc, s1, sfs)) :
    sys_frame s { s1 with lti := { s1.lti with lti_osfs := sfs } } :=
  ⟨(lod_statfs_and_check_frame h).store, (lod_statfs_and_check_frame h).lo,
    (lod_statfs_and_check_frame h).bitmap⟩

theorem live_of_ne_false {b : cfs_bitmap} {x : Nat} (h : ¬ cfs_bitmap_check b x = false) :
    cfs_bitmap_check b x = true := by
  cases hb : cfs_bitmap_check b x with
  | true => rfl
  | false => exact absurd hb h

theorem lod_alloc_ost_list_body_inv {w : lod_backend} {bm : cfs_bitmap} {lo : lod_object}
    {lod_comp : lod_layout_component} {i : Nat} {st st1 : ost_list_state} {b : Bool}
    (h : alloc_inv bm lo lod_comp.llc_pattern st.a)
    (hr : lod_alloc_ost_list_body w lod_comp i st = some (st1, b)) :
    alloc_inv bm lo lod_comp.llc_pattern st1.a := by
  unfold lod_alloc_ost_list_body at hr
  simp only [h.bitmap] at hr
  repeat' first
    | contradiction
    | (simp only [Option.some.injEq, Prod.mk.injEq] at hr
       obtain ⟨rfl, -⟩ := hr
       first
        | exact h
        | (apply h.frame
           apply lod_statfs_and_check_frame_osfs
           assumption)
        | (apply h.declare_error
           · assumption
           · apply lod_statfs_and_check_frame_osfs
             assumption)
        | (apply h.pick
           any_goals assumption
           · apply live_of_ne_false
             assumption
           · exact sys_frame.refl _
           · apply lod_statfs_and_check_frame_osfs
             assumption
           · exact ⟨rfl, rfl, rfl⟩))
    | split at hr

theorem alloc_inv.of_eq {bm : cfs_bitmap} {lo : lod_object} {pattern : Nat}
    {a a1 : alloc_state} (h : alloc_inv bm lo pattern a) (hf : sys_frame a.sys a1.sys)
    (hi : a1.ost_indices = a.ost_indices) (hn : a1.stripe_idx = a.stripe_idx) :
    alloc_inv bm lo pattern a1 :=
  { bitmap := hf.bitmap.trans h.bitmap
    lo_eq := hf.lo.trans h.lo_eq
    le_len := by rw [hi, hn]; exact h.le_len
    le_store := by rw [hn, hf.store]; exact h.le_store
    store_eq := by rw [hi, hn, hf.store]; exact h.store_eq
    live := by rw [hi, hn]; exact h.live
    nodup := by rw [hi, hn]; exact h.nodup }

theorem set_comp_frame0 (s : lod_sys) (i : Nat) (c : lod_layout_component) :
    (s.set_comp i c).lod.lod_ost_bitmap = s.lod.lod_ost_bitmap := rfl

theorem lod_alloc_ost_list_result_ok {w : lod_backend} {s : lod_sys}
    {stripe : List (Option dt_object)} {ost_indices : List Nat} {comp_idx : Nat}
    {rc : Int} {a : alloc_state} {c : lod_layout_component}
    (hcomp : s.lo.ldo_comp_entries[comp_idx]? = some c)
    (hr : lod_alloc_ost_list w s stripe ost_indices comp_idx = some (rc, a)) :
    alloc_result_ok s c.llc_pattern a := by
  unfold lod_alloc_ost_list at hr
  simp only [hcomp] at hr
  have f1 := lod_qos_ost_in_use_clear_frame0 w s c.llc_stripe_count
  have hp : (if c.llc_stripe_offset = LOV_OFFSET_DEFAULT then
      { c with llc_stripe_offset := c.llc_ostlist.op_array.headD 0 } else c).llc_pattern =
      c.llc_pattern := by split_ifs <;> rfl
  split at hr
  · contradiction
  · split at hr
    · simp only [Option.some.injEq, Prod.mk.injEq] at hr
      obtain ⟨-, rfl⟩ := hr
      exact alloc_result_ok.zero _ f1.bitmap _ _ _
    · split at hr
      · contradiction
      · simp only [Option.some.injEq, Prod.mk.injEq] at hr
        obtain ⟨-, rfl⟩ := hr
        exact @alloc_result_ok.zero s (lod_sys.set_comp _ _ _) _ f1.bitmap _ _ _
      · split at hr
        · contradiction
        · rename_i st hloop
          simp only [Option.some.injEq, Prod.mk.injEq] at hr
          obtain ⟨-, rfl⟩ := hr
          have h2 := for_loop_inv (fun x => alloc_inv _ _ _ x.a) _
            (fun _ _ _ _ hx hb => lod_alloc_ost_list_body_inv hx hb) _ _ _ _
            (alloc_inv.init _ _ _ _) hloop
          rw [hp] at h2
          exact h2.result f1.bitmap st.a.sys rfl

/-! ### Offset-anchored policy -/

theorem lod_alloc_specific_body_inv {w : lod_backend} {bm : cfs_bitmap} {lo : lod_object}
    {osts : ost_pool} {lod_comp : lod_layout_component} {speed i : Nat}
    {st st1 : specific_state} {b : Bool}
    (h : alloc_inv bm lo lod_comp.llc_pattern st.a)
    (hr : lod_alloc_specific_body w osts lod_comp speed i st = some (st1, b)) :
    alloc_inv bm lo lod_comp.llc_pattern st1.a := by
  unfold lod_alloc_specific_body at hr
  simp only [h.bitmap] at hr
  repeat' first
    | contradiction
    | (simp only [Option.some.injEq, Prod.mk.injEq] at hr
       obtain ⟨rfl, -⟩ := hr
       first
        | exact h
        | exact h.frame (tick_frame _) _
        | (apply h.frame
           apply sys_frame.trans (tick_frame _)
           apply lod_statfs_and_check_frame_osfs
           assumption)
        | (apply h.declare_error
           · assumption
           · apply sys_frame.trans (tick_frame _)
             apply lod_statfs_and_check_frame_osfs
             assumption)
        | (apply h.pick
           any_goals assumption
           · apply live_of_ne_false
             assumption
           · exact tick_frame _
           · apply sys_frame.trans (tick_frame _)
             apply lod_statfs_and_check_frame_osfs
             assumption
           · exact ⟨rfl, rfl, rfl⟩))
    | split at hr

theorem lod_alloc_specific_pass_inv {w : lod_backend} {bm : cfs_bitmap} {lo : lod_object}
    {r : pool_ref} {comp_idx speed : Nat} {st st1 : specific_pass_state} {b : Bool}
    {c : lod_layout_component} (hcomp : lo.ldo_comp_entries[comp_idx]? = some c)
    (h : alloc_inv bm lo c.llc_pattern st.a)
    (hr : lod_alloc_specific_pass w r comp_idx speed st = some (st1, b)) :
    alloc_inv bm lo c.llc_pattern st1.a := by
  unfold lod_alloc_specific_pass at hr
  simp only [h.lo_eq, hcomp] at hr
  split at hr
  · contradiction
  · simp only [Option.some.injEq, Prod.mk.injEq] at hr
    obtain ⟨rfl, -⟩ := hr
    exact h
  · split at hr
    · contradiction
    · split at hr
      · contradiction
      · rename_i st2 hloop
        have h2 : alloc_inv bm lo c.llc_pattern st2.a :=
          for_loop_inv (fun x => alloc_inv bm lo c.llc_pattern x.a) _
            (fun _ _ _ _ hx hb => lod_alloc_specific_body_inv hx hb) _ _ _ _ h hloop
        repeat' first
          | (simp only [Option.some.injEq, Prod.mk.injEq] at hr
             obtain ⟨rfl, -⟩ := hr
             exact h2)
          | split at hr

theorem lod_alloc_specific_result_ok {w : lod_backend} {s : lod_sys}
    {stripe : List (Option dt_object)} {ost_indices : List Nat} {flags comp_idx : Nat}
    {rc : Int} {a : alloc_state} {c : lod_layout_component}
    (hcomp : s.lo.ldo_comp_entries[comp_idx]? = some c)
    (hr : lod_alloc_specific w s stripe ost_indices flags comp_idx = some (rc, a)) :
    alloc_result_ok s c.llc_pattern a := by
  unfold lod_alloc_specific at hr
  simp only [hcomp] at hr
  have f1 := lod_qos_ost_in_use_clear_frame0 w s c.llc_stripe_count
  split at hr
  · simp only [Option.some.injEq, Prod.mk.injEq] at hr
    obtain ⟨-, rfl⟩ := hr
    exact alloc_result_ok.zero _ f1.bitmap _ _ _
  · split at hr
    · contradiction
    · rename_i st hloop
      have hcomp1 : (lod_qos_ost_in_use_clear w s c.llc_stripe_count).2.lo.ldo_comp_entries[
          comp_idx]? = some c := by rw [f1.lo]; exact hcomp
      have h2 := for_loop_inv (fun x => alloc_inv _ _ c.llc_pattern x.a) _
        (fun _ _ _ _ hx hb => lod_alloc_specific_pass_inv hcomp1 hx hb) _ _ _ _
        (alloc_inv.init _ _ _ _) hloop
      repeat' first
        | contradiction
        | (simp only [Option.some.injEq, Prod.mk.injEq] at hr
           obtain ⟨-, rfl⟩ := hr
           first
            | exact h2.result f1.bitmap st.a.sys rfl
            | exact h2.result f1.bitmap _ rfl)
        | split at hr

/-! ### QoS-weighted policy -/

theorem lod_should_avoid_ost_live {d : lod_device} {lag : lod_avoid_guide} {index : Nat}
    (h : lod_should_avoid_ost d lag index = some false) :
    cfs_bitmap_check d.lod_ost_bitmap index = true := by
  unfold lod_should_avoid_ost at h
  simp only at h
  split at h
  · simp at h
  · apply live_of_ne_false
    assumption

theorem lqos_recalc_weight_frame (w : lod_backend) (s : lod_sys) (idx : Nat) :
    sys_frame s (lqos_recalc_weight w s idx).1 := ⟨rfl, rfl, rfl⟩

theorem lod_alloc_qos_scan_body_frame {w : lod_backend} {osts : ost_pool} {i : Nat}
    {s0 : lod_sys} {st st1 : qos_scan_state} {b : Bool}
    (h : sys_frame s0 st.sys)
    (hr : lod_alloc_qos_scan_body w osts i st = some (st1, b)) : sys_frame s0 st1.sys := by
  unfold lod_alloc_qos_scan_body at hr
  simp only at hr
  repeat' first
    | contradiction
    | (simp only [Option.some.injEq, Prod.mk.injEq] at hr
       obtain ⟨rfl, -⟩ := hr
       first
        | exact h
        | (apply h.trans
           have f := lod_statfs_and_check_frame (by assumption)
           exact ⟨f.store, f.lo, f.bitmap⟩))
    | split at hr

theorem lod_alloc_qos_pick_body_inv {w : lod_backend} {bm : cfs_bitmap} {lo : lod_object}
    {osts : ost_pool} {comp_idx rand i : Nat} {st st1 : qos_pick_state} {b : Bool}
    {c : lod_layout_component} (hcomp : lo.ldo_comp_entries[comp_idx]? = some c)
    (h : alloc_inv bm lo c.llc_pattern st.a)
    (hr : lod_alloc_qos_pick_body w osts comp_idx rand i st = some (st1, b)) :
    alloc_inv bm lo c.llc_pattern st1.a := by
  unfold lod_alloc_qos_pick_body at hr
  simp only [h.lo_eq, hcomp] at hr
  split at hr
  · rename_i idx lod_comp hidx hc
    simp only [Option.some.injEq] at hc
    subst hc
    repeat' first
      | contradiction
      | (simp only [Option.some.injEq, Prod.mk.injEq] at hr
         obtain ⟨rfl, -⟩ := hr
         first
          | exact h
          | (apply h.declare_error
             · assumption
             · exact sys_frame.refl _)
          | (apply alloc_inv.frame _ (lqos_recalc_weight_frame _ _ _)
             apply h.pick
             any_goals assumption
             · rw [← h.bitmap]
               apply lod_should_avoid_ost_live
               assumption
             · exact sys_frame.refl _
             · exact sys_frame.refl _
             · exact ⟨rfl, rfl, rfl⟩))
      | split at hr
  · contradiction

theorem lod_alloc_qos_round_inv {w : lod_backend} {bm : cfs_bitmap} {lo : lod_object}
    {osts : ost_pool} {comp_idx stripe_count n : Nat} {st st1 : qos_pick_state} {b : Bool}
    {c : lod_layout_component} (hcomp : lo.ldo_comp_entries[comp_idx]? = some c)
    (h : alloc_inv bm lo c.llc_pattern st.a)
    (hr : lod_alloc_qos_round w osts comp_idx stripe_count n st = some (st1, b)) :
    alloc_inv bm lo c.llc_pattern st1.a := by
  unfold lod_alloc_qos_round at hr
  simp only at hr
  split at hr
  · simp only [Option.some.injEq, Prod.mk.injEq] at hr
    obtain ⟨rfl, -⟩ := hr
    exact h
  · split at hr
    · contradiction
    · rename_i st2 hloop
      have h2 : alloc_inv bm lo c.llc_pattern st2.a :=
        for_loop_inv (fun x => alloc_inv bm lo c.llc_pattern x.a) _
          (fun _ _ _ _ hx hb => lod_alloc_qos_pick_body_inv hcomp hx hb) _ _ _ _
          (h.frame (tick_frame _) _) hloop
      split at hr <;> simp only [Option.some.injEq, Prod.mk.injEq] at hr <;>
        obtain ⟨rfl, -⟩ := hr <;> exact h2

theorem lod_alloc_qos_release_body_inv {bm : cfs_bitmap} {lo : lod_object} {pattern i : Nat}
    {a a1 : alloc_state} {b : Bool} (h : alloc_inv bm lo pattern a)
    (hr : lod_alloc_qos_release_body i a = some (a1, b)) : alloc_inv bm lo pattern a1 := by
  unfold lod_alloc_qos_release_body at hr
  split at hr
  · simp only [Option.some.injEq, Prod.mk.injEq] at hr
    obtain ⟨rfl, -⟩ := hr
    exact h.of_eq ⟨rfl, rfl, rfl⟩ rfl rfl
  · contradiction

theorem lod_alloc_qos_result_ok {w : lod_backend} {s : lod_sys}
    {stripe : List (Option dt_object)} {ost_indices : List Nat} {flags comp_idx : Nat}
    {rc : Int} {a : alloc_state} {c : lod_layout_component}
    (hcomp : s.lo.ldo_comp_entries[comp_idx]? = some c)
    (hr : lod_alloc_qos w s stripe ost_indices flags comp_idx = some (rc, a)) :
    alloc_result_ok s c.llc_pattern a := by
  unfold lod_alloc_qos at hr
  simp only [hcomp] at hr
  have hz : ∀ s1 : lod_sys, s1.lod.lod_ost_bitmap = s.lod.lod_ost_bitmap →
      alloc_result_ok s c.llc_pattern
        { sys := s1, stripe := stripe, ost_indices := ost_indices, stripe_idx := 0,
          overstriped := false } := fun s1 hb => alloc_result_ok.zero _ hb _ _ _
  split at hr
  · simp only [Option.some.injEq, Prod.mk.injEq] at hr
    obtain ⟨-, rfl⟩ := hr
    exact hz _ rfl
  · split at hr
    · simp only [Option.some.injEq, Prod.mk.injEq] at hr
      obtain ⟨-, rfl⟩ := hr
      exact hz _ rfl
    · split at hr
      · contradiction
      · split at hr
        · simp only [Option.some.injEq, Prod.mk.injEq] at hr
          obtain ⟨-, rfl⟩ := hr
          exact hz _ rfl
        · have f1 := lod_qos_ost_in_use_clear_frame0 w
            { s.tick with lod := { s.lod with lod_qos := { s.lod.lod_qos with
                lq_dirty := (w.lqos_calc_penalties s.clock).2.1,
                lq_same_space := (w.lqos_calc_penalties s.clock).2.2 } } } c.llc_stripe_count
          split at hr
          · simp only [Option.some.injEq, Prod.mk.injEq] at hr
            obtain ⟨-, rfl⟩ := hr
            exact hz _ f1.bitmap
          · split at hr
            · contradiction
            · rename_i sc hscan
              have f2 := for_loop_inv (fun x => sys_frame _ x.sys) _
                (fun _ _ _ _ hx hb => lod_alloc_qos_scan_body_frame hx hb) _ _ _ _
                (sys_frame.refl _) hscan
              have hb2 : sc.sys.lod.lod_ost_bitmap = s.lod.lod_ost_bitmap :=
                f2.bitmap.trans f1.bitmap
              have hcomp2 : sc.sys.lo.ldo_comp_entries[comp_idx]? = some c := by
                rw [f2.lo, f1.lo]; exact hcomp
              repeat' first
                | contradiction
                | (simp only [Option.some.injEq, Prod.mk.injEq] at hr
                   obtain ⟨-, rfl⟩ := hr
                   first
                    | exact hz _ hb2
                    | (have h3 := for_loop_inv (fun x => alloc_inv _ _ c.llc_pattern x.a) _
                         (fun _ _ _ _ hx hb => lod_alloc_qos_round_inv hcomp2 hx hb) _ _ _ _
                         (alloc_inv.init _ _ _ _) (by assumption)
                       first
                        | exact h3.result hb2 _ rfl
                        | (have h4 := for_loop_inv (fun x => alloc_inv _ _ c.llc_pattern x) _
                             (fun _ _ _ _ hx hb => lod_alloc_qos_release_body_inv hx hb) _ _ _ _
                             h3 (by assumption)
                           exact h4.result hb2 _ rfl)))
                | split at hr

theorem getElem?_set_self_of_some {α : Type} {l : List α} {i : Nat} {x : α} (y : α)
    (h : l[i]? = some x) : (l.set i y)[i]? = some y := by
  have hl : i < l.length := by
    by_contra hc
    rw [List.getElem?_eq_none (by omega)] at h
    contradiction
  simp [hl]

theorem lod_alloc_rr_stored_count {w : lod_backend} {s : lod_sys}
    {stripe : List (Option dt_object)} {ost_indices : List Nat} {flags comp_idx : Nat}
    {a : alloc_state}
    (hr : lod_alloc_rr w s stripe ost_indices flags comp_idx = some (0, a)) :
    ∃ c1, a.sys.lo.ldo_comp_entries[comp_idx]? = some c1 ∧
      c1.llc_stripe_count = a.stripe_idx ∧ a.stripe_idx ≠ 0 := by
  unfold lod_alloc_rr at hr
  simp only at hr
  repeat' first
    | contradiction
    | (simp only [Option.some.injEq, Prod.mk.injEq] at hr
       obtain ⟨h0, rfl⟩ := hr
       first
        | omega
        | (split at h0 <;> simp [EINPROGRESS, ENOSPC] at h0)
        | (refine ⟨_, getElem?_set_self_of_some _ (by assumption), rfl, by assumption⟩))
    | split at hr

theorem lod_alloc_rr_comp {w : lod_backend} {s : lod_sys} {stripe : List (Option dt_object)}
    {ost_indices : List Nat} {flags comp_idx : Nat} {r : Int × alloc_state}
    (hr : lod_alloc_rr w s stripe ost_indices flags comp_idx = some r) :
    ∃ c, s.lo.ldo_comp_entries[comp_idx]? = some c := by
  cases hc : s.lo.ldo_comp_entries[comp_idx]? with
  | none => unfold lod_alloc_rr at hr; simp [hc] at hr
  | some c => exact ⟨c, rfl⟩

theorem lod_alloc_qos_comp {w : lod_backend} {s : lod_sys} {stripe : List (Option dt_object)}
    {ost_indices : List Nat} {flags comp_idx : Nat} {r : Int × alloc_state}
    (hr : lod_alloc_qos w s stripe ost_indices flags comp_idx = some r) :
    ∃ c, s.lo.ldo_comp_entries[comp_idx]? = some c := by
  cases hc : s.lo.ldo_comp_entries[comp_idx]? with
  | none => unfold lod_alloc_qos at hr; simp [hc] at hr
  | some c => exact ⟨c, rfl⟩

theorem lod_alloc_ost_list_comp {w : lod_backend} {s : lod_sys}
    {stripe : List (Option dt_object)} {ost_indices : List Nat} {comp_idx : Nat}
    {r : Int × alloc_state}
    (hr : lod_alloc_ost_list w s stripe ost_indices comp_idx = some r) :
    ∃ c, s.lo.ldo_comp_entries[comp_idx]? = some c := by
  cases hc : s.lo.ldo_comp_entries[comp_idx]? with
  | none => unfold lod_alloc_ost_list at hr; simp [hc] at hr
  | some c => exact ⟨c, rfl⟩

theorem lod_alloc_specific_comp {w : lod_backend} {s : lod_sys}
    {stripe : List (Option dt_object)} {ost_indices : List Nat} {flags comp_idx : Nat}
    {r : Int × alloc_state}
    (hr : lod_alloc_specific w s stripe ost_indices flags comp_idx = some r) :
    ∃ c, s.lo.ldo_comp_entries[comp_idx]? = some c := by
  cases hc : s.lo.ldo_comp_entries[comp_idx]? with
  | none => unfold lod_alloc_specific at hr; simp [hc] at hr
  | some c => exact ⟨c, rfl⟩

/-! ## C1 and C3: the picks are existing targets, distinct without overstriping -/

/-- C1: for each of the four policies and every device state, when the
allocation succeeds for a component whose pattern does not have
`OVERSTRIPING`, the target indices it reserved, `ost_indices[0 .. stripe_idx)`
with `stripe_idx` the number of stripes placed, are pairwise distinct; for the
round-robin policy `stripe_idx` is the stripe count it stores in the
component. -/
theorem C1_reserved_indices_pairwise_distinct (w : lod_backend) (s : lod_sys)
    (stripe : List (Option dt_object)) (ost_indices : List Nat) (flags comp_idx : Nat)
    (c : lod_layout_component) (hcomp : s.lo.ldo_comp_entries[comp_idx]? = some c)
    (hpat : c.llc_pattern &&& LOV_PATTERN_OVERSTRIPING = 0) :
    (∀ a, lod_alloc_rr w s stripe ost_indices flags comp_idx = some (0, a) →
      (a.ost_indices.take a.stripe_idx).Nodup ∧
      ∃ c1, a.sys.lo.ldo_comp_entries[comp_idx]? = some c1 ∧
        c1.llc_stripe_count = a.stripe_idx) ∧
    (∀ a, lod_alloc_qos w s stripe ost_indices flags comp_idx = some (0, a) →
      (a.ost_indices.take a.stripe_idx).Nodup) ∧
    (∀ a, lod_alloc_ost_list w s stripe ost_indices comp_idx = some (0, a) →
      (a.ost_indices.take a.stripe_idx).Nodup) ∧
    (∀ a, lod_alloc_specific w s stripe ost_indices flags comp_idx = some (0, a) →
      (a.ost_indices.take a.stripe_idx).Nodup) :=
  ⟨fun _ h => ⟨(lod_alloc_rr_result_ok hcomp h).nodup hpat,
      (lod_alloc_rr_stored_count h).imp fun _ hc => ⟨hc.1, hc.2.1⟩⟩,
   fun _ h => (lod_alloc_qos_result_ok hcomp h).nodup hpat,
   fun _ h => (lod_alloc_ost_list_result_ok hcomp h).nodup hpat,
   fun _ h => (lod_alloc_specific_result_ok hcomp h).nodup hpat⟩

/-- Witness of C1: the round-robin policy on scenario S1 succeeds with the four
stripes `[0, 4, 1, 5]`, which are pairwise distinct. -/
theorem C1_reserved_indices_pairwise_distinct_witness :
    ∃ a, lod_alloc_rr (healthy_backend false) s1_sys (List.replicate 4 none)
        (List.replicate 4 0) 0 0 = some (0, a) ∧
      a.ost_indices.take a.stripe_idx = [0, 4, 1, 5] ∧
      (a.ost_indices.take a.stripe_idx).Nodup := by
  have h : (lod_alloc_rr (healthy_backend false) s1_sys (List.replicate 4 none)
      (List.replicate 4 0) 0 0).map (fun r => (r.1, r.2.ost_indices.take r.2.stripe_idx)) =
      some (0, [0, 4, 1, 5]) := by decide
  obtain ⟨⟨rc, a⟩, h1, h2⟩ := Option.map_eq_some'.mp h
  simp only [Prod.mk.injEq] at h2
  obtain ⟨rfl, h3⟩ := h2
  exact ⟨a, h1, h3,
    ((C1_reserved_indices_pairwise_distinct (healthy_backend false) s1_sys _ _ 0 0
      (demo_comp 4) (by decide) (by decide)).1 a h1).1⟩

/-- C3: for every policy and every device state, the allocation leaves the
bitmap of existing targets (`lod_ost_bitmap`) as it was, and every target index
it wrote to the reservation buffer, `ost_indices[0 .. stripe_idx)`, is set in
that bitmap (with or without overstriping, whatever the result code). -/
theorem C3_reserved_indices_are_live (w : lod_backend) (s : lod_sys)
    (stripe : List (Option dt_object)) (ost_indices : List Nat) (flags comp_idx : Nat) :
    (∀ rc a, lod_alloc_rr w s stripe ost_indices flags comp_idx = some (rc, a) →
      a.sys.lod.lod_ost_bitmap = s.lod.lod_ost_bitmap ∧
      ∀ x ∈ a.ost_indices.take a.stripe_idx, cfs_bitmap_check s.lod.lod_ost_bitmap x = true) ∧
    (∀ rc a, lod_alloc_qos w s stripe ost_indices flags comp_idx = some (rc, a) →
      a.sys.lod.lod_ost_bitmap = s.lod.lod_ost_bitmap ∧
      ∀ x ∈ a.ost_indices.take a.stripe_idx, cfs_bitmap_check s.lod.lod_ost_bitmap x = true) ∧
    (∀ rc a, lod_alloc_ost_list w s stripe ost_indices comp_idx = some (rc, a) →
      a.sys.lod.lod_ost_bitmap = s.lod.lod_ost_bitmap ∧
      ∀ x ∈ a.ost_indices.take a.stripe_idx, cfs_bitmap_check s.lod.lod_ost_bitmap x = true) ∧
    (∀ rc a, lod_alloc_specific w s stripe ost_indices flags comp_idx = some (rc, a) →
      a.sys.lod.lod_ost_bitmap = s.lod.lod_ost_bitmap ∧
      ∀ x ∈ a.ost_indices.take a.stripe_idx, cfs_bitmap_check s.lod.lod_ost_bitmap x = true) := by
  refine ⟨fun rc a h => ?_, fun rc a h => ?_, fun rc a h => ?_, fun rc a h => ?_⟩
  · obtain ⟨c, hc⟩ := lod_alloc_rr_comp h
    exact ⟨(lod_alloc_rr_result_ok hc h).bitmap, (lod_alloc_rr_result_ok hc h).live⟩
  · obtain ⟨c, hc⟩ := lod_alloc_qos_comp h
    exact ⟨(lod_alloc_qos_result_ok hc h).bitmap, (lod_alloc_qos_result_ok hc h).live⟩
  · obtain ⟨c, hc⟩ := lod_alloc_ost_list_comp h
    exact ⟨(lod_alloc_ost_list_result_ok hc h).bitmap, (lod_alloc_ost_list_result_ok hc h).live⟩
  · obtain ⟨c, hc⟩ := lod_alloc_specific_comp h
    exact ⟨(lod_alloc_specific_result_ok hc h).bitmap,
      (lod_alloc_specific_result_ok hc h).live⟩

/-- Witness of C3: the QoS policy on scenario S1 succeeds with the stripes
`[0, 1, 2, 3]`, all of them existing targets. -/
theorem C3_reserved_indices_are_live_witness :
    ∃ a, lod_alloc_qos (healthy_backend true) s1_sys (List.replicate 4 none)
        (List.replicate 4 0) 0 0 = some (0, a) ∧
      a.ost_indices.take a.stripe_idx = [0, 1, 2, 3] ∧
      ∀ x ∈ a.ost_indices.take a.stripe_idx,
        cfs_bitmap_check s1_sys.lod.lod_ost_bitmap x = true := by
  have h : (lod_alloc_qos (healthy_backend true) s1_sys (List.replicate 4 none)
      (List.replicate 4 0) 0 0).map (fun r => (r.1, r.2.ost_indices.take r.2.stripe_idx)) =
      some (0, [0, 1, 2, 3]) := by decide
  obtain ⟨⟨rc, a⟩, h1, h2⟩ := Option.map_eq_some'.mp h
  simp only [Prod.mk.injEq] at h2
  obtain ⟨rfl, h3⟩ := h2
  exact ⟨a, h1, h3,
    ((C3_reserved_indices_are_live (healthy_backend true) s1_sys _ _ 0 0).2.1 0 a h1).2⟩

/-! ## C4: the round-robin table is a permutation of the pool -/

theorem for_loop_inv_idx {σ : Type} (P : Nat → σ → Prop) (body : Nat → σ → Option (σ × Bool))
    (hbody : ∀ i s s1 b, P i s → body i s = some (s1, b) → P (i + 1) s1 ∧ b = false) :
    ∀ fuel i s s1, P i s → for_loop body fuel i s = some s1 → P (i + fuel) s1 := by
  intro fuel
  induction fuel with
  | zero =>
    intro i s s1 hs h
    simp only [for_loop, Option.some.injEq] at h
    exact h ▸ hs
  | succ n ih =>
    intro i s s1 hs h
    simp only [for_loop] at h
    split at h
    · contradiction
    · rename_i s2 hb
      exact absurd (hbody i s s2 true hs hb).2 (by simp)
    · rename_i s2 hb
      have := ih (i + 1) s2 s1 (hbody i s s2 false hs hb).1 h
      rwa [Nat.add_assoc, Nat.add_comm 1 n] at this

theorem rr_probe_spec {arr : List Nat} {fuel next p : Nat}
    (h : rr_probe arr fuel next = some p) : arr[p]? = some LOV_QOS_EMPTY := by
  induction fuel generalizing next with
  | zero => simp [rr_probe] at h
  | succ n ih =>
    simp only [rr_probe] at h
    split at h
    · contradiction
    · rename_i v hv
      split at h
      · exact ih h
      · rename_i hne
        simp only [Option.some.injEq] at h
        subst h
        simp only [ne_eq, Decidable.not_not] at hne
        rw [hv, hne]

theorem filter_set_perm (arr : List Nat) (p t : Nat) (hp : arr[p]? = some LOV_QOS_EMPTY)
    (ht : t ≠ LOV_QOS_EMPTY) :
    ((arr.set p t).filter (fun x => decide (x ≠ LOV_QOS_EMPTY))).Perm
      (t :: arr.filter (fun x => decide (x ≠ LOV_QOS_EMPTY))) := by
  induction arr generalizing p with
  | nil => simp at hp
  | cons x xs ih =>
    cases p with
    | zero =>
      simp only [List.getElem?_cons_zero, Option.some.injEq] at hp
      subst hp
      simp [ht]
    | succ q =>
      simp only [List.getElem?_cons_succ] at hp
      simp only [List.set_cons_succ, List.filter_cons]
      split
      · exact ((ih q hp).cons x).trans (List.Perm.swap t x _)
      · exact ih q hp

theorem nodup_getElem?_inj {l : List Nat} (hl : l.Nodup) {i j : Nat} {t : Nat}
    (hi : l[i]? = some t) (hj : l[j]? = some t) : i = j := by
  obtain ⟨hi1, hi2⟩ := List.getElem?_eq_some.mp hi
  obtain ⟨hj1, hj2⟩ := List.getElem?_eq_some.mp hj
  exact (List.Nodup.getElem_inj_iff hl).mp (hi2.trans hj2.symm)

theorem lod_qos_calc_rr_place_inv {d : lod_device} {src_pool : ost_pool} {k : Nat}
    {oss : lu_svr_qos} {i : Nat} {st st1 : calc_rr_state} {b : Bool}
    (hpool : src_pool.op_array.Nodup)
    (hsent : cfs_bitmap_check d.lod_ost_bitmap LOV_QOS_EMPTY = false)
    (h : calc_rr_inv d src_pool.op_array k i st)
    (hr : lod_qos_calc_rr_place d src_pool k oss i st = some (st1, b)) :
    calc_rr_inv d src_pool.op_array k (i + 1) st1 ∧ b = false := by
  have hweak : calc_rr_inv d src_pool.op_array k (i + 1) st :=
    ⟨h.len, h.nodup, h.count, fun t ht => ⟨(h.mem t ht).1, (h.mem t ht).2.imp id
      (fun ⟨e, j, hj, hp⟩ => ⟨e, j, Nat.lt_succ_of_lt hj, hp⟩)⟩⟩
  unfold lod_qos_calc_rr_place at hr
  split at hr
  · contradiction
  · rename_i t ht
    split at hr
    · simp only [Option.some.injEq, Prod.mk.injEq] at hr
      obtain ⟨rfl, rfl⟩ := hr
      exact ⟨hweak, rfl⟩
    · rename_i hlive
      split at hr
      · simp only [Option.some.injEq, Prod.mk.injEq] at hr
        obtain ⟨rfl, rfl⟩ := hr
        exact ⟨hweak, rfl⟩
      · rename_i hsvr
        simp only [ne_eq, Decidable.not_not] at hsvr
        split at hr
        · contradiction
        · simp only at hr
          split at hr
          · contradiction
          · rename_i p hp
            simp only [Option.some.injEq, Prod.mk.injEq] at hr
            obtain ⟨rfl, rfl⟩ := hr
            have hte : t ≠ LOV_QOS_EMPTY := by
              intro e
              rw [e] at hlive
              exact hlive hsent
            have hperm := filter_set_perm st.op_array p t (rr_probe_spec hp) hte
            have hnew : t ∉ st.op_array.filter (fun x => decide (x ≠ LOV_QOS_EMPTY)) := by
              intro hin
              rcases (h.mem t hin).2 with hlt | ⟨-, j, hj, hpj⟩
              · omega
              · have := nodup_getElem?_inj hpool hpj ht
                omega
            refine ⟨⟨?_, ?_, ?_, ?_⟩, rfl⟩
            · simpa using h.len
            · exact hperm.nodup_iff.mpr (List.nodup_cons.mpr ⟨hnew, h.nodup⟩)
            · simp only [hperm.length_eq, List.length_cons, h.count]
            · intro x hx
              rcases List.mem_cons.mp (hperm.mem_iff.mp hx) with rfl | hx
              · exact ⟨List.getElem?_mem ht, Or.inr ⟨hsvr, i, Nat.lt_succ_self i, ht⟩⟩
              · exact hweak.mem x hx

theorem lod_qos_calc_rr_svr_inv {d : lod_device} {src_pool : ost_pool} {k : Nat}
    {st st1 : calc_rr_state} {b : Bool}
    (hpool : src_pool.op_array.Nodup)
    (hsent : cfs_bitmap_check d.lod_ost_bitmap LOV_QOS_EMPTY = false)
    (h : calc_rr_inv d src_pool.op_array k 0 st)
    (hr : lod_qos_calc_rr_svr d src_pool k st = some (st1, b)) :
    calc_rr_inv d src_pool.op_array (k + 1) 0 st1 ∧ b = false := by
  unfold lod_qos_calc_rr_svr at hr
  split at hr
  · contradiction
  · rename_i oss hoss
    split at hr
    · contradiction
    · rename_i st2 hloop
      simp only [Option.some.injEq, Prod.mk.injEq] at hr
      obtain ⟨rfl, rfl⟩ := hr
      have h0 : calc_rr_inv d src_pool.op_array k 0 { st with j := 0 } :=
        ⟨h.len, h.nodup, h.count, h.mem⟩
      have h2 := for_loop_inv_idx (calc_rr_inv d src_pool.op_array k) _
        (fun _ _ _ _ hx hb => lod_qos_calc_rr_place_inv hpool hsent hx hb) _ _ _ _ h0 hloop
      refine ⟨⟨h2.len, h2.nodup, h2.count, fun t ht => ⟨(h2.mem t ht).1, Or.inl ?_⟩⟩, rfl⟩
      rcases (h2.mem t ht).2 with hlt | ⟨he, -⟩ <;> omega

/-- The table computed from a pool with pairwise distinct targets: when all of
them have been placed, the table is a permutation of the pool and no slot is
left empty. -/
theorem lod_qos_calc_rr_table_perm {d : lod_device} {src_pool : ost_pool}
    {st : calc_rr_state} (hpool : src_pool.op_array.Nodup)
    (hsent : cfs_bitmap_check d.lod_ost_bitmap LOV_QOS_EMPTY = false)
    (hr : lod_qos_calc_rr_table d src_pool = some st) (hplaced : st.placed = src_pool.op_count) :
    st.op_array.Perm src_pool.op_array ∧ LOV_QOS_EMPTY ∉ st.op_array := by
  unfold lod_qos_calc_rr_table at hr
  have h0 : calc_rr_inv d src_pool.op_array 0 0
      { op_array := List.replicate src_pool.op_count LOV_QOS_EMPTY, placed := 0, j := 0 } := by
    have hf : (List.replicate src_pool.op_count LOV_QOS_EMPTY).filter
        (fun x => decide (x ≠ LOV_QOS_EMPTY)) = [] := by
      rw [List.filter_eq_nil_iff]
      intro a ha
      simp [List.eq_of_mem_replicate ha]
    refine ⟨by simp [ost_pool.op_count], ?_, ?_, ?_⟩ <;> simp only [hf] <;> simp
  have h1 := for_loop_inv_idx (fun k => calc_rr_inv d src_pool.op_array k 0) _
    (fun _ _ _ _ hx hb => lod_qos_calc_rr_svr_inv hpool hsent hx hb) _ _ _ _ h0 hr
  have hlen : (st.op_array.filter (fun x => decide (x ≠ LOV_QOS_EMPTY))).length =
      st.op_array.length := by
    rw [h1.count, hplaced, h1.len, ost_pool.op_count]
  have heq : st.op_array.filter (fun x => decide (x ≠ LOV_QOS_EMPTY)) = st.op_array :=
    List.Sublist.eq_of_length (List.filter_sublist _) hlen
  have hsub : st.op_array.filter (fun x => decide (x ≠ LOV_QOS_EMPTY)) ⊆ src_pool.op_array :=
    fun t ht => (h1.mem t ht).1
  have hperm := (List.subperm_of_subset h1.nodup hsub).perm_of_length_le
    (by rw [hlen, h1.len])
  rw [heq] at hperm
  refine ⟨hperm, ?_⟩
  intro hin
  rw [← heq] at hin
  simpa using (List.mem_filter.mp hin).2

theorem pool_lqr_set_pool_lqr (d : lod_device) (r : pool_ref) (v : lu_qos_rr) :
    pool_lqr (set_pool_lqr d r v) r = v := by
  cases r with
  | dev => rfl
  | named name =>
    unfold set_pool_lqr pool_lqr
    simp only
    cases hf : lod_find_pool d name with
    | none =>
      simp only
      have : lod_find_pool { d with lod_qos := { d.lod_qos with lq_rr := v } } name = none := hf
      rw [this]
    | some p =>
      simp only [lod_find_pool, if_true]

/-- C4: for every pool with pairwise distinct entries (the empty-slot sentinel
not being an existing target): when `lod_qos_calc_rr` runs on a dirty
round-robin table and returns success, `lqr_dirty` is cleared, the table has
length `pool_count`, it is a permutation of the pool's targets and holds no
empty sentinel; and when the table could be allocated but the number of placed
targets differs from `pool_count`, it returns `-EAGAIN` and leaves `lqr_dirty`
set. -/
theorem C4_calc_rr_table_is_permutation (w : lod_backend) (s s1 : lod_sys) (r : pool_ref)
    (rc : Int)
    (hpool : (pool_osts s.lod r).op_array.Nodup)
    (hsent : cfs_bitmap_check s.lod.lod_ost_bitmap LOV_QOS_EMPTY = false)
    (hdirty : (pool_lqr s.lod r).lqr_dirty = true)
    (hr : lod_qos_calc_rr w s r = some (rc, s1)) :
    (rc = 0 →
      (pool_lqr s1.lod r).lqr_dirty = false ∧
      (pool_lqr s1.lod r).lqr_pool.op_count = (pool_osts s.lod r).op_count ∧
      (pool_lqr s1.lod r).lqr_pool.op_array.Perm (pool_osts s.lod r).op_array ∧
      LOV_QOS_EMPTY ∉ (pool_lqr s1.lod r).lqr_pool.op_array) ∧
    (∀ st, (lod_ost_pool_extend w s.clock (pool_lqr s.lod r).lqr_pool
          (pool_osts s.lod r).op_count).1 = 0 →
      lod_qos_calc_rr_table s.lod (pool_osts s.lod r) = some st →
      st.placed ≠ (pool_osts s.lod r).op_count →
      rc = -EAGAIN ∧ (pool_lqr s1.lod r).lqr_dirty = true) := by
  unfold lod_qos_calc_rr at hr
  simp only [hdirty, Bool.true_eq_false, if_false] at hr
  split at hr
  · rename_i hext
    simp only [Option.some.injEq, Prod.mk.injEq] at hr
    obtain ⟨rfl, rfl⟩ := hr
    exact ⟨fun h0 => absurd h0 hext, fun st he _ _ => absurd he hext⟩
  · split at hr
    · contradiction
    · rename_i st hst
      have hst0 : lod_qos_calc_rr_table s.lod (pool_osts s.lod r) = some st := hst
      split at hr
      · rename_i hne
        simp only [Option.some.injEq, Prod.mk.injEq] at hr
        obtain ⟨rfl, rfl⟩ := hr
        refine ⟨fun h0 => absurd h0 (by decide), fun st2 _ hst2 _ => ⟨rfl, ?_⟩⟩
        show (pool_lqr (set_pool_lqr s.lod r _) r).lqr_dirty = true
        rw [pool_lqr_set_pool_lqr]
      · rename_i heq
        simp only [ne_eq, Decidable.not_not] at heq
        simp only [Option.some.injEq, Prod.mk.injEq] at hr
        obtain ⟨rfl, rfl⟩ := hr
        have hp := lod_qos_calc_rr_table_perm hpool hsent hst0 heq
        refine ⟨fun _ => ?_, fun st2 _ hst2 hne => ?_⟩
        · refine ⟨?_, ?_, ?_, ?_⟩
          · show (pool_lqr (set_pool_lqr s.lod r _) r).lqr_dirty = false
            rw [pool_lqr_set_pool_lqr]
          · show (pool_lqr (set_pool_lqr s.lod r _) r).lqr_pool.op_count = _
            rw [pool_lqr_set_pool_lqr]
            simpa [ost_pool.op_count] using hp.1.length_eq
          · show (pool_lqr (set_pool_lqr s.lod r _) r).lqr_pool.op_array.Perm _
            rw [pool_lqr_set_pool_lqr]
            exact hp.1
          · show LOV_QOS_EMPTY ∉ (pool_lqr (set_pool_lqr s.lod r _) r).lqr_pool.op_array
            rw [pool_lqr_set_pool_lqr]
            exact hp.2
        · rw [hst0] at hst2
          simp only [Option.some.injEq] at hst2
          subst hst2
          exact absurd heq hne

/-- Witness of C4: on scenario S1 the recompute succeeds with the table
`[0, 4, 1, 5, 2, 6, 3, 7]`, a permutation of the pool `0 .. 7`. -/
theorem C4_calc_rr_table_is_permutation_witness :
    ∃ s1, lod_qos_calc_rr (healthy_backend false) s1_sys pool_ref.dev = some (0, s1) ∧
      (pool_lqr s1.lod pool_ref.dev).lqr_pool.op_array = [0, 4, 1, 5, 2, 6, 3, 7] ∧
      (pool_lqr s1.lod pool_ref.dev).lqr_dirty = false ∧
      (pool_lqr s1.lod pool_ref.dev).lqr_pool.op_array.Perm (List.range 8) := by
  have h : (lod_qos_calc_rr (healthy_backend false) s1_sys pool_ref.dev).map
      (fun x => (x.1, (pool_lqr x.2.lod pool_ref.dev).lqr_pool.op_array)) =
      some (0, [0, 4, 1, 5, 2, 6, 3, 7]) := by decide
  obtain ⟨⟨rc, s1⟩, h1, h2⟩ := Option.map_eq_some'.mp h
  simp only [Prod.mk.injEq] at h2
  obtain ⟨rfl, h3⟩ := h2
  have hc := (C4_calc_rr_table_is_permutation (healthy_backend false) s1_sys s1 pool_ref.dev 0
    (by decide) (by decide) (by decide) h1).1 rfl
  exact ⟨s1, h1, h3, hc.1, hc.2.2.1⟩

/-! ## C7: the avoid bitmap after prepare and collect -/

/-- A loop whose steps each add the set `S i` to a set-valued view `bit` of
the state adds the union of the `S i` over the range it ran through. -/
theorem for_loop_union {σ : Type} (bit : σ → Nat → Prop) (S : Nat → Nat → Prop)
    (body : Nat → σ → Option (σ × Bool))
    (hbody : ∀ i s s1 b, body i s = some (s1, b) →
      b = false ∧ ∀ x, bit s1 x ↔ (bit s x ∨ S i x)) :
    ∀ fuel i0 s s1, for_loop body fuel i0 s = some s1 →
      ∀ x, bit s1 x ↔ (bit s x ∨ ∃ i, i0 ≤ i ∧ i < i0 + fuel ∧ S i x) := by
  intro fuel
  induction fuel with
  | zero =>
    intro i0 s s1 h x
    simp only [for_loop, Option.some.injEq] at h
    subst h
    constructor
    · exact Or.inl
    · rintro (h | ⟨i, h1, h2, -⟩)
      · exact h
      · omega
  | succ n ih =>
    intro i0 s s1 h x
    simp only [for_loop] at h
    split at h
    · contradiction
    · rename_i s2 hb
      exact absurd (hbody i0 s s2 true hb).1 (by simp)
    · rename_i s2 hb
      rw [ih (i0 + 1) s2 s1 h x, (hbody i0 s s2 false hb).2 x]
      constructor
      · rintro ((h | h) | ⟨i, h1, h2, h3⟩)
        · exact Or.inl h
        · exact Or.inr ⟨i0, Nat.le_refl _, by omega, h⟩
        · exact Or.inr ⟨i, by omega, by omega, h3⟩
      · rintro (h | ⟨i, h1, h2, h3⟩)
        · exact Or.inl (Or.inl h)
        · by_cases hi : i = i0
          · subst hi
            exact Or.inl (Or.inr h3)
          · exact Or.inr ⟨i, by omega, by omega, h3⟩

theorem cfs_bitmap_check_set {b b1 : cfs_bitmap} {i : Nat} (h : cfs_bitmap_set b i = some b1)
    (x : Nat) : cfs_bitmap_check b1 x = true ↔ (cfs_bitmap_check b x = true ∨ x = i) := by
  unfold cfs_bitmap_set at h
  split at h
  · rename_i hi
    simp only [Option.some.injEq] at h
    subst h
    simp only [cfs_bitmap_check, Bool.and_eq_true, decide_eq_true_eq]
    by_cases hx : x = i
    · subst hx
      simp [hi]
    · simp [hx]
  · contradiction

theorem lod_collect_avoidance_stripe_bits {d : lod_device} {comp : lod_layout_component}
    {j : Nat} {lag lag1 : lod_avoid_guide} {b : Bool}
    (hr : lod_collect_avoidance_stripe d comp j lag = some (lag1, b)) :
    b = false ∧ ∀ x, lag_ost_avoid_bit lag1 x = true ↔
      (lag_ost_avoid_bit lag x = true ∨
        ∃ inds t, comp.llc_ost_indices = some inds ∧ inds[j]? = some t ∧
          x = (OST_TGT d t).ltd_index) := by
  unfold lod_collect_avoidance_stripe at hr
  split at hr
  · rename_i inds bitmap hinds hbm
    split at hr
    · contradiction
    · rename_i t ht
      simp only at hr
      split at hr
      · rename_i hset
        simp only [Option.some.injEq, Prod.mk.injEq] at hr
        obtain ⟨rfl, rfl⟩ := hr
        refine ⟨rfl, fun x => ⟨Or.inl, ?_⟩⟩
        rintro (h | ⟨inds2, t2, h1, h2, rfl⟩)
        · exact h
        · rw [hinds] at h1
          simp only [Option.some.injEq] at h1
          subst h1
          rw [ht] at h2
          simp only [Option.some.injEq] at h2
          subst h2
          simp only [lag_ost_avoid_bit, hbm]
          exact hset
      · split at hr
        · rename_i bitmap1 lsq arr hset hlsq harr
          have key : ∀ lag2 : lod_avoid_guide, lag2.lag_ost_avoid_bitmap = some bitmap1 →
              ∀ x, lag_ost_avoid_bit lag2 x = true ↔
                (lag_ost_avoid_bit lag x = true ∨
                  ∃ inds t, comp.llc_ost_indices = some inds ∧ inds[j]? = some t ∧
                    x = (OST_TGT d t).ltd_index) := by
            intro lag2 h2 x
            simp only [lag_ost_avoid_bit, h2, hbm, cfs_bitmap_check_set hset x]
            constructor
            · rintro (h | h)
              · exact Or.inl h
              · exact Or.inr ⟨inds, t, hinds, ht, h⟩
            · rintro (h | ⟨inds2, t2, h1, h3, h4⟩)
              · exact Or.inl h
              · rw [hinds] at h1
                simp only [Option.some.injEq] at h1
                subst h1
                rw [ht] at h3
                simp only [Option.some.injEq] at h3
                subst h3
                exact Or.inr h4
          repeat' first
            | contradiction
            | (simp only [Option.some.injEq, Prod.mk.injEq] at hr
               obtain ⟨rfl, rfl⟩ := hr
               exact ⟨rfl, key _ rfl⟩)
            | split at hr
        · contradiction
  · contradiction

theorem lod_collect_avoidance_comp_bits {d : lod_device} {lo : lod_object}
    {lod_comp : lod_layout_component} {c : Nat} {lag lag1 : lod_avoid_guide} {b : Bool}
    (hr : lod_collect_avoidance_comp d lo lod_comp c lag = some (lag1, b)) :
    b = false ∧ ∀ x, lag_ost_avoid_bit lag1 x = true ↔
      (lag_ost_avoid_bit lag x = true ∨
        ∃ comp inds j t, lo.ldo_comp_entries[c]? = some comp ∧
          lu_extent_is_overlapped comp.llc_extent lod_comp.llc_extent = true ∧
          comp.llc_stripe.isSome = true ∧
          comp.llc_ost_indices = some inds ∧ j < comp.llc_stripe_count ∧
          inds[j]? = some t ∧ x = (OST_TGT d t).ltd_index) := by
  unfold lod_collect_avoidance_comp at hr
  split at hr
  · contradiction
  · rename_i comp hcomp
    split at hr
    · rename_i hskip
      simp only [Option.some.injEq, Prod.mk.injEq] at hr
      obtain ⟨rfl, rfl⟩ := hr
      refine ⟨rfl, fun x => ⟨Or.inl, ?_⟩⟩
      rintro (h | ⟨comp2, inds, j, t, h1, h2, h3, -⟩)
      · exact h
      · rw [hcomp] at h1
        simp only [Option.some.injEq] at h1
        subst h1
        rcases hskip with h | h
        · rw [h] at h2
          contradiction
        · rw [Option.isNone_iff_eq_none] at h
          rw [h] at h3
          contradiction
    · rename_i hskip
      split at hr
      · contradiction
      · rename_i lag2 hloop
        simp only [Option.some.injEq, Prod.mk.injEq] at hr
        obtain ⟨rfl, rfl⟩ := hr
        refine ⟨rfl, fun x => ?_⟩
        have hu := for_loop_union (fun l y => lag_ost_avoid_bit l y = true)
          (fun j y => ∃ inds t, comp.llc_ost_indices = some inds ∧ inds[j]? = some t ∧
            y = (OST_TGT d t).ltd_index)
          (lod_collect_avoidance_stripe d comp)
          (fun j l l1 b1 h => lod_collect_avoidance_stripe_bits h)
          comp.llc_stripe_count 0 lag lag2 hloop x
        rw [hu]
        have hov : lu_extent_is_overlapped comp.llc_extent lod_comp.llc_extent = true := by
          by_contra hn
          exact hskip (Or.inl (by simpa using hn))
        have hst : comp.llc_stripe.isSome = true := by
          by_contra hn
          apply hskip
          right
          cases hs : comp.llc_stripe
          · rfl
          · rw [hs] at hn
            exact absurd rfl hn
        constructor
        · rintro (h | ⟨j, -, hj, inds, t, h1, h2, h3⟩)
          · exact Or.inl h
          · exact Or.inr ⟨comp, inds, j, t, hcomp, hov, hst, h1, by omega, h2, h3⟩
        · rintro (h | ⟨comp2, inds, j, t, h1, -, -, h4, h5, h6, h7⟩)
          · exact Or.inl h
          · rw [hcomp] at h1
            simp only [Option.some.injEq] at h1
            subst h1
            exact Or.inr ⟨j, Nat.zero_le _, by omega, inds, t, h4, h6, h7⟩

theorem lod_collect_avoidance_mirror_bits {d : lod_device} {lo : lod_object}
    {lod_comp : lod_layout_component} {i : Nat} {lag lag1 : lod_avoid_guide} {b : Bool}
    (hr : lod_collect_avoidance_mirror d lo lod_comp i lag = some (lag1, b)) :
    b = false ∧ ∀ x, lag_ost_avoid_bit lag1 x = true ↔
      (lag_ost_avoid_bit lag x = true ∨
        ∃ lme fc c comp inds j t, lo.ldo_mirrors[i]? = some lme ∧
          lo.ldo_comp_entries[lme.lme_start]? = some fc ∧
          ¬ collect_skips_mirror fc lod_comp ∧ mirror_contains lme c ∧
          lo.ldo_comp_entries[c]? = some comp ∧
          lu_extent_is_overlapped comp.llc_extent lod_comp.llc_extent = true ∧
          comp.llc_stripe.isSome = true ∧
          comp.llc_ost_indices = some inds ∧ j < comp.llc_stripe_count ∧
          inds[j]? = some t ∧ x = (OST_TGT d t).ltd_index) := by
  unfold lod_collect_avoidance_mirror at hr
  split at hr
  · contradiction
  · rename_i lme hlme
    split at hr
    · contradiction
    · rename_i fc hfc
      split at hr
      · rename_i hskip
        simp only [Option.some.injEq, Prod.mk.injEq] at hr
        obtain ⟨rfl, rfl⟩ := hr
        refine ⟨rfl, fun x => ⟨Or.inl, ?_⟩⟩
        rintro (h | ⟨lme2, fc2, c, comp, inds, j, t, h1, h2, h3, -⟩)
        · exact h
        · rw [hlme] at h1
          simp only [Option.some.injEq] at h1
          subst h1
          rw [hfc] at h2
          simp only [Option.some.injEq] at h2
          subst h2
          exact absurd hskip h3
      · rename_i hskip
        split at hr
        · contradiction
        · rename_i lag2 hloop
          simp only [Option.some.injEq, Prod.mk.injEq] at hr
          obtain ⟨rfl, rfl⟩ := hr
          refine ⟨rfl, fun x => ?_⟩
          have hu := for_loop_union (fun l y => lag_ost_avoid_bit l y = true)
            (fun c y => ∃ comp inds j t, lo.ldo_comp_entries[c]? = some comp ∧
              lu_extent_is_overlapped comp.llc_extent lod_comp.llc_extent = true ∧
              comp.llc_stripe.isSome = true ∧
              comp.llc_ost_indices = some inds ∧ j < comp.llc_stripe_count ∧
              inds[j]? = some t ∧ y = (OST_TGT d t).ltd_index)
            (lod_collect_avoidance_comp d lo lod_comp)
            (fun c l l1 b1 h => lod_collect_avoidance_comp_bits h)
            (lme.lme_end + 1 - lme.lme_start) lme.lme_start lag lag2 hloop x
          rw [hu]
          constructor
          · rintro (h | ⟨c, hc1, hc2, comp, inds, j, t, h1, h2, h3, h4, h5, h6, h7⟩)
            · exact Or.inl h
            · exact Or.inr ⟨lme, fc, c, comp, inds, j, t, hlme, hfc, hskip,
                ⟨hc1, by omega⟩, h1, h2, h3, h4, h5, h6, h7⟩
          · rintro (h | ⟨lme2, fc2, c, comp, inds, j, t, h1, h2, -, hc, h5, h6, h7, h8, h9,
                h10, h11⟩)
            · exact Or.inl h
            · rw [hlme] at h1
              simp only [Option.some.injEq] at h1
              subst h1
              obtain ⟨hc1, hc2⟩ := hc
              exact Or.inr ⟨c, hc1, by omega, comp, inds, j, t, h5, h6, h7, h8, h9, h10, h11⟩

theorem lod_collect_avoidance_bits {d : lod_device} {lo : lod_object}
    {comp_idx : Nat} {lag lag1 : lod_avoid_guide}
    (hr : lod_collect_avoidance d lo lag comp_idx = some lag1) :
    ∃ lod_comp, lo.ldo_comp_entries[comp_idx]? = some lod_comp ∧
      ∀ x, lag_ost_avoid_bit lag1 x = true ↔
      (lag_ost_avoid_bit lag x = true ∨
        ∃ i lme fc c comp inds j t, i < lo.ldo_mirror_count ∧ lo.ldo_mirrors[i]? = some lme ∧
          lo.ldo_comp_entries[lme.lme_start]? = some fc ∧
          ¬ collect_skips_mirror fc lod_comp ∧ mirror_contains lme c ∧
          lo.ldo_comp_entries[c]? = some comp ∧
          lu_extent_is_overlapped comp.llc_extent lod_comp.llc_extent = true ∧
          comp.llc_stripe.isSome = true ∧
          comp.llc_ost_indices = some inds ∧ j < comp.llc_stripe_count ∧
          inds[j]? = some t ∧ x = (OST_TGT d t).ltd_index) := by
  unfold lod_collect_avoidance at hr
  split at hr
  · contradiction
  · rename_i lod_comp hcomp
    refine ⟨lod_comp, hcomp, fun x => ?_⟩
    have hu := for_loop_union (fun l y => lag_ost_avoid_bit l y = true)
      (fun i y => ∃ lme fc c comp inds j t, lo.ldo_mirrors[i]? = some lme ∧
          lo.ldo_comp_entries[lme.lme_start]? = some fc ∧
          ¬ collect_skips_mirror fc lod_comp ∧ mirror_contains lme c ∧
          lo.ldo_comp_entries[c]? = some comp ∧
          lu_extent_is_overlapped comp.llc_extent lod_comp.llc_extent = true ∧
          comp.llc_stripe.isSome = true ∧
          comp.llc_ost_indices = some inds ∧ j < comp.llc_stripe_count ∧
          inds[j]? = some t ∧ y = (OST_TGT d t).ltd_index)
      (lod_collect_avoidance_mirror d lo lod_comp)
      (fun i l l1 b1 h => lod_collect_avoidance_mirror_bits h)
      lo.ldo_mirror_count 0 lag lag1 hr x
    rw [hu]
    constructor
    · rintro (h | ⟨i, -, hi, lme, fc, c, comp, inds, j, t, h⟩)
      · exact Or.inl h
      · exact Or.inr ⟨i, lme, fc, c, comp, inds, j, t, by omega, h⟩
    · rintro (h | ⟨i, lme, fc, c, comp, inds, j, t, hi, h⟩)
      · exact Or.inl h
      · exact Or.inr ⟨i, Nat.zero_le _, by omega, lme, fc, c, comp, inds, j, t, h⟩

theorem lod_prepare_avoidance_spec (w : lod_backend) (s : lod_sys) (r : Int × lod_sys)
    (hr : lod_prepare_avoidance w s = r) (h : r.1 = 0) :
    r.2.lod = s.lod ∧ r.2.lo = s.lo ∧ ∀ x, lag_ost_avoid_bit r.2.lti.lti_avoid x = false := by
  have hE : (-ENOMEM : Int) ≠ 0 := by decide
  unfold lod_prepare_avoidance at hr
  lift_lets at hr
  extract_lets tgtnr lag0 lag1 lag2 lag3 nb no bf s1 l1 ofl s2 l2 lag4 lag5 at hr
  have h3 : ∀ x, lag_ost_avoid_bit lag3 x = false := by
    intro x
    have h0 : lag3.lag_ost_avoid_bitmap = none ∨
        ∃ b, lag3.lag_ost_avoid_bitmap = some (CFS_RESET_BITMAP b) := by
      simp only [lag3]
      split
      · rename_i hn
        exact Or.inl hn
      · split
        · exact Or.inr ⟨_, rfl⟩
        · exact Or.inl rfl
    rcases h0 with h0 | ⟨b, h0⟩
    · simp only [lag_ost_avoid_bit, h0]
    · simp only [lag_ost_avoid_bit, h0, cfs_bitmap_check, CFS_RESET_BITMAP, Bool.and_false]
  have hs1 : s1.lod = s.lod ∧ s1.lo = s.lo := by
    simp only [s1]
    split <;> exact ⟨rfl, rfl⟩
  have hs2 : s2.lod = s.lod ∧ s2.lo = s.lo := by
    simp only [s2]
    split
    · exact hs1
    · exact hs1
  split at hr
  · subst hr
    exact absurd h hE
  · split at hr
    · subst hr
      exact absurd h hE
    · subst hr
      refine ⟨hs2.1, hs2.2, fun x => ?_⟩
      show lag_ost_avoid_bit lag5 x = false
      have h4 : lag4.lag_ost_avoid_bitmap = lag3.lag_ost_avoid_bitmap := by
        simp only [lag4]
        split <;> rfl
      simp only [lag5]
      split
      · simp [lag_ost_avoid_bit, cfs_bitmap_check, CFS_ALLOCATE_BITMAP]
      · have := h3 x
        simp only [lag_ost_avoid_bit, h4] at this ⊢
        exact this

/-- C7: after `lod_prepare_avoidance` succeeds and `lod_collect_avoidance(lo,
lag, comp_idx)` has run on the guide it prepared, a bit of the avoid bitmap is
set exactly when it is a target index of a bound component of another mirror
whose extent overlaps that of `comp_idx`; the layout is one in which target
descriptors sit at their own index and component ids name the mirrors. -/
theorem C7_avoid_bitmap_is_union_of_conflicting_targets (w : lod_backend) (s : lod_sys)
    (comp_idx : Nat) (lag : lod_avoid_guide)
    (hidx : ∀ i, (OST_TGT s.lod i).ltd_index = i)
    (hwf : mirror_ids_wf s.lo comp_idx)
    (hprep : (lod_prepare_avoidance w s).1 = 0)
    (hcol : lod_collect_avoidance (lod_prepare_avoidance w s).2.lod
      (lod_prepare_avoidance w s).2.lo (lod_prepare_avoidance w s).2.lti.lti_avoid comp_idx
        = some lag) :
    ∀ x, lag_ost_avoid_bit lag x = true ↔ conflicting_target s.lo comp_idx x := by
  obtain ⟨h1, h2, h3⟩ := lod_prepare_avoidance_spec w s _ rfl hprep
  rw [h1, h2] at hcol
  obtain ⟨lod_comp, hcomp, hbits⟩ := lod_collect_avoidance_bits hcol
  intro x
  rw [hbits x]
  constructor
  · rintro (h | ⟨i, lme, fc, c, comp, inds, j, t, hi, hlme, hfc, hskip, hc, hcc, hov, hst, hinds,
        hj, ht, hx⟩)
    · rw [h3 x] at h
      contradiction
    · rw [hidx t] at hx
      subst hx
      refine ⟨lod_comp, i, lme, c, comp, inds, j, hcomp, hi, hlme, ?_, hc, hcc, hov, hst, hinds,
        hj, ht⟩
      intro hown
      rcases (hwf lod_comp i lme fc hcomp hi hlme hfc).2 hown with h | h
      · exact hskip h
      · exact h c comp hc hcc ⟨hov, hst⟩
  · rintro ⟨lod_comp2, i, lme, c, comp, inds, j, hcomp2, hi, hlme, hother, hc, hcc, hov, hst,
      hinds, hj, ht⟩
    rw [hcomp] at hcomp2
    simp only [Option.some.injEq] at hcomp2
    subst hcomp2
    right
    have hlt : c < s.lo.ldo_comp_entries.length := (List.getElem?_eq_some.mp hcc).1
    have hstart : lme.lme_start < s.lo.ldo_comp_entries.length := Nat.lt_of_le_of_lt hc.1 hlt
    have hfc : s.lo.ldo_comp_entries[lme.lme_start]? = some (s.lo.ldo_comp_entries[lme.lme_start]) :=
      List.getElem?_eq_getElem hstart
    exact ⟨i, lme, _, c, comp, inds, j, x, hi, hlme, hfc,
      (hwf lod_comp i lme _ hcomp hi hlme hfc).1 hother, hc, hcc, hov, hst, hinds, hj, ht,
      (hidx x).symm⟩

theorem C7_avoid_bitmap_is_union_of_conflicting_targets_witness :
    ∃ lag, lod_collect_avoidance (lod_prepare_avoidance (healthy_backend true) s5_sys).2.lod
        (lod_prepare_avoidance (healthy_backend true) s5_sys).2.lo
        (lod_prepare_avoidance (healthy_backend true) s5_sys).2.lti.lti_avoid 1 = some lag ∧
      (lag_ost_avoid_bit lag 0 = true ∧ lag_ost_avoid_bit lag 2 = true) ∧
      ∀ x, lag_ost_avoid_bit lag x = true ↔ conflicting_target s5_sys.lo 1 x := by
  have hsome : ((lod_collect_avoidance
      (lod_prepare_avoidance (healthy_backend true) s5_sys).2.lod
      (lod_prepare_avoidance (healthy_backend true) s5_sys).2.lo
      (lod_prepare_avoidance (healthy_backend true) s5_sys).2.lti.lti_avoid 1).map
        (fun lag => (lag_ost_avoid_bit lag 0, lag_ost_avoid_bit lag 2))) = some (true, true) := by
    decide
  obtain ⟨lag, h1, h2⟩ := Option.map_eq_some'.mp hsome
  simp only [Prod.mk.injEq] at h2
  refine ⟨lag, h1, h2, ?_⟩
  apply C7_avoid_bitmap_is_union_of_conflicting_targets (healthy_backend true) s5_sys 1 lag
    (fun i => rfl) ?_ (by decide) h1
  intro lod_comp i lme fc hcomp hi hlme hfc
  have hi2 : i < 2 := hi
  have e1 : s5_comp1 = lod_comp := by
    simpa [s5_sys, demo_sys, s5_object] using hcomp
  subst e1
  interval_cases i
  · have e2 : (⟨0, 0⟩ : lod_mirror_entry) = lme := by
      simpa [s5_sys, demo_sys, s5_object] using hlme
    subst e2
    have e3 : s5_comp0 = fc := by
      simpa [s5_sys, demo_sys, s5_object] using hfc
    subst e3
    refine ⟨fun _ h => absurd h.2 (by decide), fun h => absurd h.2 (by decide)⟩
  · have e2 : (⟨1, 1⟩ : lod_mirror_entry) = lme := by
      simpa [s5_sys, demo_sys, s5_object] using hlme
    subst e2
    have e3 : s5_comp1 = fc := by
      simpa [s5_sys, demo_sys, s5_object] using hfc
    subst e3
    refine ⟨fun h => absurd ⟨Nat.le_refl 1, Nat.le_refl 1⟩ h, fun _ => Or.inl ⟨by decide, rfl⟩⟩

/-! ## C8: order of the explicit-list policy -/

/-- A loop invariant indexed by the loop counter; a step that breaks
establishes `Q` instead. -/
theorem for_loop_inv_brk {σ : Type} (P : Nat → σ → Prop) (Q : σ → Prop)
    (body : Nat → σ → Option (σ × Bool))
    (hbody : ∀ i s s1 b, P i s → body i s = some (s1, b) →
      (b = false → P (i + 1) s1) ∧ (b = true → Q s1)) :
    ∀ fuel i s s1, P i s → for_loop body fuel i s = some s1 → P (i + fuel) s1 ∨ Q s1 := by
  intro fuel
  induction fuel with
  | zero =>
    intro i s s1 hs h
    simp only [for_loop, Option.some.injEq] at h
    exact Or.inl (h ▸ hs)
  | succ n ih =>
    intro i s s1 hs h
    simp only [for_loop] at h
    split at h
    · contradiction
    · rename_i s2 hb
      simp only [Option.some.injEq] at h
      subst h
      exact Or.inr ((hbody i s s2 true hs hb).2 rfl)
    · rename_i s2 hb
      have := ih (i + 1) s2 s1 ((hbody i s s2 false hs hb).1 rfl) h
      rwa [Nat.add_assoc, Nat.add_comm 1 n] at this

theorem array_find_spec {arr : List Nat} {v : Nat} :
    ∀ fuel i p, array_find arr v fuel i = some (some p) →
      i ≤ p ∧ p < i + fuel ∧ arr[p]? = some v ∧ ∀ q, i ≤ q → q < p → arr[q]? ≠ some v := by
  intro fuel
  induction fuel with
  | zero =>
    intro i p h
    simp [array_find] at h
  | succ n ih =>
    intro i p h
    simp only [array_find] at h
    split at h
    · contradiction
    · rename_i x hx
      split at h
      · rename_i hxv
        simp only [Option.some.injEq] at h
        subst h
        subst hxv
        exact ⟨Nat.le_refl _, by omega, hx, fun q h1 h2 => by omega⟩
      · rename_i hxv
        obtain ⟨h1, h2, h3, h4⟩ := ih (i + 1) p h
        refine ⟨by omega, by omega, h3, fun q hq1 hq2 => ?_⟩
        by_cases hqi : q = i
        · subst hqi
          rw [hx]
          simpa using hxv
        · exact h4 q (by omega) hq2

theorem indexOf_eq_of_first (l : List Nat) (v : Nat) :
    ∀ p, l[p]? = some v → (∀ q, q < p → l[q]? ≠ some v) → l.indexOf v = p := by
  induction l with
  | nil =>
    intro p h
    simp at h
  | cons x xs ih =>
    intro p h hmin
    cases p with
    | zero =>
      simp only [List.getElem?_cons_zero, Option.some.injEq] at h
      subst h
      exact List.indexOf_cons_self _ _
    | succ m =>
      have hx : x ≠ v := by
        intro hxv
        exact hmin 0 (by omega) (by simp [hxv])
      rw [List.indexOf_cons_ne _ hx]
      simp only [List.getElem?_cons_succ] at h
      rw [ih m h (fun q hq => by simpa using hmin (q + 1) (by omega))]

theorem alloc_state.commit_spec {a a1 : alloc_state} {ost_idx : Nat} {o : dt_object}
    (hc : a.commit ost_idx o = some a1) :
    a1.stripe_idx = a.stripe_idx + 1 ∧ a.stripe_idx < a.ost_indices.length ∧
      a1.ost_indices = a.ost_indices.set a.stripe_idx ost_idx := by
  unfold alloc_state.commit array_set at hc
  split at hc
  · contradiction
  · split at hc
    · rename_i stripe ost_indices h1 h2
      split_ifs at h1 h2 with h3 h4
      simp only [Option.some.injEq] at h1 h2 hc
      subst h1 h2 hc
      exact ⟨rfl, h4, rfl⟩
    · contradiction

theorem lod_qos_declare_object_on_error {w : lod_backend} {s s2 : lod_sys} {ost_idx : Nat}
    {e : Int} (h : lod_qos_declare_object_on w s ost_idx = some (s2, Except.error e)) :
    e < 0 := by
  unfold lod_qos_declare_object_on at h
  split at h
  · simp only at h
    split at h
    · simp at h
    · simp only [Option.some.injEq, Prod.mk.injEq, Except.error.injEq] at h
      obtain ⟨-, rfl⟩ := h
      omega
  · contradiction

theorem ost_list_inv.commit {L : List Nat} {count p i : Nat} {st : ost_list_state}
    {s2 : lod_sys} {ost_idx : Nat} {o : dt_object} {a1 : alloc_state} {rc : Int}
    (h : ost_list_inv L count p i st) (hL : L[st.array_idx]? = some ost_idx)
    (hc : alloc_state.commit { st.a with sys := s2 } ost_idx o = some a1) :
    ost_list_inv L count p (i + 1)
      { a := a1, array_idx := (st.array_idx + 1) % count, rc := rc } := by
  obtain ⟨c1, c2, c3⟩ := alloc_state.commit_spec hc
  dsimp only at c1 c2 c3
  have hidx : st.a.stripe_idx = i := h.idx
  rw [hidx] at c1 c2 c3
  refine ⟨c1, ?_, ?_⟩
  · show (st.array_idx + 1) % count = (p + (i + 1)) % count
    rw [h.arr, ← Nat.add_assoc]
    exact Nat.mod_add_mod (p + i) count 1 ▸ rfl
  · intro k hk
    show ∃ t, _ ∧ a1.ost_indices[k]? = some t
    rw [c3]
    by_cases hki : k = i
    · subst hki
      refine ⟨ost_idx, ?_, ?_⟩
      · rw [← h.arr]
        exact hL
      · simp [c2]
    · obtain ⟨t, ht1, ht2⟩ := h.picks k (by omega)
      refine ⟨t, ht1, ?_⟩
      rw [List.getElem?_set_ne (Ne.symm hki)]
      exact ht2

theorem lod_alloc_ost_list_body_order {w : lod_backend} {lod_comp : lod_layout_component}
    {p i : Nat} {st st1 : ost_list_state} {b : Bool}
    (h : ost_list_inv lod_comp.llc_ostlist.op_array lod_comp.llc_stripe_count p i st)
    (hr : lod_alloc_ost_list_body w lod_comp i st = some (st1, b)) :
    (b = false →
      ost_list_inv lod_comp.llc_ostlist.op_array lod_comp.llc_stripe_count p (i + 1) st1) ∧
    (b = true → st1.rc ≠ 0) := by
  have hE1 : (-ENODEV : Int) ≠ 0 := by decide
  have hE2 : (-EINVAL : Int) ≠ 0 := by decide
  unfold lod_alloc_ost_list_body at hr
  simp only at hr
  split at hr
  · contradiction
  · rename_i ost_idx hL
    repeat' first
      | contradiction
      | (simp only [Option.some.injEq, Prod.mk.injEq] at hr
         obtain ⟨rfl, rfl⟩ := hr
         first
          | exact ⟨fun hb => absurd hb (by simp), fun _ => hE1⟩
          | exact ⟨fun hb => absurd hb (by simp), fun _ => hE2⟩
          | (refine ⟨fun hb => absurd hb (by simp), fun _ => ?_⟩
             apply Int.ne_of_lt
             assumption)
          | (refine ⟨fun hb => absurd hb (by simp), fun _ => ?_⟩
             apply Int.ne_of_lt
             apply lod_qos_declare_object_on_error
             assumption)
          | (refine ⟨fun _ => ?_, fun hb => absurd hb (by simp)⟩
             apply h.commit
             · exact hL
             · assumption))
      | split at hr

theorem lod_alloc_ost_list_loop_order {w : lod_backend} {lc : lod_layout_component}
    {p : Nat} {st0 st : ost_list_state} (hp : p < lc.llc_stripe_count)
    (h0 : st0.a.stripe_idx = 0) (hp0 : st0.array_idx = p)
    (hloop : for_loop (lod_alloc_ost_list_body w lc) lc.llc_stripe_count 0 st0 = some st)
    (hrc : st.rc = 0) :
    st.a.stripe_idx = lc.llc_stripe_count ∧
    ∀ k, k < lc.llc_stripe_count →
      ∃ t, lc.llc_ostlist.op_array[(p + k) % lc.llc_stripe_count]? = some t ∧
        st.a.ost_indices[k]? = some t := by
  have hinit : ost_list_inv lc.llc_ostlist.op_array lc.llc_stripe_count p 0 st0 :=
    ⟨h0, by rw [hp0, Nat.add_zero, Nat.mod_eq_of_lt hp], fun k hk => absurd hk (Nat.not_lt_zero k)⟩
  rcases for_loop_inv_brk
    (fun i st => ost_list_inv lc.llc_ostlist.op_array lc.llc_stripe_count p i st)
    (fun st => st.rc ≠ 0) (lod_alloc_ost_list_body w lc)
    (fun i s s1 b hs hb => lod_alloc_ost_list_body_order hs hb)
    lc.llc_stripe_count 0 st0 st hinit hloop with h | h
  · rw [Nat.zero_add] at h
    exact ⟨h.idx, h.picks⟩
  · exact absurd hrc h

theorem ost_list_start_eq {lod_comp : lod_layout_component} {p : Nat}
    (hne : ¬ lod_comp.llc_ostlist.op_array = [])
    (hfind : array_find lod_comp.llc_ostlist.op_array
      (if lod_comp.llc_stripe_offset = LOV_OFFSET_DEFAULT
        then lod_comp.llc_ostlist.op_array.headD 0 else lod_comp.llc_stripe_offset)
      lod_comp.llc_stripe_count 0 = some (some p)) :
    ost_list_start lod_comp = p ∧ p < lod_comp.llc_stripe_count := by
  obtain ⟨-, h2, h3, h4⟩ := array_find_spec _ _ _ hfind
  refine ⟨?_, by omega⟩
  unfold ost_list_start
  split
  · rename_i hd
    rw [if_pos hd] at h3 h4
    by_contra hp
    apply h4 0 (Nat.le_refl 0) (by omega)
    cases hL : lod_comp.llc_ostlist.op_array with
    | nil => exact absurd hL hne
    | cons x xs => simp
  · rename_i hd
    rw [if_neg hd] at h3 h4
    exact indexOf_eq_of_first _ _ p h3 (fun q hq => h4 q (Nat.zero_le q) hq)

/-- C8: whenever `lod_alloc_ost_list` succeeds, it has placed `llc_stripe_count`
stripes and stripe `k` is on the target `L[(p + k) mod count]`, where `L` is the
explicit list, `count` the stripe count and `p` the first position of the
stripe offset in `L` (0 when the offset is the default). -/
theorem C8_explicit_list_order (w : lod_backend) (s : lod_sys)
    (stripe : List (Option dt_object)) (ost_indices : List Nat) (comp_idx : Nat)
    (lod_comp : lod_layout_component) (a : alloc_state)
    (hcomp : s.lo.ldo_comp_entries[comp_idx]? = some lod_comp)
    (hr : lod_alloc_ost_list w s stripe ost_indices comp_idx = some (0, a)) :
    a.stripe_idx = lod_comp.llc_stripe_count ∧
    ∀ k, k < lod_comp.llc_stripe_count →
      ∃ t, lod_comp.llc_ostlist.op_array[(ost_list_start lod_comp + k) %
          lod_comp.llc_stripe_count]? = some t ∧ a.ost_indices[k]? = some t := by
  have hE2 : (-EINVAL : Int) ≠ 0 := by decide
  unfold lod_alloc_ost_list at hr
  rw [hcomp] at hr
  simp only at hr
  split at hr
  · contradiction
  · rename_i hne
    split at hr
    · rename_i hlt
      simp only [Option.some.injEq, Prod.mk.injEq] at hr
      omega
    · split at hr
      · contradiction
      · simp only [Option.some.injEq, Prod.mk.injEq] at hr
        exact absurd hr.1 hE2
      · rename_i p hfind
        split at hr
        · contradiction
        · rename_i st hloop
          simp only [Option.some.injEq, Prod.mk.injEq] at hr
          obtain ⟨hrc, rfl⟩ := hr
          have hstart : ost_list_start lod_comp = p ∧ p < lod_comp.llc_stripe_count := by
            apply ost_list_start_eq hne
            split at hfind
            · rename_i hd
              rw [if_pos hd]
              exact hfind
            · rename_i hd
              rw [if_neg hd]
              exact hfind
          rw [hstart.1]
          split at hloop
          · exact lod_alloc_ost_list_loop_order hstart.2 rfl rfl hloop hrc
          · exact lod_alloc_ost_list_loop_order hstart.2 rfl rfl hloop hrc

/-- Witness of C8, scenario S3: with `OVERSTRIPING` set, healthy targets and the
list `[0, 1, 0, 1]`, the policy succeeds with the stripes `[0, 1, 0, 1]`. -/
theorem C8_explicit_list_order_witness :
    ∃ a, lod_alloc_ost_list (healthy_backend false) s3_sys (List.replicate 4 none)
        (List.replicate 4 0) 0 = some (0, a) ∧ a.ost_indices = [0, 1, 0, 1] ∧
      a.stripe_idx = 4 ∧
      ∀ k, k < 4 → ∃ t, [0, 1, 0, 1][(0 + k) % 4]? = some t ∧ a.ost_indices[k]? = some t := by
  have h : (lod_alloc_ost_list (healthy_backend false) s3_sys (List.replicate 4 none)
      (List.replicate 4 0) 0).map (fun r => (r.1, r.2.ost_indices)) =
      some (0, [0, 1, 0, 1]) := by decide
  obtain ⟨⟨rc, a⟩, h1, h2⟩ := Option.map_eq_some'.mp h
  simp only [Prod.mk.injEq] at h2
  obtain ⟨rfl, h3⟩ := h2
  have h4 := C8_explicit_list_order (healthy_backend false) s3_sys _ _ 0 s3_comp a
    (by decide) h1
  exact ⟨a, h1, h3, h4.1, h4.2⟩

/-! ## C9: the explicit-list policy and the `OVERSTRIPING` bit -/

theorem comp_pattern_is.set_comp {s : lod_sys} {i p : Nat} {c : lod_layout_component}
    (h : comp_pattern_is s.lo i p) (hc : c.llc_pattern = p) :
    comp_pattern_is (s.set_comp i c).lo i p := by
  obtain ⟨c0, h0, -⟩ := h
  exact ⟨c, getElem?_set_self_of_some c h0, hc⟩

theorem comp_pattern_is.of_lo {lo lo1 : lod_object} {i p : Nat}
    (h : comp_pattern_is lo i p) (e : lo1 = lo) : comp_pattern_is lo1 i p := e ▸ h

theorem lod_alloc_ost_list_pattern {w : lod_backend} {s : lod_sys}
    {stripe : List (Option dt_object)} {ost_indices : List Nat} {comp_idx : Nat}
    {rc : Int} {a : alloc_state} {c : lod_layout_component} {p : Nat}
    (hcomp : s.lo.ldo_comp_entries[comp_idx]? = some c) (hcp : c.llc_pattern = p)
    (hr : lod_alloc_ost_list w s stripe ost_indices comp_idx = some (rc, a)) :
    comp_pattern_is a.sys.lo comp_idx p := by
  subst hcp
  unfold lod_alloc_ost_list at hr
  simp only [hcomp] at hr
  have f1 := lod_qos_ost_in_use_clear_frame0 w s c.llc_stripe_count
  have h0 : comp_pattern_is (lod_qos_ost_in_use_clear w s c.llc_stripe_count).2.lo comp_idx
      c.llc_pattern := ⟨c, f1.lo ▸ hcomp, rfl⟩
  have hp : (if c.llc_stripe_offset = LOV_OFFSET_DEFAULT then
      { c with llc_stripe_offset := c.llc_ostlist.op_array.headD 0 } else c).llc_pattern =
      c.llc_pattern := by split_ifs <;> rfl
  split at hr
  · contradiction
  · split at hr
    · simp only [Option.some.injEq, Prod.mk.injEq] at hr
      obtain ⟨-, rfl⟩ := hr
      exact h0
    · split at hr
      · contradiction
      · simp only [Option.some.injEq, Prod.mk.injEq] at hr
        obtain ⟨-, rfl⟩ := hr
        exact h0.set_comp hp
      · split at hr
        · contradiction
        · rename_i st hloop
          simp only [Option.some.injEq, Prod.mk.injEq] at hr
          obtain ⟨-, rfl⟩ := hr
          have h2 := for_loop_inv (fun x => alloc_inv _ _ _ x.a) _
            (fun _ _ _ _ hx hb => lod_alloc_ost_list_body_inv hx hb) _ _ _ _
            (alloc_inv.init _ _ _ _) hloop
          exact (h0.set_comp hp).of_lo h2.lo_eq

theorem lod_qos_statfs_update_lo {w : lod_backend} {s s1 : lod_sys}
    (h : lod_qos_statfs_update w s = some s1) : s1.lo = s.lo := by
  unfold lod_qos_statfs_update at h
  simp only at h
  split at h
  · simp only [Option.some.injEq] at h
    subst h
    rfl
  · split at h
    · contradiction
    · rename_i s2 hloop
      simp only [Option.some.injEq] at h
      subst h
      have h2 := for_loop_inv (fun x => x.lo = s.lo) _
        (fun i x x1 b hx hb => by
          unfold lod_qos_statfs_update_body at hb
          split at hb
          · contradiction
          · simp only at hb
            split at hb
            · contradiction
            · rename_i hsc
              have f := (lod_statfs_and_check_frame hsc).lo
              split at hb
              · simp only [Option.some.injEq, Prod.mk.injEq] at hb
                obtain ⟨rfl, -⟩ := hb
                exact f.trans hx
              · split at hb <;>
                  (simp only [Option.some.injEq, Prod.mk.injEq] at hb
                   obtain ⟨rfl, -⟩ := hb
                   exact f.trans hx))
        _ _ _ _ (show s.tick.lo = s.lo from rfl) hloop
      exact h2

theorem lod_qos_prep_create_put_lo {stripe : List (Option dt_object)} {n : Nat}
    {s s1 : lod_sys} (h : for_loop (lod_qos_prep_create_put stripe) n 0 s = some s1) :
    s1.lo = s.lo := by
  refine for_loop_inv (fun x => x.lo = s.lo) _ (fun i x x1 b hx hb => ?_) _ _ _ _ rfl h
  unfold lod_qos_prep_create_put at hb
  split at hb
  · contradiction
  · simp only [Option.some.injEq, Prod.mk.injEq] at hb
    obtain ⟨rfl, -⟩ := hb
    exact hx
  · simp only [Option.some.injEq, Prod.mk.injEq] at hb
    obtain ⟨rfl, -⟩ := hb
    exact hx

theorem lod_qos_prep_create_declare_lo {w : lod_backend} {l : List (Option dt_object)}
    {n : Nat} {st st1 : declare_state}
    (h : for_loop (lod_qos_prep_create_declare w l) n 0 st = some st1) :
    st1.sys.lo = st.sys.lo := by
  refine for_loop_inv (fun x => x.sys.lo = st.sys.lo) _ (fun i x x1 b hx hb => ?_) _ _ _ _ rfl h
  unfold lod_qos_prep_create_declare at hb
  split at hb
  · simp only at hb
    split at hb <;>
      (simp only [Option.some.injEq, Prod.mk.injEq] at hb
       obtain ⟨rfl, -⟩ := hb
       exact hx)
  · contradiction

/-- C9 (divergence): `lod_qos_prep_create` on a component with an explicit
target list never changes the stored pattern of that component, whatever the
result; in particular an `OVERSTRIPING` bit set before the call is still set
after a successful allocation. -/
theorem C9_explicit_list_keeps_pattern (w : lod_backend) (s : lod_sys) (comp_idx : Nat)
    (lod_comp : lod_layout_component) (rc : Int) (s1 : lod_sys)
    (hcomp : s.lo.ldo_comp_entries[comp_idx]? = some lod_comp)
    (hlist : lod_comp.llc_ostlist.op_array ≠ [])
    (hr : lod_qos_prep_create w s comp_idx = some (rc, s1)) :
    ∃ c, s1.lo.ldo_comp_entries[comp_idx]? = some c ∧ c.llc_pattern = lod_comp.llc_pattern := by
  have h0 : comp_pattern_is s.lo comp_idx lod_comp.llc_pattern := ⟨lod_comp, hcomp, rfl⟩
  unfold lod_qos_prep_create at hr
  rw [hcomp] at hr
  simp only at hr
  split at hr
  · contradiction
  · split at hr
    · simp only [Option.some.injEq, Prod.mk.injEq] at hr
      obtain ⟨-, rfl⟩ := hr
      exact h0
    · split at hr
      · simp only [Option.some.injEq, Prod.mk.injEq] at hr
        obtain ⟨-, rfl⟩ := hr
        exact h0
      · split at hr
        · split at hr
          · contradiction
          · split at hr
            · contradiction
            · rename_i s2 hupd
              have h1 : comp_pattern_is s2.lo comp_idx lod_comp.llc_pattern :=
                h0.of_lo (lod_qos_statfs_update_lo hupd)
              split at hr
              · simp only [Option.some.injEq, Prod.mk.injEq] at hr
                obtain ⟨-, rfl⟩ := hr
                exact h1
              · split at hr
                · simp only [Option.some.injEq, Prod.mk.injEq] at hr
                  obtain ⟨-, rfl⟩ := hr
                  exact h1.set_comp rfl
                · split at hr
                  · simp only [Option.some.injEq, Prod.mk.injEq] at hr
                    obtain ⟨-, rfl⟩ := hr
                    exact h1.set_comp rfl
                  · unfold lod_qos_prep_create_alloc at hr
                    rw [if_pos hlist] at hr
                    split at hr
                    · contradiction
                    · rename_i rc1 a halloc
                      have h2 : comp_pattern_is a.sys.lo comp_idx lod_comp.llc_pattern :=
                        lod_alloc_ost_list_pattern
                          (getElem?_set_self_of_some _ h1.choose_spec.1) (by rfl) halloc
                      split at hr
                      · contradiction
                      · rename_i comp2 hcomp2
                        have hp2 : comp2.llc_pattern = lod_comp.llc_pattern := by
                          obtain ⟨c, hc1, hc2⟩ := h2
                          rw [hcomp2] at hc1
                          simp only [Option.some.injEq] at hc1
                          rw [hc1]
                          exact hc2
                        split at hr
                        · split at hr
                          · contradiction
                          · rename_i s4 hput
                            simp only [Option.some.injEq, Prod.mk.injEq] at hr
                            obtain ⟨-, rfl⟩ := hr
                            exact (h2.of_lo (lod_qos_prep_create_put_lo hput)).set_comp hp2
                        · simp only [Option.some.injEq, Prod.mk.injEq] at hr
                          obtain ⟨-, rfl⟩ := hr
                          exact h2.set_comp hp2
        · split at hr
          · contradiction
          · rename_i st hloop
            have h1 : comp_pattern_is st.sys.lo comp_idx lod_comp.llc_pattern :=
              h0.of_lo (lod_qos_prep_create_declare_lo hloop)
            split at hr
            · contradiction
            · rename_i comp1 hcomp1
              simp only [Option.some.injEq, Prod.mk.injEq] at hr
              obtain ⟨-, rfl⟩ := hr
              apply h1.set_comp
              obtain ⟨c, hc1, hc2⟩ := h1
              rw [hcomp1] at hc1
              simp only [Option.some.injEq] at hc1
              rw [hc1]
              exact hc2

/-- Witness of C9, scenario S4: list `[0, 1, 2, 3]`, 4 stripes, `OVERSTRIPING`
set, healthy targets; the allocation succeeds on the targets `[0, 1, 2, 3]`,
none repeated, and the stored pattern still has `OVERSTRIPING`. -/
theorem C9_explicit_list_keeps_pattern_witness :
    ∃ s1 c, lod_qos_prep_create (healthy_backend false) s4_sys 0 = some (0, s1) ∧
      s1.lo.ldo_comp_entries[0]? = some c ∧ c.llc_ost_indices = some [0, 1, 2, 3] ∧
      c.llc_pattern &&& LOV_PATTERN_OVERSTRIPING ≠ 0 := by
  have h : (lod_qos_prep_create (healthy_backend false) s4_sys 0).map
      (fun r => (r.1, r.2.lo.ldo_comp_entries.map (fun c => c.llc_ost_indices))) =
      some (0, [some [0, 1, 2, 3]]) := by decide
  obtain ⟨⟨rc, s1⟩, h1, h2⟩ := Option.map_eq_some'.mp h
  simp only [Prod.mk.injEq] at h2
  obtain ⟨rfl, h3⟩ := h2
  obtain ⟨c, hc1, hc2⟩ := C9_explicit_list_keeps_pattern (healthy_backend false) s4_sys 0
    s4_comp 0 s1 (by decide) (by decide) h1
  refine ⟨s1, c, h1, hc1, ?_, ?_⟩
  · have h4 : (s1.lo.ldo_comp_entries.map (fun c => c.llc_ost_indices))[0]? =
        some (some [0, 1, 2, 3]) := by rw [h3]; rfl
    rw [List.getElem?_map, hc1] at h4
    simpa using h4
  · rw [hc2]
    decide

/-! ## C10: a stripe offset outside the named pool -/

/-- A loop reaches iteration `i`, or breaks before, when every earlier step
returns; if the steps up to `i` establish `Q` when they break and step `i`
breaks, the loop returns in a state with `Q`. -/
theorem for_loop_reach {σ : Type} (P : σ → Prop) (Q : σ → Prop)
    (body : Nat → σ → Option (σ × Bool)) (i : Nat)
    (hstep : ∀ j s, j < i → P s → ∃ s1 b, body j s = some (s1, b) ∧
      (b = false → P s1) ∧ (b = true → Q s1))
    (hlast : ∀ s, P s → ∃ s1, body i s = some (s1, true) ∧ Q s1) :
    ∀ fuel i0 s, i0 ≤ i → i < i0 + fuel → P s →
      ∃ s1, for_loop body fuel i0 s = some s1 ∧ Q s1 := by
  intro fuel
  induction fuel with
  | zero =>
    intro i0 s h1 h2
    omega
  | succ n ih =>
    intro i0 s h1 h2 hs
    by_cases hi : i0 = i
    · subst hi
      obtain ⟨s1, hb, hq⟩ := hlast s hs
      exact ⟨s1, by simp only [for_loop, hb], hq⟩
    · obtain ⟨s1, b, hb, hp, hq⟩ := hstep i0 s (by omega) hs
      cases b with
      | true => exact ⟨s1, by simp only [for_loop, hb], hq rfl⟩
      | false =>
        obtain ⟨s2, h3, h4⟩ := ih (i0 + 1) s1 (by omega) (by omega) (hp rfl)
        exact ⟨s2, by simp only [for_loop, hb]; exact h3, h4⟩

theorem hint_blob_entry {b : lu_buf} {j : Nat} {v : lov_user_md} {lo : lod_object}
    (hc : lo.ldo_is_composite = decide (b.v1.lmm_magic = LOV_USER_MAGIC_COMP_V1))
    (hblob : hint_blob b j = some v) :
    ∃ entry, (if lo.ldo_is_composite = true
        then (b.comp_v1.lcm_entries[j]?).map (fun e => (e.lcme_blob, some e))
        else some (b.v1, none)) = some (v, entry) := by
  unfold hint_blob at hblob
  by_cases hm : b.v1.lmm_magic = LOV_USER_MAGIC_COMP_V1
  · rw [if_pos hm] at hblob
    have hc1 : lo.ldo_is_composite = true := by rw [hc]; exact decide_eq_true hm
    rw [if_pos hc1]
    cases he : b.comp_v1.lcm_entries[j]? with
    | none =>
      rw [he] at hblob
      contradiction
    | some e =>
      rw [he] at hblob
      simp only [Option.map_some', Option.some.injEq] at hblob
      subst hblob
      exact ⟨some e, rfl⟩
  · rw [if_neg hm] at hblob
    have hc1 : ¬ lo.ldo_is_composite = true := by rw [hc]; simpa using hm
    rw [if_neg hc1]
    split at hblob
    · simp only [Option.some.injEq] at hblob
      subst hblob
      exact ⟨none, rfl⟩
    · contradiction

theorem lod_qos_parse_config_comp_step {w : lod_backend} {def_pool : String} {i : Nat}
    {s : lod_sys} {lod_comp0 : lod_layout_component} {v : lov_user_md}
    {entry : Option lov_comp_md_entry_v1}
    (halloc : ∀ clk, w.alloc_fails clk = false) (hok : blob_assert_ok v) :
    ∃ st1 brk, lod_qos_parse_config_comp w def_pool i s lod_comp0 v entry = some (st1, brk) ∧
      (brk = false → st1.sys.lod = s.lod ∧
        st1.sys.lo.ldo_is_composite = s.lo.ldo_is_composite ∧
        st1.sys.lo.ldo_comp_entries.length = s.lo.ldo_comp_entries.length) ∧
      (brk = true → parse_invalid st1) := by
  generalize hr : lod_qos_parse_config_comp w def_pool i s lod_comp0 v entry = r
  unfold lod_qos_parse_config_comp at hr
  lift_lets at hr
  extract_lets lod_comp1 is_v3 pool_name0 copy s1 lod_comp2 pool_name pattern lod_comp3 s2 at hr
  have hcopy : copy.1 = 0 := by
    simp only [copy]
    split
    · simp only [lod_comp_copy_ost_lists, halloc]
      rfl
    · rfl
  have hs1 : s1.lod = s.lod ∧ s1.lo = s.lo := by
    simp only [s1]
    split <;> exact ⟨rfl, rfl⟩
  have hs2 : ∀ c, (s1.set_comp i c).lod = s.lod ∧
      (s1.set_comp i c).lo.ldo_is_composite = s.lo.ldo_is_composite ∧
      (s1.set_comp i c).lo.ldo_comp_entries.length = s.lo.ldo_comp_entries.length := by
    intro c
    refine ⟨hs1.1, ?_, ?_⟩
    · show s1.lo.ldo_is_composite = _
      rw [hs1.2]
    · show (s1.lo.ldo_comp_entries.set i c).length = _
      rw [List.length_set, hs1.2]
  split at hr
  · rename_i hne
    exact absurd hcopy hne
  · split at hr
    · subst hr
      exact ⟨_, _, rfl, fun hb => absurd hb (by simp), fun _ => ⟨rfl, rfl⟩⟩
    · split at hr
      · rename_i hmdt
        exfalso
        apply hok
        refine ⟨hmdt.1, ?_⟩
        have h2 := hmdt.2
        simp only [lod_comp3] at h2
        rw [if_pos (Or.inr hmdt.1)] at h2
        exact h2
      · generalize hpn : pool_name = pn at hr
        split at hr
        · subst hr
          exact ⟨_, _, rfl, fun _ => hs2 _, fun hb => absurd hb (by simp)⟩
        · split at hr
          · subst hr
            exact ⟨_, _, rfl, fun _ => hs2 _, fun hb => absurd hb (by simp)⟩
          · split at hr
            · subst hr
              exact ⟨_, _, rfl, fun hb => absurd hb (by simp), fun _ => ⟨rfl, rfl⟩⟩
            · split at hr
              · subst hr
                refine ⟨_, _, rfl, fun _ => ⟨hs1.1, ?_, ?_⟩, fun hb => absurd hb (by simp)⟩
                · show s1.lo.ldo_is_composite = _
                  rw [hs1.2]
                · show ((s1.lo.ldo_comp_entries.set i _).set i _).length = _
                  rw [List.length_set, List.length_set, hs1.2]
              · subst hr
                exact ⟨_, _, rfl, fun _ => hs2 _, fun hb => absurd hb (by simp)⟩

theorem lod_qos_parse_config_comp_bad {w : lod_backend} {def_pool : String} {i : Nat}
    {s : lod_sys} {lod_comp0 : lod_layout_component} {v : lov_user_md}
    {entry : Option lov_comp_md_entry_v1}
    (halloc : ∀ clk, w.alloc_fails clk = false) (hok : blob_assert_ok v)
    (hbad : offset_not_in_pool s.lod v) :
    ∃ st1, lod_qos_parse_config_comp w def_pool i s lod_comp0 v entry = some (st1, true) ∧
      parse_invalid st1 := by
  obtain ⟨hmagic, hname, pool, hfind, hoff, hmem⟩ := hbad
  generalize hr : lod_qos_parse_config_comp w def_pool i s lod_comp0 v entry = r
  unfold lod_qos_parse_config_comp at hr
  lift_lets at hr
  extract_lets lod_comp1 is_v3 pool_name0 copy s1 lod_comp2 pool_name pattern lod_comp3 s2 at hr
  have hcopy : copy.1 = 0 := by
    simp only [copy]
    split
    · simp only [lod_comp_copy_ost_lists, halloc]
      rfl
    · rfl
  have hs1 : s1.lod = s.lod := by
    simp only [s1]
    split <;> rfl
  have hv3 : is_v3 = true := decide_eq_true hmagic
  have hpn0 : pool_name0 = some v.lmm_pool_name := if_pos ⟨hv3, hname⟩
  have hpn : pool_name = some v.lmm_pool_name := by
    simp only [pool_name]
    rw [hpn0, if_neg (fun h => by simp at h)]
  have hchk : lod_check_index_in_pool v.lmm_stripe_offset pool < 0 := by
    unfold lod_check_index_in_pool
    rw [if_neg (by simpa using hmem)]
    decide
  split at hr
  · rename_i hne
    exact absurd hcopy hne
  · split at hr
    · subst hr
      exact ⟨_, rfl, rfl, rfl⟩
    · split at hr
      · rename_i hmdt
        exfalso
        apply hok
        refine ⟨hmdt.1, ?_⟩
        have h2 := hmdt.2
        simp only [lod_comp3] at h2
        rw [if_pos (Or.inr hmdt.1)] at h2
        exact h2
      · generalize hpn1 : pool_name = pn at hr
        rw [hpn] at hpn1
        subst hpn1
        simp only at hr
        have hf2 : lod_find_pool s2.lod v.lmm_pool_name = some pool := by
          show lod_find_pool s1.lod _ = _
          rw [hs1]
          exact hfind
        rw [hf2] at hr
        simp only at hr
        rw [if_pos ⟨hoff, hchk⟩] at hr
        subst hr
        exact ⟨_, rfl, rfl, rfl⟩

theorem lod_qos_parse_config_body_step {w : lod_backend} {b : lu_buf} {def_pool : String}
    {d : lod_device} {composite : Bool} {cnt j : Nat} {st : declare_state} {v : lov_user_md}
    (halloc : ∀ clk, w.alloc_fails clk = false)
    (hc : composite = decide (b.v1.lmm_magic = LOV_USER_MAGIC_COMP_V1))
    (hinv : parse_inv d composite cnt st) (hj : j < cnt)
    (hblob : hint_blob b j = some v) (hok : blob_assert_ok v) :
    ∃ st1 brk, lod_qos_parse_config_body w b def_pool j st = some (st1, brk) ∧
      (brk = false → parse_inv d composite cnt st1) ∧ (brk = true → parse_invalid st1) := by
  have hlt : j < st.sys.lo.ldo_comp_entries.length := by
    rw [hinv.len]
    exact hj
  have hentry : st.sys.lo.ldo_comp_entries[j]? = some (st.sys.lo.ldo_comp_entries[j]) :=
    List.getElem?_eq_getElem hlt
  obtain ⟨entry, hpair⟩ := hint_blob_entry (hinv.comp.trans hc) hblob
  obtain ⟨st1, brk, h1, h2, h3⟩ := @lod_qos_parse_config_comp_step w def_pool j st.sys
    (st.sys.lo.ldo_comp_entries[j]) v entry halloc hok
  refine ⟨st1, brk, ?_, fun hb => ?_, h3⟩
  · unfold lod_qos_parse_config_body
    simp only [hentry, hpair]
    exact h1
  · obtain ⟨e1, e2, e3⟩ := h2 hb
    exact ⟨e1.trans hinv.lod, e2.trans hinv.comp, e3.trans hinv.len⟩

theorem lod_qos_parse_config_body_bad {w : lod_backend} {b : lu_buf} {def_pool : String}
    {d : lod_device} {composite : Bool} {cnt j : Nat} {st : declare_state} {v : lov_user_md}
    (halloc : ∀ clk, w.alloc_fails clk = false)
    (hc : composite = decide (b.v1.lmm_magic = LOV_USER_MAGIC_COMP_V1))
    (hinv : parse_inv d composite cnt st) (hj : j < cnt)
    (hblob : hint_blob b j = some v) (hok : blob_assert_ok v)
    (hbad : offset_not_in_pool d v) :
    ∃ st1, lod_qos_parse_config_body w b def_pool j st = some (st1, true) ∧
      parse_invalid st1 := by
  have hlt : j < st.sys.lo.ldo_comp_entries.length := by
    rw [hinv.len]
    exact hj
  have hentry : st.sys.lo.ldo_comp_entries[j]? = some (st.sys.lo.ldo_comp_entries[j]) :=
    List.getElem?_eq_getElem hlt
  obtain ⟨entry, hpair⟩ := hint_blob_entry (hinv.comp.trans hc) hblob
  obtain ⟨st1, h1, h2⟩ := @lod_qos_parse_config_comp_bad w def_pool j st.sys
    (st.sys.lo.ldo_comp_entries[j]) v entry halloc hok (hinv.lod ▸ hbad)
  refine ⟨st1, ?_, h2⟩
  unfold lod_qos_parse_config_body
  simp only [hentry, hpair]
  exact h1

theorem lod_qos_parse_config_comps_invalid {w : lod_backend} {s : lod_sys} {b : lu_buf}
    {def_pool : String} {i : Nat} {v : lov_user_md}
    (halloc : ∀ clk, w.alloc_fails clk = false)
    (hi : i < hint_comp_cnt b)
    (hpre : ∀ j, j ≤ i → ∃ u, hint_blob b j = some u ∧ blob_assert_ok u)
    (hblob : hint_blob b i = some v) (hbad : offset_not_in_pool s.lod v) :
    ∃ s1, lod_qos_parse_config_comps w s b b.v1.lmm_magic def_pool = some (-EINVAL, s1) ∧
      s1.lo.ldo_comp_entries = [] := by
  generalize hr : lod_qos_parse_config_comps w s b b.v1.lmm_magic def_pool = r
  unfold lod_qos_parse_config_comps at hr
  lift_lets at hr
  extract_lets composite comp_cnt mirror_cnt src s1 al at hr
  have hcnt : comp_cnt = hint_comp_cnt b := by
    simp only [comp_cnt, composite, hint_comp_cnt, decide_eq_true_eq]
  have hal : al = (0, { s1.tick with lo := { s1.lo with
       ldo_mirrors := List.replicate mirror_cnt { lme_start := 0, lme_end := 0 },
       ldo_mirror_count := mirror_cnt,
       ldo_comp_entries := List.replicate comp_cnt lod_layout_component_zero } }) := by
    simp only [al, lod_alloc_comp_entries, halloc]
    rfl
  split at hr
  · rename_i h0
    unfold hint_comp_cnt at hi
    rw [if_pos h0.1, h0.2] at hi
    exact absurd hi (Nat.not_lt_zero i)
  · split at hr
    · rename_i hne
      rw [hal] at hne
      exact absurd rfl hne
    · have hinit : parse_inv s.lod composite comp_cnt { sys := al.2, rc := 0 } := by
        rw [hal]
        exact ⟨rfl, rfl, List.length_replicate _ _⟩
      obtain ⟨uok, huok⟩ := hpre i (Nat.le_refl i)
      rw [hblob] at huok
      simp only [Option.some.injEq] at huok
      obtain ⟨rfl, hvok⟩ := huok
      obtain ⟨st, hloop, hq⟩ := for_loop_reach (parse_inv s.lod composite comp_cnt) parse_invalid
        (lod_qos_parse_config_body w b def_pool) i
        (fun j x hj hx => by
          obtain ⟨u, hu1, hu2⟩ := hpre j (Nat.le_of_lt hj)
          exact lod_qos_parse_config_body_step halloc rfl hx (by omega) hu1 hu2)
        (fun x hx => lod_qos_parse_config_body_bad halloc rfl hx (by omega) hblob hvok hbad)
        comp_cnt 0 { sys := al.2, rc := 0 } (Nat.zero_le i) (by omega) hinit
      rw [hloop] at hr
      subst hr
      exact ⟨st.sys, by simp only [hq.1], hq.2⟩

/-- C10: a hint in host byte order (V3, SPECIFIC or composite) that passes
`lod_verify_striping`, one of whose components names an existing pool and
carries a stripe offset that is neither the default nor a member of that pool,
makes `lod_qos_parse_config` return `-EINVAL` and leave the object without
component entries; no memory allocation fails and the components up to that one
can be read and pass the parser's `LASSERT`. -/
theorem C10_offset_not_in_pool_is_invalid (w : lod_backend) (s : lod_sys) (b : lu_buf)
    (i : Nat) (v : lov_user_md)
    (hlen : b.lb_len ≠ 0) (hver : w.lod_verify_striping b = 0)
    (halloc : ∀ clk, w.alloc_fails clk = false)
    (hmagic : b.v1.lmm_magic = LOV_USER_MAGIC_V3 ∨ b.v1.lmm_magic = LOV_USER_MAGIC_SPECIFIC ∨
      b.v1.lmm_magic = LOV_USER_MAGIC_COMP_V1)
    (hi : i < hint_comp_cnt b)
    (hpre : ∀ j, j ≤ i → ∃ u, hint_blob b j = some u ∧ blob_assert_ok u)
    (hblob : hint_blob b i = some v) (hbad : offset_not_in_pool s.lod v) :
    ∃ s1, lod_qos_parse_config w s (some b) = some (-EINVAL, s1) ∧
      s1.lo.ldo_comp_entries = [] := by
  have hdef : ¬ b.v1.lmm_magic &&& LOV_MAGIC_DEFINED ≠ 0 := by
    rcases hmagic with h | h | h <;> rw [h] <;> decide
  have hsw : ¬ (b.v1.lmm_magic = swab32 LOV_USER_MAGIC_V1 ∨
      b.v1.lmm_magic = swab32 LOV_USER_MAGIC_V3) := by
    rcases hmagic with h | h | h <;> rw [h] <;> decide
  have hhost : b.v1.lmm_magic = LOV_USER_MAGIC_V1 ∨ b.v1.lmm_magic = LOV_USER_MAGIC_V3 ∨
      b.v1.lmm_magic = LOV_USER_MAGIC_SPECIFIC ∨ b.v1.lmm_magic = LOV_USER_MAGIC_COMP_V1 :=
    Or.inr hmagic
  unfold lod_qos_parse_config
  simp only [if_neg hlen, hver, ne_eq, not_true_eq_false, if_false, hdef, if_neg hsw,
    if_pos hhost]
  apply lod_qos_parse_config_comps_invalid halloc hi hpre hblob
  exact hbad

/-- Witness of C10, scenario S6: pool `named` = {5, 6, 7}, offset 4. -/
theorem C10_offset_not_in_pool_is_invalid_witness :
    ∃ s1, lod_qos_parse_config (healthy_backend false) s6_sys (some s6_buf) =
        some (-EINVAL, s1) ∧ s1.lo.ldo_comp_entries = [] :=
  C10_offset_not_in_pool_is_invalid (healthy_backend false) s6_sys s6_buf 0 s6_hint
    (by decide) rfl (fun _ => rfl) (Or.inl rfl) (by decide)
    (fun j hj => ⟨s6_hint, by
      have : j = 0 := Nat.le_zero.mp hj
      subst this
      rfl, by unfold blob_assert_ok; decide⟩)
    rfl
    ⟨Or.inl rfl, by decide,
      { pool_obds := { op_array := [5, 6, 7], op_size := 3 }, pool_rr := demo_lqr 0 0 0 },
      rfl, by decide, by decide⟩

/-! ## The explicit list: the stripes are a rotation of the list -/

theorem mod_shift_surj {count p j : Nat} (hp : p < count) (hj : j < count) :
    ∃ k, k < count ∧ (p + k) % count = j := by
  by_cases h : p ≤ j
  · refine ⟨j - p, by omega, ?_⟩
    rw [Nat.add_sub_cancel' h]
    exact Nat.mod_eq_of_lt hj
  · refine ⟨j + count - p, by omega, ?_⟩
    have e : p + (j + count - p) = j + count := by omega
    rw [e, Nat.add_mod_right]
    exact Nat.mod_eq_of_lt hj

/-- A list read off another one at the positions `(p + k) mod count` is a
rotation of its first `count` entries. -/
theorem take_eq_rotate_of_shift {L oi : List Nat} {count p : Nat} (hp : p < count)
    (h : ∀ k, k < count → ∃ t, L[(p + k) % count]? = some t ∧ oi[k]? = some t) :
    oi.take count = (L.take count).rotate p := by
  have hL : count ≤ L.length := by
    obtain ⟨k, hk, hk2⟩ := mod_shift_surj hp (show count - 1 < count by omega)
    obtain ⟨t, ht, -⟩ := h k hk
    rw [hk2] at ht
    have := (List.getElem?_eq_some.mp ht).1
    omega
  have hoi : count ≤ oi.length := by
    obtain ⟨t, -, ht⟩ := h (count - 1) (by omega)
    have := (List.getElem?_eq_some.mp ht).1
    omega
  have hlen : (L.take count).length = count := by
    rw [List.length_take]
    omega
  apply List.ext_getElem?
  intro k
  by_cases hk : k < count
  · obtain ⟨t, ht1, ht2⟩ := h k hk
    rw [List.getElem?_take_of_lt hk, ht2, List.getElem?_rotate (by omega), hlen,
      List.getElem?_take_of_lt (Nat.mod_lt _ (by omega)), Nat.add_comm k p, ht1]
  · rw [List.getElem?_eq_none (by rw [List.length_take]; omega),
      List.getElem?_eq_none (by rw [List.length_rotate, hlen]; omega)]

theorem lod_alloc_ost_list_shift {w : lod_backend} {s : lod_sys}
    {stripe : List (Option dt_object)} {ost_indices : List Nat} {comp_idx : Nat}
    {lod_comp : lod_layout_component} {a : alloc_state}
    (hcomp : s.lo.ldo_comp_entries[comp_idx]? = some lod_comp)
    (hr : lod_alloc_ost_list w s stripe ost_indices comp_idx = some (0, a)) :
    ∃ p, p < lod_comp.llc_stripe_count ∧ a.stripe_idx = lod_comp.llc_stripe_count ∧
      ∀ k, k < lod_comp.llc_stripe_count →
        ∃ t, lod_comp.llc_ostlist.op_array[(p + k) % lod_comp.llc_stripe_count]? = some t ∧
          a.ost_indices[k]? = some t := by
  have hE2 : (-EINVAL : Int) ≠ 0 := by decide
  unfold lod_alloc_ost_list at hr
  rw [hcomp] at hr
  simp only at hr
  split at hr
  · contradiction
  · rename_i hne
    split at hr
    · rename_i hlt
      simp only [Option.some.injEq, Prod.mk.injEq] at hr
      omega
    · split at hr
      · contradiction
      · simp only [Option.some.injEq, Prod.mk.injEq] at hr
        exact absurd hr.1 hE2
      · rename_i p hfind
        split at hr
        · contradiction
        · rename_i st hloop
          simp only [Option.some.injEq, Prod.mk.injEq] at hr
          obtain ⟨hrc, rfl⟩ := hr
          have hp : p < lod_comp.llc_stripe_count := by
            have h2 := (array_find_spec _ _ _ hfind).2.1
            split at h2 <;> simpa using h2
          split at hloop
          · obtain ⟨h1, h2⟩ := lod_alloc_ost_list_loop_order hp rfl rfl hloop hrc
            exact ⟨p, hp, h1, h2⟩
          · obtain ⟨h1, h2⟩ := lod_alloc_ost_list_loop_order hp rfl rfl hloop hrc
            exact ⟨p, hp, h1, h2⟩

/-! ## C5: the round-robin happy path -/

/-- A loop none of whose steps breaks or faults runs to the end. -/
theorem for_loop_steps {σ : Type} (I : Nat → σ → Prop) (body : Nat → σ → Option (σ × Bool))
    (n : Nat)
    (hstep : ∀ i s, i < n → I i s → ∃ s1, body i s = some (s1, false) ∧ I (i + 1) s1) :
    ∀ fuel i0 s0, i0 + fuel = n → I i0 s0 →
      ∃ s1, for_loop body fuel i0 s0 = some s1 ∧ I n s1 := by
  intro fuel
  induction fuel with
  | zero =>
    intro i0 s0 h hs
    rw [Nat.add_zero] at h
    subst h
    exact ⟨s0, rfl, hs⟩
  | succ m ih =>
    intro i0 s0 h hs
    obtain ⟨s1, hb, h1⟩ := hstep i0 s0 (by omega) hs
    obtain ⟨s2, h2, h3⟩ := ih (i0 + 1) s1 (by omega) h1
    exact ⟨s2, by simp only [for_loop, hb]; exact h2, h3⟩

theorem svr_count_succ_of {d : lod_device} {P : List Nat} {ph i t : Nat}
    (ht : P[i]? = some t) (hs : (OST_TGT d t).ltq_svr = ph) :
    svr_count d P ph (i + 1) = svr_count d P ph i + 1 := by
  have hi : i < P.length := (List.getElem?_eq_some.mp ht).1
  have e : P.take (i + 1) = P.take i ++ [t] := by
    rw [List.take_succ, ht]
    rfl
  simp only [svr_count, e, List.filter_append, List.length_append, List.filter_cons, hs,
    decide_True, if_true, List.filter_nil, List.length_cons, List.length_nil]

theorem svr_count_succ_of_ne {d : lod_device} {P : List Nat} {ph i t : Nat}
    (ht : P[i]? = some t) (hs : (OST_TGT d t).ltq_svr ≠ ph) :
    svr_count d P ph (i + 1) = svr_count d P ph i := by
  have e : P.take (i + 1) = P.take i ++ [t] := by
    rw [List.take_succ, ht]
    rfl
  simp only [svr_count, e, List.filter_append, List.length_append, List.filter_cons, hs,
    decide_False, List.filter_nil, List.length_nil, Nat.add_zero]
  rfl

theorem svr_count_le {d : lod_device} {P : List Nat} {ph i : Nat} :
    svr_count d P ph i ≤ svr_count d P ph P.length := by
  unfold svr_count
  rw [List.take_length]
  exact ((List.take_sublist i P).filter _).length_le

theorem rr_probe_empty {arr : List Nat} {fuel next : Nat}
    (h : arr[next]? = some LOV_QOS_EMPTY) : rr_probe arr (fuel + 1) next = some next := by
  simp only [rr_probe, h, ne_eq, not_true_eq_false, if_false]

theorem rr_probe_skip {arr : List Nat} {fuel next v : Nat}
    (h : arr[next]? = some v) (hv : v ≠ LOV_QOS_EMPTY)
    (h1 : arr[(next + 1) % arr.length]? = some LOV_QOS_EMPTY) :
    rr_probe arr (fuel + 2) next = some ((next + 1) % arr.length) := by
  simp only [rr_probe, h, ne_eq, hv, not_false_eq_true, if_true, h1, not_true_eq_false,
    if_false]

theorem place_inv.set_even {d : lod_device} {k : Nat} {T : List Nat} {a b t : Nat}
    (h : place_inv d k T a b) (ha : a < k) (ht : t ≠ LOV_QOS_EMPTY)
    (hs : (OST_TGT d t).ltq_svr = 0) : place_inv d k (T.set (2 * a) t) (a + 1) b := by
  have hlen := h.len
  refine ⟨by rw [List.length_set]; exact hlen, fun m hm => ?_, fun m h1 h2 => ?_,
    fun m hm => ?_, fun m h1 h2 => ?_⟩
  · by_cases e : m = a
    · subst e
      exact ⟨t, by rw [List.getElem?_set_self (by omega)], ht, hs⟩
    · rw [List.getElem?_set_ne (by omega)]
      exact h.even_filled m (by omega)
  · rw [List.getElem?_set_ne (by omega)]
    exact h.even_empty m (by omega) h2
  · rw [List.getElem?_set_ne (by omega)]
    exact h.odd_filled m hm
  · rw [List.getElem?_set_ne (by omega)]
    exact h.odd_empty m h1 h2

theorem place_inv.set_odd {d : lod_device} {k : Nat} {T : List Nat} {a b t : Nat}
    (h : place_inv d k T a b) (hb : b < k) (ht : t ≠ LOV_QOS_EMPTY)
    (hs : (OST_TGT d t).ltq_svr = 1) : place_inv d k (T.set (2 * b + 1) t) a (b + 1) := by
  have hlen := h.len
  refine ⟨by rw [List.length_set]; exact hlen, fun m hm => ?_, fun m h1 h2 => ?_,
    fun m hm => ?_, fun m h1 h2 => ?_⟩
  · rw [List.getElem?_set_ne (by omega)]
    exact h.even_filled m hm
  · rw [List.getElem?_set_ne (by omega)]
    exact h.even_empty m h1 h2
  · by_cases e : m = b
    · subst e
      exact ⟨t, by rw [List.getElem?_set_self (by omega)], ht, hs⟩
    · rw [List.getElem?_set_ne (by omega)]
      exact h.odd_filled m (by omega)
  · rw [List.getElem?_set_ne (by omega)]
    exact h.odd_empty m (by omega) h2

theorem place_next_eq {j k : Nat} (hj : j < k) (hk : 2 * k * k ≤ 2 ^ 32) :
    (j * (2 * k)) % 2 ^ 32 / k = 2 * j := by
  have h1 : j * (2 * k) < 2 ^ 32 := by
    have : j * (2 * k) < k * (2 * k) := Nat.mul_lt_mul_of_pos_right hj (by omega)
    have e : k * (2 * k) = 2 * k * k := by ring
    omega
  rw [Nat.mod_eq_of_lt h1]
  have e : j * (2 * k) = 2 * j * k := by ring
  rw [e, Nat.mul_div_cancel _ (by omega : 0 < k)]

/-- One step of the inner loop of `lod_qos_calc_rr` on a pool of live targets
split `k`/`k` over two servers. -/
theorem lod_qos_calc_rr_place_step {d : lod_device} {src_pool : ost_pool} {k ph i : Nat}
    {oss : lu_svr_qos} {st : calc_rr_state}
    (hph : ph = 0 ∨ ph = 1) (hk : 2 * k * k ≤ 2 ^ 32)
    (hlive : ∀ t ∈ src_pool.op_array, cfs_bitmap_check d.lod_ost_bitmap t = true)
    (hsent : cfs_bitmap_check d.lod_ost_bitmap LOV_QOS_EMPTY = false)
    (hcnt : svr_count d src_pool.op_array ph src_pool.op_array.length = k)
    (hoss : oss.lsq_tgt_count = k)
    (hi : i < src_pool.op_array.length)
    (h : place_loop_inv d k src_pool.op_array ph i st) :
    ∃ st1, lod_qos_calc_rr_place d src_pool ph oss i st = some (st1, false) ∧
      place_loop_inv d k src_pool.op_array ph (i + 1) st1 := by
  have ht : src_pool.op_array[i]? = some src_pool.op_array[i] := List.getElem?_eq_getElem hi
  have hmem : src_pool.op_array[i] ∈ src_pool.op_array := List.getElem_mem hi
  have hlv := hlive _ hmem
  have hne : src_pool.op_array[i] ≠ LOV_QOS_EMPTY := by
    intro e
    rw [e, hsent] at hlv
    contradiction
  unfold lod_qos_calc_rr_place
  simp only [ht, hlv, Bool.true_eq_false, if_false]
  by_cases hs : (OST_TGT d src_pool.op_array[i]).ltq_svr = ph
  · have hc := svr_count_succ_of ht hs
    have hjk : svr_count d src_pool.op_array ph i < k := by
      have := @svr_count_le d src_pool.op_array ph (i + 1)
      omega
    have hk0 : k ≠ 0 := by omega
    simp only [hs, ne_eq, not_true_eq_false, if_false, hoss, hk0, h.j, h.tab.len,
      place_next_eq hjk hk]
    rcases hph with rfl | rfl
    · have htab := h.tab
      simp only [if_true] at htab
      rw [show 2 * k = (2 * k - 1) + 1 by omega,
        rr_probe_empty (htab.even_empty _ (Nat.le_refl _) hjk)]
      refine ⟨_, rfl, ?_, ?_, ?_⟩
      · simp only [if_true, hc]
        exact htab.set_even hjk hne hs
      · exact hc.symm
      · show st.placed + 1 = _
        rw [hc, h.placed]
        omega
    · have htab := h.tab
      simp only [Nat.one_ne_zero, if_false] at htab
      obtain ⟨t0, ht0, hne0, -⟩ := htab.even_filled _ hjk
      have hnext : (2 * svr_count d src_pool.op_array 1 i + 1) % st.op_array.length =
          2 * svr_count d src_pool.op_array 1 i + 1 := by
        rw [htab.len]
        exact Nat.mod_eq_of_lt (by omega)
      rw [show 2 * k = (2 * k - 2) + 2 by omega,
        rr_probe_skip ht0 hne0 (by rw [hnext]; exact htab.odd_empty _ (Nat.le_refl _) hjk),
        hnext]
      refine ⟨_, rfl, ?_, ?_, ?_⟩
      · simp only [Nat.one_ne_zero, if_false, hc]
        exact htab.set_odd hjk hne hs
      · exact hc.symm
      · show st.placed + 1 = _
        rw [hc, h.placed]
        omega
  · have hc := svr_count_succ_of_ne ht hs
    simp only [hs, ne_eq, not_false_eq_true, if_true]
    refine ⟨st, rfl, ?_, ?_, ?_⟩
    · have htab := h.tab
      rcases hph with rfl | rfl
      · simp only [if_true, hc] at htab ⊢
        exact htab
      · simp only [Nat.one_ne_zero, if_false, hc] at htab ⊢
        exact htab
    · rw [hc]
      exact h.j
    · rw [hc]
      exact h.placed

theorem svr_count_zero (d : lod_device) (P : List Nat) (ph : Nat) : svr_count d P ph 0 = 0 := by
  simp [svr_count]

theorem place_inv.start (d : lod_device) (k : Nat) :
    place_inv d k (List.replicate (2 * k) LOV_QOS_EMPTY) 0 0 := by
  refine ⟨List.length_replicate _ _, fun m hm => absurd hm (Nat.not_lt_zero m),
    fun m _ h2 => ?_, fun m hm => absurd hm (Nat.not_lt_zero m), fun m _ h2 => ?_⟩
  · rw [List.getElem?_replicate, if_pos (by omega)]
  · rw [List.getElem?_replicate, if_pos (by omega)]

/-- The inner loop of `lod_qos_calc_rr` for server `ph` runs to the end. -/
theorem lod_qos_calc_rr_svr_run {d : lod_device} {src_pool : ost_pool} {k ph : Nat}
    {oss : lu_svr_qos} {st : calc_rr_state}
    (hph : ph = 0 ∨ ph = 1) (hk : 2 * k * k ≤ 2 ^ 32)
    (hlive : ∀ t ∈ src_pool.op_array, cfs_bitmap_check d.lod_ost_bitmap t = true)
    (hsent : cfs_bitmap_check d.lod_ost_bitmap LOV_QOS_EMPTY = false)
    (hcnt : svr_count d src_pool.op_array ph src_pool.op_array.length = k)
    (hoss : d.lod_qos.lq_svr_list[ph]? = some oss) (hoss1 : oss.lsq_tgt_count = k)
    (h : place_loop_inv d k src_pool.op_array ph 0 { st with j := 0 }) :
    ∃ st1, lod_qos_calc_rr_svr d src_pool ph st = some (st1, false) ∧
      place_loop_inv d k src_pool.op_array ph src_pool.op_array.length st1 := by
  obtain ⟨st1, h1, h2⟩ := for_loop_steps
    (fun i x => place_loop_inv d k src_pool.op_array ph i x)
    (lod_qos_calc_rr_place d src_pool ph oss) src_pool.op_array.length
    (fun i x hi hx => lod_qos_calc_rr_place_step hph hk hlive hsent hcnt hoss1 hi hx)
    src_pool.op_array.length 0 { st with j := 0 } (Nat.zero_add _) h
  refine ⟨st1, ?_, h2⟩
  unfold lod_qos_calc_rr_svr
  simp only [hoss, ost_pool.op_count, h1]

/-- On a pool of `2k` live targets split `k`/`k` over two servers the placement
loops of `lod_qos_calc_rr` fill every slot: even slots with targets of server
0, odd slots with targets of server 1. -/
theorem lod_qos_calc_rr_table_interleaved {d : lod_device} {src_pool : ost_pool} {k : Nat}
    {oss0 oss1 : lu_svr_qos}
    (hk : 2 * k * k ≤ 2 ^ 32) (hlen : src_pool.op_array.length = 2 * k)
    (hlive : ∀ t ∈ src_pool.op_array, cfs_bitmap_check d.lod_ost_bitmap t = true)
    (hsent : cfs_bitmap_check d.lod_ost_bitmap LOV_QOS_EMPTY = false)
    (hc0 : svr_count d src_pool.op_array 0 src_pool.op_array.length = k)
    (hc1 : svr_count d src_pool.op_array 1 src_pool.op_array.length = k)
    (hsvr : d.lod_qos.lq_svr_list = [oss0, oss1])
    (h0 : oss0.lsq_tgt_count = k) (h1 : oss1.lsq_tgt_count = k) :
    ∃ st, lod_qos_calc_rr_table d src_pool = some st ∧ st.placed = src_pool.op_count ∧
      place_inv d k st.op_array k k := by
  have hi0 : place_loop_inv d k src_pool.op_array 0 0
      { ({ op_array := List.replicate src_pool.op_count LOV_QOS_EMPTY, placed := 0, j := 0 } :
          calc_rr_state) with j := 0 } := by
    refine ⟨?_, ?_, ?_⟩
    · simp only [if_true, svr_count_zero, ost_pool.op_count, hlen]
      exact place_inv.start d k
    · exact (svr_count_zero _ _ _).symm
    · show 0 = 0 * k + svr_count d src_pool.op_array 0 0
      rw [svr_count_zero]
      omega
  obtain ⟨st1, hr1, hp1⟩ := lod_qos_calc_rr_svr_run (Or.inl rfl) hk hlive hsent hc0
    (by rw [hsvr]; rfl) h0 hi0
  have hi1 : place_loop_inv d k src_pool.op_array 1 0 { st1 with j := 0 } := by
    have ht := hp1.tab
    simp only [if_true, hc0] at ht
    refine ⟨?_, ?_, ?_⟩
    · simp only [Nat.one_ne_zero, if_false, svr_count_zero]
      exact ht
    · exact (svr_count_zero _ _ _).symm
    · show st1.placed = _
      rw [hp1.placed, hc0, svr_count_zero]
      omega
  obtain ⟨st2, hr2, hp2⟩ := lod_qos_calc_rr_svr_run (Or.inr rfl) hk hlive hsent hc1
    (by rw [hsvr]; rfl) h1 hi1
  refine ⟨st2, ?_, ?_, ?_⟩
  · unfold lod_qos_calc_rr_table
    simp only [hsvr, List.length_cons, List.length_nil, for_loop, hr1, hr2]
  · rw [hp2.placed, hc1, ost_pool.op_count, hlen]
    omega
  · have ht := hp2.tab
    simp only [Nat.one_ne_zero, if_false, hc1] at ht
    exact ht

theorem lod_statfs_and_check_healthy {w : lod_backend} {s : lod_sys} {t : Nat}
    (hw : healthy w) (hact : (OST_TGT s.lod t).ltd_active = true) :
    lod_statfs_and_check w s t = some (0, s.tick, (w.dt_statfs s.clock t).2) := by
  unfold lod_statfs_and_check
  have h1 := hw.statfs_rc s.clock t
  have h2 := hw.statfs_state s.clock t
  simp only [h1, h2, hact, Nat.zero_and, ne_eq, not_true_eq_false, false_and, or_self,
    and_false, if_false, Int.Nat.cast_ofNat_Int, Int.neg_zero, Bool.true_eq_false,
    and_self]

theorem lod_should_avoid_ost_none {d : lod_device} {lag : lod_avoid_guide} {t : Nat}
    (hlive : cfs_bitmap_check d.lod_ost_bitmap t = true) (h0 : lag.lag_oaa_count = 0) :
    lod_should_avoid_ost d lag t = some false := by
  unfold lod_should_avoid_ost
  simp only [hlive, Bool.true_eq_false, if_false, h0, if_true]
  split <;> rfl

theorem lod_qos_declare_object_on_ok {w : lod_backend} {s : lod_sys} {t : Nat}
    (hw : healthy w) (hlive : cfs_bitmap_check s.lod.lod_ost_bitmap t = true) :
    lod_qos_declare_object_on w s t =
      some ({ s.tick with declared := { ost := t, serial := s.clock } :: s.declared },
        Except.ok { ost := t, serial := s.clock }) := by
  have hlt : t < s.lod.lod_ost_bitmap.size := by
    simp only [cfs_bitmap_check, Bool.and_eq_true, decide_eq_true_eq] at hlive
    exact hlive.1
  unfold lod_qos_declare_object_on
  simp only [hlt, if_true, hw.declare]
  rfl

theorem alloc_state.commit_ok {a : alloc_state} {t : Nat} {o : dt_object}
    (h1 : a.stripe_idx < a.sys.lti.lti_ea_store.length) (h2 : a.stripe_idx < a.stripe.length)
    (h3 : a.stripe_idx < a.ost_indices.length) :
    a.commit t o = some { a with
      sys := { a.sys with lti := { a.sys.lti with
        lti_ea_store := a.sys.lti.lti_ea_store.set a.stripe_idx t } },
      stripe := a.stripe.set a.stripe_idx (some o),
      ost_indices := a.ost_indices.set a.stripe_idx t,
      stripe_idx := a.stripe_idx + 1 } := by
  unfold alloc_state.commit lod_qos_ost_in_use array_set
  simp only [h1, h2, h3, if_true]

theorem array_scan_of_not_mem {arr : List Nat} {n v : Nat} (h : v ∉ arr.take n)
    (hn : n ≤ arr.length) : array_scan arr n v = some false := by
  unfold array_scan
  have : (arr.take n).contains v = false := by simpa using h
  simp only [this, Bool.false_eq_true, if_false, hn, if_true]

/-- On a healthy backend, reserving at speed 0 a live, active target that no
component uses, that is not avoided and is not yet in the in-use array
succeeds and commits the target. -/
theorem lod_check_and_reserve_ost_ok {w : lod_backend} {a : alloc_state} {comp_idx t : Nat}
    {c : lod_layout_component} (hw : healthy w)
    (hcomp : a.sys.lo.ldo_comp_entries[comp_idx]? = some c)
    (hact : (OST_TGT a.sys.lod t).ltd_active = true)
    (hlive : cfs_bitmap_check a.sys.lod.lod_ost_bitmap t = true)
    (hunused : lod_comp_is_ost_used a.sys.lo t = some false)
    (havoid : a.sys.lti.lti_avoid.lag_oaa_count = 0)
    (hflr : lod_is_flr a.sys.lo = false)
    (hnew : t ∉ a.sys.lti.lti_ea_store.take a.stripe_idx)
    (h1 : a.stripe_idx < a.sys.lti.lti_ea_store.length) (h2 : a.stripe_idx < a.stripe.length)
    (h3 : a.stripe_idx < a.ost_indices.length) :
    ∃ a1, lod_check_and_reserve_ost w a comp_idx t 0 = some (0, a1) ∧
      a1.sys.lod = a.sys.lod ∧ a1.sys.lo = a.sys.lo ∧
      a1.sys.lti.lti_avoid = a.sys.lti.lti_avoid ∧
      a1.sys.lti.lti_ea_store = a.sys.lti.lti_ea_store.set a.stripe_idx t ∧
      a1.ost_indices = a.ost_indices.set a.stripe_idx t ∧
      a1.stripe.length = a.stripe.length ∧ a1.stripe_idx = a.stripe_idx + 1 := by
  have hscan : lod_qos_is_ost_used
      { a.sys.tick with lti := { a.sys.tick.lti with
          lti_osfs := (w.dt_statfs a.sys.clock t).2 } } t a.stripe_idx = some false :=
    array_scan_of_not_mem hnew (Nat.le_of_lt h1)
  have hav : lod_should_avoid_ost a.sys.lod a.sys.lti.lti_avoid t = some false :=
    lod_should_avoid_ost_none hlive havoid
  have hupd : lod_avoid_update a.sys.lo a.sys.lti.lti_avoid = a.sys.lti.lti_avoid := by
    unfold lod_avoid_update
    rw [if_pos hflr]
  have hdecl := @lod_qos_declare_object_on_ok w
    { a.sys.tick with lti := { a.sys.tick.lti with
        lti_osfs := (w.dt_statfs a.sys.clock t).2 } } t hw hlive
  simp only [lod_sys.tick] at hscan hdecl
  unfold lod_check_and_reserve_ost
  simp only [hcomp, lod_statfs_and_check_healthy hw hact, ne_eq, not_true_eq_false, if_false,
    hw.statfs_pre, false_and, hw.statfs_state, Nat.zero_and, if_true, Nat.lt_add_one,
    Nat.ofNat_pos, lod_sys.tick, hunused, hav, hscan, Bool.false_eq_true, hdecl, hupd,
    Bool.or_false]
  rw [alloc_state.commit_ok]
  · exact ⟨_, rfl, rfl, rfl, rfl, rfl, rfl, List.length_set _ _ _, rfl⟩
  · exact h1
  · exact h2
  · exact h3

theorem mod_shift_inj {m b i j : Nat} (h : (b + i) % m = (b + j) % m) (hi : i < m)
    (hj : j < m) : i = j := by
  have h1 : b + i ≡ b + j [MOD m] := h
  exact (Nat.ModEq.add_left_cancel' b h1).eq_of_lt_of_lt hi hj

theorem rr_slots_of_dvd {m s0 off : Nat} (hm : m ∣ 2 ^ 32) (i : Nat) :
    ((s0 + i) % 2 ^ 32 + off) % 2 ^ 32 % m = ((s0 + off) % 2 ^ 32 % m + i) % m := by
  have e1 : ((s0 + i) % 2 ^ 32 + off) % 2 ^ 32 % m = (s0 + i + off) % m := by
    rw [Nat.mod_mod_of_dvd _ hm, Nat.add_mod, Nat.mod_mod_of_dvd _ hm, ← Nat.add_mod]
  have e2 : ((s0 + off) % 2 ^ 32 % m + i) % m = (s0 + off + i) % m := by
    rw [Nat.mod_mod_of_dvd _ hm, Nat.mod_add_mod]
  rw [e1, e2]
  congr 1
  omega

theorem rr_slots_of_small {m s0 off : Nat} (h : s0 + off + m ≤ 2 ^ 32) (i : Nat) (hi : i < m) :
    ((s0 + i) % 2 ^ 32 + off) % 2 ^ 32 % m = ((s0 + off) % 2 ^ 32 % m + i) % m := by
  rw [Nat.mod_eq_of_lt (by omega : s0 + i < 2 ^ 32),
    Nat.mod_eq_of_lt (by omega : s0 + i + off < 2 ^ 32),
    Nat.mod_eq_of_lt (by omega : s0 + off < 2 ^ 32), Nat.mod_add_mod]
  congr 1
  omega

theorem good_target.ne_empty {s : lod_sys} {t : Nat} (h : good_target s t) :
    t ≠ LOV_QOS_EMPTY := by
  intro e
  have h1 := h.unused
  unfold lod_comp_is_ost_used at h1
  split at h1
  · contradiction
  · rename_i hit _
    simp only [Option.some.injEq, Bool.or_eq_false_iff, decide_eq_false_iff_not] at h1
    exact h1.2 e

theorem not_mem_take_of_picks {T store : List Nat} {m b i t : Nat} (hT : T.Nodup)
    (hi : i < m) (ht : T[(b + i) % m]? = some t)
    (hp : ∀ j, j < i → ∃ u, T[(b + j) % m]? = some u ∧ store[j]? = some u) :
    t ∉ store.take i := by
  intro hmem
  obtain ⟨j, hj⟩ := List.mem_iff_getElem?.mp hmem
  have hji : j < i := by
    by_contra hc
    rw [List.getElem?_eq_none (by rw [List.length_take]; omega)] at hj
    contradiction
  rw [List.getElem?_take_of_lt hji] at hj
  obtain ⟨u, hu1, hu2⟩ := hp j hji
  rw [hj] at hu2
  simp only [Option.some.injEq] at hu2
  subst hu2
  have := nodup_getElem?_inj hT ht hu1
  have := mod_shift_inj this hi (by omega)
  omega

/-- One iteration of the candidate loop of `lod_alloc_rr` on the happy path
reserves the target of the next slot. -/
theorem lod_alloc_rr_body_ok {w : lod_backend} {s : lod_sys} {T : List Nat}
    {n m b s0 off comp_idx i : Nat} {c : lod_layout_component} {st : rr_state}
    (hw : healthy w) (hT : T.Nodup) (hlen : T.length = m)
    (hgood : ∀ t ∈ T, good_target s t)
    (hpool : s.lod.lod_pool_info.op_array.length = m)
    (hcomp : s.lo.ldo_comp_entries[comp_idx]? = some c)
    (hflr : lod_is_flr s.lo = false) (havoid : s.lti.lti_avoid.lag_oaa_count = 0)
    (hslot : ∀ i, i < m → ((s0 + i) % 2 ^ 32 + off) % 2 ^ 32 % m = (b + i) % m)
    (hn : n ≤ m) (hi : i < n)
    (h : rr_loop_inv s T n m b s0 off i st) :
    ∃ st1, lod_alloc_rr_body w pool_ref.dev comp_idx n 0 i st = some (st1, false) ∧
      rr_loop_inv s T n m b s0 off (i + 1) st1 := by
  have hm : 0 < m := by omega
  have hslot_lt : (b + i) % m < T.length := by
    rw [hlen]
    exact Nat.mod_lt _ hm
  have ht : T[(b + i) % m]? = some T[(b + i) % m] := List.getElem?_eq_getElem hslot_lt
  have hg := hgood _ (List.getElem_mem hslot_lt)
  have hne := hg.ne_empty
  have hidx : st.a.stripe_idx = i := h.idx
  have hnew : T[(b + i) % m] ∉ st.a.sys.lti.lti_ea_store.take st.a.stripe_idx := by
    rw [hidx]
    exact not_mem_take_of_picks hT (by omega) ht
      (fun j hj => (h.picks j hj).imp (fun u hu => ⟨hu.1, hu.2.2⟩))
  obtain ⟨a1, hres, e1, e2, e3, e4, e5, e6, e7⟩ := @lod_check_and_reserve_ost_ok w
    { st.a with sys := (st.a.sys.set_lqr pool_ref.dev
        { pool_lqr st.a.sys.lod pool_ref.dev with
          lqr_start_idx := ((pool_lqr st.a.sys.lod pool_ref.dev).lqr_start_idx + 1) % 2 ^ 32 }).tick }
    comp_idx T[(b + i) % m] c hw
    (by show st.a.sys.lo.ldo_comp_entries[comp_idx]? = _; rw [h.sys.lo]; exact hcomp)
    (by show (st.a.sys.lod.lod_ost_descs _).ltd_active = true
        rw [h.sys.descs]; exact hg.active)
    (by show cfs_bitmap_check st.a.sys.lod.lod_ost_bitmap _ = true
        rw [h.sys.bitmap]; exact hg.live)
    (by show lod_comp_is_ost_used st.a.sys.lo _ = _; rw [h.sys.lo]; exact hg.unused)
    (by show st.a.sys.lti.lti_avoid.lag_oaa_count = 0; rw [h.sys.avoid]; exact havoid)
    (by show lod_is_flr st.a.sys.lo = false; rw [h.sys.lo]; exact hflr)
    hnew
    (by show st.a.stripe_idx < st.a.sys.lti.lti_ea_store.length
        have := h.sys.store; omega)
    (by show st.a.stripe_idx < st.a.stripe.length
        have := h.len_s; omega)
    (by show st.a.stripe_idx < st.a.ost_indices.length
        have := h.len_o; omega)
  have hop : (pool_osts st.a.sys.lod pool_ref.dev).op_count = m := by
    show st.a.sys.lod.lod_pool_info.op_array.length = m
    rw [h.sys.pool]
    exact hpool
  have harr : ((pool_lqr st.a.sys.lod pool_ref.dev).lqr_start_idx +
      (pool_lqr st.a.sys.lod pool_ref.dev).lqr_offset_idx) % 2 ^ 32 % m = (b + i) % m := by
    show (st.a.sys.lod.lod_qos.lq_rr.lqr_start_idx +
      st.a.sys.lod.lod_qos.lq_rr.lqr_offset_idx) % 2 ^ 32 % m = _
    rw [h.start, h.offset]
    exact hslot i (by omega)
  have htab : (pool_lqr st.a.sys.lod pool_ref.dev).lqr_pool.op_array[(b + i) % m]? =
      some T[(b + i) % m] := by
    show st.a.sys.lod.lod_qos.lq_rr.lqr_pool.op_array[(b + i) % m]? = _
    rw [h.sys.table]
    exact ht
  have hbm : cfs_bitmap_check (st.a.sys.set_lqr pool_ref.dev
      { pool_lqr st.a.sys.lod pool_ref.dev with
        lqr_start_idx := ((pool_lqr st.a.sys.lod pool_ref.dev).lqr_start_idx + 1) % 2 ^ 32 }
      ).lod.lod_ost_bitmap T[(b + i) % m] = true := by
    show cfs_bitmap_check st.a.sys.lod.lod_ost_bitmap _ = true
    rw [h.sys.bitmap]
    exact hg.live
  have hlt : st.a.stripe_idx < n := by omega
  have hm0 : m ≠ 0 := by omega
  refine ⟨{ a := a1, ost_connecting := st.ost_connecting ||
      (decide ((0 : Int) ≠ 0) && (OST_TGT a1.sys.lod T[(b + i) % m]).ltd_connecting) },
    ?_, ?_⟩
  · unfold lod_alloc_rr_body
    simp only [hlt, not_true_eq_false, if_false, hop, hm0, harr, htab, hne, hbm, false_or,
      Bool.true_eq_false, hw.no_fail, Bool.false_eq_true, false_and, hres]
  · have hstore : a1.sys.lti.lti_ea_store = st.a.sys.lti.lti_ea_store.set i T[(b + i) % m] := by
      rw [e4]
      show st.a.sys.lti.lti_ea_store.set st.a.stripe_idx _ = _
      rw [hidx]
    have hoi : a1.ost_indices = st.a.ost_indices.set i T[(b + i) % m] := by
      rw [e5]
      show st.a.ost_indices.set st.a.stripe_idx _ = _
      rw [hidx]
    have hi1 : i < st.a.sys.lti.lti_ea_store.length := by
      have := h.sys.store
      omega
    have hi2 : i < st.a.ost_indices.length := by
      have := h.len_o
      omega
    refine ⟨⟨?_, ?_, ?_, ?_, ?_, ?_, ?_⟩, ?_, ?_, ?_, ?_, ?_, ?_⟩
    · show a1.sys.lo = _
      rw [e2]
      exact h.sys.lo
    · show a1.sys.lti.lti_avoid = _
      rw [e3]
      exact h.sys.avoid
    · show a1.sys.lod.lod_ost_bitmap = _
      rw [e1]
      exact h.sys.bitmap
    · show a1.sys.lod.lod_ost_descs = _
      rw [e1]
      exact h.sys.descs
    · show a1.sys.lod.lod_pool_info = _
      rw [e1]
      exact h.sys.pool
    · show a1.sys.lod.lod_qos.lq_rr.lqr_pool.op_array = _
      rw [e1]
      exact h.sys.table
    · show n ≤ a1.sys.lti.lti_ea_store.length
      rw [hstore, List.length_set]
      exact h.sys.store
    · show a1.stripe_idx = i + 1
      rw [e7]
      show st.a.stripe_idx + 1 = _
      rw [hidx]
    · show a1.sys.lod.lod_qos.lq_rr.lqr_start_idx = _
      rw [e1]
      show (st.a.sys.lod.lod_qos.lq_rr.lqr_start_idx + 1) % 2 ^ 32 = _
      rw [h.start, Nat.mod_add_mod, Nat.add_assoc]
    · show a1.sys.lod.lod_qos.lq_rr.lqr_offset_idx = _
      rw [e1]
      exact h.offset
    · show n ≤ a1.stripe.length
      rw [e6]
      exact h.len_s
    · show n ≤ a1.ost_indices.length
      rw [hoi, List.length_set]
      exact h.len_o
    · intro j hj
      show ∃ t, _ ∧ a1.ost_indices[j]? = some t ∧ a1.sys.lti.lti_ea_store[j]? = some t
      rw [hoi, hstore]
      by_cases hji : j = i
      · subst hji
        exact ⟨_, ht, by rw [List.getElem?_set_self hi2], by rw [List.getElem?_set_self hi1]⟩
      · obtain ⟨t, h1, h2, h3⟩ := h.picks j (by omega)
        exact ⟨t, h1, by rw [List.getElem?_set_ne (Ne.symm hji)]; exact h2,
          by rw [List.getElem?_set_ne (Ne.symm hji)]; exact h3⟩

/-- A loop whose steps up to `n` neither break nor fault and which breaks once
`n` is reached returns in the state reached at `n`. -/
theorem for_loop_upto {σ : Type} (I : Nat → σ → Prop) (body : Nat → σ → Option (σ × Bool))
    (n : Nat)
    (hstep : ∀ i s, i < n → I i s → ∃ s1, body i s = some (s1, false) ∧ I (i + 1) s1)
    (hstop : ∀ s, I n s → body n s = some (s, true)) :
    ∀ fuel i0 s0, i0 ≤ n → n ≤ i0 + fuel → I i0 s0 →
      ∃ s1, for_loop body fuel i0 s0 = some s1 ∧ I n s1 := by
  intro fuel
  induction fuel with
  | zero =>
    intro i0 s0 h1 h2 hs
    have e : i0 = n := by omega
    subst e
    exact ⟨s0, rfl, hs⟩
  | succ m ih =>
    intro i0 s0 h1 h2 hs
    by_cases e : i0 = n
    · subst e
      exact ⟨s0, by simp only [for_loop, hstop s0 hs], hs⟩
    · obtain ⟨s1, hb, hs1⟩ := hstep i0 s0 (by omega) hs
      obtain ⟨s2, h3, h4⟩ := ih (i0 + 1) s1 (by omega) (by omega) hs1
      exact ⟨s2, by simp only [for_loop, hb]; exact h3, h4⟩

theorem stripes_per_ost_plain {c : lod_layout_component} (n : Nat)
    (h : c.llc_pattern &&& LOV_PATTERN_OVERSTRIPING = 0) : stripes_per_ost c n = some 1 := by
  unfold stripes_per_ost
  simp only [h, ne_eq, not_true_eq_false, if_false]

/-- The first pass of `lod_alloc_rr` on the happy path places all `n` stripes
and no further pass follows. -/
theorem lod_alloc_rr_pass_ok {w : lod_backend} {s : lod_sys} {T : List Nat}
    {n m b s0 off comp_idx smin temp : Nat} {c : lod_layout_component} {st : rr_state}
    (hw : healthy w) (hT : T.Nodup) (hlen : T.length = m)
    (hgood : ∀ t ∈ T, good_target s t)
    (hpool : s.lod.lod_pool_info.op_array.length = m)
    (hcomp : s.lo.ldo_comp_entries[comp_idx]? = some c)
    (hpat : c.llc_pattern &&& LOV_PATTERN_OVERSTRIPING = 0)
    (hflr : lod_is_flr s.lo = false) (havoid : s.lti.lti_avoid.lag_oaa_count = 0)
    (hslot : ∀ i, i < m → ((s0 + i) % 2 ^ 32 + off) % 2 ^ 32 % m = (b + i) % m)
    (hn : n ≤ m) (hm : m < 2 ^ 32) (hmin : smin ≤ n)
    (h : rr_loop_inv s T n m b s0 off 0 st) :
    ∃ st1, lod_alloc_rr_pass w pool_ref.dev comp_idx n smin temp 0 st = some (st1, true) ∧
      rr_loop_inv s T n m b s0 off n st1 := by
  obtain ⟨st1, hloop, h1⟩ := for_loop_upto
    (fun i x => rr_loop_inv s T n m b s0 off i x)
    (lod_alloc_rr_body w pool_ref.dev comp_idx n 0) n
    (fun i x hi hx => lod_alloc_rr_body_ok hw hT hlen hgood hpool hcomp hflr havoid hslot hn hi hx)
    (fun x hx => by
      unfold lod_alloc_rr_body
      have : ¬ x.a.stripe_idx < n := by
        rw [hx.idx]
        exact Nat.lt_irrefl n
      simp only [this, not_false_eq_true, if_true])
    m 0 st (Nat.zero_le n) (by omega) h
  refine ⟨st1, ?_, h1⟩
  have hop : (pool_osts st.a.sys.lod pool_ref.dev).op_count = m := by
    show st.a.sys.lod.lod_pool_info.op_array.length = m
    rw [h.sys.pool]
    exact hpool
  have hc : st.a.sys.lo.ldo_comp_entries[comp_idx]? = some c := by
    rw [h.sys.lo]
    exact hcomp
  have hidx : ¬ st1.a.stripe_idx < smin := by
    rw [h1.idx]
    omega
  unfold lod_alloc_rr_pass
  simp only [hc, hop, stripes_per_ost_plain m hpat, Nat.mul_one, Nat.mod_eq_of_lt hm, hloop,
    hidx, and_false, if_false]

theorem lod_ost_pool_extend_ok {w : lod_backend} (hw : healthy w) (clk : Nat) (op : ost_pool)
    (n : Nat) : (lod_ost_pool_extend w clk op n).1 = 0 ∧
      (lod_ost_pool_extend w clk op n).2.op_array = op.op_array := by
  unfold lod_ost_pool_extend
  split
  · exact ⟨rfl, rfl⟩
  · rw [hw.alloc]
    exact ⟨rfl, rfl⟩

/-- On the happy path `lod_qos_calc_rr` recomputes the table of the device-wide
pool and returns 0; the table alternates between the two servers. -/
theorem lod_qos_calc_rr_happy {w : lod_backend} {s : lod_sys} {k : Nat}
    {oss0 oss1 : lu_svr_qos} (hw : healthy w)
    (hk : 2 * k * k ≤ 2 ^ 32) (hlen : s.lod.lod_pool_info.op_array.length = 2 * k)
    (hnodup : s.lod.lod_pool_info.op_array.Nodup)
    (hlive : ∀ t ∈ s.lod.lod_pool_info.op_array, cfs_bitmap_check s.lod.lod_ost_bitmap t = true)
    (hsent : cfs_bitmap_check s.lod.lod_ost_bitmap LOV_QOS_EMPTY = false)
    (hc0 : svr_count s.lod s.lod.lod_pool_info.op_array 0 s.lod.lod_pool_info.op_array.length = k)
    (hc1 : svr_count s.lod s.lod.lod_pool_info.op_array 1 s.lod.lod_pool_info.op_array.length = k)
    (hsvr : s.lod.lod_qos.lq_svr_list = [oss0, oss1])
    (h0 : oss0.lsq_tgt_count = k) (h1 : oss1.lsq_tgt_count = k)
    (hcur : rr_table_current s.lod) :
    ∃ s1 T, lod_qos_calc_rr w s pool_ref.dev = some (0, s1) ∧ rr_sys_inv s T 0 s1 ∧
      s1.lti = s.lti ∧
      s1.lod.lod_qos.lq_rr.lqr_start_idx = s.lod.lod_qos.lq_rr.lqr_start_idx ∧
      s1.lod.lod_qos.lq_rr.lqr_offset_idx = s.lod.lod_qos.lq_rr.lqr_offset_idx ∧
      s1.lod.lod_qos.lq_rr.lqr_start_count = s.lod.lod_qos.lq_rr.lqr_start_count ∧
      place_inv s.lod k T k k ∧ T.Perm s.lod.lod_pool_info.op_array := by
  obtain ⟨st, htab, hplaced, hinv⟩ := @lod_qos_calc_rr_table_interleaved s.lod
    s.lod.lod_pool_info k oss0 oss1 hk hlen hlive hsent hc0 hc1 hsvr h0 h1
  have hperm := (lod_qos_calc_rr_table_perm hnodup hsent htab hplaced).1
  by_cases hdirty : s.lod.lod_qos.lq_rr.lqr_dirty = true
  · have hext := lod_ost_pool_extend_ok hw s.clock s.lod.lod_qos.lq_rr.lqr_pool
      s.lod.lod_pool_info.op_count
    refine ⟨
      { s.tick with
        lod := set_pool_lqr s.lod pool_ref.dev
          ⟨s.lod.lod_qos.lq_rr.lqr_start_idx, s.lod.lod_qos.lq_rr.lqr_offset_idx,
            s.lod.lod_qos.lq_rr.lqr_start_count,
            ⟨st.op_array, (lod_ost_pool_extend w s.clock s.lod.lod_qos.lq_rr.lqr_pool
              s.lod.lod_pool_info.op_count).2.op_size⟩, false⟩ },
      st.op_array, ?_, ?_, ?_, ?_, ?_, ?_, hinv, hperm⟩
    · unfold lod_qos_calc_rr
      simp only [pool_osts, pool_lqr, hdirty, Bool.true_eq_false, if_false, hext.1, ne_eq,
        not_true_eq_false, lod_sys.tick, htab, hplaced, set_pool_lqr]
    · exact ⟨rfl, rfl, rfl, rfl, rfl, rfl, Nat.zero_le _⟩
    · rfl
    · rfl
    · rfl
    · rfl
  · obtain ⟨hsize, hsame⟩ : s.lod.lod_qos.lq_rr.lqr_pool.op_size ≠ 0 ∧
        (lod_qos_calc_rr_table s.lod s.lod.lod_pool_info).map (fun st => st.op_array) =
          some s.lod.lod_qos.lq_rr.lqr_pool.op_array := by
      rcases hcur with h | h
      · exact absurd h hdirty
      · exact h
    rw [htab] at hsame
    have hT : st.op_array = s.lod.lod_qos.lq_rr.lqr_pool.op_array := Option.some.inj hsame
    have hclean : s.lod.lod_qos.lq_rr.lqr_dirty = false := by
      cases hd : s.lod.lod_qos.lq_rr.lqr_dirty
      · rfl
      · exact absurd hd hdirty
    refine ⟨s, st.op_array, ?_, ⟨rfl, rfl, rfl, rfl, rfl, hT.symm, Nat.zero_le _⟩, rfl, rfl,
      rfl, rfl, hinv, hperm⟩
    unfold lod_qos_calc_rr
    simp only [pool_lqr, hclean, if_true, hsize, ne_eq, not_false_eq_true]

theorem lod_qos_ost_in_use_clear_ok {w : lod_backend} (hw : healthy w) (s : lod_sys) (n : Nat) :
    (lod_qos_ost_in_use_clear w s n).1 = 0 ∧
      (lod_qos_ost_in_use_clear w s n).2.lod = s.lod ∧
      (lod_qos_ost_in_use_clear w s n).2.lo = s.lo ∧
      (lod_qos_ost_in_use_clear w s n).2.lti.lti_avoid = s.lti.lti_avoid ∧
      n ≤ (lod_qos_ost_in_use_clear w s n).2.lti.lti_ea_store.length := by
  unfold lod_qos_ost_in_use_clear
  simp only [hw.alloc, Bool.false_eq_true, if_false]
  by_cases h : s.lti.lti_ea_store.length < n
  · simp only [h, if_true, List.length_replicate, Nat.lt_irrefl, if_false, lod_sys.tick,
      List.length_append, List.length_drop, true_and]
    omega
  · simp only [h, if_false, List.length_append, List.length_replicate, List.length_drop,
      true_and]
    omega

theorem prandom_u32_max_lt (w : lod_backend) (clk : Nat) {n : Nat} (hn : 0 < n) :
    prandom_u32_max w clk n < n := by
  unfold prandom_u32_max
  apply Nat.div_lt_of_lt_mul
  have : w.prandom clk % 2 ^ 32 < 2 ^ 32 := Nat.mod_lt _ (by decide)
  calc w.prandom clk % 2 ^ 32 * n < 2 ^ 32 * n := Nat.mul_lt_mul_of_pos_right this hn

/-- The cursor update of `lod_alloc_rr` leaves the table and everything but
the cursor alone; the slots the pass visits from the new cursor are
consecutive modulo the number of targets. -/
theorem lod_alloc_rr_reseed_ok {w : lod_backend} {s : lod_sys} {n smin m : Nat}
    (hm : s.lod.lod_pool_info.op_array.length = m) (hm0 : 0 < m)
    (hs0 : s.lod.lod_qos.lq_rr.lqr_start_idx < 2 ^ 32)
    (hoff : s.lod.lod_qos.lq_rr.lqr_offset_idx < 2 ^ 32)
    (hwrap : m ∣ 2 ^ 32 ∨ max s.lod.lod_qos.lq_rr.lqr_start_idx m +
      s.lod.lod_qos.lq_rr.lqr_offset_idx + m + 1 ≤ 2 ^ 32) :
    ∃ s3, lod_alloc_rr_reseed w s pool_ref.dev n smin = some s3 ∧
      s3.lo = s.lo ∧ s3.lti = s.lti ∧ s3.lod.lod_ost_bitmap = s.lod.lod_ost_bitmap ∧
      s3.lod.lod_ost_descs = s.lod.lod_ost_descs ∧ s3.lod.lod_pool_info = s.lod.lod_pool_info ∧
      s3.lod.lod_qos.lq_rr.lqr_pool = s.lod.lod_qos.lq_rr.lqr_pool ∧
      s3.lod.lod_qos.lq_rr.lqr_start_idx < 2 ^ 32 ∧
      ∀ i, i < m → ((s3.lod.lod_qos.lq_rr.lqr_start_idx + i) % 2 ^ 32 +
          s3.lod.lod_qos.lq_rr.lqr_offset_idx) % 2 ^ 32 % m =
        ((s3.lod.lod_qos.lq_rr.lqr_start_idx + s3.lod.lod_qos.lq_rr.lqr_offset_idx) % 2 ^ 32 % m
          + i) % m := by
  have key : ∀ s0 off, s0 < 2 ^ 32 →
      (m ∣ 2 ^ 32 ∨ s0 + off + m ≤ 2 ^ 32) →
      ∀ i, i < m → ((s0 + i) % 2 ^ 32 + off) % 2 ^ 32 % m = ((s0 + off) % 2 ^ 32 % m + i) % m := by
    intro s0 off _ h i hi
    rcases h with h | h
    · exact rr_slots_of_dvd h i
    · exact rr_slots_of_small h i hi
  have hop : (pool_osts s.lod pool_ref.dev).op_count = m := hm
  have hm1 : m ≠ 0 := by omega
  have hmle : m ≤ 2 ^ 32 := by
    rcases hwrap with h | h
    · exact Nat.le_of_dvd (by decide) h
    · have h2 := Nat.le_max_right s.lod.lod_qos.lq_rr.lqr_start_idx m
      generalize max s.lod.lod_qos.lq_rr.lqr_start_idx m = M at h h2
      omega
  unfold lod_alloc_rr_reseed
  simp only [hop, pool_lqr, hm1, if_false, lod_sys.set_lqr, set_pool_lqr, lod_sys.tick]
  split
  · have hlt := prandom_u32_max_lt w s.clock hm0
    refine ⟨_, rfl, rfl, rfl, rfl, rfl, rfl, rfl, by show prandom_u32_max w s.clock m < _; omega,
      ?_⟩
    apply key _ _ (by show prandom_u32_max w s.clock m < _; omega)
    rcases hwrap with h | h
    · exact Or.inl h
    · right
      have h2 := Nat.le_max_right s.lod.lod_qos.lq_rr.lqr_start_idx m
      generalize max s.lod.lod_qos.lq_rr.lqr_start_idx m = M at h h2
      show prandom_u32_max w s.clock m + s.lod.lod_qos.lq_rr.lqr_offset_idx + m ≤ 2 ^ 32
      omega
  · split
    · have hlt : s.lod.lod_qos.lq_rr.lqr_start_idx % m < m := Nat.mod_lt _ hm0
      refine ⟨_, rfl, rfl, rfl, rfl, rfl, rfl, rfl,
        by show s.lod.lod_qos.lq_rr.lqr_start_idx % m < _; omega, ?_⟩
      apply key _ _ (by show s.lod.lod_qos.lq_rr.lqr_start_idx % m < _; omega)
      rcases hwrap with h | h
      · exact Or.inl h
      · right
        have h1 := Nat.le_max_left s.lod.lod_qos.lq_rr.lqr_start_idx m
        have h2 := Nat.le_max_right s.lod.lod_qos.lq_rr.lqr_start_idx m
        have h3 := Nat.mod_le s.lod.lod_qos.lq_rr.lqr_start_idx m
        generalize max s.lod.lod_qos.lq_rr.lqr_start_idx m = M at h h1 h2
        show s.lod.lod_qos.lq_rr.lqr_start_idx % m + (if _ then _ else _) + m ≤ 2 ^ 32
        split
        · rw [Nat.mod_eq_of_lt (by omega : s.lod.lod_qos.lq_rr.lqr_offset_idx + 1 < 2 ^ 32)]
          omega
        · omega
    · refine ⟨_, rfl, rfl, rfl, rfl, rfl, rfl, rfl, hs0, ?_⟩
      apply key _ _ hs0
      rcases hwrap with h | h
      · exact Or.inl h
      · right
        have h1 := Nat.le_max_left s.lod.lod_qos.lq_rr.lqr_start_idx m
        generalize max s.lod.lod_qos.lq_rr.lqr_start_idx m = M at h h1
        show s.lod.lod_qos.lq_rr.lqr_start_idx + s.lod.lod_qos.lq_rr.lqr_offset_idx + m ≤ 2 ^ 32
        omega

theorem two_k_lt {k : Nat} (_hk0 : 0 < k) (hk : 2 * k * k ≤ 2 ^ 32) : 2 * k < 2 ^ 32 := by
  by_contra hc
  have h1 : 2 ^ 31 ≤ k := by omega
  have h2 : 2 * k * 2 ^ 31 ≤ 2 * k * k := Nat.mul_le_mul_left _ h1
  omega

theorem min_stripe_count_le (n flags : Nat) : min_stripe_count n flags ≤ n := by
  unfold min_stripe_count
  split
  · exact Nat.sub_le _ _
  · exact Nat.le_refl _

theorem lod_alloc_rr_happy {w : lod_backend} {s : lod_sys} {stripe : List (Option dt_object)}
    {ost_indices : List Nat} {flags comp_idx k : Nat} {c : lod_layout_component}
    {oss0 oss1 : lu_svr_qos} (hw : healthy w)
    (hcomp : s.lo.ldo_comp_entries[comp_idx]? = some c)
    (hdef : c.llc_pool = none)
    (hpat : c.llc_pattern &&& LOV_PATTERN_OVERSTRIPING = 0)
    (hn0 : 0 < c.llc_stripe_count) (hn : c.llc_stripe_count ≤ 2 * k)
    (hk : 2 * k * k ≤ 2 ^ 32)
    (hlen : s.lod.lod_pool_info.op_array.length = 2 * k)
    (hnodup : s.lod.lod_pool_info.op_array.Nodup)
    (hgood : ∀ t ∈ s.lod.lod_pool_info.op_array, good_target s t)
    (hsent : cfs_bitmap_check s.lod.lod_ost_bitmap LOV_QOS_EMPTY = false)
    (hc0 : svr_count s.lod s.lod.lod_pool_info.op_array 0 s.lod.lod_pool_info.op_array.length = k)
    (hc1 : svr_count s.lod s.lod.lod_pool_info.op_array 1 s.lod.lod_pool_info.op_array.length = k)
    (hsvr : s.lod.lod_qos.lq_svr_list = [oss0, oss1])
    (h0 : oss0.lsq_tgt_count = k) (h1 : oss1.lsq_tgt_count = k)
    (hcur : rr_table_current s.lod)
    (hflr : lod_is_flr s.lo = false) (havoid : s.lti.lti_avoid.lag_oaa_count = 0)
    (hs0 : s.lod.lod_qos.lq_rr.lqr_start_idx < 2 ^ 32)
    (hoff : s.lod.lod_qos.lq_rr.lqr_offset_idx < 2 ^ 32)
    (hwrap : 2 * k ∣ 2 ^ 32 ∨ max s.lod.lod_qos.lq_rr.lqr_start_idx (2 * k) +
      s.lod.lod_qos.lq_rr.lqr_offset_idx + 2 * k + 1 ≤ 2 ^ 32)
    (hls : c.llc_stripe_count ≤ stripe.length)
    (hlo : c.llc_stripe_count ≤ ost_indices.length) :
    ∃ a T b, lod_alloc_rr w s stripe ost_indices flags comp_idx = some (0, a) ∧
      a.stripe_idx = c.llc_stripe_count ∧ T.Nodup ∧ place_inv s.lod k T k k ∧
      ∀ j, j < c.llc_stripe_count →
        ∃ t, T[(b + j) % (2 * k)]? = some t ∧ a.ost_indices[j]? = some t := by
  obtain ⟨s1, T, hcalc, hinv1, hlti1, hst1, hoff1, -, hplace, hperm⟩ :=
    lod_qos_calc_rr_happy hw hk hlen hnodup (fun t ht => (hgood t ht).live) hsent hc0 hc1 hsvr
      h0 h1 hcur
  obtain ⟨hclr0, hclrlod, hclrlo, hclrav, hclrst⟩ :=
    lod_qos_ost_in_use_clear_ok hw s1 c.llc_stripe_count
  generalize hclr : lod_qos_ost_in_use_clear w s1 c.llc_stripe_count = clr at *
  have hm32 : 2 * k < 2 ^ 32 := two_k_lt (by omega) hk
  have hTn : T.Nodup := hperm.nodup_iff.mpr hnodup
  have hTl : T.length = 2 * k := by rw [hperm.length_eq]; exact hlen
  obtain ⟨s3, hres, h3lo, h3lti, h3bm, h3descs, h3pool, h3lqr, h3lt, h3slot⟩ :=
    @lod_alloc_rr_reseed_ok w clr.2 c.llc_stripe_count
      (min_stripe_count c.llc_stripe_count flags) (2 * k)
      (by rw [hclrlod, hinv1.pool]; exact hlen) (by omega)
      (by rw [hclrlod, hst1]; exact hs0) (by rw [hclrlod, hoff1]; exact hoff)
      (by rw [hclrlod, hst1, hoff1]; exact hwrap)
  have hinv3 : rr_sys_inv s T c.llc_stripe_count s3 :=
    ⟨by rw [h3lo, hclrlo, hinv1.lo], by rw [h3lti, hclrav, hinv1.avoid],
      by rw [h3bm, hclrlod, hinv1.bitmap], by rw [h3descs, hclrlod, hinv1.descs],
      by rw [h3pool, hclrlod, hinv1.pool], by rw [h3lqr, hclrlod, hinv1.table],
      by rw [h3lti]; exact hclrst⟩
  obtain ⟨st1, hpass, hfin⟩ :=
    @lod_alloc_rr_pass_ok w s T c.llc_stripe_count (2 * k)
      ((s3.lod.lod_qos.lq_rr.lqr_start_idx + s3.lod.lod_qos.lq_rr.lqr_offset_idx) % 2 ^ 32 %
        (2 * k))
      s3.lod.lod_qos.lq_rr.lqr_start_idx s3.lod.lod_qos.lq_rr.lqr_offset_idx comp_idx
      (min_stripe_count c.llc_stripe_count flags) (pool_lqr s3.lod pool_ref.dev).lqr_start_idx c
      ⟨⟨s3, stripe, ost_indices, 0, false⟩, false⟩
      hw hTn hTl (fun t ht => hgood t (hperm.mem_iff.mp ht)) hlen hcomp hpat hflr havoid h3slot
      hn hm32 (min_stripe_count_le _ _)
      ⟨hinv3, rfl, (Nat.mod_eq_of_lt h3lt).symm, rfl, hls, hlo, fun j hj => absurd hj (by omega)⟩
  have hc1 : st1.a.sys.lo.ldo_comp_entries[comp_idx]? = some c := by
    rw [hfin.sys.lo]
    exact hcomp
  have hidx : st1.a.stripe_idx ≠ 0 := by
    rw [hfin.idx]
    omega
  generalize hr : lod_alloc_rr w s stripe ost_indices flags comp_idx = r
  unfold lod_alloc_rr at hr
  simp only [hcomp, hdef, lod_comp_pool_ref, hcalc, hclr, hclr0, ne_eq, not_true_eq_false,
    if_false, hres, for_loop, hpass, hc1, hidx, not_false_eq_true, if_true] at hr
  subst hr
  refine ⟨_, T, (s3.lod.lod_qos.lq_rr.lqr_start_idx + s3.lod.lod_qos.lq_rr.lqr_offset_idx) %
    2 ^ 32 % (2 * k), rfl, hfin.idx, hTn, hplace, fun j hj => ?_⟩
  obtain ⟨t, ht1, ht2, -⟩ := hfin.picks j hj
  exact ⟨t, ht1, ht2⟩

theorem picks_nodup {T O : List Nat} {m b n : Nat} (hT : T.Nodup) (hn : n ≤ m)
    (hp : ∀ j, j < n → ∃ t, T[(b + j) % m]? = some t ∧ O[j]? = some t) :
    (O.take n).Nodup := by
  rw [List.nodup_iff_getElem?_ne_getElem?]
  intro i j hij hj e
  have hjn : j < n := by
    rw [List.length_take] at hj
    omega
  have hin : i < n := by omega
  rw [List.getElem?_take_of_lt hin, List.getElem?_take_of_lt hjn] at e
  obtain ⟨t, ht1, ht2⟩ := hp i hin
  obtain ⟨u, hu1, hu2⟩ := hp j hjn
  rw [ht2, hu2, Option.some.injEq] at e
  subst e
  have h1 := nodup_getElem?_inj hT ht1 hu1
  have h2 := mod_shift_inj h1 (by omega) (by omega)
  omega

theorem place_inv.svr_of_slot {d : lod_device} {k : Nat} {T : List Nat} {x t : Nat}
    (h : place_inv d k T k k) (hx : x < 2 * k) (ht : T[x]? = some t) :
    (OST_TGT d t).ltq_svr = x % 2 := by
  rcases Nat.mod_two_eq_zero_or_one x with e | e
  · obtain ⟨u, hu, -, hs⟩ := h.even_filled (x / 2) (by omega)
    rw [show 2 * (x / 2) = x by omega, ht, Option.some.injEq] at hu
    subst hu
    rw [hs, e]
  · obtain ⟨u, hu, -, hs⟩ := h.odd_filled (x / 2) (by omega)
    rw [show 2 * (x / 2) + 1 = x by omega, ht, Option.some.injEq] at hu
    subst hu
    rw [hs, e]

theorem picks_balance {d : lod_device} {k : Nat} {T O : List Nat} {b n : Nat}
    (hk : 0 < k) (h : place_inv d k T k k)
    (hp : ∀ j, j < n → ∃ t, T[(b + j) % (2 * k)]? = some t ∧ O[j]? = some t) :
    ∀ q, 2 * q ≤ n → svr_count d O 0 (2 * q) = q ∧ svr_count d O 1 (2 * q) = q := by
  have hsvr : ∀ j, j < n → ∃ t, O[j]? = some t ∧ (OST_TGT d t).ltq_svr = (b + j) % 2 := by
    intro j hj
    obtain ⟨t, ht1, ht2⟩ := hp j hj
    refine ⟨t, ht2, ?_⟩
    rw [h.svr_of_slot (Nat.mod_lt _ (by omega)) ht1]
    exact Nat.mod_mod_of_dvd _ (Dvd.intro k rfl)
  intro q
  induction q with
  | zero =>
    intro _
    exact ⟨svr_count_zero d O 0, svr_count_zero d O 1⟩
  | succ q ih =>
    intro hq
    obtain ⟨i0, i1⟩ := ih (by omega)
    obtain ⟨t, ht, hts⟩ := hsvr (2 * q) (by omega)
    obtain ⟨u, hu, hus⟩ := hsvr (2 * q + 1) (by omega)
    rw [show 2 * (q + 1) = 2 * q + 1 + 1 by omega]
    rcases Nat.mod_two_eq_zero_or_one b with e | e
    · have e1 : (OST_TGT d t).ltq_svr = 0 := by omega
      have e2 : (OST_TGT d u).ltq_svr = 1 := by omega
      rw [svr_count_succ_of_ne hu (by omega : (OST_TGT d u).ltq_svr ≠ 0),
        svr_count_succ_of ht e1, svr_count_succ_of hu e2,
        svr_count_succ_of_ne ht (by omega : (OST_TGT d t).ltq_svr ≠ 1), i0, i1]
      exact ⟨rfl, rfl⟩
    · have e1 : (OST_TGT d t).ltq_svr = 1 := by omega
      have e2 : (OST_TGT d u).ltq_svr = 0 := by omega
      rw [svr_count_succ_of hu e2,
        svr_count_succ_of_ne ht (by omega : (OST_TGT d t).ltq_svr ≠ 0),
        svr_count_succ_of_ne hu (by omega : (OST_TGT d u).ltq_svr ≠ 1),
        svr_count_succ_of ht e1, i0, i1]
      exact ⟨rfl, rfl⟩

/-! ## C5: the round-robin happy path -/

/-- Counterexample to C5: 6 live, healthy, unused targets split 3/3 across two
servers, default pool, no overstriping, `stripe_count = 6`, cursor
`lqr_start_idx = 0`, `lqr_offset_idx = 2^32 - 3`.  `lod_alloc_rr` returns 0
having placed 4 stripes only, `[1, 4, 0, 3]`: the sum of the two cursor
fields wraps at `2^32`, which 6 does not divide, so the walk over the table
meets slots again that hold targets already taken. -/
theorem C5_rr_cursor_wrap_counterexample :
    ∃ a c, lod_alloc_rr (healthy_backend false) c5_sys (List.replicate 6 none)
        (List.replicate 6 0) 0 0 = some (0, a) ∧
      c5_sys.lo.ldo_comp_entries[0]? = some c ∧ c.llc_stripe_count = 6 ∧
      c5_sys.lod.lod_pool_info.op_array = [0, 1, 2, 3, 4, 5] ∧
      svr_count c5_sys.lod c5_sys.lod.lod_pool_info.op_array 0 6 = 3 ∧
      svr_count c5_sys.lod c5_sys.lod.lod_pool_info.op_array 1 6 = 3 ∧
      a.stripe_idx = 4 ∧ a.ost_indices.take a.stripe_idx = [1, 4, 0, 3] := by
  have h : (lod_alloc_rr (healthy_backend false) c5_sys (List.replicate 6 none)
      (List.replicate 6 0) 0 0).map
      (fun r => (r.1, r.2.stripe_idx, r.2.ost_indices.take r.2.stripe_idx)) =
      some (0, 4, [1, 4, 0, 3]) := by
    decide
  obtain ⟨⟨rc, a⟩, h1, h2⟩ := Option.map_eq_some'.mp h
  simp only [Prod.mk.injEq] at h2
  obtain ⟨rfl, h3, h4⟩ := h2
  exact ⟨a, demo_comp 6, h1, rfl, rfl, by decide, by decide, by decide, h3, h4⟩

/-- C5 (amended): round-robin happy path.  The device-wide pool holds `2k`
pairwise distinct targets, each live, active and used by no component, `k` of
them on each of the two servers of the server list; the backend is healthy
(every probe answers 0 with precreated objects and no degraded state, every
declaration succeeds); the component names no pool, has no `OVERSTRIPING` bit
and asks for an even `stripe_count` with `0 < stripe_count ≤ 2k`; the
round-robin table is current, that is, due for recomputation or the one
`lod_qos_calc_rr` computes for the pool; nothing is to be avoided; the
buffers have room for `stripe_count` entries.  Provided `2·k² ≤ 2^32` and the
cursor does not wrap, that is `2k` divides `2^32` or
`max lqr_start_idx 2k + lqr_offset_idx + 2k + 1 ≤ 2^32`, `lod_alloc_rr` returns
0 with `stripe_count` stripes on pairwise distinct targets, `stripe_count / 2`
of them on each server. -/
theorem C5_rr_happy_path (w : lod_backend) (s : lod_sys) (stripe : List (Option dt_object))
    (ost_indices : List Nat) (flags comp_idx k : Nat) (c : lod_layout_component)
    (oss0 oss1 : lu_svr_qos) (hw : healthy w)
    (hcomp : s.lo.ldo_comp_entries[comp_idx]? = some c)
    (hdef : c.llc_pool = none)
    (hpat : c.llc_pattern &&& LOV_PATTERN_OVERSTRIPING = 0)
    (hn0 : 0 < c.llc_stripe_count) (hn : c.llc_stripe_count ≤ 2 * k)
    (heven : c.llc_stripe_count % 2 = 0)
    (hk : 2 * k * k ≤ 2 ^ 32)
    (hlen : s.lod.lod_pool_info.op_array.length = 2 * k)
    (hnodup : s.lod.lod_pool_info.op_array.Nodup)
    (hgood : ∀ t ∈ s.lod.lod_pool_info.op_array, good_target s t)
    (hsent : cfs_bitmap_check s.lod.lod_ost_bitmap LOV_QOS_EMPTY = false)
    (hc0 : svr_count s.lod s.lod.lod_pool_info.op_array 0 s.lod.lod_pool_info.op_array.length = k)
    (hc1 : svr_count s.lod s.lod.lod_pool_info.op_array 1 s.lod.lod_pool_info.op_array.length = k)
    (hsvr : s.lod.lod_qos.lq_svr_list = [oss0, oss1])
    (h0 : oss0.lsq_tgt_count = k) (h1 : oss1.lsq_tgt_count = k)
    (hcur : rr_table_current s.lod)
    (hflr : lod_is_flr s.lo = false) (havoid : s.lti.lti_avoid.lag_oaa_count = 0)
    (hs0 : s.lod.lod_qos.lq_rr.lqr_start_idx < 2 ^ 32)
    (hoff : s.lod.lod_qos.lq_rr.lqr_offset_idx < 2 ^ 32)
    (hwrap : 2 * k ∣ 2 ^ 32 ∨ max s.lod.lod_qos.lq_rr.lqr_start_idx (2 * k) +
      s.lod.lod_qos.lq_rr.lqr_offset_idx + 2 * k + 1 ≤ 2 ^ 32)
    (hls : c.llc_stripe_count ≤ stripe.length)
    (hlo : c.llc_stripe_count ≤ ost_indices.length) :
    ∃ a, lod_alloc_rr w s stripe ost_indices flags comp_idx = some (0, a) ∧
      a.stripe_idx = c.llc_stripe_count ∧
      (a.ost_indices.take c.llc_stripe_count).Nodup ∧
      svr_count s.lod a.ost_indices 0 c.llc_stripe_count = c.llc_stripe_count / 2 ∧
      svr_count s.lod a.ost_indices 1 c.llc_stripe_count = c.llc_stripe_count / 2 := by
  obtain ⟨a, T, b, hr, hidx, hT, hplace, hp⟩ :=
    lod_alloc_rr_happy hw hcomp hdef hpat hn0 hn hk hlen hnodup hgood hsent hc0 hc1 hsvr h0 h1
      hcur hflr havoid hs0 hoff hwrap hls hlo
  have hbal := picks_balance (by omega) hplace hp (c.llc_stripe_count / 2) (by omega)
  rw [show 2 * (c.llc_stripe_count / 2) = c.llc_stripe_count by omega] at hbal
  exact ⟨a, hr, hidx, picks_nodup hT hn hp, hbal.1, hbal.2⟩

/-- Witness of C5, scenario S1: 8 targets on 2 servers (4/4), `stripe_count = 4`,
no pool, no overstriping: 4 distinct targets, 2 on each server, both when the
table is due for recomputation and when it is clean. -/
theorem C5_rr_happy_path_witness :
    (∃ a, lod_alloc_rr (healthy_backend false) s1_sys (List.replicate 4 none)
        (List.replicate 4 0) 0 0 = some (0, a) ∧
      a.stripe_idx = 4 ∧ (a.ost_indices.take 4).Nodup ∧
      svr_count s1_sys.lod a.ost_indices 0 4 = 2 ∧
      svr_count s1_sys.lod a.ost_indices 1 4 = 2) ∧
    s1_clean_sys.lod.lod_qos.lq_rr.lqr_dirty = false ∧
    (∃ a, lod_alloc_rr (healthy_backend false) s1_clean_sys (List.replicate 4 none)
        (List.replicate 4 0) 0 0 = some (0, a) ∧
      a.stripe_idx = 4 ∧ (a.ost_indices.take 4).Nodup ∧
      svr_count s1_clean_sys.lod a.ost_indices 0 4 = 2 ∧
      svr_count s1_clean_sys.lod a.ost_indices 1 4 = 2) := by
  have hw : healthy (healthy_backend false) :=
    ⟨fun _ _ => rfl, fun _ _ => rfl,
      fun _ _ => (by decide : healthy_statfs.os_fprecreated ≠ 0), fun _ _ => rfl,
      fun _ => rfl, fun _ => rfl⟩
  have hgood : ∀ t ∈ s1_sys.lod.lod_pool_info.op_array, good_target s1_sys t := by
    intro t ht
    have h8 : t < 8 := List.mem_range.mp ht
    interval_cases t <;> exact ⟨by decide, by decide, by decide⟩
  have hgoodc : ∀ t ∈ s1_clean_sys.lod.lod_pool_info.op_array, good_target s1_clean_sys t := by
    intro t ht
    have h8 : t < 8 := List.mem_range.mp ht
    interval_cases t <;> exact ⟨by decide, by decide, by decide⟩
  refine ⟨?_, rfl, ?_⟩
  · exact C5_rr_happy_path (healthy_backend false) s1_sys (List.replicate 4 none)
      (List.replicate 4 0) 0 0 4 (demo_comp 4) ⟨10, 4⟩ ⟨11, 4⟩ hw
      rfl rfl (by decide) (by decide) (by decide) (by decide) (by decide) rfl (by decide)
      hgood (by decide) (by decide) (by decide) rfl rfl rfl (Or.inl rfl) (by decide) rfl
      (by decide) (by decide) (Or.inl (by decide)) (by decide) (by decide)
  · exact C5_rr_happy_path (healthy_backend false) s1_clean_sys (List.replicate 4 none)
      (List.replicate 4 0) 0 0 4 (demo_comp 4) ⟨10, 4⟩ ⟨11, 4⟩ hw
      rfl rfl (by decide) (by decide) (by decide) (by decide) (by decide) rfl (by decide)
      hgoodc (by decide) (by decide) (by decide) rfl rfl rfl (Or.inr ⟨by decide, by decide⟩)
      (by decide) rfl (by decide) (by decide) (Or.inl (by decide)) (by decide) (by decide)

/-! ## C20: the minimum acceptable stripe count -/

/-- Counterexample to C20: with `LOV_USES_DEFAULT_STRIPE` and `c = 1` the
function yields 1, while `⌊3·1/4⌋ = 0`. -/
theorem C20_min_stripe_count_floor_counterexample :
    min_stripe_count 1 LOV_USES_DEFAULT_STRIPE = 1 ∧ 3 * 1 / 4 = 0 ∧
      LOV_USES_DEFAULT_STRIPE &&& LOV_USES_DEFAULT_STRIPE ≠ 0 := by
  decide

/-- C20 (amended): for every stripe count `c`, `min_stripe_count c flags` is
`c - ⌊c/4⌋`, that is `⌈3c/4⌉ = ⌊(3c + 3)/4⌋`, when `flags` contains
`LOV_USES_DEFAULT_STRIPE`, and `c` otherwise. -/
theorem C20_min_stripe_count_ceil (c flags : Nat) :
    min_stripe_count c flags =
      if flags &&& LOV_USES_DEFAULT_STRIPE ≠ 0 then (3 * c + 3) / 4 else c := by
  unfold min_stripe_count
  split
  · omega
  · rfl

/-! ## C17: the order of the rules of the target health check -/

/-- Counterexample to C17: a reply fetched successfully, not full, with both
`READONLY` and `NOPRECREATE` set: the check returns `-ENOBUFS` (no-precreate),
not `-EROFS` (readonly). -/
theorem C17_readonly_noprecreate_counterexample :
    ∃ r, lod_statfs_and_check (c17_backend (OS_STATE_READONLY ||| OS_STATE_NOPRECREATE))
        s1_sys 0 = some r ∧ r.1 = -ENOBUFS ∧ r.1 ≠ -EROFS ∧
      r.2.2.os_state &&& OS_STATE_READONLY ≠ 0 ∧
      r.2.2.os_state &&& OS_STATE_NOPRECREATE ≠ 0 ∧
      r.2.2.os_state &&& OS_STATE_ENOSPC = 0 ∧ r.2.2.os_state &&& OS_STATE_ENOINO = 0 := by
  have h : (lod_statfs_and_check (c17_backend (OS_STATE_READONLY ||| OS_STATE_NOPRECREATE))
      s1_sys 0).map (fun r => (r.1, r.2.2)) =
      some (-ENOBUFS, { healthy_statfs with os_state := 6 }) := by decide
  obtain ⟨r, h1, h2⟩ := Option.map_eq_some'.mp h
  simp only [Prod.mk.injEq] at h2
  refine ⟨r, h1, h2.1, ?_, ?_, ?_, ?_, ?_⟩
  · rw [h2.1]
    decide
  all_goals
    rw [h2.2]
    decide

/-- C17 (amended): for every statfs reply fetched successfully, when
`lod_statfs_and_check` returns, its result is that of the first matching rule
in the order: full (`ENOSPC` set, or `ENOINO` set with no precreated object),
no-precreate (`NOPRECREATE` set), readonly (`READONLY` set), otherwise ok. -/
theorem C17_probe_normalisation_order (w : lod_backend) (s : lod_sys) (index : Nat)
    (r : Int × lod_sys × obd_statfs) (hfetch : (w.dt_statfs s.clock index).1 = 0)
    (hr : lod_statfs_and_check w s index = some r) :
    r.2.2 = (w.dt_statfs s.clock index).2 ∧
    r.1 =
      if r.2.2.os_state &&& OS_STATE_ENOSPC ≠ 0 ∨
          (r.2.2.os_state &&& OS_STATE_ENOINO ≠ 0 ∧ r.2.2.os_fprecreated = 0) then -ENOSPC
      else if r.2.2.os_state &&& OS_STATE_NOPRECREATE ≠ 0 then -ENOBUFS
      else if r.2.2.os_state &&& OS_STATE_READONLY ≠ 0 then -EROFS
      else 0 := by
  unfold lod_statfs_and_check at hr
  simp only [hfetch, Int.Nat.cast_ofNat_Int, Int.neg_zero, true_and] at hr
  repeat' first
    | contradiction
    | (simp only [Option.some.injEq] at hr
       subst hr
       refine ⟨rfl, ?_⟩
       dsimp only
       split_ifs
       rfl)
    | split at hr

/-- Witness of C17: a reply with `READONLY` alone yields `-EROFS`. -/
theorem C17_probe_normalisation_order_witness :
    ∃ r, lod_statfs_and_check (c17_backend OS_STATE_READONLY) s1_sys 0 = some r ∧
      r.1 = -EROFS := by
  have h : (lod_statfs_and_check (c17_backend OS_STATE_READONLY) s1_sys 0).map
      (fun r => (r.1, r.2.2)) = some (-EROFS, { healthy_statfs with os_state := 2 }) := by
    decide
  obtain ⟨r, h1, h2⟩ := Option.map_eq_some'.mp h
  simp only [Prod.mk.injEq] at h2
  obtain ⟨-, e2⟩ :=
    C17_probe_normalisation_order (c17_backend OS_STATE_READONLY) s1_sys 0 r rfl h1
  rw [h2.2] at e2
  exact ⟨r, h1, e2.trans (by decide)⟩

/-! ## C15: byte-swapped hints -/

theorem lod_use_defined_striping_unknown (w : lod_backend) (s : lod_sys) (b : lu_buf)
    (hmagic : b.v1.lmm_magic = swab32 LOV_USER_MAGIC_V1 ∨
      b.v1.lmm_magic = swab32 LOV_USER_MAGIC_V3 ∨
      b.v1.lmm_magic = swab32 LOV_USER_MAGIC_SPECIFIC ∨
      b.v1.lmm_magic = swab32 LOV_USER_MAGIC_COMP_V1) :
    lod_use_defined_striping w s b =
      some (-EINVAL, { s with lo := lod_striping_free_nolock s.lo }) := by
  unfold lod_use_defined_striping
  have hm : b.v1.lmm_magic &&& (0xffffffff ^^^ LOV_MAGIC_DEFINED) ≠ LOV_USER_MAGIC_V1 ∧
      b.v1.lmm_magic &&& (0xffffffff ^^^ LOV_MAGIC_DEFINED) ≠ LOV_USER_MAGIC_V3 ∧
      b.v1.lmm_magic &&& (0xffffffff ^^^ LOV_MAGIC_DEFINED) ≠ LOV_USER_MAGIC_COMP_V1 ∧
      b.v1.lmm_magic &&& (0xffffffff ^^^ LOV_MAGIC_DEFINED) ≠ LOV_USER_MAGIC_FOREIGN := by
    rcases hmagic with h | h | h | h <;> rw [h] <;> decide
  dsimp only
  rw [if_pos hm]

/-- C15: a hint whose magic is the byte-swapped magic of V1, V3, SPECIFIC or
COMP_V1 is rejected with `-EINVAL`:
each of these four words has the bit `LOV_MAGIC_DEFINED` set, so the parser
hands the buffer to `lod_use_defined_striping`, which does not know the word;
the `switch` that would swab the buffer is not reached. -/
theorem C15_swabbed_hint_rejected (w : lod_backend) (s : lod_sys) (b : lu_buf)
    (hlen : b.lb_len ≠ 0)
    (hmagic : b.v1.lmm_magic = swab32 LOV_USER_MAGIC_V1 ∨
      b.v1.lmm_magic = swab32 LOV_USER_MAGIC_V3 ∨
      b.v1.lmm_magic = swab32 LOV_USER_MAGIC_SPECIFIC ∨
      b.v1.lmm_magic = swab32 LOV_USER_MAGIC_COMP_V1) :
    ∃ s1, lod_qos_parse_config w s (some b) = some (-EINVAL, s1) := by
  have hdef : b.v1.lmm_magic &&& LOV_MAGIC_DEFINED ≠ 0 := by
    rcases hmagic with h | h | h | h <;> rw [h] <;> decide
  unfold lod_qos_parse_config
  simp only [hlen, if_false, hdef, ne_eq, not_false_eq_true, if_true,
    lod_use_defined_striping_unknown w _ b hmagic]
  split
  · exact ⟨_, rfl⟩
  · exact ⟨_, rfl⟩

/-- Witness of C15: the V1 hint of two stripes is accepted in native order and
rejected once byte-swapped. -/
theorem C15_swabbed_hint_rejected_witness :
    (lod_qos_parse_config (healthy_backend false) s1_sys (some (hint_buf c15_hint))).map
        (fun r => (r.1, r.2.lo.ldo_comp_entries.map (fun c => c.llc_stripe_count))) =
      some (0, [2]) ∧
    ∃ s1, lod_qos_parse_config (healthy_backend false) s1_sys
        (some (hint_buf (lustre_swab_lov_user_md c15_hint))) = some (-EINVAL, s1) :=
  ⟨by decide, C15_swabbed_hint_rejected (healthy_backend false) s1_sys
    (hint_buf (lustre_swab_lov_user_md c15_hint)) (by decide) (Or.inl (by decide))⟩

theorem countP_range_update (p q : Nat → Bool) (i : Nat) (h : ∀ j, j ≠ i → q j = p j) :
    ∀ n, i < n → (List.range n).countP q + (if p i then 1 else 0) =
      (List.range n).countP p + (if q i then 1 else 0) := by
  intro n
  induction n with
  | zero => intro hi; omega
  | succ n ih =>
    intro hi
    rw [List.range_succ, List.countP_append, List.countP_append]
    simp only [List.countP_cons, List.countP_nil, Nat.zero_add]
    by_cases e : i = n
    · subst e
      have hsame : (List.range i).countP q = (List.range i).countP p := by
        apply List.countP_congr
        intro j hj
        rw [h j (by have := List.mem_range.mp hj; omega)]
      rw [hsame]
      cases p i <;> cases q i <;> simp
    · have h1 := ih (by omega)
      rw [h n (fun e1 => e e1.symm)]
      omega

theorem countP_range_le (p q : Nat → Bool) (h : ∀ j, p j = true → q j = true) (n : Nat) :
    (List.range n).countP p ≤ (List.range n).countP q := by
  induction n with
  | zero => simp
  | succ n ih =>
    rw [List.range_succ, List.countP_append, List.countP_append]
    simp only [List.countP_cons, List.countP_nil, Nat.zero_add]
    have := h n
    cases hp : p n <;> cases hq : q n <;> simp_all
    omega

theorem active_tgt_count_set_tgt (d : lod_device) (i : Nat) (v : lod_tgt_desc)
    (hlive : cfs_bitmap_check d.lod_ost_bitmap i = true) :
    active_tgt_count (d.set_tgt i v) + (if (OST_TGT d i).ltd_active then 1 else 0) =
      active_tgt_count d + (if v.ltd_active then 1 else 0) := by
  have hi : i < d.lod_ost_bitmap.size := by
    simp only [cfs_bitmap_check, Bool.and_eq_true, decide_eq_true_eq] at hlive
    exact hlive.1
  have h := countP_range_update
    (fun j => cfs_bitmap_check d.lod_ost_bitmap j && (OST_TGT d j).ltd_active)
    (fun j => cfs_bitmap_check d.lod_ost_bitmap j && (OST_TGT (d.set_tgt i v) j).ltd_active) i
    (fun j hj => by
      show (cfs_bitmap_check d.lod_ost_bitmap j &&
        (if j = i then v else d.lod_ost_descs j).ltd_active) = _
      rw [if_neg hj]
      rfl)
    d.lod_ost_bitmap.size hi
  have e : (OST_TGT (d.set_tgt i v) i).ltd_active = v.ltd_active := by
    show (if i = i then v else d.lod_ost_descs i).ltd_active = _
    rw [if_pos rfl]
  simp only [hlive, Bool.true_and, e] at h
  exact h

theorem active_tgt_count_lt (d : lod_device) (i : Nat)
    (hlive : cfs_bitmap_check d.lod_ost_bitmap i = true)
    (hact : (OST_TGT d i).ltd_active = false) : active_tgt_count d < live_tgt_count d := by
  have h := active_tgt_count_set_tgt d i { OST_TGT d i with ltd_active := true } hlive
  dsimp only at h
  simp only [hact, Bool.false_eq_true, if_false, if_true, Nat.add_zero] at h
  have h2 : active_tgt_count (d.set_tgt i { OST_TGT d i with ltd_active := true }) ≤
      live_tgt_count d := by
    apply countP_range_le
    intro j hj
    simp only [Bool.and_eq_true] at hj
    exact hj.1
  dsimp only at h2
  omega

/-- The invariant `active_target_count == |{t : t.active}|` across one health
check of an existing target: the check returns, and the invariant still
holds; the bitmap and the number of targets are left alone. -/
theorem lod_statfs_and_check_active_count {w : lod_backend} {s : lod_sys} {index : Nat}
    (hinv : active_count_ok s.lod) (hn : live_tgt_count s.lod ≤ s.lod.lod_ostnr)
    (hlive : cfs_bitmap_check s.lod.lod_ost_bitmap index = true) :
    ∃ r, lod_statfs_and_check w s index = some r ∧ active_count_ok r.2.1.lod ∧
      r.2.1.lod.lod_ost_bitmap = s.lod.lod_ost_bitmap ∧
      r.2.1.lod.lod_ostnr = s.lod.lod_ostnr := by
  unfold active_count_ok at hinv
  generalize hr : lod_statfs_and_check w s index = r
  unfold lod_statfs_and_check at hr
  lift_lets at hr
  extract_lets d ost reply s1 sfs rc0 rc1 rc2 ost1 d1 src1 src2 src3 d2 ost1a d1a src1a src3a
    src4a d2a at hr
  split at hr
  · subst hr
    exact ⟨_, rfl, hinv, rfl, rfl⟩
  · split at hr
    · rename_i hc
      have h := active_tgt_count_set_tgt s.lod index ost1 hlive
      have ha : (OST_TGT s.lod index).ltd_active = true := hc.2
      have hb : ost1.ltd_active = false := rfl
      simp only [ha, hb, if_true, Bool.false_eq_true, if_false] at h
      have hpos : 0 < d.lod_desc.ld_active_tgt_count := by
        show 0 < s.lod.lod_desc.ld_active_tgt_count
        omega
      rw [if_pos hpos] at hr
      subst hr
      refine ⟨_, rfl, ?_, rfl, rfl⟩
      show s.lod.lod_desc.ld_active_tgt_count - 1 = active_tgt_count (s.lod.set_tgt index ost1)
      omega
    · split at hr
      · rename_i hc
        have ha : (OST_TGT s.lod index).ltd_active = false := hc.2
        have hlt : d.lod_desc.ld_active_tgt_count < d.lod_ostnr := by
          have := active_tgt_count_lt s.lod index hlive ha
          show s.lod.lod_desc.ld_active_tgt_count < s.lod.lod_ostnr
          omega
        rw [if_pos hlt] at hr
        subst hr
        refine ⟨_, rfl, ?_, rfl, rfl⟩
        have h := active_tgt_count_set_tgt s.lod index ost1a hlive
        have hb : ost1a.ltd_active = true := rfl
        simp only [ha, hb, if_true, Bool.false_eq_true, if_false] at h
        show s.lod.lod_desc.ld_active_tgt_count + 1 = active_tgt_count (s.lod.set_tgt index ost1a)
        omega
      · subst hr
        exact ⟨_, rfl, hinv, rfl, rfl⟩

theorem active_count_ok_set_statfs {d : lod_device} {i : Nat} {sfs : obd_statfs}
    (h : active_count_ok d) (hlive : cfs_bitmap_check d.lod_ost_bitmap i = true) :
    active_count_ok (d.set_tgt i { OST_TGT d i with ltd_statfs := sfs }) := by
  have h1 := active_tgt_count_set_tgt d i { OST_TGT d i with ltd_statfs := sfs } hlive
  unfold active_count_ok at h ⊢
  have h2 : active_tgt_count (d.set_tgt i { OST_TGT d i with ltd_statfs := sfs }) =
      active_tgt_count d := Nat.add_right_cancel h1
  rw [h2]
  exact h

theorem lod_qos_statfs_update_body_ok {w : lod_backend} {osts : ost_pool} {bm : cfs_bitmap}
    {n i : Nat} {x : lod_sys} (hn : live_tgt_count x.lod ≤ n)
    (hl : ∀ t ∈ osts.op_array, cfs_bitmap_check bm t = true) (hi : i < osts.op_array.length)
    (h : sweep_inv bm n x) :
    ∃ x1, lod_qos_statfs_update_body w osts i x = some (x1, false) ∧ sweep_inv bm n x1 := by
  have hidx : osts.op_array[i]? = some osts.op_array[i] := List.getElem?_eq_getElem hi
  have hlive := hl _ (List.getElem_mem hi)
  generalize osts.op_array[i] = idx at hidx hlive
  obtain ⟨⟨rc, x1, sfs⟩, hr, h1, h2, h3⟩ := @lod_statfs_and_check_active_count w x idx h.count
    (by rw [h.ostnr]; exact hn) (by rw [h.bitmap]; exact hlive)
  have hl1 : cfs_bitmap_check x1.lod.lod_ost_bitmap idx = true := by
    show cfs_bitmap_check (rc, x1, sfs).2.1.lod.lod_ost_bitmap idx = true
    rw [h2, h.bitmap]
    exact hlive
  have hok := @active_count_ok_set_statfs x1.lod idx sfs h1 hl1
  have hinv : sweep_inv bm n
      { x1 with lod := x1.lod.set_tgt idx { OST_TGT x1.lod idx with ltd_statfs := sfs } } :=
    ⟨hok, h2.trans h.bitmap, h3.trans h.ostnr⟩
  generalize hres : lod_qos_statfs_update_body w osts i x = res
  unfold lod_qos_statfs_update_body at hres
  simp only [hidx, hr] at hres
  split at hres
  · subst hres
    exact ⟨_, rfl, hinv⟩
  · split at hres
    · subst hres
      exact ⟨_, rfl, hinv.count, hinv.bitmap, hinv.ostnr⟩
    · subst hres
      exact ⟨_, rfl, hinv⟩

theorem lod_qos_statfs_update_active_count {w : lod_backend} {s : lod_sys}
    (hinv : active_count_ok s.lod) (hn : live_tgt_count s.lod ≤ s.lod.lod_ostnr)
    (hl : ∀ t ∈ s.lod.lod_pool_info.op_array, cfs_bitmap_check s.lod.lod_ost_bitmap t = true) :
    ∃ s1, lod_qos_statfs_update w s = some s1 ∧ active_count_ok s1.lod := by
  have hloop := for_loop_steps (fun _ x => sweep_inv s.lod.lod_ost_bitmap s.lod.lod_ostnr x)
    (lod_qos_statfs_update_body w s.lod.lod_pool_info) s.lod.lod_pool_info.op_array.length
    (fun i x hi hx => lod_qos_statfs_update_body_ok
      (by
        have : live_tgt_count x.lod = live_tgt_count s.lod := by
          unfold live_tgt_count
          rw [hx.bitmap]
        omega) hl hi hx)
    s.lod.lod_pool_info.op_array.length 0 s.tick (Nat.zero_add _) ⟨hinv, rfl, rfl⟩
  obtain ⟨x, hx, hxi⟩ := hloop
  unfold lod_qos_statfs_update
  dsimp only
  split
  · exact ⟨_, rfl, hinv⟩
  · have hx1 : for_loop (lod_qos_statfs_update_body w s.lod.lod_pool_info)
        s.lod.lod_pool_info.op_count 0 s.tick = some x := hx
    rw [hx1]
    exact ⟨_, rfl, hxi.count⟩

/-! ## C13: the count of active targets -/

/-- C13: when `ld_active_tgt_count` is the number of existing targets whose
active flag is set, and the device has room for its existing targets
(`lod_ostnr`), then `lod_statfs_and_check` on any existing target returns,
whatever the statfs outcome, and the count is still the number of active
targets; so does a full sweep of `lod_qos_statfs_update` over a pool of
existing targets. -/
theorem C13_active_count_invariant (w : lod_backend) (s : lod_sys)
    (hinv : active_count_ok s.lod) (hn : live_tgt_count s.lod ≤ s.lod.lod_ostnr) :
    (∀ index, cfs_bitmap_check s.lod.lod_ost_bitmap index = true →
      ∃ r, lod_statfs_and_check w s index = some r ∧ active_count_ok r.2.1.lod) ∧
    ((∀ t ∈ s.lod.lod_pool_info.op_array, cfs_bitmap_check s.lod.lod_ost_bitmap t = true) →
      ∃ s1, lod_qos_statfs_update w s = some s1 ∧ active_count_ok s1.lod) := by
  refine ⟨fun index hlive => ?_, fun hl => lod_qos_statfs_update_active_count hinv hn hl⟩
  obtain ⟨r, hr, h1, -, -⟩ := @lod_statfs_and_check_active_count w s index hinv hn hlive
  exact ⟨r, hr, h1⟩

/-- Witness of C13, on the 8 targets of scenario S1 with target 1 not
answering: the check of target 1 turns it inactive and leaves 7 active
targets counted; the sweep returns with the count right. -/
theorem C13_active_count_invariant_witness :
    active_count_ok s1_sys.lod ∧
    (∃ r, lod_statfs_and_check c13_backend s1_sys 1 = some r ∧ active_count_ok r.2.1.lod ∧
      r.2.1.lod.lod_desc.ld_active_tgt_count = 7) ∧
    ∃ s1, lod_qos_statfs_update c13_backend s1_sys = some s1 ∧ active_count_ok s1.lod := by
  have h0 : active_count_ok s1_sys.lod := by
    unfold active_count_ok
    decide
  have h := C13_active_count_invariant c13_backend s1_sys h0 (by decide)
  obtain ⟨r, hr, hc⟩ := h.1 1 (by decide)
  have h7 : (lod_statfs_and_check c13_backend s1_sys 1).map
      (fun r => r.2.1.lod.lod_desc.ld_active_tgt_count) = some 7 := by decide
  rw [hr] at h7
  exact ⟨h0, ⟨r, hr, hc, Option.some.inj h7⟩, h.2 (by decide)⟩

/-! ## C18: the result of the round-robin policy -/

theorem alloc_step.idx_le {bm : cfs_bitmap} {pattern : Nat} {a a1 : alloc_state}
    (hs : alloc_step bm pattern a a1) : a1.stripe_idx ≤ a.stripe_idx + 1 := by
  rcases hs with ⟨s1, ov, -, rfl⟩ | ⟨s1, ov, ost_idx, o, -, -, -, hc⟩
  · exact Nat.le_succ _
  · rw [(alloc_state.commit_spec hc).1]

theorem lod_check_and_reserve_ost_idx_le {w : lod_backend} {a a1 : alloc_state}
    {comp_idx ost_idx speed n : Nat} {rc : Int} {c : lod_layout_component}
    (hr : lod_check_and_reserve_ost w a comp_idx ost_idx speed = some (rc, a1))
    (hcomp : a.sys.lo.ldo_comp_entries[comp_idx]? = some c)
    (hlive : cfs_bitmap_check a.sys.lod.lod_ost_bitmap ost_idx = true)
    (hlt : a.stripe_idx < n) : a1.stripe_idx ≤ n :=
  Nat.le_trans (lod_check_and_reserve_ost_step hcomp hlive hr).idx_le hlt

theorem lod_alloc_rr_body_idx_le {w : lod_backend} {bm : cfs_bitmap} {lo : lod_object}
    {r : pool_ref} {comp_idx stripe_count speed i : Nat} {st st1 : rr_state} {b : Bool}
    {c : lod_layout_component} (hcomp : lo.ldo_comp_entries[comp_idx]? = some c)
    (h : alloc_inv bm lo c.llc_pattern st.a) (hle : st.a.stripe_idx ≤ stripe_count)
    (hr : lod_alloc_rr_body w r comp_idx stripe_count speed i st = some (st1, b)) :
    st1.a.stripe_idx ≤ stripe_count := by
  unfold lod_alloc_rr_body at hr
  simp only [lod_sys.set_lqr, set_pool_lqr_bitmap, h.bitmap] at hr
  split at hr
  · simp only [Option.some.injEq, Prod.mk.injEq] at hr
    obtain ⟨rfl, -⟩ := hr
    exact hle
  · rename_i hlt
    have hlt1 : st.a.stripe_idx < stripe_count := by omega
    have hc1 : st.a.sys.lo.ldo_comp_entries[comp_idx]? = some c := by
      rw [h.lo_eq]
      exact hcomp
    repeat' first
      | contradiction
      | (simp only [Option.some.injEq, Prod.mk.injEq] at hr
         obtain ⟨rfl, -⟩ := hr
         first
          | exact hle
          | (apply lod_check_and_reserve_ost_idx_le
             · assumption
             · exact hc1
             · show cfs_bitmap_check (set_pool_lqr st.a.sys.lod r _).lod_ost_bitmap _ = true
               rw [set_pool_lqr_bitmap, h.bitmap]
               apply live_of_not
               assumption
             · exact hlt1))
      | split at hr

theorem lod_alloc_rr_pass_idx_le {w : lod_backend} {bm : cfs_bitmap} {lo : lod_object}
    {r : pool_ref} {comp_idx stripe_count stripe_count_min tmp speed : Nat}
    {st st1 : rr_state} {b : Bool}
    {c : lod_layout_component} (hcomp : lo.ldo_comp_entries[comp_idx]? = some c)
    (h : alloc_inv bm lo c.llc_pattern st.a ∧ st.a.stripe_idx ≤ stripe_count)
    (hr : lod_alloc_rr_pass w r comp_idx stripe_count stripe_count_min tmp speed st =
      some (st1, b)) :
    alloc_inv bm lo c.llc_pattern st1.a ∧ st1.a.stripe_idx ≤ stripe_count := by
  refine ⟨lod_alloc_rr_pass_inv hcomp h.1 hr, ?_⟩
  unfold lod_alloc_rr_pass at hr
  simp only [h.1.lo_eq, hcomp] at hr
  split at hr
  · contradiction
  · split at hr
    · contradiction
    · rename_i st2 hloop
      have h2 := for_loop_inv
        (fun x => alloc_inv bm lo c.llc_pattern x.a ∧ x.a.stripe_idx ≤ stripe_count) _
        (fun _ _ _ _ hx hb =>
          ⟨lod_alloc_rr_body_inv hcomp hx.1 hb, lod_alloc_rr_body_idx_le hcomp hx.1 hx.2 hb⟩)
        _ _ _ _ h hloop
      split at hr <;> simp only [Option.some.injEq, Prod.mk.injEq] at hr <;>
        obtain ⟨rfl, -⟩ := hr <;> exact h2.2

/-- C18: for every `lod_alloc_rr` call that gets past the recomputation of
the table and the setup of the in-use array, the result is 0 if and only if at
least one stripe was placed; the number of stripes placed is at most the
count requested; when a stripe was placed the component's `stripe_count` is
the number placed, and when none was the result is `-EINPROGRESS` or `-ENOSPC`
and the `stripe_count` is the count requested. -/
theorem C18_rr_result_and_count (w : lod_backend) (s s1 : lod_sys)
    (stripe : List (Option dt_object)) (ost_indices : List Nat) (flags comp_idx : Nat)
    (c : lod_layout_component) (rc : Int) (a : alloc_state)
    (hcomp : s.lo.ldo_comp_entries[comp_idx]? = some c)
    (hcalc : lod_qos_calc_rr w s (lod_comp_pool_ref s.lod c.llc_pool) = some (0, s1))
    (hclr : (lod_qos_ost_in_use_clear w s1 c.llc_stripe_count).1 = 0)
    (hr : lod_alloc_rr w s stripe ost_indices flags comp_idx = some (rc, a)) :
    (rc = 0 ↔ a.stripe_idx ≠ 0) ∧ a.stripe_idx ≤ c.llc_stripe_count ∧
    (a.stripe_idx = 0 → rc = -EINPROGRESS ∨ rc = -ENOSPC) ∧
    ∃ c1, a.sys.lo.ldo_comp_entries[comp_idx]? = some c1 ∧
      c1.llc_stripe_count = if a.stripe_idx ≠ 0 then a.stripe_idx else c.llc_stripe_count := by
  unfold lod_alloc_rr at hr
  simp only [hcomp, hcalc, hclr, ne_eq, not_true_eq_false, if_false] at hr
  have f2 := (lod_qos_calc_rr_frame hcalc).frame0.trans0
    (lod_qos_ost_in_use_clear_frame0 w s1 c.llc_stripe_count)
  split at hr
  · contradiction
  · rename_i s3 hseed
    have f3 := f2.trans0 (lod_alloc_rr_reseed_frame hseed).frame0
    split at hr
    · contradiction
    · rename_i st hloop
      have hcomp3 : s3.lo.ldo_comp_entries[comp_idx]? = some c := by
        rw [f3.lo]; exact hcomp
      have h2 := for_loop_inv
        (fun x => alloc_inv s3.lod.lod_ost_bitmap s3.lo c.llc_pattern x.a ∧
          x.a.stripe_idx ≤ c.llc_stripe_count) _
        (fun _ _ _ _ hx hb => lod_alloc_rr_pass_idx_le hcomp3 hx hb) _ _ _ _
        ⟨alloc_inv.init _ _ _ _, Nat.zero_le _⟩ hloop
      have hc1 : st.a.sys.lo.ldo_comp_entries[comp_idx]? = some c := by
        rw [h2.1.lo_eq]; exact hcomp3
      simp only [hc1] at hr
      split at hr
      · rename_i hne
        simp only [Option.some.injEq, Prod.mk.injEq] at hr
        obtain ⟨rfl, rfl⟩ := hr
        refine ⟨⟨fun _ => hne, fun _ => rfl⟩, h2.2, fun h0 => absurd h0 hne, _,
          getElem?_set_self_of_some _ hc1, ?_⟩
        show st.a.stripe_idx = _
        rw [if_pos hne]
      · rename_i he
        have he0 : st.a.stripe_idx = 0 := by
          by_contra hc
          exact he hc
        simp only [Option.some.injEq, Prod.mk.injEq] at hr
        obtain ⟨rfl, rfl⟩ := hr
        refine ⟨⟨fun h => ?_, fun h => absurd he0 h⟩, h2.2, fun _ => ?_, _,
          getElem?_set_self_of_some _ hc1, ?_⟩
        · exfalso
          split at h <;> simp [EINPROGRESS, ENOSPC] at h
        · split
          · exact Or.inl rfl
          · exact Or.inr rfl
        · show (if st.a.overstriped = false then _ else c : lod_layout_component).llc_stripe_count
            = _
          rw [if_neg he]
          split <;> rfl

/-- Witness of C18, scenario S1: the call places 4 stripes, returns 0 and
stores the count 4. -/
theorem C18_rr_result_and_count_witness :
    ∃ a c1, lod_alloc_rr (healthy_backend false) s1_sys (List.replicate 4 none)
        (List.replicate 4 0) 0 0 = some (0, a) ∧ a.stripe_idx = 4 ∧
      a.sys.lo.ldo_comp_entries[0]? = some c1 ∧ c1.llc_stripe_count = 4 := by
  have hw : healthy (healthy_backend false) :=
    ⟨fun _ _ => rfl, fun _ _ => rfl,
      fun _ _ => (by decide : healthy_statfs.os_fprecreated ≠ 0), fun _ _ => rfl,
      fun _ => rfl, fun _ => rfl⟩
  have h : (lod_alloc_rr (healthy_backend false) s1_sys (List.replicate 4 none)
      (List.replicate 4 0) 0 0).map (fun r => (r.1, r.2.stripe_idx)) = some (0, 4) := by
    decide
  obtain ⟨⟨rc, a⟩, h1, h2⟩ := Option.map_eq_some'.mp h
  simp only [Prod.mk.injEq] at h2
  obtain ⟨rfl, h3⟩ := h2
  have hc : (lod_qos_calc_rr (healthy_backend false) s1_sys pool_ref.dev).map (fun r => r.1) =
      some 0 := by decide
  obtain ⟨⟨rc1, x1⟩, h4, h5⟩ := Option.map_eq_some'.mp hc
  have h6 : rc1 = 0 := h5
  subst h6
  obtain ⟨-, -, -, c1, e1, e2⟩ := C18_rr_result_and_count (healthy_backend false) s1_sys x1
    (List.replicate 4 none) (List.replicate 4 0) 0 0 (demo_comp 4) 0 a rfl h4
    (lod_qos_ost_in_use_clear_ok hw x1 4).1 h1
  rw [h3] at e2
  exact ⟨a, c1, h1, h3, e1, e2⟩

/-! ## C11: the result of the offset-anchored policy -/

theorem array_find_none_spec {arr : List Nat} {v : Nat} :
    ∀ fuel i, array_find arr v fuel i = some none →
      ∀ q, i ≤ q → q < i + fuel → arr[q]? ≠ some v := by
  intro fuel
  induction fuel with
  | zero =>
    intro i _ q h1 h2
    omega
  | succ n ih =>
    intro i h q h1 h2
    simp only [array_find] at h
    split at h
    · contradiction
    · rename_i x hx
      split at h
      · simp at h
      · rename_i hxv
        by_cases hqi : q = i
        · subst hqi
          rw [hx]
          intro e
          exact hxv (Option.some.inj e)
        · exact ih (i + 1) h q (by omega) (by omega)

theorem array_find_mem_iff {arr : List Nat} {v : Nat} {r : Option Nat}
    (h : array_find arr v arr.length 0 = some r) : r = none ↔ v ∉ arr := by
  cases r with
  | none =>
    refine ⟨fun _ hm => ?_, fun _ => rfl⟩
    obtain ⟨q, hq⟩ := List.mem_iff_getElem?.mp hm
    have hlt : q < arr.length := by
      by_contra hc
      rw [List.getElem?_eq_none (by omega)] at hq
      contradiction
    exact array_find_none_spec arr.length 0 h q (Nat.zero_le _) (by omega) hq
  | some p =>
    refine ⟨fun h0 => by contradiction, fun hn => ?_⟩
    have := (array_find_spec arr.length 0 p h).2.2.1
    exact absurd (List.mem_iff_getElem?.mpr ⟨p, this⟩) hn

theorem lod_statfs_and_check_pools {w : lod_backend} {s s1 : lod_sys} {index : Nat}
    {rc : Int} {sfs : obd_statfs}
    (h : lod_statfs_and_check w s index = some (rc, s1, sfs)) :
    s1.lod.lod_pool_info = s.lod.lod_pool_info ∧ s1.lod.lod_pools = s.lod.lod_pools ∧
      s1.declared = s.declared ∧ s1.released = s.released := by
  unfold lod_statfs_and_check at h
  simp only at h
  split_ifs at h <;> simp only [Option.some.injEq, Prod.mk.injEq] at h <;>
    obtain ⟨-, rfl, -⟩ := h <;> exact ⟨rfl, rfl, rfl, rfl⟩

theorem lod_qos_declare_object_on_pools {w : lod_backend} {s s1 : lod_sys} {ost_idx : Nat}
    {r : Except Int dt_object}
    (h : lod_qos_declare_object_on w s ost_idx = some (s1, r)) :
    s1.lod = s.lod ∧ s1.lo = s.lo := by
  unfold lod_qos_declare_object_on at h
  simp only at h
  split_ifs at h <;> simp only [Option.some.injEq, Prod.mk.injEq] at h <;>
    obtain ⟨rfl, -⟩ := h <;> exact ⟨rfl, rfl⟩

theorem alloc_state.commit_sys {a a1 : alloc_state} {ost_idx : Nat} {o : dt_object}
    (hc : a.commit ost_idx o = some a1) :
    a1.sys.lod = a.sys.lod ∧ a1.sys.lo = a.sys.lo ∧ a1.sys.declared = a.sys.declared ∧
      a1.sys.released = a.sys.released ∧ a1.overstriped = a.overstriped := by
  unfold alloc_state.commit lod_qos_ost_in_use array_set at hc
  split at hc
  · contradiction
  · rename_i s1 hs1
    split at hs1
    · contradiction
    · rename_i store hstore
      simp only [Option.some.injEq] at hs1
      subst hs1
      split at hc
      · simp only [Option.some.injEq] at hc
        subst hc
        exact ⟨rfl, rfl, rfl, rfl, rfl⟩
      · contradiction

theorem pool_frame.same (x : lod_sys) : pool_frame x x := ⟨rfl, rfl, rfl⟩

theorem pool_frame.chain {x y z : lod_sys} (h1 : pool_frame x y) (h2 : pool_frame y z) :
    pool_frame x z :=
  ⟨h2.pool.trans h1.pool, h2.pools.trans h1.pools, h2.lo.trans h1.lo⟩

theorem tick_pool_frame (s : lod_sys) : pool_frame s s.tick := ⟨rfl, rfl, rfl⟩

theorem lod_statfs_and_check_pool_frame {w : lod_backend} {s s1 : lod_sys} {index : Nat}
    {rc : Int} {sfs : obd_statfs}
    (h : lod_statfs_and_check w s index = some (rc, s1, sfs)) :
    pool_frame s { s1 with lti := { s1.lti with lti_osfs := sfs } } :=
  ⟨(lod_statfs_and_check_pools h).1, (lod_statfs_and_check_pools h).2.1,
    (lod_statfs_and_check_frame h).lo⟩

theorem lod_qos_declare_object_on_pool_frame {w : lod_backend} {s s1 : lod_sys}
    {ost_idx : Nat} {r : Except Int dt_object}
    (h : lod_qos_declare_object_on w s ost_idx = some (s1, r)) : pool_frame s s1 := by
  obtain ⟨h1, h2⟩ := lod_qos_declare_object_on_pools h
  exact ⟨by rw [h1], by rw [h1], h2⟩

theorem specific_inv.move {s : lod_sys} {count : Nat} {a : alloc_state}
    (h : specific_inv s count a) {x : lod_sys} (hf : pool_frame a.sys x) (ov : Bool) :
    specific_inv s count { a with sys := x, overstriped := ov } :=
  ⟨hf.pool.trans h.pool, hf.pools.trans h.pools, hf.lo.trans h.lo, h.idx⟩

theorem specific_inv.placed {s : lod_sys} {count : Nat} {a a2 : alloc_state} {x : lod_sys}
    {ov : Bool} {ost_idx : Nat} {o : dt_object}
    (h : specific_inv s count a) (hf : pool_frame a.sys x)
    (hc : alloc_state.commit { a with sys := x, overstriped := ov } ost_idx o = some a2) :
    (a2.stripe_idx = count → specific_done s count a2) ∧
      (a2.stripe_idx ≠ count → specific_inv s count a2) := by
  obtain ⟨e1, e2, -, -, -⟩ := alloc_state.commit_sys hc
  have e3 := (alloc_state.commit_spec hc).1
  have hp : a2.sys.lod.lod_pool_info = s.lod.lod_pool_info := by
    rw [e1]
    exact hf.pool.trans h.pool
  have hps : a2.sys.lod.lod_pools = s.lod.lod_pools := by
    rw [e1]
    exact hf.pools.trans h.pools
  have hlo : a2.sys.lo = s.lo := by
    rw [e2]
    exact hf.lo.trans h.lo
  refine ⟨fun he => ⟨hp, hps, hlo, he⟩, fun hne => ⟨hp, hps, hlo, ?_⟩⟩
  have := h.idx
  have e4 : a2.stripe_idx = a.stripe_idx + 1 := e3
  omega

theorem lod_alloc_specific_body_spec {w : lod_backend} {s : lod_sys} {osts : ost_pool}
    {lod_comp : lod_layout_component} {speed i : Nat} {st st1 : specific_state} {b : Bool}
    (h : specific_inv s lod_comp.llc_stripe_count st.a ∧ st.done = false)
    (hr : lod_alloc_specific_body w osts lod_comp speed i st = some (st1, b)) :
    (b = false → specific_inv s lod_comp.llc_stripe_count st1.a ∧ st1.done = false) ∧
      (b = true → specific_done s lod_comp.llc_stripe_count st1.a ∧ st1.done = true) := by
  obtain ⟨h, hd⟩ := h
  unfold lod_alloc_specific_body at hr
  simp only at hr
  repeat' first
    | contradiction
    | (simp only [Option.some.injEq, Prod.mk.injEq] at hr
       obtain ⟨rfl, rfl⟩ := hr
       first
        | exact ⟨fun _ => ⟨h, hd⟩, fun hb => by cases hb⟩
        | exact ⟨fun _ => ⟨h.move (tick_pool_frame _) _, hd⟩, fun hb => by cases hb⟩
        | (refine ⟨fun _ => ⟨?_, hd⟩, fun hb => by cases hb⟩
           apply h.move
           apply pool_frame.chain (tick_pool_frame _)
           apply lod_statfs_and_check_pool_frame
           assumption)
        | (refine ⟨fun _ => ⟨?_, hd⟩, fun hb => by cases hb⟩
           apply h.move
           apply pool_frame.chain (tick_pool_frame _)
           apply pool_frame.chain (lod_statfs_and_check_pool_frame (by assumption))
           apply lod_qos_declare_object_on_pool_frame
           assumption)
        | (refine ⟨fun _ => ⟨?_, hd⟩, fun hb => by cases hb⟩
           apply (specific_inv.placed h ?_ (by assumption)).2 (by assumption)
           apply pool_frame.chain (tick_pool_frame _)
           apply pool_frame.chain (lod_statfs_and_check_pool_frame (by assumption))
           apply lod_qos_declare_object_on_pool_frame
           assumption)
        | (refine ⟨fun hb => (by cases hb), fun _ => ⟨?_, rfl⟩⟩
           apply (specific_inv.placed h ?_ (by assumption)).1 (by assumption)
           apply pool_frame.chain (tick_pool_frame _)
           apply pool_frame.chain (lod_statfs_and_check_pool_frame (by assumption))
           apply lod_qos_declare_object_on_pool_frame
           assumption))
    | split at hr

theorem pool_osts_congr {d d1 : lod_device} (r : pool_ref)
    (h1 : d1.lod_pool_info = d.lod_pool_info) (h2 : d1.lod_pools = d.lod_pools) :
    pool_osts d1 r = pool_osts d r := by
  cases r with
  | dev => exact h1
  | named name =>
    unfold pool_osts lod_find_pool
    simp only [h1, h2]

theorem lod_qos_ost_in_use_clear_lod (w : lod_backend) (s : lod_sys) (n : Nat) :
    (lod_qos_ost_in_use_clear w s n).2.lod = s.lod ∧
      (lod_qos_ost_in_use_clear w s n).2.lo = s.lo ∧
      (lod_qos_ost_in_use_clear w s n).2.declared = s.declared ∧
      (lod_qos_ost_in_use_clear w s n).2.released = s.released := by
  unfold lod_qos_ost_in_use_clear
  simp only
  split_ifs <;> exact ⟨rfl, rfl, rfl, rfl⟩

/-- One pass of `lod_alloc_specific` from a state with fewer than `count`
stripes placed: without the offset in the pool it leaves with `-EINVAL` and
the state it got; with it, it either places the last stripe and leaves with 0,
or ends with fewer than `count` stripes and no result yet. -/
theorem lod_alloc_specific_pass_spec {w : lod_backend} {s : lod_sys} {r : pool_ref}
    {comp_idx speed : Nat} {st st1 : specific_pass_state} {b : Bool}
    {c : lod_layout_component} (hcomp : s.lo.ldo_comp_entries[comp_idx]? = some c)
    (h : specific_inv s c.llc_stripe_count st.a ∧ st.out = none)
    (hr : lod_alloc_specific_pass w r comp_idx speed st = some (st1, b)) :
    (c.llc_stripe_offset ∉ (pool_osts s.lod r).op_array →
      st1 = { st with out := some (-EINVAL) } ∧ b = true) ∧
    (c.llc_stripe_offset ∈ (pool_osts s.lod r).op_array →
      (b = false → specific_inv s c.llc_stripe_count st1.a ∧ st1.out = none) ∧
      (b = true → (specific_done s c.llc_stripe_count st1.a ∧ st1.out = some 0) ∨
        (specific_inv s c.llc_stripe_count st1.a ∧ st1.out = none))) := by
  obtain ⟨h, ho⟩ := h
  have hp : pool_osts st.a.sys.lod r = pool_osts s.lod r := pool_osts_congr r h.pool h.pools
  unfold lod_alloc_specific_pass at hr
  simp only [h.lo, hcomp, hp] at hr
  split at hr
  · contradiction
  · rename_i hfind
    have hn := (array_find_mem_iff hfind).mp rfl
    simp only [Option.some.injEq, Prod.mk.injEq] at hr
    obtain ⟨rfl, rfl⟩ := hr
    exact ⟨fun _ => ⟨rfl, rfl⟩, fun hm => absurd hm hn⟩
  · rename_i array_idx hfind
    have hm : c.llc_stripe_offset ∈ (pool_osts s.lod r).op_array := by
      by_contra hc
      have := (array_find_mem_iff hfind).mpr hc
      contradiction
    refine ⟨fun hn => absurd hm hn, fun _ => ?_⟩
    split at hr
    · contradiction
    · split at hr
      · contradiction
      · rename_i st2 hloop
        have h2 := for_loop_inv_brk
          (fun _ x => specific_inv s c.llc_stripe_count x.a ∧ x.done = false)
          (fun x => specific_done s c.llc_stripe_count x.a ∧ x.done = true) _
          (fun _ _ _ _ hx hb => lod_alloc_specific_body_spec hx hb) _ _ _ _ ⟨h, rfl⟩ hloop
        rcases h2 with ⟨hi, hd⟩ | ⟨hi, hd⟩
        · simp only [hd, Bool.false_eq_true, if_false] at hr
          split at hr <;> simp only [Option.some.injEq, Prod.mk.injEq] at hr <;>
            obtain ⟨rfl, rfl⟩ := hr
          · exact ⟨fun _ => ⟨hi, rfl⟩, fun hb => by cases hb⟩
          · exact ⟨fun hb => (by cases hb), fun _ => Or.inr ⟨hi, rfl⟩⟩
        · simp only [hd, if_true, Option.some.injEq, Prod.mk.injEq] at hr
          obtain ⟨rfl, rfl⟩ := hr
          exact ⟨fun hb => (by cases hb), fun _ => Or.inl ⟨hi, rfl⟩⟩

/-- C11: for every device state, every `lod_alloc_specific` call for a
component asking for at least one stripe that gets past the setup of the
in-use array and returns, returns `-EINVAL` if and only if the requested
stripe offset does not occur in the pool array, and then nothing is reserved;
otherwise 0 if and only if exactly `stripe_count` stripes were placed;
otherwise fewer stripes were placed and the result is `-EFBIG` when at least
one stripe was placed and `-ENOSPC` when none was. -/
theorem C11_specific_result (w : lod_backend) (s : lod_sys)
    (stripe : List (Option dt_object)) (ost_indices : List Nat) (flags comp_idx : Nat)
    (c : lod_layout_component) (rc : Int) (a : alloc_state)
    (hcomp : s.lo.ldo_comp_entries[comp_idx]? = some c) (hcount : 0 < c.llc_stripe_count)
    (hclr : (lod_qos_ost_in_use_clear w s c.llc_stripe_count).1 = 0)
    (hr : lod_alloc_specific w s stripe ost_indices flags comp_idx = some (rc, a)) :
    (rc = -EINVAL ↔
      c.llc_stripe_offset ∉ (pool_osts s.lod (lod_comp_pool_ref s.lod c.llc_pool)).op_array) ∧
    (rc = -EINVAL → a.stripe_idx = 0 ∧ a.sys.declared = s.declared ∧ a.stripe = stripe) ∧
    (rc = 0 ↔ a.stripe_idx = c.llc_stripe_count) ∧
    (rc ≠ -EINVAL → rc ≠ 0 → a.stripe_idx < c.llc_stripe_count ∧
      rc = if a.stripe_idx = 0 then -ENOSPC else -EFBIG) := by
  obtain ⟨e1, e2, e3, -⟩ := lod_qos_ost_in_use_clear_lod w s c.llc_stripe_count
  unfold lod_alloc_specific at hr
  simp only [hcomp, hclr, ne_eq, not_true_eq_false, if_false, e1] at hr
  generalize hx : (lod_qos_ost_in_use_clear w s c.llc_stripe_count).2 = x at hr e1 e2 e3
  have hcx : x.lo.ldo_comp_entries[comp_idx]? = some c := by
    rw [e2]
    exact hcomp
  have hpx : pool_osts x.lod (lod_comp_pool_ref s.lod c.llc_pool) =
      pool_osts s.lod (lod_comp_pool_ref s.lod c.llc_pool) := by rw [e1]
  have hinit : specific_inv x c.llc_stripe_count
      { sys := x, stripe := stripe, ost_indices := ost_indices, stripe_idx := 0,
        overstriped := false } := ⟨rfl, rfl, rfl, hcount⟩
  have hE1 : (-EINVAL : Int) ≠ 0 := by decide
  have hE2 : (-ENOSPC : Int) ≠ -EINVAL := by decide
  have hE3 : (-EFBIG : Int) ≠ -EINVAL := by decide
  have hE4 : (-ENOSPC : Int) ≠ 0 := by decide
  have hE5 : (-EFBIG : Int) ≠ 0 := by decide
  split at hr
  · contradiction
  · rename_i st hloop
    rw [← hpx]
    by_cases hm : c.llc_stripe_offset ∈
        (pool_osts x.lod (lod_comp_pool_ref s.lod c.llc_pool)).op_array
    · have h2 := for_loop_inv_brk
        (fun _ y => specific_inv x c.llc_stripe_count y.a ∧ y.out = none)
        (fun y => (specific_done x c.llc_stripe_count y.a ∧ y.out = some 0) ∨
          (specific_inv x c.llc_stripe_count y.a ∧ y.out = none)) _
        (fun _ _ _ _ hy hb => (lod_alloc_specific_pass_spec hcx hy hb).2 hm) _ _ _ _
        ⟨hinit, rfl⟩ hloop
      have h3 : (specific_done x c.llc_stripe_count st.a ∧ st.out = some 0) ∨
          (specific_inv x c.llc_stripe_count st.a ∧ st.out = none) := by
        rcases h2 with h | h
        · exact Or.inr h
        · exact h
      rcases h3 with ⟨hd, ho⟩ | ⟨hi, ho⟩
      · simp only [ho, Option.some.injEq, Prod.mk.injEq] at hr
        obtain ⟨rfl, rfl⟩ := hr
        exact ⟨⟨fun h => absurd h.symm hE1, fun h => absurd hm h⟩,
          fun h => absurd h.symm hE1, ⟨fun _ => hd.idx, fun _ => rfl⟩,
          fun _ h => absurd rfl h⟩
      · have hlo : st.a.sys.lo.ldo_comp_entries[comp_idx]? = some c := by
          rw [hi.lo]
          exact hcx
        have hne : st.a.stripe_idx ≠ c.llc_stripe_count := Nat.ne_of_lt hi.idx
        simp only [ho, hlo] at hr
        have hrc : (if st.a.stripe_idx = 0 then -ENOSPC else -EFBIG : Int) ≠ 0 := by
          split
          · exact hE4
          · exact hE5
        have hrc2 : (if st.a.stripe_idx = 0 then -ENOSPC else -EFBIG : Int) ≠ -EINVAL := by
          split
          · exact hE2
          · exact hE3
        rw [if_neg (fun h => hrc h.1)] at hr
        simp only [Option.some.injEq, Prod.mk.injEq] at hr
        obtain ⟨rfl, rfl⟩ := hr
        exact ⟨⟨fun h => absurd h hrc2, fun h => absurd hm h⟩, fun h => absurd h hrc2,
          ⟨fun h => absurd h hrc, fun h => absurd h hne⟩, fun _ _ => ⟨hi.idx, rfl⟩⟩
    · have hst : st = ⟨⟨x, stripe, ost_indices, 0, false⟩, some (-EINVAL)⟩ := by
        simp only [for_loop] at hloop
        split at hloop
        · contradiction
        · rename_i y hy
          simp only [Option.some.injEq] at hloop
          subst hloop
          exact ((lod_alloc_specific_pass_spec hcx ⟨hinit, rfl⟩ hy).1 hm).1
        · rename_i y hy
          have := ((lod_alloc_specific_pass_spec hcx ⟨hinit, rfl⟩ hy).1 hm).2
          contradiction
      subst hst
      simp only [Option.some.injEq, Prod.mk.injEq] at hr
      obtain ⟨rfl, rfl⟩ := hr
      exact ⟨⟨fun _ => hm, fun _ => rfl⟩, fun _ => ⟨rfl, e3, rfl⟩,
        ⟨fun h => absurd h hE1, fun h => absurd h.symm (Nat.ne_of_gt hcount)⟩,
        fun h => absurd rfl h⟩

/-- Witness of C11: the offset 9 is not in the pool `0 .. 7`; the call returns
`-EINVAL` and reserves nothing. -/
theorem C11_specific_result_witness :
    ∃ a, lod_alloc_specific (healthy_backend false) c11_sys (List.replicate 2 none)
        (List.replicate 2 0) 0 0 = some (-EINVAL, a) ∧
      a.stripe_idx = 0 ∧ a.sys.declared = c11_sys.declared := by
  have h : (lod_alloc_specific (healthy_backend false) c11_sys (List.replicate 2 none)
      (List.replicate 2 0) 0 0).map (fun r => r.1) = some (-EINVAL) := by decide
  obtain ⟨⟨rc, a⟩, h1, h2⟩ := Option.map_eq_some'.mp h
  have h3 : rc = -EINVAL := h2
  subst h3
  obtain ⟨-, h4, -, -⟩ := C11_specific_result (healthy_backend false) c11_sys
    (List.replicate 2 none) (List.replicate 2 0) 0 0 { demo_comp 2 with llc_stripe_offset := 9 }
    (-EINVAL) a rfl (by decide) (by decide) h1
  exact ⟨a, h1, (h4 rfl).1, (h4 rfl).2.1⟩

theorem for_loop_count_spec {σ : Type} (f : σ → Nat) (M : Nat)
    (body : Nat → σ → Option (σ × Bool))
    (hstep : ∀ i s s1, body i s = some (s1, false) → f s1 % M = (f s + 1) % M)
    (hbrk : ∀ i s s1, body i s = some (s1, true) → f s1 = f s) :
    ∀ fuel i s s1, for_loop body fuel i s = some s1 →
      f s1 % M = (f s + for_loop_count body fuel i s) % M := by
  intro fuel
  induction fuel with
  | zero =>
    intro i s s1 h
    simp only [for_loop, Option.some.injEq] at h
    subst h
    rfl
  | succ n ih =>
    intro i s s1 h
    simp only [for_loop] at h
    simp only [for_loop_count]
    split at h
    · contradiction
    · rename_i s2 hb
      simp only [Option.some.injEq] at h
      subst h
      rw [hb, hbrk i s s2 hb]
      rfl
    · rename_i s2 hb
      rw [hb]
      have h1 := ih (i + 1) s2 s1 h
      have h2 := hstep i s s2 hb
      rw [h1]
      show (f s2 + for_loop_count body n (i + 1) s2) % M =
        (f s + (for_loop_count body n (i + 1) s2 + 1)) % M
      rw [Nat.add_mod, h2, ← Nat.add_mod]
      congr 1
      omega

theorem for_loop_heads_inv {σ : Type} (P : σ → Prop) (body : Nat → σ → Option (σ × Bool))
    (hstep : ∀ i s s1, P s → body i s = some (s1, false) → P s1) :
    ∀ fuel i s, P s → ∀ p ∈ for_loop_heads body fuel i s, P p.2 := by
  intro fuel
  induction fuel with
  | zero =>
    intro i s _ p hp
    simp [for_loop_heads] at hp
  | succ n ih =>
    intro i s hs p hp
    simp only [for_loop_heads, List.mem_cons] at hp
    rcases hp with rfl | hp
    · exact hs
    · split at hp
      · rename_i s1 hb
        exact ih (i + 1) s1 (hstep i s s1 hs hb) p hp
      · simp at hp

theorem for_loop_heads_last {σ : Type} (body : Nat → σ → Option (σ × Bool)) :
    ∀ fuel i s s1, 0 < fuel → for_loop body fuel i s = some s1 →
      ∃ il sl b, (for_loop_heads body fuel i s).getLast? = some (il, sl) ∧
        body il sl = some (s1, b) ∧ (b = false → il + 1 = i + fuel) := by
  intro fuel
  induction fuel with
  | zero =>
    intro i s s1 h0
    omega
  | succ n ih =>
    intro i s s1 _ h
    simp only [for_loop] at h
    simp only [for_loop_heads]
    split at h
    · contradiction
    · rename_i s2 hb
      simp only [Option.some.injEq] at h
      subst h
      refine ⟨i, s, true, ?_, hb, fun h => by cases h⟩
      rw [hb]
      rfl
    · rename_i s2 hb
      rw [hb]
      rcases Nat.eq_zero_or_pos n with hn | hn
      · subst hn
        simp only [for_loop, Option.some.injEq] at h
        subst h
        exact ⟨i, s, false, rfl, hb, fun _ => rfl⟩
      · obtain ⟨il, sl, b, h1, h2, h3⟩ := ih (i + 1) s2 s1 hn h
        refine ⟨il, sl, b, ?_, h2, fun hbf => by have := h3 hbf; omega⟩
        show (((i, s) :: for_loop_heads body n (i + 1) s2).getLast?) = _
        rw [List.getLast?_cons, h1]
        rfl

theorem lod_statfs_and_check_cursor {w : lod_backend} {s s1 : lod_sys} {index : Nat}
    {rc : Int} {sfs : obd_statfs} (r : pool_ref)
    (h : lod_statfs_and_check w s index = some (rc, s1, sfs)) :
    (pool_lqr s1.lod r).lqr_start_idx = (pool_lqr s.lod r).lqr_start_idx := by
  unfold lod_statfs_and_check at h
  simp only at h
  split_ifs at h <;> simp only [Option.some.injEq, Prod.mk.injEq] at h <;>
    obtain ⟨-, rfl, -⟩ := h <;> first
      | rfl
      | (cases r with
         | dev => rfl
         | named name =>
           simp only [pool_lqr, lod_find_pool, lod_device.set_tgt]
           split <;> rfl)

theorem lod_check_and_reserve_ost_cursor {w : lod_backend} {a a1 : alloc_state}
    {comp_idx ost_idx speed : Nat} {rc : Int} (r : pool_ref)
    (hr : lod_check_and_reserve_ost w a comp_idx ost_idx speed = some (rc, a1)) :
    (pool_lqr a1.sys.lod r).lqr_start_idx = (pool_lqr a.sys.lod r).lqr_start_idx := by
  unfold lod_check_and_reserve_ost at hr
  simp only at hr
  repeat' first
    | contradiction
    | (simp only [Option.some.injEq, Prod.mk.injEq] at hr
       obtain ⟨-, rfl⟩ := hr
       have h1 := lod_statfs_and_check_cursor r (by assumption)
       first
        | exact h1
        | (have e1 := (lod_qos_declare_object_on_pools (by assumption)).1
           show (pool_lqr _ r).lqr_start_idx = _
           rw [e1]
           exact h1)
        | (have e1 := (lod_qos_declare_object_on_pools (by assumption)).1
           have e2 := (alloc_state.commit_sys (by assumption)).1
           rw [e2]
           show (pool_lqr _ r).lqr_start_idx = _
           rw [e1]
           exact h1))
    | split at hr

/-- An iteration of the candidate loop of `lod_alloc_rr` that is run advances
the cursor by one (in 32 bits); the iteration that finds the stripes complete
leaves the state alone. -/
theorem lod_alloc_rr_body_cursor {w : lod_backend} {r : pool_ref}
    {comp_idx stripe_count speed i : Nat} {st st1 : rr_state} {b : Bool}
    (hr : lod_alloc_rr_body w r comp_idx stripe_count speed i st = some (st1, b)) :
    (b = true → st1 = st) ∧
      (b = false → (pool_lqr st1.a.sys.lod r).lqr_start_idx =
        ((pool_lqr st.a.sys.lod r).lqr_start_idx + 1) % 2 ^ 32) := by
  have hset : ∀ v : lu_qos_rr, (pool_lqr (st.a.sys.set_lqr r v).lod r).lqr_start_idx =
      v.lqr_start_idx := by
    intro v
    show (pool_lqr (set_pool_lqr st.a.sys.lod r v) r).lqr_start_idx = _
    rw [pool_lqr_set_pool_lqr]
  unfold lod_alloc_rr_body at hr
  simp only at hr
  repeat' first
    | contradiction
    | (simp only [Option.some.injEq, Prod.mk.injEq] at hr
       obtain ⟨rfl, rfl⟩ := hr
       first
        | exact ⟨fun _ => rfl, fun h => (by cases h)⟩
        | (refine ⟨fun h => (by cases h), fun _ => ?_⟩
           exact hset _)
        | (refine ⟨fun h => (by cases h), fun _ => ?_⟩
           have h1 := lod_check_and_reserve_ost_cursor r (by assumption)
           exact h1.trans (hset _)))
    | split at hr

theorem lod_alloc_rr_pass_cursor {w : lod_backend} {r : pool_ref}
    {comp_idx stripe_count stripe_count_min tmp speed : Nat} {st st1 : rr_state} {b : Bool}
    (hr : lod_alloc_rr_pass w r comp_idx stripe_count stripe_count_min tmp speed st =
      some (st1, b)) :
    (b = false → (pool_lqr st1.a.sys.lod r).lqr_start_idx = tmp ∧ speed < 2) ∧
      (b = true → (pool_lqr st1.a.sys.lod r).lqr_start_idx % 2 ^ 32 =
        ((pool_lqr st.a.sys.lod r).lqr_start_idx +
          rr_pass_examined w r comp_idx stripe_count speed st) % 2 ^ 32) := by
  unfold lod_alloc_rr_pass at hr
  unfold rr_pass_examined
  split at hr
  · contradiction
  · rename_i lod_comp hcomp
    simp only [hcomp] at hr ⊢
    split at hr
    · contradiction
    · rename_i per_ost hper
      try simp only [hper] at hr
      try simp only [hper]
      split at hr
      · contradiction
      · rename_i st2 hloop
        have h2 := for_loop_count_spec (fun x : rr_state => (pool_lqr x.a.sys.lod r).lqr_start_idx)
          (2 ^ 32) _
          (fun i s s1 hb => by
            have := (lod_alloc_rr_body_cursor hb).2 rfl
            show (pool_lqr s1.a.sys.lod r).lqr_start_idx % 2 ^ 32 = _
            rw [this, Nat.mod_mod])
          (fun i s s1 hb => by
            have := (lod_alloc_rr_body_cursor hb).1 rfl
            rw [this])
          _ _ _ _ hloop
        split at hr <;> simp only [Option.some.injEq, Prod.mk.injEq] at hr <;>
          obtain ⟨rfl, rfl⟩ := hr
        · rename_i hc
          refine ⟨fun _ => ⟨?_, hc.1⟩, fun h => (by cases h)⟩
          show (pool_lqr (set_pool_lqr st2.a.sys.lod r _) r).lqr_start_idx = _
          rw [pool_lqr_set_pool_lqr]
        · exact ⟨fun h => (by cases h), fun _ => h2⟩

/-! ## C14: the advance of the round-robin cursor -/

theorem rr_setup_spec {w : lod_backend} {s s3 : lod_sys} {flags comp_idx : Nat}
    {c : lod_layout_component} (hcomp : s.lo.ldo_comp_entries[comp_idx]? = some c)
    (h : rr_setup w s flags comp_idx = some s3) :
    ∃ s1, lod_qos_calc_rr w s (lod_comp_pool_ref s.lod c.llc_pool) = some (0, s1) ∧
      (lod_qos_ost_in_use_clear w s1 c.llc_stripe_count).1 = 0 ∧
      lod_alloc_rr_reseed w (lod_qos_ost_in_use_clear w s1 c.llc_stripe_count).2
        (lod_comp_pool_ref s.lod c.llc_pool) c.llc_stripe_count
        (min_stripe_count c.llc_stripe_count flags) = some s3 := by
  unfold rr_setup at h
  simp only [hcomp] at h
  split at h
  · contradiction
  · rename_i rc s1 hcalc
    split at h
    · contradiction
    · rename_i hrc
      split at h
      · contradiction
      · rename_i hclr
        have hrc0 : rc = 0 := by
          by_contra hc
          exact hrc hc
        subst hrc0
        refine ⟨s1, hcalc, ?_, h⟩
        by_contra hc
        exact hclr hc

/-- Counterexample to C14: two targets, target 1 not answering, 4 stripes with
`OVERSTRIPING`.  The candidate iteration starts at `lqr_start_idx = 0`; the
pass at speed 0 examines 4 candidates and places 2 stripes, the pass at speed
1 examines 3 and places the other 2: 7 candidates are examined, and the cursor
at return is 3. -/
theorem C14_cursor_all_passes_counterexample :
    ∃ s3 a, rr_setup c2_backend c2_sys 0 0 = some s3 ∧
      lod_alloc_rr c2_backend c2_sys (List.replicate 4 none) (List.replicate 4 0) 0 0 =
        some (0, a) ∧
      s3.lod.lod_qos.lq_rr.lqr_start_idx = 0 ∧
      (rr_passes c2_backend pool_ref.dev s3 (List.replicate 4 none) (List.replicate 4 0) 0 0
        c2_comp).map (fun p => rr_pass_examined c2_backend pool_ref.dev 0 4 p.1 p.2) = [4, 3] ∧
      a.sys.lod.lod_qos.lq_rr.lqr_start_idx = 3 := by
  have h : (rr_setup c2_backend c2_sys 0 0).map (fun s3 =>
      (s3.lod.lod_qos.lq_rr.lqr_start_idx,
        (rr_passes c2_backend pool_ref.dev s3 (List.replicate 4 none) (List.replicate 4 0) 0 0
          c2_comp).map (fun p => rr_pass_examined c2_backend pool_ref.dev 0 4 p.1 p.2))) =
      some (0, [4, 3]) := by decide
  obtain ⟨s3, h1, h2⟩ := Option.map_eq_some'.mp h
  simp only [Prod.mk.injEq] at h2
  have h3 : (lod_alloc_rr c2_backend c2_sys (List.replicate 4 none) (List.replicate 4 0) 0
      0).map (fun r => (r.1, r.2.sys.lod.lod_qos.lq_rr.lqr_start_idx)) = some (0, 3) := by
    decide
  obtain ⟨⟨rc, a⟩, h4, h5⟩ := Option.map_eq_some'.mp h3
  simp only [Prod.mk.injEq] at h5
  obtain ⟨rfl, h6⟩ := h5
  exact ⟨s3, a, h1, h4, h2.1, h2.2, h6⟩

/-- C14 (amended): for every `lod_alloc_rr` call that gets past the setup and
returns, the cursor `lqr_start_idx` at return is, modulo `2^32`, its value
`tmp` at the start of the candidate iteration (after the reseed or the wrap
adjustment) plus the number of candidates examined in the last speed pass that
was run; every pass starts at `tmp`. -/
theorem C14_rr_cursor_last_pass (w : lod_backend) (s s3 : lod_sys)
    (stripe : List (Option dt_object)) (ost_indices : List Nat) (flags comp_idx : Nat)
    (c : lod_layout_component) (rc : Int) (a : alloc_state)
    (hcomp : s.lo.ldo_comp_entries[comp_idx]? = some c)
    (hsetup : rr_setup w s flags comp_idx = some s3)
    (hr : lod_alloc_rr w s stripe ost_indices flags comp_idx = some (rc, a)) :
    ∃ speed st0,
      (rr_passes w (lod_comp_pool_ref s.lod c.llc_pool) s3 stripe ost_indices flags comp_idx
        c).getLast? = some (speed, st0) ∧
      (pool_lqr st0.a.sys.lod (lod_comp_pool_ref s.lod c.llc_pool)).lqr_start_idx =
        (pool_lqr s3.lod (lod_comp_pool_ref s.lod c.llc_pool)).lqr_start_idx ∧
      (pool_lqr a.sys.lod (lod_comp_pool_ref s.lod c.llc_pool)).lqr_start_idx % 2 ^ 32 =
        ((pool_lqr s3.lod (lod_comp_pool_ref s.lod c.llc_pool)).lqr_start_idx +
          rr_pass_examined w (lod_comp_pool_ref s.lod c.llc_pool) comp_idx c.llc_stripe_count
            speed st0) % 2 ^ 32 := by
  obtain ⟨s1, hcalc, hclr, hseed⟩ := rr_setup_spec hcomp hsetup
  unfold rr_passes
  unfold lod_alloc_rr at hr
  simp only [hcomp, hcalc, hclr, ne_eq, not_true_eq_false, if_false, hseed] at hr
  generalize hrr : lod_comp_pool_ref s.lod c.llc_pool = r at hr ⊢
  generalize htmp : (pool_lqr s3.lod r).lqr_start_idx = tmp at hr ⊢
  split at hr
  · contradiction
  · rename_i st hloop
    have hloop1 : for_loop (lod_alloc_rr_pass w r comp_idx c.llc_stripe_count
        (min_stripe_count c.llc_stripe_count flags) tmp) 3 0 (rr_init s3 stripe ost_indices) =
        some st := hloop
    obtain ⟨il, sl, b, h1, h2, h3⟩ := for_loop_heads_last _ 3 0 _ st (by decide) hloop1
    have hmem : (il, sl) ∈ for_loop_heads (lod_alloc_rr_pass w r comp_idx c.llc_stripe_count
        (min_stripe_count c.llc_stripe_count flags) tmp) 3 0 (rr_init s3 stripe ost_indices) :=
      List.mem_of_mem_getLast? h1
    have hsl := for_loop_heads_inv
      (fun x : rr_state => (pool_lqr x.a.sys.lod r).lqr_start_idx = tmp) _
      (fun i x x1 _ hb => ((lod_alloc_rr_pass_cursor hb).1 rfl).1) 3 0
      (rr_init s3 stripe ost_indices) htmp _ hmem
    have hc := lod_alloc_rr_pass_cursor h2
    have hb : b = true := by
      cases b with
      | true => rfl
      | false =>
        have := (hc.1 rfl).2
        have := h3 rfl
        omega
    have hfin := hc.2 hb
    rw [show (pool_lqr sl.a.sys.lod r).lqr_start_idx = tmp from hsl] at hfin
    refine ⟨il, sl, h1, hsl, ?_⟩
    split at hr
    · contradiction
    · split at hr <;> simp only [Option.some.injEq, Prod.mk.injEq] at hr <;>
        obtain ⟨-, rfl⟩ := hr <;> exact hfin

/-- Witness of C14, on the scenario of the counterexample: the last pass is the
one at speed 1, it starts at cursor 0 and examines 3 candidates; the cursor at
return is 3. -/
theorem C14_rr_cursor_last_pass_witness :
    ∃ s3 a speed st0, rr_setup c2_backend c2_sys 0 0 = some s3 ∧
      lod_alloc_rr c2_backend c2_sys (List.replicate 4 none) (List.replicate 4 0) 0 0 =
        some (0, a) ∧
      (rr_passes c2_backend (lod_comp_pool_ref c2_sys.lod c2_comp.llc_pool) s3
        (List.replicate 4 none) (List.replicate 4 0) 0 0 c2_comp).getLast? =
          some (speed, st0) ∧
      (pool_lqr a.sys.lod (lod_comp_pool_ref c2_sys.lod c2_comp.llc_pool)).lqr_start_idx %
          2 ^ 32 =
        ((pool_lqr s3.lod (lod_comp_pool_ref c2_sys.lod c2_comp.llc_pool)).lqr_start_idx +
          rr_pass_examined c2_backend (lod_comp_pool_ref c2_sys.lod c2_comp.llc_pool) 0
            c2_comp.llc_stripe_count speed st0) % 2 ^ 32 := by
  have h : (rr_setup c2_backend c2_sys 0 0).isSome = true := by decide
  obtain ⟨s3, h1⟩ := Option.isSome_iff_exists.mp h
  have h3 : (lod_alloc_rr c2_backend c2_sys (List.replicate 4 none) (List.replicate 4 0) 0
      0).map (fun r => r.1) = some 0 := by decide
  obtain ⟨⟨rc, a⟩, h4, h5⟩ := Option.map_eq_some'.mp h3
  have h6 : rc = 0 := h5
  subst h6
  obtain ⟨speed, st0, e1, -, e3⟩ := C14_rr_cursor_last_pass c2_backend c2_sys s3
    (List.replicate 4 none) (List.replicate 4 0) 0 0 c2_comp 0 a rfl h1 h4
  exact ⟨s3, a, speed, st0, h1, h4, e1, e3⟩

theorem for_loop_heads_any {σ : Type} (f : σ → Bool) (e : Nat → σ → Bool)
    (body : Nat → σ → Option (σ × Bool))
    (hstep : ∀ i s s1 b, body i s = some (s1, b) → f s1 = (f s || e i s)) :
    ∀ fuel i s s1, for_loop body fuel i s = some s1 →
      f s1 = (f s || (for_loop_heads body fuel i s).any (fun p => e p.1 p.2)) := by
  intro fuel
  induction fuel with
  | zero =>
    intro i s s1 h
    simp only [for_loop, Option.some.injEq] at h
    subst h
    simp [for_loop_heads]
  | succ n ih =>
    intro i s s1 h
    simp only [for_loop] at h
    simp only [for_loop_heads]
    split at h
    · contradiction
    · rename_i s2 hb
      simp only [Option.some.injEq] at h
      subst h
      rw [hb]
      simp only [List.any_cons, List.any_nil, Bool.or_false]
      exact hstep i s _ true hb
    · rename_i s2 hb
      rw [hb]
      simp only [List.any_cons]
      rw [ih (i + 1) s2 s1 h, hstep i s s2 false hb, Bool.or_assoc]

theorem for_loop_heads_idx {σ : Type} (body : Nat → σ → Option (σ × Bool)) :
    ∀ fuel i s, ∀ p ∈ for_loop_heads body fuel i s, i ≤ p.1 ∧ p.1 < i + fuel := by
  intro fuel
  induction fuel with
  | zero =>
    intro i s p hp
    simp [for_loop_heads] at hp
  | succ n ih =>
    intro i s p hp
    simp only [for_loop_heads, List.mem_cons] at hp
    rcases hp with rfl | hp
    · exact ⟨Nat.le_refl _, by omega⟩
    · split at hp
      · have := ih _ _ p hp
        omega
      · simp at hp

theorem lod_alloc_rr_body_connecting {w : lod_backend} {r : pool_ref}
    {comp_idx stripe_count speed i : Nat} {st st1 : rr_state} {b : Bool}
    (hr : lod_alloc_rr_body w r comp_idx stripe_count speed i st = some (st1, b)) :
    st1.ost_connecting =
      (st.ost_connecting || rr_candidate_connecting w r comp_idx stripe_count speed i st) := by
  unfold lod_alloc_rr_body at hr
  unfold rr_candidate_connecting
  simp only at hr ⊢
  split at hr
  · rename_i h1
    rw [if_pos h1]
    simp only [Option.some.injEq, Prod.mk.injEq] at hr
    obtain ⟨rfl, rfl⟩ := hr
    simp
  · rename_i h1
    rw [if_neg h1]
    split at hr
    · contradiction
    · rename_i h2
      rw [if_neg h2]
      split at hr
      · contradiction
      · rename_i ost_idx h3
        try simp only [h3]
        split at hr
        · rename_i h4
          rw [if_pos h4]
          simp only [Option.some.injEq, Prod.mk.injEq] at hr
          obtain ⟨rfl, rfl⟩ := hr
          simp
        · rename_i h4
          rw [if_neg h4]
          split at hr
          · rename_i h5
            rw [if_pos h5]
            simp only [Option.some.injEq, Prod.mk.injEq] at hr
            obtain ⟨rfl, rfl⟩ := hr
            simp
          · rename_i h5
            rw [if_neg h5]
            split at hr
            · contradiction
            · rename_i rc a1 h6
              try simp only [h6]
              simp only [Option.some.injEq, Prod.mk.injEq] at hr
              obtain ⟨rfl, rfl⟩ := hr
              rfl

theorem lod_alloc_rr_pass_connecting {w : lod_backend} {r : pool_ref}
    {comp_idx stripe_count stripe_count_min tmp speed : Nat} {st st1 : rr_state} {b : Bool}
    (hr : lod_alloc_rr_pass w r comp_idx stripe_count stripe_count_min tmp speed st =
      some (st1, b)) :
    (b = false → st1.ost_connecting = false) ∧
      (b = true → st1.ost_connecting =
          (st.ost_connecting || rr_pass_connecting w r comp_idx stripe_count speed st) ∧
        ¬ (speed < 2 ∧ st1.a.stripe_idx < stripe_count_min)) := by
  unfold lod_alloc_rr_pass at hr
  unfold rr_pass_connecting
  split at hr
  · contradiction
  · rename_i lod_comp hcomp
    try simp only [hcomp] at hr
    try simp only [hcomp]
    split at hr
    · contradiction
    · rename_i per_ost hper
      try simp only [hper] at hr
      try simp only [hper]
      split at hr
      · contradiction
      · rename_i st2 hloop
        have h2 := for_loop_heads_any (fun x : rr_state => x.ost_connecting)
          (rr_candidate_connecting w r comp_idx stripe_count speed) _
          (fun i s s1 b hb => lod_alloc_rr_body_connecting hb) _ _ _ _ hloop
        split at hr <;> simp only [Option.some.injEq, Prod.mk.injEq] at hr <;>
          obtain ⟨rfl, rfl⟩ := hr
        · exact ⟨fun _ => rfl, fun h => (by cases h)⟩
        · rename_i hc
          exact ⟨fun h => (by cases h), fun _ => ⟨h2, hc⟩⟩

theorem min_stripe_count_pos {n : Nat} (flags : Nat) (hn : 0 < n) :
    0 < min_stripe_count n flags := by
  unfold min_stripe_count
  split <;> omega

/-! ## C19: the result of a round-robin call that places no stripe -/

/-- Counterexample to C19: two targets, one stripe asked for.  In the pass at
speed 0 neither target answers (`-ENOTCONN`): both candidates are skipped and
are in connecting state.  In the passes at speed 1 and 2 the targets answer
and the declaration fails: no candidate is connecting.  No stripe is placed
and the result is `-ENOSPC`. -/
theorem C19_connecting_earlier_pass_counterexample :
    ∃ s3 a, rr_setup c19_backend c19_sys 0 0 = some s3 ∧
      lod_alloc_rr c19_backend c19_sys [none] [0] 0 0 = some (-ENOSPC, a) ∧
      a.stripe_idx = 0 ∧
      (rr_passes c19_backend pool_ref.dev s3 [none] [0] 0 0 (demo_comp 1)).map
        (fun p => (p.1, rr_pass_connecting c19_backend pool_ref.dev 0 1 p.1 p.2)) =
        [(0, true), (1, false), (2, false)] := by
  have h : (rr_setup c19_backend c19_sys 0 0).map (fun s3 =>
      (rr_passes c19_backend pool_ref.dev s3 [none] [0] 0 0 (demo_comp 1)).map
        (fun p => (p.1, rr_pass_connecting c19_backend pool_ref.dev 0 1 p.1 p.2))) =
      some [(0, true), (1, false), (2, false)] := by decide
  obtain ⟨s3, h1, h2⟩ := Option.map_eq_some'.mp h
  have h3 : (lod_alloc_rr c19_backend c19_sys [none] [0] 0 0).map
      (fun r => (r.1, r.2.stripe_idx)) = some (-ENOSPC, 0) := by decide
  obtain ⟨⟨rc, a⟩, h4, h5⟩ := Option.map_eq_some'.mp h3
  simp only [Prod.mk.injEq] at h5
  obtain ⟨rfl, h6⟩ := h5
  exact ⟨s3, a, h1, h4, h6, h2⟩

/-- C19 (amended): for every `lod_alloc_rr` call that gets past the setup and
returns without a stripe placed, the result is `-EINPROGRESS` if, in the last
speed pass that was run, some candidate was refused by
`lod_check_and_reserve_ost` (non-zero result) with its target in connecting
state afterwards, and `-ENOSPC` otherwise; for a component that asks for at
least one stripe that last pass is the one at speed 2. -/
theorem C19_rr_no_stripe_result (w : lod_backend) (s s3 : lod_sys)
    (stripe : List (Option dt_object)) (ost_indices : List Nat) (flags comp_idx : Nat)
    (c : lod_layout_component) (rc : Int) (a : alloc_state)
    (hcomp : s.lo.ldo_comp_entries[comp_idx]? = some c)
    (hsetup : rr_setup w s flags comp_idx = some s3)
    (hr : lod_alloc_rr w s stripe ost_indices flags comp_idx = some (rc, a))
    (hzero : a.stripe_idx = 0) :
    ∃ speed st0,
      (rr_passes w (lod_comp_pool_ref s.lod c.llc_pool) s3 stripe ost_indices flags comp_idx
        c).getLast? = some (speed, st0) ∧
      (0 < c.llc_stripe_count → speed = 2) ∧
      rc = if rr_pass_connecting w (lod_comp_pool_ref s.lod c.llc_pool) comp_idx
          c.llc_stripe_count speed st0 = true then -EINPROGRESS else -ENOSPC := by
  obtain ⟨s1, hcalc, hclr, hseed⟩ := rr_setup_spec hcomp hsetup
  unfold rr_passes
  unfold lod_alloc_rr at hr
  simp only [hcomp, hcalc, hclr, ne_eq, not_true_eq_false, if_false, hseed] at hr
  generalize hrr : lod_comp_pool_ref s.lod c.llc_pool = r at hr ⊢
  generalize htmp : (pool_lqr s3.lod r).lqr_start_idx = tmp at hr ⊢
  split at hr
  · contradiction
  · rename_i st hloop
    have hloop1 : for_loop (lod_alloc_rr_pass w r comp_idx c.llc_stripe_count
        (min_stripe_count c.llc_stripe_count flags) tmp) 3 0 (rr_init s3 stripe ost_indices) =
        some st := hloop
    obtain ⟨il, sl, b, h1, h2, h3⟩ := for_loop_heads_last _ 3 0 _ st (by decide) hloop1
    have hmem : (il, sl) ∈ for_loop_heads (lod_alloc_rr_pass w r comp_idx c.llc_stripe_count
        (min_stripe_count c.llc_stripe_count flags) tmp) 3 0 (rr_init s3 stripe ost_indices) :=
      List.mem_of_mem_getLast? h1
    have hsl := for_loop_heads_inv
      (fun x : rr_state => x.ost_connecting = false) _
      (fun i x x1 _ hb => (lod_alloc_rr_pass_connecting hb).1 rfl) 3 0
      (rr_init s3 stripe ost_indices) rfl _ hmem
    have hidx := for_loop_heads_idx _ 3 0 _ _ hmem
    have hc := lod_alloc_rr_pass_connecting h2
    have hcur := lod_alloc_rr_pass_cursor h2
    have hb : b = true := by
      cases b with
      | true => rfl
      | false =>
        have := (hcur.1 rfl).2
        have := h3 rfl
        omega
    obtain ⟨hfin, hnot⟩ := hc.2 hb
    rw [show sl.ost_connecting = false from hsl, Bool.false_or] at hfin
    refine ⟨il, sl, h1, ?_, ?_⟩
    · intro hpos
      have hmin := min_stripe_count_pos flags hpos
      have hst : st.a.stripe_idx = 0 := by
        split at hr
        · contradiction
        · split at hr <;> simp only [Option.some.injEq, Prod.mk.injEq] at hr <;>
            obtain ⟨-, rfl⟩ := hr <;> exact hzero
      have h4 : il ≤ 2 := by
        have := hidx.2
        omega
      by_contra hne
      apply hnot
      constructor
      · show il < 2
        omega
      · omega
    · split at hr
      · contradiction
      · split at hr
        · rename_i hs
          simp only [Option.some.injEq, Prod.mk.injEq] at hr
          obtain ⟨-, rfl⟩ := hr
          exact absurd hzero hs
        · simp only [Option.some.injEq, Prod.mk.injEq] at hr
          obtain ⟨rfl, -⟩ := hr
          rw [hfin]

/-- Witness of C19: two targets that never answer, one stripe asked for: no
stripe is placed, the last pass is the one at speed 2, it meets a refused
candidate in connecting state, and the result is `-EINPROGRESS`. -/
theorem C19_rr_no_stripe_result_witness :
    ∃ s3 a speed st0, rr_setup c19_down_backend c19_sys 0 0 = some s3 ∧
      lod_alloc_rr c19_down_backend c19_sys [none] [0] 0 0 = some (-EINPROGRESS, a) ∧
      a.stripe_idx = 0 ∧
      (rr_passes c19_down_backend (lod_comp_pool_ref c19_sys.lod (demo_comp 1).llc_pool) s3
        [none] [0] 0 0 (demo_comp 1)).getLast? = some (speed, st0) ∧
      (0 < (demo_comp 1).llc_stripe_count → speed = 2) ∧
      -EINPROGRESS = if rr_pass_connecting c19_down_backend
          (lod_comp_pool_ref c19_sys.lod (demo_comp 1).llc_pool) 0
          (demo_comp 1).llc_stripe_count speed st0 = true then -EINPROGRESS else -ENOSPC := by
  have h : (rr_setup c19_down_backend c19_sys 0 0).isSome = true := by decide
  obtain ⟨s3, h1⟩ := Option.isSome_iff_exists.mp h
  have h3 : (lod_alloc_rr c19_down_backend c19_sys [none] [0] 0 0).map
      (fun r => (r.1, r.2.stripe_idx)) = some (-EINPROGRESS, 0) := by decide
  obtain ⟨⟨rc, a⟩, h4, h5⟩ := Option.map_eq_some'.mp h3
  simp only [Prod.mk.injEq] at h5
  obtain ⟨rfl, h6⟩ := h5
  obtain ⟨speed, st0, e1, e2, e3⟩ := C19_rr_no_stripe_result c19_down_backend c19_sys s3
    [none] [0] 0 0 (demo_comp 1) (-EINPROGRESS) a rfl h1 h4 h6
  exact ⟨s3, a, speed, st0, h1, h4, h6, e1, e2, e3⟩

theorem cum_weight_succ (d : lod_device) (pool : List Nat) (k t : Nat)
    (ht : pool[k]? = some t) :
    cum_weight d pool (k + 1) = cum_weight d pool k + (OST_TGT d t).ltq_weight := by
  unfold cum_weight
  rw [List.take_succ, ht]
  simp

theorem cum_weight_mono (d : lod_device) (pool : List Nat) :
    ∀ k j, j ≤ k → cum_weight d pool j ≤ cum_weight d pool k := by
  intro k
  induction k with
  | zero =>
    intro j hj
    have : j = 0 := by omega
    subst this
    exact Nat.le_refl _
  | succ n ih =>
    intro j hj
    by_cases hjn : j ≤ n
    · have h1 := ih j hjn
      cases ht : pool[n]? with
      | none =>
        have : cum_weight d pool (n + 1) = cum_weight d pool n := by
          unfold cum_weight
          rw [List.take_succ, ht]
          simp
        omega
      | some t =>
        have := cum_weight_succ d pool n t ht
        omega
    · have : j = n + 1 := by omega
      subst this
      exact Nat.le_refl _

theorem countP_range_interval (a b : Nat) :
    ∀ W, (List.range W).countP (fun r => decide (a ≤ r ∧ r < b)) = min b W - min a W := by
  intro W
  induction W with
  | zero => simp
  | succ n ih =>
    rw [List.range_succ, List.countP_append, ih]
    simp only [List.countP_cons, List.countP_nil, Nat.zero_add]
    by_cases h : a ≤ n ∧ n < b
    · simp only [h, and_self, decide_True, if_true]
      simp only [Nat.min_def]
      split_ifs <;> omega
    · simp only [h, decide_False, Bool.false_eq_true, if_false]
      simp only [Nat.min_def]
      split_ifs <;> omega

theorem lod_alloc_qos_pick_body_skip {w : lod_backend} {osts : ost_pool}
    {comp_idx rand i idx : Nat} {st : qos_pick_state} {c : lod_layout_component}
    (hidx : osts.op_array[i]? = some idx)
    (hcomp : st.a.sys.lo.ldo_comp_entries[comp_idx]? = some c)
    (havoid : lod_should_avoid_ost st.a.sys.lod st.a.sys.lti.lti_avoid idx = some false)
    (husable : (OST_TGT st.a.sys.lod idx).ltq_usable = true)
    (hlt : (st.cur_weight + (OST_TGT st.a.sys.lod idx).ltq_weight) % 2 ^ 64 < rand) :
    lod_alloc_qos_pick_body w osts comp_idx rand i st =
      some ({ st with
        cur_weight := (st.cur_weight + (OST_TGT st.a.sys.lod idx).ltq_weight) % 2 ^ 64 },
        false) := by
  unfold lod_alloc_qos_pick_body
  simp only [hidx, hcomp, havoid, husable, Bool.true_eq_false, if_false, hlt, if_true]

theorem lod_alloc_qos_pick_body_pick {w : lod_backend} {osts : ost_pool}
    {comp_idx rand i idx : Nat} {st : qos_pick_state} {c : lod_layout_component}
    (hidx : osts.op_array[i]? = some idx)
    (hcomp : st.a.sys.lo.ldo_comp_entries[comp_idx]? = some c)
    (havoid : lod_should_avoid_ost st.a.sys.lod st.a.sys.lti.lti_avoid idx = some false)
    (husable : (OST_TGT st.a.sys.lod idx).ltq_usable = true)
    (hge : ¬ (st.cur_weight + (OST_TGT st.a.sys.lod idx).ltq_weight) % 2 ^ 64 < rand)
    (hcu : lod_comp_is_ost_used st.a.sys.lo idx = some false)
    (hused : lod_qos_is_ost_used st.a.sys idx st.a.stripe_idx = some false)
    (hlive : idx < st.a.sys.lod.lod_ost_bitmap.size)
    (hdecl : w.declare_create st.a.sys.clock idx = 0)
    (hstore : st.a.stripe_idx < st.a.sys.lti.lti_ea_store.length)
    (hstripe : st.a.stripe_idx < st.a.stripe.length)
    (hind : st.a.stripe_idx < st.a.ost_indices.length) :
    ∃ st1, lod_alloc_qos_pick_body w osts comp_idx rand i st = some (st1, true) ∧
      st1.rc = 0 ∧ st1.a.ost_indices[st.a.stripe_idx]? = some idx := by
  unfold lod_alloc_qos_pick_body
  simp only [hidx, hcomp, havoid, husable, Bool.true_eq_false, if_false, hge, hcu,
    false_and, hused, lod_qos_declare_object_on, hlive, if_true, hdecl,
    alloc_state.commit, lod_qos_ost_in_use, array_set, lod_sys.tick, hstore, hstripe, hind,
    Bool.or_false]
  refine ⟨_, rfl, rfl, ?_⟩
  simp only [List.getElem?_set_self hind]

theorem cfs_bitmap_check_lt {b : cfs_bitmap} {i : Nat} (h : cfs_bitmap_check b i = true) :
    i < b.size := by
  unfold cfs_bitmap_check at h
  simp only [Bool.and_eq_true, decide_eq_true_eq] at h
  exact h.1

theorem qos_pick_loop {w : lod_backend} {osts : ost_pool} {comp_idx : Nat}
    {st0 : qos_pick_state} (h : qos_draw_ready w osts comp_idx st0) (rand : Nat) :
    ∀ fuel i st, i + fuel = osts.op_array.length → st.a = st0.a → st.rc = st0.rc →
      st.cur_weight = cum_weight st0.a.sys.lod osts.op_array i →
      ∃ st1, for_loop (lod_alloc_qos_pick_body w osts comp_idx rand) fuel i st = some st1 ∧
        ((∃ j, i ≤ j ∧ j < osts.op_array.length ∧
            (∀ m, i ≤ m → m < j → cum_weight st0.a.sys.lod osts.op_array (m + 1) < rand) ∧
            rand ≤ cum_weight st0.a.sys.lod osts.op_array (j + 1) ∧ st1.rc = 0 ∧
            st1.a.ost_indices[st0.a.stripe_idx]? = osts.op_array[j]?) ∨
          ((∀ m, i ≤ m → m < osts.op_array.length →
              cum_weight st0.a.sys.lod osts.op_array (m + 1) < rand) ∧
            st1.rc = st0.rc)) := by
  intro fuel
  induction fuel with
  | zero =>
    intro i st hi _ hrc _
    refine ⟨st, rfl, Or.inr ⟨fun m h1 h2 => ?_, hrc⟩⟩
    omega
  | succ n ih =>
    intro i st hi ha hrc hcur
    have hlt : i < osts.op_array.length := by omega
    have hidx : osts.op_array[i]? = some osts.op_array[i] := List.getElem?_eq_getElem hlt
    have hmem : osts.op_array[i] ∈ osts.op_array := List.getElem_mem hlt
    obtain ⟨c, hc⟩ := Option.isSome_iff_exists.mp h.comp
    have hsucc := cum_weight_succ st0.a.sys.lod osts.op_array i _ hidx
    have hmono := cum_weight_mono st0.a.sys.lod osts.op_array osts.op_array.length (i + 1)
      (by omega)
    have hnw := h.no_wrap
    have hcw : (st.cur_weight + (OST_TGT st.a.sys.lod osts.op_array[i]).ltq_weight) % 2 ^ 64 =
        cum_weight st0.a.sys.lod osts.op_array (i + 1) := by
      rw [ha, hcur, ← hsucc]
      exact Nat.mod_eq_of_lt (by omega)
    simp only [for_loop]
    by_cases hr : cum_weight st0.a.sys.lod osts.op_array (i + 1) < rand
    · have hb := @lod_alloc_qos_pick_body_skip w osts comp_idx rand i _ st c hidx
        (by rw [ha]; exact hc) (by rw [ha]; exact h.not_avoided _ hmem)
        (by rw [ha]; exact h.usable _ hmem) (by rw [hcw]; exact hr)
      rw [hb]
      obtain ⟨st1, h1, h2⟩ := ih (i + 1)
        { st with cur_weight :=
            (st.cur_weight + (OST_TGT st.a.sys.lod osts.op_array[i]).ltq_weight) % 2 ^ 64 }
        (by omega) ha hrc hcw
      refine ⟨st1, h1, ?_⟩
      rcases h2 with ⟨j, hj1, hj2, hj3, hj4⟩ | ⟨hall, hrc1⟩
      · refine Or.inl ⟨j, by omega, hj2, fun m hm1 hm2 => ?_, hj4⟩
        by_cases hmi : m = i
        · subst hmi
          exact hr
        · exact hj3 m (by omega) hm2
      · refine Or.inr ⟨fun m hm1 hm2 => ?_, hrc1⟩
        by_cases hmi : m = i
        · subst hmi
          exact hr
        · exact hall m (by omega) hm2
    · obtain ⟨st1, hb, hrc1, hpick⟩ := @lod_alloc_qos_pick_body_pick w osts comp_idx rand i _
        st c hidx (by rw [ha]; exact hc) (by rw [ha]; exact h.not_avoided _ hmem)
        (by rw [ha]; exact h.usable _ hmem) (by rw [hcw]; exact hr)
        (by rw [ha]; exact h.not_used_comp _ hmem) (by rw [ha]; exact h.not_used _ hmem)
        (by rw [ha]; exact cfs_bitmap_check_lt (lod_should_avoid_ost_live (h.not_avoided _ hmem)))
        (by rw [ha]; exact h.declare_ok _ hmem) (by rw [ha]; exact h.store)
        (by rw [ha]; exact h.stripe) (by rw [ha]; exact h.ind)
      rw [hb]
      refine ⟨st1, rfl, Or.inl ⟨i, Nat.le_refl _, hlt, fun m hm1 hm2 => ?_, by omega, hrc1, ?_⟩⟩
      · omega
      · rw [← ha, hpick, hidx]

theorem nodup_getElem?_inj_lt {l : List Nat} (hl : l.Nodup) {i j : Nat} (hi : i < l.length)
    (hj : j < l.length) (e : l[i]? = l[j]?) : i = j := by
  have h := List.nodup_iff_getElem?_ne_getElem?.mp hl
  rcases Nat.lt_trichotomy i j with hlt | heq | hgt
  · exact absurd e (h i j hlt hj)
  · exact heq
  · exact absurd e.symm (h j i hgt hi)

theorem qos_draw_target_iff {w : lod_backend} {osts : ost_pool} {comp_idx : Nat}
    {st0 : qos_pick_state} (h : qos_draw_ready w osts comp_idx st0) (k : Nat)
    (hk : k < osts.op_array.length) (rand : Nat) :
    qos_draw_target w osts comp_idx rand st0 = osts.op_array[k]? ↔
      (k = 0 ∨ cum_weight st0.a.sys.lod osts.op_array k < rand) ∧
        rand ≤ cum_weight st0.a.sys.lod osts.op_array (k + 1) := by
  have h0 : st0.cur_weight = cum_weight st0.a.sys.lod osts.op_array 0 := by
    rw [h.cur]
    simp [cum_weight]
  obtain ⟨st1, hloop, hcase⟩ := qos_pick_loop h rand osts.op_array.length 0 st0 (by omega) rfl
    rfl h0
  unfold qos_draw_target
  rw [show osts.op_count = osts.op_array.length from rfl, hloop]
  simp only
  have hkk : osts.op_array[k]? = some osts.op_array[k] := List.getElem?_eq_getElem hk
  rcases hcase with ⟨j, -, hj2, hj3, hj4, hrc, hpick⟩ | ⟨hall, hrc⟩
  · rw [if_pos hrc, hpick]
    constructor
    · intro e
      have hjk : j = k := nodup_getElem?_inj_lt h.nodup hj2 hk e
      subst hjk
      refine ⟨?_, hj4⟩
      by_cases hz : j = 0
      · exact Or.inl hz
      · right
        have := hj3 (j - 1) (Nat.zero_le _) (by omega)
        rw [show j - 1 + 1 = j by omega] at this
        exact this
    · rintro ⟨e1, e2⟩
      rcases Nat.lt_trichotomy j k with hlt | heq | hgt
      · have hm := cum_weight_mono st0.a.sys.lod osts.op_array k (j + 1) (by omega)
        rcases e1 with e1 | e1
        · omega
        · omega
      · rw [heq]
      · have := hj3 k (Nat.zero_le _) hgt
        omega
  · have hne : st1.rc ≠ 0 := by
      rw [hrc, h.rc]
      decide
    rw [if_neg hne, hkk]
    constructor
    · intro e
      cases e
    · intro e
      have := hall k (Nat.zero_le _) hk
      omega

/-! ## C16: which values of the draw select a target -/

/-- C16 (amended): the pool holds pairwise distinct targets, none avoided,
every one usable and unused, declarations succeed and the weights sum up to
`W < 2^64`.  Then a draw `rand` selects the target at position `k` of the pool
iff its accumulated weight is the first to reach `rand`:
`P k < rand ≤ P (k + 1)`, with no lower bound for `k = 0`, where `P k` is the
sum of the weights of the first `k` targets.  So of the `W` values of `rand` in
`[0, W)` exactly `min (P (k + 1) + 1) W - min (P k + 1) W` select it
(`min (P 1 + 1) W` for `k = 0`). -/
theorem C16_qos_draw_first_reaching (w : lod_backend) (osts : ost_pool) (comp_idx : Nat)
    (st0 : qos_pick_state) (k : Nat) (h : qos_draw_ready w osts comp_idx st0)
    (hk : k < osts.op_array.length) :
    (∀ rand, qos_draw_target w osts comp_idx rand st0 = osts.op_array[k]? ↔
      (k = 0 ∨ cum_weight st0.a.sys.lod osts.op_array k < rand) ∧
        rand ≤ cum_weight st0.a.sys.lod osts.op_array (k + 1)) ∧
    (List.range (cum_weight st0.a.sys.lod osts.op_array osts.op_array.length)).countP
      (fun rand => qos_draw_target w osts comp_idx rand st0 == osts.op_array[k]?) =
      min (cum_weight st0.a.sys.lod osts.op_array (k + 1) + 1)
          (cum_weight st0.a.sys.lod osts.op_array osts.op_array.length) -
        (if k = 0 then 0
         else min (cum_weight st0.a.sys.lod osts.op_array k + 1)
           (cum_weight st0.a.sys.lod osts.op_array osts.op_array.length)) := by
  refine ⟨fun rand => qos_draw_target_iff h k hk rand, ?_⟩
  generalize hW : cum_weight st0.a.sys.lod osts.op_array osts.op_array.length = W
  by_cases hz : k = 0
  · rw [if_pos hz]
    have hc := countP_range_interval 0
      (cum_weight st0.a.sys.lod osts.op_array (k + 1) + 1) W
    rw [Nat.zero_min] at hc
    rw [← hc]
    · apply List.countP_congr
      intro r _
      simp only [beq_iff_eq, decide_eq_true_eq, qos_draw_target_iff h k hk r]
      constructor
      · rintro ⟨-, e⟩
        omega
      · rintro ⟨-, e⟩
        exact ⟨Or.inl hz, by omega⟩
  · rw [if_neg hz, ← countP_range_interval _ _ W]
    apply List.countP_congr
    intro r _
    simp only [beq_iff_eq, decide_eq_true_eq, qos_draw_target_iff h k hk r]
    constructor
    · rintro ⟨e1 | e1, e⟩
      · exact absurd e1 hz
      · omega
    · rintro ⟨e1, e⟩
      exact ⟨Or.inr (by omega), by omega⟩

/-- Counterexample to C16: two usable targets of weight 5 each, nothing avoided
or used, `total_weight = 10`.  Of the 10 values of the draw in `[0, 10)`, the 6
values `0 .. 5` select target 0 and the 4 values `6 .. 9` select target 1, not
5 and 5. -/
theorem C16_first_target_favoured_counterexample :
    cum_weight c16_st.a.sys.lod c16_pool.op_array 2 = c16_st.total_weight ∧
      c16_st.total_weight = 10 ∧
      (OST_TGT c16_st.a.sys.lod 0).ltq_weight = 5 ∧
      (OST_TGT c16_st.a.sys.lod 1).ltq_weight = 5 ∧
      (List.range 10).map (fun r => qos_draw_target (healthy_backend true) c16_pool 0 r c16_st) =
        [some 0, some 0, some 0, some 0, some 0, some 0, some 1, some 1, some 1, some 1] := by
  decide

/-- Witness of C16, on the two targets of weight 5: the state is ready for the
draw; target 1 (position 1) is selected iff `5 < rand ≤ 10`, by 4 of the 10
values of `[0, 10)`. -/
theorem C16_qos_draw_first_reaching_witness :
    qos_draw_ready (healthy_backend true) c16_pool 0 c16_st ∧
    ((∀ rand, qos_draw_target (healthy_backend true) c16_pool 0 rand c16_st =
        c16_pool.op_array[1]? ↔
      (1 = 0 ∨ cum_weight c16_st.a.sys.lod c16_pool.op_array 1 < rand) ∧
        rand ≤ cum_weight c16_st.a.sys.lod c16_pool.op_array (1 + 1)) ∧
    (List.range (cum_weight c16_st.a.sys.lod c16_pool.op_array
        c16_pool.op_array.length)).countP
      (fun rand => qos_draw_target (healthy_backend true) c16_pool 0 rand c16_st ==
        c16_pool.op_array[1]?) =
      min (cum_weight c16_st.a.sys.lod c16_pool.op_array (1 + 1) + 1)
          (cum_weight c16_st.a.sys.lod c16_pool.op_array c16_pool.op_array.length) -
        (if 1 = 0 then 0
         else min (cum_weight c16_st.a.sys.lod c16_pool.op_array 1 + 1)
           (cum_weight c16_st.a.sys.lod c16_pool.op_array c16_pool.op_array.length))) ∧
    min (cum_weight c16_st.a.sys.lod c16_pool.op_array (1 + 1) + 1)
        (cum_weight c16_st.a.sys.lod c16_pool.op_array c16_pool.op_array.length) -
      min (cum_weight c16_st.a.sys.lod c16_pool.op_array 1 + 1)
        (cum_weight c16_st.a.sys.lod c16_pool.op_array c16_pool.op_array.length) = 4 := by
  have hready : qos_draw_ready (healthy_backend true) c16_pool 0 c16_st :=
    ⟨by decide, by decide, by decide, by decide, by decide, by decide, by decide, by decide,
      by decide, by decide, by decide, by decide, by decide⟩
  exact ⟨hready,
    C16_qos_draw_first_reaching (healthy_backend true) c16_pool 0 c16_st 1 hready (by decide),
    by decide⟩

theorem ledger_frame.lsame (x : lod_sys) : ledger_frame x x := ⟨rfl, rfl⟩

theorem ledger_frame.lchain {x y z : lod_sys} (h1 : ledger_frame x y) (h2 : ledger_frame y z) :
    ledger_frame x z :=
  ⟨h2.declared.trans h1.declared, h2.released.trans h1.released⟩

theorem tick_ledger (s : lod_sys) : ledger_frame s s.tick := ⟨rfl, rfl⟩

theorem set_lqr_ledger (s : lod_sys) (r : pool_ref) (v : lu_qos_rr) :
    ledger_frame s (s.set_lqr r v) := ⟨rfl, rfl⟩

theorem set_comp_ledger (s : lod_sys) (i : Nat) (c : lod_layout_component) :
    ledger_frame s (s.set_comp i c) := ⟨rfl, rfl⟩

theorem lod_statfs_and_check_ledger {w : lod_backend} {s s1 : lod_sys} {index : Nat}
    {rc : Int} {sfs : obd_statfs}
    (h : lod_statfs_and_check w s index = some (rc, s1, sfs)) :
    ledger_frame s { s1 with lti := { s1.lti with lti_osfs := sfs } } :=
  ⟨(lod_statfs_and_check_pools h).2.2.1, (lod_statfs_and_check_pools h).2.2.2⟩

theorem lod_statfs_and_check_ledger0 {w : lod_backend} {s s1 : lod_sys} {index : Nat}
    {rc : Int} {sfs : obd_statfs}
    (h : lod_statfs_and_check w s index = some (rc, s1, sfs)) : ledger_frame s s1 :=
  ⟨(lod_statfs_and_check_pools h).2.2.1, (lod_statfs_and_check_pools h).2.2.2⟩

theorem lod_qos_declare_object_on_ledger_error {w : lod_backend} {s s1 : lod_sys}
    {ost_idx : Nat} {e : Int}
    (h : lod_qos_declare_object_on w s ost_idx = some (s1, Except.error e)) :
    ledger_frame s s1 := by
  unfold lod_qos_declare_object_on at h
  simp only at h
  split_ifs at h <;> simp only [Option.some.injEq, Prod.mk.injEq] at h
  · obtain ⟨-, h2⟩ := h
    cases h2
  · obtain ⟨rfl, -⟩ := h
    exact ⟨rfl, rfl⟩

theorem lod_qos_declare_object_on_ledger_ok {w : lod_backend} {s s1 : lod_sys}
    {ost_idx : Nat} {o : dt_object}
    (h : lod_qos_declare_object_on w s ost_idx = some (s1, Except.ok o)) :
    s1.declared = o :: s.declared ∧ s1.released = s.released := by
  unfold lod_qos_declare_object_on at h
  simp only at h
  split_ifs at h <;> simp only [Option.some.injEq, Prod.mk.injEq] at h
  · obtain ⟨rfl, h2⟩ := h
    simp only [Except.ok.injEq] at h2
    subst h2
    exact ⟨rfl, rfl⟩
  · obtain ⟨-, h2⟩ := h
    cases h2

theorem alloc_state.commit_stripe {a a1 : alloc_state} {ost_idx : Nat} {o : dt_object}
    (hc : a.commit ost_idx o = some a1) :
    a.stripe_idx < a.stripe.length ∧ a1.stripe = a.stripe.set a.stripe_idx (some o) := by
  unfold alloc_state.commit array_set at hc
  split at hc
  · contradiction
  · split at hc
    · rename_i stripe ost_indices h1 h2
      split_ifs at h1 h2 with h3 h4
      simp only [Option.some.injEq] at h1 h2 hc
      subst h1 h2 hc
      exact ⟨h3, rfl⟩
    · contradiction

theorem ledger_inv.lmove {D R : List dt_object} {L : Nat} {a : alloc_state}
    (h : ledger_inv D R L a) {x : lod_sys} (hf : ledger_frame a.sys x) (ov : Bool) :
    ledger_inv D R L { a with sys := x, overstriped := ov } :=
  { len := h.len
    decl := by
      obtain ⟨new, h1, h2⟩ := h.decl
      refine ⟨new, hf.declared.trans h1, fun o ho => ?_⟩
      rcases h2 o ho with h3 | h3
      · exact Or.inl (by rw [hf.released]; exact h3)
      · exact Or.inr h3
    rel := fun o ho => by
      rw [hf.released]
      exact h.rel o ho
    tail := h.tail }

theorem ledger_inv.declare_failed {w : lod_backend} {D R : List dt_object} {L : Nat}
    {a : alloc_state} {s1 s2 : lod_sys} {ost_idx : Nat} {e : Int}
    (h : ledger_inv D R L a) (ov : Bool)
    (hd : lod_qos_declare_object_on w s1 ost_idx = some (s2, Except.error e))
    (hf1 : ledger_frame a.sys s1) :
    ledger_inv D R L { a with sys := s2, overstriped := ov } :=
  h.lmove (hf1.lchain (lod_qos_declare_object_on_ledger_error hd)) ov

theorem ledger_inv.picked {w : lod_backend} {D R : List dt_object} {L : Nat}
    {a a1 : alloc_state} {s1 s2 s3 : lod_sys} {ov : Bool} {ost_idx : Nat} {o : dt_object}
    (h : ledger_inv D R L a)
    (hd : lod_qos_declare_object_on w s1 ost_idx = some (s2, Except.ok o))
    (hc : alloc_state.commit { a with sys := s3, overstriped := ov } ost_idx o = some a1)
    (hf1 : ledger_frame a.sys s1) (hf3 : ledger_frame s2 s3) :
    ledger_inv D R L a1 := by
  obtain ⟨e1, e2⟩ := lod_qos_declare_object_on_ledger_ok hd
  obtain ⟨-, -, c3, c4, -⟩ := alloc_state.commit_sys hc
  obtain ⟨c5, c6⟩ := alloc_state.commit_stripe hc
  have c7 := (alloc_state.commit_spec hc).1
  simp only at c3 c4 c5 c6 c7
  have hrel : a1.sys.released = a.sys.released := by
    rw [c4, hf3.released, e2, hf1.released]
  have hdecl : a1.sys.declared = o :: a.sys.declared := by
    rw [c3, hf3.declared, e1, hf1.declared]
  have hold : a.stripe[a.stripe_idx]? = some none := by
    rw [List.getElem?_eq_getElem c5]
    cases hx : a.stripe[a.stripe_idx] with
    | none => rfl
    | some o1 =>
      exact absurd (by rw [List.getElem?_eq_getElem c5, hx]) (h.tail a.stripe_idx o1
        (Nat.le_refl _))
  refine ⟨by rw [c6, List.length_set]; exact h.len, ?_, fun x hx => by
    rw [hrel]; exact h.rel x hx, fun i x hi => ?_⟩
  · obtain ⟨new, h1, h2⟩ := h.decl
    refine ⟨o :: new, by rw [hdecl, h1]; rfl, fun x hx => ?_⟩
    rcases List.mem_cons.mp hx with rfl | hx
    · right
      rw [c6]
      exact List.mem_iff_getElem?.mpr ⟨a.stripe_idx, by rw [List.getElem?_set_self c5]⟩
    · rcases h2 x hx with h3 | h3
      · exact Or.inl (by rw [hrel]; exact h3)
      · right
        obtain ⟨j, hj⟩ := List.mem_iff_getElem?.mp h3
        have hne : j ≠ a.stripe_idx := by
          intro e
          rw [e, hold] at hj
          cases hj
        rw [c6]
        exact List.mem_iff_getElem?.mpr ⟨j, by rw [List.getElem?_set_ne (Ne.symm hne)]; exact hj⟩
  · rw [c6, List.getElem?_set_ne (by omega)]
    exact h.tail i x (by omega)

theorem lod_check_and_reserve_ost_ledger {w : lod_backend} {D R : List dt_object} {L : Nat}
    {a a1 : alloc_state} {comp_idx ost_idx speed : Nat} {rc : Int}
    (h : ledger_inv D R L a)
    (hr : lod_check_and_reserve_ost w a comp_idx ost_idx speed = some (rc, a1)) :
    ledger_inv D R L a1 := by
  unfold lod_check_and_reserve_ost at hr
  split at hr
  · contradiction
  · simp only at hr
    split at hr
    · contradiction
    · rename_i rc0 s0 sfs hst
      have f1 := lod_statfs_and_check_ledger hst
      repeat' first
        | contradiction
        | (simp only [Option.some.injEq, Prod.mk.injEq] at hr
           obtain ⟨-, rfl⟩ := hr
           first
            | exact h.lmove f1 a.overstriped
            | exact h.declare_failed _ (by assumption) f1
            | exact h.picked (by assumption) (by assumption) f1 (by exact ⟨rfl, rfl⟩))
        | split at hr

theorem lod_alloc_rr_body_ledger {w : lod_backend} {D R : List dt_object} {L : Nat}
    {r : pool_ref} {comp_idx stripe_count speed i : Nat} {st st1 : rr_state} {b : Bool}
    (h : ledger_inv D R L st.a)
    (hr : lod_alloc_rr_body w r comp_idx stripe_count speed i st = some (st1, b)) :
    ledger_inv D R L st1.a := by
  unfold lod_alloc_rr_body at hr
  simp only at hr
  have f1 := fun v => set_lqr_ledger st.a.sys r v
  have f2 := fun v => (f1 v).lchain (tick_ledger _)
  repeat' first
    | contradiction
    | (simp only [Option.some.injEq, Prod.mk.injEq] at hr
       obtain ⟨rfl, -⟩ := hr
       first
        | exact h
        | exact h.lmove (f1 _) st.a.overstriped
        | exact h.lmove (f2 _) st.a.overstriped
        | (apply lod_check_and_reserve_ost_ledger (h.lmove (f2 _) st.a.overstriped)
           assumption))
    | split at hr

theorem lod_alloc_rr_pass_ledger {w : lod_backend} {D R : List dt_object} {L : Nat}
    {r : pool_ref} {comp_idx stripe_count stripe_count_min tmp speed : Nat}
    {st st1 : rr_state} {b : Bool}
    (h : ledger_inv D R L st.a)
    (hr : lod_alloc_rr_pass w r comp_idx stripe_count stripe_count_min tmp speed st =
      some (st1, b)) :
    ledger_inv D R L st1.a := by
  unfold lod_alloc_rr_pass at hr
  split at hr
  · contradiction
  · simp only at hr
    split at hr
    · contradiction
    · split at hr
      · contradiction
      · rename_i st2 hloop
        have h2 : ledger_inv D R L st2.a :=
          for_loop_inv (fun x => ledger_inv D R L x.a) _
            (fun _ _ _ _ hx hb => lod_alloc_rr_body_ledger hx hb) _ _ _ _ h hloop
        split at hr <;> simp only [Option.some.injEq, Prod.mk.injEq] at hr <;>
          obtain ⟨rfl, -⟩ := hr
        · exact h2.lmove (set_lqr_ledger _ _ _) _
        · exact h2

theorem ledger_base.lbase (s : lod_sys) : ledger_base s.declared s.released s :=
  ⟨⟨[], rfl, fun _ h => by cases h⟩, fun _ h => h⟩

theorem ledger_base.lframe {D R : List dt_object} {s s1 : lod_sys} (h : ledger_base D R s)
    (hf : ledger_frame s s1) : ledger_base D R s1 := by
  obtain ⟨new, h1, h2⟩ := h.decl
  refine ⟨⟨new, hf.declared.trans h1, fun o ho => ?_⟩, fun o ho => ?_⟩
  · rw [hf.released]
    exact h2 o ho
  · rw [hf.released]
    exact h.rel o ho

theorem ledger_inv.lstart {D R : List dt_object} {s : lod_sys} (h : ledger_base D R s)
    {stripe : List (Option dt_object)} (hnone : ∀ x ∈ stripe, x = none)
    (ost_indices : List Nat) (ov : Bool) :
    ledger_inv D R stripe.length
      { sys := s, stripe := stripe, ost_indices := ost_indices, stripe_idx := 0,
        overstriped := ov } := by
  obtain ⟨new, h1, h2⟩ := h.decl
  refine ⟨rfl, ⟨new, h1, fun o ho => Or.inl (h2 o ho)⟩, h.rel, fun i o _ hc => ?_⟩
  have := hnone _ (List.mem_iff_getElem?.mpr ⟨i, hc⟩)
  cases this

theorem lod_qos_calc_rr_ledger {w : lod_backend} {s s1 : lod_sys} {r : pool_ref} {rc : Int}
    (h : lod_qos_calc_rr w s r = some (rc, s1)) : ledger_frame s s1 := by
  unfold lod_qos_calc_rr at h
  simp only at h
  repeat' first
    | contradiction
    | (simp only [Option.some.injEq, Prod.mk.injEq] at h
       obtain ⟨-, rfl⟩ := h
       exact ⟨rfl, rfl⟩)
    | split at h

theorem lod_qos_ost_in_use_clear_ledger (w : lod_backend) (s : lod_sys) (n : Nat) :
    ledger_frame s (lod_qos_ost_in_use_clear w s n).2 :=
  ⟨(lod_qos_ost_in_use_clear_lod w s n).2.2.1, (lod_qos_ost_in_use_clear_lod w s n).2.2.2⟩

theorem lod_alloc_rr_reseed_ledger {w : lod_backend} {s s1 : lod_sys} {r : pool_ref}
    {sc scm : Nat} (h : lod_alloc_rr_reseed w s r sc scm = some s1) : ledger_frame s s1 := by
  unfold lod_alloc_rr_reseed at h
  simp only at h
  repeat' first
    | contradiction
    | (simp only [Option.some.injEq] at h
       subst h
       exact ⟨rfl, rfl⟩)
    | split at h

theorem lod_alloc_rr_ledger {w : lod_backend} {D R : List dt_object} {s : lod_sys}
    {stripe : List (Option dt_object)} {ost_indices : List Nat} {flags comp_idx : Nat}
    {rc : Int} {a : alloc_state} (hb : ledger_base D R s) (hnone : ∀ x ∈ stripe, x = none)
    (hr : lod_alloc_rr w s stripe ost_indices flags comp_idx = some (rc, a)) :
    ledger_inv D R stripe.length a := by
  unfold lod_alloc_rr at hr
  split at hr
  · contradiction
  · rename_i c hcomp
    simp only at hr
    split at hr
    · contradiction
    · rename_i rc1 s1 hcalc
      have b1 := hb.lframe (lod_qos_calc_rr_ledger hcalc)
      split at hr
      · simp only [Option.some.injEq, Prod.mk.injEq] at hr
        obtain ⟨-, rfl⟩ := hr
        exact ledger_inv.lstart b1 hnone _ _
      · have b2 := b1.lframe (lod_qos_ost_in_use_clear_ledger w s1 c.llc_stripe_count)
        split at hr
        · simp only [Option.some.injEq, Prod.mk.injEq] at hr
          obtain ⟨-, rfl⟩ := hr
          exact ledger_inv.lstart b2 hnone _ _
        · split at hr
          · contradiction
          · rename_i s3 hseed
            have b3 := b2.lframe (lod_alloc_rr_reseed_ledger hseed)
            split at hr
            · contradiction
            · rename_i st hloop
              have h2 : ledger_inv D R stripe.length st.a :=
                for_loop_inv (fun x => ledger_inv D R stripe.length x.a) _
                  (fun _ _ _ _ hx hb => lod_alloc_rr_pass_ledger hx hb) _ _ _ _
                  (ledger_inv.lstart b3 hnone _ _) hloop
              split at hr
              · contradiction
              · split at hr <;> simp only [Option.some.injEq, Prod.mk.injEq] at hr <;>
                  obtain ⟨-, rfl⟩ := hr <;> exact h2.lmove (set_comp_ledger _ _ _) _

theorem lod_alloc_ost_list_body_ledger {w : lod_backend} {D R : List dt_object} {L : Nat}
    {lod_comp : lod_layout_component} {i : Nat} {st st1 : ost_list_state} {b : Bool}
    (h : ledger_inv D R L st.a)
    (hr : lod_alloc_ost_list_body w lod_comp i st = some (st1, b)) :
    ledger_inv D R L st1.a := by
  unfold lod_alloc_ost_list_body at hr
  simp only at hr
  repeat' first
    | contradiction
    | (simp only [Option.some.injEq, Prod.mk.injEq] at hr
       obtain ⟨rfl, -⟩ := hr
       first
        | exact h
        | exact h.lmove (lod_statfs_and_check_ledger (by assumption)) _
        | exact h.declare_failed _ (by assumption) (lod_statfs_and_check_ledger (by assumption))
        | exact h.picked (by assumption) (by assumption)
            (lod_statfs_and_check_ledger (by assumption)) (by exact ⟨rfl, rfl⟩))
    | split at hr

theorem lod_alloc_ost_list_ledger {w : lod_backend} {D R : List dt_object} {s : lod_sys}
    {stripe : List (Option dt_object)} {ost_indices : List Nat} {comp_idx : Nat}
    {rc : Int} {a : alloc_state} (hb : ledger_base D R s) (hnone : ∀ x ∈ stripe, x = none)
    (hr : lod_alloc_ost_list w s stripe ost_indices comp_idx = some (rc, a)) :
    ledger_inv D R stripe.length a := by
  unfold lod_alloc_ost_list at hr
  split at hr
  · contradiction
  · rename_i c hcomp
    simp only at hr
    have b1 := hb.lframe (lod_qos_ost_in_use_clear_ledger w s c.llc_stripe_count)
    split at hr
    · contradiction
    · split at hr
      · simp only [Option.some.injEq, Prod.mk.injEq] at hr
        obtain ⟨-, rfl⟩ := hr
        exact ledger_inv.lstart b1 hnone _ _
      · split at hr
        · contradiction
        · simp only [Option.some.injEq, Prod.mk.injEq] at hr
          obtain ⟨-, rfl⟩ := hr
          exact ledger_inv.lstart (b1.lframe (set_comp_ledger _ _ _)) hnone _ _
        · split at hr
          · contradiction
          · rename_i st hloop
            simp only [Option.some.injEq, Prod.mk.injEq] at hr
            obtain ⟨-, rfl⟩ := hr
            exact for_loop_inv (fun x => ledger_inv D R stripe.length x.a) _
              (fun _ _ _ _ hx hb => lod_alloc_ost_list_body_ledger hx hb) _ _ _ _
              (ledger_inv.lstart (b1.lframe (set_comp_ledger _ _ _)) hnone _ _) hloop

theorem lod_alloc_specific_body_ledger {w : lod_backend} {D R : List dt_object} {L : Nat}
    {osts : ost_pool} {lod_comp : lod_layout_component} {speed i : Nat}
    {st st1 : specific_state} {b : Bool}
    (h : ledger_inv D R L st.a)
    (hr : lod_alloc_specific_body w osts lod_comp speed i st = some (st1, b)) :
    ledger_inv D R L st1.a := by
  unfold lod_alloc_specific_body at hr
  simp only at hr
  have f1 := tick_ledger st.a.sys
  repeat' first
    | contradiction
    | (simp only [Option.some.injEq, Prod.mk.injEq] at hr
       obtain ⟨rfl, -⟩ := hr
       first
        | exact h
        | exact h.lmove f1 _
        | exact h.lmove (f1.lchain (lod_statfs_and_check_ledger (by assumption))) _
        | exact h.declare_failed _ (by assumption)
            (f1.lchain (lod_statfs_and_check_ledger (by assumption)))
        | exact h.picked (by assumption) (by assumption)
            (f1.lchain (lod_statfs_and_check_ledger (by assumption))) (by exact ⟨rfl, rfl⟩))
    | split at hr

theorem lod_alloc_specific_pass_ledger {w : lod_backend} {D R : List dt_object} {L : Nat}
    {r : pool_ref} {comp_idx speed : Nat} {st st1 : specific_pass_state} {b : Bool}
    (h : ledger_inv D R L st.a)
    (hr : lod_alloc_specific_pass w r comp_idx speed st = some (st1, b)) :
    ledger_inv D R L st1.a := by
  unfold lod_alloc_specific_pass at hr
  split at hr
  · contradiction
  · simp only at hr
    split at hr
    · contradiction
    · simp only [Option.some.injEq, Prod.mk.injEq] at hr
      obtain ⟨rfl, -⟩ := hr
      exact h
    · split at hr
      · contradiction
      · split at hr
        · contradiction
        · rename_i st2 hloop
          have h2 : ledger_inv D R L st2.a :=
            for_loop_inv (fun x => ledger_inv D R L x.a) _
              (fun _ _ _ _ hx hb => lod_alloc_specific_body_ledger hx hb) _ _ _ _ h hloop
          repeat' first
            | (simp only [Option.some.injEq, Prod.mk.injEq] at hr
               obtain ⟨rfl, -⟩ := hr
               exact h2)
            | split at hr

theorem lod_alloc_specific_ledger {w : lod_backend} {D R : List dt_object} {s : lod_sys}
    {stripe : List (Option dt_object)} {ost_indices : List Nat} {flags comp_idx : Nat}
    {rc : Int} {a : alloc_state} (hb : ledger_base D R s) (hnone : ∀ x ∈ stripe, x = none)
    (hr : lod_alloc_specific w s stripe ost_indices flags comp_idx = some (rc, a)) :
    ledger_inv D R stripe.length a := by
  unfold lod_alloc_specific at hr
  split at hr
  · contradiction
  · rename_i c hcomp
    simp only at hr
    have b1 := hb.lframe (lod_qos_ost_in_use_clear_ledger w s c.llc_stripe_count)
    split at hr
    · simp only [Option.some.injEq, Prod.mk.injEq] at hr
      obtain ⟨-, rfl⟩ := hr
      exact ledger_inv.lstart b1 hnone _ _
    · split at hr
      · contradiction
      · rename_i st hloop
        have h2 := for_loop_inv (fun x => ledger_inv D R stripe.length x.a) _
          (fun _ _ _ _ hx hb => lod_alloc_specific_pass_ledger hx hb) _ _ _ _
          (ledger_inv.lstart b1 hnone _ _) hloop
        repeat' first
          | contradiction
          | (simp only [Option.some.injEq, Prod.mk.injEq] at hr
             obtain ⟨-, rfl⟩ := hr
             first
              | exact h2
              | exact h2.lmove (set_comp_ledger _ _ _) _)
          | split at hr

theorem lqos_recalc_weight_ledger (w : lod_backend) (s : lod_sys) (idx : Nat) :
    ledger_frame s (lqos_recalc_weight w s idx).1 := ⟨rfl, rfl⟩

theorem lod_alloc_qos_scan_body_ledger {w : lod_backend} {osts : ost_pool} {i : Nat}
    {s0 : lod_sys} {st st1 : qos_scan_state} {b : Bool}
    (h : ledger_frame s0 st.sys)
    (hr : lod_alloc_qos_scan_body w osts i st = some (st1, b)) : ledger_frame s0 st1.sys := by
  unfold lod_alloc_qos_scan_body at hr
  simp only at hr
  repeat' first
    | contradiction
    | (simp only [Option.some.injEq, Prod.mk.injEq] at hr
       obtain ⟨rfl, -⟩ := hr
       first
        | exact h
        | (apply h.lchain
           have f := lod_statfs_and_check_ledger0 (by assumption)
           exact ⟨f.declared, f.released⟩))
    | split at hr

theorem lod_alloc_qos_pick_body_ledger {w : lod_backend} {D R : List dt_object} {L : Nat}
    {osts : ost_pool} {comp_idx rand i : Nat} {st st1 : qos_pick_state} {b : Bool}
    (h : ledger_inv D R L st.a ∧ (st.rc = 0 ∨ st.rc = -ENOSPC))
    (hr : lod_alloc_qos_pick_body w osts comp_idx rand i st = some (st1, b)) :
    ledger_inv D R L st1.a ∧ (st1.rc = 0 ∨ st1.rc = -ENOSPC) := by
  obtain ⟨h, hrc⟩ := h
  unfold lod_alloc_qos_pick_body at hr
  split at hr
  · simp only at hr
    repeat' first
      | contradiction
      | (simp only [Option.some.injEq, Prod.mk.injEq] at hr
         obtain ⟨rfl, -⟩ := hr
         first
          | exact ⟨h, hrc⟩
          | exact ⟨h.declare_failed _ (by assumption) (ledger_frame.lsame _), hrc⟩
          | (refine ⟨?_, Or.inl rfl⟩
             apply ledger_inv.lmove _ (lqos_recalc_weight_ledger _ _ _)
             exact h.picked (by assumption) (by assumption) (ledger_frame.lsame _)
               (by exact ⟨rfl, rfl⟩)))
      | split at hr
  · contradiction

theorem lod_alloc_qos_round_ledger {w : lod_backend} {D R : List dt_object} {L : Nat}
    {osts : ost_pool} {comp_idx stripe_count n : Nat} {st st1 : qos_pick_state} {b : Bool}
    (h : ledger_inv D R L st.a ∧ (st.rc = 0 ∨ st.rc = -ENOSPC))
    (hr : lod_alloc_qos_round w osts comp_idx stripe_count n st = some (st1, b)) :
    ledger_inv D R L st1.a ∧ (st1.rc = 0 ∨ st1.rc = -ENOSPC) := by
  unfold lod_alloc_qos_round at hr
  simp only at hr
  split at hr
  · simp only [Option.some.injEq, Prod.mk.injEq] at hr
    obtain ⟨rfl, -⟩ := hr
    exact h
  · split at hr
    · contradiction
    · rename_i st2 hloop
      have h2 := for_loop_inv
        (fun x : qos_pick_state => ledger_inv D R L x.a ∧ (x.rc = 0 ∨ x.rc = -ENOSPC)) _
        (fun _ _ _ _ hx hb => lod_alloc_qos_pick_body_ledger hx hb) _ _ _ _
        ⟨h.1.lmove (tick_ledger _) _, Or.inr rfl⟩ hloop
      split at hr <;> simp only [Option.some.injEq, Prod.mk.injEq] at hr <;>
        obtain ⟨rfl, -⟩ := hr <;> exact h2

theorem lod_alloc_qos_release_body_ledger {D R : List dt_object} {L n i : Nat}
    {a a1 : alloc_state} {b : Bool} (h : release_inv D R L n i a)
    (hr : lod_alloc_qos_release_body i a = some (a1, b)) :
    release_inv D R L n (i + 1) a1 ∧ b = false := by
  unfold lod_alloc_qos_release_body at hr
  split at hr
  · rename_i o ho
    simp only [Option.some.injEq, Prod.mk.injEq] at hr
    obtain ⟨rfl, rfl⟩ := hr
    have hlt : i < a.stripe.length := by
      by_contra hc
      rw [List.getElem?_eq_none (by omega)] at ho
      cases ho
    refine ⟨⟨by simp only [List.length_set]; exact h.len, h.idx, ?_, fun x hx => ?_,
      fun j x hj => ?_⟩, rfl⟩
    · obtain ⟨new, h1, h2⟩ := h.decl
      refine ⟨new, h1, fun x hx => ?_⟩
      rcases h2 x hx with h3 | h3
      · exact Or.inl (List.mem_cons_of_mem _ h3)
      · obtain ⟨j, hj⟩ := List.mem_iff_getElem?.mp h3
        by_cases hji : j = i
        · left
          rw [hji, ho] at hj
          simp only [Option.some.injEq] at hj
          subst hj
          exact List.mem_cons_self _ _
        · right
          exact List.mem_iff_getElem?.mpr
            ⟨j, by simp only; rw [List.getElem?_set_ne (Ne.symm hji)]; exact hj⟩
    · exact List.mem_cons_of_mem _ (h.rel x hx)
    · simp only
      by_cases hji : j = i
      · rw [hji, List.getElem?_set_self hlt]
        intro hc
        cases hc
      · rw [List.getElem?_set_ne (Ne.symm hji)]
        exact h.empty j x (by omega)
  · contradiction

theorem release_inv.done {D R : List dt_object} {L n : Nat} {a : alloc_state}
    (h : release_inv D R L n n a) :
    ledger_inv D R L a ∧ (∀ x ∈ a.stripe, x = none) ∧ ledger_base D R a.sys := by
  have hnone : ∀ x ∈ a.stripe, x = none := by
    intro x hx
    obtain ⟨j, hj⟩ := List.mem_iff_getElem?.mp hx
    cases x with
    | none => rfl
    | some o => exact absurd hj (h.empty j o (by omega))
  obtain ⟨new, h1, h2⟩ := h.decl
  have h3 : ∀ o ∈ new, o ∈ a.sys.released := by
    intro o ho
    rcases h2 o ho with h4 | h4
    · exact h4
    · have := hnone _ h4
      cases this
  refine ⟨⟨h.len, ⟨new, h1, h2⟩, h.rel, fun i o _ => h.empty i o (by omega)⟩, hnone,
    ⟨new, h1, h3⟩, h.rel⟩

theorem ledger_inv.to_release {D R : List dt_object} {L : Nat} {a : alloc_state}
    (h : ledger_inv D R L a) : release_inv D R L a.stripe_idx 0 a :=
  ⟨h.len, rfl, h.decl, h.rel, fun i o hi => h.tail i o (by omega)⟩

theorem ledger_inv.lzero {D R : List dt_object} {s : lod_sys} (h : ledger_base D R s)
    {stripe : List (Option dt_object)} (hnone : ∀ x ∈ stripe, x = none)
    (ost_indices : List Nat) (ov : Bool) (rc : Int) :
    ledger_inv D R stripe.length
      { sys := s, stripe := stripe, ost_indices := ost_indices, stripe_idx := 0,
        overstriped := ov } ∧
    (rc = -EAGAIN → (∀ x ∈ stripe, x = none) ∧ ledger_base D R s) :=
  ⟨ledger_inv.lstart h hnone _ _, fun _ => ⟨hnone, h⟩⟩

theorem lod_alloc_qos_ledger {w : lod_backend} {D R : List dt_object} {s : lod_sys}
    {stripe : List (Option dt_object)} {ost_indices : List Nat} {flags comp_idx : Nat}
    {rc : Int} {a : alloc_state} (hb : ledger_base D R s) (hnone : ∀ x ∈ stripe, x = none)
    (hr : lod_alloc_qos w s stripe ost_indices flags comp_idx = some (rc, a)) :
    ledger_inv D R stripe.length a ∧
      (rc = -EAGAIN → (∀ x ∈ a.stripe, x = none) ∧ ledger_base D R a.sys) := by
  unfold lod_alloc_qos at hr
  split at hr
  · contradiction
  · rename_i c hcomp
    simp only at hr
    split at hr
    · simp only [Option.some.injEq, Prod.mk.injEq] at hr
      obtain ⟨rfl, rfl⟩ := hr
      exact ledger_inv.lzero hb hnone _ _ _
    · split at hr
      · simp only [Option.some.injEq, Prod.mk.injEq] at hr
        obtain ⟨rfl, rfl⟩ := hr
        exact ledger_inv.lzero hb hnone _ _ _
      · split at hr
        · contradiction
        · have b1 : ledger_base D R
              { s.tick with lod := { s.lod with lod_qos := { s.lod.lod_qos with
                lq_dirty := (w.lqos_calc_penalties s.clock).2.1,
                lq_same_space := (w.lqos_calc_penalties s.clock).2.2 } } } :=
            hb.lframe ⟨rfl, rfl⟩
          split at hr
          · simp only [Option.some.injEq, Prod.mk.injEq] at hr
            obtain ⟨rfl, rfl⟩ := hr
            exact ledger_inv.lzero b1 hnone _ _ _
          · have b2 := b1.lframe (lod_qos_ost_in_use_clear_ledger w _ c.llc_stripe_count)
            split at hr
            · simp only [Option.some.injEq, Prod.mk.injEq] at hr
              obtain ⟨rfl, rfl⟩ := hr
              exact ledger_inv.lzero b2 hnone _ _ _
            · rename_i hclr
              split at hr
              · contradiction
              · rename_i sc hscan
                have f2 := for_loop_inv (fun x => ledger_frame _ x.sys) _
                  (fun _ _ _ _ hx hb => lod_alloc_qos_scan_body_ledger hx hb) _ _ _ _
                  (ledger_frame.lsame _) hscan
                have b3 := b2.lframe f2
                have hclr0 : (lod_qos_ost_in_use_clear w
                    { s.tick with lod := { s.lod with lod_qos := { s.lod.lod_qos with
                      lq_dirty := (w.lqos_calc_penalties s.clock).2.1,
                      lq_same_space := (w.lqos_calc_penalties s.clock).2.2 } } }
                    c.llc_stripe_count).1 = 0 := by
                  by_contra hc
                  exact hclr hc
                repeat' first
                  | contradiction
                  | (simp only [Option.some.injEq, Prod.mk.injEq] at hr
                     obtain ⟨rfl, rfl⟩ := hr
                     first
                      | exact ledger_inv.lzero b3 hnone _ _ _
                      | (have h3 := for_loop_inv
                           (fun x : qos_pick_state => ledger_inv D R stripe.length x.a ∧
                             (x.rc = 0 ∨ x.rc = -ENOSPC)) _
                           (fun _ _ _ _ hx hb => lod_alloc_qos_round_ledger hx hb) _ _ _ _
                           ⟨ledger_inv.lstart b3 hnone _ _, Or.inl hclr0⟩ (by assumption)
                         first
                          | (have h4 := for_loop_inv_idx
                               (fun k x => release_inv D R stripe.length _ k x) _
                               (fun _ _ _ _ hx hb => lod_alloc_qos_release_body_ledger hx hb)
                               _ _ _ _ h3.1.to_release (by assumption)
                             rw [Nat.zero_add] at h4
                             obtain ⟨h5, h6, h7⟩ := h4.done
                             exact ⟨h5.lmove (by exact ⟨rfl, rfl⟩) _,
                               fun _ => ⟨h6, h7.lframe (by exact ⟨rfl, rfl⟩)⟩⟩)
                          | (refine ⟨h3.1.lmove (set_comp_ledger _ _ _) _, fun e => ?_⟩
                             rcases h3.2 with e1 | e1 <;> rw [e1] at e <;> cases e)
                          | (refine ⟨h3.1, fun e => ?_⟩
                             rcases h3.2 with e1 | e1 <;> rw [e1] at e <;> cases e)))
                  | split at hr

theorem lod_prepare_avoidance_ledger (w : lod_backend) (s : lod_sys) :
    ledger_frame s (lod_prepare_avoidance w s).2 := by
  unfold lod_prepare_avoidance
  simp only
  split_ifs <;> exact ⟨rfl, rfl⟩

theorem lod_qos_statfs_update_ledger {w : lod_backend} {s s1 : lod_sys}
    (h : lod_qos_statfs_update w s = some s1) : ledger_frame s s1 := by
  unfold lod_qos_statfs_update at h
  simp only at h
  split at h
  · simp only [Option.some.injEq] at h
    subst h
    exact ⟨rfl, rfl⟩
  · split at h
    · contradiction
    · rename_i s2 hloop
      simp only [Option.some.injEq] at h
      subst h
      have h2 := for_loop_inv (fun x => ledger_frame s x) _
        (fun i x x1 b hx hb => by
          unfold lod_qos_statfs_update_body at hb
          split at hb
          · contradiction
          · simp only at hb
            split at hb
            · contradiction
            · rename_i hsc
              have f := lod_statfs_and_check_ledger0 hsc
              split at hb
              · simp only [Option.some.injEq, Prod.mk.injEq] at hb
                obtain ⟨rfl, -⟩ := hb
                exact hx.lchain ⟨f.declared, f.released⟩
              · split at hb <;>
                  (simp only [Option.some.injEq, Prod.mk.injEq] at hb
                   obtain ⟨rfl, -⟩ := hb
                   exact hx.lchain ⟨f.declared, f.released⟩))
        _ _ _ _ (tick_ledger s) hloop
      exact ⟨h2.declared, h2.released⟩

theorem lod_qos_prep_create_alloc_ledger {w : lod_backend} {D R : List dt_object}
    {s : lod_sys} {c : lod_layout_component} {stripe : List (Option dt_object)}
    {ost_indices : List Nat} {flag comp_idx : Nat} {rc : Int} {a : alloc_state}
    (hb : ledger_base D R s) (hnone : ∀ x ∈ stripe, x = none)
    (hr : lod_qos_prep_create_alloc w s c stripe ost_indices flag comp_idx = some (rc, a)) :
    ledger_inv D R stripe.length a := by
  unfold lod_qos_prep_create_alloc at hr
  split at hr
  · exact lod_alloc_ost_list_ledger hb hnone hr
  · split at hr
    · simp only at hr
      have b1 := hb.lframe (lod_prepare_avoidance_ledger w s)
      split at hr
      · simp only [Option.some.injEq, Prod.mk.injEq] at hr
        obtain ⟨-, rfl⟩ := hr
        exact ledger_inv.lstart b1 hnone _ _
      · split at hr
        · contradiction
        · rename_i lag hlag
          have b2 : ledger_base D R
              { (lod_prepare_avoidance w s).2 with
                lti := { (lod_prepare_avoidance w s).2.lti with lti_avoid := lag } } :=
            b1.lframe ⟨rfl, rfl⟩
          split at hr
          · contradiction
          · rename_i rc1 a1 hqos
            obtain ⟨h1, h2⟩ := lod_alloc_qos_ledger b2 hnone hqos
            split at hr
            · rename_i hag
              obtain ⟨h3, h4⟩ := h2 hag
              have h5 := lod_alloc_rr_ledger h4 h3 hr
              rw [h1.len] at h5
              exact h5
            · simp only [Option.some.injEq, Prod.mk.injEq] at hr
              obtain ⟨-, rfl⟩ := hr
              exact h1
    · exact lod_alloc_specific_ledger hb hnone hr

theorem lod_qos_prep_create_put_ledger {stripe : List (Option dt_object)} {s s1 : lod_sys}
    (h : for_loop (lod_qos_prep_create_put stripe) stripe.length 0 s = some s1) :
    s1.declared = s.declared ∧ (∀ o, some o ∈ stripe → o ∈ s1.released) ∧
      ∀ o ∈ s.released, o ∈ s1.released := by
  have h2 := for_loop_inv_idx
    (fun i x => x.declared = s.declared ∧
      (∀ j o, j < i → stripe[j]? = some (some o) → o ∈ x.released) ∧
      ∀ o ∈ s.released, o ∈ x.released) _
    (fun i x x1 b hx hb => by
      obtain ⟨e1, e2, e3⟩ := hx
      unfold lod_qos_prep_create_put at hb
      split at hb
      · contradiction
      · rename_i hi
        simp only [Option.some.injEq, Prod.mk.injEq] at hb
        obtain ⟨rfl, rfl⟩ := hb
        refine ⟨⟨e1, fun j o hj ho => ?_, e3⟩, rfl⟩
        by_cases hji : j = i
        · rw [hji, hi] at ho
          cases ho
        · exact e2 j o (by omega) ho
      · rename_i o1 hi
        simp only [Option.some.injEq, Prod.mk.injEq] at hb
        obtain ⟨rfl, rfl⟩ := hb
        refine ⟨⟨e1, fun j o hj ho => ?_, fun o ho => List.mem_cons_of_mem _ (e3 o ho)⟩, rfl⟩
        by_cases hji : j = i
        · rw [hji, hi] at ho
          simp only [Option.some.injEq] at ho
          subst ho
          exact List.mem_cons_self _ _
        · exact List.mem_cons_of_mem _ (e2 j o (by omega) ho))
    _ _ _ _ ⟨rfl, fun j o hj => by omega, fun o ho => ho⟩ h
  obtain ⟨e1, e2, e3⟩ := h2
  refine ⟨e1, fun o ho => ?_, e3⟩
  obtain ⟨j, hj⟩ := List.mem_iff_getElem?.mp ho
  have hlt : j < stripe.length := by
    by_contra hc
    rw [List.getElem?_eq_none (by omega)] at hj
    cases hj
  exact e2 j o (by omega) hj

/-! ## C12: what a failure of `lod_qos_prep_create` leaves behind -/

/-- C12 (amended): `lod_qos_prep_create` fails (`rc < 0`) on a component without
predefined stripes.  Then every placeholder declared during the call has been
released; and the stored `stripe_count` is 0 when the failure arose once the
reservation buffers were allocated (the avoidance guide or an allocation
policy failed), whereas it is the count the component asked for after
`-ERANGE` (`stripe_len = 0`) and `stripe_len` after the `-ENOMEM` of a
reservation buffer. -/
theorem C12_failure_rollback (w : lod_backend) (s s1 : lod_sys) (comp_idx : Nat)
    (c : lod_layout_component) (rc : Int)
    (hcomp : s.lo.ldo_comp_entries[comp_idx]? = some c)
    (hnostripe : c.llc_stripe = none)
    (hr : lod_qos_prep_create w s comp_idx = some (rc, s1))
    (hrc : rc < 0) :
    (∃ new, s1.declared = new ++ s.declared ∧ ∀ o ∈ new, o ∈ s1.released) ∧
    ∃ s0 c1, lod_qos_statfs_update w s = some s0 ∧
      s1.lo.ldo_comp_entries[comp_idx]? = some c1 ∧
      c1.llc_stripe_count =
        (if lod_get_stripe_count w s0.lod s0.lo c.llc_stripe_count
            (decide (c.llc_pattern &&& LOV_PATTERN_OVERSTRIPING ≠ 0)) = 0
         then c.llc_stripe_count
         else if w.alloc_fails s0.clock = true ∨ w.alloc_fails (s0.clock + 1) = true
         then lod_get_stripe_count w s0.lod s0.lo c.llc_stripe_count
            (decide (c.llc_pattern &&& LOV_PATTERN_OVERSTRIPING ≠ 0))
         else 0) ∧
      (lod_get_stripe_count w s0.lod s0.lo c.llc_stripe_count
            (decide (c.llc_pattern &&& LOV_PATTERN_OVERSTRIPING ≠ 0)) = 0 → rc = -ERANGE) ∧
      (lod_get_stripe_count w s0.lod s0.lo c.llc_stripe_count
            (decide (c.llc_pattern &&& LOV_PATTERN_OVERSTRIPING ≠ 0)) ≠ 0 →
        w.alloc_fails s0.clock = true ∨ w.alloc_fails (s0.clock + 1) = true → rc = -ENOMEM) := by
  unfold lod_qos_prep_create at hr
  rw [hcomp] at hr
  simp only at hr
  split at hr
  · contradiction
  · split at hr
    · simp only [Option.some.injEq, Prod.mk.injEq] at hr
      obtain ⟨rfl, -⟩ := hr
      exact absurd hrc (by decide)
    · split at hr
      · simp only [Option.some.injEq, Prod.mk.injEq] at hr
        obtain ⟨rfl, -⟩ := hr
        exact absurd hrc (by decide)
      · split at hr
        swap
        · rename_i l hl
          rw [hnostripe] at hl
          cases hl
        split at hr
        · contradiction
        · split at hr
          · contradiction
          · rename_i s0 hupd
            have hlo := lod_qos_statfs_update_lo hupd
            have b0 := (ledger_base.lbase s).lframe (lod_qos_statfs_update_ledger hupd)
            have hcomp0 : s0.lo.ldo_comp_entries[comp_idx]? = some c := by
              rw [hlo]
              exact hcomp
            suffices hs : (∃ new, s1.declared = new ++ s.declared ∧ ∀ o ∈ new, o ∈ s1.released) ∧
                ∃ c1, s1.lo.ldo_comp_entries[comp_idx]? = some c1 ∧
                c1.llc_stripe_count =
                  (if lod_get_stripe_count w s0.lod s0.lo c.llc_stripe_count
                      (decide (c.llc_pattern &&& LOV_PATTERN_OVERSTRIPING ≠ 0)) = 0
                   then c.llc_stripe_count
                   else if w.alloc_fails s0.clock = true ∨ w.alloc_fails (s0.clock + 1) = true
                   then lod_get_stripe_count w s0.lod s0.lo c.llc_stripe_count
                      (decide (c.llc_pattern &&& LOV_PATTERN_OVERSTRIPING ≠ 0))
                   else 0) ∧
                (lod_get_stripe_count w s0.lod s0.lo c.llc_stripe_count
                    (decide (c.llc_pattern &&& LOV_PATTERN_OVERSTRIPING ≠ 0)) = 0 →
                  rc = -ERANGE) ∧
                (lod_get_stripe_count w s0.lod s0.lo c.llc_stripe_count
                    (decide (c.llc_pattern &&& LOV_PATTERN_OVERSTRIPING ≠ 0)) ≠ 0 →
                  w.alloc_fails s0.clock = true ∨ w.alloc_fails (s0.clock + 1) = true →
                  rc = -ENOMEM) by
              obtain ⟨g1, c1, g2⟩ := hs
              exact ⟨g1, s0, c1, hupd, g2⟩
            generalize hlen : lod_get_stripe_count w s0.lod s0.lo c.llc_stripe_count
              (decide (c.llc_pattern &&& LOV_PATTERN_OVERSTRIPING ≠ 0)) = stripe_len at hr ⊢
            split at hr
            · rename_i hz
              simp only [Option.some.injEq, Prod.mk.injEq] at hr
              obtain ⟨rfl, rfl⟩ := hr
              obtain ⟨new, e1, e2⟩ := b0.decl
              refine ⟨⟨new, e1, e2⟩, c, hcomp0, by rw [if_pos hz], fun _ => rfl,
                fun h => absurd hz h⟩
            · rename_i hz
              have hset : (s0.set_comp comp_idx
                  { c with llc_stripe_count := stripe_len }).lo.ldo_comp_entries[comp_idx]? =
                  some { c with llc_stripe_count := stripe_len } :=
                getElem?_set_self_of_some _ hcomp0
              split at hr
              · rename_i hf
                simp only [Option.some.injEq, Prod.mk.injEq] at hr
                obtain ⟨rfl, rfl⟩ := hr
                obtain ⟨new, e1, e2⟩ := b0.decl
                refine ⟨⟨new, e1, e2⟩, _, hset, ?_, fun h => absurd h hz,
                  fun _ _ => rfl⟩
                rw [if_neg hz, if_pos (Or.inl (show w.alloc_fails s0.clock = true from hf))]
              · rename_i hf
                split at hr
                · rename_i hf2
                  simp only [Option.some.injEq, Prod.mk.injEq] at hr
                  obtain ⟨rfl, rfl⟩ := hr
                  obtain ⟨new, e1, e2⟩ := b0.decl
                  refine ⟨⟨new, e1, e2⟩, _, hset, ?_, fun h => absurd h hz,
                    fun _ _ => rfl⟩
                  rw [if_neg hz,
                    if_pos (Or.inr (show w.alloc_fails (s0.clock + 1) = true from hf2))]
                · rename_i hf2
                  have b3 : ledger_base s.declared s.released
                      (s0.set_comp comp_idx { c with llc_stripe_count := stripe_len }).tick.tick :=
                    b0.lframe ⟨rfl, rfl⟩
                  have hnone : ∀ x ∈ List.replicate stripe_len (none : Option dt_object),
                      x = none := fun x hx => List.eq_of_mem_replicate hx
                  split at hr
                  · contradiction
                  · rename_i rc1 a halloc
                    have h1 := lod_qos_prep_create_alloc_ledger b3 hnone halloc
                    rw [List.length_replicate] at h1
                    split at hr
                    · contradiction
                    · rename_i comp2 hcomp2
                      split at hr
                      · split at hr
                        · contradiction
                        · rename_i s4 hput
                          simp only [Option.some.injEq, Prod.mk.injEq] at hr
                          obtain ⟨rfl, rfl⟩ := hr
                          rw [← h1.len] at hput
                          obtain ⟨p1, p2, p3⟩ := lod_qos_prep_create_put_ledger hput
                          have plo := lod_qos_prep_create_put_lo hput
                          obtain ⟨new, e1, e2⟩ := h1.decl
                          refine ⟨⟨new, p1.trans e1, fun o ho => ?_⟩, _,
                            getElem?_set_self_of_some _ (by rw [plo]; exact hcomp2), ?_,
                            fun h => absurd h hz, fun _ h => ?_⟩
                          · rcases e2 o ho with e3 | e3
                            · exact p3 o e3
                            · exact p2 o e3
                          · have hnf : ¬ (w.alloc_fails s0.clock = true ∨
                                w.alloc_fails (s0.clock + 1) = true) := by
                              rintro (h | h)
                              · exact hf h
                              · exact hf2 h
                            rw [if_neg hz, if_neg hnf]
                          · rcases h with h | h
                            · exact absurd h hf
                            · exact absurd h hf2
                      · rename_i hge
                        simp only [Option.some.injEq, Prod.mk.injEq] at hr
                        obtain ⟨rfl, rfl⟩ := hr
                        exact absurd hrc hge

/-- Counterexample to C12: a component of 1 stripe.  When the reservation
buffer cannot be allocated the result is `-ENOMEM`, when no stripe fits the
layout buffer it is `-ERANGE`, and when the declaration of a predefined stripe
fails it is the error of the declaration: each time the stored `stripe_count`
is still 1. -/
theorem C12_count_not_reset_counterexample :
    prep_create_summary (lod_qos_prep_create c12_nomem_backend c12_sys 0) =
        some (-ENOMEM, [1], 0, 0) ∧
      prep_create_summary (lod_qos_prep_create c12_norange_backend c12_sys 0) =
        some (-ERANGE, [1], 0, 0) ∧
      prep_create_summary (lod_qos_prep_create c12_nodecl_backend c12_defined_sys 0) =
        some (-28, [1], 0, 0) := by
  decide

/-- Witness of C12: 2 stripes from the offset 0 on two targets of which target
1 does not answer: one stripe is placed, the policy fails with `-EFBIG`, the
placeholder is released and the stored `stripe_count` is 0. -/
theorem C12_failure_rollback_witness :
    ∃ s1, lod_qos_prep_create c2_backend c12_specific_sys 0 = some (-EFBIG, s1) ∧
      prep_create_summary (some (-EFBIG, s1)) = some (-EFBIG, [0], 1, 1) ∧
      (∃ new, s1.declared = new ++ c12_specific_sys.declared ∧ ∀ o ∈ new, o ∈ s1.released) := by
  have h : prep_create_summary (lod_qos_prep_create c2_backend c12_specific_sys 0) =
      some (-EFBIG, [0], 1, 1) := by decide
  obtain ⟨⟨rc, s1⟩, h1, h2⟩ := Option.map_eq_some'.mp h
  have h3 : rc = -EFBIG := by
    simp only [Prod.mk.injEq] at h2
    exact h2.1
  subst h3
  have h4 := C12_failure_rollback c2_backend c12_specific_sys s1 0
    { demo_comp 2 with llc_stripe_offset := 0 } (-EFBIG) rfl rfl h1 (by decide)
  exact ⟨s1, h1, by rw [← h1]; exact h, h4.1⟩

/-! ## C6: scenario S5 for every tape of random words

The steps of the weighted policy and of its fallback as rules, then the facts
of the scenario, evaluated on the tape-free backend, and their composition. -/

/-- One round of `lod_alloc_qos` with room left and a positive total weight
is the scan of the pool for some random value below the total weight. -/
theorem lod_alloc_qos_round_draw (w : lod_backend) (osts : ost_pool)
    (comp_idx stripe_count n : Nat) (st : qos_pick_state) (W : Nat)
    (hidx : st.a.stripe_idx < stripe_count) (hW : st.total_weight = W) (hpos : 0 < W) :
    ∃ r, r < W ∧ lod_alloc_qos_round w osts comp_idx stripe_count n st =
      lod_alloc_qos_round_with w osts comp_idx r st := by
  refine ⟨lu_prandom_u64_max w st.a.sys.clock st.total_weight, ?_, ?_⟩
  · unfold lu_prandom_u64_max
    rw [hW, if_neg (by omega)]
    exact Nat.mod_lt _ hpos
  · unfold lod_alloc_qos_round lod_alloc_qos_round_with
    simp only [hidx, not_true_eq_false, ↓reduceIte]

/-- A loop of two iterations whose first iteration breaks. -/
theorem for_loop_two_break {σ : Type} {body : Nat → σ → Option (σ × Bool)} {i : Nat} {s s1 : σ}
    (h : body i s = some (s1, true)) : for_loop body 2 i s = some s1 := by
  simp only [for_loop, h]

/-- A loop of two iterations whose first iteration continues. -/
theorem for_loop_two_cont {σ : Type} {body : Nat → σ → Option (σ × Bool)} {i : Nat}
    {s s1 s2 : σ} {b : Bool} (h : body i s = some (s1, false))
    (h2 : body (i + 1) s1 = some (s2, b)) : for_loop body 2 i s = some s2 := by
  simp only [for_loop, h, h2]
  cases b <;> rfl

/-- When the checks of `lod_alloc_qos` pass (component found, QoS usable, no
penalty error, in-use array cleared, enough usable targets), its result is the
end of the function applied to the result of the draws. -/
theorem lod_alloc_qos_rounds {w : lod_backend} {s : lod_sys} {stripe : List (Option dt_object)}
    {ost_indices : List Nat} {flags comp_idx : Nat} {c : lod_layout_component} {per : Nat}
    {d e : Bool} {s2 : lod_sys} {sc : qos_scan_state} {osts : ost_pool}
    (h1 : s.lo.ldo_comp_entries[comp_idx]? = some c)
    (h2 : ¬ min_stripe_count c.llc_stripe_count flags < 1)
    (h3 : w.lqos_is_usable s.lod.lod_qos s.lod.lod_desc.ld_active_tgt_count = true)
    (hp : pool_osts s.lod (lod_comp_pool_ref s.lod c.llc_pool) = osts)
    (h4 : stripes_per_ost c osts.op_count = some per)
    (h5 : w.lqos_calc_penalties s.clock = (0, d, e))
    (h6 : lod_qos_ost_in_use_clear w (qos_penalised s d e) c.llc_stripe_count = (0, s2))
    (h7 : for_loop (lod_alloc_qos_scan_body w osts) osts.op_count 0
      { sys := s2, total_weight := 0, good_osts := 0 } = some sc)
    (h8 : ¬ sc.good_osts < min_stripe_count c.llc_stripe_count flags)
    (h9 : per ≠ 0)
    (h10 : ¬ c.llc_stripe_count / per > sc.good_osts) :
    lod_alloc_qos w s stripe ost_indices flags comp_idx =
      lod_alloc_qos_finish comp_idx c.llc_stripe_count
        (for_loop (lod_alloc_qos_round w osts comp_idx c.llc_stripe_count) c.llc_stripe_count 0
          (qos_start sc stripe ost_indices)) := by
  unfold qos_penalised at h6
  simp only [] at h6
  unfold lod_alloc_qos qos_start lod_alloc_qos_finish
  simp only [h1, h2, h3, hp, h4, h5, h6, h7, h8, h9, h10, if_false, ↓reduceIte, ne_eq,
    not_true_eq_false, Bool.true_eq_false]

/-- A cursor whose count has run out is reseeded at a random slot of the pool. -/
theorem lod_alloc_rr_reseed_draw (w : lod_backend) (s : lod_sys) (r : pool_ref)
    (stripe_count stripe_count_min n : Nat) (h : (pool_lqr s.lod r).lqr_start_count - 1 ≤ 0)
    (hn : (pool_osts s.lod r).op_count = n) (hpos : 0 < n) :
    ∃ k, k < n ∧ lod_alloc_rr_reseed w s r stripe_count stripe_count_min =
      some (rr_reseeded s r k) := by
  refine ⟨prandom_u32_max w s.clock (pool_osts s.lod r).op_count, ?_, ?_⟩
  · rw [hn]
    exact prandom_u32_max_lt w s.clock hpos
  · unfold lod_alloc_rr_reseed rr_reseeded
    simp only [h, ↓reduceIte]

/-- When the table is computed, the in-use array cleared and the cursor set,
the result of `lod_alloc_rr` is the end of the function applied to the result
of its passes. -/
theorem lod_alloc_rr_passes {w : lod_backend} {s : lod_sys} {stripe : List (Option dt_object)}
    {ost_indices : List Nat} {flags comp_idx : Nat} {c : lod_layout_component}
    {s1 s2 s3 : lod_sys} {r : pool_ref} {smin k : Nat}
    (h1 : s.lo.ldo_comp_entries[comp_idx]? = some c)
    (hr : lod_comp_pool_ref s.lod c.llc_pool = r)
    (hm : min_stripe_count c.llc_stripe_count flags = smin)
    (h2 : lod_qos_calc_rr w s r = some (0, s1))
    (h3 : lod_qos_ost_in_use_clear w s1 c.llc_stripe_count = (0, s2))
    (h4 : lod_alloc_rr_reseed w s2 r c.llc_stripe_count smin = some s3)
    (hk : (pool_lqr s3.lod r).lqr_start_idx = k) :
    lod_alloc_rr w s stripe ost_indices flags comp_idx =
      lod_alloc_rr_finish comp_idx
        (for_loop (lod_alloc_rr_pass w r comp_idx c.llc_stripe_count smin k) 3 0
          (rr_start s3 stripe ost_indices)) := by
  unfold lod_alloc_rr lod_alloc_rr_finish rr_start
  simp only [h1, hr, hm, h2, h3, h4, hk, ↓reduceIte, ne_eq, not_true_eq_false]

/-- At the default offset the result of the weighted policy is final unless it
is `-EAGAIN`. -/
theorem lod_qos_prep_create_alloc_qos {w : lod_backend} {s : lod_sys}
    {c : lod_layout_component} {stripe : List (Option dt_object)} {ost_indices : List Nat}
    {flag comp_idx : Nat} {s1 : lod_sys} {lag : lod_avoid_guide} {rc : Int} {a : alloc_state}
    (h1 : c.llc_ostlist.op_array = [])
    (h2 : c.llc_stripe_offset = LOV_OFFSET_DEFAULT)
    (h3 : lod_prepare_avoidance w s = (0, s1))
    (h4 : lod_collect_avoidance s1.lod s1.lo s1.lti.lti_avoid comp_idx = some lag)
    (h5 : lod_alloc_qos w { s1 with lti := { s1.lti with lti_avoid := lag } } stripe
      ost_indices flag comp_idx = some (rc, a))
    (h6 : rc ≠ -EAGAIN) :
    lod_qos_prep_create_alloc w s c stripe ost_indices flag comp_idx = some (rc, a) := by
  simp only [] at h5
  unfold lod_qos_prep_create_alloc
  simp only [h1, h2, h3, h4, h5, h6, ↓reduceIte, ne_eq, not_true_eq_false]

/-- At the default offset `-EAGAIN` from the weighted policy hands over to
`lod_alloc_rr`, with the state and the buffers the weighted policy left. -/
theorem lod_qos_prep_create_alloc_fallback {w : lod_backend} {s : lod_sys}
    {c : lod_layout_component} {stripe : List (Option dt_object)} {ost_indices : List Nat}
    {flag comp_idx : Nat} {s1 : lod_sys} {lag : lod_avoid_guide} {a : alloc_state}
    (h1 : c.llc_ostlist.op_array = [])
    (h2 : c.llc_stripe_offset = LOV_OFFSET_DEFAULT)
    (h3 : lod_prepare_avoidance w s = (0, s1))
    (h4 : lod_collect_avoidance s1.lod s1.lo s1.lti.lti_avoid comp_idx = some lag)
    (h5 : lod_alloc_qos w { s1 with lti := { s1.lti with lti_avoid := lag } } stripe
      ost_indices flag comp_idx = some (-EAGAIN, a)) :
    lod_qos_prep_create_alloc w s c stripe ost_indices flag comp_idx =
      lod_alloc_rr w a.sys a.stripe a.ost_indices flag comp_idx := by
  simp only [] at h5
  unfold lod_qos_prep_create_alloc
  simp only [h1, h2, h3, h4, h5, ↓reduceIte, ne_eq, not_true_eq_false]

/-- A component without objects whose allocation does not fail gets the
stripes, the target indices and the stripe count stored. -/
theorem lod_qos_prep_create_stored {w : lod_backend} {s : lod_sys} {comp_idx : Nat}
    {c comp2 : lod_layout_component} {s1 : lod_sys} {n : Nat} {rc : Int} {a : alloc_state}
    (h1 : s.lo.ldo_comp_entries[comp_idx]? = some c)
    (h2 : c.llc_flags &&& LCME_FL_EXTENSION = 0)
    (h3 : c.llc_pattern &&& LOV_PATTERN_F_RELEASED = 0)
    (h4 : lov_pattern c.llc_pattern ≠ LOV_PATTERN_MDT)
    (h5 : c.llc_stripe = none)
    (h6 : c.llc_stripe_count ≠ 0)
    (h7 : lod_qos_statfs_update w s = some s1)
    (h8 : lod_get_stripe_count w s1.lod s1.lo c.llc_stripe_count
      (decide (c.llc_pattern &&& LOV_PATTERN_OVERSTRIPING ≠ 0)) = n)
    (h9 : n ≠ 0)
    (h10 : ∀ k, w.alloc_fails k = false)
    (h11 : lod_qos_prep_create_alloc w
      (s1.set_comp comp_idx { c with llc_stripe_count := n }).tick.tick
      { c with llc_stripe_count := n } (List.replicate n none) (List.replicate n 0)
      LOV_USES_ASSIGNED_STRIPE comp_idx = some (rc, a))
    (h12 : a.sys.lo.ldo_comp_entries[comp_idx]? = some comp2)
    (h13 : ¬ rc < 0) :
    lod_qos_prep_create w s comp_idx =
      some (rc, a.sys.set_comp comp_idx
        { comp2 with llc_stripe := some a.stripe,
                     llc_ost_indices := some a.ost_indices,
                     llc_stripes_allocated := n }) := by
  subst h8
  simp only [h5, ne_eq] at h11 h9
  unfold lod_qos_prep_create
  simp only [h1, h2, h3, h4, h5, h6, h7, h9, h10, h11, h12, h13, ↓reduceIte, ne_eq,
    not_true_eq_false, Bool.false_eq_true]

/-- What `s5_good` checks. -/
theorem s5_good_spec {r : Option (Int × lod_sys)} (h : s5_good r = true) :
    ∃ s1 c, r = some (0, s1) ∧ s1.lo.ldo_comp_entries[1]? = some c ∧ c.llc_stripe_count = 2 ∧
      (c.llc_ost_indices = some [1, 3] ∨ c.llc_ost_indices = some [3, 1]) := by
  unfold s5_good at h
  split at h
  · cases h
  · rename_i rc s1
    simp only [Bool.and_eq_true, decide_eq_true_eq] at h
    obtain ⟨hrc, h⟩ := h
    subst hrc
    split at h
    · cases h
    · rename_i c hc
      simp only [Bool.and_eq_true, decide_eq_true_eq, Bool.or_eq_true] at h
      exact ⟨s1, c, rfl, hc, h.1, h.2⟩

/-- A result that is present is its own default-projected value. -/
theorem option_eq_some_getD {α : Type} {o : Option α} (d : α) (h : o.isSome = true) :
    o = some (o.getD d) := by
  cases o with
  | none => cases h
  | some x => rfl

/-- A present pair with a known first component. -/
theorem option_pair_eq {α β : Type} {o : Option (α × β)} (d : α × β) (v : α)
    (h1 : o.isSome = true) (h2 : (o.getD d).1 = v) : o = some (v, (o.getD d).2) := by
  cases o with
  | none => cases h1
  | some x =>
    obtain ⟨a, b⟩ := x
    simp only [Option.getD_some] at h2
    subst h2
    rfl

theorem s5_tape_statfs_update (p : Nat → Nat) (s : lod_sys) :
    lod_qos_statfs_update (s5_backend p) s = lod_qos_statfs_update (healthy_backend true) s := rfl

theorem s5_tape_stripe_count (p : Nat → Nat) (d : lod_device) (lo : lod_object) (n : Nat)
    (b : Bool) :
    lod_get_stripe_count (s5_backend p) d lo n b =
      lod_get_stripe_count (healthy_backend true) d lo n b := rfl

theorem s5_tape_prepare (p : Nat → Nat) (s : lod_sys) :
    lod_prepare_avoidance (s5_backend p) s = lod_prepare_avoidance (healthy_backend true) s := rfl

theorem s5_tape_clear (p : Nat → Nat) (s : lod_sys) (n : Nat) :
    lod_qos_ost_in_use_clear (s5_backend p) s n =
      lod_qos_ost_in_use_clear (healthy_backend true) s n := rfl

theorem s5_tape_scan (p : Nat → Nat) (osts : ost_pool) :
    lod_alloc_qos_scan_body (s5_backend p) osts =
      lod_alloc_qos_scan_body (healthy_backend true) osts := rfl

theorem s5_tape_round (p : Nat → Nat) (osts : ost_pool) (c r : Nat) (st : qos_pick_state) :
    lod_alloc_qos_round_with (s5_backend p) osts c r st =
      lod_alloc_qos_round_with (healthy_backend true) osts c r st := rfl

theorem s5_tape_calc_rr (p : Nat → Nat) (s : lod_sys) (r : pool_ref) :
    lod_qos_calc_rr (s5_backend p) s r = lod_qos_calc_rr (healthy_backend true) s r := rfl

theorem s5_tape_pass (p : Nat → Nat) (r : pool_ref) (a b c d : Nat) :
    lod_alloc_rr_pass (s5_backend p) r a b c d =
      lod_alloc_rr_pass (healthy_backend true) r a b c d := rfl

theorem s5_e_round1 (flr : Bool) (r : Nat) (h : r < 20) :
    lod_alloc_qos_round_with (healthy_backend true) s5_pool 1 r (s5_st0 flr) =
      some (s5_round (if r ≤ 5 then 0 else if r ≤ 10 then 6 else 11) (s5_st0 flr),
        decide (10 < r)) := by
  interval_cases r <;> cases flr <;> rfl

theorem s5_e_idx0 (flr : Bool) : (s5_st0 flr).a.stripe_idx < 2 := by cases flr <;> decide

theorem s5_e_total0 (flr : Bool) : (s5_st0 flr).total_weight = 20 := by cases flr <;> decide

theorem s5_e_idxA (flr : Bool) : (s5_round 0 (s5_st0 flr)).a.stripe_idx < 2 := by
  cases flr <;> decide

theorem s5_e_idxB (flr : Bool) : (s5_round 6 (s5_st0 flr)).a.stripe_idx < 2 := by
  cases flr <;> decide

theorem s5_e_totalA (flr : Bool) : (s5_round 0 (s5_st0 flr)).total_weight = 15 := by
  cases flr <;> decide

theorem s5_e_totalB (flr : Bool) : (s5_round 6 (s5_st0 flr)).total_weight = 15 := by
  cases flr <;> decide

theorem s5_e_round2A (flr : Bool) (r : Nat) (h : r < 15) :
    lod_alloc_qos_round_with (healthy_backend true) s5_pool 1 r (s5_round 0 (s5_st0 flr)) =
      some (s5_round (if r ≤ 5 then 0 else 6) (s5_round 0 (s5_st0 flr)), decide (5 < r)) := by
  interval_cases r <;> cases flr <;> rfl

theorem s5_e_round2B (flr : Bool) (r : Nat) (h : r < 15) :
    lod_alloc_qos_round_with (healthy_backend true) s5_pool 1 r (s5_round 6 (s5_st0 flr)) =
      some (s5_round (if r ≤ 5 then 0 else 6) (s5_round 6 (s5_st0 flr)), decide (5 < r)) := by
  interval_cases r <;> cases flr <;> rfl

theorem s5_qos_rounds (p : Nat → Nat) (flr : Bool) :
    ∃ st, (s5_full flr st ∨ s5_short flr st) ∧
      for_loop (lod_alloc_qos_round (s5_backend p) s5_pool 1 2) 2 0 (s5_st0 flr) = some st := by
  obtain ⟨r1, hb1, h1⟩ := lod_alloc_qos_round_draw (s5_backend p) s5_pool 1 2 0 (s5_st0 flr) 20
    (s5_e_idx0 flr) (s5_e_total0 flr) (by decide)
  have h1a := h1.trans ((s5_tape_round p _ _ _ _).trans (s5_e_round1 flr r1 hb1))
  clear h1
  by_cases hC : 10 < r1
  · rw [decide_eq_true hC, if_neg (by omega), if_neg (by omega)] at h1a
    exact ⟨_, Or.inr (Or.inr (Or.inr rfl)), for_loop_two_break h1a⟩
  · rw [decide_eq_false hC] at h1a
    by_cases hA : r1 ≤ 5
    · rw [if_pos hA] at h1a
      obtain ⟨r2, hb2, h2⟩ := lod_alloc_qos_round_draw (s5_backend p) s5_pool 1 2 (0 + 1)
        (s5_round 0 (s5_st0 flr)) 15 (s5_e_idxA flr) (s5_e_totalA flr) (by decide)
      have h2a := h2.trans ((s5_tape_round p _ _ _ _).trans (s5_e_round2A flr r2 hb2))
      clear h2
      by_cases h5 : r2 ≤ 5
      · rw [if_pos h5] at h2a
        exact ⟨_, Or.inl (Or.inl rfl), for_loop_two_cont h1a h2a⟩
      · rw [if_neg h5] at h2a
        exact ⟨_, Or.inr (Or.inl rfl), for_loop_two_cont h1a h2a⟩
    · rw [if_neg hA, if_pos (by omega)] at h1a
      obtain ⟨r2, hb2, h2⟩ := lod_alloc_qos_round_draw (s5_backend p) s5_pool 1 2 (0 + 1)
        (s5_round 6 (s5_st0 flr)) 15 (s5_e_idxB flr) (s5_e_totalB flr) (by decide)
      have h2a := h2.trans ((s5_tape_round p _ _ _ _).trans (s5_e_round2B flr r2 hb2))
      clear h2
      by_cases h5 : r2 ≤ 5
      · rw [if_pos h5] at h2a
        exact ⟨_, Or.inl (Or.inr rfl), for_loop_two_cont h1a h2a⟩
      · rw [if_neg h5] at h2a
        exact ⟨_, Or.inr (Or.inr (Or.inl rfl)), for_loop_two_cont h1a h2a⟩

theorem s5_e_comp_in (flr : Bool) : (s5_in flr).lo.ldo_comp_entries[1]? = some s5_comp1a := by
  cases flr <;> rfl

theorem s5_e_pool (flr : Bool) :
    pool_osts (s5_in flr).lod (lod_comp_pool_ref (s5_in flr).lod s5_comp1a.llc_pool) = s5_pool := by
  cases flr <;> rfl

theorem s5_e_clear (flr : Bool) :
    lod_qos_ost_in_use_clear (healthy_backend true) (qos_penalised (s5_in flr) false false)
      s5_comp1a.llc_stripe_count = (0, s5_q2 flr) := by
  cases flr <;> rfl

theorem s5_e_scan (flr : Bool) :
    for_loop (lod_alloc_qos_scan_body (healthy_backend true) s5_pool) s5_pool.op_count 0
      { sys := s5_q2 flr, total_weight := 0, good_osts := 0 } = some (s5_sc flr) := by
  cases flr <;> rfl

theorem s5_e_good_osts (flr : Bool) : (s5_sc flr).good_osts = 4 := by cases flr <;> decide

theorem s5_qos (p : Nat → Nat) (flr : Bool) :
    ∃ st, (s5_full flr st ∨ s5_short flr st) ∧
      lod_alloc_qos (s5_backend p) (s5_in flr) [none, none] [0, 0] LOV_USES_ASSIGNED_STRIPE 1 =
        lod_alloc_qos_finish 1 2 (some st) := by
  obtain ⟨st, hst, hrd⟩ := s5_qos_rounds p flr
  refine ⟨st, hst, ?_⟩
  have h7 : for_loop (lod_alloc_qos_scan_body (s5_backend p) s5_pool) s5_pool.op_count 0
      { sys := s5_q2 flr, total_weight := 0, good_osts := 0 } = some (s5_sc flr) := by
    rw [s5_tape_scan]
    exact s5_e_scan flr
  have R := @lod_alloc_qos_rounds (s5_backend p) (s5_in flr) [none, none] [0, 0]
    LOV_USES_ASSIGNED_STRIPE 1 s5_comp1a 1 false false (s5_q2 flr) (s5_sc flr) s5_pool
    (s5_e_comp_in flr) (by decide) rfl (s5_e_pool flr) rfl rfl
    ((s5_tape_clear p _ _).trans (s5_e_clear flr)) h7
    (by rw [s5_e_good_osts]; decide) (by decide) (by rw [s5_e_good_osts]; decide)
  have R2 : lod_alloc_qos (s5_backend p) (s5_in flr) [none, none] [0, 0]
      LOV_USES_ASSIGNED_STRIPE 1 =
        lod_alloc_qos_finish 1 2
          (for_loop (lod_alloc_qos_round (s5_backend p) s5_pool 1 2) 2 0 (s5_st0 flr)) := R
  rw [R2, hrd]

theorem s5_e_finish_full (flr : Bool) (st : qos_pick_state) (h : s5_full flr st) :
    lod_alloc_qos_finish 1 2 (some st) = some (0, s5_qos_a st) := by
  refine option_pair_eq (0, st.a) 0 ?_ ?_
  · rcases h with h | h <;> rw [h] <;> cases flr <;> decide
  · rcases h with h | h <;> rw [h] <;> cases flr <;> decide

theorem s5_e_finish_short (flr : Bool) (st : qos_pick_state) (h : s5_short flr st) :
    lod_alloc_qos_finish 1 2 (some st) = some (-EAGAIN, s5_qos_a st) := by
  refine option_pair_eq (0, st.a) (-EAGAIN) ?_ ?_
  · rcases h with h | h | h <;> rw [h] <;> cases flr <;> decide
  · rcases h with h | h | h <;> rw [h] <;> cases flr <;> decide

theorem s5_e_rr_comp (flr : Bool) (st : qos_pick_state) (h : s5_short flr st) :
    (s5_qos_a st).sys.lo.ldo_comp_entries[1]? = some s5_comp1a := by
  rcases h with h | h | h <;> rw [h] <;> cases flr <;> decide

theorem s5_e_rr_calc (flr : Bool) (st : qos_pick_state) (h : s5_short flr st) :
    lod_qos_calc_rr (healthy_backend true) (s5_qos_a st).sys pool_ref.dev =
      some (0, s5_rr1 (s5_qos_a st)) := by
  refine option_pair_eq (0, (s5_qos_a st).sys) 0 ?_ ?_
  · rcases h with h | h | h <;> rw [h] <;> cases flr <;> decide
  · rcases h with h | h | h <;> rw [h] <;> cases flr <;> decide

theorem s5_e_rr_clear (flr : Bool) (st : qos_pick_state) (h : s5_short flr st) :
    lod_qos_ost_in_use_clear (healthy_backend true) (s5_rr1 (s5_qos_a st))
      s5_comp1a.llc_stripe_count = (0, s5_rr2 (s5_qos_a st)) := by
  have h1 : (lod_qos_ost_in_use_clear (healthy_backend true) (s5_rr1 (s5_qos_a st)) 2).1 = 0 := by
    rcases h with h | h | h <;> rw [h] <;> cases flr <;> decide
  exact Prod.ext h1 rfl

theorem s5_e_rr_count (flr : Bool) (st : qos_pick_state) (h : s5_short flr st) :
    (pool_lqr (s5_rr2 (s5_qos_a st)).lod pool_ref.dev).lqr_start_count - 1 ≤ 0 := by
  rcases h with h | h | h <;> rw [h] <;> cases flr <;> decide

theorem s5_e_rr_osts (flr : Bool) (st : qos_pick_state) (h : s5_short flr st) :
    (pool_osts (s5_rr2 (s5_qos_a st)).lod pool_ref.dev).op_count = 4 := by
  rcases h with h | h | h <;> rw [h] <;> cases flr <;> decide

theorem s5_e_rr_passes (flr : Bool) (st : qos_pick_state) (h : s5_short flr st) (k : Nat)
    (hk : k < 4) :
    for_loop (lod_alloc_rr_pass (healthy_backend true) pool_ref.dev 1 2 2 k) 3 0
      (rr_start (rr_reseeded (s5_rr2 (s5_qos_a st)) pool_ref.dev k) (s5_qos_a st).stripe
        (s5_qos_a st).ost_indices) = some (s5_rr_st (s5_qos_a st) k) := by
  refine option_eq_some_getD _ ?_
  interval_cases k <;> rcases h with h | h | h <;> rw [h] <;> cases flr <;> decide

theorem s5_e_rr_finish (flr : Bool) (st : qos_pick_state) (h : s5_short flr st) (k : Nat)
    (hk : k < 4) :
    lod_alloc_rr_finish 1 (some (s5_rr_st (s5_qos_a st) k)) =
      some (0, s5_rr_a (s5_qos_a st) k) := by
  refine option_pair_eq (0, s5_qos_a st) 0 ?_ ?_
  · interval_cases k <;> rcases h with h | h | h <;> rw [h] <;> cases flr <;> decide
  · interval_cases k <;> rcases h with h | h | h <;> rw [h] <;> cases flr <;> decide

theorem s5_rr (p : Nat → Nat) (flr : Bool) (st : qos_pick_state) (h : s5_short flr st) :
    ∃ k, k < 4 ∧
      lod_alloc_rr (s5_backend p) (s5_qos_a st).sys (s5_qos_a st).stripe
        (s5_qos_a st).ost_indices LOV_USES_ASSIGNED_STRIPE 1 =
          some (0, s5_rr_a (s5_qos_a st) k) := by
  obtain ⟨k, hk, h4⟩ := lod_alloc_rr_reseed_draw (s5_backend p) (s5_rr2 (s5_qos_a st))
    pool_ref.dev s5_comp1a.llc_stripe_count 2 4 (s5_e_rr_count flr st h) (s5_e_rr_osts flr st h)
    (by decide)
  refine ⟨k, hk, ?_⟩
  have R := @lod_alloc_rr_passes (s5_backend p) (s5_qos_a st).sys (s5_qos_a st).stripe
    (s5_qos_a st).ost_indices LOV_USES_ASSIGNED_STRIPE 1 s5_comp1a (s5_rr1 (s5_qos_a st))
    (s5_rr2 (s5_qos_a st)) (rr_reseeded (s5_rr2 (s5_qos_a st)) pool_ref.dev k) pool_ref.dev 2 k
    (s5_e_rr_comp flr st h) rfl (by decide)
    ((s5_tape_calc_rr p _ _).trans (s5_e_rr_calc flr st h))
    ((s5_tape_clear p _ _).trans (s5_e_rr_clear flr st h)) h4 rfl
  have R2 : lod_alloc_rr (s5_backend p) (s5_qos_a st).sys (s5_qos_a st).stripe
      (s5_qos_a st).ost_indices LOV_USES_ASSIGNED_STRIPE 1 =
        lod_alloc_rr_finish 1
          (for_loop (lod_alloc_rr_pass (s5_backend p) pool_ref.dev 1 2 2 k) 3 0
            (rr_start (rr_reseeded (s5_rr2 (s5_qos_a st)) pool_ref.dev k) (s5_qos_a st).stripe
              (s5_qos_a st).ost_indices)) := R
  rw [R2, s5_tape_pass, s5_e_rr_passes flr st h k hk, s5_e_rr_finish flr st h k hk]

theorem s5_e_prepare (flr : Bool) :
    lod_prepare_avoidance (healthy_backend true) (s5_x3 flr) = (0, s5_x4 flr) := by
  have h1 : (lod_prepare_avoidance (healthy_backend true) (s5_x3 flr)).1 = 0 := by
    cases flr <;> decide
  exact Prod.ext h1 rfl

theorem s5_e_collect (flr : Bool) :
    lod_collect_avoidance (s5_x4 flr).lod (s5_x4 flr).lo (s5_x4 flr).lti.lti_avoid 1 =
      some (s5_lag flr) := by
  refine option_eq_some_getD _ ?_
  cases flr <;> decide

theorem s5_alloc (p : Nat → Nat) (flr : Bool) :
    ∃ a, s5_outcome flr a ∧
      lod_qos_prep_create_alloc (s5_backend p) (s5_x3 flr) s5_comp1a [none, none] [0, 0]
        LOV_USES_ASSIGNED_STRIPE 1 = some (0, a) := by
  obtain ⟨st, hst, hq⟩ := s5_qos p flr
  have h3 : lod_prepare_avoidance (s5_backend p) (s5_x3 flr) = (0, s5_x4 flr) :=
    (s5_tape_prepare p _).trans (s5_e_prepare flr)
  rcases hst with hf | hs
  · refine ⟨s5_qos_a st, Or.inl ⟨st, hf, rfl⟩, ?_⟩
    exact lod_qos_prep_create_alloc_qos rfl rfl h3 (s5_e_collect flr)
      (hq.trans (s5_e_finish_full flr st hf)) (by decide)
  · obtain ⟨k, hk, hr⟩ := s5_rr p flr st hs
    refine ⟨s5_rr_a (s5_qos_a st) k, Or.inr ⟨st, k, hs, hk, rfl⟩, ?_⟩
    exact (lod_qos_prep_create_alloc_fallback rfl rfl h3 (s5_e_collect flr)
      (hq.trans (s5_e_finish_short flr st hs))).trans hr

theorem s5_e_outcome_comp (flr : Bool) (a : alloc_state) (h : s5_outcome flr a) :
    (a.sys.lo.ldo_comp_entries[1]?).isSome = true := by
  rcases h with ⟨st, hst, ha⟩ | ⟨st, k, hst, hk, ha⟩
  · rw [ha]
    rcases hst with h | h <;> rw [h] <;> cases flr <;> decide
  · rw [ha]
    interval_cases k <;> rcases hst with h | h | h <;> rw [h] <;> cases flr <;> decide

theorem s5_e_outcome_good (flr : Bool) (a : alloc_state) (h : s5_outcome flr a) :
    s5_good (some (0, s5_stored a)) = true := by
  rcases h with ⟨st, hst, ha⟩ | ⟨st, k, hst, hk, ha⟩
  · rw [ha]
    rcases hst with h | h <;> rw [h] <;> cases flr <;> decide
  · rw [ha]
    interval_cases k <;> rcases hst with h | h | h <;> rw [h] <;> cases flr <;> decide

theorem s5_e_comp0 (flr : Bool) : (s5_mirror_sys flr).lo.ldo_comp_entries[1]? = some s5_comp1 := by
  cases flr <;> rfl

theorem s5_e_statfs (flr : Bool) :
    lod_qos_statfs_update (healthy_backend true) (s5_mirror_sys flr) = some (s5_x1 flr) := by
  refine option_eq_some_getD _ ?_
  cases flr <;> decide

theorem s5_e_stripe_count (flr : Bool) :
    lod_get_stripe_count (healthy_backend true) (s5_x1 flr).lod (s5_x1 flr).lo
      s5_comp1.llc_stripe_count (decide (s5_comp1.llc_pattern &&& LOV_PATTERN_OVERSTRIPING ≠ 0))
      = 2 := by
  cases flr <;> decide

theorem s5_prep_create (p : Nat → Nat) (flr : Bool) :
    ∃ a, s5_outcome flr a ∧
      lod_qos_prep_create (s5_backend p) (s5_mirror_sys flr) 1 = some (0, s5_stored a) := by
  obtain ⟨a, ha, hal⟩ := s5_alloc p flr
  refine ⟨a, ha, ?_⟩
  exact lod_qos_prep_create_stored (s5_e_comp0 flr) (by decide) (by decide) (by decide) rfl
    (by decide) ((s5_tape_statfs_update p _).trans (s5_e_statfs flr))
    ((s5_tape_stripe_count p _ _ _ _).trans (s5_e_stripe_count flr)) (by decide)
    (fun _ => rfl) hal (option_eq_some_getD s5_comp1a (s5_e_outcome_comp flr a ha)) (by decide)

/-- C6: in scenario S5 (4 healthy targets 0..3 on two servers, two mirrors
covering the same extent, the component of the first mirror bound to the
targets 0 and 2, QoS usable), `lod_qos_prep_create` on the component of the
second mirror with 2 stripes at the default offset succeeds for every tape of
random words, for a plain object and for a read-only FLR file, and the two
stripes are on the targets 1 and 3, in either order. -/
theorem C6_mirror_avoidance_every_draw (p : Nat → Nat) (flr : Bool) :
    ∃ s1 c, lod_qos_prep_create (s5_backend p) (s5_mirror_sys flr) 1 = some (0, s1) ∧
      s1.lo.ldo_comp_entries[1]? = some c ∧ c.llc_stripe_count = 2 ∧
      (c.llc_ost_indices = some [1, 3] ∨ c.llc_ost_indices = some [3, 1]) := by
  obtain ⟨a, ha, hr⟩ := s5_prep_create p flr
  obtain ⟨s1, c, h1, h2, h3, h4⟩ := s5_good_spec (s5_e_outcome_good flr a ha)
  refine ⟨s1, c, hr.trans h1, h2, h3, h4⟩

/-- C21: for every device, guide and target index whose server pointer is
valid, with the avoid-array and the avoid-bitmap allocated and the array count
within the array, `lod_should_avoid_ost` returns true if the index is not in
the live bitmap; otherwise false if `lag_ost_avail` is 0; otherwise true exactly
when the id of the server of the target is among the first `lag_oaa_count`
entries of the avoid-array and the index is in the avoid-bitmap. -/
theorem C21_should_avoid_ost_cases (d : lod_device) (lag : lod_avoid_guide) (index : Nat)
    (lsq : lu_svr_qos) (arr : List Nat) (bm : cfs_bitmap)
    (hsvr : d.lod_qos.lq_svr_list[(OST_TGT d index).ltq_svr]? = some lsq)
    (harr : lag.lag_oss_avoid_array = some arr) (hcnt : lag.lag_oaa_count ≤ arr.length)
    (hbm : lag.lag_ost_avoid_bitmap = some bm) :
    lod_should_avoid_ost d lag index =
      some (should_avoid_spec (cfs_bitmap_check d.lod_ost_bitmap index) lag.lag_ost_avail
        (decide (lsq.lsq_id ∈ arr.take lag.lag_oaa_count)) (cfs_bitmap_check bm index)) := by
  unfold lod_should_avoid_ost should_avoid_spec
  simp only [hsvr, harr, hbm]
  cases hlive : cfs_bitmap_check d.lod_ost_bitmap index
  · simp
  · by_cases hav : lag.lag_ost_avail = 0
    · simp [hav]
    · by_cases hz : lag.lag_oaa_count = 0
      · simp [hav, hz]
      · by_cases hin : lsq.lsq_id ∈ arr.take lag.lag_oaa_count
        · have hs : array_scan arr lag.lag_oaa_count lsq.lsq_id = some true := by
            unfold array_scan
            rw [if_pos (by simpa using hin)]
          simp [hav, hz, hs, hin]
        · simp [hav, hz, array_scan_of_not_mem hin hcnt, hin]

theorem C21_should_avoid_ost_cases_witness :
    s5_device.lod_qos.lq_svr_list[(OST_TGT s5_device 0).ltq_svr]? = some ⟨10, 2⟩ ∧
      c21_lag.lag_oaa_count ≤ [10, 0, 0, 0].length ∧
      lod_should_avoid_ost s5_device c21_lag 0 = some true ∧
      lod_should_avoid_ost s5_device c21_lag 1 = some false ∧
      lod_should_avoid_ost s5_device c21_lag 7 = some true :=
  ⟨rfl, by decide,
    C21_should_avoid_ost_cases s5_device c21_lag 0 ⟨10, 2⟩ [10, 0, 0, 0]
      { size := 4, data := fun i => decide (i = 0) } rfl rfl (by decide) rfl,
    by decide, by decide⟩

theorem lod_get_stripe_count_eq (w : lod_backend) (lod : lod_device) (lo : lod_object)
    (requested : Nat) (overstriping : Bool) :
    lod_get_stripe_count w lod lo requested overstriping =
      (let c0 := if requested = 0 then lod.lod_desc.ld_default_stripe_count % 2 ^ 16
                 else requested
       let c1 := if c0 = 0 then 1 else c0
       let c2 := if c1 > lod.lod_desc.ld_active_tgt_count ∧ overstriping = false
                 then lod.lod_desc.ld_active_tgt_count % 2 ^ 16 else c1
       let m := w.lov_mds_md_max_stripe_count (lod_stripe_easize w lod lo)
       if c2 < m then c2 else m) := rfl

/-- C22 (counterexample): the device default is read into the 16-bit count, so
a default of 65536 on a device with 4 active targets, with no count requested
and no overstriping, gives 1 stripe, where `min(c, max_fit)` of the claim is
4. -/
theorem C22_counterexample :
    lod_get_stripe_count (healthy_backend true) c22_device c22_object 0 false = 1 ∧
      stripe_count_spec (healthy_backend true) c22_device c22_object 0
        c22_device.lod_desc.ld_default_stripe_count false = 4 := by
  decide

/-- C22 (amended): for every device and object and every requested count that
fits in 16 bits, `lod_get_stripe_count` returns `min(c, max_fit)` where `c` is
the requested count if non-zero, else the low 16 bits of the device default if
non-zero, else 1, then clamped to the active target count unless overstriping,
and `max_fit` is the number of stripes that fit in the EA space left; for every
requested count the result never exceeds the active target count without
overstriping, and never exceeds a non-zero requested count. -/
theorem C22_stripe_count_value (w : lod_backend) (lod : lod_device) (lo : lod_object)
    (requested : Nat) (overstriping : Bool) :
    (requested < 2 ^ 16 →
      lod_get_stripe_count w lod lo requested overstriping =
        stripe_count_spec w lod lo requested (lod.lod_desc.ld_default_stripe_count % 2 ^ 16)
          overstriping) ∧
    (overstriping = false →
      lod_get_stripe_count w lod lo requested overstriping ≤ lod.lod_desc.ld_active_tgt_count) ∧
    (requested ≠ 0 → lod_get_stripe_count w lod lo requested overstriping ≤ requested) := by
  rw [lod_get_stripe_count_eq]
  unfold stripe_count_spec stripe_count_wanted
  have hd : lod.lod_desc.ld_default_stripe_count % 2 ^ 16 < 2 ^ 16 := Nat.mod_lt _ (by decide)
  generalize w.lov_mds_md_max_stripe_count (lod_stripe_easize w lod lo) = m
  generalize lod.lod_desc.ld_default_stripe_count % 2 ^ 16 = dflt at hd
  generalize lod.lod_desc.ld_active_tgt_count = act
  have hmod : act % 2 ^ 16 ≤ act := Nat.mod_le _ _
  have hmod2 : act < 2 ^ 16 → act % 2 ^ 16 = act := fun h => Nat.mod_eq_of_lt h
  refine ⟨fun hreq => ?_, fun hov => ?_, fun hne => ?_⟩
  · cases overstriping <;>
      simp only [and_true, and_false, if_false, if_true, Bool.false_eq_true, ne_eq, ite_not,
        min_def] <;>
      split_ifs <;> first | omega | (exfalso; tauto)
  · subst hov
    simp only [and_true]
    split_ifs <;> omega
  · simp only [if_neg hne]
    split_ifs <;> omega

theorem C22_stripe_count_value_witness :
    (3 : Nat) < 2 ^ 16 ∧ (3 : Nat) ≠ 0 ∧
      lod_get_stripe_count (healthy_backend true) c22_device c22_object 3 false = 3 ∧
      lod_get_stripe_count (healthy_backend true) c22_device c22_object 3 false ≤ 4 ∧
      lod_get_stripe_count (healthy_backend true) c22_device c22_object 3 false ≤ 3 :=
  ⟨by decide, by decide,
    (C22_stripe_count_value (healthy_backend true) c22_device c22_object 3 false).1 (by decide),
    (C22_stripe_count_value (healthy_backend true) c22_device c22_object 3 false).2.1 rfl,
    (C22_stripe_count_value (healthy_backend true) c22_device c22_object 3 false).2.2 (by decide)⟩

theorem designated_size_gt {t : List (Nat × Nat)} {e : Nat × Nat} (h : e ∈ t) :
    e.1 < designated_size t := by
  unfold designated_size
  induction t with
  | nil => cases h
  | cons a t ih =>
    simp only [List.map_cons, List.foldr_cons]
    rcases List.mem_cons.mp h with rfl | h
    · omega
    · have := ih h
      omega

theorem designated_get_of_mem {t : List (Nat × Nat)} (hn : (t.map Prod.fst).Nodup)
    {e : Nat × Nat} (h : e ∈ t) : designated_get t e.1 = e.2 := by
  unfold designated_get
  cases hf : t.reverse.find? (fun x => x.1 == e.1) with
  | none =>
    have := List.find?_eq_none.mp hf e (List.mem_reverse.mpr h)
    simp at this
  | some x =>
    have hx : x ∈ t := List.mem_reverse.mp (List.mem_of_find?_eq_some hf)
    have hk : x.1 = e.1 := by simpa using List.find?_some hf
    have : x = e := by
      have hinj := List.inj_on_of_nodup_map hn hx h hk
      exact hinj
    rw [this]

theorem lustre_errno_ntoh_mapping_swap (v : errno_values) :
    lustre_errno_ntoh_mapping v = (lustre_errno_hton_mapping v).map Prod.swap := by
  unfold lustre_errno_ntoh_mapping lustre_errno_hton_mapping
  rw [List.map_append, List.map_map, List.map_map]
  have h1 : lustre_errno_ntoh_syms = lustre_errno_hton_syms := by decide
  have h2 : lustre_errno_ntoh_eldlm = lustre_errno_hton_eldlm := by decide
  rw [h1, h2]
  rfl

theorem designated_lookup {t : List (Nat × Nat)} (hn : (t.map Prod.fst).Nodup)
    {e : Nat × Nat} (h : e ∈ t) (h1 : e.1 ≠ 0) (h2 : e.2 ≠ 0) (dflt : Nat) :
    (if e.1 = 0 then 0
     else if e.1 < designated_size t then
       (if designated_get t e.1 = 0 then dflt else designated_get t e.1)
     else dflt) = e.2 := by
  rw [if_neg h1, if_pos (designated_size_gt h), designated_get_of_mem hn h, if_neg h2]

/-- C26: whatever numbers the headers give to the errnos, as long as no two
designators of either table coincide and no designator or value is 0: for every
host errno `h` with an entry in `lustre_errno_hton_mapping`,
`lustre_errno_ntoh(lustre_errno_hton(h)) = h`; for every network errno `n` with
an entry in `lustre_errno_ntoh_mapping`,
`lustre_errno_hton(lustre_errno_ntoh(n)) = n`; and both functions map 0 to
0. -/
theorem C26_errno_tables_one_to_one (v : errno_values)
    (hh : ((lustre_errno_hton_mapping v).map Prod.fst).Nodup)
    (hn : ((lustre_errno_ntoh_mapping v).map Prod.fst).Nodup)
    (hz : ∀ e ∈ lustre_errno_hton_mapping v, e.1 ≠ 0 ∧ e.2 ≠ 0) :
    (∀ h ∈ (lustre_errno_hton_mapping v).map Prod.fst,
      lustre_errno_ntoh v (lustre_errno_hton v h) = h) ∧
    (∀ n ∈ (lustre_errno_ntoh_mapping v).map Prod.fst,
      lustre_errno_hton v (lustre_errno_ntoh v n) = n) ∧
    lustre_errno_hton v 0 = 0 ∧ lustre_errno_ntoh v 0 = 0 := by
  have hsw := lustre_errno_ntoh_mapping_swap v
  have hton_of : ∀ e ∈ lustre_errno_hton_mapping v, lustre_errno_hton v e.1 = e.2 := by
    intro e he
    exact designated_lookup hh he (hz e he).1 (hz e he).2 _
  have ntoh_of : ∀ e ∈ lustre_errno_hton_mapping v, lustre_errno_ntoh v e.2 = e.1 := by
    intro e he
    have hm : e.swap ∈ lustre_errno_ntoh_mapping v := by
      rw [hsw]
      exact List.mem_map_of_mem _ he
    exact designated_lookup hn hm (hz e he).2 (hz e he).1 _
  refine ⟨?_, ?_, rfl, rfl⟩
  · intro h hm
    obtain ⟨e, he, rfl⟩ := List.mem_map.mp hm
    rw [hton_of e he, ntoh_of e he]
  · intro n hm
    rw [hsw, List.map_map] at hm
    obtain ⟨e, he, rfl⟩ := List.mem_map.mp hm
    show lustre_errno_hton v (lustre_errno_ntoh v e.2) = e.2
    rw [ntoh_of e he, hton_of e he]

theorem C26_errno_tables_one_to_one_witness :
    (∀ h ∈ (lustre_errno_hton_mapping linux_errno_values).map Prod.fst,
      lustre_errno_ntoh linux_errno_values (lustre_errno_hton linux_errno_values h) = h) ∧
    (∀ n ∈ (lustre_errno_ntoh_mapping linux_errno_values).map Prod.fst,
      lustre_errno_hton linux_errno_values (lustre_errno_ntoh linux_errno_values n) = n) ∧
    lustre_errno_hton linux_errno_values 0 = 0 ∧ lustre_errno_ntoh linux_errno_values 0 = 0 :=
  C26_errno_tables_one_to_one linux_errno_values (by decide!) (by decide!) (by decide!)

/-- C27 (counterexample): with 8 targets in the pool a reseed sets
`lqr_start_count` to (2000 / 8 + 30) · 8 = 2240, where the claim gives
max(2000 / 8, 1) · 30 · 8 = 60000. -/
theorem C27_counterexample :
    (lod_alloc_rr_reseed (healthy_backend true) s1_sys pool_ref.dev 4 4).map
        (fun s => (pool_lqr s.lod pool_ref.dev).lqr_start_count) = some 2240 ∧
      reseed_count_spec (pool_osts s1_sys.lod pool_ref.dev).op_count = 60000 := by
  decide

/-- C27 (amended): whenever the cursor update of `lod_alloc_rr` re-randomises
the cursor (the decremented `lqr_start_count` is not positive), it succeeds,
the new `lqr_start_idx` lies in [0, pool_count) when the pool is not empty and
is 0 when it is, and `lqr_start_count` is set to
(LOV_CREATE_RESEED_MIN / max(pool_count, 1) + LOV_CREATE_RESEED_MULT) ·
max(pool_count, 1), computed in 32 bits; the constants are 2000 and 30. -/
theorem C27_reseed_cursor (w : lod_backend) (s : lod_sys) (r : pool_ref)
    (stripe_count stripe_count_min : Nat)
    (h : (pool_lqr s.lod r).lqr_start_count - 1 ≤ 0) :
    ∃ s1, lod_alloc_rr_reseed w s r stripe_count stripe_count_min = some s1 ∧
      (0 < (pool_osts s.lod r).op_count →
        (pool_lqr s1.lod r).lqr_start_idx < (pool_osts s.lod r).op_count) ∧
      ((pool_osts s.lod r).op_count = 0 → (pool_lqr s1.lod r).lqr_start_idx = 0) ∧
      (pool_lqr s1.lod r).lqr_start_count = to_int32 (reseed_count (pool_osts s.lod r).op_count) ∧
      ((pool_osts s.lod r).op_count < 2 ^ 26 →
        (pool_lqr s1.lod r).lqr_start_count =
          ((reseed_count (pool_osts s.lod r).op_count : Nat) : Int)) ∧
      LOV_CREATE_RESEED_MIN = 2000 ∧ LOV_CREATE_RESEED_MULT = 30 := by
  refine ⟨rr_reseeded s r (prandom_u32_max w s.clock (pool_osts s.lod r).op_count),
    ?_, ?_, ?_, ?_, ?_, rfl, rfl⟩
  · unfold lod_alloc_rr_reseed rr_reseeded
    simp only [h, if_true]
  · intro hn
    rw [rr_reseeded, lod_sys.set_lqr, pool_lqr_set_pool_lqr]
    exact prandom_u32_max_lt w s.clock hn
  · intro hn
    rw [rr_reseeded, lod_sys.set_lqr, pool_lqr_set_pool_lqr]
    simp only [hn, prandom_u32_max, Nat.mul_zero, Nat.zero_div]
  · rw [rr_reseeded, lod_sys.set_lqr, pool_lqr_set_pool_lqr]
    rfl
  · intro hn
    rw [rr_reseeded, lod_sys.set_lqr, pool_lqr_set_pool_lqr]
    show to_int32 (reseed_count (pool_osts s.lod r).op_count) = _
    generalize (pool_osts s.lod r).op_count = n at hn
    have hb : reseed_count n < 2 ^ 31 := by
      unfold reseed_count LOV_CREATE_RESEED_MIN LOV_CREATE_RESEED_MULT
      have h1 : 2000 / max n 1 * max n 1 ≤ 2000 := Nat.div_mul_le_self _ _
      have h2 : max n 1 < 2 ^ 26 := by
        rcases Nat.le_total n 1 with h | h
        · rw [max_eq_right h]; decide
        · rw [max_eq_left h]; exact hn
      rw [Nat.add_mul]
      omega
    unfold to_int32
    rw [Nat.mod_eq_of_lt (by omega), if_pos hb]

theorem C27_reseed_cursor_witness :
    (pool_lqr s1_sys.lod pool_ref.dev).lqr_start_count - 1 ≤ 0 ∧
    ∃ s1, lod_alloc_rr_reseed (healthy_backend true) s1_sys pool_ref.dev 4 4 = some s1 ∧
      (0 < (pool_osts s1_sys.lod pool_ref.dev).op_count →
        (pool_lqr s1.lod pool_ref.dev).lqr_start_idx < (pool_osts s1_sys.lod pool_ref.dev).op_count) ∧
      ((pool_osts s1_sys.lod pool_ref.dev).op_count = 0 →
        (pool_lqr s1.lod pool_ref.dev).lqr_start_idx = 0) ∧
      (pool_lqr s1.lod pool_ref.dev).lqr_start_count =
        to_int32 (reseed_count (pool_osts s1_sys.lod pool_ref.dev).op_count) ∧
      ((pool_osts s1_sys.lod pool_ref.dev).op_count < 2 ^ 26 →
        (pool_lqr s1.lod pool_ref.dev).lqr_start_count =
          ((reseed_count (pool_osts s1_sys.lod pool_ref.dev).op_count : Nat) : Int)) ∧
      LOV_CREATE_RESEED_MIN = 2000 ∧ LOV_CREATE_RESEED_MULT = 30 :=
  ⟨by decide, C27_reseed_cursor (healthy_backend true) s1_sys pool_ref.dev 4 4 (by decide)⟩

/-- C28 (counterexample): with 5 targets in the pool and a stripe count of 2,
a call that does not reseed and wraps the cursor (7 becomes 2) leaves
`lqr_offset_idx` at 0, although 2 does not evenly divide 5. -/
theorem C28_counterexample :
    (lod_alloc_rr_reseed (healthy_backend true)
        (demo_sys (c28_device (demo_lqr 7 0 100)) (demo_object [demo_comp 2])) pool_ref.dev 2 2).map
        (fun s => ((pool_lqr s.lod pool_ref.dev).lqr_start_count,
                   (pool_lqr s.lod pool_ref.dev).lqr_start_idx,
                   (pool_lqr s.lod pool_ref.dev).lqr_offset_idx)) = some (99, 2, 0) ∧
      (pool_osts (c28_device (demo_lqr 7 0 100)) pool_ref.dev).op_count = 5 ∧ ¬ 2 ∣ 5 := by
  decide

/-- C28 (amended): for every cursor update of `lod_alloc_rr` on a non-empty
pool that does not reseed and in which the cursor wraps, the update succeeds,
`lqr_start_idx` is reduced modulo pool_count, and `lqr_offset_idx` is advanced
by one (modulo 2^32) exactly when stripe_count > 1 and pool_count modulo
stripe_count is not 1; otherwise it is unchanged. -/
theorem C28_wrap_offset (w : lod_backend) (s : lod_sys) (r : pool_ref)
    (stripe_count stripe_count_min : Nat)
    (hno : ¬ (pool_lqr s.lod r).lqr_start_count - 1 ≤ 0)
    (hwrap : stripe_count_min ≥ (pool_osts s.lod r).op_count ∨
      (pool_lqr s.lod r).lqr_start_idx > (pool_osts s.lod r).op_count)
    (hn : (pool_osts s.lod r).op_count ≠ 0) :
    ∃ s1, lod_alloc_rr_reseed w s r stripe_count stripe_count_min = some s1 ∧
      (pool_lqr s1.lod r).lqr_start_idx =
        (pool_lqr s.lod r).lqr_start_idx % (pool_osts s.lod r).op_count ∧
      (pool_lqr s1.lod r).lqr_offset_idx =
        (if stripe_count > 1 ∧ (pool_osts s.lod r).op_count % stripe_count ≠ 1
         then ((pool_lqr s.lod r).lqr_offset_idx + 1) % 2 ^ 32
         else (pool_lqr s.lod r).lqr_offset_idx) := by
  refine ⟨s.set_lqr r { pool_lqr s.lod r with
      lqr_start_count := (pool_lqr s.lod r).lqr_start_count - 1,
      lqr_start_idx := (pool_lqr s.lod r).lqr_start_idx % (pool_osts s.lod r).op_count,
      lqr_offset_idx :=
        if stripe_count > 1 ∧ (pool_osts s.lod r).op_count % stripe_count ≠ 1
        then ((pool_lqr s.lod r).lqr_offset_idx + 1) % 2 ^ 32
        else (pool_lqr s.lod r).lqr_offset_idx }, ?_, ?_, ?_⟩
  · unfold lod_alloc_rr_reseed
    simp only [hno, if_false, hwrap, if_true, hn]
  · rw [lod_sys.set_lqr, pool_lqr_set_pool_lqr]
  · rw [lod_sys.set_lqr, pool_lqr_set_pool_lqr]

theorem C28_wrap_offset_witness :
    ¬ (pool_lqr (demo_sys (c28_device (demo_lqr 7 0 100)) (demo_object [demo_comp 3])).lod
        pool_ref.dev).lqr_start_count - 1 ≤ 0 ∧
    ∃ s1, lod_alloc_rr_reseed (healthy_backend true)
        (demo_sys (c28_device (demo_lqr 7 0 100)) (demo_object [demo_comp 3])) pool_ref.dev 3 3 =
          some s1 ∧
      (pool_lqr s1.lod pool_ref.dev).lqr_start_idx = 7 % 5 ∧
      (pool_lqr s1.lod pool_ref.dev).lqr_offset_idx = 1 :=
  ⟨by decide, C28_wrap_offset (healthy_backend true)
    (demo_sys (c28_device (demo_lqr 7 0 100)) (demo_object [demo_comp 3])) pool_ref.dev 3 3
    (by decide) (Or.inr (by decide)) (by decide)⟩

/-- C29 (counterexample): on a device with 4 targets of which 3 are active, a
successful `lod_prepare_avoidance` leaves `lag_ost_avail` at 4, not at the
active target count 3. -/
theorem C29_counterexample :
    (lod_prepare_avoidance (healthy_backend true) c29_sys).1 = 0 ∧
      (lod_prepare_avoidance (healthy_backend true) c29_sys).2.lti.lti_avoid.lag_ost_avail = 4 ∧
      c29_sys.lod.lod_desc.ld_active_tgt_count = 3 := by
  decide

/-- C29 (amended): for every device state, a successful `lod_prepare_avoidance`
leaves the avoid-array allocated and empty (count 0), the avoid-bitmap
allocated with no bit set, and `lag_ost_avail` equal to the number of targets
of the device's target table (`ltd_tgtnr`). -/
theorem C29_prepare_avoidance_resets (w : lod_backend) (s : lod_sys)
    (h : (lod_prepare_avoidance w s).1 = 0) :
    (lod_prepare_avoidance w s).2.lti.lti_avoid.lag_oaa_count = 0 ∧
      (∃ arr, (lod_prepare_avoidance w s).2.lti.lti_avoid.lag_oss_avoid_array = some arr) ∧
      (∃ bm, (lod_prepare_avoidance w s).2.lti.lti_avoid.lag_ost_avoid_bitmap = some bm ∧
        ∀ x, bm.data x = false) ∧
      (lod_prepare_avoidance w s).2.lti.lti_avoid.lag_ost_avail = s.lod.lod_ostnr := by
  have hE : (-ENOMEM : Int) ≠ 0 := by decide
  generalize hr : lod_prepare_avoidance w s = r at h
  unfold lod_prepare_avoidance at hr
  lift_lets at hr
  extract_lets tgtnr lag0 lag1 lag2 lag3 nb no bf s1 l1 ofl s2 l2 lag4 lag5 at hr
  have e2 : lag2.lag_oaa_count = 0 ∧ lag2.lag_ost_avail = s.lod.lod_ostnr := by
    simp only [lag2]
    split <;> exact ⟨rfl, rfl⟩
  have e3 : lag3.lag_oaa_count = 0 ∧ lag3.lag_ost_avail = s.lod.lod_ostnr := by
    simp only [lag3]
    split
    · exact e2
    · split <;> exact e2
  have b3 : lag3.lag_ost_avoid_bitmap = none ∨
      ∃ b, lag3.lag_ost_avoid_bitmap = some (CFS_RESET_BITMAP b) := by
    simp only [lag3]
    split
    · rename_i hn
      exact Or.inl hn
    · split
      · exact Or.inr ⟨_, rfl⟩
      · exact Or.inl rfl
  have e4 : lag4.lag_oaa_count = 0 ∧ lag4.lag_ost_avail = s.lod.lod_ostnr ∧
      lag4.lag_ost_avoid_bitmap = lag3.lag_ost_avoid_bitmap ∧
      ∃ arr, lag4.lag_oss_avoid_array = some arr := by
    simp only [lag4]
    split
    · exact ⟨e3.1, e3.2, rfl, _, rfl⟩
    · rename_i hno
      refine ⟨e3.1, e3.2, rfl, ?_⟩
      cases ha : lag3.lag_oss_avoid_array with
      | none => exact absurd (by simp only [no, ha, Option.isNone_none]) hno
      | some arr => exact ⟨arr, rfl⟩
  have e5 : lag5.lag_oaa_count = 0 ∧ lag5.lag_ost_avail = s.lod.lod_ostnr ∧
      (∃ arr, lag5.lag_oss_avoid_array = some arr) ∧
      ∃ bm, lag5.lag_ost_avoid_bitmap = some bm ∧ ∀ x, bm.data x = false := by
    simp only [lag5]
    split
    · exact ⟨e4.1, e4.2.1, e4.2.2.2, _, rfl, fun _ => rfl⟩
    · rename_i hnb
      refine ⟨e4.1, e4.2.1, e4.2.2.2, ?_⟩
      rw [e4.2.2.1]
      rcases b3 with hb | ⟨b, hb⟩
      · exact absurd (by simp only [nb, hb, Option.isNone_none]) hnb
      · exact ⟨_, hb, fun _ => rfl⟩
  split at hr
  · subst hr
    exact absurd h hE
  · split at hr
    · subst hr
      exact absurd h hE
    · subst hr
      exact ⟨e5.1, e5.2.2.1, e5.2.2.2, e5.2.1⟩

theorem C29_prepare_avoidance_resets_witness :
    (lod_prepare_avoidance (healthy_backend true) c29_sys).1 = 0 ∧
    (lod_prepare_avoidance (healthy_backend true) c29_sys).2.lti.lti_avoid.lag_oaa_count = 0 ∧
      (∃ arr, (lod_prepare_avoidance (healthy_backend true) c29_sys).2.lti.lti_avoid.lag_oss_avoid_array
        = some arr) ∧
      (∃ bm, (lod_prepare_avoidance (healthy_backend true) c29_sys).2.lti.lti_avoid.lag_ost_avoid_bitmap
        = some bm ∧ ∀ x, bm.data x = false) ∧
      (lod_prepare_avoidance (healthy_backend true) c29_sys).2.lti.lti_avoid.lag_ost_avail = 4 :=
  ⟨by decide, C29_prepare_avoidance_resets (healthy_backend true) c29_sys (by decide)⟩

/-- C25: for every buffer that parses as an unsigned integer `v` (the parser
returns 0), `soft_sync_limit_store` sets the soft sync limit to `v` and returns
0, whatever `count` is: it returns `count` only when `count` is 0; for every
buffer that does not parse (the parser returns a negative code) it returns that
code and leaves the limit unchanged. -/
theorem C25_soft_sync_limit_store_returns_zero (kstrtouint : String → Int × Nat)
    (ofd : ofd_device) (buffer : String) (count : Nat) :
    (∀ v, v < 2 ^ 32 → kstrtouint buffer = (0, v) →
      (soft_sync_limit_store kstrtouint ofd buffer count).2.ofd_soft_sync_limit = v ∧
      (soft_sync_limit_store kstrtouint ofd buffer count).1 = 0 ∧
      ((soft_sync_limit_store kstrtouint ofd buffer count).1 = (count : Int) ↔ count = 0)) ∧
    ((kstrtouint buffer).1 < 0 →
      (soft_sync_limit_store kstrtouint ofd buffer count).1 = (kstrtouint buffer).1 ∧
      (soft_sync_limit_store kstrtouint ofd buffer count).1 < 0 ∧
      (soft_sync_limit_store kstrtouint ofd buffer count).2 = ofd) := by
  constructor
  · intro v hv hk
    unfold soft_sync_limit_store
    simp only [hk, lt_self_iff_false, if_false, Nat.mod_eq_of_lt hv, true_and]
    constructor
    · intro h
      exact_mod_cast h.symm
    · intro h
      rw [h]
      rfl
  · intro hk
    unfold soft_sync_limit_store
    simp only [hk, if_true, and_self]

theorem C25_soft_sync_limit_store_returns_zero_witness :
    (soft_sync_limit_store c25_kstrtouint ⟨8⟩ "16" 2).2.ofd_soft_sync_limit = 16 ∧
      (soft_sync_limit_store c25_kstrtouint ⟨8⟩ "16" 2).1 = 0 ∧
      ((soft_sync_limit_store c25_kstrtouint ⟨8⟩ "16" 2).1 = ((2 : Nat) : Int) ↔ 2 = 0) :=
  (C25_soft_sync_limit_store_returns_zero c25_kstrtouint ⟨8⟩ "16" 2).1 16 (by decide) (by decide)

theorem lod_qos_parse_config_comp_clamp {w : lod_backend} {def_pool : String} {i : Nat}
    {s : lod_sys} {lod_comp0 : lod_layout_component} {v : lov_user_md}
    {entry : Option lov_comp_md_entry_v1} {st1 : declare_state} {brk : Bool}
    (hr : lod_qos_parse_config_comp w def_pool i s lod_comp0 v entry = some (st1, brk)) :
    (brk = false → st1.sys.lod = s.lod ∧ st1.rc = 0 ∧
      (∃ c, parse_pool_clamped s.lod c ∧
        st1.sys.lo.ldo_comp_entries = s.lo.ldo_comp_entries.set i c)) ∧
    (brk = true → st1.rc ≠ 0) := by
  unfold lod_qos_parse_config_comp at hr
  lift_lets at hr
  extract_lets lod_comp1 is_v3 pool_name0 copy s1 lod_comp2 pool_name pattern lod_comp3 s2 at hr
  have hE : (-EINVAL : Int) ≠ 0 := by decide
  have hs1 : s1.lod = s.lod ∧ s1.lo = s.lo := by
    simp only [s1]
    split <;> exact ⟨rfl, rfl⟩
  have hpool3 : lod_comp3.llc_pool = pool_name := rfl
  have hs2 : s2.lo.ldo_comp_entries = s.lo.ldo_comp_entries.set i lod_comp3 := by
    show s1.lo.ldo_comp_entries.set i lod_comp3 = _
    rw [hs1.2]
  have hs2lod : s2.lod = s.lod := hs1.1
  split at hr
  · rename_i hne
    simp only [Option.some.injEq, Prod.mk.injEq] at hr
    obtain ⟨rfl, rfl⟩ := hr
    exact ⟨fun hb => absurd hb (by simp), fun _ => hne⟩
  · split at hr
    · simp only [Option.some.injEq, Prod.mk.injEq] at hr
      obtain ⟨rfl, rfl⟩ := hr
      exact ⟨fun hb => absurd hb (by simp), fun _ => hE⟩
    · split at hr
      · contradiction
      · generalize hpn : pool_name = pn at hr
        split at hr
        · simp only [Option.some.injEq, Prod.mk.injEq] at hr
          obtain ⟨rfl, rfl⟩ := hr
          refine ⟨fun _ => ⟨hs2lod, rfl, lod_comp3, ?_, hs2⟩, fun hb => absurd hb (by simp)⟩
          intro name pool hp
          rw [hpool3, hpn] at hp
          contradiction
        · rename_i name0
          split at hr
          · rename_i hnf
            simp only [Option.some.injEq, Prod.mk.injEq] at hr
            obtain ⟨rfl, rfl⟩ := hr
            refine ⟨fun _ => ⟨hs2lod, rfl, lod_comp3, ?_, hs2⟩, fun hb => absurd hb (by simp)⟩
            intro name pool hp hf
            rw [hpool3, hpn, Option.some.injEq] at hp
            subst hp
            rw [hs2lod] at hnf
            rw [hnf] at hf
            contradiction
          · rename_i pool0 hfound
            rw [hs2lod] at hfound
            split at hr
            · simp only [Option.some.injEq, Prod.mk.injEq] at hr
              obtain ⟨rfl, rfl⟩ := hr
              exact ⟨fun hb => absurd hb (by simp), fun _ => hE⟩
            · split at hr
              · simp only [Option.some.injEq, Prod.mk.injEq] at hr
                obtain ⟨rfl, rfl⟩ := hr
                refine ⟨fun _ => ⟨hs2lod, rfl,
                  { lod_comp3 with llc_stripe_count := pool_tgt_count pool0 }, ?_, ?_⟩,
                  fun hb => absurd hb (by simp)⟩
                · intro name pool hp hf _
                  have hp1 : lod_comp3.llc_pool = some name := hp
                  rw [hpool3, hpn, Option.some.injEq] at hp1
                  subst hp1
                  rw [hfound, Option.some.injEq] at hf
                  subst hf
                  exact Nat.le_refl _
                · show (s2.lo.ldo_comp_entries.set i _) = _
                  rw [hs2, List.set_set]
              · rename_i hnc
                simp only [Option.some.injEq, Prod.mk.injEq] at hr
                obtain ⟨rfl, rfl⟩ := hr
                refine ⟨fun _ => ⟨hs2lod, rfl, lod_comp3, ?_, hs2⟩, fun hb => absurd hb (by simp)⟩
                intro name pool hp hf hov
                rw [hpool3, hpn, Option.some.injEq] at hp
                subst hp
                rw [hfound, Option.some.injEq] at hf
                subst hf
                by_contra hgt
                exact hnc ⟨Nat.lt_of_not_le hgt, hov⟩

theorem lod_qos_parse_config_body_clamp {w : lod_backend} {buf : lu_buf} {def_pool : String}
    {d : lod_device} {n i : Nat} {st st1 : declare_state} {brk : Bool}
    (hinv : parse_clamp_inv d n i st)
    (hr : lod_qos_parse_config_body w buf def_pool i st = some (st1, brk)) :
    (brk = false → parse_clamp_inv d n (i + 1) st1) ∧ (brk = true → st1.rc ≠ 0) := by
  unfold lod_qos_parse_config_body at hr
  simp only at hr
  split at hr
  · rename_i lod_comp0 v1 entry hget _
    have h := lod_qos_parse_config_comp_clamp hr
    refine ⟨fun hb => ?_, h.2⟩
    obtain ⟨hlod, hrc, c, hc, hset⟩ := h.1 hb
    have hi : i < st.sys.lo.ldo_comp_entries.length := by
      rcases Nat.lt_or_ge i st.sys.lo.ldo_comp_entries.length with h1 | h1
      · exact h1
      · rw [List.getElem?_eq_none h1] at hget
        contradiction
    refine ⟨hlod.trans hinv.lod_eq, ?_, hrc, ?_⟩
    · rw [hset, List.length_set]
      exact hinv.len
    · intro j c1 hj hc1
      rw [hset] at hc1
      by_cases hji : j = i
      · subst hji
        rw [List.getElem?_set_self hi, Option.some.injEq] at hc1
        subst hc1
        rw [← hinv.lod_eq]
        exact hc
      · rw [List.getElem?_set_ne (Ne.symm hji)] at hc1
        exact hinv.clamped j c1 (by omega) hc1
  · contradiction

theorem lod_qos_parse_config_comps_clamp {w : lod_backend} {s s1 : lod_sys} {buf : lu_buf}
    {magic : Nat} {def_pool : String}
    (hr : lod_qos_parse_config_comps w s buf magic def_pool = some (0, s1)) :
    s1.lod = s.lod ∧ ∀ c ∈ s1.lo.ldo_comp_entries, parse_pool_clamped s.lod c := by
  have hE : (-EINVAL : Int) ≠ 0 := by decide
  have hM : (-ENOMEM : Int) ≠ 0 := by decide
  unfold lod_qos_parse_config_comps at hr
  lift_lets at hr
  extract_lets composite comp_cnt mirror_cnt lo0 s0 al at hr
  split at hr
  · simp only [Option.some.injEq, Prod.mk.injEq] at hr
    exact absurd hr.1 hE
  · split at hr
    · rename_i hal
      simp only [Option.some.injEq, Prod.mk.injEq] at hr
      exact absurd hr.1 hal
    · rename_i hal
      have hal0 : al.1 = 0 := by
        by_contra h
        exact hal h
      have hal2 : al.2.lod = s.lod ∧ al.2.lo.ldo_comp_entries.length = comp_cnt := by
        simp only [al, lod_alloc_comp_entries] at hal0 ⊢
        split at hal0
        · exact absurd hal0 hM
        · rename_i hf
          simp only [hf]
          exact ⟨rfl, List.length_replicate _ _⟩
      split at hr
      · contradiction
      · rename_i st hloop
        simp only [Option.some.injEq, Prod.mk.injEq] at hr
        obtain ⟨hrc, rfl⟩ := hr
        have h0 : parse_clamp_inv s.lod comp_cnt 0 { sys := al.2, rc := 0 } :=
          ⟨hal2.1, hal2.2, rfl, fun j c hj _ => absurd hj (Nat.not_lt_zero j)⟩
        have := for_loop_inv_brk (fun i st => parse_clamp_inv s.lod comp_cnt i st)
          (fun st => st.rc ≠ 0) (lod_qos_parse_config_body w buf def_pool)
          (fun i st st1 b hP hb => lod_qos_parse_config_body_clamp hP hb)
          comp_cnt 0 _ st h0 hloop
        rcases this with hP | hQ
        · refine ⟨hP.lod_eq, fun c hc => ?_⟩
          obtain ⟨j, hj, hjc⟩ := List.getElem_of_mem hc
          have hj2 : j < 0 + comp_cnt := by
            rw [Nat.zero_add, ← hP.len]
            exact hj
          exact hP.clamped j c hj2 (by rw [List.getElem?_eq_getElem hj, hjc])
        · exact absurd hrc hQ

/-- C24 (counterexample): on the device of scenario S5 (4 targets, all active,
no pool) a plain V1 hint asking for 8 stripes without `OVERSTRIPING` is
accepted and leaves the component with a stripe count of 8. -/
theorem C24_counterexample :
    (lod_qos_parse_config (healthy_backend true) s5_sys (some (hint_buf c24_hint))).map
        (fun r => (r.1, r.2.lo.ldo_comp_entries.map
          (fun c => (c.llc_stripe_count, c.llc_pattern &&& LOV_PATTERN_OVERSTRIPING)))) =
      some (0, [(8, 0)]) ∧
    s5_sys.lod.lod_desc.ld_active_tgt_count = 4 := by
  decide

/-- C24 (amended): for every non-composite or composite hint (a non-empty
buffer whose magic does not carry `LOV_MAGIC_DEFINED` and is not that of a
foreign layout) accepted by `lod_qos_parse_config`, after the parse each
component that does not have `OVERSTRIPING` set and whose pool name, its own or
the inherited one, names an existing pool has a stripe count of at most the
target count of that pool. -/
theorem C24_parse_config_pool_clamp (w : lod_backend) (s s1 : lod_sys) (b : lu_buf)
    (hlen : b.lb_len ≠ 0) (hdef : b.v1.lmm_magic &&& LOV_MAGIC_DEFINED = 0)
    (hfor : b.v1.lmm_magic ≠ LOV_USER_MAGIC_FOREIGN ∧
      b.v1.lmm_magic ≠ swab32 LOV_USER_MAGIC_FOREIGN)
    (hr : lod_qos_parse_config w s (some b) = some (0, s1)) :
    ∀ c ∈ s1.lo.ldo_comp_entries, ∀ name pool,
      c.llc_pool = some name → lod_find_pool s1.lod name = some pool →
      c.llc_pattern &&& LOV_PATTERN_OVERSTRIPING = 0 →
      c.llc_stripe_count ≤ pool_tgt_count pool := by
  have hE : (-EINVAL : Int) ≠ 0 := by decide
  have key : s1.lod = s.lod ∧ ∀ c ∈ s1.lo.ldo_comp_entries, parse_pool_clamped s.lod c := by
    unfold lod_qos_parse_config at hr
    simp only [if_neg hlen, hdef, ne_eq, not_true_eq_false, if_false] at hr
    split at hr
    · simp only [Option.some.injEq, Prod.mk.injEq] at hr
      exact absurd hr.1 hE
    · split at hr
      · have h2 := lod_qos_parse_config_comps_clamp hr
        exact h2
      · split at hr
        · have h2 := lod_qos_parse_config_comps_clamp hr
          exact h2
        · split at hr
          · have h2 := lod_qos_parse_config_comps_clamp hr
            exact h2
          · split at hr
            · have h2 := lod_qos_parse_config_comps_clamp hr
              exact h2
            · split at hr
              · rename_i hf
                rcases hf with hf | hf
                · exact absurd hf hfor.2
                · exact absurd hf hfor.1
              · simp only [Option.some.injEq, Prod.mk.injEq] at hr
                exact absurd hr.1 hE
  intro c hc name pool hp hf hov
  rw [key.1] at hf
  exact key.2 c hc name pool hp hf hov

theorem C24_parse_config_pool_clamp_witness :
    ∃ s1 c, lod_qos_parse_config (healthy_backend true) s6_sys (some (hint_buf c24_pool_hint)) =
        some (0, s1) ∧
      s1.lo.ldo_comp_entries = [c] ∧ c.llc_pool = some "named" ∧
      (∃ pool, lod_find_pool s1.lod "named" = some pool ∧ pool_tgt_count pool = 3) ∧
      c.llc_stripe_count ≤ 3 := by
  have h : (lod_qos_parse_config (healthy_backend true) s6_sys
      (some (hint_buf c24_pool_hint))).map
      (fun r => (r.1, r.2.lo.ldo_comp_entries.map
        (fun c => (c.llc_pool, c.llc_pattern &&& LOV_PATTERN_OVERSTRIPING)),
        (lod_find_pool r.2.lod "named").map pool_tgt_count)) =
      some (0, [(some "named", 0)], some 3) := by
    decide
  obtain ⟨⟨rc, s1⟩, h1, h2⟩ := Option.map_eq_some'.mp h
  simp only [Prod.mk.injEq] at h2
  obtain ⟨rfl, h3, h4⟩ := h2
  obtain ⟨pool, hp1, hp2⟩ := Option.map_eq_some'.mp h4
  rcases hs : s1.lo.ldo_comp_entries with _ | ⟨c, _ | ⟨c2, t⟩⟩
  · rw [hs] at h3
    simp only [List.map_nil] at h3
    contradiction
  · rw [hs] at h3
    simp only [List.map_cons, List.map_nil, List.cons.injEq, Prod.mk.injEq, and_true] at h3
    refine ⟨s1, c, h1, hs, h3.1, ⟨pool, hp1, hp2⟩, ?_⟩
    have := C24_parse_config_pool_clamp (healthy_backend true) s6_sys s1 (hint_buf c24_pool_hint)
      (by decide) (by decide) (by decide) h1 c (by rw [hs]; exact List.mem_singleton.mpr rfl)
      "named" pool h3.1 hp1 h3.2
    rw [hp2] at this
    exact this
  · rw [hs] at h3
    simp only [List.map_cons, List.cons.injEq, Prod.mk.injEq] at h3
    exact absurd h3.2 (by simp)

theorem array_scan_of_mem {arr : List Nat} {n v : Nat} (h : v ∈ arr.take n) :
    array_scan arr n v = some true := by
  unfold array_scan
  rw [if_pos (by simpa using h)]

/-- An iteration of the loop of `lod_alloc_ost_list` that breaks places
nothing; when the target it visits was placed by an earlier iteration and the
pattern has no `OVERSTRIPING`, it breaks with `-EINVAL`. -/
theorem lod_alloc_ost_list_body_repeat {w : lod_backend} {bm : cfs_bitmap} {lo : lod_object}
    {lod_comp : lod_layout_component} {p i : Nat} {st st1 : ost_list_state}
    (ho : ost_list_inv lod_comp.llc_ostlist.op_array lod_comp.llc_stripe_count p i st)
    (ha : alloc_inv bm lo lod_comp.llc_pattern st.a)
    (hr : lod_alloc_ost_list_body w lod_comp i st = some (st1, true)) :
    st1.a.stripe_idx = i ∧ st1.a.ost_indices = st.a.ost_indices ∧
    (lod_comp.llc_pattern &&& LOV_PATTERN_OVERSTRIPING = 0 →
      ∀ t, lod_comp.llc_ostlist.op_array[(p + i) % lod_comp.llc_stripe_count]? = some t →
        t ∈ st.a.ost_indices.take i → st1.rc = -EINVAL) := by
  unfold lod_alloc_ost_list_body at hr
  simp only at hr
  rw [ho.arr] at hr
  split at hr
  · contradiction
  · rename_i ost_idx hL
    split at hr
    · rename_i hdead
      simp only [Option.some.injEq, Prod.mk.injEq, and_true] at hr
      subst hr
      refine ⟨ho.idx, rfl, fun _ t ht hmem => ?_⟩
      rw [hL, Option.some.injEq] at ht
      subst ht
      have hlive := ha.live ost_idx (by rw [ho.idx]; exact hmem)
      rw [ha.bitmap, hlive] at hdead
      contradiction
    · split at hr
      · contradiction
      · rename_i used hused
        split at hr
        · simp only [Option.some.injEq, Prod.mk.injEq, and_true] at hr
          subst hr
          exact ⟨ho.idx, rfl, fun _ _ _ _ => rfl⟩
        · rename_i hnot
          have hfree : lod_comp.llc_pattern &&& LOV_PATTERN_OVERSTRIPING = 0 →
              ∀ t, lod_comp.llc_ostlist.op_array[(p + i) % lod_comp.llc_stripe_count]? = some t →
                t ∈ st.a.ost_indices.take i → False := by
            intro hov t ht hmem
            rw [hL, Option.some.injEq] at ht
            subst ht
            have hin : ost_idx ∈ st.a.sys.lti.lti_ea_store.take st.a.stripe_idx := by
              rw [← ha.store_eq, ho.idx]
              exact hmem
            have := array_scan_of_mem hin
            unfold lod_qos_is_ost_used at hused
            rw [this, Option.some.injEq] at hused
            exact hnot ⟨hused.symm, hov⟩
          split at hr
          · contradiction
          · split at hr
            · simp only [Option.some.injEq, Prod.mk.injEq, and_true] at hr
              subst hr
              exact ⟨ho.idx, rfl, fun hov t ht hmem => (hfree hov t ht hmem).elim⟩
            · split at hr
              · contradiction
              · simp only [Option.some.injEq, Prod.mk.injEq, and_true] at hr
                subst hr
                exact ⟨ho.idx, rfl, fun hov t ht hmem => (hfree hov t ht hmem).elim⟩
              · split at hr
                · contradiction
                · simp only [Option.some.injEq, Prod.mk.injEq] at hr
                  exact absurd hr.2 (by simp)

theorem lod_alloc_ost_list_loop_post {w : lod_backend} {bm : cfs_bitmap} {lo : lod_object}
    {lc : lod_layout_component} {p : Nat} {st0 st : ost_list_state}
    (hp : p < lc.llc_stripe_count) (h0 : st0.a.stripe_idx = 0) (hp0 : st0.array_idx = p)
    (ha0 : alloc_inv bm lo lc.llc_pattern st0.a)
    (hloop : for_loop (lod_alloc_ost_list_body w lc) lc.llc_stripe_count 0 st0 = some st) :
    ost_list_post bm lo lc p st := by
  have hinit : ost_list_inv lc.llc_ostlist.op_array lc.llc_stripe_count p 0 st0 ∧
      alloc_inv bm lo lc.llc_pattern st0.a :=
    ⟨⟨h0, by rw [hp0, Nat.add_zero, Nat.mod_eq_of_lt hp],
      fun k hk => absurd hk (Nat.not_lt_zero k)⟩, ha0⟩
  rcases for_loop_inv_brk
    (fun i st => ost_list_inv lc.llc_ostlist.op_array lc.llc_stripe_count p i st ∧
      alloc_inv bm lo lc.llc_pattern st.a)
    (fun st => ost_list_post bm lo lc p st) (lod_alloc_ost_list_body w lc)
    (fun i s s1 b hs hb => by
      refine ⟨fun hf => ⟨(lod_alloc_ost_list_body_order hs.1 hb).1 hf,
        lod_alloc_ost_list_body_inv hs.2 hb⟩, fun ht => ?_⟩
      subst ht
      obtain ⟨e1, e2, e3⟩ := lod_alloc_ost_list_body_repeat hs.1 hs.2 hb
      refine ⟨lod_alloc_ost_list_body_inv hs.2 hb, ?_, Or.inr ?_⟩
      · intro k hk
        rw [e1] at hk
        rw [e2]
        exact hs.1.picks k hk
      · rw [e1, e2]
        exact e3)
    lc.llc_stripe_count 0 st0 st hinit hloop with h | h
  · rw [Nat.zero_add] at h
    exact ⟨h.2, fun k hk => h.1.picks k (by rw [← h.1.idx]; exact hk), Or.inl h.1.idx⟩
  · exact h

theorem ost_list_post.repeat_invalid {bm : cfs_bitmap} {lo : lod_object}
    {lc : lod_layout_component} {p : Nat} {st : ost_list_state}
    (h : ost_list_post bm lo lc p st) (hov : lc.llc_pattern &&& LOV_PATTERN_OVERSTRIPING = 0)
    {j k t : Nat} (hjk : j < k) (hk : k ≤ st.a.stripe_idx) (hkc : k < lc.llc_stripe_count)
    (htj : lc.llc_ostlist.op_array[(p + j) % lc.llc_stripe_count]? = some t)
    (htk : lc.llc_ostlist.op_array[(p + k) % lc.llc_stripe_count]? = some t) :
    st.rc = -EINVAL := by
  have hnd := h.alloc.nodup hov
  obtain ⟨tj, hj1, hj2⟩ := h.picks j (by omega)
  rw [htj, Option.some.injEq] at hj1
  subst hj1
  have hjt : (st.a.ost_indices.take st.a.stripe_idx)[j]? = some t := by
    rw [List.getElem?_take_of_lt (by omega)]
    exact hj2
  rcases Nat.lt_or_ge k st.a.stripe_idx with hlt | hge
  · obtain ⟨tk, hk1, hk2⟩ := h.picks k hlt
    rw [htk, Option.some.injEq] at hk1
    subst hk1
    have hkt : (st.a.ost_indices.take st.a.stripe_idx)[k]? = some t := by
      rw [List.getElem?_take_of_lt hlt]
      exact hk2
    have := nodup_getElem?_inj hnd hjt hkt
    omega
  · have hke : k = st.a.stripe_idx := by omega
    subst hke
    rcases h.stop with hs | hs
    · omega
    · obtain ⟨hlen, hget⟩ := List.getElem?_eq_some.mp hjt
      exact hs hov t htk (hget ▸ List.getElem_mem hlen)

theorem array_find_hit {arr : List Nat} {v : Nat} :
    ∀ fuel i q, i ≤ q → q < i + fuel → arr[q]? = some v →
      ∃ p, array_find arr v fuel i = some (some p) ∧ i ≤ p ∧ p ≤ q := by
  intro fuel
  induction fuel with
  | zero =>
    intro i q h1 h2
    omega
  | succ n ih =>
    intro i q h1 h2 hq
    have hql : q < arr.length := (List.getElem?_eq_some.mp hq).1
    have hil : i < arr.length := by omega
    simp only [array_find, List.getElem?_eq_getElem hil]
    by_cases hx : arr[i] = v
    · rw [if_pos hx]
      exact ⟨i, rfl, Nat.le_refl _, h1⟩
    · rw [if_neg hx]
      have hne : i ≠ q := by
        intro e
        subst e
        rw [List.getElem?_eq_getElem hil, Option.some.injEq] at hq
        exact hx hq
      obtain ⟨p, hp1, hp2, hp3⟩ := ih (i + 1) q (by omega) (by omega) hq
      exact ⟨p, hp1, by omega, hp3⟩

/-- On a healthy backend an iteration of the loop of `lod_alloc_ost_list` that
visits an existing, active target returns: it places a stripe, or it breaks
with `-EINVAL`, which it does only for a pattern without `OVERSTRIPING`. -/
theorem lod_alloc_ost_list_body_total {w : lod_backend} {d : lod_device}
    {lod_comp : lod_layout_component} {p i : Nat} {st : ost_list_state} (hw : healthy w)
    (hlen : lod_comp.llc_stripe_count ≤ lod_comp.llc_ostlist.op_array.length)
    (hgood : ∀ t ∈ lod_comp.llc_ostlist.op_array.take lod_comp.llc_stripe_count,
      cfs_bitmap_check d.lod_ost_bitmap t = true ∧ (OST_TGT d t).ltd_active = true)
    (hi : i < lod_comp.llc_stripe_count)
    (h : ost_list_run d lod_comp.llc_stripe_count p i st) :
    ∃ st1 b, lod_alloc_ost_list_body w lod_comp i st = some (st1, b) ∧
      (b = false → ost_list_run d lod_comp.llc_stripe_count p (i + 1) st1) ∧
      (b = true → st1.rc = -EINVAL ∧ lod_comp.llc_pattern &&& LOV_PATTERN_OVERSTRIPING = 0) := by
  have hc : 0 < lod_comp.llc_stripe_count := by omega
  have hpos : (p + i) % lod_comp.llc_stripe_count < lod_comp.llc_stripe_count :=
    Nat.mod_lt _ hc
  have hposl : (p + i) % lod_comp.llc_stripe_count < lod_comp.llc_ostlist.op_array.length := by
    omega
  have hmem : lod_comp.llc_ostlist.op_array[(p + i) % lod_comp.llc_stripe_count] ∈
      lod_comp.llc_ostlist.op_array.take lod_comp.llc_stripe_count := by
    rw [List.mem_take_iff_getElem]
    exact ⟨(p + i) % lod_comp.llc_stripe_count, by omega, rfl⟩
  obtain ⟨hlive, hact⟩ := hgood _ hmem
  generalize ht : lod_comp.llc_ostlist.op_array[(p + i) % lod_comp.llc_stripe_count] = t
    at hlive hact
  have hget : lod_comp.llc_ostlist.op_array[st.array_idx]? = some t := by
    rw [h.arr, List.getElem?_eq_getElem hposl, ht]
  have hlive1 : cfs_bitmap_check st.a.sys.lod.lod_ost_bitmap t = true := by
    rw [h.lod_eq]
    exact hlive
  have hact1 : (OST_TGT st.a.sys.lod t).ltd_active = true := by
    rw [h.lod_eq]
    exact hact
  have hused : ∃ u, lod_qos_is_ost_used st.a.sys t st.a.stripe_idx = some u := by
    unfold lod_qos_is_ost_used array_scan
    have : st.a.stripe_idx ≤ st.a.sys.lti.lti_ea_store.length := by
      rw [h.idx]
      have := h.store
      omega
    simp only [this, if_true]
    split <;> exact ⟨_, rfl⟩
  obtain ⟨u, hu⟩ := hused
  by_cases hbr : u = true ∧ lod_comp.llc_pattern &&& LOV_PATTERN_OVERSTRIPING = 0
  · refine ⟨{ st with rc := -EINVAL }, true, ?_, fun hb => absurd hb (by simp),
      fun _ => ⟨rfl, hbr.2⟩⟩
    unfold lod_alloc_ost_list_body
    simp only [hget, hlive1, Bool.true_eq_false, if_false, hu, hbr, and_self, if_true]
  · have hst := lod_statfs_and_check_healthy (s := st.a.sys) hw hact1
    have hdecl := lod_qos_declare_object_on_ok
      (s := { st.a.sys.tick with lti := { st.a.sys.tick.lti with
        lti_osfs := (w.dt_statfs st.a.sys.clock t).2 } }) hw hlive1
    have hcommit := @alloc_state.commit_ok
      { st.a with sys :=
          { ({ st.a.sys.tick with lti := { st.a.sys.tick.lti with
                lti_osfs := (w.dt_statfs st.a.sys.clock t).2 } } : lod_sys).tick with
            declared := { ost := t, serial := st.a.sys.tick.clock } ::
              st.a.sys.declared } } t { ost := t, serial := st.a.sys.tick.clock }
      (by show st.a.stripe_idx < st.a.sys.lti.lti_ea_store.length
          rw [h.idx]
          have := h.store
          omega)
      (by show st.a.stripe_idx < st.a.stripe.length
          rw [h.idx]
          have := h.stripe
          omega)
      (by show st.a.stripe_idx < st.a.ost_indices.length
          rw [h.idx]
          have := h.inds
          omega)
    obtain ⟨a1, hc1, e1, e2, e3, e4, e5⟩ : ∃ a1, alloc_state.commit
        { st.a with sys :=
          { ({ st.a.sys.tick with lti := { st.a.sys.tick.lti with
                lti_osfs := (w.dt_statfs st.a.sys.clock t).2 } } : lod_sys).tick with
            declared := { ost := t, serial := st.a.sys.tick.clock } ::
              st.a.sys.declared } } t { ost := t, serial := st.a.sys.tick.clock } = some a1 ∧
        a1.sys.lod = st.a.sys.lod ∧ a1.stripe_idx = st.a.stripe_idx + 1 ∧
        a1.sys.lti.lti_ea_store.length = st.a.sys.lti.lti_ea_store.length ∧
        a1.stripe.length = st.a.stripe.length ∧
        a1.ost_indices.length = st.a.ost_indices.length :=
      ⟨_, hcommit, rfl, rfl, List.length_set _ _ _, List.length_set _ _ _,
        List.length_set _ _ _⟩
    refine ⟨{ a := a1, array_idx := (st.array_idx + 1) % lod_comp.llc_stripe_count, rc := 0 },
      false, ?_, fun _ => ?_, fun hb => absurd hb (by simp)⟩
    · unfold lod_alloc_ost_list_body
      simp only [hget, hlive1, Bool.true_eq_false, if_false, hu, hbr, hst, lt_self_iff_false]
      rw [hdecl]
      simp only []
      generalize hX : alloc_state.commit _ t _ = r
      have hr : r = some a1 := hX.symm.trans hc1
      rw [hr]
    · refine ⟨e1.trans h.lod_eq, by rw [e2, h.idx], ?_, ?_, ?_, ?_, rfl⟩
      · show (st.array_idx + 1) % lod_comp.llc_stripe_count = _
        rw [h.arr, Nat.mod_add_mod, Nat.add_assoc]
      · rw [e3]
        exact h.store
      · rw [e4]
        exact h.stripe
      · rw [e5]
        exact h.inds

/-- A loop whose steps before `n` all return runs to the end or breaks: it
returns a state with the invariant at the end, or one a breaking step left. -/
theorem for_loop_total {σ : Type} (P : Nat → σ → Prop) (Q : σ → Prop)
    (body : Nat → σ → Option (σ × Bool)) (n : Nat)
    (hstep : ∀ i s, i < n → P i s → ∃ s1 b, body i s = some (s1, b) ∧
      (b = false → P (i + 1) s1) ∧ (b = true → Q s1)) :
    ∀ fuel i s, i + fuel ≤ n → P i s →
      ∃ s1, for_loop body fuel i s = some s1 ∧ (P (i + fuel) s1 ∨ Q s1) := by
  intro fuel
  induction fuel with
  | zero =>
    intro i s _ hs
    exact ⟨s, rfl, Or.inl hs⟩
  | succ m ih =>
    intro i s hn hs
    obtain ⟨s1, b, hb, hp, hq⟩ := hstep i s (by omega) hs
    cases b with
    | true => exact ⟨s1, by simp only [for_loop, hb], Or.inr (hq rfl)⟩
    | false =>
      obtain ⟨s2, h3, h4⟩ := ih (i + 1) s1 (by omega) (hp rfl)
      refine ⟨s2, by simp only [for_loop, hb]; exact h3, ?_⟩
      rw [Nat.add_assoc, Nat.add_comm 1 m] at h4
      exact h4

/-- Whenever `lod_alloc_ost_list` returns for a component without
`OVERSTRIPING` and the `k`-th target it visited was also the `j`-th, `j < k`,
the result is `-EINVAL`. -/
theorem lod_alloc_ost_list_repeat_invalid {w : lod_backend} {s : lod_sys}
    {stripe : List (Option dt_object)} {ost_indices : List Nat} {comp_idx : Nat}
    {lod_comp : lod_layout_component} {rc : Int} {a : alloc_state}
    (hcomp : s.lo.ldo_comp_entries[comp_idx]? = some lod_comp)
    (hov : lod_comp.llc_pattern &&& LOV_PATTERN_OVERSTRIPING = 0)
    (hr : lod_alloc_ost_list w s stripe ost_indices comp_idx = some (rc, a))
    {j k t : Nat} (hjk : j < k) (hk : k ≤ a.stripe_idx) (hkc : k < lod_comp.llc_stripe_count)
    (htj : lod_comp.llc_ostlist.op_array[(ost_list_start lod_comp + j) %
      lod_comp.llc_stripe_count]? = some t)
    (htk : lod_comp.llc_ostlist.op_array[(ost_list_start lod_comp + k) %
      lod_comp.llc_stripe_count]? = some t) :
    rc = -EINVAL := by
  unfold lod_alloc_ost_list at hr
  rw [hcomp] at hr
  simp only at hr
  split at hr
  · contradiction
  · rename_i hne
    split at hr
    · simp only [Option.some.injEq, Prod.mk.injEq] at hr
      obtain ⟨-, rfl⟩ := hr
      exact absurd hk (by show ¬ k ≤ 0; omega)
    · split at hr
      · contradiction
      · simp only [Option.some.injEq, Prod.mk.injEq] at hr
        exact hr.1.symm
      · rename_i p hfind
        split at hr
        · contradiction
        · rename_i st hloop
          simp only [Option.some.injEq, Prod.mk.injEq] at hr
          obtain ⟨rfl, rfl⟩ := hr
          have hstart : ost_list_start lod_comp = p ∧ p < lod_comp.llc_stripe_count := by
            apply ost_list_start_eq hne
            split at hfind
            · rename_i hd
              rw [if_pos hd]
              exact hfind
            · rename_i hd
              rw [if_neg hd]
              exact hfind
          rw [hstart.1] at htj htk
          split at hloop
          · exact (lod_alloc_ost_list_loop_post hstart.2 rfl rfl
              (alloc_inv.init _ _ _ _) hloop).repeat_invalid hov hjk hk hkc htj htk
          · exact (lod_alloc_ost_list_loop_post hstart.2 rfl rfl
              (alloc_inv.init _ _ _ _) hloop).repeat_invalid hov hjk hk hkc htj htk

/-- On a healthy backend, with existing, active targets in the list and room
in the buffers, `lod_alloc_ost_list` returns: it places all the stripes, or it
returns `-EINVAL`, which it does only for a pattern without `OVERSTRIPING`. -/
theorem lod_alloc_ost_list_returns {w : lod_backend} {s : lod_sys}
    {stripe : List (Option dt_object)} {ost_indices : List Nat} {comp_idx : Nat}
    {lod_comp : lod_layout_component} (hw : healthy w)
    (hcomp : s.lo.ldo_comp_entries[comp_idx]? = some lod_comp)
    (hc : 0 < lod_comp.llc_stripe_count)
    (hlen : lod_comp.llc_stripe_count ≤ lod_comp.llc_ostlist.op_array.length)
    (hgood : ∀ t ∈ lod_comp.llc_ostlist.op_array.take lod_comp.llc_stripe_count,
      cfs_bitmap_check s.lod.lod_ost_bitmap t = true ∧ (OST_TGT s.lod t).ltd_active = true)
    (hoff : lod_comp.llc_stripe_offset = LOV_OFFSET_DEFAULT ∨
      lod_comp.llc_stripe_offset ∈ lod_comp.llc_ostlist.op_array.take lod_comp.llc_stripe_count)
    (hs : lod_comp.llc_stripe_count ≤ stripe.length)
    (hi : lod_comp.llc_stripe_count ≤ ost_indices.length) :
    ∃ rc a, lod_alloc_ost_list w s stripe ost_indices comp_idx = some (rc, a) ∧
      ((rc = 0 ∧ a.stripe_idx = lod_comp.llc_stripe_count) ∨
       (rc = -EINVAL ∧ lod_comp.llc_pattern &&& LOV_PATTERN_OVERSTRIPING = 0)) := by
  have hne : ¬ lod_comp.llc_ostlist.op_array = [] := by
    intro e
    rw [e] at hlen
    simp only [List.length_nil] at hlen
    omega
  obtain ⟨c1, c2, -, -, c5⟩ := lod_qos_ost_in_use_clear_ok hw s lod_comp.llc_stripe_count
  have hclr : ¬ (lod_qos_ost_in_use_clear w s lod_comp.llc_stripe_count).1 < 0 := by
    rw [c1]
    decide
  generalize hlc : (if lod_comp.llc_stripe_offset = LOV_OFFSET_DEFAULT then
      { lod_comp with llc_stripe_offset := lod_comp.llc_ostlist.op_array.headD 0 }
    else lod_comp) = lc
  have hL : lc.llc_ostlist = lod_comp.llc_ostlist := by
    rw [← hlc]
    split <;> rfl
  have hcnt : lc.llc_stripe_count = lod_comp.llc_stripe_count := by
    rw [← hlc]
    split <;> rfl
  have hpat : lc.llc_pattern = lod_comp.llc_pattern := by
    rw [← hlc]
    split <;> rfl
  have hoffin : lc.llc_stripe_offset ∈
      lod_comp.llc_ostlist.op_array.take lod_comp.llc_stripe_count := by
    rw [← hlc]
    split
    · show lod_comp.llc_ostlist.op_array.headD 0 ∈ _
      cases hl : lod_comp.llc_ostlist.op_array with
      | nil => exact absurd hl hne
      | cons x xs =>
        obtain ⟨n, hn⟩ : ∃ n, lod_comp.llc_stripe_count = n + 1 := ⟨_, (Nat.succ_pred_eq_of_pos hc).symm⟩
        rw [hn, List.take_succ_cons]
        exact List.mem_cons_self _ _
    · rename_i hd
      rcases hoff with h | h
      · exact absurd h hd
      · exact h
  obtain ⟨q, hq1, hq2⟩ := List.mem_take_iff_getElem.mp hoffin
  have hq3 : q < lod_comp.llc_stripe_count ∧ q < lod_comp.llc_ostlist.op_array.length := by
    omega
  obtain ⟨p, hp1, -, hp3⟩ := @array_find_hit lc.llc_ostlist.op_array
    lc.llc_stripe_offset lc.llc_stripe_count 0 q (Nat.zero_le _)
    (by rw [hcnt]; omega)
    (by rw [hL, List.getElem?_eq_getElem hq3.2, hq2])
  have hrun : ost_list_run s.lod lc.llc_stripe_count p 0
      { a := { sys := (lod_qos_ost_in_use_clear w s lod_comp.llc_stripe_count).2.set_comp
                 comp_idx lc,
               stripe := stripe, ost_indices := ost_indices, stripe_idx := 0,
               overstriped := false },
        array_idx := p, rc := (lod_qos_ost_in_use_clear w s lod_comp.llc_stripe_count).1 } :=
    ⟨c2, rfl, by rw [Nat.add_zero, Nat.mod_eq_of_lt (by rw [hcnt]; omega)],
      by rw [hcnt]; exact c5, by rw [hcnt]; exact hs, by rw [hcnt]; exact hi, c1⟩
  obtain ⟨st, hloop, hend⟩ := for_loop_total
    (fun i st => ost_list_run s.lod lc.llc_stripe_count p i st)
    (fun st => st.rc = -EINVAL ∧ lc.llc_pattern &&& LOV_PATTERN_OVERSTRIPING = 0)
    (lod_alloc_ost_list_body w lc) lc.llc_stripe_count
    (fun i st hi0 hP => lod_alloc_ost_list_body_total hw (by rw [hL, hcnt]; exact hlen)
      (by rw [hL, hcnt]; exact hgood) hi0 hP)
    lc.llc_stripe_count 0 _ (by omega) hrun
  refine ⟨st.rc, st.a, ?_, ?_⟩
  · unfold lod_alloc_ost_list
    rw [hcomp]
    simp only [if_neg hne, if_neg hclr, hlc, hp1, hloop]
  · rcases hend with h | h
    · rw [Nat.zero_add] at h
      exact Or.inl ⟨h.rc0, by rw [h.idx, hcnt]⟩
    · exact Or.inr ⟨h.1, by rw [← hpat]; exact h.2⟩

/-- C23: for a component with an explicit target list, visited from the start
position in list order.  Without `OVERSTRIPING`: whenever `lod_alloc_ost_list`
returns after visiting a target (the `k`-th visited, all earlier ones placed)
that repeats an earlier visited one, the result is `-EINVAL`; and on a healthy
system, if the visited window of the list holds a repetition, the function
does return `-EINVAL`.  With `OVERSTRIPING`: on a healthy system the function
returns 0 with every stripe placed, whatever repetitions the list holds. -/
theorem C23_explicit_list_repetition (w : lod_backend) (s : lod_sys)
    (stripe : List (Option dt_object)) (ost_indices : List Nat) (comp_idx : Nat)
    (lod_comp : lod_layout_component)
    (hcomp : s.lo.ldo_comp_entries[comp_idx]? = some lod_comp) :
    (lod_comp.llc_pattern &&& LOV_PATTERN_OVERSTRIPING = 0 →
      (∀ rc a, lod_alloc_ost_list w s stripe ost_indices comp_idx = some (rc, a) →
        ∀ j k t, j < k → k ≤ a.stripe_idx → k < lod_comp.llc_stripe_count →
          lod_comp.llc_ostlist.op_array[(ost_list_start lod_comp + j) %
            lod_comp.llc_stripe_count]? = some t →
          lod_comp.llc_ostlist.op_array[(ost_list_start lod_comp + k) %
            lod_comp.llc_stripe_count]? = some t →
          rc = -EINVAL) ∧
      (ost_list_ready w s stripe ost_indices lod_comp →
        (∃ j k, j < k ∧ k < lod_comp.llc_stripe_count ∧
          lod_comp.llc_ostlist.op_array[(ost_list_start lod_comp + j) %
            lod_comp.llc_stripe_count]? =
          lod_comp.llc_ostlist.op_array[(ost_list_start lod_comp + k) %
            lod_comp.llc_stripe_count]?) →
        ∃ a, lod_alloc_ost_list w s stripe ost_indices comp_idx = some (-EINVAL, a))) ∧
    (lod_comp.llc_pattern &&& LOV_PATTERN_OVERSTRIPING ≠ 0 →
      ost_list_ready w s stripe ost_indices lod_comp →
      ∃ a, lod_alloc_ost_list w s stripe ost_indices comp_idx = some (0, a) ∧
        a.stripe_idx = lod_comp.llc_stripe_count) := by
  refine ⟨fun hov => ⟨fun rc a hr j k t hjk hk hkc htj htk =>
    lod_alloc_ost_list_repeat_invalid hcomp hov hr hjk hk hkc htj htk, fun hrdy hrep => ?_⟩,
    fun hov hrdy => ?_⟩
  · obtain ⟨j, k, hjk, hkc, hsame⟩ := hrep
    obtain ⟨rc, a, hr, hend⟩ := lod_alloc_ost_list_returns hrdy.backend hcomp hrdy.count_pos
      hrdy.list_len hrdy.good hrdy.offset hrdy.stripe_len hrdy.inds_len
    rcases hend with ⟨-, hidx⟩ | ⟨hrc, -⟩
    · have hlt : (ost_list_start lod_comp + k) % lod_comp.llc_stripe_count <
          lod_comp.llc_ostlist.op_array.length :=
        Nat.lt_of_lt_of_le (Nat.mod_lt _ hrdy.count_pos) hrdy.list_len
      have htk := List.getElem?_eq_getElem hlt
      have hrc := lod_alloc_ost_list_repeat_invalid hcomp hov hr hjk (by omega) hkc
        (hsame.trans htk) htk
      rw [hrc] at hr
      exact ⟨a, hr⟩
    · rw [hrc] at hr
      exact ⟨a, hr⟩
  · obtain ⟨rc, a, hr, hend⟩ := lod_alloc_ost_list_returns hrdy.backend hcomp hrdy.count_pos
      hrdy.list_len hrdy.good hrdy.offset hrdy.stripe_len hrdy.inds_len
    rcases hend with ⟨hrc, hidx⟩ | ⟨-, h0⟩
    · rw [hrc] at hr
      exact ⟨a, hr, hidx⟩
    · exact absurd h0 hov

theorem C23_explicit_list_repetition_witness :
    (∃ a, lod_alloc_ost_list (healthy_backend false) c23_sys (List.replicate 4 none)
        (List.replicate 4 0) 0 = some (-EINVAL, a)) ∧
    (∃ a, lod_alloc_ost_list (healthy_backend false) s3_sys (List.replicate 4 none)
        (List.replicate 4 0) 0 = some (0, a) ∧ a.stripe_idx = 4) :=
  have hw : healthy (healthy_backend false) :=
    ⟨fun _ _ => rfl, fun _ _ => rfl,
      fun _ _ => (by decide : healthy_statfs.os_fprecreated ≠ 0), fun _ _ => rfl,
      fun _ => rfl, fun _ => rfl⟩
  ⟨((C23_explicit_list_repetition (healthy_backend false) c23_sys (List.replicate 4 none)
      (List.replicate 4 0) 0 c23_comp rfl).1 (by decide)).2
      ⟨hw, by decide, by decide, by decide, Or.inl rfl, by decide, by decide⟩
      ⟨0, 2, by decide, by decide, by decide⟩,
    (C23_explicit_list_repetition (healthy_backend false) s3_sys (List.replicate 4 none)
      (List.replicate 4 0) 0 s3_comp rfl).2 (by decide)
      ⟨hw, by decide, by decide, by decide, Or.inl rfl, by decide, by decide⟩⟩

theorem lod_alloc_qos_draws_finish {w : lod_backend} {s : lod_sys}
    {stripe : List (Option dt_object)} {ost_indices : List Nat} {flags comp_idx n : Nat}
    {st : qos_pick_state}
    (hd : lod_alloc_qos_draws w s stripe ost_indices flags comp_idx = some (n, st)) :
    lod_alloc_qos w s stripe ost_indices flags comp_idx =
      lod_alloc_qos_finish comp_idx n (some st) := by
  unfold lod_alloc_qos_draws at hd
  unfold lod_alloc_qos lod_alloc_qos_finish
  split at hd
  · contradiction
  · rename_i c hcomp
    simp only at hd
    try simp only
    split at hd
    · contradiction
    · rename_i h2
      rw [if_neg h2]
      split at hd
      · contradiction
      · rename_i h3
        rw [if_neg h3]
        split at hd
        · contradiction
        · rename_i per h4
          try simp only
          split at hd
          · contradiction
          · rename_i h5
            rw [if_neg h5]
            split at hd
            · contradiction
            · rename_i h6
              rw [if_neg h6]
              split at hd
              · contradiction
              · rename_i sc h7
                try simp only
                split at hd
                · contradiction
                · rename_i h8
                  rw [if_neg h8]
                  split at hd
                  · contradiction
                  · rename_i h9
                    rw [if_neg h9]
                    split at hd
                    · contradiction
                    · rename_i st1 h10
                      simp only [Option.some.injEq, Prod.mk.injEq] at hd
                      obtain ⟨rfl, rfl⟩ := hd
                      rfl

theorem stripes_filled.keep_sys {a : alloc_state} (h : stripes_filled a) (x : lod_sys) (ov : Bool) :
    stripes_filled { a with sys := x, overstriped := ov } := h

theorem stripes_filled.after_commit {a a1 : alloc_state} {ost_idx : Nat} {o : dt_object}
    (h : stripes_filled a) (hc : a.commit ost_idx o = some a1) : stripes_filled a1 := by
  obtain ⟨c1, c2⟩ := alloc_state.commit_stripe hc
  have c3 := (alloc_state.commit_spec hc).1
  intro i hi
  rw [c3] at hi
  rw [c2]
  by_cases hia : i = a.stripe_idx
  · subst hia
    exact ⟨o, List.getElem?_set_self c1⟩
  · rw [List.getElem?_set_ne (Ne.symm hia)]
    exact h i (by omega)

theorem lod_alloc_qos_pick_body_filled {w : lod_backend} {osts : ost_pool}
    {comp_idx rand i : Nat} {st st1 : qos_pick_state} {b : Bool}
    (h : stripes_filled st.a)
    (hr : lod_alloc_qos_pick_body w osts comp_idx rand i st = some (st1, b)) :
    stripes_filled st1.a := by
  unfold lod_alloc_qos_pick_body at hr
  split at hr
  · simp only at hr
    repeat' first
      | contradiction
      | (simp only [Option.some.injEq, Prod.mk.injEq] at hr
         obtain ⟨rfl, -⟩ := hr
         first
          | exact h
          | exact h.keep_sys _ _
          | (apply stripes_filled.keep_sys
             apply stripes_filled.after_commit _ (by assumption)
             exact h.keep_sys _ _))
      | split at hr
  · contradiction

theorem lod_alloc_qos_round_filled {w : lod_backend} {osts : ost_pool}
    {comp_idx stripe_count n : Nat} {st st1 : qos_pick_state} {b : Bool}
    (h : stripes_filled st.a)
    (hr : lod_alloc_qos_round w osts comp_idx stripe_count n st = some (st1, b)) :
    stripes_filled st1.a := by
  unfold lod_alloc_qos_round at hr
  simp only at hr
  split at hr
  · simp only [Option.some.injEq, Prod.mk.injEq] at hr
    obtain ⟨rfl, -⟩ := hr
    exact h
  · split at hr
    · contradiction
    · rename_i st2 hloop
      have h2 := for_loop_inv (fun x : qos_pick_state => stripes_filled x.a) _
        (fun _ _ _ _ hx hb => lod_alloc_qos_pick_body_filled hx hb) _ _ _ _
        (by exact h) hloop
      split at hr <;> simp only [Option.some.injEq, Prod.mk.injEq] at hr <;>
        obtain ⟨rfl, -⟩ := hr <;> exact h2

theorem lod_alloc_qos_draws_filled {w : lod_backend} {s : lod_sys}
    {stripe : List (Option dt_object)} {ost_indices : List Nat} {flags comp_idx n : Nat}
    {st : qos_pick_state}
    (hd : lod_alloc_qos_draws w s stripe ost_indices flags comp_idx = some (n, st)) :
    stripes_filled st.a := by
  unfold lod_alloc_qos_draws at hd
  simp only at hd
  repeat' first
    | contradiction
    | (simp only [Option.some.injEq, Prod.mk.injEq] at hd
       obtain ⟨-, rfl⟩ := hd
       apply for_loop_inv (fun x : qos_pick_state => stripes_filled x.a) _
         (fun _ _ _ _ hx hb => lod_alloc_qos_round_filled hx hb) _ _ _ _ _ (by assumption)
       intro i hi
       exact absurd hi (Nat.not_lt_zero i))
    | split at hd

theorem lod_alloc_qos_release_body_step {a0 a : alloc_state} {k : Nat}
    (hf : stripes_filled a0) (hk : k < a0.stripe_idx) (h : qos_release_inv a0 k a) :
    ∃ a1, lod_alloc_qos_release_body k a = some (a1, false) ∧ qos_release_inv a0 (k + 1) a1 := by
  obtain ⟨o, ho⟩ := hf k hk
  have hcur : a.stripe[k]? = some (some o) := by
    rw [h.rest k (Nat.le_refl k)]
    exact ho
  have hlt : k < a.stripe.length := (List.getElem?_eq_some.mp hcur).1
  refine ⟨{ a with sys := dt_object_put a.sys o, stripe := a.stripe.set k none }, ?_, ?_⟩
  · unfold lod_alloc_qos_release_body
    rw [hcur]
  · obtain ⟨picked, p1, p2, p3⟩ := h.picked
    refine ⟨h.lod_eq, h.idx, h.inds, ⟨picked ++ [o], ?_, ?_, ?_⟩, ?_, ?_⟩
    · rw [List.length_append, p1]
      rfl
    · intro i x hx
      by_cases hi : i < picked.length
      · rw [List.getElem?_append_left hi] at hx
        exact p2 i x hx
      · have hge : picked.length ≤ i := Nat.le_of_not_lt hi
        rw [List.getElem?_append_right hge] at hx
        have hi0 : i - picked.length = 0 := by
          by_contra hne
          rw [List.getElem?_eq_none (by simp only [List.length_singleton]; omega)] at hx
          contradiction
        rw [hi0, List.getElem?_cons_zero, Option.some.injEq] at hx
        subst hx
        have : i = k := by omega
        rw [this]
        exact ho
    · show o :: a.sys.released = _
      rw [p3, List.reverse_append]
      rfl
    · intro i hi
      show (a.stripe.set k none)[i]? = some none
      by_cases hik : i = k
      · subst hik
        exact List.getElem?_set_self hlt
      · rw [List.getElem?_set_ne (Ne.symm hik)]
        exact h.empty i (by omega)
    · intro i hi
      show (a.stripe.set k none)[i]? = _
      rw [List.getElem?_set_ne (by omega)]
      exact h.rest i (by omega)

theorem lod_alloc_qos_finish_short {comp_idx n : Nat} {st : qos_pick_state}
    (hf : stripes_filled st.a) (hshort : st.a.stripe_idx ≠ n) :
    ∃ a1, lod_alloc_qos_finish comp_idx n (some st) = some (-EAGAIN, qos_mark_dirty a1) ∧
      qos_release_inv st.a st.a.stripe_idx a1 := by
  have h0 : qos_release_inv st.a 0 st.a :=
    ⟨rfl, rfl, rfl, ⟨[], rfl, fun i o hx => by simp at hx, rfl⟩,
      fun i hi => absurd hi (Nat.not_lt_zero i), fun _ _ => rfl⟩
  obtain ⟨a1, hloop, hinv⟩ := for_loop_steps (fun k a => qos_release_inv st.a k a)
    lod_alloc_qos_release_body st.a.stripe_idx
    (fun k a hk hI => lod_alloc_qos_release_body_step hf hk hI)
    st.a.stripe_idx 0 st.a (Nat.zero_add _) h0
  refine ⟨a1, ?_, hinv⟩
  unfold lod_alloc_qos_finish qos_mark_dirty
  simp only [hshort, ne_eq, not_false_eq_true, if_true, hloop]

/-- C30: for every `lod_alloc_qos` call whose weighted sampling loop ends in a
state `st` with a number of picks `st.a.stripe_idx` other than the (adjusted)
stripe count: the call returns `-EAGAIN`, the QoS dirty flag is set, every
placeholder picked (the objects `picked` of the first `stripe_idx` slots of the
stripe buffer) has been released, the last one first, and each of those slots
is reset to empty. -/
theorem C30_qos_shortfall_releases (w : lod_backend) (s : lod_sys)
    (stripe : List (Option dt_object)) (ost_indices : List Nat) (flags comp_idx n : Nat)
    (st : qos_pick_state)
    (hd : lod_alloc_qos_draws w s stripe ost_indices flags comp_idx = some (n, st))
    (hshort : st.a.stripe_idx ≠ n) :
    ∃ (a : alloc_state) (picked : List dt_object),
      lod_alloc_qos w s stripe ost_indices flags comp_idx = some (-EAGAIN, a) ∧
      a.sys.lod.lod_qos.lq_dirty = true ∧
      picked.length = st.a.stripe_idx ∧
      (∀ (i : Nat) (o : dt_object), picked[i]? = some o → st.a.stripe[i]? = some (some o)) ∧
      a.sys.released = picked.reverse ++ st.a.sys.released ∧
      (∀ i : Nat, i < st.a.stripe_idx → a.stripe[i]? = some none) := by
  obtain ⟨a1, hfin, hinv⟩ := @lod_alloc_qos_finish_short comp_idx n st
    (lod_alloc_qos_draws_filled hd) hshort
  obtain ⟨picked, p1, p2, p3⟩ := hinv.picked
  exact ⟨qos_mark_dirty a1, picked, (lod_alloc_qos_draws_finish hd).trans hfin, rfl, p1, p2, p3,
    hinv.empty⟩

theorem C30_qos_shortfall_releases_witness :
    ∃ (st : qos_pick_state) (a : alloc_state) (picked : List dt_object),
      lod_alloc_qos_draws (s5_backend (fun _ => 6)) (s5_in false) [none, none] [0, 0] 0 1 =
        some (2, st) ∧
      st.a.stripe_idx = 1 ∧
      lod_alloc_qos (s5_backend (fun _ => 6)) (s5_in false) [none, none] [0, 0] 0 1 =
        some (-EAGAIN, a) ∧
      a.sys.lod.lod_qos.lq_dirty = true ∧
      picked.length = 1 ∧
      (∀ (i : Nat) (o : dt_object), picked[i]? = some o → st.a.stripe[i]? = some (some o)) ∧
      a.sys.released = picked.reverse ++ st.a.sys.released ∧
      (∀ i : Nat, i < 1 → a.stripe[i]? = some none) := by
  have h : (lod_alloc_qos_draws (s5_backend (fun _ => 6)) (s5_in false) [none, none] [0, 0]
      0 1).map (fun r => (r.1, r.2.a.stripe_idx)) = some (2, 1) := by
    decide
  obtain ⟨⟨n, st⟩, h1, h2⟩ := Option.map_eq_some'.mp h
  simp only [Prod.mk.injEq] at h2
  obtain ⟨rfl, h3⟩ := h2
  obtain ⟨a, picked, e1, e2, e3, e4, e5, e6⟩ := C30_qos_shortfall_releases
    (s5_backend (fun _ => 6)) (s5_in false) [none, none] [0, 0] 0 1 2 st h1
    (by rw [h3]; decide)
  rw [h3] at e3 e6
  exact ⟨st, a, picked, h1, h3, e1, e2, e3, e4, e5, e6⟩

/-! ## C34: what a sweep of `lod_qos_statfs_update` marks dirty -/

/-- What `lod_statfs_and_check` does to the two dirty flags: both are set
exactly when the active flag of the probed target changes. -/
theorem lod_statfs_and_check_dirty {w : lod_backend} {s s1 : lod_sys} {index : Nat}
    {rc : Int} {sfs : obd_statfs}
    (h : lod_statfs_and_check w s index = some (rc, s1, sfs)) :
    s1.lod.lod_qos.lq_dirty = (s.lod.lod_qos.lq_dirty ||
      decide ((OST_TGT s1.lod index).ltd_active ≠ (OST_TGT s.lod index).ltd_active)) ∧
    s1.lod.lod_qos.lq_rr.lqr_dirty = (s.lod.lod_qos.lq_rr.lqr_dirty ||
      decide ((OST_TGT s1.lod index).ltd_active ≠ (OST_TGT s.lod index).ltd_active)) := by
  unfold lod_statfs_and_check at h
  simp only at h
  split_ifs at h <;> simp only [Option.some.injEq, Prod.mk.injEq] at h <;>
    obtain ⟨-, rfl, -⟩ := h <;>
    simp only [lod_sys.tick, OST_TGT, lod_device.set_tgt] at * <;> simp_all

/-- One step of the sweep: the QoS flag accumulates changed space and flipped
targets, the round-robin flag only flipped targets. -/
theorem lod_qos_statfs_update_body_dirty {w : lod_backend} {osts : ost_pool} {i : Nat}
    {s s1 : lod_sys} {b : Bool} (h : lod_qos_statfs_update_body w osts i s = some (s1, b)) :
    (sweep_bavail_changed w osts i s = true → s1.lod.lod_qos.lq_dirty = true) ∧
    s1.lod.lod_qos.lq_rr.lqr_dirty =
      (s.lod.lod_qos.lq_rr.lqr_dirty || sweep_active_flipped w osts i s) ∧
    (s.lod.lod_qos.lq_dirty = true → s1.lod.lod_qos.lq_dirty = true) := by
  unfold lod_qos_statfs_update_body at h
  unfold sweep_bavail_changed sweep_active_flipped
  split at h
  · contradiction
  · rename_i idx hidx
    simp only at h
    split at h
    · contradiction
    · rename_i rc x1 sfs hc
      obtain ⟨hq, hrr⟩ := lod_statfs_and_check_dirty hc
      try simp only [hidx, hc]
      split_ifs at h with h1 h2 <;> simp only [Option.some.injEq, Prod.mk.injEq] at h <;>
        obtain ⟨rfl, -⟩ := h
      · refine ⟨?_, ?_, ?_⟩
        · simp [h1]
        · simpa [lod_device.set_tgt] using hrr
        · intro h0
          simp [lod_device.set_tgt, hq, h0]
      · refine ⟨fun _ => rfl, ?_, fun _ => rfl⟩
        simpa [lod_device.set_tgt] using hrr
      · refine ⟨?_, ?_, ?_⟩
        · intro hch
          exfalso
          apply h2
          simp [OST_TGT, lod_device.set_tgt] at hch ⊢
          exact hch.2
        · simpa [lod_device.set_tgt] using hrr
        · intro h0
          simp [lod_device.set_tgt, hq, h0]

/-- A flag that every iteration keeps once set, and that an iteration with
`e` sets, is set at the end of a loop one of whose iterations has `e`. -/
theorem for_loop_heads_sets {σ : Type} (f : σ → Bool) (e : Nat → σ → Bool)
    (body : Nat → σ → Option (σ × Bool))
    (hstep : ∀ i s s1 b, body i s = some (s1, b) →
      (e i s = true → f s1 = true) ∧ (f s = true → f s1 = true)) :
    ∀ fuel i s s1, for_loop body fuel i s = some s1 →
      (for_loop_heads body fuel i s).any (fun p => e p.1 p.2) = true → f s1 = true := by
  intro fuel
  induction fuel with
  | zero =>
    intro i s s1 _ h
    simp [for_loop_heads] at h
  | succ n ih =>
    intro i s s1 h hany
    simp only [for_loop] at h
    simp only [for_loop_heads, List.any_cons, Bool.or_eq_true] at hany
    split at h
    · contradiction
    · rename_i s2 hb
      simp only [Option.some.injEq] at h
      subst h
      rcases hany with he | hany
      · exact (hstep _ _ _ _ hb).1 he
      · simp [hb] at hany
    · rename_i s2 hb
      rcases hany with he | hany
      · exact for_loop_inv (fun x => f x = true) body
          (fun j a a1 b ha hb1 => (hstep _ _ _ _ hb1).2 ha) _ _ _ _ ((hstep _ _ _ _ hb).1 he) h
      · simp only [hb] at hany
        exact ih _ _ _ h hany

/-- C34: in a sweep of `lod_qos_statfs_update` (cached data stale) that
returns, a target whose probe succeeds with a changed `os_bavail` sets the QoS
dirty flag `lq_dirty`; the round-robin dirty flag `lqr_dirty` is set on return
exactly when it was set before or the sweep changed the active flag of some
target. -/
theorem C34_sweep_dirty_flags (w : lod_backend) (s s1 : lod_sys)
    (hstale : ¬ s.lod.obd_osfs_age > w.ktime_get_seconds s.clock - 2 * s.lod.lod_desc.ld_qos_maxage)
    (hr : lod_qos_statfs_update w s = some s1) :
    (((for_loop_heads (lod_qos_statfs_update_body w s.lod.lod_pool_info)
        s.lod.lod_pool_info.op_count 0 s.tick).any
        (fun p => sweep_bavail_changed w s.lod.lod_pool_info p.1 p.2)) = true →
      s1.lod.lod_qos.lq_dirty = true) ∧
    s1.lod.lod_qos.lq_rr.lqr_dirty = (s.lod.lod_qos.lq_rr.lqr_dirty ||
      (for_loop_heads (lod_qos_statfs_update_body w s.lod.lod_pool_info)
        s.lod.lod_pool_info.op_count 0 s.tick).any
        (fun p => sweep_active_flipped w s.lod.lod_pool_info p.1 p.2)) := by
  unfold lod_qos_statfs_update at hr
  simp only [lod_sys.tick] at hr
  rw [if_neg hstale] at hr
  split at hr
  · contradiction
  · rename_i x hx
    simp only [Option.some.injEq] at hr
    subst hr
    refine ⟨fun hany => ?_, ?_⟩
    · exact for_loop_heads_sets (fun x => x.lod.lod_qos.lq_dirty)
        (sweep_bavail_changed w s.lod.lod_pool_info) _
        (fun i a a1 b hb => ⟨(lod_qos_statfs_update_body_dirty hb).1,
          (lod_qos_statfs_update_body_dirty hb).2.2⟩) _ _ _ _ hx hany
    · exact for_loop_heads_any (fun x => x.lod.lod_qos.lq_rr.lqr_dirty)
        (sweep_active_flipped w s.lod.lod_pool_info) _
        (fun i a a1 b hb => (lod_qos_statfs_update_body_dirty hb).2.1) _ _ _ _ hx

/-- Witness of C34, on two active targets whose available space changes from
100 to 50: the QoS flag is set, the round-robin flag stays clear. -/
theorem C34_sweep_dirty_flags_witness :
    ∃ s1, lod_qos_statfs_update c34_backend c34_sys = some s1 ∧
      s1.lod.lod_qos.lq_dirty = true ∧ s1.lod.lod_qos.lq_rr.lqr_dirty = false := by
  have h0 : (lod_qos_statfs_update c34_backend c34_sys).isSome = true := by decide
  obtain ⟨s1, hs1⟩ := Option.isSome_iff_exists.mp h0
  have h := C34_sweep_dirty_flags c34_backend c34_sys s1 (by decide) hs1
  refine ⟨s1, hs1, h.1 (by decide), ?_⟩
  rw [h.2]
  decide

/-- Counterexample to C34 as stated: the probes of both targets succeed with a
changed `os_bavail` (50 against a cached 100), the sweep returns with
`lq_dirty` set and the round-robin flag `lqr_dirty` still clear. -/
theorem C34_counterexample :
    (for_loop_heads (lod_qos_statfs_update_body c34_backend c34_sys.lod.lod_pool_info)
        c34_sys.lod.lod_pool_info.op_count 0 c34_sys.tick).length = 2 ∧
    (for_loop_heads (lod_qos_statfs_update_body c34_backend c34_sys.lod.lod_pool_info)
        c34_sys.lod.lod_pool_info.op_count 0 c34_sys.tick).all
      (fun p => sweep_bavail_changed c34_backend c34_sys.lod.lod_pool_info p.1 p.2) = true ∧
    (lod_qos_statfs_update c34_backend c34_sys).map
      (fun s1 => (s1.lod.lod_qos.lq_dirty, s1.lod.lod_qos.lq_rr.lqr_dirty, s1.lod.obd_osfs_age)) =
      some (true, false, 100) := by
  decide

/-! ## C39: the counter of available targets on a mirrored object -/

theorem lod_statfs_and_check_guide {w : lod_backend} {s s1 : lod_sys} {index : Nat}
    {rc : Int} {sfs : obd_statfs}
    (h : lod_statfs_and_check w s index = some (rc, s1, sfs)) :
    s1.lti = s.lti ∧ s1.lo = s.lo := by
  unfold lod_statfs_and_check at h
  simp only at h
  split_ifs at h <;> simp only [Option.some.injEq, Prod.mk.injEq] at h <;>
    obtain ⟨-, rfl, -⟩ := h <;> exact ⟨rfl, rfl⟩

theorem lod_qos_declare_object_on_guide {w : lod_backend} {s s1 : lod_sys} {ost_idx : Nat}
    {r : Except Int dt_object}
    (h : lod_qos_declare_object_on w s ost_idx = some (s1, r)) :
    s1.lti = s.lti ∧ s1.lo = s.lo := by
  unfold lod_qos_declare_object_on at h
  simp only at h
  split_ifs at h <;> simp only [Option.some.injEq, Prod.mk.injEq] at h <;>
    obtain ⟨rfl, -⟩ := h <;> exact ⟨rfl, rfl⟩

theorem alloc_state.commit_guide {a a1 : alloc_state} {ost_idx : Nat} {o : dt_object}
    (hc : a.commit ost_idx o = some a1) :
    a1.sys.lti.lti_avoid = a.sys.lti.lti_avoid ∧ a1.stripe_idx = a.stripe_idx + 1 := by
  unfold alloc_state.commit lod_qos_ost_in_use at hc
  split at hc
  · contradiction
  · rename_i s1 hs1
    split at hs1
    · contradiction
    · simp only [Option.some.injEq] at hs1
      subst hs1
      split at hc
      · simp only [Option.some.injEq] at hc
        subst hc
        exact ⟨rfl, rfl⟩
      · contradiction

/-- C39 (divergence): on a mirrored (FLR) object, a call of
`lod_check_and_reserve_ost` that reserves a target (the stripe index advances)
applies `lod_avoid_update`, which decrements `lag_ost_avail` modulo `2 ^ 32`
whatever its value and leaves the rest of the guide alone; a call that reserves
nothing leaves the guide alone.  When the counter is 0 before the call,
`lod_should_avoid_ost` answers false for every existing target (the test
`lag_ost_avail == 0`), and a reservation made then takes the counter to
`2 ^ 32 - 1`, after which `lod_should_avoid_ost` answers with the bit of the
avoid-bitmap for every existing target whose server is in the avoid-array: the
marked targets are avoided again. -/
theorem C39_reserve_decrements_avail (w : lod_backend) (a a1 : alloc_state)
    (comp_idx ost_idx speed : Nat) (rc : Int) (hflr : lod_is_flr a.sys.lo = true)
    (hr : lod_check_and_reserve_ost w a comp_idx ost_idx speed = some (rc, a1)) :
    (a1.stripe_idx = a.stripe_idx ∨ a1.stripe_idx = a.stripe_idx + 1) ∧
    a1.sys.lti.lti_avoid =
      (if a1.stripe_idx = a.stripe_idx + 1 then
        { a.sys.lti.lti_avoid with
          lag_ost_avail := (a.sys.lti.lti_avoid.lag_ost_avail + (2 ^ 32 - 1)) % 2 ^ 32 }
      else a.sys.lti.lti_avoid) ∧
    (a.sys.lti.lti_avoid.lag_ost_avail = 0 →
      (∀ idx, cfs_bitmap_check a.sys.lod.lod_ost_bitmap idx = true →
        lod_should_avoid_ost a.sys.lod a.sys.lti.lti_avoid idx = some false) ∧
      (a1.stripe_idx = a.stripe_idx + 1 →
        a1.sys.lti.lti_avoid.lag_ost_avail = 2 ^ 32 - 1 ∧
        ∀ (idx : Nat) (lsq : lu_svr_qos) (arr : List Nat) (bm : cfs_bitmap),
          cfs_bitmap_check a1.sys.lod.lod_ost_bitmap idx = true →
          a.sys.lti.lti_avoid.lag_oaa_count ≠ 0 →
          a1.sys.lod.lod_qos.lq_svr_list[(OST_TGT a1.sys.lod idx).ltq_svr]? = some lsq →
          a.sys.lti.lti_avoid.lag_oss_avoid_array = some arr →
          array_scan arr a.sys.lti.lti_avoid.lag_oaa_count lsq.lsq_id = some true →
          a.sys.lti.lti_avoid.lag_ost_avoid_bitmap = some bm →
          lod_should_avoid_ost a1.sys.lod a1.sys.lti.lti_avoid idx =
            some (cfs_bitmap_check bm idx))) := by
  have key : (a1.stripe_idx = a.stripe_idx ∧
        a1.sys.lti.lti_avoid = a.sys.lti.lti_avoid) ∨
      (a1.stripe_idx = a.stripe_idx + 1 ∧ a1.sys.lti.lti_avoid =
        { a.sys.lti.lti_avoid with
          lag_ost_avail := (a.sys.lti.lti_avoid.lag_ost_avail + (2 ^ 32 - 1)) % 2 ^ 32 }) := by
    unfold lod_check_and_reserve_ost at hr
    split at hr
    · contradiction
    rename_i lod_comp hcomp
    split at hr
    · contradiction
    rename_i rc0 s0 sfs hst
    obtain ⟨hlti, hlo⟩ := lod_statfs_and_check_guide hst
    simp only at hr
    have hskip : ∀ r : Int × alloc_state,
        some (rc0, ({ a with sys := { s0 with lti := { s0.lti with lti_osfs := sfs } } } :
          alloc_state)) = some r →
        (r.2.stripe_idx = a.stripe_idx ∧
          r.2.sys.lti.lti_avoid = a.sys.lti.lti_avoid) := by
      intro r h
      simp only [Option.some.injEq] at h
      subst h
      exact ⟨rfl, by show s0.lti.lti_avoid = _; rw [hlti]⟩
    repeat' first
      | contradiction
      | exact Or.inl (hskip _ hr)
      | split at hr
    · rename_i s2 e hd
      obtain ⟨h1, -⟩ := lod_qos_declare_object_on_guide hd
      simp only [Option.some.injEq, Prod.mk.injEq] at hr
      obtain ⟨-, rfl⟩ := hr
      left
      refine ⟨rfl, ?_⟩
      show s2.lti.lti_avoid = _
      rw [h1]
      show s0.lti.lti_avoid = _
      rw [hlti]
    · rename_i s2 o hd _ a2 hc
      obtain ⟨h1, h2⟩ := lod_qos_declare_object_on_guide hd
      · simp only [Option.some.injEq, Prod.mk.injEq] at hr
        obtain ⟨-, rfl⟩ := hr
        obtain ⟨h3, h4⟩ := alloc_state.commit_guide hc
        right
        refine ⟨h4, ?_⟩
        rw [h3]
        have hf : lod_is_flr s2.lo = true := by
          rw [h2]
          show lod_is_flr s0.lo = true
          rw [hlo]
          exact hflr
        show lod_avoid_update s2.lo s2.lti.lti_avoid = _
        unfold lod_avoid_update
        rw [if_neg (by simp [hf])]
        rw [h1]
        show ({ s0.lti.lti_avoid with lag_ost_avail := _ } : lod_avoid_guide) = _
        rw [hlti]
  have hzero : a.sys.lti.lti_avoid.lag_ost_avail = 0 →
      ∀ idx, cfs_bitmap_check a.sys.lod.lod_ost_bitmap idx = true →
        lod_should_avoid_ost a.sys.lod a.sys.lti.lti_avoid idx = some false := by
    intro h0 idx hlive
    unfold lod_should_avoid_ost
    simp only [hlive, Bool.true_eq_false, if_false, h0, if_true]
  rcases key with ⟨h1, h2⟩ | ⟨h1, h2⟩
  · refine ⟨Or.inl h1, ?_, fun h0 => ⟨hzero h0, fun h => ?_⟩⟩
    · rw [if_neg (by omega), h2]
    · omega
  · refine ⟨Or.inr h1, ?_, fun h0 => ⟨hzero h0, fun _ => ⟨?_, ?_⟩⟩⟩
    · rw [if_pos h1, h2]
    · rw [h2, h0]
      rfl
    · intro idx lsq arr bm hlive hcnt hsvr harr hscan hbm
      rw [h2]
      unfold lod_should_avoid_ost
      simp only [hlive, Bool.true_eq_false, if_false, h0, hcnt, hsvr, harr, hscan, hbm]
      rfl

/-- Witness of C39, on the failing input: the FLR object `c39_object` with no
target left available.  `lod_should_avoid_ost` answers false for target 1;
reserving target 0 succeeds and leaves `lag_ost_avail = 2 ^ 32 - 1`, and
`lod_should_avoid_ost` then answers true for the live target 1. -/
theorem C39_reserve_decrements_avail_witness :
    lod_is_flr c39_alloc.sys.lo = true ∧ c39_alloc.sys.lti.lti_avoid.lag_ost_avail = 0 ∧
    lod_should_avoid_ost c39_alloc.sys.lod c39_alloc.sys.lti.lti_avoid 1 = some false ∧
    ∃ a1, lod_check_and_reserve_ost (healthy_backend true) c39_alloc 1 0 1 = some (0, a1) ∧
      a1.stripe_idx = 1 ∧ a1.sys.lti.lti_avoid.lag_ost_avail = 2 ^ 32 - 1 ∧
      lod_should_avoid_ost a1.sys.lod a1.sys.lti.lti_avoid 1 = some true := by
  have h0 : (lod_check_and_reserve_ost (healthy_backend true) c39_alloc 1 0 1).map
      (fun r => (r.1, r.2.stripe_idx, cfs_bitmap_check r.2.sys.lod.lod_ost_bitmap 1,
        (r.2.sys.lod.lod_qos.lq_svr_list[(OST_TGT r.2.sys.lod 1).ltq_svr]?).map
          (fun o => o.lsq_id))) = some (0, 1, true, some 11) := by decide
  obtain ⟨⟨rc, a1⟩, hr, he⟩ := Option.map_eq_some'.mp h0
  simp only [Prod.mk.injEq] at he
  obtain ⟨rfl, h1, h2, h3⟩ := he
  obtain ⟨lsq, h4, h5⟩ := Option.map_eq_some'.mp h3
  have h := C39_reserve_decrements_avail (healthy_backend true) c39_alloc a1 1 0 1 _
    (by decide) hr
  obtain ⟨g1, g2⟩ := h.2.2 rfl
  obtain ⟨g3, g4⟩ := g2 h1
  refine ⟨by decide, rfl, g1 1 (by decide), a1, hr, h1, g3, ?_⟩
  have := g4 1 lsq [10, 11] { size := 2, data := fun i => decide (i = 0) || decide (i = 1) }
    h2 (by decide) h4 rfl (by rw [h5]; decide) rfl
  rw [this]
  rfl

/-- Failing input of C39.  On the FLR object `c39_object` the guide
collected for component 1 has `lag_ost_avail = 0` and both targets marked, and
`lod_should_avoid_ost` answers false for target 1; reserving target 0 applies
`lod_avoid_update` at 0, the counter becomes `2 ^ 32 - 1`, and
`lod_should_avoid_ost` now answers true for the live target 1.  The whole
`lod_qos_prep_create` of component 1 succeeds and leaves the counter at
`2 ^ 32 - 2`. -/
theorem C39_counterexample :
    (lod_collect_avoidance c39_sys.lod c39_sys.lo
        (lod_prepare_avoidance (healthy_backend true) c39_sys).2.lti.lti_avoid 1).map
      (fun lag => (lag.lag_ost_avail, lag.lag_oss_avoid_array, lag.lag_oaa_count,
        lag_ost_avoid_bit lag 0, lag_ost_avoid_bit lag 1)) =
      some (0, some [10, 11], 2, true, true) ∧
    cfs_bitmap_check c39_sys.lod.lod_ost_bitmap 1 = true ∧
    lod_should_avoid_ost c39_alloc.sys.lod c39_alloc.sys.lti.lti_avoid 1 = some false ∧
    (lod_check_and_reserve_ost (healthy_backend true) c39_alloc 1 0 1).map
      (fun r => (r.1, r.2.stripe_idx, r.2.sys.lti.lti_avoid.lag_ost_avail,
        lod_should_avoid_ost r.2.sys.lod r.2.sys.lti.lti_avoid 1)) =
      some (0, 1, 4294967295, some true) ∧
    (lod_qos_prep_create (healthy_backend false) c39_sys 1).map
      (fun r => (r.1, r.2.lti.lti_avoid.lag_ost_avail,
        (r.2.lo.ldo_comp_entries[1]?).map (fun c => c.llc_ost_indices))) =
      some (0, 4294967294, some (some [0, 1])) := by
  refine ⟨by decide, by decide, by decide, by decide, by decide⟩

/-! ## C32: the offset-anchored policy and the `OVERSTRIPING` bit -/

/-- The result `-ENOSPC` / `-EFBIG` computed after the last pass of
`lod_alloc_specific` is never 0, so the statement that clears the
`OVERSTRIPING` bit behind it is never run. -/
theorem lod_alloc_specific_tail_dead (stripe_num : Nat) (overstriped : Bool) :
    ¬ ((if stripe_num = 0 then -ENOSPC else -EFBIG : Int) = 0 ∧ overstriped = false) := by
  rintro ⟨h, -⟩
  split_ifs at h <;> simp [ENOSPC, EFBIG] at h

/-- The object is left alone by `lod_alloc_specific`, whatever the result. -/
theorem lod_alloc_specific_lo {w : lod_backend} {s : lod_sys}
    {stripe : List (Option dt_object)} {ost_indices : List Nat} {flags comp_idx : Nat}
    {rc : Int} {a : alloc_state}
    (hr : lod_alloc_specific w s stripe ost_indices flags comp_idx = some (rc, a)) :
    a.sys.lo = s.lo := by
  obtain ⟨c, hcomp⟩ := lod_alloc_specific_comp hr
  unfold lod_alloc_specific at hr
  simp only [hcomp] at hr
  have f1 := lod_qos_ost_in_use_clear_frame0 w s c.llc_stripe_count
  split at hr
  · simp only [Option.some.injEq, Prod.mk.injEq] at hr
    obtain ⟨-, rfl⟩ := hr
    exact f1.lo
  · split at hr
    · contradiction
    · rename_i st hloop
      have hcomp1 : (lod_qos_ost_in_use_clear w s c.llc_stripe_count).2.lo.ldo_comp_entries[
          comp_idx]? = some c := by rw [f1.lo]; exact hcomp
      have h2 := for_loop_inv (fun x => alloc_inv _ _ c.llc_pattern x.a) _
        (fun _ _ _ _ hx hb => lod_alloc_specific_pass_inv hcomp1 hx hb) _ _ _ _
        (alloc_inv.init _ _ _ _) hloop
      have h3 : st.a.sys.lo = s.lo := h2.lo_eq.trans f1.lo
      split at hr
      · simp only [Option.some.injEq, Prod.mk.injEq] at hr
        obtain ⟨-, rfl⟩ := hr
        exact h3
      · split at hr
        · contradiction
        · rw [if_neg (lod_alloc_specific_tail_dead _ _)] at hr
          simp only [Option.some.injEq, Prod.mk.injEq] at hr
          obtain ⟨-, rfl⟩ := hr
          exact h3

/-- C32 (divergence): `lod_qos_prep_create` on a component without explicit
target list and with a non-default stripe offset, which it hands to
`lod_alloc_specific`, never changes the stored pattern of that component,
whatever the result; in particular an `OVERSTRIPING` bit set before the call
is still set after a successful allocation in which no target got two
stripes. -/
theorem C32_specific_keeps_pattern (w : lod_backend) (s : lod_sys) (comp_idx : Nat)
    (lod_comp : lod_layout_component) (rc : Int) (s1 : lod_sys)
    (hcomp : s.lo.ldo_comp_entries[comp_idx]? = some lod_comp)
    (hlist : lod_comp.llc_ostlist.op_array = [])
    (hoff : lod_comp.llc_stripe_offset ≠ LOV_OFFSET_DEFAULT)
    (hr : lod_qos_prep_create w s comp_idx = some (rc, s1)) :
    ∃ c, s1.lo.ldo_comp_entries[comp_idx]? = some c ∧ c.llc_pattern = lod_comp.llc_pattern := by
  have h0 : comp_pattern_is s.lo comp_idx lod_comp.llc_pattern := ⟨lod_comp, hcomp, rfl⟩
  unfold lod_qos_prep_create at hr
  rw [hcomp] at hr
  simp only at hr
  split at hr
  · contradiction
  · split at hr
    · simp only [Option.some.injEq, Prod.mk.injEq] at hr
      obtain ⟨-, rfl⟩ := hr
      exact h0
    · split at hr
      · simp only [Option.some.injEq, Prod.mk.injEq] at hr
        obtain ⟨-, rfl⟩ := hr
        exact h0
      · split at hr
        · split at hr
          · contradiction
          · split at hr
            · contradiction
            · rename_i s2 hupd
              have h1 : comp_pattern_is s2.lo comp_idx lod_comp.llc_pattern :=
                h0.of_lo (lod_qos_statfs_update_lo hupd)
              split at hr
              · simp only [Option.some.injEq, Prod.mk.injEq] at hr
                obtain ⟨-, rfl⟩ := hr
                exact h1
              · split at hr
                · simp only [Option.some.injEq, Prod.mk.injEq] at hr
                  obtain ⟨-, rfl⟩ := hr
                  exact h1.set_comp rfl
                · split at hr
                  · simp only [Option.some.injEq, Prod.mk.injEq] at hr
                    obtain ⟨-, rfl⟩ := hr
                    exact h1.set_comp rfl
                  · unfold lod_qos_prep_create_alloc at hr
                    rw [if_neg (by simp only [hlist, ne_eq, not_true_eq_false, not_false_eq_true]),
                      if_neg hoff] at hr
                    split at hr
                    · contradiction
                    · rename_i rc1 a halloc
                      have hlo := lod_alloc_specific_lo halloc
                      have h2 : comp_pattern_is a.sys.lo comp_idx lod_comp.llc_pattern := by
                        refine comp_pattern_is.of_lo ?_ hlo
                        exact h1.set_comp rfl
                      split at hr
                      · contradiction
                      · rename_i comp2 hcomp2
                        have hp2 : comp2.llc_pattern = lod_comp.llc_pattern := by
                          obtain ⟨c, hc1, hc2⟩ := h2
                          rw [hcomp2] at hc1
                          simp only [Option.some.injEq] at hc1
                          rw [hc1]
                          exact hc2
                        split at hr
                        · split at hr
                          · contradiction
                          · rename_i s4 hput
                            simp only [Option.some.injEq, Prod.mk.injEq] at hr
                            obtain ⟨-, rfl⟩ := hr
                            exact (h2.of_lo (lod_qos_prep_create_put_lo hput)).set_comp hp2
                        · simp only [Option.some.injEq, Prod.mk.injEq] at hr
                          obtain ⟨-, rfl⟩ := hr
                          exact h2.set_comp hp2
        · split at hr
          · contradiction
          · rename_i st hloop
            have h1 : comp_pattern_is st.sys.lo comp_idx lod_comp.llc_pattern :=
              h0.of_lo (lod_qos_prep_create_declare_lo hloop)
            split at hr
            · contradiction
            · rename_i comp1 hcomp1
              simp only [Option.some.injEq, Prod.mk.injEq] at hr
              obtain ⟨-, rfl⟩ := hr
              apply h1.set_comp
              obtain ⟨c, hc1, hc2⟩ := h1
              rw [hcomp1] at hc1
              simp only [Option.some.injEq] at hc1
              rw [hc1]
              exact hc2

/-- Witness of C32: offset 1, 2 stripes, `OVERSTRIPING` set, 4 healthy targets;
the allocation succeeds on the targets `[1, 2]`, none repeated, and the stored
pattern still has `OVERSTRIPING`. -/
theorem C32_specific_keeps_pattern_witness :
    ∃ s1 c, lod_qos_prep_create (healthy_backend false) c32_sys 0 = some (0, s1) ∧
      s1.lo.ldo_comp_entries[0]? = some c ∧ c.llc_ost_indices = some [1, 2] ∧
      c.llc_pattern &&& LOV_PATTERN_OVERSTRIPING ≠ 0 := by
  have h : (lod_qos_prep_create (healthy_backend false) c32_sys 0).map
      (fun r => (r.1, r.2.lo.ldo_comp_entries.map (fun c => c.llc_ost_indices))) =
      some (0, [some [1, 2]]) := by decide
  obtain ⟨⟨rc, s1⟩, h1, h2⟩ := Option.map_eq_some'.mp h
  simp only [Prod.mk.injEq] at h2
  obtain ⟨rfl, h3⟩ := h2
  obtain ⟨c, hc1, hc2⟩ := C32_specific_keeps_pattern (healthy_backend false) c32_sys 0
    c32_comp 0 s1 (by decide) (by decide) (by decide) h1
  refine ⟨s1, c, h1, hc1, ?_, ?_⟩
  · have h4 : (s1.lo.ldo_comp_entries.map (fun c => c.llc_ost_indices))[0]? =
        some (some [1, 2]) := by rw [h3]; rfl
    rw [List.getElem?_map, hc1] at h4
    exact Option.some.inj h4
  · rw [hc2]
    decide

/-! ## C40: divisions by the pool count in `lod_alloc_rr` -/

/-- C40 (divergence): the cursor update at the head of `lod_alloc_rr` faults,
on the remainder `lqr_start_idx %= osts->op_count`, exactly when the pool is
empty and the reseed counter, once decremented, is still positive; the
quotient of `stripes_per_ost` faults exactly for an empty pool and a pattern
with `OVERSTRIPING`; and an iteration of the candidate loop that returns having
looked for a stripe ran on a non-empty pool and read the table at an index
below the pool count. -/
theorem C40_rr_divides_by_pool_count (w : lod_backend) (s : lod_sys) (r : pool_ref)
    (stripe_count stripe_count_min : Nat) (c : lod_layout_component) :
    (lod_alloc_rr_reseed w s r stripe_count stripe_count_min = none ↔
      (pool_osts s.lod r).op_count = 0 ∧ 0 < (pool_lqr s.lod r).lqr_start_count - 1) ∧
    (stripes_per_ost c (pool_osts s.lod r).op_count = none ↔
      c.llc_pattern &&& LOV_PATTERN_OVERSTRIPING ≠ 0 ∧ (pool_osts s.lod r).op_count = 0) ∧
    (∀ (comp_idx speed i : Nat) (st : rr_state) (x : rr_state × Bool),
      st.a.sys = s → st.a.stripe_idx < stripe_count →
      lod_alloc_rr_body w r comp_idx stripe_count speed i st = some x →
      (pool_osts s.lod r).op_count ≠ 0 ∧
      ((pool_lqr s.lod r).lqr_start_idx + (pool_lqr s.lod r).lqr_offset_idx) % 2 ^ 32 %
          (pool_osts s.lod r).op_count < (pool_osts s.lod r).op_count ∧
      ∃ t, (pool_lqr s.lod r).lqr_pool.op_array[
        ((pool_lqr s.lod r).lqr_start_idx + (pool_lqr s.lod r).lqr_offset_idx) % 2 ^ 32 %
          (pool_osts s.lod r).op_count]? = some t) := by
  refine ⟨?_, ?_, ?_⟩
  · unfold lod_alloc_rr_reseed
    simp only
    split_ifs with h1 h2 h3
    · simp only [reduceCtorEq, false_iff, not_and, not_lt]
      exact fun _ => h1
    · simp only [true_iff]
      exact ⟨h3, by omega⟩
    · simp only [reduceCtorEq, false_iff, not_and, not_lt]
      exact fun h => absurd h h3
    · simp only [reduceCtorEq, false_iff, not_and, not_lt]
      intro h0
      exact absurd (Or.inl (by rw [h0]; exact Nat.zero_le _)) h2
  · unfold stripes_per_ost
    split_ifs with h1 h2
    · simp only [true_iff]
      exact ⟨h1, h2⟩
    · simp only [reduceCtorEq, false_iff, not_and]
      exact fun _ => h2
    · simp only [reduceCtorEq, false_iff, not_and]
      exact fun h => absurd h h1
  · intro comp_idx speed i st x hs hlt hx
    subst hs
    unfold lod_alloc_rr_body at hx
    rw [if_neg (by simpa using hlt)] at hx
    simp only at hx
    split_ifs at hx with h0
    refine ⟨h0, Nat.mod_lt _ (Nat.pos_of_ne_zero h0), ?_⟩
    split at hx
    · contradiction
    · rename_i t ht
      exact ⟨t, ht⟩

/-- Witness of C40, on the failing input: a hint naming the pool `empty`, which
has no target, and asking for 2 stripes with `OVERSTRIPING`.
`lod_qos_parse_config` accepts it and leaves the stripe count at 2 (the clamp
to the size of the pool is for patterns without `OVERSTRIPING`);
`lod_qos_prep_create` then faults on the quotient of `stripes_per_ost`, in
`lod_alloc_rr` when the QoS data are not usable and in `lod_alloc_qos` when
they are.  With the reseed counter at 5 the cursor update of `lod_alloc_rr`
faults on the same pool. -/
theorem C40_rr_divides_by_pool_count_witness :
    (pool_osts c40_new_sys.lod (pool_ref.named "empty")).op_count = 0 ∧
    (lod_qos_parse_config (healthy_backend false) c40_new_sys (some c40_buf)).map
      (fun x => (x.1, x.2.lo.ldo_comp_entries)) = some (0, [c40_parsed_comp]) ∧
    c40_parsed_comp.llc_stripe_count = 2 ∧
    c40_parsed_comp.llc_pattern &&& LOV_PATTERN_OVERSTRIPING ≠ 0 ∧
    stripes_per_ost c40_parsed_comp
      (pool_osts c40_new_sys.lod (pool_ref.named "empty")).op_count = none ∧
    ((lod_qos_parse_config (healthy_backend false) c40_new_sys (some c40_buf)).bind
      (fun x => lod_qos_prep_create (healthy_backend false) x.2 0)).isNone = true ∧
    ((lod_qos_parse_config (healthy_backend true) c40_new_sys (some c40_buf)).bind
      (fun x => lod_qos_prep_create (healthy_backend true) x.2 0)).isNone = true ∧
    lod_alloc_rr_reseed (healthy_backend false) (c40_sys 5) (pool_ref.named "empty") 1 1 =
      none := by
  have h := C40_rr_divides_by_pool_count (healthy_backend false) c40_new_sys
    (pool_ref.named "empty") 1 1 c40_parsed_comp
  have h5 := C40_rr_divides_by_pool_count (healthy_backend false) (c40_sys 5)
    (pool_ref.named "empty") 1 1 c40_comp
  exact ⟨by decide, by decide, by decide, by decide, h.2.1.mpr ⟨by decide, by decide⟩, by decide,
    by decide, h5.1.mpr ⟨by decide, by decide⟩⟩

/-! ## C33: the starting target of the offset-anchored policy -/

theorem first_stripe_on.kept_moved {t : Nat} {a : alloc_state} (h : first_stripe_on t a)
    (x : lod_sys) (ov : Bool) : first_stripe_on t { a with sys := x, overstriped := ov } := h

theorem first_stripe_on.kept_commit {t : Nat} {a a1 : alloc_state} {ost_idx : Nat} {o : dt_object}
    (h : first_stripe_on t a) (hc : a.commit ost_idx o = some a1) : first_stripe_on t a1 := by
  obtain ⟨h1, h2, o1, h3, h4⟩ := h
  unfold alloc_state.commit array_set at hc
  split at hc
  · contradiction
  · split at hc
    · rename_i stripe ost_indices e1 e2
      split_ifs at e1 e2 with g1 g2
      simp only [Option.some.injEq] at e1 e2 hc
      subst e1 e2 hc
      refine ⟨Nat.le_succ_of_le h1, ?_, o1, ?_, h4⟩
      · show (a.ost_indices.set a.stripe_idx ost_idx)[0]? = _
        rw [List.getElem?_set_ne (by omega)]
        exact h2
      · show (a.stripe.set a.stripe_idx (some o))[0]? = _
        rw [List.getElem?_set_ne (by omega)]
        exact h3
    · contradiction

theorem first_stripe_on.of_first {t : Nat} {a a1 : alloc_state} {o : dt_object}
    (hc : a.commit t o = some a1) (h0 : a.stripe_idx = 0) (ho : o.ost = t) :
    a1.stripe_idx = 1 ∧ first_stripe_on t a1 := by
  unfold alloc_state.commit array_set at hc
  split at hc
  · contradiction
  · split at hc
    · rename_i stripe ost_indices e1 e2
      split_ifs at e1 e2 with g1 g2
      simp only [Option.some.injEq] at e1 e2 hc
      subst e1 e2 hc
      rw [h0] at g1 g2
      refine ⟨by show a.stripe_idx + 1 = 1; rw [h0], by show 1 ≤ a.stripe_idx + 1; omega, ?_,
        o, ?_, ho⟩
      · show (a.ost_indices.set a.stripe_idx t)[0]? = _
        rw [h0, List.getElem?_set_eq_of_lt _ g2]
      · show (a.stripe.set a.stripe_idx (some o))[0]? = _
        rw [h0, List.getElem?_set_eq_of_lt _ g1]
    · contradiction

/-- An iteration of the candidate loop of `lod_alloc_specific` keeps the
stripe 0. -/
theorem lod_alloc_specific_body_first {w : lod_backend} {osts : ost_pool}
    {lod_comp : lod_layout_component} {speed i t : Nat} {st st1 : specific_state} {b : Bool}
    (h : first_stripe_on t st.a)
    (hr : lod_alloc_specific_body w osts lod_comp speed i st = some (st1, b)) :
    first_stripe_on t st1.a := by
  unfold lod_alloc_specific_body at hr
  simp only at hr
  repeat' first
    | contradiction
    | (simp only [Option.some.injEq, Prod.mk.injEq] at hr
       obtain ⟨rfl, -⟩ := hr
       first
        | exact h
        | exact h.kept_moved _ _
        | (apply first_stripe_on.kept_commit _ (by assumption)
           exact h.kept_moved _ _))
    | split at hr

/-- A pass of `lod_alloc_specific` keeps the stripe 0. -/
theorem lod_alloc_specific_pass_first {w : lod_backend} {r : pool_ref}
    {comp_idx speed t : Nat} {st st1 : specific_pass_state} {b : Bool}
    (h : first_stripe_on t st.a)
    (hr : lod_alloc_specific_pass w r comp_idx speed st = some (st1, b)) :
    first_stripe_on t st1.a := by
  unfold lod_alloc_specific_pass at hr
  split at hr
  · contradiction
  · simp only at hr
    split at hr
    · contradiction
    · simp only [Option.some.injEq, Prod.mk.injEq] at hr
      obtain ⟨rfl, -⟩ := hr
      exact h
    · split at hr
      · contradiction
      · split at hr
        · contradiction
        · rename_i st2 hloop
          have h2 : first_stripe_on t st2.a :=
            for_loop_inv (fun x => first_stripe_on t x.a) _
              (fun _ _ _ _ hx hb => lod_alloc_specific_body_first hx hb) _ _ _ _ h hloop
          repeat' first
            | (simp only [Option.some.injEq, Prod.mk.injEq] at hr
               obtain ⟨rfl, -⟩ := hr
               exact h2)
            | split at hr

theorem lod_qos_declare_object_on_declared {w : lod_backend} {s : lod_sys} {t : Nat}
    (hdecl : ∀ clk, w.declare_create clk t = 0)
    (hlive : cfs_bitmap_check s.lod.lod_ost_bitmap t = true) :
    lod_qos_declare_object_on w s t =
      some ({ s.tick with declared := { ost := t, serial := s.clock } :: s.declared },
        Except.ok { ost := t, serial := s.clock }) := by
  have hlt : t < s.lod.lod_ost_bitmap.size := by
    simp only [cfs_bitmap_check, Bool.and_eq_true, decide_eq_true_eq] at hlive
    exact hlive.1
  unfold lod_qos_declare_object_on
  simp only [hlt, if_true, hdecl]
  rfl

/-- The first iteration of a pass of `lod_alloc_specific` (`i = 0`, nothing
placed yet) on a live target whose probe returns 0 and whose declaration
succeeds, no fault being injected for it, places the target as stripe 0,
whatever the speed, the state flags and the precreated count of the reply and
the use of the target by other components. -/
theorem lod_alloc_specific_body_start {w : lod_backend} {osts : ost_pool}
    {lod_comp : lod_layout_component} {speed t : Nat} {st : specific_state}
    {x1 : lod_sys} {sfs : obd_statfs}
    (hpos : osts.op_array[st.array_idx]? = some t)
    (hidx : st.a.stripe_idx = 0)
    (hlive : cfs_bitmap_check st.a.sys.lod.lod_ost_bitmap t = true)
    (hfail : w.obd_fail_check st.a.sys.clock = false ∨ t ≠ 0)
    (hprobe : lod_statfs_and_check w st.a.sys.tick t = some (0, x1, sfs))
    (hdecl : ∀ clk, w.declare_create clk t = 0)
    (h1 : 0 < st.a.sys.lti.lti_ea_store.length) (h2 : 0 < st.a.stripe.length)
    (h3 : 0 < st.a.ost_indices.length) :
    ∃ st1 b, lod_alloc_specific_body w osts lod_comp speed 0 st = some (st1, b) ∧
      st1.a.stripe_idx = 1 ∧ first_stripe_on t st1.a := by
  have hscan : lod_qos_is_ost_used st.a.sys.tick t st.a.stripe_idx = some false := by
    rw [hidx]
    exact array_scan_of_not_mem (by simp) (Nat.zero_le _)
  have hf : ¬ (w.obd_fail_check st.a.sys.clock = true ∧ t = 0) := by
    rintro ⟨g1, g2⟩
    rcases hfail with g | g
    · rw [g] at g1
      contradiction
    · exact g g2
  obtain ⟨e1, -⟩ := lod_statfs_and_check_guide hprobe
  have hbm := (lod_statfs_and_check_frame hprobe).bitmap
  have hd := @lod_qos_declare_object_on_declared w
    { x1 with lti := { x1.lti with lti_osfs := sfs } } t hdecl (by rw [← hlive]; exact congrArg (fun b => cfs_bitmap_check b t) hbm)
  unfold lod_alloc_specific_body
  simp only [hpos, hlive, Bool.true_eq_false, Bool.false_eq_true, if_false, hf, hscan, false_and, ne_eq,
    not_true_eq_false, and_false, hprobe, hd]
  generalize hc : alloc_state.commit _ t _ = r
  have hc2 := hc
  rw [alloc_state.commit_ok (by show st.a.stripe_idx < x1.lti.lti_ea_store.length
                                rw [e1, hidx]; exact h1)
    (by rw [hidx]; exact h2) (by rw [hidx]; exact h3)] at hc2
  cases r with
  | none => contradiction
  | some a1 =>
    obtain ⟨g1, g2⟩ := first_stripe_on.of_first hc hidx rfl
    simp only
    split_ifs
    · exact ⟨_, _, rfl, g1, g2⟩
    · exact ⟨_, _, rfl, g1, g2⟩

theorem lod_qos_ost_in_use_clear_room {w : lod_backend} {s : lod_sys} {n : Nat}
    (h : (lod_qos_ost_in_use_clear w s n).1 = 0) :
    n ≤ (lod_qos_ost_in_use_clear w s n).2.lti.lti_ea_store.length := by
  unfold lod_qos_ost_in_use_clear at h ⊢
  simp only at h ⊢
  split_ifs at h ⊢ <;>
    first
      | (simp [ENOMEM] at h; done)
      | (simp only [List.length_append, List.length_replicate, List.length_drop, lod_sys.tick]
         omega)

/-- The bound of the candidate loop of a pass is not 0 when the pool is not
empty, at least one stripe is asked for and the product does not overflow. -/
theorem stripes_per_ost_bound_pos {c : lod_layout_component} {n per : Nat}
    (h : stripes_per_ost c n = some per) (hn : 0 < n) (hc : 0 < c.llc_stripe_count)
    (hb : n * c.llc_stripe_count < 2 ^ 32) : 0 < (n * per) % 2 ^ 32 := by
  have hc32 : c.llc_stripe_count < 2 ^ 32 :=
    Nat.lt_of_le_of_lt (Nat.le_mul_of_pos_left _ hn) hb
  have hle : per ≤ c.llc_stripe_count ∧ 0 < per := by
    unfold stripes_per_ost at h
    split_ifs at h with h1 h2
    · simp only [Option.some.injEq] at h
      have e1 : (c.llc_stripe_count + (2 ^ 32 - 1)) % 2 ^ 32 = c.llc_stripe_count - 1 := by
        omega
      rw [e1] at h
      have e2 : (c.llc_stripe_count - 1) / n ≤ c.llc_stripe_count - 1 := Nat.div_le_self _ _
      have e3 : ((c.llc_stripe_count - 1) / n + 1) % 2 ^ 32 = (c.llc_stripe_count - 1) / n + 1 :=
        Nat.mod_eq_of_lt (by omega)
      rw [e3] at h
      generalize (c.llc_stripe_count - 1) / n = q at h e2
      omega
    · simp only [Option.some.injEq] at h
      omega
  have h1 : n * per ≤ n * c.llc_stripe_count := Nat.mul_le_mul_left _ hle.1
  have h2 : 0 < n * per := Nat.mul_pos hn hle.2
  rw [Nat.mod_eq_of_lt (by omega)]
  exact h2

/-- The first pass of `lod_alloc_specific`, when it returns, has the starting
target as stripe 0. -/
theorem lod_alloc_specific_pass_start {w : lod_backend} {r : pool_ref}
    {comp_idx speed : Nat} {st st1 : specific_pass_state} {b : Bool}
    {c : lod_layout_component} {x1 : lod_sys} {sfs : obd_statfs}
    (hcomp : st.a.sys.lo.ldo_comp_entries[comp_idx]? = some c)
    (hidx : st.a.stripe_idx = 0)
    (hcount : 0 < c.llc_stripe_count)
    (hbound : (pool_osts st.a.sys.lod r).op_count * c.llc_stripe_count < 2 ^ 32)
    (hmem : c.llc_stripe_offset ∈ (pool_osts st.a.sys.lod r).op_array)
    (hlive : cfs_bitmap_check st.a.sys.lod.lod_ost_bitmap c.llc_stripe_offset = true)
    (hfail : w.obd_fail_check st.a.sys.clock = false ∨ c.llc_stripe_offset ≠ 0)
    (hprobe : lod_statfs_and_check w st.a.sys.tick c.llc_stripe_offset = some (0, x1, sfs))
    (hdecl : ∀ clk, w.declare_create clk c.llc_stripe_offset = 0)
    (h1 : 0 < st.a.sys.lti.lti_ea_store.length) (h2 : 0 < st.a.stripe.length)
    (h3 : 0 < st.a.ost_indices.length)
    (hr : lod_alloc_specific_pass w r comp_idx speed st = some (st1, b)) :
    first_stripe_on c.llc_stripe_offset st1.a := by
  obtain ⟨q, hq⟩ := List.mem_iff_getElem?.mp hmem
  have hql : q < (pool_osts st.a.sys.lod r).op_array.length := (List.getElem?_eq_some.mp hq).1
  obtain ⟨pos, hfind, -, -⟩ := @array_find_hit (pool_osts st.a.sys.lod r).op_array
    c.llc_stripe_offset (pool_osts st.a.sys.lod r).op_count 0 q (Nat.zero_le _)
    (by rw [Nat.zero_add]; exact hql) hq
  have hpos := (array_find_spec _ _ _ hfind).2.2.1
  have hn : 0 < (pool_osts st.a.sys.lod r).op_count := Nat.lt_of_le_of_lt (Nat.zero_le _) hql
  unfold lod_alloc_specific_pass at hr
  simp only [hcomp, hfind] at hr
  split at hr
  · contradiction
  · rename_i per hper
    have hfuel := stripes_per_ost_bound_pos hper hn hcount hbound
    obtain ⟨m, hm⟩ : ∃ m, ((pool_osts st.a.sys.lod r).op_count * per) % 2 ^ 32 = m + 1 :=
      ⟨_, (Nat.succ_pred_eq_of_pos hfuel).symm⟩
    rw [hm] at hr
    obtain ⟨st2, b2, hb, -, hP⟩ := @lod_alloc_specific_body_start w (pool_osts st.a.sys.lod r)
      c speed c.llc_stripe_offset { a := st.a, array_idx := pos, done := false } x1 sfs
      hpos hidx hlive hfail hprobe hdecl h1 h2 h3
    simp only [for_loop, hb] at hr
    have hkeep : ∀ n i st3, for_loop (lod_alloc_specific_body w (pool_osts st.a.sys.lod r) c
        speed) n i st2 = some st3 → first_stripe_on c.llc_stripe_offset st3.a :=
      fun n i st3 h => for_loop_inv (fun x => first_stripe_on c.llc_stripe_offset x.a) _
        (fun _ _ _ _ hx hb => lod_alloc_specific_body_first hx hb) _ _ _ _ hP h
    cases b2 with
    | true =>
      simp only at hr
      repeat' first
        | (simp only [Option.some.injEq, Prod.mk.injEq] at hr
           obtain ⟨rfl, -⟩ := hr
           exact hP)
        | split at hr
    | false =>
      simp only at hr
      split at hr
      · contradiction
      · rename_i st3 hloop
        have hP3 := hkeep _ _ _ hloop
        repeat' first
          | (simp only [Option.some.injEq, Prod.mk.injEq] at hr
             obtain ⟨rfl, -⟩ := hr
             exact hP3)
          | split at hr

/-- The first iteration of a loop that returns. -/
theorem for_loop_first {σ : Type} (body : Nat → σ → Option (σ × Bool)) (n i : Nat) (s s1 : σ)
    (h : for_loop body (n + 1) i s = some s1) :
    ∃ x b, body i s = some (x, b) ∧ (b = true → s1 = x) ∧
      (b = false → for_loop body n (i + 1) x = some s1) := by
  simp only [for_loop] at h
  split at h
  · contradiction
  · rename_i x hb
    simp only [Option.some.injEq] at h
    exact ⟨x, true, hb, fun _ => h.symm, fun hc => Bool.noConfusion hc⟩
  · rename_i x hb
    exact ⟨x, false, hb, fun hc => Bool.noConfusion hc, fun _ => h⟩

/-- C33 (amended): a call of `lod_alloc_specific` for a component asking for at
least one stripe, with room in the caller's buffers, whose starting target
(the stripe offset) is in the pool and live, answers the probe with 0 and
accepts the declaration, the fault-injection hook not firing for it (it
fires for target 0 only).  The first iteration of the
first pass returns and places the starting target as stripe 0, whatever the
flags and the precreated count of the statfs reply and whether or not another
component uses the target; and the first pass and the whole function, when
they return, have the starting target as stripe 0. -/
theorem C33_specific_start_target_placed (w : lod_backend) (s : lod_sys)
    (stripe : List (Option dt_object)) (ost_indices : List Nat) (flags comp_idx : Nat)
    (c : lod_layout_component) (x1 : lod_sys) (sfs : obd_statfs)
    (hcomp : s.lo.ldo_comp_entries[comp_idx]? = some c)
    (hcount : 0 < c.llc_stripe_count)
    (hbound : (pool_osts s.lod (lod_comp_pool_ref s.lod c.llc_pool)).op_count *
      c.llc_stripe_count < 2 ^ 32)
    (hclr : (lod_qos_ost_in_use_clear w s c.llc_stripe_count).1 = 0)
    (hs : 0 < stripe.length) (ho : 0 < ost_indices.length)
    (hmem : c.llc_stripe_offset ∈
      (pool_osts s.lod (lod_comp_pool_ref s.lod c.llc_pool)).op_array)
    (hlive : cfs_bitmap_check s.lod.lod_ost_bitmap c.llc_stripe_offset = true)
    (hfail : w.obd_fail_check (lod_qos_ost_in_use_clear w s c.llc_stripe_count).2.clock = false ∨
      c.llc_stripe_offset ≠ 0)
    (hprobe : lod_statfs_and_check w (lod_qos_ost_in_use_clear w s c.llc_stripe_count).2.tick
      c.llc_stripe_offset = some (0, x1, sfs))
    (hdecl : ∀ clk, w.declare_create clk c.llc_stripe_offset = 0) :
    (∃ pos st1 b,
      array_find (pool_osts s.lod (lod_comp_pool_ref s.lod c.llc_pool)).op_array
        c.llc_stripe_offset (pool_osts s.lod (lod_comp_pool_ref s.lod c.llc_pool)).op_count 0 =
        some (some pos) ∧
      lod_alloc_specific_body w (pool_osts s.lod (lod_comp_pool_ref s.lod c.llc_pool)) c 0 0
        { a := { sys := (lod_qos_ost_in_use_clear w s c.llc_stripe_count).2, stripe := stripe,
                 ost_indices := ost_indices, stripe_idx := 0, overstriped := false },
          array_idx := pos, done := false } = some (st1, b) ∧
      st1.a.stripe_idx = 1 ∧ first_stripe_on c.llc_stripe_offset st1.a) ∧
    (∀ st1 b, lod_alloc_specific_pass w (lod_comp_pool_ref s.lod c.llc_pool) comp_idx 0
        { a := { sys := (lod_qos_ost_in_use_clear w s c.llc_stripe_count).2, stripe := stripe,
                 ost_indices := ost_indices, stripe_idx := 0, overstriped := false },
          out := none } = some (st1, b) →
      first_stripe_on c.llc_stripe_offset st1.a) ∧
    (∀ rc a, lod_alloc_specific w s stripe ost_indices flags comp_idx = some (rc, a) →
      first_stripe_on c.llc_stripe_offset a) := by
  obtain ⟨e1, e2, -, -⟩ := lod_qos_ost_in_use_clear_lod w s c.llc_stripe_count
  have hroom := lod_qos_ost_in_use_clear_room hclr
  generalize hx : (lod_qos_ost_in_use_clear w s c.llc_stripe_count).2 = x at *
  have hcx : x.lo.ldo_comp_entries[comp_idx]? = some c := by rw [e2]; exact hcomp
  have hlx : cfs_bitmap_check x.lod.lod_ost_bitmap c.llc_stripe_offset = true := by
    rw [e1]; exact hlive
  have hst : 0 < x.lti.lti_ea_store.length := Nat.lt_of_lt_of_le hcount hroom
  have hpass : ∀ st1 b, lod_alloc_specific_pass w (lod_comp_pool_ref s.lod c.llc_pool) comp_idx 0
        { a := { sys := x, stripe := stripe, ost_indices := ost_indices, stripe_idx := 0,
                 overstriped := false },
          out := none } = some (st1, b) →
      first_stripe_on c.llc_stripe_offset st1.a := by
    intro st1 b hr
    exact @lod_alloc_specific_pass_start w (lod_comp_pool_ref s.lod c.llc_pool) comp_idx 0
      _ st1 b c x1 sfs hcx rfl hcount (by rw [e1]; exact hbound) (by rw [e1]; exact hmem)
      hlx hfail hprobe hdecl hst hs ho hr
  refine ⟨?_, hpass, ?_⟩
  · obtain ⟨q, hq⟩ := List.mem_iff_getElem?.mp hmem
    have hql := (List.getElem?_eq_some.mp hq).1
    obtain ⟨pos, hfind, -, -⟩ := @array_find_hit
      (pool_osts s.lod (lod_comp_pool_ref s.lod c.llc_pool)).op_array c.llc_stripe_offset
      (pool_osts s.lod (lod_comp_pool_ref s.lod c.llc_pool)).op_count 0 q (Nat.zero_le _)
      (by rw [Nat.zero_add]; exact hql) hq
    have hpos := (array_find_spec _ _ _ hfind).2.2.1
    obtain ⟨st1, b, hb, g1, g2⟩ := @lod_alloc_specific_body_start w
      (pool_osts s.lod (lod_comp_pool_ref s.lod c.llc_pool)) c 0 c.llc_stripe_offset
      { a := { sys := x, stripe := stripe, ost_indices := ost_indices, stripe_idx := 0,
               overstriped := false },
        array_idx := pos, done := false } x1 sfs hpos rfl hlx hfail hprobe hdecl hst hs ho
    exact ⟨pos, st1, b, hfind, hb, g1, g2⟩
  · intro rc a hr
    unfold lod_alloc_specific at hr
    simp only [hcomp, hclr, ne_eq, not_true_eq_false, if_false, e1, hx] at hr
    split at hr
    · contradiction
    · rename_i st hloop
      have hP : first_stripe_on c.llc_stripe_offset st.a := by
        obtain ⟨st1, b, hp, hb1, hb2⟩ := for_loop_first _ 2 0 _ _ hloop
        have h1 := hpass _ _ hp
        cases b with
        | true => rw [hb1 rfl]; exact h1
        | false =>
          exact for_loop_inv (fun y => first_stripe_on c.llc_stripe_offset y.a) _
            (fun _ _ _ _ hy hb => lod_alloc_specific_pass_first hy hb) 2 1 _ _ h1 (hb2 rfl)
      split at hr
      · simp only [Option.some.injEq, Prod.mk.injEq] at hr
        obtain ⟨-, rfl⟩ := hr
        exact hP
      · split at hr
        · contradiction
        · rw [if_neg (lod_alloc_specific_tail_dead _ _)] at hr
          simp only [Option.some.injEq, Prod.mk.injEq] at hr
          obtain ⟨-, rfl⟩ := hr
          exact hP

/-- Witness of C33: the starting target 1 is `DEGRADED`, has no precreated
object and is used by component 1; `lod_alloc_specific` returns 0 with target 1
as stripe 0. -/
theorem C33_specific_start_target_placed_witness :
    (c33_backend.dt_statfs 0 1).2.os_state &&& OS_STATE_DEGRADED ≠ 0 ∧
    (c33_backend.dt_statfs 0 1).2.os_fprecreated = 0 ∧
    lod_comp_is_ost_used c33_sys.lo 1 = some true ∧
    ∃ a, lod_alloc_specific c33_backend c33_sys [none, none] [0, 0] 0 0 = some (0, a) ∧
      first_stripe_on 1 a := by
  have h0 : (lod_alloc_specific c33_backend c33_sys [none, none] [0, 0] 0 0).map
      (fun r => r.1) = some 0 := by decide
  obtain ⟨⟨rc, a⟩, hr, he⟩ := Option.map_eq_some'.mp h0
  have he1 : rc = 0 := he
  subst he1
  have h1 : (lod_statfs_and_check c33_backend
      (lod_qos_ost_in_use_clear c33_backend c33_sys 2).2.tick 1).map (fun r => r.1) = some 0 := by
    decide
  obtain ⟨⟨rc1, x1, sfs⟩, hp, he2⟩ := Option.map_eq_some'.mp h1
  have he3 : rc1 = 0 := he2
  subst he3
  have h := C33_specific_start_target_placed c33_backend c33_sys [none, none] [0, 0] 0 0
    { demo_comp 2 with llc_stripe_offset := 1 } x1 sfs rfl (by decide) (by decide) (by decide)
    (by decide) (by decide) (by decide) (by decide) (Or.inl rfl) hp (fun _ => rfl)
  exact ⟨by decide, by decide, by decide, a, hr, h.2.2 0 a hr⟩

/-- Counterexample to C33 as stated: the starting target 0 is live, its probe
returns 0 and its declaration would succeed, but the fault-injection hook
(`OBD_FAIL_CHECK(OBD_FAIL_MDS_OSC_PRECREATE) && ost_idx == 0`) fires: the first
iteration of the first pass skips target 0 without placing a stripe, and
`lod_alloc_specific` returns 0 with the stripes on the targets 1 and 2. -/
theorem C33_counterexample :
    cfs_bitmap_check c33_fault_sys.lod.lod_ost_bitmap 0 = true ∧
    (lod_statfs_and_check c33_fault_backend
      (lod_qos_ost_in_use_clear c33_fault_backend c33_fault_sys 2).2.tick 0).map
        (fun r => r.1) = some 0 ∧
    c33_fault_backend.declare_create 0 0 = 0 ∧
    (lod_alloc_specific_body c33_fault_backend c33_fault_sys.lod.lod_pool_info
        { demo_comp 2 with llc_stripe_offset := 0 } 0 0
        { a := { sys := (lod_qos_ost_in_use_clear c33_fault_backend c33_fault_sys 2).2,
                 stripe := [none, none], ost_indices := [0, 0], stripe_idx := 0,
                 overstriped := false },
          array_idx := 0, done := false }).map
      (fun r => (r.1.a.stripe_idx, r.1.array_idx, r.2)) = some (0, 1, false) ∧
    (lod_alloc_specific c33_fault_backend c33_fault_sys [none, none] [0, 0] 0 0).map
      (fun r => (r.1, r.2.stripe_idx, r.2.ost_indices)) = some (0, 2, [1, 2]) := by
  refine ⟨by decide, by decide, by decide, by decide, by decide⟩

/-! ## C31: the stripe count `lod_alloc_qos` samples for -/

/-- `(count - 1) / n + 1` in 32-bit arithmetic is `⌈count / n⌉`. -/
theorem stripes_per_ost_ceil {c : lod_layout_component} {n per : Nat}
    (h : stripes_per_ost c n = some per) (hc : 0 < c.llc_stripe_count)
    (hc32 : c.llc_stripe_count < 2 ^ 32) :
    per = (if c.llc_pattern &&& LOV_PATTERN_OVERSTRIPING ≠ 0
      then overstripe_bound c.llc_stripe_count n else 1) ∧ 0 < per := by
  unfold stripes_per_ost at h
  split_ifs at h with h1 h2
  · simp only [Option.some.injEq] at h
    have hn : 0 < n := Nat.pos_of_ne_zero h2
    have e1 : (c.llc_stripe_count + (2 ^ 32 - 1)) % 2 ^ 32 = c.llc_stripe_count - 1 := by omega
    have e2 : (c.llc_stripe_count - 1) / n ≤ c.llc_stripe_count - 1 := Nat.div_le_self _ _
    have e3 : ((c.llc_stripe_count - 1) / n + 1) % 2 ^ 32 = (c.llc_stripe_count - 1) / n + 1 :=
      Nat.mod_eq_of_lt (by omega)
    rw [e1, e3] at h
    have e4 : overstripe_bound c.llc_stripe_count n = (c.llc_stripe_count - 1) / n + 1 := by
      unfold overstripe_bound
      rw [show c.llc_stripe_count + n - 1 = c.llc_stripe_count - 1 + n by omega,
        Nat.add_div_right _ hn]
    rw [if_pos h1, e4, ← h]
    exact ⟨rfl, Nat.succ_pos _⟩
  · simp only [Option.some.injEq] at h
    subst h
    rw [if_neg h1]
    exact ⟨rfl, Nat.one_pos⟩

/-- The adjustment `if (stripe_count / stripes_per_ost > good_osts) stripe_count =
good_osts * stripes_per_ost` leaves at most `good_osts * stripes_per_ost`
stripes once `good_osts` has passed the check against the minimum. -/
theorem qos_adjust_le {count per good flags : Nat} (hper : 0 < per)
    (hgood : ¬ good < min_stripe_count count flags) :
    (if count / per > good then (good * per) % 2 ^ 32 else count) ≤ good * per := by
  split_ifs with h
  · exact Nat.mod_le _ _
  · have h1 : count / per ≤ good := Nat.le_of_not_gt h
    by_cases hp : per = 1
    · subst hp
      rw [Nat.div_one] at h1
      omega
    · have h2 : 2 ≤ per := by omega
      have h3 : good * 2 ≤ good * per := Nat.mul_le_mul_left _ h2
      have h4 : count - count / 4 ≤ good := by
        unfold min_stripe_count at hgood
        split_ifs at hgood <;> omega
      omega

/-- A call of `lod_alloc_qos` that returns 0 has run its sampling loop to the
end, and has placed as many stripes as the loop was to find. -/
theorem lod_alloc_qos_zero_draws {w : lod_backend} {s : lod_sys}
    {stripe : List (Option dt_object)} {ost_indices : List Nat} {flags comp_idx : Nat}
    {a : alloc_state}
    (hr : lod_alloc_qos w s stripe ost_indices flags comp_idx = some (0, a)) :
    ∃ n st, lod_alloc_qos_draws w s stripe ost_indices flags comp_idx = some (n, st) ∧
      a.stripe_idx = n := by
  unfold lod_alloc_qos at hr
  unfold lod_alloc_qos_draws
  split at hr
  · contradiction
  rename_i c hcomp
  simp only at hr
  try simp only [hcomp]
  split at hr
  · simp [EINVAL] at hr
  rename_i h1
  split at hr
  · simp [EAGAIN] at hr
  rename_i h2
  split at hr
  · contradiction
  rename_i per hper
  split at hr
  · rename_i h3
    simp only [Option.some.injEq, Prod.mk.injEq] at hr
    exact absurd hr.1 h3
  rename_i h3
  split at hr
  · rename_i h4
    simp only [Option.some.injEq, Prod.mk.injEq] at hr
    exact absurd hr.1 h4
  rename_i h4
  split at hr
  · contradiction
  rename_i sc hsc
  split at hr
  · simp [EAGAIN] at hr
  rename_i h5
  split at hr
  · contradiction
  rename_i h6
  generalize hn : (if c.llc_stripe_count / per > sc.good_osts then (sc.good_osts * per) % 2 ^ 32
    else c.llc_stripe_count) = n at hr
  split at hr
  · contradiction
  rename_i st hloop
  split at hr
  · split at hr
    · contradiction
    · simp [EAGAIN] at hr
  rename_i h7
  subst hn
  have hidx : a.stripe_idx = st.a.stripe_idx := by
    split at hr
    · contradiction
    · split at hr <;> simp only [Option.some.injEq, Prod.mk.injEq] at hr <;>
        obtain ⟨-, rfl⟩ := hr <;> rfl
  simp only [if_neg h1, if_neg h2, hper, if_neg h3, if_neg h4, hsc, if_neg h5, if_neg h6, hloop]
  refine ⟨_, _, rfl, ?_⟩
  rw [hidx]
  exact not_not.mp h7

/-- C31: for every call of `lod_alloc_qos` that passes the check
`good_osts >= stripe_count_min`, with either flag value.  When the sampling
loop of the call ends (in the state `st`, having worked for `n` stripes), the
call returns what the end of the function makes of `n` and `st`, and `n` is the
requested count adjusted by `if (stripe_count / stripes_per_ost > good_osts)
stripe_count = good_osts * stripes_per_ost`, so `n ≤ good_osts *
stripes_per_ost`, where `stripes_per_ost` is `⌈requested / pool_count⌉` with
`OVERSTRIPING` and 1 without, and `good_osts` is the count of the scan for
valid candidates.  In particular a call that returns 0 has placed exactly that
adjusted number of stripes, at most `good_osts * stripes_per_ost`. -/
theorem C31_qos_adjusted_stripe_count (w : lod_backend) (s : lod_sys)
    (stripe : List (Option dt_object)) (ost_indices : List Nat) (flags comp_idx : Nat)
    (c : lod_layout_component)
    (hcomp : s.lo.ldo_comp_entries[comp_idx]? = some c)
    (hc32 : c.llc_stripe_count < 2 ^ 32) :
    (∀ (n : Nat) (st : qos_pick_state),
      lod_alloc_qos_draws w s stripe ost_indices flags comp_idx = some (n, st) →
      lod_alloc_qos w s stripe ost_indices flags comp_idx =
        lod_alloc_qos_finish comp_idx n (some st) ∧
      ∃ (per : Nat) (sc : qos_scan_state),
        stripes_per_ost c (pool_osts s.lod (lod_comp_pool_ref s.lod c.llc_pool)).op_count =
          some per ∧
        per = (if c.llc_pattern &&& LOV_PATTERN_OVERSTRIPING ≠ 0
          then overstripe_bound c.llc_stripe_count
            (pool_osts s.lod (lod_comp_pool_ref s.lod c.llc_pool)).op_count
          else 1) ∧
        for_loop
          (lod_alloc_qos_scan_body w (pool_osts s.lod (lod_comp_pool_ref s.lod c.llc_pool)))
          (pool_osts s.lod (lod_comp_pool_ref s.lod c.llc_pool)).op_count 0
          { sys := qos_scan_start w s c, total_weight := 0, good_osts := 0 } = some sc ∧
        min_stripe_count c.llc_stripe_count flags ≤ sc.good_osts ∧
        n = (if c.llc_stripe_count / per > sc.good_osts then (sc.good_osts * per) % 2 ^ 32
          else c.llc_stripe_count) ∧
        n ≤ sc.good_osts * per) ∧
    (∀ a : alloc_state,
      lod_alloc_qos w s stripe ost_indices flags comp_idx = some (0, a) →
      ∃ (per : Nat) (sc : qos_scan_state),
        stripes_per_ost c (pool_osts s.lod (lod_comp_pool_ref s.lod c.llc_pool)).op_count =
          some per ∧
        for_loop
          (lod_alloc_qos_scan_body w (pool_osts s.lod (lod_comp_pool_ref s.lod c.llc_pool)))
          (pool_osts s.lod (lod_comp_pool_ref s.lod c.llc_pool)).op_count 0
          { sys := qos_scan_start w s c, total_weight := 0, good_osts := 0 } = some sc ∧
        a.stripe_idx =
          (if c.llc_stripe_count / per > sc.good_osts then (sc.good_osts * per) % 2 ^ 32
            else c.llc_stripe_count) ∧
        a.stripe_idx ≤ sc.good_osts * per) := by
  have key : ∀ (n : Nat) (st : qos_pick_state),
      lod_alloc_qos_draws w s stripe ost_indices flags comp_idx = some (n, st) →
      ∃ (per : Nat) (sc : qos_scan_state),
        stripes_per_ost c (pool_osts s.lod (lod_comp_pool_ref s.lod c.llc_pool)).op_count =
          some per ∧
        per = (if c.llc_pattern &&& LOV_PATTERN_OVERSTRIPING ≠ 0
          then overstripe_bound c.llc_stripe_count
            (pool_osts s.lod (lod_comp_pool_ref s.lod c.llc_pool)).op_count
          else 1) ∧
        for_loop
          (lod_alloc_qos_scan_body w (pool_osts s.lod (lod_comp_pool_ref s.lod c.llc_pool)))
          (pool_osts s.lod (lod_comp_pool_ref s.lod c.llc_pool)).op_count 0
          { sys := qos_scan_start w s c, total_weight := 0, good_osts := 0 } = some sc ∧
        min_stripe_count c.llc_stripe_count flags ≤ sc.good_osts ∧
        n = (if c.llc_stripe_count / per > sc.good_osts then (sc.good_osts * per) % 2 ^ 32
          else c.llc_stripe_count) ∧
        n ≤ sc.good_osts * per := by
    intro n st hd
    unfold lod_alloc_qos_draws at hd
    simp only [hcomp] at hd
    split at hd
    · contradiction
    rename_i h1
    split at hd
    · contradiction
    split at hd
    · contradiction
    rename_i per hper
    split at hd
    · contradiction
    split at hd
    · contradiction
    split at hd
    · contradiction
    rename_i sc hsc
    split at hd
    · contradiction
    rename_i h5
    split at hd
    · contradiction
    split at hd
    · contradiction
    have hcount : 0 < c.llc_stripe_count := by
      unfold min_stripe_count at h1
      split_ifs at h1 <;> omega
    obtain ⟨e1, e2⟩ := stripes_per_ost_ceil hper hcount hc32
    simp only [Option.some.injEq, Prod.mk.injEq] at hd
    obtain ⟨rfl, -⟩ := hd
    exact ⟨per, sc, hper, e1, hsc, Nat.le_of_not_lt h5, rfl, qos_adjust_le e2 h5⟩
  refine ⟨fun n st hd => ⟨lod_alloc_qos_draws_finish hd, key n st hd⟩, fun a hr => ?_⟩
  obtain ⟨n, st, hd, hn⟩ := lod_alloc_qos_zero_draws hr
  obtain ⟨per, sc, g1, -, g3, -, g5, g6⟩ := key n st hd
  exact ⟨per, sc, g1, g3, by rw [hn]; exact g5, by rw [hn]; exact g6⟩

/-- Witness of C31: 4 targets of which 3 are good, 4 stripes requested with
`LOV_USES_DEFAULT_STRIPE` (minimum 3), no overstriping: the sampling loop works
for 3 stripes, and `lod_alloc_qos` returns 0 with 3 stripes placed. -/
theorem C31_qos_adjusted_stripe_count_witness :
    min_stripe_count 4 LOV_USES_DEFAULT_STRIPE = 3 ∧
    ∃ (a : alloc_state) (st : qos_pick_state) (per : Nat) (sc : qos_scan_state),
      lod_alloc_qos c31_backend c31_sys [none, none, none, none] [0, 0, 0, 0]
        LOV_USES_DEFAULT_STRIPE 0 = some (0, a) ∧
      lod_alloc_qos_draws c31_backend c31_sys [none, none, none, none] [0, 0, 0, 0]
        LOV_USES_DEFAULT_STRIPE 0 = some (3, st) ∧
      lod_alloc_qos_finish 0 3 (some st) = some (0, a) ∧
      for_loop (lod_alloc_qos_scan_body c31_backend c31_sys.lod.lod_pool_info) 4 0
        { sys := qos_scan_start c31_backend c31_sys (demo_comp 4), total_weight := 0,
          good_osts := 0 } = some sc ∧
      sc.good_osts = 3 ∧ per = 1 ∧ a.stripe_idx = 3 ∧ a.stripe_idx ≤ sc.good_osts * per := by
  have h0 : (lod_alloc_qos_draws c31_backend c31_sys [none, none, none, none] [0, 0, 0, 0]
      LOV_USES_DEFAULT_STRIPE 0).map (fun r => r.1) = some 3 := by decide
  obtain ⟨⟨n, st⟩, hd, he⟩ := Option.map_eq_some'.mp h0
  have he1 : n = 3 := he
  subst he1
  have h1 : (lod_alloc_qos c31_backend c31_sys [none, none, none, none] [0, 0, 0, 0]
      LOV_USES_DEFAULT_STRIPE 0).map (fun r => (r.1, r.2.stripe_idx)) = some (0, 3) := by
    decide
  obtain ⟨⟨rc, a⟩, hr, he⟩ := Option.map_eq_some'.mp h1
  simp only [Prod.mk.injEq] at he
  obtain ⟨rfl, hidx⟩ := he
  have h := C31_qos_adjusted_stripe_count c31_backend c31_sys
    [none, none, none, none] [0, 0, 0, 0] LOV_USES_DEFAULT_STRIPE 0 (demo_comp 4) rfl
    (by decide)
  obtain ⟨hfin, per, sc, g1, g2, g3, -, -, -⟩ := h.1 3 st hd
  obtain ⟨per1, sc1, k1, k2, -, k4⟩ := h.2 a hr
  have e1 : per1 = per := Option.some.inj (k1.symm.trans g1)
  have e2 : sc1 = sc := Option.some.inj (k2.symm.trans g3)
  subst e1 e2
  have h2 : (for_loop (lod_alloc_qos_scan_body c31_backend c31_sys.lod.lod_pool_info) 4 0
      { sys := qos_scan_start c31_backend c31_sys (demo_comp 4), total_weight := 0,
        good_osts := 0 }).map (fun x => x.good_osts) = some 3 := by decide
  have g3a : for_loop (lod_alloc_qos_scan_body c31_backend c31_sys.lod.lod_pool_info) 4 0
      { sys := qos_scan_start c31_backend c31_sys (demo_comp 4), total_weight := 0,
        good_osts := 0 } = some sc1 := g3
  rw [g3a] at h2
  exact ⟨by decide, a, st, per1, sc1, hr, hd, hfin.symm.trans hr, g3a, Option.some.inj h2,
    g2.trans (by decide), hidx, k4⟩

/-! ## C35: the policy selection of `lod_qos_prep_create` -/

/-- C35: the policy selection of `lod_qos_prep_create` runs what the spec
selects, provided `lod_prepare_avoidance` succeeds when the selection is the
QoS policy; when `lod_prepare_avoidance` fails there, neither the collection
nor any policy runs: the result is its error code, with the buffers as they
were and no stripe placed. -/
theorem C35_policy_selection (w : lod_backend) (s : lod_sys) (c : lod_layout_component)
    (stripe : List (Option dt_object)) (ost_indices : List Nat) (flag comp_idx : Nat) :
    ((lod_prepare_avoidance w s).1 = 0 ∨ select_policy_spec c ≠ alloc_policy.qos_then_rr →
      lod_qos_prep_create_alloc w s c stripe ost_indices flag comp_idx =
        run_policy_spec w s stripe ost_indices flag comp_idx (select_policy_spec c)) ∧
    ((lod_prepare_avoidance w s).1 ≠ 0 → select_policy_spec c = alloc_policy.qos_then_rr →
      lod_qos_prep_create_alloc w s c stripe ost_indices flag comp_idx =
        some ((lod_prepare_avoidance w s).1,
          { sys := (lod_prepare_avoidance w s).2, stripe := stripe, ost_indices := ost_indices,
            stripe_idx := 0, overstriped := false })) := by
  unfold lod_qos_prep_create_alloc select_policy_spec
  refine ⟨fun h => ?_, fun h hs => ?_⟩
  · split_ifs at h ⊢ with h1 h2
    · rfl
    · have h3 : (lod_prepare_avoidance w s).1 = 0 := by
        rcases h with h | h
        · exact h
        · exact absurd rfl h
      simp only [h3, ne_eq, not_true_eq_false, if_false]
      rfl
    · rfl
  · split_ifs at hs ⊢ with h1 h2
    simp only [h, ne_eq, not_false_eq_true, if_true]

/-- Witness of C35, scenario S1 (default offset, no list): the avoidance guide
is prepared, and the selection runs QoS and then, QoS having answered
`-EAGAIN`, round-robin, which places the 4 stripes. -/
theorem C35_policy_selection_witness :
    (lod_prepare_avoidance (healthy_backend false) s1_sys).1 = 0 ∧
    select_policy_spec (demo_comp 4) = alloc_policy.qos_then_rr ∧
    lod_qos_prep_create_alloc (healthy_backend false) s1_sys (demo_comp 4)
        (List.replicate 4 none) (List.replicate 4 0) 0 0 =
      run_policy_spec (healthy_backend false) s1_sys (List.replicate 4 none)
        (List.replicate 4 0) 0 0 alloc_policy.qos_then_rr ∧
    (lod_qos_prep_create_alloc (healthy_backend false) s1_sys (demo_comp 4)
        (List.replicate 4 none) (List.replicate 4 0) 0 0).map (fun r => (r.1, r.2.stripe_idx)) =
      some (0, 4) :=
  ⟨by decide, by decide,
    (C35_policy_selection (healthy_backend false) s1_sys (demo_comp 4) (List.replicate 4 none)
      (List.replicate 4 0) 0 0).1 (Or.inl (by decide)),
    by decide⟩

/-- Counterexample to C35 as stated: default offset, no list, and the
allocation of the avoidance guide fails.  The selection returns `-ENOMEM`
with no stripe placed and no object declared, where prepare, collect, QoS and
(QoS answering `-EAGAIN`) round-robin run one after the other would have placed
4 stripes; so does the whole `lod_qos_prep_create` when the failing allocation
is the one of `lod_prepare_avoidance`. -/
theorem C35_counterexample :
    select_policy_spec (demo_comp 4) = alloc_policy.qos_then_rr ∧
    (lod_prepare_avoidance c35_backend s1_sys).1 = -ENOMEM ∧
    (lod_qos_prep_create_alloc c35_backend s1_sys (demo_comp 4)
        (List.replicate 4 none) (List.replicate 4 0) 0 0).map
      (fun r => (r.1, r.2.stripe_idx, r.2.sys.declared.length)) = some (-ENOMEM, 0, 0) ∧
    (run_policy_spec c35_backend s1_sys (List.replicate 4 none) (List.replicate 4 0) 0 0
        alloc_policy.qos_then_rr).map
      (fun r => (r.1, r.2.stripe_idx, r.2.sys.declared.length)) = some (0, 4, 4) ∧
    (lod_qos_prep_create c35_late_backend s1_sys 0).map
      (fun r => (r.1, r.2.declared.length)) = some (-ENOMEM, 0) := by
  refine ⟨by decide, by decide, by decide, by decide, by decide⟩

/-! ## C38: the avoid-array covers the avoid-bitmap -/

theorem array_scan_true_mem {arr : List Nat} {n v : Nat} (h : array_scan arr n v = some true) :
    v ∈ arr.take n := by
  unfold array_scan at h
  split_ifs at h with h1 h2
  · simpa using h1
  · simp at h

/-- A step of the stripe loop of `lod_collect_avoidance` keeps `avoid_inv`. -/
theorem lod_collect_avoidance_stripe_inv {d : lod_device} {comp : lod_layout_component}
    {j : Nat} {lag lag1 : lod_avoid_guide} {b : Bool}
    (hidx : ∀ i, (OST_TGT d i).ltd_index = i) (h : avoid_inv d lag)
    (hr : lod_collect_avoidance_stripe d comp j lag = some (lag1, b)) :
    avoid_inv d lag1 := by
  obtain ⟨arr, bm, harr, hbm, hlen, hnd, hcov⟩ := h
  unfold lod_collect_avoidance_stripe at hr
  simp only [hidx] at hr
  split at hr
  · rename_i inds bitmap hinds hbm2
    rw [hbm] at hbm2
    simp only [Option.some.injEq] at hbm2
    subst hbm2
    split at hr
    · contradiction
    · rename_i t ht
      split at hr
      · simp only [Option.some.injEq, Prod.mk.injEq] at hr
        obtain ⟨rfl, -⟩ := hr
        exact ⟨arr, bm, harr, hbm, hlen, hnd, hcov⟩
      · split at hr
        · rename_i bm1 lsq arr0 hset hsvr harr0
          rw [harr] at harr0
          simp only [Option.some.injEq] at harr0
          subst harr0
          have hbits := cfs_bitmap_check_set hset
          split at hr
          · contradiction
          · rename_i hscan
            have hin := array_scan_true_mem hscan
            simp only [Option.some.injEq, Prod.mk.injEq] at hr
            obtain ⟨rfl, -⟩ := hr
            refine ⟨arr, bm1, harr, rfl, hlen, hnd, fun x hx => ?_⟩
            rcases (hbits x).mp hx with h1 | h1
            · exact hcov x h1
            · subst h1
              exact ⟨lsq, hsvr, hin⟩
          · rename_i hscan
            have hnin := array_scan_false hscan
            split at hr
            · contradiction
            · rename_i arr1 hset1
              unfold array_set at hset1
              split_ifs at hset1 with hlt
              simp only [Option.some.injEq] at hset1
              subst hset1
              simp only [Option.some.injEq, Prod.mk.injEq] at hr
              obtain ⟨rfl, -⟩ := hr
              have htake := take_succ_set arr lag.lag_oaa_count lsq.lsq_id hlt
              refine ⟨_, bm1, rfl, rfl, ?_, ?_, fun x hx => ?_⟩
              · show lag.lag_oaa_count + 1 ≤ (arr.set _ _).length
                rw [List.length_set]
                exact hlt
              · show ((arr.set _ _).take (lag.lag_oaa_count + 1)).Nodup
                rw [htake]
                refine List.Nodup.append hnd (List.nodup_singleton _) ?_
                intro a ha hb
                rw [List.mem_singleton] at hb
                subst hb
                exact hnin ha
              · show ∃ lsq1, _ ∧ lsq1.lsq_id ∈ (arr.set _ _).take (lag.lag_oaa_count + 1)
                rw [htake]
                rcases (hbits x).mp hx with h1 | h1
                · obtain ⟨l1, g1, g2⟩ := hcov x h1
                  exact ⟨l1, g1, List.mem_append_left _ g2⟩
                · subst h1
                  exact ⟨lsq, hsvr, List.mem_append_right _ (List.mem_singleton_self _)⟩
        · contradiction
  · contradiction

/-- A successful `lod_prepare_avoidance` leaves the array and the bitmap
allocated, the array empty and the bitmap clear. -/
theorem lod_prepare_avoidance_fresh (w : lod_backend) (s : lod_sys)
    (h : (lod_prepare_avoidance w s).1 = 0) :
    (lod_prepare_avoidance w s).2.lti.lti_avoid.lag_oaa_count = 0 ∧
      (∃ arr, (lod_prepare_avoidance w s).2.lti.lti_avoid.lag_oss_avoid_array = some arr) ∧
      (∃ bm, (lod_prepare_avoidance w s).2.lti.lti_avoid.lag_ost_avoid_bitmap = some bm ∧
        ∀ x, bm.data x = false) ∧
      (lod_prepare_avoidance w s).2.lti.lti_avoid.lag_ost_avail = s.lod.lod_ostnr := by
  have hE : (-ENOMEM : Int) ≠ 0 := by decide
  generalize hr : lod_prepare_avoidance w s = r at h
  unfold lod_prepare_avoidance at hr
  lift_lets at hr
  extract_lets tgtnr lag0 lag1 lag2 lag3 nb no bf s1 l1 ofl s2 l2 lag4 lag5 at hr
  have e2 : lag2.lag_oaa_count = 0 ∧ lag2.lag_ost_avail = s.lod.lod_ostnr := by
    simp only [lag2]
    split <;> exact ⟨rfl, rfl⟩
  have e3 : lag3.lag_oaa_count = 0 ∧ lag3.lag_ost_avail = s.lod.lod_ostnr := by
    simp only [lag3]
    split
    · exact e2
    · split <;> exact e2
  have b3 : lag3.lag_ost_avoid_bitmap = none ∨
      ∃ b, lag3.lag_ost_avoid_bitmap = some (CFS_RESET_BITMAP b) := by
    simp only [lag3]
    split
    · rename_i hn
      exact Or.inl hn
    · split
      · exact Or.inr ⟨_, rfl⟩
      · exact Or.inl rfl
  have e4 : lag4.lag_oaa_count = 0 ∧ lag4.lag_ost_avail = s.lod.lod_ostnr ∧
      lag4.lag_ost_avoid_bitmap = lag3.lag_ost_avoid_bitmap ∧
      ∃ arr, lag4.lag_oss_avoid_array = some arr := by
    simp only [lag4]
    split
    · exact ⟨e3.1, e3.2, rfl, _, rfl⟩
    · rename_i hno
      refine ⟨e3.1, e3.2, rfl, ?_⟩
      cases ha : lag3.lag_oss_avoid_array with
      | none => exact absurd (by simp only [no, ha, Option.isNone_none]) hno
      | some arr => exact ⟨arr, rfl⟩
  have e5 : lag5.lag_oaa_count = 0 ∧ lag5.lag_ost_avail = s.lod.lod_ostnr ∧
      (∃ arr, lag5.lag_oss_avoid_array = some arr) ∧
      ∃ bm, lag5.lag_ost_avoid_bitmap = some bm ∧ ∀ x, bm.data x = false := by
    simp only [lag5]
    split
    · exact ⟨e4.1, e4.2.1, e4.2.2.2, _, rfl, fun _ => rfl⟩
    · rename_i hnb
      refine ⟨e4.1, e4.2.1, e4.2.2.2, ?_⟩
      rw [e4.2.2.1]
      rcases b3 with hb | ⟨b, hb⟩
      · exact absurd (by simp only [nb, hb, Option.isNone_none]) hnb
      · exact ⟨_, hb, fun _ => rfl⟩
  split at hr
  · subst hr
    exact absurd h hE
  · split at hr
    · subst hr
      exact absurd h hE
    · subst hr
      exact ⟨e5.1, e5.2.2.1, e5.2.2.2, e5.2.1⟩

theorem lod_collect_avoidance_comp_inv {d : lod_device} {lo : lod_object}
    {lod_comp : lod_layout_component} {c : Nat} {lag lag1 : lod_avoid_guide} {b : Bool}
    (hidx : ∀ i, (OST_TGT d i).ltd_index = i) (h : avoid_inv d lag)
    (hr : lod_collect_avoidance_comp d lo lod_comp c lag = some (lag1, b)) :
    avoid_inv d lag1 := by
  unfold lod_collect_avoidance_comp at hr
  split at hr
  · contradiction
  · split at hr
    · simp only [Option.some.injEq, Prod.mk.injEq] at hr
      obtain ⟨rfl, -⟩ := hr
      exact h
    · split at hr
      · contradiction
      · rename_i lag2 hloop
        simp only [Option.some.injEq, Prod.mk.injEq] at hr
        obtain ⟨rfl, -⟩ := hr
        exact for_loop_inv (avoid_inv d) _
          (fun _ _ _ _ hx hb => lod_collect_avoidance_stripe_inv hidx hx hb) _ _ _ _ h hloop

theorem lod_collect_avoidance_mirror_inv {d : lod_device} {lo : lod_object}
    {lod_comp : lod_layout_component} {i : Nat} {lag lag1 : lod_avoid_guide} {b : Bool}
    (hidx : ∀ i, (OST_TGT d i).ltd_index = i) (h : avoid_inv d lag)
    (hr : lod_collect_avoidance_mirror d lo lod_comp i lag = some (lag1, b)) :
    avoid_inv d lag1 := by
  unfold lod_collect_avoidance_mirror at hr
  split at hr
  · contradiction
  · split at hr
    · contradiction
    · split at hr
      · simp only [Option.some.injEq, Prod.mk.injEq] at hr
        obtain ⟨rfl, -⟩ := hr
        exact h
      · split at hr
        · contradiction
        · rename_i lag2 hloop
          simp only [Option.some.injEq, Prod.mk.injEq] at hr
          obtain ⟨rfl, -⟩ := hr
          exact for_loop_inv (avoid_inv d) _
            (fun _ _ _ _ hx hb => lod_collect_avoidance_comp_inv hidx hx hb) _ _ _ _ h hloop

/-- `lod_collect_avoidance` keeps `avoid_inv`. -/
theorem lod_collect_avoidance_inv {d : lod_device} {lo : lod_object} {comp_idx : Nat}
    {lag lag1 : lod_avoid_guide} (hidx : ∀ i, (OST_TGT d i).ltd_index = i)
    (h : avoid_inv d lag) (hr : lod_collect_avoidance d lo lag comp_idx = some lag1) :
    avoid_inv d lag1 := by
  unfold lod_collect_avoidance at hr
  split at hr
  · contradiction
  · exact for_loop_inv (avoid_inv d) _
      (fun _ _ _ _ hx hb => lod_collect_avoidance_mirror_inv hidx hx hb) _ _ _ _ h hr

/-- C38: in every guide produced by a successful `lod_prepare_avoidance`
followed by `lod_collect_avoidance`, on a device whose target descriptors sit
at their own index, the first `lag_oaa_count` entries of the avoid-array are
pairwise distinct and hold the id of the server of every target marked in the
avoid-bitmap; and for every live target `idx` whose server is in the server
list, when `lag_ost_avail` is not 0, `lod_should_avoid_ost` answers whether
`idx` is marked in the avoid-bitmap. -/
theorem C38_avoid_array_covers_bitmap (w : lod_backend) (s : lod_sys) (comp_idx : Nat)
    (lag : lod_avoid_guide)
    (hidx : ∀ i, (OST_TGT s.lod i).ltd_index = i)
    (hprep : (lod_prepare_avoidance w s).1 = 0)
    (hcol : lod_collect_avoidance (lod_prepare_avoidance w s).2.lod
      (lod_prepare_avoidance w s).2.lo (lod_prepare_avoidance w s).2.lti.lti_avoid comp_idx
        = some lag) :
    ∃ (arr : List Nat) (bm : cfs_bitmap),
      lag.lag_oss_avoid_array = some arr ∧ lag.lag_ost_avoid_bitmap = some bm ∧
      lag.lag_oaa_count ≤ arr.length ∧ (arr.take lag.lag_oaa_count).Nodup ∧
      (∀ x, cfs_bitmap_check bm x = true →
        ∃ lsq, s.lod.lod_qos.lq_svr_list[(OST_TGT s.lod x).ltq_svr]? = some lsq ∧
          lsq.lsq_id ∈ arr.take lag.lag_oaa_count) ∧
      (∀ (idx : Nat) (lsq : lu_svr_qos),
        cfs_bitmap_check s.lod.lod_ost_bitmap idx = true → lag.lag_ost_avail ≠ 0 →
        s.lod.lod_qos.lq_svr_list[(OST_TGT s.lod idx).ltq_svr]? = some lsq →
        lod_should_avoid_ost s.lod lag idx = some (cfs_bitmap_check bm idx)) := by
  obtain ⟨h1, -, -⟩ := lod_prepare_avoidance_spec w s _ rfl hprep
  obtain ⟨f1, ⟨arr0, f2⟩, ⟨bm0, f3, f4⟩, -⟩ := lod_prepare_avoidance_fresh w s hprep
  rw [h1] at hcol
  have h0 : avoid_inv s.lod (lod_prepare_avoidance w s).2.lti.lti_avoid := by
    refine ⟨arr0, bm0, f2, f3, by rw [f1]; exact Nat.zero_le _, by rw [f1]; simp, fun x hx => ?_⟩
    simp only [cfs_bitmap_check, f4, Bool.and_false] at hx
    contradiction
  obtain ⟨arr, bm, harr, hbm, hlen, hnd, hcov⟩ := lod_collect_avoidance_inv hidx h0 hcol
  refine ⟨arr, bm, harr, hbm, hlen, hnd, hcov, fun idx lsq hlive havail hsvr => ?_⟩
  unfold lod_should_avoid_ost
  simp only [hlive, Bool.true_eq_false, if_false, havail, hsvr, harr, hbm]
  by_cases hz : lag.lag_oaa_count = 0
  · simp only [hz, if_true]
    cases hb : cfs_bitmap_check bm idx with
    | false => rfl
    | true =>
      obtain ⟨l1, -, g2⟩ := hcov idx hb
      rw [hz] at g2
      simp at g2
  · simp only [hz, if_false]
    by_cases hin : lsq.lsq_id ∈ arr.take lag.lag_oaa_count
    · simp only [array_scan_of_mem hin]
    · simp only [array_scan_of_not_mem hin hlen]
      cases hb : cfs_bitmap_check bm idx with
      | false => rfl
      | true =>
        obtain ⟨l1, g1, g2⟩ := hcov idx hb
        rw [hsvr] at g1
        simp only [Option.some.injEq] at g1
        subst g1
        exact absurd g2 hin

/-- Witness of C38, scenario S5 (mirror 1 bound to the targets 0 and 2, one on
each server): the guide collected for component 1 holds the two server ids,
and `lod_should_avoid_ost` answers the bitmap for the marked target 0 and for
the unmarked target 1. -/
theorem C38_avoid_array_covers_bitmap_witness :
    ∃ (lag : lod_avoid_guide) (arr : List Nat) (bm : cfs_bitmap),
      lod_collect_avoidance (lod_prepare_avoidance (healthy_backend true) s5_sys).2.lod
        (lod_prepare_avoidance (healthy_backend true) s5_sys).2.lo
        (lod_prepare_avoidance (healthy_backend true) s5_sys).2.lti.lti_avoid 1 = some lag ∧
      lag.lag_oss_avoid_array = some arr ∧ lag.lag_ost_avoid_bitmap = some bm ∧
      lag.lag_oaa_count = 2 ∧ (arr.take lag.lag_oaa_count).Nodup ∧
      lag_ost_avoid_bit lag 0 = true ∧ lag_ost_avoid_bit lag 1 = false ∧
      lod_should_avoid_ost s5_sys.lod lag 0 = some (cfs_bitmap_check bm 0) ∧
      lod_should_avoid_ost s5_sys.lod lag 1 = some (cfs_bitmap_check bm 1) := by
  have hsome : ((lod_collect_avoidance
      (lod_prepare_avoidance (healthy_backend true) s5_sys).2.lod
      (lod_prepare_avoidance (healthy_backend true) s5_sys).2.lo
      (lod_prepare_avoidance (healthy_backend true) s5_sys).2.lti.lti_avoid 1).map
        (fun lag => (lag.lag_oaa_count, lag.lag_ost_avail, lag_ost_avoid_bit lag 0,
          lag_ost_avoid_bit lag 1))) = some (2, 2, true, false) := by
    decide
  obtain ⟨lag, h1, h2⟩ := Option.map_eq_some'.mp hsome
  simp only [Prod.mk.injEq] at h2
  obtain ⟨g1, g2, g3, g4⟩ := h2
  obtain ⟨arr, bm, e1, e2, -, e4, -, e6⟩ := C38_avoid_array_covers_bitmap (healthy_backend true)
    s5_sys 1 lag (fun _ => rfl) (by decide) h1
  have hav : lag.lag_ost_avail ≠ 0 := by rw [g2]; decide
  exact ⟨lag, arr, bm, h1, e1, e2, g1, e4, g3, g4,
    e6 0 ⟨10, 2⟩ (by decide) hav rfl, e6 1 ⟨10, 2⟩ (by decide) hav rfl⟩

/-! ## C36: the initial slot and the probe of `lod_qos_calc_rr` -/

/-- The probe finds an empty slot when one of the `fuel` slots it inspects is
empty. -/
theorem rr_probe_total {T : List Nat} :
    ∀ fuel next, next < T.length →
      (∃ m, m < fuel ∧ T[(next + m) % T.length]? = some LOV_QOS_EMPTY) →
      ∃ p, rr_probe T fuel next = some p := by
  intro fuel
  induction fuel with
  | zero =>
    rintro next _ ⟨m, hm, -⟩
    omega
  | succ n ih =>
    rintro next hn ⟨m, hm, he⟩
    simp only [rr_probe, List.getElem?_eq_getElem hn]
    split_ifs with hv
    · have hpos : 0 < T.length := by omega
      have hm0 : m ≠ 0 := by
        intro h0
        subst h0
        rw [Nat.add_zero, Nat.mod_eq_of_lt hn, List.getElem?_eq_getElem hn] at he
        exact hv (Option.some.inj he)
      refine ih _ (Nat.mod_lt _ hpos) ⟨m - 1, by omega, ?_⟩
      rw [Nat.mod_add_mod, show next + 1 + (m - 1) = next + m by omega]
      exact he
    · exact ⟨next, rfl⟩

/-- A table with fewer filled slots than slots has an empty slot. -/
theorem filled_slots_lt {T : List Nat} (h : filled_slots T < T.length) :
    ∃ q, q < T.length ∧ T[q]? = some LOV_QOS_EMPTY := by
  by_contra hc
  have hall : ∀ x ∈ T, decide (x ≠ LOV_QOS_EMPTY) = true := by
    intro x hx
    obtain ⟨q, hq, rfl⟩ := List.mem_iff_getElem.mp hx
    by_contra hne
    apply hc
    refine ⟨q, hq, ?_⟩
    rw [List.getElem?_eq_getElem hq]
    simpa using hne
  have := List.countP_eq_length.mpr hall
  unfold filled_slots at h
  omega

theorem rr_probe_of_room {T : List Nat} {next : Nat} (hn : next < T.length)
    (h : filled_slots T < T.length) :
    ∃ p, rr_probe T T.length next = some p ∧ p < T.length ∧ T[p]? = some LOV_QOS_EMPTY := by
  obtain ⟨q, hq, he⟩ := filled_slots_lt h
  obtain ⟨p, hp⟩ := rr_probe_total T.length next hn
    ⟨(q + T.length - next) % T.length, Nat.mod_lt _ (by omega), by
      rw [Nat.add_mod_mod, show next + (q + T.length - next) = q + T.length by omega,
        Nat.add_mod_right, Nat.mod_eq_of_lt hq]
      exact he⟩
  have hs := rr_probe_spec hp
  exact ⟨p, hp, (List.getElem?_eq_some.mp hs).1, hs⟩

theorem countP_disjoint_le {p q : Nat → Bool} (h : ∀ x, p x = true → q x = false) :
    ∀ l : List Nat, l.countP p + l.countP q ≤ l.length := by
  intro l
  induction l with
  | nil => simp
  | cons x xs ih =>
    simp only [List.countP_cons, List.length_cons]
    cases hp : p x with
    | true =>
      simp only [h x hp, if_true, Bool.false_eq_true, if_false]
      omega
    | false =>
      simp only [Bool.false_eq_true, if_false]
      split_ifs <;> omega

theorem countP_set_le (p : Nat → Bool) :
    ∀ (l : List Nat) (n v : Nat), (l.set n v).countP p ≤ l.countP p + 1 := by
  intro l
  induction l with
  | nil => intro n v; simp
  | cons x xs ih =>
    intro n v
    cases n with
    | zero =>
      simp only [List.set_cons_zero, List.countP_cons]
      split_ifs <;> omega
    | succ m =>
      simp only [List.set_cons_succ, List.countP_cons]
      have := ih m v
      omega

theorem live_count_succ {d : lod_device} {P : List Nat} {k i t : Nat} (ht : P[i]? = some t) :
    live_count d P k (i + 1) = live_count d P k i + (if live_on d k t = true then 1 else 0) := by
  unfold live_count
  rw [List.take_succ, ht]
  simp only [Option.toList, List.countP_append, List.countP_cons, List.countP_nil, Nat.zero_add]

theorem live_count_le_svr (d : lod_device) (P : List Nat) (k i : Nat) :
    live_count d P k i ≤ svr_count d P k i := by
  unfold live_count svr_count
  rw [← List.countP_eq_length_filter]
  apply List.countP_mono_left
  intro x _ hx
  simp only [live_on, Bool.and_eq_true, decide_eq_true_eq] at hx
  simpa using hx.2

/-- When the entry at pool slot `i` is to be placed for server `k`, fewer
entries have been placed than the pool has slots. -/
theorem live_room {d : lod_device} {P : List Nat} {k i t : Nat} (ht : P[i]? = some t)
    (hl : live_on d k t = true) : live_before d P k + live_count d P k i < P.length := by
  have hi : i < P.length := (List.getElem?_eq_some.mp ht).1
  have hsplit : P = P.take i ++ t :: P.drop (i + 1) := by
    have hg : P[i] = t := (List.getElem?_eq_some.mp ht).2
    rw [← hg]
    exact (List.take_append_drop i P).symm.trans (by rw [List.drop_eq_getElem_cons hi])
  have hk : (OST_TGT d t).ltq_svr = k := by
    simp only [live_on, Bool.and_eq_true, decide_eq_true_eq] at hl
    exact hl.2
  have hdis := countP_disjoint_le
    (p := fun t => cfs_bitmap_check d.lod_ost_bitmap t && decide ((OST_TGT d t).ltq_svr < k))
    (q := live_on d k) (fun x hx => by
      simp only [Bool.and_eq_true, decide_eq_true_eq] at hx
      simp only [live_on, Bool.and_eq_false_iff, decide_eq_false_iff_not]
      exact Or.inr (by omega)) (P.take i)
  have hrest := List.countP_le_length
    (fun t => cfs_bitmap_check d.lod_ost_bitmap t && decide ((OST_TGT d t).ltq_svr < k))
    (l := P.drop (i + 1))
  have hlen1 : (P.take i).length = i := by rw [List.length_take]; omega
  have hlen2 : (P.drop (i + 1)).length = P.length - (i + 1) := List.length_drop _ _
  have hb : live_before d P k =
      (P.take i).countP (fun t => cfs_bitmap_check d.lod_ost_bitmap t &&
        decide ((OST_TGT d t).ltq_svr < k)) +
      (P.drop (i + 1)).countP (fun t => cfs_bitmap_check d.lod_ost_bitmap t &&
        decide ((OST_TGT d t).ltq_svr < k)) := by
    unfold live_before
    conv_lhs => rw [hsplit]
    simp only [List.countP_append, List.countP_cons, hk, Nat.lt_irrefl, decide_False,
      Bool.and_false, Bool.false_eq_true, if_false, Nat.add_zero]
  unfold live_count
  omega

theorem live_before_succ (d : lod_device) (P : List Nat) (k : Nat) :
    live_before d P (k + 1) = live_before d P k + live_count d P k P.length := by
  unfold live_before live_count
  rw [List.take_length]
  induction P with
  | nil => simp
  | cons x xs ih =>
    simp only [List.countP_cons, ih, live_on]
    by_cases hb : cfs_bitmap_check d.lod_ost_bitmap x = true
    · simp only [hb, Bool.true_and, decide_eq_true_eq]
      by_cases h1 : (OST_TGT d x).ltq_svr < k
      · simp only [h1, Nat.lt_succ_of_lt h1, if_true, Nat.ne_of_lt h1, if_false]
        omega
      · by_cases h2 : (OST_TGT d x).ltq_svr = k
        · simp only [h2, Nat.lt_irrefl, Nat.lt_succ_self, if_true, if_false]
          omega
        · simp only [h1, h2, show ¬ (OST_TGT d x).ltq_svr < k + 1 by omega, if_false]
          omega
    · simp only [hb, Bool.false_and, Bool.false_eq_true, if_false]
      omega

/-- In a state of the placement loops that satisfies the invariant, the
placement of a live pool entry of server `k` is safe. -/
theorem place_safe_of_inv {d : lod_device} {P : List Nat} {k i t : Nat} {oss : lu_svr_qos}
    {st : calc_rr_state} (hcnt : svr_count d P k P.length ≤ oss.lsq_tgt_count)
    (ht : P[i]? = some t) (hl : live_on d k t = true) (h : probe_inv d P k i st) :
    place_safe oss st := by
  have hk : (OST_TGT d t).ltq_svr = k := by
    simp only [live_on, Bool.and_eq_true, decide_eq_true_eq] at hl
    exact hl.2
  have h1 := live_count_le_svr d P k i
  have h2 := svr_count_succ_of ht hk
  have h3 := @svr_count_le d P k (i + 1)
  have hj : st.j < oss.lsq_tgt_count := by rw [h.j]; omega
  have hroom := live_room ht hl
  have hpos : 0 < P.length := by omega
  have hnext : (st.j * st.op_array.length) % 2 ^ 32 / oss.lsq_tgt_count < st.op_array.length := by
    apply Nat.div_lt_of_lt_mul
    apply Nat.lt_of_le_of_lt (Nat.mod_le _ _)
    rw [h.len]
    exact Nat.mul_lt_mul_of_pos_right hj hpos
  have hf : filled_slots st.op_array < st.op_array.length := by
    have := h.filled
    rw [h.len]
    omega
  exact ⟨by omega, hnext, rr_probe_of_room hnext hf⟩

/-- One step of the inner loop of `lod_qos_calc_rr` returns and keeps the
invariant. -/
theorem lod_qos_calc_rr_place_total {d : lod_device} {src_pool : ost_pool} {k i : Nat}
    {oss : lu_svr_qos} {st : calc_rr_state}
    (hcnt : svr_count d src_pool.op_array k src_pool.op_array.length ≤ oss.lsq_tgt_count)
    (hi : i < src_pool.op_array.length) (h : probe_inv d src_pool.op_array k i st) :
    ∃ st1, lod_qos_calc_rr_place d src_pool k oss i st = some (st1, false) ∧
      probe_inv d src_pool.op_array k (i + 1) st1 := by
  have ht : src_pool.op_array[i]? = some src_pool.op_array[i] := List.getElem?_eq_getElem hi
  generalize src_pool.op_array[i] = t at ht
  have hsucc := @live_count_succ d src_pool.op_array k i t ht
  unfold lod_qos_calc_rr_place
  simp only [ht]
  by_cases hlive : cfs_bitmap_check d.lod_ost_bitmap t = true
  · by_cases hown : (OST_TGT d t).ltq_svr = k
    · have hl : live_on d k t = true := by simp [live_on, hlive, hown]
      obtain ⟨h0, -, p, hp, hplt, -⟩ := place_safe_of_inv hcnt ht hl h
      rw [if_pos hl] at hsucc
      simp only [hlive, Bool.true_eq_false, if_false, hown, ne_eq, not_true_eq_false, h0, hp]
      refine ⟨_, rfl, ?_, ?_, ?_⟩
      · show (st.op_array.set p t).length = _
        rw [List.length_set]
        exact h.len
      · show st.j + 1 = _
        rw [hsucc, h.j]
      · show filled_slots (st.op_array.set p t) ≤ _
        have h5 := countP_set_le (fun x => decide (x ≠ LOV_QOS_EMPTY)) st.op_array p t
        have h6 := h.filled
        unfold filled_slots at h6 ⊢
        omega
    · have hl : ¬ live_on d k t = true := by simp [live_on, hlive, hown]
      rw [if_neg hl] at hsucc
      simp only [hlive, Bool.true_eq_false, if_false, ne_eq, hown, not_false_eq_true, if_true]
      exact ⟨st, rfl, h.len, by rw [hsucc]; exact h.j, by rw [hsucc]; exact h.filled⟩
  · have hl : ¬ live_on d k t = true := by simp [live_on, hlive]
    rw [if_neg hl] at hsucc
    have hlf : cfs_bitmap_check d.lod_ost_bitmap t = false := by simpa using hlive
    simp only [hlf, if_true]
    exact ⟨st, rfl, h.len, by rw [hsucc]; exact h.j, by rw [hsucc]; exact h.filled⟩

/-- The states at the heads of a loop whose steps carry an indexed invariant
satisfy it. -/
theorem for_loop_heads_inv_idx {σ : Type} (I : Nat → σ → Prop)
    (body : Nat → σ → Option (σ × Bool))
    (hstep : ∀ i s s1, I i s → body i s = some (s1, false) → I (i + 1) s1) :
    ∀ fuel i s, I i s → ∀ p ∈ for_loop_heads body fuel i s, I p.1 p.2 := by
  intro fuel
  induction fuel with
  | zero =>
    intro i s _ p hp
    simp [for_loop_heads] at hp
  | succ n ih =>
    intro i s hs p hp
    simp only [for_loop_heads, List.mem_cons] at hp
    rcases hp with rfl | hp
    · exact hs
    · split at hp
      · rename_i s1 hb
        exact ih _ _ (hstep _ _ _ hs hb) p hp
      · simp at hp

theorem probe_inv.at_outset {d : lod_device} {P : List Nat} {k : Nat} {st : calc_rr_state}
    (hlen : st.op_array.length = P.length)
    (hf : filled_slots st.op_array ≤ live_before d P k) :
    probe_inv d P k 0 { st with j := 0 } :=
  ⟨hlen, by simp [live_count], by simpa [live_count] using hf⟩

/-- A step of the inner loop that returns kept the invariant. -/
theorem lod_qos_calc_rr_place_probe_inv {d : lod_device} {src_pool : ost_pool} {k i : Nat}
    {oss : lu_svr_qos} {st st1 : calc_rr_state} {b : Bool}
    (hcnt : svr_count d src_pool.op_array k src_pool.op_array.length ≤ oss.lsq_tgt_count)
    (h : probe_inv d src_pool.op_array k i st)
    (hr : lod_qos_calc_rr_place d src_pool k oss i st = some (st1, b)) :
    probe_inv d src_pool.op_array k (i + 1) st1 := by
  have hi : i < src_pool.op_array.length := by
    by_contra hc
    unfold lod_qos_calc_rr_place at hr
    rw [List.getElem?_eq_none (by omega)] at hr
    contradiction
  obtain ⟨st2, h1, h2⟩ := lod_qos_calc_rr_place_total hcnt hi h
  rw [h1] at hr
  simp only [Option.some.injEq, Prod.mk.injEq] at hr
  rw [← hr.1]
  exact h2

/-- The inner loop of `lod_qos_calc_rr` for server `k` returns. -/
theorem lod_qos_calc_rr_svr_total {d : lod_device} {src_pool : ost_pool} {k : Nat}
    {oss : lu_svr_qos} {st : calc_rr_state}
    (hoss : d.lod_qos.lq_svr_list[k]? = some oss)
    (hcnt : svr_count d src_pool.op_array k src_pool.op_array.length ≤ oss.lsq_tgt_count)
    (hlen : st.op_array.length = src_pool.op_array.length)
    (hf : filled_slots st.op_array ≤ live_before d src_pool.op_array k) :
    ∃ st1, lod_qos_calc_rr_svr d src_pool k st = some (st1, false) ∧
      st1.op_array.length = src_pool.op_array.length ∧
      filled_slots st1.op_array ≤ live_before d src_pool.op_array (k + 1) := by
  obtain ⟨st1, h1, h2⟩ := for_loop_steps
    (fun i x => probe_inv d src_pool.op_array k i x)
    (lod_qos_calc_rr_place d src_pool k oss) src_pool.op_array.length
    (fun i x hi hx => lod_qos_calc_rr_place_total hcnt hi hx)
    src_pool.op_array.length 0 { st with j := 0 } (Nat.zero_add _) (probe_inv.at_outset hlen hf)
  refine ⟨st1, ?_, h2.len, ?_⟩
  · unfold lod_qos_calc_rr_svr
    simp only [hoss]
    have h1c : for_loop (lod_qos_calc_rr_place d src_pool k oss) src_pool.op_count 0
        { st with j := 0 } = some st1 := h1
    rw [h1c]
  · rw [live_before_succ]
    exact h2.filled

/-- C36: when each server's `lsq_tgt_count` is at least the number of pool
entries it owns, the placement loops of `lod_qos_calc_rr` return (a zero
divisor, an initial slot outside the table and a probe that finds no empty
slot among `op_count` slots are the faults of the loops), and at every
placement, that is at the head of every inner iteration that meets a live
pool entry of the server at hand, the divisor `lsq_tgt_count` is not 0, the
initial slot `j * op_count / lsq_tgt_count` is below `op_count`, and the probe
ends on an empty slot having inspected at most `op_count` slots, that is
after fewer than `op_count` steps. -/
theorem C36_calc_rr_probe_safe (d : lod_device) (src_pool : ost_pool)
    (hcnt : ∀ k oss, d.lod_qos.lq_svr_list[k]? = some oss →
      svr_count d src_pool.op_array k src_pool.op_array.length ≤ oss.lsq_tgt_count) :
    (∃ st, lod_qos_calc_rr_table d src_pool = some st) ∧
    ∀ p ∈ for_loop_heads (lod_qos_calc_rr_svr d src_pool) d.lod_qos.lq_svr_list.length 0
        { op_array := List.replicate src_pool.op_count LOV_QOS_EMPTY, placed := 0, j := 0 },
      ∀ oss, d.lod_qos.lq_svr_list[p.1]? = some oss →
      ∀ q ∈ for_loop_heads (lod_qos_calc_rr_place d src_pool p.1 oss) src_pool.op_count 0
          { p.2 with j := 0 },
        ∀ t, src_pool.op_array[q.1]? = some t →
          cfs_bitmap_check d.lod_ost_bitmap t = true → (OST_TGT d t).ltq_svr = p.1 →
          q.2.op_array.length = src_pool.op_count ∧ place_safe oss q.2 := by
  have h0 : (List.replicate src_pool.op_count LOV_QOS_EMPTY).length = src_pool.op_array.length ∧
      filled_slots (List.replicate src_pool.op_count LOV_QOS_EMPTY) ≤
        live_before d src_pool.op_array 0 := by
    refine ⟨List.length_replicate _ _, ?_⟩
    have : filled_slots (List.replicate src_pool.op_count LOV_QOS_EMPTY) = 0 := by
      unfold filled_slots
      rw [List.countP_eq_zero]
      intro a ha
      simp [List.eq_of_mem_replicate ha]
    omega
  refine ⟨?_, fun p hp oss hoss q hq t ht hlive hown => ?_⟩
  · obtain ⟨st, h1, -⟩ := for_loop_steps
      (fun k (x : calc_rr_state) => x.op_array.length = src_pool.op_array.length ∧
        filled_slots x.op_array ≤ live_before d src_pool.op_array k)
      (lod_qos_calc_rr_svr d src_pool) d.lod_qos.lq_svr_list.length
      (fun k x hk hx => by
        obtain ⟨st1, g1, g2, g3⟩ := lod_qos_calc_rr_svr_total (List.getElem?_eq_getElem hk)
          (hcnt k _ (List.getElem?_eq_getElem hk)) hx.1 hx.2
        exact ⟨st1, g1, g2, g3⟩)
      d.lod_qos.lq_svr_list.length 0
      { op_array := List.replicate src_pool.op_count LOV_QOS_EMPTY, placed := 0, j := 0 }
      (Nat.zero_add _) h0
    exact ⟨st, h1⟩
  · have hout := for_loop_heads_inv_idx
      (fun k (x : calc_rr_state) => x.op_array.length = src_pool.op_array.length ∧
        filled_slots x.op_array ≤ live_before d src_pool.op_array k)
      (lod_qos_calc_rr_svr d src_pool)
      (fun k x x1 hx hb => by
        have hk : k < d.lod_qos.lq_svr_list.length := by
          by_contra hc
          unfold lod_qos_calc_rr_svr at hb
          rw [List.getElem?_eq_none (by omega)] at hb
          contradiction
        obtain ⟨st1, g1, g2, g3⟩ := lod_qos_calc_rr_svr_total (List.getElem?_eq_getElem hk)
          (hcnt k _ (List.getElem?_eq_getElem hk)) hx.1 hx.2
        rw [g1] at hb
        simp only [Option.some.injEq, Prod.mk.injEq] at hb
        rw [← hb.1]
        exact ⟨g2, g3⟩)
      d.lod_qos.lq_svr_list.length 0
      { op_array := List.replicate src_pool.op_count LOV_QOS_EMPTY, placed := 0, j := 0 }
      h0 p hp
    have hin := for_loop_heads_inv_idx
      (fun i (x : calc_rr_state) => probe_inv d src_pool.op_array p.1 i x)
      (lod_qos_calc_rr_place d src_pool p.1 oss)
      (fun i x x1 hx hb => lod_qos_calc_rr_place_probe_inv (hcnt _ _ hoss) hx hb)
      _ _ _ (probe_inv.at_outset hout.1 hout.2) q hq
    exact ⟨hin.len, place_safe_of_inv (hcnt _ _ hoss) ht
      (by simp [live_on, hlive, hown]) hin⟩

theorem c36_counts (k : Nat) (oss : lu_svr_qos)
    (h : s1_sys.lod.lod_qos.lq_svr_list[k]? = some oss) :
    svr_count s1_sys.lod c36_pool.op_array k c36_pool.op_array.length ≤ oss.lsq_tgt_count := by
  match k with
  | 0 =>
    have e : oss = ⟨10, 4⟩ := (Option.some.inj h).symm
    subst e
    decide
  | 1 =>
    have e : oss = ⟨11, 4⟩ := (Option.some.inj h).symm
    subst e
    decide
  | n + 2 => exact absurd h (by simp [s1_sys, demo_sys, demo_device])

/-- Witness of C36: the servers of scenario S1 count 4 targets each, the pool
holds 2 and 1 of them; the placement returns the table `[0, 1, 4]`. -/
theorem C36_calc_rr_probe_safe_witness :
    (∀ k oss, s1_sys.lod.lod_qos.lq_svr_list[k]? = some oss →
      svr_count s1_sys.lod c36_pool.op_array k c36_pool.op_array.length ≤ oss.lsq_tgt_count) ∧
    (∃ st, lod_qos_calc_rr_table s1_sys.lod c36_pool = some st) ∧
    (lod_qos_calc_rr_table s1_sys.lod c36_pool).map (fun st => (st.op_array, st.placed)) =
      some ([0, 1, 4], 3) :=
  ⟨c36_counts, (C36_calc_rr_probe_safe s1_sys.lod c36_pool c36_counts).1, by decide⟩

/-! ## C37: the interleaving of the servers in the round-robin table -/

/-- The probe started at `next` ends at `next + r` when the `r` slots from
`next` on are filled and the slot `next + r` is empty. -/
theorem rr_probe_run {T : List Nat} :
    ∀ r fuel next, r < fuel → next + r < T.length →
      (∀ r1, r1 < r → ∃ v, T[next + r1]? = some v ∧ v ≠ LOV_QOS_EMPTY) →
      T[next + r]? = some LOV_QOS_EMPTY → rr_probe T fuel next = some (next + r) := by
  intro r
  induction r with
  | zero =>
    intro fuel next hf _ _ he
    obtain ⟨f, rfl⟩ : ∃ f, fuel = f + 1 := ⟨fuel - 1, by omega⟩
    exact rr_probe_empty he
  | succ r ih =>
    intro fuel next hf hlen hfill he
    obtain ⟨f, rfl⟩ : ∃ f, fuel = f + 1 := ⟨fuel - 1, by omega⟩
    obtain ⟨v, hv, hne⟩ := hfill 0 (Nat.succ_pos _)
    rw [Nat.add_zero] at hv
    simp only [rr_probe, hv, ne_eq, hne, not_false_eq_true, if_true]
    rw [Nat.mod_eq_of_lt (by omega)]
    have h1 := ih f (next + 1) (by omega) (by omega)
      (fun r1 hr1 => by
        have := hfill (r1 + 1) (by omega)
        rwa [show next + (r1 + 1) = next + 1 + r1 by omega] at this)
      (by rwa [show next + (r + 1) = next + 1 + r by omega] at he)
    rw [h1, show next + 1 + r = next + (r + 1) by omega]

theorem slot_inj {S m r m1 r1 : Nat} (hr : r < S) (hr1 : r1 < S)
    (h : S * m + r = S * m1 + r1) : m = m1 ∧ r = r1 := by
  have hS : 0 < S := by omega
  have e1 : (S * m + r) / S = m := by
    rw [Nat.mul_add_div hS, Nat.div_eq_of_lt hr, Nat.add_zero]
  have e2 : (S * m1 + r1) / S = m1 := by
    rw [Nat.mul_add_div hS, Nat.div_eq_of_lt hr1, Nat.add_zero]
  have e3 : (S * m + r) % S = r := by
    rw [Nat.mul_add_mod, Nat.mod_eq_of_lt hr]
  have e4 : (S * m1 + r1) % S = r1 := by
    rw [Nat.mul_add_mod, Nat.mod_eq_of_lt hr1]
  rw [h] at e1 e3
  exact ⟨e1.symm.trans e2, e3.symm.trans e4⟩

theorem slot_lt {S K m r : Nat} (hm : m < K) (hr : r < S) : S * m + r < S * K := by
  have h1 : S * m + S ≤ S * K := by
    rw [← Nat.mul_succ]
    exact Nat.mul_le_mul_left _ hm
  omega

theorem interleave_inv.place {d : lod_device} {S K : Nat} {P : List Nat} {s j t : Nat}
    {T : List Nat} (h : interleave_inv d S K P s j T) (hs : s < S) (hj : j < K)
    (ht : t ≠ LOV_QOS_EMPTY) (hmem : t ∈ P) (hown : (OST_TGT d t).ltq_svr = s) :
    interleave_inv d S K P s (j + 1) (T.set (S * j + s) t) := by
  have hlt := @slot_lt S K j s hj hs
  refine ⟨by rw [List.length_set]; exact h.len, fun m r hm hr hc => ?_, fun m r hm hr hc => ?_⟩
  · by_cases e : S * m + r = S * j + s
    · obtain ⟨e1, e2⟩ := slot_inj hr hs e
      subst e1 e2
      exact ⟨t, by rw [List.getElem?_set_self (by rw [h.len]; exact hlt)], ht, hmem, hown⟩
    · rw [List.getElem?_set_ne (Ne.symm e)]
      apply h.taken m r hm hr
      rcases hc with hc | ⟨hc1, hc2⟩
      · exact Or.inl hc
      · refine Or.inr ⟨hc1, ?_⟩
        by_contra hge
        have : m = j := by omega
        subst this hc1
        exact e rfl
  · have e : S * m + r ≠ S * j + s := by
      intro e
      obtain ⟨e1, e2⟩ := slot_inj hr hs e
      omega
    rw [List.getElem?_set_ne (Ne.symm e)]
    apply h.free m r hm hr
    rcases hc with hc | ⟨hc1, hc2⟩
    · exact Or.inl hc
    · exact Or.inr ⟨hc1, by omega⟩

theorem interleave_next_eq {S K j : Nat} (hj : j < K) (hov : S * K * K ≤ 2 ^ 32) :
    (j * (S * K)) % 2 ^ 32 / K = S * j := by
  have h1 : j * (S * K) < K * (S * K) ∨ S * K = 0 := by
    rcases Nat.eq_zero_or_pos (S * K) with h | h
    · exact Or.inr h
    · exact Or.inl (Nat.mul_lt_mul_of_pos_right hj h)
  have h2 : j * (S * K) < 2 ^ 32 := by
    rcases h1 with h | h
    · have : K * (S * K) = S * K * K := by ring
      omega
    · rw [h, Nat.mul_zero]
      exact Nat.pos_pow_of_pos 32 (by decide)
  rw [Nat.mod_eq_of_lt h2, show j * (S * K) = S * j * K by ring]
  exact Nat.mul_div_cancel _ (by omega)

/-- One step of the inner loop of `lod_qos_calc_rr` for server `s` on a pool
of `S` servers with `K` live entries each. -/
theorem lod_qos_calc_rr_place_interleave {d : lod_device} {src_pool : ost_pool}
    {S K s i : Nat} {oss : lu_svr_qos} {st : calc_rr_state}
    (hs : s < S) (hov : S * K * K ≤ 2 ^ 32)
    (hlive : ∀ t ∈ src_pool.op_array, cfs_bitmap_check d.lod_ost_bitmap t = true)
    (hsent : cfs_bitmap_check d.lod_ost_bitmap LOV_QOS_EMPTY = false)
    (hcnt : svr_count d src_pool.op_array s src_pool.op_array.length = K)
    (hoss : oss.lsq_tgt_count = K)
    (hi : i < src_pool.op_array.length)
    (h : interleave_loop_inv d S K src_pool.op_array s i st) :
    ∃ st1, lod_qos_calc_rr_place d src_pool s oss i st = some (st1, false) ∧
      interleave_loop_inv d S K src_pool.op_array s (i + 1) st1 := by
  have ht : src_pool.op_array[i]? = some src_pool.op_array[i] := List.getElem?_eq_getElem hi
  have hmem : src_pool.op_array[i] ∈ src_pool.op_array := List.getElem_mem hi
  have hlv := hlive _ hmem
  have hne : src_pool.op_array[i] ≠ LOV_QOS_EMPTY := by
    intro e
    rw [e, hsent] at hlv
    contradiction
  unfold lod_qos_calc_rr_place
  simp only [ht, hlv, Bool.true_eq_false, if_false]
  by_cases hown : (OST_TGT d src_pool.op_array[i]).ltq_svr = s
  · have hc := svr_count_succ_of ht hown
    have hjk : svr_count d src_pool.op_array s i < K := by
      have := @svr_count_le d src_pool.op_array s (i + 1)
      omega
    have hk0 : K ≠ 0 := by omega
    have htab := h.tab
    have hlt := @slot_lt S K _ s hjk hs
    have hprobe : rr_probe st.op_array (S * K) (S * svr_count d src_pool.op_array s i) =
        some (S * svr_count d src_pool.op_array s i + s) :=
      rr_probe_run s (S * K) _ (by omega) (by rw [htab.len]; exact hlt)
        (fun r1 hr1 => by
          obtain ⟨t, g1, g2, -, -⟩ := htab.taken _ r1 hjk (by omega) (Or.inl hr1)
          exact ⟨t, g1, g2⟩)
        (htab.free _ s hjk hs (Or.inr ⟨rfl, Nat.le_refl _⟩))
    simp only [hown, ne_eq, not_true_eq_false, if_false, hoss, hk0, h.j, htab.len,
      interleave_next_eq hjk hov, hprobe]
    refine ⟨_, rfl, ?_, ?_, ?_⟩
    · show interleave_inv d S K _ s _ (st.op_array.set _ _)
      rw [hc]
      exact htab.place hs hjk hne hmem hown
    · exact hc.symm
    · show st.placed + 1 = _
      rw [hc, h.placed]
      omega
  · have hc := svr_count_succ_of_ne ht hown
    simp only [hown, ne_eq, not_false_eq_true, if_true]
    refine ⟨st, rfl, ?_, ?_, ?_⟩
    · rw [hc]
      exact h.tab
    · rw [hc]
      exact h.j
    · rw [hc]
      exact h.placed

/-- The inner loop of `lod_qos_calc_rr` for server `s` runs to the end and
fills the slots of residue `s`. -/
theorem lod_qos_calc_rr_svr_interleave {d : lod_device} {src_pool : ost_pool} {S K s : Nat}
    {oss : lu_svr_qos} {st : calc_rr_state}
    (hs : s < S) (hov : S * K * K ≤ 2 ^ 32)
    (hlive : ∀ t ∈ src_pool.op_array, cfs_bitmap_check d.lod_ost_bitmap t = true)
    (hsent : cfs_bitmap_check d.lod_ost_bitmap LOV_QOS_EMPTY = false)
    (hcnt : svr_count d src_pool.op_array s src_pool.op_array.length = K)
    (hoss : d.lod_qos.lq_svr_list[s]? = some oss) (hoss1 : oss.lsq_tgt_count = K)
    (h : interleave_inv d S K src_pool.op_array s 0 st.op_array)
    (hp : st.placed = s * K) :
    ∃ st1, lod_qos_calc_rr_svr d src_pool s st = some (st1, false) ∧
      interleave_inv d S K src_pool.op_array (s + 1) 0 st1.op_array ∧
      st1.placed = (s + 1) * K := by
  have h0 : interleave_loop_inv d S K src_pool.op_array s 0 { st with j := 0 } :=
    ⟨by rw [svr_count_zero]; exact h, by rw [svr_count_zero], by rw [svr_count_zero]; exact hp⟩
  obtain ⟨st1, h1, h2⟩ := for_loop_steps
    (fun i x => interleave_loop_inv d S K src_pool.op_array s i x)
    (lod_qos_calc_rr_place d src_pool s oss) src_pool.op_array.length
    (fun i x hi hx => lod_qos_calc_rr_place_interleave hs hov hlive hsent hcnt hoss1 hi hx)
    src_pool.op_array.length 0 { st with j := 0 } (Nat.zero_add _) h0
  have htab := h2.tab
  rw [hcnt] at htab
  refine ⟨st1, ?_, ⟨htab.len, fun m r hm hr hc => ?_, fun m r hm hr hc => ?_⟩, ?_⟩
  · unfold lod_qos_calc_rr_svr
    simp only [hoss, ost_pool.op_count, h1]
  · apply htab.taken m r hm hr
    rcases hc with hc | ⟨-, hc⟩
    · rcases Nat.lt_or_ge r s with g | g
      · exact Or.inl g
      · exact Or.inr ⟨by omega, hm⟩
    · omega
  · apply htab.free m r hm hr
    rcases hc with hc | ⟨hc, -⟩
    · exact Or.inl (by omega)
    · exact Or.inl (by omega)
  · rw [h2.placed, hcnt, Nat.succ_mul]

/-- On a pool of `S * K` live entries, `K` of each of the `S` servers, each
server counting `K` targets, the placement loops of `lod_qos_calc_rr` return,
place every entry and fill slot `S * m + r` with an entry of server `r`. -/
theorem lod_qos_calc_rr_table_interleave {d : lod_device} {src_pool : ost_pool} {S K : Nat}
    (hS : d.lod_qos.lq_svr_list.length = S) (hlen : src_pool.op_array.length = S * K)
    (hov : S * K * K ≤ 2 ^ 32)
    (hlive : ∀ t ∈ src_pool.op_array, cfs_bitmap_check d.lod_ost_bitmap t = true)
    (hsent : cfs_bitmap_check d.lod_ost_bitmap LOV_QOS_EMPTY = false)
    (hcnt : ∀ s, s < S → svr_count d src_pool.op_array s src_pool.op_array.length = K)
    (htc : ∀ (s : Nat) (oss : lu_svr_qos), d.lod_qos.lq_svr_list[s]? = some oss →
      oss.lsq_tgt_count = K) :
    ∃ st, lod_qos_calc_rr_table d src_pool = some st ∧ st.placed = S * K ∧
      interleave_inv d S K src_pool.op_array S 0 st.op_array := by
  have h0 : interleave_inv d S K src_pool.op_array 0 0
      (List.replicate src_pool.op_count LOV_QOS_EMPTY) := by
    refine ⟨by rw [List.length_replicate]; exact hlen, fun m r _ _ hc => ?_,
      fun m r hm hr _ => ?_⟩
    · omega
    · rw [List.getElem?_replicate, if_pos (by
        show S * m + r < src_pool.op_array.length
        rw [hlen]
        exact slot_lt hm hr)]
  obtain ⟨st, h1, h2, h3⟩ := for_loop_steps
    (fun s (x : calc_rr_state) => interleave_inv d S K src_pool.op_array s 0 x.op_array ∧
      x.placed = s * K)
    (lod_qos_calc_rr_svr d src_pool) S
    (fun s x hs hx => by
      have hlt : s < d.lod_qos.lq_svr_list.length := by rw [hS]; exact hs
      obtain ⟨st1, g1, g2, g3⟩ := lod_qos_calc_rr_svr_interleave hs hov hlive hsent
        (hcnt s hs) (List.getElem?_eq_getElem hlt) (htc s _ (List.getElem?_eq_getElem hlt))
        hx.1 hx.2
      exact ⟨st1, g1, g2, g3⟩)
    S 0 { op_array := List.replicate src_pool.op_count LOV_QOS_EMPTY, placed := 0, j := 0 }
    (Nat.zero_add _) ⟨h0, (Nat.zero_mul _).symm⟩
  refine ⟨st, ?_, h3, h2⟩
  unfold lod_qos_calc_rr_table
  rw [hS]
  exact h1

/-- Failing input of C37: the pool holds 2 live targets of each of the 2
servers of scenario S1 (`pool_count = 2 * 2`), and each server counts 4 targets
(`lsq_tgt_count`), the pool being a part of the device.  The table is
`[0, 1, 4, 5]`: position 1 holds target 1, which is on server 0, not on server
`1 mod 2`, and the positions 0 and 1 hold targets of the same server, where the
comment of `lod_qos_calc_rr` promises a list that interleaves the targets of
the different servers. -/
theorem C37_counterexample :
    s1_sys.lod.lod_qos.lq_svr_list.map (fun o => o.lsq_tgt_count) = [4, 4] ∧
    c37_pool.op_array.all (fun t => cfs_bitmap_check s1_sys.lod.lod_ost_bitmap t) = true ∧
    svr_count s1_sys.lod c37_pool.op_array 0 c37_pool.op_count = 2 ∧
    svr_count s1_sys.lod c37_pool.op_array 1 c37_pool.op_count = 2 ∧
    (lod_qos_calc_rr_table s1_sys.lod c37_pool).map (fun st => (st.op_array, st.placed)) =
      some ([0, 1, 4, 5], 4) ∧
    (OST_TGT s1_sys.lod 0).ltq_svr = 0 ∧ (OST_TGT s1_sys.lod 1).ltq_svr = 0 ∧ 1 % 2 = 1 := by
  refine ⟨by decide, by decide, by decide, by decide, by decide, by decide, by decide, by decide⟩

/-- C37 (divergence): the placement divides by `lsq_tgt_count`, the number of
targets the server has on the device, so the table interleaves the servers when
that is the number `K` of targets the server has in the pool.  The pool holds
`S * K` live targets, `K` of each of the `S` servers of the server list, each
server counts exactly `K` targets (`lsq_tgt_count = K`: the pool holds all its
targets), the empty-slot sentinel is no existing target and `S * K * K ≤ 2 ^ 32`
(the 32-bit product `j * op_count` does not wrap).  Then the placement of
`lod_qos_calc_rr` returns
with every entry placed, position `p` of the table holds a pool target of the
server at position `p mod S` of the server list, and any `S` cyclically
consecutive positions hold targets of `S` distinct servers. -/
theorem C37_table_interleaves_servers (d : lod_device) (src_pool : ost_pool) (S K : Nat)
    (hS : d.lod_qos.lq_svr_list.length = S) (hlen : src_pool.op_array.length = S * K)
    (hov : S * K * K ≤ 2 ^ 32)
    (hlive : ∀ t ∈ src_pool.op_array, cfs_bitmap_check d.lod_ost_bitmap t = true)
    (hsent : cfs_bitmap_check d.lod_ost_bitmap LOV_QOS_EMPTY = false)
    (hcnt : ∀ s, s < S → svr_count d src_pool.op_array s src_pool.op_array.length = K)
    (htc : ∀ (s : Nat) (oss : lu_svr_qos), d.lod_qos.lq_svr_list[s]? = some oss →
      oss.lsq_tgt_count = K) :
    ∃ st, lod_qos_calc_rr_table d src_pool = some st ∧ st.placed = src_pool.op_count ∧
      st.op_array.length = src_pool.op_count ∧
      (∀ p, p < S * K → ∃ t, st.op_array[p]? = some t ∧ t ∈ src_pool.op_array ∧
        (OST_TGT d t).ltq_svr = p % S) ∧
      (∀ (p a b t u : Nat), a < S → b < S → a ≠ b →
        st.op_array[(p + a) % (S * K)]? = some t → st.op_array[(p + b) % (S * K)]? = some u →
        (OST_TGT d t).ltq_svr ≠ (OST_TGT d u).ltq_svr) := by
  obtain ⟨st, h1, h2, h3⟩ :=
    lod_qos_calc_rr_table_interleave hS hlen hov hlive hsent hcnt htc
  have hpos : ∀ p, p < S * K → ∃ t, st.op_array[p]? = some t ∧ t ∈ src_pool.op_array ∧
      (OST_TGT d t).ltq_svr = p % S := by
    intro p hp
    have hS0 : 0 < S := by
      rcases Nat.eq_zero_or_pos S with h | h
      · rw [h, Nat.zero_mul] at hp
        omega
      · exact h
    have hm : p / S < K := by
      apply Nat.div_lt_of_lt_mul
      exact hp
    obtain ⟨t, g1, -, g3, g4⟩ := h3.taken (p / S) (p % S) hm (Nat.mod_lt _ hS0)
      (Or.inl (Nat.mod_lt _ hS0))
    rw [Nat.div_add_mod] at g1
    exact ⟨t, g1, g3, g4⟩
  refine ⟨st, h1, by rw [h2]; exact hlen.symm, by rw [h3.len]; exact hlen.symm, hpos, ?_⟩
  intro p a b t u ha hb hab ht hu he
  have hx : (p + a) % (S * K) < S * K := by
    have := (List.getElem?_eq_some.mp ht).1
    rwa [h3.len] at this
  have hy : (p + b) % (S * K) < S * K := by
    have := (List.getElem?_eq_some.mp hu).1
    rwa [h3.len] at this
  obtain ⟨t1, g1, -, g2⟩ := hpos _ hx
  obtain ⟨u1, g3, -, g4⟩ := hpos _ hy
  rw [ht] at g1
  rw [hu] at g3
  simp only [Option.some.injEq] at g1 g3
  subst g1 g3
  rw [g2, g4, Nat.mod_mod_of_dvd _ (Dvd.intro K rfl), Nat.mod_mod_of_dvd _ (Dvd.intro K rfl)]
    at he
  exact hab (mod_shift_inj he ha hb)

theorem c37_counts (s : Nat) (oss : lu_svr_qos)
    (h : s1_sys.lod.lod_qos.lq_svr_list[s]? = some oss) : oss.lsq_tgt_count = 4 := by
  match s with
  | 0 =>
    have e : oss = ⟨10, 4⟩ := (Option.some.inj h).symm
    rw [e]
  | 1 =>
    have e : oss = ⟨11, 4⟩ := (Option.some.inj h).symm
    rw [e]
  | n + 2 => exact absurd h (by simp [s1_sys, demo_sys, demo_device])

/-- Witness of C37, scenario S1: 2 servers of 4 targets, the device-wide pool
`0 .. 7`; the table is `[0, 4, 1, 5, 2, 6, 3, 7]`. -/
theorem C37_table_interleaves_servers_witness :
    ∃ st, lod_qos_calc_rr_table s1_sys.lod s1_sys.lod.lod_pool_info = some st ∧
      st.op_array = [0, 4, 1, 5, 2, 6, 3, 7] ∧
      ∀ p, p < 2 * 4 → ∃ t, st.op_array[p]? = some t ∧
        t ∈ s1_sys.lod.lod_pool_info.op_array ∧ (OST_TGT s1_sys.lod t).ltq_svr = p % 2 := by
  obtain ⟨st, h1, -, -, h4, -⟩ := C37_table_interleaves_servers s1_sys.lod
    s1_sys.lod.lod_pool_info 2 4 rfl (by decide) (by decide) (by decide) (by decide)
    (fun s hs => by interval_cases s <;> decide) c37_counts
  have h5 : (lod_qos_calc_rr_table s1_sys.lod s1_sys.lod.lod_pool_info).map
      (fun st => st.op_array) = some [0, 4, 1, 5, 2, 6, 3, 7] := by decide
  rw [h1] at h5
  exact ⟨st, h1, Option.some.inj h5, h4⟩

theorem for_loop_inv_lt {σ : Type} (P : Nat → σ → Prop) (Q : σ → Prop)
    (body : Nat → σ → Option (σ × Bool)) (n : Nat)
    (hbody : ∀ i s s1 b, i < n → P i s → body i s = some (s1, b) →
      (b = false → P (i + 1) s1) ∧ (b = true → Q s1)) :
    ∀ fuel i s s1, i + fuel = n → P i s → for_loop body fuel i s = some s1 →
      P n s1 ∨ Q s1 := by
  intro fuel
  induction fuel with
  | zero =>
    intro i s s1 hn hP h
    simp only [for_loop, Option.some.injEq] at h
    subst h
    rw [Nat.add_zero] at hn
    subst hn
    exact Or.inl hP
  | succ f ih =>
    intro i s s1 hn hP h
    simp only [for_loop] at h
    split at h
    · contradiction
    · rename_i s2 hb
      simp only [Option.some.injEq] at h
      subst h
      exact Or.inr ((hbody i s _ true (by omega) hP hb).2 rfl)
    · rename_i s2 hb
      exact ih (i + 1) s2 s1 (by omega) ((hbody i s _ false (by omega) hP hb).1 rfl) h

theorem for_loop_heads_length_le {σ : Type} (body : Nat → σ → Option (σ × Bool)) :
    ∀ fuel i s, (for_loop_heads body fuel i s).length ≤ fuel := by
  intro fuel
  induction fuel with
  | zero => intro i s; simp [for_loop_heads]
  | succ f ih =>
    intro i s
    simp only [for_loop_heads, List.length_cons]
    split
    · rename_i s2 _
      have := ih (i + 1) s2
      omega
    · simp

/-- An invariant counted in the iterations a loop runs: `P k` holds at the head
of the `k`-th iteration run, `Q k` after `k` iterations. -/
theorem for_loop_heads_count {σ : Type} (P Q : Nat → σ → Prop)
    (body : Nat → σ → Option (σ × Bool))
    (h0 : ∀ k s, P k s → Q k s)
    (hstep : ∀ i s s1 b k, P k s → body i s = some (s1, b) →
      (b = false → P (k + 1) s1) ∧ Q (k + 1) s1) :
    ∀ fuel i s s1 k, P k s → for_loop body fuel i s = some s1 →
      Q (k + (for_loop_heads body fuel i s).length) s1 := by
  intro fuel
  induction fuel with
  | zero =>
    intro i s s1 k hP h
    simp only [for_loop, Option.some.injEq] at h
    subst h
    simp only [for_loop_heads, List.length_nil, Nat.add_zero]
    exact h0 k s hP
  | succ f ih =>
    intro i s s1 k hP h
    simp only [for_loop] at h
    simp only [for_loop_heads, List.length_cons]
    split at h
    · contradiction
    · rename_i s2 hb
      simp only [Option.some.injEq] at h
      subst h
      rw [hb]
      simp only [List.length_nil, Nat.zero_add]
      exact (hstep i s _ true k hP hb).2
    · rename_i s2 hb
      rw [hb]
      simp only
      have := ih (i + 1) s2 s1 (k + 1) ((hstep i s _ false k hP hb).1 rfl) h
      rw [show k + ((for_loop_heads body f (i + 1) s2).length + 1) =
        k + 1 + (for_loop_heads body f (i + 1) s2).length by omega]
      exact this

theorem slot_visits_succ (T : List Nat) (slot : Nat → Nat) (t i : Nat) :
    slot_visits T slot t (i + 1) =
      slot_visits T slot t i + (if T[slot i]? = some t then 1 else 0) := by
  unfold slot_visits
  rw [List.range_succ, List.countP_append]
  simp only [List.countP_cons, List.countP_nil, Nat.zero_add, decide_eq_true_eq]

theorem slot_visits_mono (T : List Nat) (slot : Nat → Nat) (t : Nat) {i j : Nat} (h : i ≤ j) :
    slot_visits T slot t i ≤ slot_visits T slot t j := by
  induction j with
  | zero =>
    have : i = 0 := by omega
    subst this
    exact Nat.le_refl _
  | succ j ih =>
    rcases Nat.lt_or_ge i (j + 1) with h1 | h1
    · rw [slot_visits_succ]
      have := ih (by omega)
      omega
    · have : i = j + 1 := by omega
      subst this
      exact Nat.le_refl _

/-- Among `n * per` consecutive values of `(b + j) mod n`, each residue is met
`per` times at most. -/
theorem countP_mod_le (n b p : Nat) :
    ∀ per, (List.range (n * per)).countP (fun j => decide ((b + j) % n = p)) ≤ per := by
  intro per
  induction per with
  | zero => simp
  | succ q ih =>
    rw [Nat.mul_succ, List.range_add, List.countP_append, List.countP_map]
    have hblock : (List.range n).countP
        ((fun j => decide ((b + j) % n = p)) ∘ (fun x => n * q + x)) ≤ 1 := by
      rw [← List.countP_map]
      have hnd : ((List.range n).map (fun x => (b + (n * q + x)) % n)).Nodup := by
        apply (List.nodup_range n).map_on
        intro x hx y hy hxy
        have hx1 : x < n := List.mem_range.mp hx
        have hy1 : y < n := List.mem_range.mp hy
        have e1 : (b + (n * q + x)) % n = (b + x) % n := by
          rw [show b + (n * q + x) = b + x + n * q by omega, Nat.add_mul_mod_self_left]
        have e2 : (b + (n * q + y)) % n = (b + y) % n := by
          rw [show b + (n * q + y) = b + y + n * q by omega, Nat.add_mul_mod_self_left]
        rw [e1, e2] at hxy
        exact mod_shift_inj hxy hx1 hy1
      have hc := List.nodup_iff_count_le_one.mp hnd p
      have e : ((List.range n).map (fun x => n * q + x)).countP
          (fun j => decide ((b + j) % n = p)) =
          ((List.range n).map (fun x => (b + (n * q + x)) % n)).count p := by
        rw [List.count, List.countP_map, List.countP_map]
        apply List.countP_congr
        intro x _
        simp only [Function.comp, decide_eq_true_eq, beq_iff_eq]
      rw [e]
      exact hc
    omega

/-- A walk of at most `n * per` steps over consecutive slots modulo `n` of a
table without repeated entries meets each target `per` times at most. -/
theorem slot_visits_le {T : List Nat} {slot : Nat → Nat} {n b per N : Nat} (t : Nat)
    (hT : T.Nodup) (hslot : ∀ j, j < N → slot j = (b + j) % n) (hN : N ≤ n * per) :
    slot_visits T slot t N ≤ per := by
  by_cases h : ∃ p : Nat, T[p]? = some t
  · obtain ⟨p, hp⟩ := h
    have h1 : slot_visits T slot t N ≤
        (List.range N).countP (fun j => decide ((b + j) % n = p)) := by
      unfold slot_visits
      apply List.countP_mono_left
      intro j hj hd
      simp only [decide_eq_true_eq] at hd ⊢
      rw [hslot j (List.mem_range.mp hj)] at hd
      exact nodup_getElem?_inj hT hd hp
    have h2 : (List.range N).countP (fun j => decide ((b + j) % n = p)) ≤
        (List.range (n * per)).countP (fun j => decide ((b + j) % n = p)) :=
      (List.range_sublist.mpr hN).countP_le _
    exact h1.trans (h2.trans (countP_mod_le n b p per))
  · have h0 : slot_visits T slot t N = 0 := by
      unfold slot_visits
      rw [List.countP_eq_zero]
      intro j _ hd
      simp only [decide_eq_true_eq] at hd
      exact h ⟨_, hd⟩
    omega

theorem rr_slots_of_room {n s0 off N : Nat} (h : s0 + off + N ≤ 2 ^ 32) (i : Nat)
    (hi : i < N) :
    ((s0 + i) % 2 ^ 32 + off) % 2 ^ 32 % n = ((s0 + off) % 2 ^ 32 % n + i) % n := by
  rw [Nat.mod_eq_of_lt (by omega : s0 + i < 2 ^ 32),
    Nat.mod_eq_of_lt (by omega : s0 + i + off < 2 ^ 32),
    Nat.mod_eq_of_lt (by omega : s0 + off < 2 ^ 32), Nat.mod_add_mod]
  congr 1
  omega

theorem placed_of_commit {a a1 : alloc_state} {x : Nat} {o : dt_object}
    (hc : a.commit x o = some a1) : a1.placed = a.placed ++ [x] := by
  obtain ⟨h1, h2, h3⟩ := alloc_state.commit_spec hc
  unfold alloc_state.placed
  rw [h1, h3]
  exact take_succ_set a.ost_indices a.stripe_idx x h2

theorem count_placed_step {x : Nat} {a a1 : alloc_state} (h : placed_step x a a1) (t : Nat) :
    a1.placed.count t ≤ a.placed.count t + (if x = t then 1 else 0) := by
  rcases h with h | h
  · rw [h]
    omega
  · rw [h, List.count_append, List.count_singleton]
    split_ifs with h1 h2 h2
    · omega
    · simp only [beq_iff_eq] at h1
      exact absurd h1 h2
    · simp only [beq_iff_eq] at h1
      exact absurd h2 h1
    · omega

theorem pool_osts_set_pool_lqr (d : lod_device) (r : pool_ref) (v : lu_qos_rr) :
    pool_osts (set_pool_lqr d r v) r = pool_osts d r := by
  cases r with
  | dev => rfl
  | named name =>
    unfold set_pool_lqr pool_osts
    simp only
    cases hf : lod_find_pool d name with
    | none =>
      simp only
      have : lod_find_pool { d with lod_qos := { d.lod_qos with lq_rr := v } } name = none := hf
      rw [this]
    | some p =>
      simp only [lod_find_pool, if_true]

theorem rr_frame.rsame (r : pool_ref) (s : lod_sys) : rr_frame r s s := ⟨rfl, rfl, rfl, rfl⟩

theorem rr_frame.rchain {r : pool_ref} {x y z : lod_sys} (h1 : rr_frame r x y)
    (h2 : rr_frame r y z) : rr_frame r x z :=
  ⟨h2.osts.trans h1.osts, h2.table.trans h1.table, h2.offset.trans h1.offset,
    h2.lo.trans h1.lo⟩

theorem rr_frame.of_lod (r : pool_ref) {x y : lod_sys} (h1 : y.lod = x.lod) (h2 : y.lo = x.lo) :
    rr_frame r x y := by
  refine ⟨?_, ?_, ?_, h2⟩ <;> rw [h1]

theorem rr_frame.of_cursor (r : pool_ref) (s : lod_sys) (v : Nat) :
    rr_frame r s (s.set_lqr r { pool_lqr s.lod r with lqr_start_idx := v }) := by
  refine ⟨?_, ?_, ?_, rfl⟩
  · exact pool_osts_set_pool_lqr _ _ _
  · show (pool_lqr (set_pool_lqr s.lod r _) r).lqr_pool = _
    rw [pool_lqr_set_pool_lqr]
  · show (pool_lqr (set_pool_lqr s.lod r _) r).lqr_offset_idx = _
    rw [pool_lqr_set_pool_lqr]

theorem lod_statfs_and_check_rr_frame {w : lod_backend} {s s1 : lod_sys} {index : Nat}
    {rc : Int} {sfs : obd_statfs} (r : pool_ref)
    (h : lod_statfs_and_check w s index = some (rc, s1, sfs)) : rr_frame r s s1 := by
  unfold lod_statfs_and_check at h
  simp only at h
  split_ifs at h <;> simp only [Option.some.injEq, Prod.mk.injEq] at h <;>
    obtain ⟨-, rfl, -⟩ := h <;> first
      | exact ⟨rfl, rfl, rfl, rfl⟩
      | (cases r with
         | dev => exact ⟨rfl, rfl, rfl, rfl⟩
         | named name =>
           refine ⟨?_, ?_, ?_, rfl⟩ <;>
             simp only [pool_lqr, pool_osts, lod_find_pool, lod_device.set_tgt, lod_sys.tick] <;>
             split <;> rfl)

theorem lod_check_and_reserve_ost_placed {w : lod_backend} {a a1 : alloc_state}
    {comp_idx ost_idx speed : Nat} {rc : Int} (r : pool_ref)
    (hr : lod_check_and_reserve_ost w a comp_idx ost_idx speed = some (rc, a1)) :
    rr_frame r a.sys a1.sys ∧ placed_step ost_idx a a1 := by
  unfold lod_check_and_reserve_ost at hr
  split at hr
  · contradiction
  rename_i lod_comp hcomp
  split at hr
  · contradiction
  rename_i rc0 s0 sfs hst
  have f0 := lod_statfs_and_check_rr_frame r hst
  have f1 : rr_frame r a.sys { s0 with lti := { s0.lti with lti_osfs := sfs } } :=
    ⟨f0.osts, f0.table, f0.offset, f0.lo⟩
  simp only at hr
  have hskip : ∀ x : Int × alloc_state,
      some (rc0, ({ a with sys := { s0 with lti := { s0.lti with lti_osfs := sfs } } } :
        alloc_state)) = some x →
      rr_frame r a.sys x.2.sys ∧ placed_step ost_idx a x.2 := by
    intro x h
    simp only [Option.some.injEq] at h
    subst h
    exact ⟨f1, Or.inl rfl⟩
  repeat' first
    | contradiction
    | exact hskip _ hr
    | split at hr
  · rename_i s2 e hd
    obtain ⟨h1, h2⟩ := lod_qos_declare_object_on_pools hd
    simp only [Option.some.injEq, Prod.mk.injEq] at hr
    obtain ⟨-, rfl⟩ := hr
    exact ⟨f1.rchain (rr_frame.of_lod r h1 h2), Or.inl rfl⟩
  · rename_i s2 o hd _ a2 hc
    obtain ⟨h1, h2⟩ := lod_qos_declare_object_on_pools hd
    simp only [Option.some.injEq, Prod.mk.injEq] at hr
    obtain ⟨-, rfl⟩ := hr
    obtain ⟨h3, h4, -⟩ := alloc_state.commit_sys hc
    refine ⟨f1.rchain (rr_frame.of_lod r (h3.trans h1) (h4.trans h2)), Or.inr ?_⟩
    have hp := placed_of_commit hc
    exact hp

/-- An iteration of the candidate loop of `lod_alloc_rr` leaves pool, table and
offset alone, and places nothing or one stripe on the target found in the slot
the cursor designates. -/
theorem lod_alloc_rr_body_placed {w : lod_backend} {r : pool_ref}
    {comp_idx stripe_count speed i : Nat} {st st1 : rr_state} {b : Bool}
    (hr : lod_alloc_rr_body w r comp_idx stripe_count speed i st = some (st1, b)) :
    rr_frame r st.a.sys st1.a.sys ∧
    (st1.a.placed = st.a.placed ∨
      ∃ x, (pool_lqr st.a.sys.lod r).lqr_pool.op_array[
          ((pool_lqr st.a.sys.lod r).lqr_start_idx +
            (pool_lqr st.a.sys.lod r).lqr_offset_idx) % 2 ^ 32 %
              (pool_osts st.a.sys.lod r).op_count]? = some x ∧
        st1.a.placed = st.a.placed ++ [x]) := by
  unfold lod_alloc_rr_body at hr
  split at hr
  · simp only [Option.some.injEq, Prod.mk.injEq] at hr
    obtain ⟨rfl, -⟩ := hr
    exact ⟨rr_frame.rsame _ _, Or.inl rfl⟩
  simp only at hr
  split at hr
  · contradiction
  split at hr
  · contradiction
  rename_i ost_idx hread
  have fc := rr_frame.of_cursor r st.a.sys
    (((pool_lqr st.a.sys.lod r).lqr_start_idx + 1) % 2 ^ 32)
  have ft : rr_frame r st.a.sys
      (st.a.sys.set_lqr r { pool_lqr st.a.sys.lod r with
        lqr_start_idx := ((pool_lqr st.a.sys.lod r).lqr_start_idx + 1) % 2 ^ 32 }).tick :=
    fc.rchain (rr_frame.of_lod r rfl rfl)
  split at hr
  · simp only [Option.some.injEq, Prod.mk.injEq] at hr
    obtain ⟨rfl, -⟩ := hr
    exact ⟨fc, Or.inl rfl⟩
  split at hr
  · simp only [Option.some.injEq, Prod.mk.injEq] at hr
    obtain ⟨rfl, -⟩ := hr
    exact ⟨ft, Or.inl rfl⟩
  split at hr
  · contradiction
  rename_i rc a1 hres
  simp only [Option.some.injEq, Prod.mk.injEq] at hr
  obtain ⟨rfl, -⟩ := hr
  obtain ⟨g1, g2⟩ := lod_check_and_reserve_ost_placed r hres
  refine ⟨ft.rchain g1, ?_⟩
  rcases g2 with g | g
  · exact Or.inl g
  · exact Or.inr ⟨ost_idx, hread, g⟩

/-- The candidate loop of a pass of `lod_alloc_rr`: each target gets at most as
many stripes as the walk of the cursor over the table meets it. -/
theorem lod_alloc_rr_loop_placed {w : lod_backend} {r : pool_ref}
    {comp_idx stripe_count speed N : Nat} {st st2 : rr_state} (t : Nat)
    (hloop : for_loop (lod_alloc_rr_body w r comp_idx stripe_count speed) N 0 st = some st2) :
    rr_frame r st.a.sys st2.a.sys ∧
    st2.a.placed.count t ≤ st.a.placed.count t +
      slot_visits (pool_lqr st.a.sys.lod r).lqr_pool.op_array
        (fun j => (((pool_lqr st.a.sys.lod r).lqr_start_idx + j) % 2 ^ 32 +
          (pool_lqr st.a.sys.lod r).lqr_offset_idx) % 2 ^ 32 %
            (pool_osts st.a.sys.lod r).op_count) t N := by
  generalize hT : (pool_lqr st.a.sys.lod r).lqr_pool.op_array = T
  generalize hs0 : (pool_lqr st.a.sys.lod r).lqr_start_idx = s0
  generalize hoff : (pool_lqr st.a.sys.lod r).lqr_offset_idx = off
  generalize hn : (pool_osts st.a.sys.lod r).op_count = n
  have key := for_loop_inv_lt
    (fun i (x : rr_state) => rr_frame r st.a.sys x.a.sys ∧
      (pool_lqr x.a.sys.lod r).lqr_start_idx % 2 ^ 32 = (s0 + i) % 2 ^ 32 ∧
      x.a.placed.count t ≤ st.a.placed.count t +
        slot_visits T (fun j => ((s0 + j) % 2 ^ 32 + off) % 2 ^ 32 % n) t i)
    (fun (x : rr_state) => rr_frame r st.a.sys x.a.sys ∧
      x.a.placed.count t ≤ st.a.placed.count t +
        slot_visits T (fun j => ((s0 + j) % 2 ^ 32 + off) % 2 ^ 32 % n) t N)
    (lod_alloc_rr_body w r comp_idx stripe_count speed) N
    (fun i x x1 b hi hP hb => by
      obtain ⟨hf, hc, hcnt⟩ := hP
      obtain ⟨g1, g2⟩ := lod_alloc_rr_body_placed hb
      obtain ⟨c1, c2⟩ := lod_alloc_rr_body_cursor hb
      refine ⟨fun hbf => ⟨hf.rchain g1, ?_, ?_⟩, fun hbt => ?_⟩
      · rw [c2 hbf]
        omega
      · rw [slot_visits_succ]
        rcases g2 with g | ⟨y, gy, g⟩
        · rw [g]
          omega
        · rw [g, List.count_append, List.count_singleton]
          rw [hf.table, hf.offset, hf.osts, hT, hoff, hn] at gy
          have e : ((pool_lqr x.a.sys.lod r).lqr_start_idx + off) % 2 ^ 32 =
              ((s0 + i) % 2 ^ 32 + off) % 2 ^ 32 := by omega
          rw [e] at gy
          simp only [gy, Option.some.injEq]
          by_cases hy : y = t
          · simp only [hy, beq_self_eq_true, if_true]
            omega
          · have hy2 : (y == t) = false := by simpa using hy
            simp only [hy2, Bool.false_eq_true, if_false, hy]
            omega
      · rw [c1 hbt]
        exact ⟨hf, hcnt.trans (Nat.add_le_add_left
          (slot_visits_mono _ _ _ (Nat.le_of_lt hi)) _)⟩)
    N 0 st st2 (Nat.zero_add _)
    ⟨rr_frame.rsame _ _, by rw [hs0]; rfl, by simp [slot_visits]⟩ hloop
  rcases key with ⟨h1, -, h3⟩ | ⟨h1, h3⟩
  · exact ⟨h1, h3⟩
  · exact ⟨h1, h3⟩

/-- One pass of `lod_alloc_rr` over a table without repeated entries, with a
cursor that does not wrap: each target gets `per_ost` stripes more at most. -/
theorem lod_alloc_rr_pass_placed {w : lod_backend} {r : pool_ref}
    {comp_idx stripe_count stripe_count_min tmp speed per : Nat} {st st1 : rr_state} {b : Bool}
    {c : lod_layout_component} (t : Nat)
    (hcomp : st.a.sys.lo.ldo_comp_entries[comp_idx]? = some c)
    (hper : ∀ p, stripes_per_ost c (pool_osts st.a.sys.lod r).op_count = some p → p = per)
    (hT : (pool_lqr st.a.sys.lod r).lqr_pool.op_array.Nodup)
    (hwrap : (pool_osts st.a.sys.lod r).op_count ∣ 2 ^ 32 ∨
      (pool_lqr st.a.sys.lod r).lqr_start_idx + (pool_lqr st.a.sys.lod r).lqr_offset_idx +
        (pool_osts st.a.sys.lod r).op_count * per ≤ 2 ^ 32)
    (hr : lod_alloc_rr_pass w r comp_idx stripe_count stripe_count_min tmp speed st =
      some (st1, b)) :
    rr_frame r st.a.sys st1.a.sys ∧ st1.a.placed.count t ≤ st.a.placed.count t + per := by
  unfold lod_alloc_rr_pass at hr
  simp only [hcomp] at hr
  cases hp : stripes_per_ost c (pool_osts st.a.sys.lod r).op_count with
  | none => simp only [hp] at hr; contradiction
  | some p =>
  rw [hper p hp] at hp
  simp only [hp] at hr
  split at hr
  · contradiction
  rename_i st2 hloop
  obtain ⟨h1, h2⟩ := lod_alloc_rr_loop_placed t hloop
  have hle : ((pool_osts st.a.sys.lod r).op_count * per) % 2 ^ 32 ≤
      (pool_osts st.a.sys.lod r).op_count * per := Nat.mod_le _ _
  have h3 := slot_visits_le t hT
    (fun j hj => by
      show (((pool_lqr st.a.sys.lod r).lqr_start_idx + j) % 2 ^ 32 +
        (pool_lqr st.a.sys.lod r).lqr_offset_idx) % 2 ^ 32 %
          (pool_osts st.a.sys.lod r).op_count =
        (((pool_lqr st.a.sys.lod r).lqr_start_idx +
          (pool_lqr st.a.sys.lod r).lqr_offset_idx) % 2 ^ 32 %
            (pool_osts st.a.sys.lod r).op_count + j) % (pool_osts st.a.sys.lod r).op_count
      rcases hwrap with hd | hs
      · exact rr_slots_of_dvd hd j
      · exact rr_slots_of_room (Nat.le_trans (Nat.add_le_add_left hle _) hs) j hj) hle
  have h4 : st2.a.placed.count t ≤ st.a.placed.count t + per := by omega
  split at hr <;> simp only [Option.some.injEq, Prod.mk.injEq] at hr <;>
    obtain ⟨rfl, -⟩ := hr
  · exact ⟨h1.rchain (rr_frame.of_cursor r _ _), h4⟩
  · exact ⟨h1, h4⟩

theorem rr_setup_lo {w : lod_backend} {s s3 : lod_sys} {flags comp_idx : Nat}
    {c : lod_layout_component} (hcomp : s.lo.ldo_comp_entries[comp_idx]? = some c)
    (h : rr_setup w s flags comp_idx = some s3) : s3.lo = s.lo := by
  obtain ⟨s1, hcalc, -, hseed⟩ := rr_setup_spec hcomp h
  have f1 := lod_qos_calc_rr_frame hcalc
  have f2 := lod_qos_ost_in_use_clear_frame0 w s1 c.llc_stripe_count
  have f3 := lod_alloc_rr_reseed_frame hseed
  rw [f3.lo, f2.lo, f1.lo]

/-- The round-robin policy over a table without repeated entries, with a cursor
that does not wrap: each target gets at most `per_ost` stripes for each pass
that is run. -/
theorem lod_alloc_rr_multiplicity {w : lod_backend} {s s3 : lod_sys}
    {stripe : List (Option dt_object)} {ost_indices : List Nat} {flags comp_idx per : Nat}
    {c : lod_layout_component} {rc : Int} {a : alloc_state} (t : Nat)
    (hcomp : s.lo.ldo_comp_entries[comp_idx]? = some c)
    (hsetup : rr_setup w s flags comp_idx = some s3)
    (hper : ∀ p, stripes_per_ost c
      (pool_osts s3.lod (lod_comp_pool_ref s.lod c.llc_pool)).op_count = some p → p = per)
    (hT : (pool_lqr s3.lod (lod_comp_pool_ref s.lod c.llc_pool)).lqr_pool.op_array.Nodup)
    (hwrap : (pool_osts s3.lod (lod_comp_pool_ref s.lod c.llc_pool)).op_count ∣ 2 ^ 32 ∨
      (pool_lqr s3.lod (lod_comp_pool_ref s.lod c.llc_pool)).lqr_start_idx +
        (pool_lqr s3.lod (lod_comp_pool_ref s.lod c.llc_pool)).lqr_offset_idx +
        (pool_osts s3.lod (lod_comp_pool_ref s.lod c.llc_pool)).op_count * per ≤ 2 ^ 32)
    (hr : lod_alloc_rr w s stripe ost_indices flags comp_idx = some (rc, a)) :
    a.placed.count t ≤
      (rr_passes w (lod_comp_pool_ref s.lod c.llc_pool) s3 stripe ost_indices flags comp_idx
        c).length * per := by
  have hlo3 := rr_setup_lo hcomp hsetup
  obtain ⟨s1, hcalc, hclr, hseed⟩ := rr_setup_spec hcomp hsetup
  unfold rr_passes
  unfold lod_alloc_rr at hr
  simp only [hcomp, hcalc, hclr, ne_eq, not_true_eq_false, if_false, hseed] at hr
  generalize hrr : lod_comp_pool_ref s.lod c.llc_pool = r at hr hper hT hwrap ⊢
  generalize htmp : (pool_lqr s3.lod r).lqr_start_idx = tmp at hr hwrap ⊢
  split at hr
  · contradiction
  rename_i st hloop
  have hloop1 : for_loop (lod_alloc_rr_pass w r comp_idx c.llc_stripe_count
      (min_stripe_count c.llc_stripe_count flags) tmp) 3 0 (rr_init s3 stripe ost_indices) =
      some st := hloop
  have key := for_loop_heads_count
    (fun k (x : rr_state) => rr_frame r s3 x.a.sys ∧
      (pool_lqr x.a.sys.lod r).lqr_start_idx = tmp ∧ x.a.placed.count t ≤ k * per)
    (fun k (x : rr_state) => x.a.placed.count t ≤ k * per)
    (lod_alloc_rr_pass w r comp_idx c.llc_stripe_count
      (min_stripe_count c.llc_stripe_count flags) tmp)
    (fun k x hP => hP.2.2)
    (fun i x x1 b k hP hb => by
      obtain ⟨hf, hc, hcnt⟩ := hP
      have hcx : x.a.sys.lo.ldo_comp_entries[comp_idx]? = some c := by
        rw [hf.lo, hlo3]
        exact hcomp
      obtain ⟨g1, g2⟩ := lod_alloc_rr_pass_placed t hcx
        (by rw [hf.osts]; exact hper) (by rw [hf.table]; exact hT)
        (by rw [hf.osts, hf.offset, hc]; exact hwrap) hb
      have hk : x1.a.placed.count t ≤ (k + 1) * per := by
        rw [Nat.add_mul, Nat.one_mul]
        omega
      exact ⟨fun hbf => ⟨hf.rchain g1, ((lod_alloc_rr_pass_cursor hb).1 hbf).1, hk⟩, hk⟩)
    3 0 (rr_init s3 stripe ost_indices) st 0
    ⟨rr_frame.rsame _ _, htmp, by simp [rr_init, alloc_state.placed]⟩ hloop1
  rw [Nat.zero_add] at key
  split at hr
  · contradiction
  · split at hr <;> simp only [Option.some.injEq, Prod.mk.injEq] at hr <;>
      obtain ⟨-, rfl⟩ := hr <;> exact key

/-- An iteration of the candidate loop of `lod_alloc_specific` places nothing,
or one stripe on the target of the slot it examines; unless it leaves the loop
it moves on to the next slot. -/
theorem lod_alloc_specific_body_placed {w : lod_backend} {osts : ost_pool}
    {lod_comp : lod_layout_component} {speed i : Nat} {st st1 : specific_state} {b : Bool}
    (hr : lod_alloc_specific_body w osts lod_comp speed i st = some (st1, b)) :
    (st1.a.placed = st.a.placed ∨
      ∃ x, osts.op_array[st.array_idx]? = some x ∧ st1.a.placed = st.a.placed ++ [x]) ∧
    (b = false → st1.array_idx = (st.array_idx + 1) % osts.op_count) := by
  unfold lod_alloc_specific_body at hr
  simp only at hr
  split at hr
  · contradiction
  rename_i ost_idx hread
  repeat' first
    | contradiction
    | (simp only [Option.some.injEq, Prod.mk.injEq] at hr
       obtain ⟨rfl, rfl⟩ := hr
       first
        | exact ⟨Or.inl rfl, fun _ => rfl⟩
        | (have hp := placed_of_commit (by assumption)
           first
            | exact ⟨Or.inr ⟨_, hread, hp⟩, fun _ => rfl⟩
            | exact ⟨Or.inr ⟨_, hread, hp⟩, fun hb => by cases hb⟩))
    | split at hr

theorem lod_alloc_specific_body_frame {w : lod_backend} {osts : ost_pool}
    {lod_comp : lod_layout_component} {speed i : Nat} {st st1 : specific_state} {b : Bool}
    (hr : lod_alloc_specific_body w osts lod_comp speed i st = some (st1, b)) :
    pool_frame st.a.sys st1.a.sys := by
  unfold lod_alloc_specific_body at hr
  simp only at hr
  repeat' first
    | contradiction
    | (simp only [Option.some.injEq, Prod.mk.injEq] at hr
       obtain ⟨rfl, rfl⟩ := hr
       first
        | exact pool_frame.same _
        | exact tick_pool_frame _
        | (apply pool_frame.chain (tick_pool_frame _)
           apply lod_statfs_and_check_pool_frame
           assumption)
        | (apply pool_frame.chain (tick_pool_frame _)
           apply pool_frame.chain (lod_statfs_and_check_pool_frame (by assumption))
           apply lod_qos_declare_object_on_pool_frame
           assumption)
        | (have hc := alloc_state.commit_sys (by assumption)
           apply pool_frame.chain (tick_pool_frame _)
           apply pool_frame.chain (lod_statfs_and_check_pool_frame (by assumption))
           apply pool_frame.chain (lod_qos_declare_object_on_pool_frame (by assumption))
           exact ⟨congrArg (fun d => d.lod_pool_info) hc.1,
             congrArg (fun d => d.lod_pools) hc.1, hc.2.1⟩))
    | split at hr

/-- The candidate loop of a pass of `lod_alloc_specific`: each target gets at
most as many stripes as the walk over the pool meets it. -/
theorem lod_alloc_specific_loop_placed {w : lod_backend} {osts : ost_pool}
    {lod_comp : lod_layout_component} {speed N : Nat} {st st2 : specific_state} (t : Nat)
    (hidx : st.array_idx < osts.op_count)
    (hloop : for_loop (lod_alloc_specific_body w osts lod_comp speed) N 0 st = some st2) :
    pool_frame st.a.sys st2.a.sys ∧
    st2.a.placed.count t ≤ st.a.placed.count t +
      slot_visits osts.op_array (fun j => (st.array_idx + j) % osts.op_count) t N := by
  have key := for_loop_inv_lt
    (fun i (x : specific_state) => pool_frame st.a.sys x.a.sys ∧
      x.array_idx = (st.array_idx + i) % osts.op_count ∧
      x.a.placed.count t ≤ st.a.placed.count t +
        slot_visits osts.op_array (fun j => (st.array_idx + j) % osts.op_count) t i)
    (fun (x : specific_state) => pool_frame st.a.sys x.a.sys ∧
      x.a.placed.count t ≤ st.a.placed.count t +
        slot_visits osts.op_array (fun j => (st.array_idx + j) % osts.op_count) t N)
    (lod_alloc_specific_body w osts lod_comp speed) N
    (fun i x x1 b hi hP hb => by
      obtain ⟨hf, hc, hcnt⟩ := hP
      obtain ⟨g1, g2⟩ := lod_alloc_specific_body_placed hb
      have g0 := lod_alloc_specific_body_frame hb
      have hstep : x1.a.placed.count t ≤ st.a.placed.count t +
          slot_visits osts.op_array (fun j => (st.array_idx + j) % osts.op_count) t (i + 1) := by
        rw [slot_visits_succ]
        rcases g1 with g | ⟨y, gy, g⟩
        · rw [g]
          omega
        · rw [g, List.count_append, List.count_singleton]
          rw [hc] at gy
          simp only [gy, Option.some.injEq]
          by_cases hy : y = t
          · simp only [hy, beq_self_eq_true, if_true]
            omega
          · have hy2 : (y == t) = false := by simpa using hy
            simp only [hy2, Bool.false_eq_true, if_false, hy]
            omega
      refine ⟨fun hbf => ⟨hf.chain g0, ?_, hstep⟩, fun _ => ⟨hf.chain g0, ?_⟩⟩
      · rw [g2 hbf, hc, Nat.mod_add_mod, Nat.add_assoc]
      · exact hstep.trans (Nat.add_le_add_left (slot_visits_mono _ _ _ hi) _))
    N 0 st st2 (Nat.zero_add _)
    ⟨pool_frame.same _, by rw [Nat.add_zero, Nat.mod_eq_of_lt hidx], by simp [slot_visits]⟩
    hloop
  rcases key with ⟨h1, -, h3⟩ | ⟨h1, h3⟩
  · exact ⟨h1, h3⟩
  · exact ⟨h1, h3⟩

/-- One pass of `lod_alloc_specific` over a pool without repeated entries: each
target gets `per_ost` stripes more at most. -/
theorem lod_alloc_specific_pass_placed {w : lod_backend} {r : pool_ref}
    {comp_idx speed per : Nat} {st st1 : specific_pass_state} {b : Bool}
    {c : lod_layout_component} (t : Nat)
    (hcomp : st.a.sys.lo.ldo_comp_entries[comp_idx]? = some c)
    (hper : ∀ p, stripes_per_ost c (pool_osts st.a.sys.lod r).op_count = some p → p = per)
    (hT : (pool_osts st.a.sys.lod r).op_array.Nodup)
    (hr : lod_alloc_specific_pass w r comp_idx speed st = some (st1, b)) :
    pool_frame st.a.sys st1.a.sys ∧ st1.a.placed.count t ≤ st.a.placed.count t + per := by
  unfold lod_alloc_specific_pass at hr
  simp only [hcomp] at hr
  cases hp : stripes_per_ost c (pool_osts st.a.sys.lod r).op_count with
  | none =>
    simp only [hp] at hr
    split at hr
    · contradiction
    · simp only [Option.some.injEq, Prod.mk.injEq] at hr
      obtain ⟨rfl, -⟩ := hr
      exact ⟨pool_frame.same _, Nat.le_add_right _ _⟩
    · contradiction
  | some p =>
  rw [hper p hp] at hp
  simp only [hp] at hr
  split at hr
  · contradiction
  · simp only [Option.some.injEq, Prod.mk.injEq] at hr
    obtain ⟨rfl, -⟩ := hr
    exact ⟨pool_frame.same _, Nat.le_add_right _ _⟩
  rename_i array_idx hfind
  have hidx : array_idx < (pool_osts st.a.sys.lod r).op_count := by
    have := (array_find_spec _ _ _ hfind).2.1
    omega
  split at hr
  · contradiction
  rename_i st2 hloop
  obtain ⟨h1, h2⟩ := lod_alloc_specific_loop_placed t hidx hloop
  have hle : ((pool_osts st.a.sys.lod r).op_count * per) % 2 ^ 32 ≤
      (pool_osts st.a.sys.lod r).op_count * per := Nat.mod_le _ _
  have h3 : slot_visits (pool_osts st.a.sys.lod r).op_array
      (fun j => (array_idx + j) % (pool_osts st.a.sys.lod r).op_count) t
      (((pool_osts st.a.sys.lod r).op_count * per) % 2 ^ 32) ≤ per :=
    slot_visits_le t hT (fun j _ => rfl) hle
  have h4 : st2.a.placed.count t ≤ st.a.placed.count t + per := Nat.le_trans h2
    (Nat.add_le_add_left h3 _)
  split at hr
  · simp only [Option.some.injEq, Prod.mk.injEq] at hr
    obtain ⟨rfl, -⟩ := hr
    exact ⟨h1, h4⟩
  · split at hr <;> simp only [Option.some.injEq, Prod.mk.injEq] at hr <;>
      obtain ⟨rfl, -⟩ := hr <;> exact ⟨h1, h4⟩

/-- The offset-anchored policy over a pool without repeated entries: each
target gets at most `per_ost` stripes for each pass that is run. -/
theorem lod_alloc_specific_multiplicity {w : lod_backend} {s : lod_sys}
    {stripe : List (Option dt_object)} {ost_indices : List Nat} {flags comp_idx per : Nat}
    {c : lod_layout_component} {rc : Int} {a : alloc_state} (t : Nat)
    (hcomp : s.lo.ldo_comp_entries[comp_idx]? = some c)
    (hper : ∀ p, stripes_per_ost c
      (pool_osts s.lod (lod_comp_pool_ref s.lod c.llc_pool)).op_count = some p → p = per)
    (hT : (pool_osts s.lod (lod_comp_pool_ref s.lod c.llc_pool)).op_array.Nodup)
    (hr : lod_alloc_specific w s stripe ost_indices flags comp_idx = some (rc, a)) :
    a.placed.count t ≤ (specific_passes w s stripe ost_indices comp_idx c).length * per := by
  obtain ⟨hlod, hlo, -, -⟩ := lod_qos_ost_in_use_clear_lod w s c.llc_stripe_count
  rw [← hlod] at hper hT
  unfold specific_passes
  unfold lod_alloc_specific at hr
  simp only [hcomp] at hr
  generalize hrr : lod_comp_pool_ref (lod_qos_ost_in_use_clear w s c.llc_stripe_count).2.lod
    c.llc_pool = r at hr hper hT ⊢
  split at hr
  · simp only [Option.some.injEq, Prod.mk.injEq] at hr
    obtain ⟨-, rfl⟩ := hr
    simp [alloc_state.placed]
  split at hr
  · contradiction
  rename_i st hloop
  have key := for_loop_heads_count
    (fun k (x : specific_pass_state) =>
      pool_frame (lod_qos_ost_in_use_clear w s c.llc_stripe_count).2 x.a.sys ∧
      x.a.placed.count t ≤ k * per)
    (fun k (x : specific_pass_state) => x.a.placed.count t ≤ k * per)
    (lod_alloc_specific_pass w r comp_idx)
    (fun k x hP => hP.2)
    (fun i x x1 b k hP hb => by
      obtain ⟨hf, hcnt⟩ := hP
      have hcx : x.a.sys.lo.ldo_comp_entries[comp_idx]? = some c := by
        rw [hf.lo, hlo]
        exact hcomp
      have hos := pool_osts_congr r hf.pool hf.pools
      obtain ⟨g1, g2⟩ := lod_alloc_specific_pass_placed t hcx
        (by rw [hos]; exact hper) (by rw [hos]; exact hT) hb
      have hk : x1.a.placed.count t ≤ (k + 1) * per := by
        rw [Nat.add_mul, Nat.one_mul]
        omega
      exact ⟨fun _ => ⟨hf.chain g1, hk⟩, hk⟩)
    3 0 _ st 0 ⟨pool_frame.same _, by simp [alloc_state.placed]⟩ hloop
  rw [Nat.zero_add] at key
  split at hr
  · simp only [Option.some.injEq, Prod.mk.injEq] at hr
    obtain ⟨-, rfl⟩ := hr
    exact key
  · split at hr
    · contradiction
    · rw [if_neg (lod_alloc_specific_tail_dead _ _)] at hr
      simp only [Option.some.injEq, Prod.mk.injEq] at hr
      obtain ⟨-, rfl⟩ := hr
      exact key

theorem lqos_recalc_weight_usable (w : lod_backend) (s : lod_sys) (idx x : Nat) :
    (OST_TGT (lqos_recalc_weight w s idx).1.lod x).ltq_usable =
      (if x = idx then false else (OST_TGT s.lod x).ltq_usable) := by
  unfold lqos_recalc_weight OST_TGT lod_device.set_tgt
  simp only [lod_sys.tick]
  split_ifs <;> rfl

/-- A draw of `lod_alloc_qos` that picks the usable target `idx` keeps the
picks distinct and marks `idx` as no longer usable. -/
theorem qos_used_inv_picked {a a0 a2 : alloc_state} {idx : Nat} {o : dt_object}
    (w : lod_backend) (h : qos_used_inv a) (hc : a0.commit idx o = some a2)
    (hp : a0.placed = a.placed) (hl : a0.sys.lod = a.sys.lod)
    (hu : ¬ (OST_TGT a.sys.lod idx).ltq_usable = false) :
    qos_used_inv { a2 with sys := (lqos_recalc_weight w a2.sys idx).1 } := by
  have e1 : a2.placed = a.placed ++ [idx] := by
    rw [placed_of_commit hc, hp]
  have e2 : a2.sys.lod = a.sys.lod := (alloc_state.commit_sys hc).1.trans hl
  have hnot : idx ∉ a.placed := fun hm => hu (h.2 idx hm)
  refine ⟨?_, fun x hx => ?_⟩
  · show a2.placed.Nodup
    rw [e1]
    exact List.Nodup.append h.1 (List.nodup_singleton _)
      (by
        intro y hy hy2
        rw [List.mem_singleton] at hy2
        subst hy2
        exact hnot hy)
  · have hx1 : x ∈ a.placed ++ [idx] := by
      rw [← e1]
      exact hx
    show (OST_TGT (lqos_recalc_weight w a2.sys idx).1.lod x).ltq_usable = false
    rw [lqos_recalc_weight_usable]
    split_ifs with hxi
    · rfl
    · rw [e2]
      rcases List.mem_append.mp hx1 with hm | hm
      · exact h.2 x hm
      · rw [List.mem_singleton] at hm
        exact absurd hm hxi

theorem lod_alloc_qos_pick_body_used {w : lod_backend} {osts : ost_pool}
    {comp_idx rand i : Nat} {st st1 : qos_pick_state} {b : Bool}
    (h : qos_used_inv st.a)
    (hr : lod_alloc_qos_pick_body w osts comp_idx rand i st = some (st1, b)) :
    qos_used_inv st1.a := by
  unfold lod_alloc_qos_pick_body at hr
  split at hr
  · rename_i idx lod_comp hidx hcomp
    simp only at hr
    repeat' first
      | contradiction
      | (simp only [Option.some.injEq, Prod.mk.injEq] at hr
         obtain ⟨rfl, -⟩ := hr
         first
          | exact h
          | (have hd := lod_qos_declare_object_on_pools (by assumption)
             exact ⟨h.1, fun x hx => by
               show (OST_TGT _ x).ltq_usable = false
               rw [hd.1]
               exact h.2 x hx⟩)
          )
      | split at hr
    rename_i s2 o hd _ a2 hc
    simp only [Option.some.injEq, Prod.mk.injEq] at hr
    obtain ⟨rfl, -⟩ := hr
    have hd1 := (lod_qos_declare_object_on_pools hd).1
    have hu : ¬ (OST_TGT st.a.sys.lod idx).ltq_usable = false := by assumption
    exact qos_used_inv_picked w h hc rfl hd1 hu
  · contradiction

theorem lod_alloc_qos_round_used {w : lod_backend} {osts : ost_pool}
    {comp_idx stripe_count n : Nat} {st st1 : qos_pick_state} {b : Bool}
    (h : qos_used_inv st.a)
    (hr : lod_alloc_qos_round w osts comp_idx stripe_count n st = some (st1, b)) :
    qos_used_inv st1.a := by
  unfold lod_alloc_qos_round at hr
  simp only at hr
  split at hr
  · simp only [Option.some.injEq, Prod.mk.injEq] at hr
    obtain ⟨rfl, -⟩ := hr
    exact h
  · split at hr
    · contradiction
    · rename_i st2 hloop
      have h2 : qos_used_inv st2.a :=
        for_loop_inv (fun x => qos_used_inv x.a) _
          (fun _ _ _ _ hx hb => lod_alloc_qos_pick_body_used hx hb) _ _ _ _ h hloop
      split at hr <;> simp only [Option.some.injEq, Prod.mk.injEq] at hr <;>
        obtain ⟨rfl, -⟩ := hr <;> exact h2

theorem lod_alloc_qos_release_body_placed {i : Nat} {a a1 : alloc_state} {b : Bool}
    (hr : lod_alloc_qos_release_body i a = some (a1, b)) : a1.placed = a.placed := by
  unfold lod_alloc_qos_release_body at hr
  split at hr
  · simp only [Option.some.injEq, Prod.mk.injEq] at hr
    obtain ⟨rfl, -⟩ := hr
    rfl
  · contradiction

/-- The QoS policy never places two stripes on one target: a target that is
picked is no longer usable in the draws that follow. -/
theorem lod_alloc_qos_placed_nodup {w : lod_backend} {s : lod_sys}
    {stripe : List (Option dt_object)} {ost_indices : List Nat} {flags comp_idx : Nat}
    {rc : Int} {a : alloc_state}
    (hr : lod_alloc_qos w s stripe ost_indices flags comp_idx = some (rc, a)) :
    a.placed.Nodup := by
  unfold lod_alloc_qos at hr
  have hz : ∀ s1 : lod_sys, (alloc_state.mk s1 stripe ost_indices 0 false).placed.Nodup := by
    intro s1
    simp [alloc_state.placed]
  have hz2 : ∀ s1 : lod_sys, qos_used_inv (alloc_state.mk s1 stripe ost_indices 0 false) := by
    intro s1
    refine ⟨hz s1, fun x hx => ?_⟩
    simp [alloc_state.placed] at hx
  split at hr
  · contradiction
  rename_i c hcomp
  simp only at hr
  split at hr
  · simp only [Option.some.injEq, Prod.mk.injEq] at hr
    obtain ⟨-, rfl⟩ := hr
    exact hz _
  split at hr
  · simp only [Option.some.injEq, Prod.mk.injEq] at hr
    obtain ⟨-, rfl⟩ := hr
    exact hz _
  split at hr
  · contradiction
  rename_i per hper
  split at hr
  · simp only [Option.some.injEq, Prod.mk.injEq] at hr
    obtain ⟨-, rfl⟩ := hr
    exact hz _
  split at hr
  · simp only [Option.some.injEq, Prod.mk.injEq] at hr
    obtain ⟨-, rfl⟩ := hr
    exact hz _
  split at hr
  · contradiction
  rename_i sc hsc
  split at hr
  · simp only [Option.some.injEq, Prod.mk.injEq] at hr
    obtain ⟨-, rfl⟩ := hr
    exact hz _
  split at hr
  · contradiction
  generalize hn : (if c.llc_stripe_count / per > sc.good_osts then (sc.good_osts * per) % 2 ^ 32
    else c.llc_stripe_count) = n at hr
  split at hr
  · contradiction
  rename_i st hloop
  have h3 : qos_used_inv st.a :=
    for_loop_inv (fun x => qos_used_inv x.a) _
      (fun _ _ _ _ hx hb => lod_alloc_qos_round_used hx hb) _ _ _ _ (hz2 _) hloop
  split at hr
  · split at hr
    · contradiction
    · rename_i a1 hrel
      have h4 : a1.placed = st.a.placed :=
        for_loop_inv (fun x => x.placed = st.a.placed) _
          (fun _ _ _ _ hx hb => (lod_alloc_qos_release_body_placed hb).trans hx) _ _ _ _
          rfl hrel
      simp only [Option.some.injEq, Prod.mk.injEq] at hr
      obtain ⟨-, rfl⟩ := hr
      show a1.placed.Nodup
      rw [h4]
      exact h3.1
  · split at hr
    · contradiction
    · split at hr <;> simp only [Option.some.injEq, Prod.mk.injEq] at hr <;>
        obtain ⟨-, rfl⟩ := hr <;> exact h3.1

theorem lod_qos_calc_rr_osts {w : lod_backend} {s s1 : lod_sys} {r : pool_ref} {rc : Int}
    (h : lod_qos_calc_rr w s r = some (rc, s1)) : pool_osts s1.lod r = pool_osts s.lod r := by
  unfold lod_qos_calc_rr at h
  simp only at h
  repeat' first
    | contradiction
    | (simp only [Option.some.injEq, Prod.mk.injEq] at h
       obtain ⟨-, rfl⟩ := h
       first
        | rfl
        | exact pool_osts_set_pool_lqr _ _ _)
    | split at h

theorem lod_alloc_rr_reseed_osts {w : lod_backend} {s s1 : lod_sys} {r : pool_ref}
    {sc scm : Nat} (h : lod_alloc_rr_reseed w s r sc scm = some s1) :
    pool_osts s1.lod r = pool_osts s.lod r := by
  unfold lod_alloc_rr_reseed at h
  simp only at h
  repeat' first
    | contradiction
    | (simp only [Option.some.injEq] at h
       subst h
       exact pool_osts_set_pool_lqr _ _ _)
    | split at h

/-- The head of `lod_alloc_rr` leaves the pool as it is. -/
theorem rr_setup_osts {w : lod_backend} {s s3 : lod_sys} {flags comp_idx : Nat}
    {c : lod_layout_component} (hcomp : s.lo.ldo_comp_entries[comp_idx]? = some c)
    (h : rr_setup w s flags comp_idx = some s3) :
    pool_osts s3.lod (lod_comp_pool_ref s.lod c.llc_pool) =
      pool_osts s.lod (lod_comp_pool_ref s.lod c.llc_pool) := by
  obtain ⟨s1, hcalc, -, hseed⟩ := rr_setup_spec hcomp h
  rw [lod_alloc_rr_reseed_osts hseed,
    (lod_qos_ost_in_use_clear_lod w s1 c.llc_stripe_count).1, lod_qos_calc_rr_osts hcalc]

/-! ## C2: multiplicity of a target with overstriping -/

/-- Counterexamples to C2, each a component with `OVERSTRIPING`.  (1) Pool of 2
targets, 4 stripes, target 1 not answering: the round-robin policy succeeds in
its second pass with the stripes `[0, 0, 0, 0]`, target 0 occurs 4 times, the
bound `⌈4/2⌉` is 2.  (2) The same through the offset-anchored policy.  (3) Six
healthy targets, 12 stripes, a cursor whose 32-bit sum wraps during the walk:
the round-robin policy succeeds in its first pass and target 1 occurs 3 times,
the bound `⌈12/6⌉` is 2.  (4) Two healthy targets and the explicit list
`[0, 0, 0, 0]`: target 0 occurs 4 times, the bound is 2. -/
theorem C2_multiplicity_bound_counterexample :
    (∃ a c s3, lod_alloc_rr c2_backend c2_sys (List.replicate 4 none) (List.replicate 4 0) 0 0 =
        some (0, a) ∧
      c2_sys.lo.ldo_comp_entries[0]? = some c ∧
      c.llc_pattern &&& LOV_PATTERN_OVERSTRIPING ≠ 0 ∧
      (a.ost_indices.take a.stripe_idx).count 0 = 4 ∧
      overstripe_bound c.llc_stripe_count (pool_osts c2_sys.lod pool_ref.dev).op_count = 2 ∧
      rr_setup c2_backend c2_sys 0 0 = some s3 ∧
      (rr_passes c2_backend pool_ref.dev s3 (List.replicate 4 none) (List.replicate 4 0) 0 0
        c).length = 2) ∧
    (∃ a, lod_alloc_specific c2_backend c2_offset_sys (List.replicate 4 none)
        (List.replicate 4 0) 0 0 = some (0, a) ∧
      c2_offset_comp.llc_pattern &&& LOV_PATTERN_OVERSTRIPING ≠ 0 ∧
      (a.ost_indices.take a.stripe_idx).count 0 = 4 ∧
      overstripe_bound c2_offset_comp.llc_stripe_count
        (pool_osts c2_offset_sys.lod pool_ref.dev).op_count = 2 ∧
      (specific_passes c2_backend c2_offset_sys (List.replicate 4 none) (List.replicate 4 0) 0
        c2_offset_comp).length = 2) ∧
    (∃ a s3, lod_alloc_rr (healthy_backend false) c2_wrap_sys (List.replicate 12 none)
        (List.replicate 12 0) 0 0 = some (0, a) ∧
      c2_wrap_comp.llc_pattern &&& LOV_PATTERN_OVERSTRIPING ≠ 0 ∧
      (a.ost_indices.take a.stripe_idx).count 1 = 3 ∧
      overstripe_bound c2_wrap_comp.llc_stripe_count
        (pool_osts c2_wrap_sys.lod pool_ref.dev).op_count = 2 ∧
      rr_setup (healthy_backend false) c2_wrap_sys 0 0 = some s3 ∧
      (pool_lqr s3.lod pool_ref.dev).lqr_pool.op_array = [0, 3, 1, 4, 2, 5] ∧
      (rr_passes (healthy_backend false) pool_ref.dev s3 (List.replicate 12 none)
        (List.replicate 12 0) 0 0 c2_wrap_comp).length = 1) ∧
    (∃ a, lod_alloc_ost_list (healthy_backend false) c2_list_sys (List.replicate 4 none)
        (List.replicate 4 0) 0 = some (0, a) ∧
      c2_list_comp.llc_pattern &&& LOV_PATTERN_OVERSTRIPING ≠ 0 ∧
      (a.ost_indices.take a.stripe_idx).count 0 = 4 ∧
      overstripe_bound c2_list_comp.llc_stripe_count
        (pool_osts c2_list_sys.lod pool_ref.dev).op_count = 2) := by
  refine ⟨?_, ?_, ?_, ?_⟩
  · have h : (lod_alloc_rr c2_backend c2_sys (List.replicate 4 none) (List.replicate 4 0) 0
        0).map (fun r => (r.1, (r.2.ost_indices.take r.2.stripe_idx).count 0)) =
        some (0, 4) := by
      decide
    obtain ⟨⟨rc, a⟩, h1, h2⟩ := Option.map_eq_some'.mp h
    simp only [Prod.mk.injEq] at h2
    obtain ⟨rfl, h3⟩ := h2
    have g : (rr_setup c2_backend c2_sys 0 0).map (fun s3 =>
        (rr_passes c2_backend pool_ref.dev s3 (List.replicate 4 none) (List.replicate 4 0) 0 0
          c2_comp).length) = some 2 := by
      decide
    obtain ⟨s3, g1, g2⟩ := Option.map_eq_some'.mp g
    exact ⟨a, c2_comp, s3, h1, rfl, by decide, h3, by decide, g1, g2⟩
  · have h : (lod_alloc_specific c2_backend c2_offset_sys (List.replicate 4 none)
        (List.replicate 4 0) 0 0).map
        (fun r => (r.1, (r.2.ost_indices.take r.2.stripe_idx).count 0)) = some (0, 4) := by
      decide
    obtain ⟨⟨rc, a⟩, h1, h2⟩ := Option.map_eq_some'.mp h
    simp only [Prod.mk.injEq] at h2
    obtain ⟨rfl, h3⟩ := h2
    exact ⟨a, h1, by decide, h3, by decide, by decide⟩
  · have h : (lod_alloc_rr (healthy_backend false) c2_wrap_sys (List.replicate 12 none)
        (List.replicate 12 0) 0 0).map
        (fun r => (r.1, (r.2.ost_indices.take r.2.stripe_idx).count 1)) = some (0, 3) := by
      decide
    obtain ⟨⟨rc, a⟩, h1, h2⟩ := Option.map_eq_some'.mp h
    simp only [Prod.mk.injEq] at h2
    obtain ⟨rfl, h3⟩ := h2
    have g : (rr_setup (healthy_backend false) c2_wrap_sys 0 0).map (fun s3 =>
        ((pool_lqr s3.lod pool_ref.dev).lqr_pool.op_array,
          (rr_passes (healthy_backend false) pool_ref.dev s3 (List.replicate 12 none)
            (List.replicate 12 0) 0 0 c2_wrap_comp).length)) = some ([0, 3, 1, 4, 2, 5], 1) := by
      decide
    obtain ⟨s3, g1, g2⟩ := Option.map_eq_some'.mp g
    simp only [Prod.mk.injEq] at g2
    exact ⟨a, s3, h1, by decide, h3, by decide, g1, g2.1, g2.2⟩
  · have h : (lod_alloc_ost_list (healthy_backend false) c2_list_sys (List.replicate 4 none)
        (List.replicate 4 0) 0).map
        (fun r => (r.1, (r.2.ost_indices.take r.2.stripe_idx).count 0)) = some (0, 4) := by
      decide
    obtain ⟨⟨rc, a⟩, h1, h2⟩ := Option.map_eq_some'.mp h
    simp only [Prod.mk.injEq] at h2
    obtain ⟨rfl, h3⟩ := h2
    exact ⟨a, h1, by decide, h3, by decide⟩

/-- C2 (amended): for a component with `OVERSTRIPING` and a stripe count
`0 < count < 2^32`, and every target index `t`.  The explicit-list policy, when
it succeeds, reserves `t` exactly as often as it occurs among the first `count`
entries of the list.  The QoS policy reserves `t` at most once (through
`lqos_recalc_weight`, which marks the picked target non-usable).  The round-robin
policy, over a table without repeated entries and with a cursor whose walk does
not wrap at `2^32` (the pool size divides `2^32`, or `lqr_start_idx +
lqr_offset_idx + pool_count * ⌈count / pool_count⌉ ≤ 2^32` after the head of the
function), runs at most 3 passes and reserves `t` at most `⌈count /
pool_count⌉` times for each pass it runs.  The offset-anchored policy, over a
pool without repeated entries, runs at most 3 passes and reserves `t` at most
`⌈count / pool_count⌉` times for each pass it runs.  So the bound `⌈count /
pool_count⌉` holds for the QoS policy, and for the two walking policies when
the first pass completes the allocation. -/
theorem C2_multiplicity_per_pass (w : lod_backend) (s : lod_sys)
    (stripe : List (Option dt_object)) (ost_indices : List Nat) (flags comp_idx : Nat)
    (c : lod_layout_component) (rc : Int) (a : alloc_state) (t : Nat)
    (hcomp : s.lo.ldo_comp_entries[comp_idx]? = some c)
    (hover : c.llc_pattern &&& LOV_PATTERN_OVERSTRIPING ≠ 0)
    (hcount : 0 < c.llc_stripe_count) (hc32 : c.llc_stripe_count < 2 ^ 32) :
    (lod_alloc_ost_list w s stripe ost_indices comp_idx = some (0, a) →
      a.placed.count t = (c.llc_ostlist.op_array.take c.llc_stripe_count).count t) ∧
    (lod_alloc_qos w s stripe ost_indices flags comp_idx = some (rc, a) →
      a.placed.count t ≤ 1) ∧
    (∀ s3, rr_setup w s flags comp_idx = some s3 →
      (pool_lqr s3.lod (lod_comp_pool_ref s.lod c.llc_pool)).lqr_pool.op_array.Nodup →
      ((pool_osts s.lod (lod_comp_pool_ref s.lod c.llc_pool)).op_count ∣ 2 ^ 32 ∨
        (pool_lqr s3.lod (lod_comp_pool_ref s.lod c.llc_pool)).lqr_start_idx +
          (pool_lqr s3.lod (lod_comp_pool_ref s.lod c.llc_pool)).lqr_offset_idx +
          (pool_osts s.lod (lod_comp_pool_ref s.lod c.llc_pool)).op_count *
            overstripe_bound c.llc_stripe_count
              (pool_osts s.lod (lod_comp_pool_ref s.lod c.llc_pool)).op_count ≤ 2 ^ 32) →
      lod_alloc_rr w s stripe ost_indices flags comp_idx = some (rc, a) →
      (rr_passes w (lod_comp_pool_ref s.lod c.llc_pool) s3 stripe ost_indices flags comp_idx
        c).length ≤ 3 ∧
      a.placed.count t ≤
        (rr_passes w (lod_comp_pool_ref s.lod c.llc_pool) s3 stripe ost_indices flags comp_idx
          c).length *
          overstripe_bound c.llc_stripe_count
            (pool_osts s.lod (lod_comp_pool_ref s.lod c.llc_pool)).op_count) ∧
    ((pool_osts s.lod (lod_comp_pool_ref s.lod c.llc_pool)).op_array.Nodup →
      lod_alloc_specific w s stripe ost_indices flags comp_idx = some (rc, a) →
      (specific_passes w s stripe ost_indices comp_idx c).length ≤ 3 ∧
      a.placed.count t ≤
        (specific_passes w s stripe ost_indices comp_idx c).length *
          overstripe_bound c.llc_stripe_count
            (pool_osts s.lod (lod_comp_pool_ref s.lod c.llc_pool)).op_count) := by
  have hper : ∀ n p, stripes_per_ost c n = some p → p = overstripe_bound c.llc_stripe_count n := by
    intro n p hp
    have h := (stripes_per_ost_ceil hp hcount hc32).1
    rw [if_pos hover] at h
    exact h
  refine ⟨?_, ?_, ?_, ?_⟩
  · intro hr
    obtain ⟨p, hp, hidx, h⟩ := lod_alloc_ost_list_shift hcomp hr
    show (a.ost_indices.take a.stripe_idx).count t = _
    rw [hidx, take_eq_rotate_of_shift hp h]
    exact (List.rotate_perm _ p).count_eq t
  · intro hr
    exact List.nodup_iff_count_le_one.mp (lod_alloc_qos_placed_nodup hr) t
  · intro s3 hsetup hT hwrap hr
    have hos := rr_setup_osts hcomp hsetup
    refine ⟨for_loop_heads_length_le _ _ _ _, ?_⟩
    exact lod_alloc_rr_multiplicity t hcomp hsetup (by rw [hos]; exact hper _)
      hT (by rw [hos]; exact hwrap) hr
  · intro hT hr
    refine ⟨for_loop_heads_length_le _ _ _ _, ?_⟩
    exact lod_alloc_specific_multiplicity t hcomp (hper _) hT hr

/-- Witness of the amended C2.  Scenario S3 (explicit list `[0, 1, 0, 1]`):
target 0 gets two stripes.  QoS over four healthy targets, 2 stripes: target 0
gets one.  Round-robin over the targets 0 and 1 with target 1 not answering, 4
stripes: two passes are run and target 0 gets `4 = 2 * ⌈4/2⌉` stripes.
Offset-anchored over four healthy targets, 2 stripes from offset 1: one pass,
target 1 gets one stripe. -/
theorem C2_multiplicity_per_pass_witness :
    (∃ a, lod_alloc_ost_list (healthy_backend false) s3_sys (List.replicate 4 none)
        (List.replicate 4 0) 0 = some (0, a) ∧
      a.placed.count 0 = ([0, 1, 0, 1].take 4).count 0) ∧
    (∃ a, lod_alloc_qos (healthy_backend true) c32_sys (List.replicate 2 none)
        (List.replicate 2 0) 0 0 = some (0, a) ∧ a.stripe_idx = 2 ∧ a.placed.count 0 ≤ 1) ∧
    (∃ a s3, rr_setup c2_backend c2_sys 0 0 = some s3 ∧
      lod_alloc_rr c2_backend c2_sys (List.replicate 4 none) (List.replicate 4 0) 0 0 =
        some (0, a) ∧
      (pool_lqr s3.lod pool_ref.dev).lqr_pool.op_array = [0, 1] ∧
      (rr_passes c2_backend pool_ref.dev s3 (List.replicate 4 none) (List.replicate 4 0) 0 0
        c2_comp).length = 2 ∧
      overstripe_bound 4 (pool_osts c2_sys.lod pool_ref.dev).op_count = 2 ∧
      a.placed.count 0 ≤
        (rr_passes c2_backend pool_ref.dev s3 (List.replicate 4 none) (List.replicate 4 0) 0 0
          c2_comp).length * overstripe_bound 4 (pool_osts c2_sys.lod pool_ref.dev).op_count) ∧
    (∃ a, lod_alloc_specific (healthy_backend false) c32_sys (List.replicate 2 none)
        (List.replicate 2 0) 0 0 = some (0, a) ∧
      (specific_passes (healthy_backend false) c32_sys (List.replicate 2 none)
        (List.replicate 2 0) 0 c32_comp).length = 1 ∧
      overstripe_bound 2 (pool_osts c32_sys.lod pool_ref.dev).op_count = 1 ∧
      a.placed.count 1 ≤
        (specific_passes (healthy_backend false) c32_sys (List.replicate 2 none)
          (List.replicate 2 0) 0 c32_comp).length *
          overstripe_bound 2 (pool_osts c32_sys.lod pool_ref.dev).op_count) := by
  refine ⟨?_, ?_, ?_, ?_⟩
  · have h : (lod_alloc_ost_list (healthy_backend false) s3_sys (List.replicate 4 none)
        (List.replicate 4 0) 0).map (fun r => r.1) = some 0 := by decide
    obtain ⟨⟨rc, a⟩, h1, h2⟩ := Option.map_eq_some'.mp h
    simp only at h2
    subst h2
    exact ⟨a, h1, (C2_multiplicity_per_pass (healthy_backend false) s3_sys _ _ 0 0 s3_comp 0 a 0
      rfl (by decide) (by decide) (by decide)).1 h1⟩
  · have h : (lod_alloc_qos (healthy_backend true) c32_sys (List.replicate 2 none)
        (List.replicate 2 0) 0 0).map (fun r => (r.1, r.2.stripe_idx)) = some (0, 2) := by
      decide
    obtain ⟨⟨rc, a⟩, h1, h2⟩ := Option.map_eq_some'.mp h
    simp only [Prod.mk.injEq] at h2
    obtain ⟨rfl, h3⟩ := h2
    exact ⟨a, h1, h3, (C2_multiplicity_per_pass (healthy_backend true) c32_sys _ _ 0 0 c32_comp
      0 a 0 rfl (by decide) (by decide) (by decide)).2.1 h1⟩
  · have h : (lod_alloc_rr c2_backend c2_sys (List.replicate 4 none) (List.replicate 4 0) 0
        0).map (fun r => r.1) = some 0 := by decide
    obtain ⟨⟨rc, a⟩, h1, h2⟩ := Option.map_eq_some'.mp h
    simp only at h2
    subst h2
    have g : (rr_setup c2_backend c2_sys 0 0).map (fun s3 =>
        ((pool_lqr s3.lod pool_ref.dev).lqr_pool.op_array,
          (rr_passes c2_backend pool_ref.dev s3 (List.replicate 4 none) (List.replicate 4 0) 0 0
            c2_comp).length)) = some ([0, 1], 2) := by
      decide
    obtain ⟨s3, g1, g2⟩ := Option.map_eq_some'.mp g
    simp only [Prod.mk.injEq] at g2
    obtain ⟨g2, g3⟩ := g2
    exact ⟨a, s3, g1, h1, g2, g3, by decide,
      ((C2_multiplicity_per_pass c2_backend c2_sys _ _ 0 0 c2_comp 0 a 0 rfl (by decide)
        (by decide) (by decide)).2.2.1 s3 g1
        (by
          show (pool_lqr s3.lod pool_ref.dev).lqr_pool.op_array.Nodup
          rw [g2]
          decide)
        (Or.inl (by decide)) h1).2⟩
  · have h : (lod_alloc_specific (healthy_backend false) c32_sys (List.replicate 2 none)
        (List.replicate 2 0) 0 0).map (fun r => r.1) = some 0 := by decide
    obtain ⟨⟨rc, a⟩, h1, h2⟩ := Option.map_eq_some'.mp h
    simp only at h2
    subst h2
    exact ⟨a, h1, by decide, by decide,
      ((C2_multiplicity_per_pass (healthy_backend false) c32_sys _ _ 0 0 c32_comp 0 a 1 rfl
        (by decide) (by decide) (by decide)).2.2.2 (by decide) h1).2⟩

end Lod
